import Mathlib

/-!
# The CHC model checker of `libsolidity/formal/CHC.cpp`

A shallow embedding of the Horn-clause encoder: the analyzer object becomes a
record `CHC`, its methods become state transformers in the `Visitor` monad
(a state monad whose failure case is a violated `solAssert`), and the calls
it makes on the solver adapter and on the error reporter are logged in the
record, oldest first.

Only `CHC.cpp` is part of the sources.  The classes it builds on
(`smt::Expression`, `smt::SymbolicVariable`, `smt::EncodingContext`, the
`SMTEncoder` base class and the typed AST) are modelled from the
specification; every such definition says so in its doc comment.
-/

set_option autoImplicit false
set_option linter.unusedTactic false
set_option linter.unreachableTactic false
set_option linter.unusedVariables false

namespace smt

/-- Modelled from the spec: the sort of a value (§3 Sort).  Function sorts are
kept apart in `FunctionSort`, because `smtSortAbstractFunction` never returns
one for a variable. -/
inductive SortPointer where
  | Bool
  | Int
  | Array (domain range : SortPointer)
  | Tuple (name : String)
  deriving DecidableEq, Repr

/-- Modelled from the spec: `Function(domain, codomain)` of §3 Sort, the sort of
a predicate symbol. -/
structure FunctionSort where
  domain : List SortPointer
  codomain : SortPointer
  deriving DecidableEq, Repr

/-- Modelled from the spec: `smt::CheckResult`, the five answers of the solver
adapter (§4.5). -/
inductive CheckResult where
  | SATISFIABLE
  | UNSATISFIABLE
  | UNKNOWN
  | CONFLICTING
  | ERROR
  deriving DecidableEq, Repr

/-- Modelled from the spec: the term algebra of §3 Expression, a tagged term.
A symbol is kept as its unique name together with its SSA index; the textual
name is synthesised by `Expression.name`, and the sort of a symbol is that of
the variable it comes from.  Applying a predicate symbol has a tag of its
own. -/
inductive Expression where
  | boolLit (value : Bool)
  | intLit (value : Nat)
  | symbol (uniqueName : String) (index : Nat)
  | op (operator : String) (arguments : List Expression)
  | apply (predicate : String) (index : Nat) (arguments : List Expression)
  deriving Repr

mutual
/-- Equality of expressions is decidable. -/
def Expression.decEq : (a b : Expression) → Decidable (a = b)
  | .boolLit x, b =>
    match b with
    | .boolLit y => if h : x = y then isTrue (by rw [h]) else isFalse (fun h2 => h (by cases h2; rfl))
    | .intLit _ => isFalse nofun
    | .symbol _ _ => isFalse nofun
    | .op _ _ => isFalse nofun
    | .apply _ _ _ => isFalse nofun
  | .intLit x, b =>
    match b with
    | .boolLit _ => isFalse nofun
    | .intLit y => if h : x = y then isTrue (by rw [h]) else isFalse (fun h2 => h (by cases h2; rfl))
    | .symbol _ _ => isFalse nofun
    | .op _ _ => isFalse nofun
    | .apply _ _ _ => isFalse nofun
  | .symbol n i, b =>
    match b with
    | .boolLit _ => isFalse nofun
    | .intLit _ => isFalse nofun
    | .symbol n2 i2 =>
      if h : n = n2 ∧ i = i2 then isTrue (by rw [h.1, h.2])
      else isFalse (fun h2 => h (by cases h2; exact ⟨rfl, rfl⟩))
    | .op _ _ => isFalse nofun
    | .apply _ _ _ => isFalse nofun
  | .op n xs, b =>
    match b with
    | .boolLit _ => isFalse nofun
    | .intLit _ => isFalse nofun
    | .symbol _ _ => isFalse nofun
    | .op n2 ys =>
      match Expression.decEqList xs ys with
      | isTrue hl => if h : n = n2 then isTrue (by rw [h, hl]) else isFalse (fun h2 => h (by cases h2; rfl))
      | isFalse hl => isFalse (fun h2 => hl (by cases h2; rfl))
    | .apply _ _ _ => isFalse nofun
  | .apply n i xs, b =>
    match b with
    | .boolLit _ => isFalse nofun
    | .intLit _ => isFalse nofun
    | .symbol _ _ => isFalse nofun
    | .op _ _ => isFalse nofun
    | .apply n2 i2 ys =>
      match Expression.decEqList xs ys with
      | isTrue hl =>
        if h : n = n2 ∧ i = i2 then isTrue (by rw [h.1, h.2, hl])
        else isFalse (fun h2 => h (by cases h2; exact ⟨rfl, rfl⟩))
      | isFalse hl => isFalse (fun h2 => hl (by cases h2; rfl))
/-- Equality of argument vectors is decidable. -/
def Expression.decEqList : (xs ys : List Expression) → Decidable (xs = ys)
  | [], [] => isTrue rfl
  | [], _ :: _ => isFalse nofun
  | _ :: _, [] => isFalse nofun
  | x :: xs, y :: ys =>
    match Expression.decEq x y with
    | isTrue h =>
      match Expression.decEqList xs ys with
      | isTrue hl => isTrue (by rw [h, hl])
      | isFalse hl => isFalse (fun h2 => hl (by cases h2; rfl))
    | isFalse h => isFalse (fun h2 => h (by cases h2; rfl))
end

instance : DecidableEq Expression := Expression.decEq

namespace Expression

/-- Modelled from the spec: the canonical name of an expression (§3), used for
rule naming.  A symbol at SSA index `i` is called `uniqueName_i`. -/
def name : Expression → String
  | boolLit true => "true"
  | boolLit false => "false"
  | intLit n => toString n
  | symbol u i => u ++ "_" ++ toString i
  | op o _ => o
  | apply p i _ => p ++ "_" ++ toString i

/-- Modelled from the spec: conjunction, `operator&&` of the term algebra. -/
def and (a b : Expression) : Expression := op "and" [a, b]

/-- Modelled from the spec: negation, `operator!`. -/
def not (a : Expression) : Expression := op "not" [a]

/-- Modelled from the spec: equality, `operator==`. -/
def eq (a b : Expression) : Expression := op "=" [a, b]

/-- Modelled from the spec: integer comparison, `operator>`. -/
def gt (a b : Expression) : Expression := op ">" [a, b]

/-- Modelled from the spec: `Expression::implies(a, b)`. -/
def implies (a b : Expression) : Expression := op "implies" [a, b]

end Expression

/-- Modelled from the spec: a Symbolic Variable (§3), a name plus a sort plus
a current SSA index. -/
structure SymbolicVariable where
  uniqueName : String
  sort : SortPointer
  index : Nat
  deriving DecidableEq, Repr

namespace SymbolicVariable

/-- Modelled from the spec: `value_at(i)`.  The spec makes an index above the
current one an error; the analyzer only ever asks for index 0. -/
def valueAtIndex (v : SymbolicVariable) (i : Nat) : Expression :=
  .symbol v.uniqueName i

/-- Modelled from the spec: `current_value()`, the term at the current index. -/
def currentValue (v : SymbolicVariable) : Expression := v.valueAtIndex v.index

/-- Modelled from the spec: `increase_index()`. -/
def increaseIndex (v : SymbolicVariable) : SymbolicVariable := { v with index := v.index + 1 }

/-- Modelled from the spec: `reset_index()`. -/
def resetIndex (v : SymbolicVariable) : SymbolicVariable := { v with index := 0 }

end SymbolicVariable

/-- Modelled from the spec: a Symbolic Function Variable (§3), a named, sorted
predicate symbol ("block") with its own SSA index. -/
structure SymbolicFunctionVariable where
  uniqueName : String
  sort : FunctionSort
  index : Nat
  deriving DecidableEq, Repr

namespace SymbolicFunctionVariable

/-- Modelled from the spec: application of the predicate symbol, at its
current index, to an argument vector. -/
def app (b : SymbolicFunctionVariable) (arguments : List Expression) : Expression :=
  .apply b.uniqueName b.index arguments

/-- Modelled from the spec: `increase_index()` on a predicate symbol. -/
def increaseIndex (b : SymbolicFunctionVariable) : SymbolicFunctionVariable :=
  { b with index := b.index + 1 }

end SymbolicFunctionVariable

/-- Modelled from the spec: the calls the Solver Adapter receives (§4.5):
`register_relation`, `add_rule` and `query`. -/
inductive SolverCall where
  | registerRelation (uniqueName : String) (index : Nat) (sort : FunctionSort)
  | addRule (rule : Expression) (name : String)
  | query (goal : Expression)
  deriving DecidableEq, Repr

end smt


/-! ## The typed AST (§6.1) -/

/-- Modelled from the spec: a source span, `langutil::SourceLocation`. -/
structure SourceLocation where
  start : Int
  stop : Int
  deriving DecidableEq, Repr

/-- Modelled from the spec: a variable declaration of the typed AST.  `sort`
stands for `smtSortAbstractFunction(*type())`. -/
structure VariableDeclaration where
  id : Nat
  name : String
  sort : smt.SortPointer
  isStateVariable : Bool
  hasReferenceOrMappingType : Bool
  deriving DecidableEq, Repr

/-- Modelled from the spec: `FunctionCallKind`, the kind the front end gives to
a call expression. -/
inductive FunctionCallKind where
  | Unset
  | FunctionCall
  | TypeConversion
  | StructConstructorCall
  deriving DecidableEq, Repr

/-- Modelled from the spec: `FunctionType::Kind`, the kind of the called
function (§6.1). -/
inductive FunctionTypeKind where
  | Internal
  | External
  | DelegateCall
  | BareCall
  | BareCallCode
  | BareDelegateCall
  | BareStaticCall
  | Creation
  | Send
  | Transfer
  | KECCAK256
  | Selfdestruct
  | Revert
  | ECRecover
  | SHA256
  | RIPEMD160
  | Log0
  | Event
  | SetGas
  | SetValue
  | BlockHash
  | AddMod
  | MulMod
  | ArrayPush
  | ArrayPop
  | ObjectCreation
  | Assert
  | Require
  | ABIEncode
  | ABIDecode
  | GasLeft
  | MetaType
  deriving DecidableEq, Repr

/-- Modelled from the spec: what `functionCallToDefinition` resolves a call to,
reduced to the parts of the callee that the analyzer reads at a call site. -/
structure CalleeRef where
  id : Nat
  returnParameters : List VariableDeclaration
  deriving DecidableEq, Repr

/-- Modelled from the spec: the value of a literal, a number or a boolean. -/
inductive LiteralValue where
  | number (value : Nat)
  | boolean (value : Bool)
  deriving DecidableEq, Repr

/-- The term a literal stands for. -/
def LiteralValue.toExpression : LiteralValue → smt.Expression
  | .number n => .intLit n
  | .boolean b => .boolLit b

/-- Modelled from the spec: `Type::Category`, the category of the type that the
type checker has annotated an expression with. -/
inductive TypeCategory where
  | Address
  | Integer
  | RationalNumber
  | StringLiteral
  | Bool
  | FixedPoint
  | Array
  | FixedBytes
  | Contract
  | Struct
  | Function
  | Enum
  | Tuple
  | Mapping
  | TypeType
  | Modifier
  | Magic
  | Module
  | InaccessibleDynamic
  deriving DecidableEq, Repr

/-- Modelled from the spec: expressions of the typed AST.  Every node has the
stable identity `id` and the category of its annotated type,
`annotation().type->category()`; a call carries its classified kinds, its
resolved callee and its arguments. -/
inductive Expression where
  | Literal (id : Nat) (category : TypeCategory) (value : LiteralValue)
  | Identifier (id : Nat) (category : TypeCategory) (declaration : VariableDeclaration)
  | Assignment (id : Nat) (category : TypeCategory) (leftHandSide : VariableDeclaration)
      (rightHandSide : Expression)
  | UnaryOperation (id : Nat) (category : TypeCategory) (operator : String)
      (subExpression : Expression)
  | BinaryOperation (id : Nat) (category : TypeCategory) (operator : String)
      (left right : Expression)
  | FunctionCall (id : Nat) (category : TypeCategory) (location : SourceLocation)
      (kind : FunctionCallKind) (functionKind : FunctionTypeKind) (callee : Option CalleeRef)
      (arguments : List Expression)
  deriving Repr

namespace Expression

/-- The identity of an expression node. -/
def id : Expression → Nat
  | Literal i _ _ => i
  | Identifier i _ _ => i
  | Assignment i _ _ _ => i
  | UnaryOperation i _ _ _ => i
  | BinaryOperation i _ _ _ _ => i
  | FunctionCall i _ _ _ _ _ _ => i

/-- The category of the annotated type of an expression,
`annotation().type->category()`. -/
def category : Expression → TypeCategory
  | Literal _ t _ => t
  | Identifier _ t _ => t
  | Assignment _ t _ _ => t
  | UnaryOperation _ t _ _ => t
  | BinaryOperation _ t _ _ _ => t
  | FunctionCall _ t _ _ _ _ _ => t

/-- The source span of a call; other expressions carry none in this model. -/
def location : Expression → SourceLocation
  | FunctionCall _ _ l _ _ _ _ => l
  | _ => ⟨0, 0⟩

/-- The arguments of a call. -/
def arguments : Expression → List Expression
  | FunctionCall _ _ _ _ _ _ args => args
  | _ => []

/-- The callee a call resolves to, `functionCallToDefinition`. -/
def callee : Expression → Option CalleeRef
  | FunctionCall _ _ _ _ _ c _ => c
  | _ => none

end Expression

/-- Modelled from the spec: statements of the typed AST (§6.1). -/
inductive Statement where
  | Block (id : Nat) (statements : List Statement)
  | IfStatement (id : Nat) (condition : Expression) (trueStatement : Statement)
      (falseStatement : Option Statement)
  | WhileStatement (id : Nat) (condition : Expression) (body : Statement) (isDoWhile : Bool)
  | ForStatement (id : Nat) (initializationExpression : Option Statement)
      (condition : Option Expression) (loopExpression : Option Statement) (body : Statement)
  | Break (id : Nat)
  | Continue (id : Nat)
  | ExpressionStatement (id : Nat) (expression : Expression)
  | VariableDeclarationStatement (id : Nat) (declaration : VariableDeclaration)
      (initialValue : Option Expression)
  deriving Repr

namespace Statement

/-- The identity of a statement node. -/
def id : Statement → Nat
  | Block i _ => i
  | IfStatement i _ _ _ => i
  | WhileStatement i _ _ _ => i
  | ForStatement i _ _ _ _ => i
  | Break i => i
  | Continue i => i
  | ExpressionStatement i _ => i
  | VariableDeclarationStatement i _ _ => i

end Statement

/-- Modelled from the spec: the kind token of a function definition. -/
inductive Token where
  | Function
  | Constructor
  | Fallback
  | Receive
  deriving DecidableEq, Repr

/-- Modelled from the spec: `TokenTraits::toString` on the function kinds. -/
def TokenTraits.toString : Token → String
  | .Function => "function"
  | .Constructor => "constructor"
  | .Fallback => "fallback"
  | .Receive => "receive"

/-- Modelled from the spec: a function definition of the typed AST (§6.1).
`scope` is the identity of the contract that declares the function and `body`
is absent for a function that is not implemented. -/
structure FunctionDefinition where
  id : Nat
  name : String
  kind : Token
  isPublic : Bool
  parameters : List VariableDeclaration
  returnParameters : List VariableDeclaration
  localVariables : List VariableDeclaration
  body : Option Statement
  scope : Nat
  location : SourceLocation
  deriving Repr

namespace FunctionDefinition

/-- A constructor is a function whose kind token is `constructor`. -/
def isConstructor (f : FunctionDefinition) : Bool := f.kind == Token.Constructor

/-- A function is implemented when it has a body. -/
def isImplemented (f : FunctionDefinition) : Bool := f.body.isSome

end FunctionDefinition

/-- Modelled from the spec: the kind of a contract definition. -/
inductive ContractKind where
  | Interface
  | Contract
  | Library
  deriving DecidableEq, Repr

/-- Modelled from the spec: a contract as it occurs in a linearized base list:
its identity and the functions it defines. -/
structure BaseContract where
  id : Nat
  name : String
  definedFunctions : List FunctionDefinition
  deriving Repr

/-- The constructor a contract declares, if any. -/
def BaseContract.constructor (b : BaseContract) : Option FunctionDefinition :=
  b.definedFunctions.find? FunctionDefinition.isConstructor

/-- Modelled from the spec: a contract definition of the typed AST (§6.1).
`baseContracts` are the linearized bases that follow the contract itself. -/
structure ContractDefinition where
  id : Nat
  name : String
  contractKind : ContractKind
  stateVariablesIncludingInherited : List VariableDeclaration
  definedFunctions : List FunctionDefinition
  baseContracts : List BaseContract
  location : SourceLocation
  deriving Repr

namespace ContractDefinition

/-- The contract is a library. -/
def isLibrary (c : ContractDefinition) : Bool := c.contractKind == ContractKind.Library

/-- The contract is an interface. -/
def isInterface (c : ContractDefinition) : Bool := c.contractKind == ContractKind.Interface

/-- The contract seen as the first entry of its own linearization. -/
def toBase (c : ContractDefinition) : BaseContract := ⟨c.id, c.name, c.definedFunctions⟩

/-- The linearized base contracts, `annotation().linearizedBaseContracts`, the
contract itself first. -/
def linearizedBaseContracts (c : ContractDefinition) : List BaseContract :=
  c.toBase :: c.baseContracts

/-- The constructor the contract declares, if any. -/
def constructor (c : ContractDefinition) : Option FunctionDefinition :=
  c.definedFunctions.find? FunctionDefinition.isConstructor

end ContractDefinition

/-- Modelled from the spec: a source unit, its contracts in source order and
whether the experimental SMT checker is switched on for it. -/
structure SourceUnit where
  contracts : List ContractDefinition
  experimentalSMTChecker : Bool
  deriving Repr

/-- Modelled from the spec: the node a block predicate is created for, either a
function definition or any other node, of which only the identity is used. -/
inductive ASTNode where
  | function (definition : FunctionDefinition)
  | node (id : Nat)
  deriving Repr

/-! ## The Encoding Context (§4.2) -/

namespace smt

/-- Modelled from the spec: the zero value of a sort, used by `set_zero_value`. -/
def zeroValue : SortPointer → Expression
  | .Bool => .boolLit false
  | .Int => .intLit 0
  | .Array _ r => .op "const_array" [zeroValue r]
  | .Tuple _ => .op "tuple_zero" []

/-- Modelled from the spec: the Encoding Context (§3, §4.2): the registry of
symbolic variables, keyed by declaration and holding the current SSA index, the
registry of expression values, the stack of assumption scopes (innermost
first, each scope held as one conjunction) and the accumulation flag. -/
structure EncodingContext where
  m_variables : List (VariableDeclaration × Nat)
  m_expressions : List (Nat × Nat)
  m_assertions : List Expression
  m_accumulateAssertions : Bool
  deriving DecidableEq, Repr

namespace EncodingContext

/-- Modelled from the spec: whether a declaration is in the registry. -/
def knownVariable (c : EncodingContext) (decl : VariableDeclaration) : Bool :=
  c.m_variables.any fun p => p.1.id == decl.id

/-- The current SSA index of a declaration; a variable not yet in the registry
is created lazily at index 0. -/
def index (c : EncodingContext) (decl : VariableDeclaration) : Nat :=
  match c.m_variables.find? fun p => p.1.id == decl.id with
  | some p => p.2
  | none => 0

/-- Modelled from the spec: `variable(decl)`, the Symbolic Variable of a source
declaration. -/
def variableOf (c : EncodingContext) (decl : VariableDeclaration) : SymbolicVariable :=
  ⟨decl.name ++ "_" ++ toString decl.id, decl.sort, c.index decl⟩

/-- Store a new SSA index for a declaration, entering it in the registry when it
is not there. -/
def setIndex (c : EncodingContext) (decl : VariableDeclaration) (i : Nat) : EncodingContext :=
  if c.knownVariable decl then
    { c with m_variables := c.m_variables.map fun p => if p.1.id == decl.id then (p.1, i) else p }
  else
    { c with m_variables := c.m_variables ++ [(decl, i)] }

/-- Modelled from the spec: create the Symbolic Variable of a declaration
unless it exists. -/
def createVariable (c : EncodingContext) (decl : VariableDeclaration) : EncodingContext :=
  if c.knownVariable decl then c else c.setIndex decl 0

/-- Modelled from the spec: `increase_index()` on the variable of a declaration. -/
def increaseIndex (c : EncodingContext) (decl : VariableDeclaration) : EncodingContext :=
  c.setIndex decl (c.index decl + 1)

/-- Modelled from the spec: `reset_index()` on the variable of a declaration. -/
def resetIndex (c : EncodingContext) (decl : VariableDeclaration) : EncodingContext :=
  c.setIndex decl 0

/-- Modelled from the spec: `reset_variables(pred)` bumps the index of every
variable matching `pred`. -/
def resetVariables (c : EncodingContext) (pred : VariableDeclaration → Bool) : EncodingContext :=
  { c with m_variables := c.m_variables.map fun p => if pred p.1 then (p.1, p.2 + 1) else p }

/-- Modelled from the spec: forget what is known of every variable. -/
def resetAllVariables (c : EncodingContext) : EncodingContext :=
  c.resetVariables fun _ => true

/-- Modelled from the spec: `assertions()`, the conjunction of the currently
active assumptions, `true` when there is none. -/
def assertions (c : EncodingContext) : Expression :=
  match c.m_assertions with
  | [] => .boolLit true
  | a :: _ => a

/-- Modelled from the spec: `add_assertion(e)` adds `e` to the assumptions of the
current scope. -/
def addAssertion (c : EncodingContext) (e : Expression) : EncodingContext :=
  match c.m_assertions with
  | [] => { c with m_assertions := [e] }
  | a :: rest => { c with m_assertions := e.and a :: rest }

/-- Modelled from the spec: `push_solver()` opens an assumption scope; without
accumulation the new scope starts empty. -/
def pushSolver (c : EncodingContext) : EncodingContext :=
  { c with m_assertions :=
      (if c.m_accumulateAssertions then c.assertions else .boolLit true) :: c.m_assertions }

/-- Modelled from the spec: `pop_solver()` closes the innermost scope, whose
assumptions disappear. -/
def popSolver (c : EncodingContext) : EncodingContext :=
  { c with m_assertions := c.m_assertions.tail }

/-- Modelled from the spec: per-function reset of the context: all variables
are forgotten, expression values and assumptions are dropped. -/
def reset (c : EncodingContext) : EncodingContext :=
  { c.resetAllVariables with m_expressions := [], m_assertions := [] }

/-- Modelled from the spec: `clear()` empties the context. -/
def clear (c : EncodingContext) : EncodingContext :=
  { c with m_variables := [], m_expressions := [], m_assertions := [] }

/-- Modelled from the spec: `set_zero_value()` emits the assumption that the
index-0 term equals the zero of the sort. -/
def setZeroValue (c : EncodingContext) (decl : VariableDeclaration) : EncodingContext :=
  c.addAssertion (((c.variableOf decl).valueAtIndex 0).eq (zeroValue decl.sort))

/-- Whether an expression node has a symbolic value. -/
def knownExpression (c : EncodingContext) (e : Nat) : Bool :=
  c.m_expressions.any fun p => p.1 == e

/-- The SSA index of the symbolic value of an expression node. -/
def expressionIndex (c : EncodingContext) (e : Nat) : Nat :=
  match c.m_expressions.find? fun p => p.1 == e with
  | some p => p.2
  | none => 0

/-- Modelled from the spec: the current symbolic value of an expression node
(§6.2). -/
def expression (c : EncodingContext) (e : Nat) : SymbolicVariable :=
  ⟨"expr_" ++ toString e, .Int, c.expressionIndex e⟩

/-- Modelled from the spec: give an expression node a fresh symbolic value: a
new one at index 0, or the next index when it has one. -/
def createExpression (c : EncodingContext) (e : Nat) : EncodingContext :=
  if c.knownExpression e then
    { c with m_expressions := c.m_expressions.map fun p => if p.1 == e then (p.1, p.2 + 1) else p }
  else
    { c with m_expressions := c.m_expressions ++ [(e, 0)] }

end EncodingContext

/-- Modelled from the spec: the Solver Adapter (§4.5) as seen by the analyzer:
the calls received so far, oldest first, and the answer the back end gives to a
goal after those calls. -/
structure CHCSolverInterface where
  calls : List SolverCall
  answer : List SolverCall → Expression → CheckResult

end smt

/-- Modelled from the spec: the diagnostics reporter (§6.4), as the list of
warnings it received, oldest first. -/
structure ErrorReporter where
  warnings : List (SourceLocation × String)
  deriving DecidableEq, Repr

/-! ## The analyzer -/

/-- The state of the analyzer object: the members of `CHC` and of its base
class `SMTEncoder` that `CHC.cpp` reads or writes, together with the
collaborators it owns. -/
structure CHC where
  m_context : smt.EncodingContext
  m_interface : smt.CHCSolverInterface
  m_outerErrorReporter : ErrorReporter
  m_currentContract : Option ContractDefinition
  m_pathConditions : List smt.Expression
  m_genesisPredicate : Option smt.SymbolicFunctionVariable
  m_interfacePredicate : Option smt.SymbolicFunctionVariable
  m_errorPredicate : Option smt.SymbolicFunctionVariable
  m_constructorPredicate : Option smt.SymbolicFunctionVariable
  m_summaries : List (Nat × smt.SymbolicFunctionVariable)
  m_stateSorts : List smt.SortPointer
  m_stateVariables : List VariableDeclaration
  m_verificationTargets : List Expression
  m_safeAssertions : List Expression
  m_functionErrors : List (FunctionDefinition × smt.Expression)
  m_targets : List smt.Expression
  m_error : smt.SymbolicVariable
  m_currentBlock : smt.Expression
  m_currentFunction : Option FunctionDefinition
  m_breakDest : Option smt.SymbolicFunctionVariable
  m_continueDest : Option smt.SymbolicFunctionVariable
  m_unknownFunctionCallSeen : Bool
  m_blockCounter : Nat

/-- The outcome of running a method: it returns a value, or a `solAssert` (or a
dereference of a null member) aborts the analysis; either way the analyzer is
left in some state. -/
inductive Result (α : Type) where
  | ok (value : α) (state : CHC)
  | abort (message : String) (state : CHC)

namespace Result

/-- The analyzer state a result leaves behind. -/
def state {α : Type} : Result α → CHC
  | ok _ s => s
  | abort _ s => s

/-- Whether the method returned normally. -/
def isOk {α : Type} : Result α → Bool
  | ok _ _ => true
  | abort _ _ => false

end Result

/-- A method of the analyzer: a function from the state before to the outcome. -/
def Visitor (α : Type) : Type := CHC → Result α

namespace Visitor

/-- Return a value without touching the state. -/
def ret {α : Type} (a : α) : Visitor α := fun s => .ok a s

/-- Run `m`, then `f` on its value; an abort of `m` ends the run. -/
def andThen {α β : Type} (m : Visitor α) (f : α → Visitor β) : Visitor β := fun s =>
  match m s with
  | .ok a s1 => f a s1
  | .abort msg s1 => .abort msg s1

instance : Monad Visitor where
  pure := Visitor.ret
  bind := Visitor.andThen

/-- Read a component of the state. -/
def read {α : Type} (f : CHC → α) : Visitor α := fun s => .ok (f s) s

/-- Change the state. -/
def update (f : CHC → CHC) : Visitor Unit := fun s => .ok () (f s)

/-- Dereference a member that may be null. -/
def deref {α : Type} (f : CHC → Option α) (what : String) : Visitor α := fun s =>
  match f s with
  | some a => .ok a s
  | none => .abort ("null dereference: " ++ what) s

/-- Run `f` on every element of a list, in order. -/
def forEach {α : Type} (f : α → Visitor Unit) : List α → Visitor Unit
  | [] => ret ()
  | a :: rest => andThen (f a) fun _ => forEach f rest

end Visitor

/-- The assertion macro `solAssert`: abort unless the condition holds. -/
def solAssert (condition : Bool) (message : String) : Visitor Unit := fun s =>
  if condition then .ok () s else .abort message s

namespace smt.CHCSolverInterface

/-- Modelled from the spec: `register_relation(predicate_symbol)`. -/
def registerRelation (i : CHCSolverInterface) (b : SymbolicFunctionVariable) : CHCSolverInterface :=
  { i with calls := i.calls ++ [.registerRelation b.uniqueName b.index b.sort] }

/-- Modelled from the spec: `add_rule(expr, name)`. -/
def addRule (i : CHCSolverInterface) (rule : Expression) (name : String) : CHCSolverInterface :=
  { i with calls := i.calls ++ [.addRule rule name] }

/-- Modelled from the spec: `query(goal)`, the answer of the back end and the
adapter after the call. -/
def query (i : CHCSolverInterface) (goal : Expression) : CheckResult × CHCSolverInterface :=
  (i.answer i.calls goal, { i with calls := i.calls ++ [.query goal] })

end smt.CHCSolverInterface

/-- Modelled from the spec: `warning(location, message)` of the reporter. -/
def ErrorReporter.warning (r : ErrorReporter) (location : SourceLocation) (message : String) :
    ErrorReporter :=
  { r with warnings := r.warnings ++ [(location, message)] }

/-- The call `m_functionErrors.emplace(function, error)`: the pair is entered
unless the function, identified by its `id`, already has one. -/
def emplaceFunctionError (errors : List (FunctionDefinition × smt.Expression))
    (function : FunctionDefinition) (error : smt.Expression) :
    List (FunctionDefinition × smt.Expression) :=
  if errors.any (fun p => p.1.id == function.id) then errors else errors ++ [(function, error)]

/-- The call `m_summaries.emplace(function, block)`: the pair is entered unless
the function, identified by its `id`, already has one. -/
def emplaceSummary (summaries : List (Nat × smt.SymbolicFunctionVariable))
    (function : FunctionDefinition) (block : smt.SymbolicFunctionVariable) :
    List (Nat × smt.SymbolicFunctionVariable) :=
  if summaries.any (fun p => p.1 == function.id) then summaries
  else summaries ++ [(function.id, block)]

/-! ### The part of the base class `SMTEncoder` that the analyzer calls -/

namespace SMTEncoder

open Visitor

/-- Modelled from the spec: `expr(e)`, the current symbolic value of an
expression node (§6.2). -/
def expr (e : Expression) : Visitor smt.Expression :=
  read fun s => (s.m_context.expression e.id).currentValue

/-- Modelled from the spec: the current value of a declared variable. -/
def currentValue (decl : VariableDeclaration) : Visitor smt.Expression :=
  read fun s => (s.m_context.variableOf decl).currentValue

/-- Modelled from the spec: the conjunction of the conditions of the enclosing
branches, `true` outside any branch. -/
def currentPathConditions : Visitor smt.Expression :=
  read fun s =>
    match s.m_pathConditions with
    | [] => .boolLit true
    | c :: _ => c

/-- Modelled from the spec: make sure a declaration has a Symbolic Variable. -/
def createVariable (decl : VariableDeclaration) : Visitor Unit :=
  update fun s => { s with m_context := s.m_context.createVariable decl }

/-- Modelled from the spec: give an expression node a symbolic value and assume
that it equals `value`. -/
def defineExpr (e : Expression) (value : smt.Expression) : Visitor Unit :=
  update fun s =>
    let c := s.m_context.createExpression e.id
    { s with m_context := c.addAssertion ((c.expression e.id).currentValue.eq value) }

/-- Modelled from the spec: an assignment gives the variable a fresh SSA index
and assumes that the new value equals `value`. -/
def assignment (decl : VariableDeclaration) (value : smt.Expression) : Visitor Unit :=
  update fun s =>
    let c := s.m_context.increaseIndex decl
    { s with m_context := c.addAssertion ((c.variableOf decl).currentValue.eq value) }

/-- Modelled from the spec: the base-class `clearIndices`: the SSA indices of the
state variables of the contract and, when a function is given, of its
parameters, return parameters and local variables go back to 0. -/
def clearIndices (contract : Option ContractDefinition) (function : Option FunctionDefinition) :
    Visitor Unit := do
  solAssert contract.isSome ""
  update fun s =>
    let stateVars := match contract with
      | some c => c.stateVariablesIncludingInherited
      | none => []
    let functionVars := match function with
      | some f => f.parameters ++ f.returnParameters ++ f.localVariables
      | none => []
    { s with m_context := (stateVars ++ functionVars).foldl (fun c v => c.resetIndex v) s.m_context }

/-- Modelled from the spec: `resetStateVariables`, forget the values of the state
variables by advancing their SSA indices. -/
def resetStateVariables : Visitor Unit :=
  update fun s =>
    { s with m_context := s.m_context.resetVariables fun v => v.isStateVariable }

/-- Modelled from the spec: the base-class handling of a call expression: the
call node receives a symbolic value of its own. -/
def endVisitFunctionCall (funCall : Expression) : Visitor Unit :=
  update fun s => { s with m_context := s.m_context.createExpression funCall.id }

/-- Modelled from the spec: after a call that resolves to a definition, the
return parameters of the callee have Symbolic Variables and, when there is
exactly one, the call node takes its value. -/
def createReturnedExpressions (funCall : Expression) : Visitor Unit :=
  match funCall.callee with
  | none => pure ()
  | some funDef => do
    forEach createVariable funDef.returnParameters
    (match funDef.returnParameters with
      | [param] => do
        let value ← currentValue param
        defineExpr funCall value
      | _ => pure ())

/-- Modelled from the spec: the base-class `endVisit(FunctionDefinition)` has no
effect on the state modelled here. -/
def endVisitFunctionDefinition (_function : FunctionDefinition) : Visitor Unit :=
  pure ()

/-- Modelled from the spec: the base-class `endVisit(ContractDefinition)` forgets
all variables and leaves the contract. -/
def endVisitContractDefinition (_contract : ContractDefinition) : Visitor Unit :=
  update fun s =>
    { s with m_context := s.m_context.resetAllVariables, m_currentContract := none }

/-- Modelled from the spec: the functions a contract visit walks: the functions
the contract defines, then those of its bases that no earlier one overrides
(by name). -/
def resolvedFunctions (c : ContractDefinition) : List FunctionDefinition :=
  c.baseContracts.foldl
    (fun resolved base =>
      base.definedFunctions.foldl
        (fun resolved f =>
          if f.isConstructor || resolved.any (fun g => g.name == f.name) then resolved
          else resolved ++ [f])
        resolved)
    c.definedFunctions

end SMTEncoder

namespace CHC

open Visitor

/-- The method `CHC::addRule`. -/
def addRule (_rule : smt.Expression) (_ruleName : String) : Visitor Unit :=
  update fun s => { s with m_interface := s.m_interface.addRule _rule _ruleName }

/-- The method `CHC::query`: ask the solver and report on the answer. -/
def query (_query : smt.Expression) (_location : SourceLocation) : Visitor Bool := fun s =>
  let (result, solver) := s.m_interface.query _query
  let s1 := { s with m_interface := solver }
  match result with
  | .SATISFIABLE => .ok false s1
  | .UNSATISFIABLE => .ok true s1
  | .UNKNOWN => .ok false s1
  | .CONFLICTING =>
    .ok false { s1 with m_outerErrorReporter := (s1.m_outerErrorReporter.warning _location
      "At least two SMT solvers provided conflicting answers. Results might not be sound.") }
  | .ERROR =>
    .ok false { s1 with m_outerErrorReporter := (s1.m_outerErrorReporter.warning _location
      "Error trying to invoke SMT solver.") }

/-- The method `CHC::uniquePrefix`. -/
def uniquePrefix : Visitor String := fun s =>
  .ok (toString s.m_blockCounter) { s with m_blockCounter := s.m_blockCounter + 1 }

/-- The method `CHC::createSymbolicBlock`: a new predicate symbol, registered
with the solver as a relation. -/
def createSymbolicBlock (_sort : smt.FunctionSort) (_name : String) :
    Visitor smt.SymbolicFunctionVariable := do
  let block : smt.SymbolicFunctionVariable := ⟨_name, _sort, 0⟩
  update fun s => { s with m_interface := s.m_interface.registerRelation block }
  pure block

/-- The method `CHC::createErrorBlock`: refresh the error predicate and register
the new instance. -/
def createErrorBlock : Visitor Unit := do
  let errorPredicate ← deref (·.m_errorPredicate) "m_errorPredicate"
  let refreshed := errorPredicate.increaseIndex
  update fun s => { s with m_errorPredicate := some refreshed }
  update fun s => { s with m_interface := s.m_interface.registerRelation refreshed }

/-- The method `CHC::connectBlocks`. -/
def connectBlocks (_from _to : smt.Expression) (_constraints : smt.Expression := .boolLit true) :
    Visitor Unit := do
  let assertions ← read fun s => s.m_context.assertions
  let edge := smt.Expression.implies ((_from.and assertions).and _constraints) _to
  addRule edge (_from.name ++ "_to_" ++ _to.name)

/-- The method `CHC::stateVariablesAtIndex`. -/
def stateVariablesAtIndex (_index : Nat) : Visitor (List smt.Expression) := do
  solAssert (← read (·.m_currentContract.isSome)) ""
  read fun s => s.m_stateVariables.map fun var => (s.m_context.variableOf var).valueAtIndex _index

/-- The method `CHC::initialStateVariables`. -/
def initialStateVariables : Visitor (List smt.Expression) :=
  stateVariablesAtIndex 0

/-- The method `CHC::currentStateVariables`. -/
def currentStateVariables : Visitor (List smt.Expression) := do
  solAssert (← read (·.m_currentContract.isSome)) ""
  read fun s => s.m_stateVariables.map fun var => (s.m_context.variableOf var).currentValue

/-- The method `CHC::currentFunctionVariables`. -/
def currentFunctionVariables : Visitor (List smt.Expression) := do
  let function ← deref (·.m_currentFunction) "m_currentFunction"
  let initInputExprs ← read fun s =>
    function.parameters.map fun var => (s.m_context.variableOf var).valueAtIndex 0
  let mutableInputExprs ← read fun s =>
    function.parameters.map fun var => (s.m_context.variableOf var).currentValue
  let returnExprs ← read fun s =>
    function.returnParameters.map fun var => (s.m_context.variableOf var).currentValue
  let errorValue ← read fun s => s.m_error.currentValue
  let initialState ← initialStateVariables
  let currentState ← currentStateVariables
  pure ([errorValue] ++ initialState ++ initInputExprs ++ currentState ++ mutableInputExprs
    ++ returnExprs)

/-- The method `CHC::currentBlockVariables`. -/
def currentBlockVariables : Visitor (List smt.Expression) := do
  let paramExprs ← read fun s =>
    match s.m_currentFunction with
    | some function => function.localVariables.map fun var => (s.m_context.variableOf var).currentValue
    | none => []
  let functionVariables ← currentFunctionVariables
  pure (functionVariables ++ paramExprs)

/-- The method `CHC::predicate(block)`: the block applied to the current block
variables. -/
def predicate (_block : smt.SymbolicFunctionVariable) : Visitor smt.Expression := do
  let arguments ← currentBlockVariables
  pure (_block.app arguments)

/-- The method `CHC::predicate(block, arguments)`. -/
def predicateWith (_block : smt.SymbolicFunctionVariable) (_arguments : List smt.Expression) :
    Visitor smt.Expression :=
  pure (_block.app _arguments)

/-- Modelled from the spec: `genesis()`, the nullary initial fact; the method is
defined in the class header, which is not part of the sources. -/
def genesis : Visitor smt.Expression := do
  let genesisPredicate ← deref (·.m_genesisPredicate) "m_genesisPredicate"
  pure (genesisPredicate.app [])

/-- The method `CHC::interface`. -/
def interface : Visitor smt.Expression := do
  let paramExprs ← read fun s =>
    s.m_stateVariables.map fun var => (s.m_context.variableOf var).currentValue
  let interfacePredicate ← deref (·.m_interfacePredicate) "m_interfacePredicate"
  pure (interfacePredicate.app paramExprs)

/-- The method `CHC::error()`. -/
def error : Visitor smt.Expression := do
  let errorPredicate ← deref (·.m_errorPredicate) "m_errorPredicate"
  pure (errorPredicate.app [])

/-- The method `CHC::summary`. -/
def summary (_function : FunctionDefinition) : Visitor smt.Expression := do
  let errorValue ← read fun s => s.m_error.currentValue
  let initialState ← initialStateVariables
  let parameters ← read fun s =>
    _function.parameters.map fun var => (s.m_context.variableOf var).valueAtIndex 0
  let currentState ← currentStateVariables
  let returns ← read fun s =>
    _function.returnParameters.map fun var => (s.m_context.variableOf var).currentValue
  let block ← deref (fun s => (s.m_summaries.find? fun p => p.1 == _function.id).map (·.2))
    "m_summaries.at"
  pure (block.app ([errorValue] ++ initialState ++ parameters ++ currentState ++ returns))

/-- The method `CHC::interfaceSort`. -/
def interfaceSort : Visitor smt.FunctionSort :=
  read fun s => ⟨s.m_stateSorts, .Bool⟩

/-- The method `CHC::constructorSort`. -/
def constructorSort : Visitor smt.FunctionSort :=
  interfaceSort

/-- The method `CHC::sort(FunctionDefinition)`. -/
def sort (_function : FunctionDefinition) : Visitor smt.FunctionSort :=
  read fun s =>
    let inputSorts := _function.parameters.map (·.sort)
    let outputSorts := _function.returnParameters.map (·.sort)
    ⟨[smt.SortPointer.Int] ++ s.m_stateSorts ++ inputSorts ++ s.m_stateSorts ++ inputSorts
      ++ outputSorts, .Bool⟩

/-- The method `CHC::sort(ASTNode)`. -/
def sortNode (_node : ASTNode) : Visitor smt.FunctionSort :=
  match _node with
  | .function funDef => sort funDef
  | .node _ => do
    let function ← deref (·.m_currentFunction) "m_currentFunction"
    let fSort ← sort function
    let varSorts := function.localVariables.map (·.sort)
    pure ⟨fSort.domain ++ varSorts, .Bool⟩

/-- The method `CHC::summarySort`. -/
def summarySort (_function : FunctionDefinition) : Visitor smt.FunctionSort :=
  read fun s =>
    let inputSorts := _function.parameters.map (·.sort)
    let outputSorts := _function.returnParameters.map (·.sort)
    ⟨[smt.SortPointer.Int] ++ s.m_stateSorts ++ inputSorts ++ s.m_stateSorts ++ outputSorts,
      .Bool⟩

/-- The method `CHC::predicateName`. -/
def predicateName (_node : ASTNode) : Visitor String :=
  read fun s =>
    match _node with
    | .function funDef =>
      TokenTraits.toString funDef.kind ++ "_" ++ funDef.name ++ "_" ++ toString funDef.id
    | .node id =>
      match s.m_currentFunction with
      | some function =>
        if function.name.isEmpty then toString id else function.name ++ "_" ++ toString id
      | none => toString id

/-- The method `CHC::createBlock`. -/
def createBlock (_node : ASTNode) (pfx : String) : Visitor smt.SymbolicFunctionVariable := do
  let blockSort ← sortNode _node
  let counter ← uniquePrefix
  let nodeName ← predicateName _node
  createSymbolicBlock blockSort ("block_" ++ counter ++ "_" ++ pfx ++ nodeName)

/-- The method `CHC::createSummaryBlock`. -/
def createSummaryBlock (_node : FunctionDefinition) : Visitor smt.SymbolicFunctionVariable := do
  let blockSort ← summarySort _node
  let counter ← uniquePrefix
  let nodeName ← predicateName (.function _node)
  createSymbolicBlock blockSort ("summary_" ++ counter ++ "_" ++ nodeName)

/-- The method `CHC::clearIndices`: after the base-class reset, every state
variable moves to SSA index 1, index 0 being the value at the beginning of the
transaction. -/
def clearIndices (_contract : Option ContractDefinition) (_function : Option FunctionDefinition) :
    Visitor Unit := do
  SMTEncoder.clearIndices _contract _function
  update fun s =>
    { s with m_context := s.m_stateVariables.foldl (fun c var => c.increaseIndex var) s.m_context }

/-- The method `CHC::setCurrentBlock`. -/
def setCurrentBlock (_block : smt.SymbolicFunctionVariable)
    (_arguments : Option (List smt.Expression)) : Visitor Unit := do
  update fun s => { s with m_context := s.m_context.popSolver }
  solAssert (← read (·.m_currentContract.isSome)) ""
  clearIndices (← read (·.m_currentContract)) (← read (·.m_currentFunction))
  update fun s => { s with m_context := s.m_context.pushSolver }
  match _arguments with
  | some arguments => do
    let block ← predicateWith _block arguments
    update fun s => { s with m_currentBlock := block }
  | none => do
    let block ← predicate _block
    update fun s => { s with m_currentBlock := block }

/-- The method `CHC::reset`. -/
def reset : Visitor Unit :=
  update fun s =>
    { s with
      m_stateSorts := []
      m_stateVariables := []
      m_verificationTargets := []
      m_safeAssertions := []
      m_functionErrors := []
      m_summaries := []
      m_unknownFunctionCallSeen := false
      m_breakDest := none
      m_continueDest := none
      m_error := s.m_error.resetIndex
      m_targets := [] }

/-- The method `CHC::eraseKnowledge`. -/
def eraseKnowledge : Visitor Unit := do
  SMTEncoder.resetStateVariables
  update fun s =>
    { s with m_context := s.m_context.resetVariables fun v => v.hasReferenceOrMappingType }

/-- The method `CHC::shouldVisit(ContractDefinition)`. -/
def shouldVisitContract (_contract : ContractDefinition) : Bool :=
  if _contract.isLibrary || _contract.isInterface then false else true

/-- The method `CHC::shouldVisit(FunctionDefinition)`. -/
def shouldVisitFunction (_function : FunctionDefinition) : Bool :=
  _function.isImplemented

end CHC

namespace Expression

/-- The call kind the front end gave to a call, `annotation().kind`. -/
def kind : Expression → FunctionCallKind
  | FunctionCall _ _ _ k _ _ _ => k
  | _ => .Unset

/-- The kind of the function type of the called expression. -/
def functionKind : Expression → FunctionTypeKind
  | FunctionCall _ _ _ _ k _ _ => k
  | _ => .Internal

end Expression

namespace SMTEncoder

open Visitor

/-- Modelled from the spec: entering a contract: the contract becomes current,
the context is reset and an assumption scope is opened, the state variables
get Symbolic Variables and the indices are cleared. -/
def initContract (_contract : ContractDefinition) : Visitor Unit := do
  update fun s => { s with m_currentContract := some _contract }
  update fun s => { s with m_context := s.m_context.reset.pushSolver }
  forEach createVariable _contract.stateVariablesIncludingInherited
  CHC.clearIndices (some _contract) none

/-- Modelled from the spec: entering a function (§3 Lifecycle): the context is
reset and an assumption scope is opened, path conditions are dropped, the
state variables and the variables of the function get Symbolic Variables and
the indices are cleared. -/
def initFunction (_function : FunctionDefinition) : Visitor Unit := do
  solAssert (← read (·.m_currentContract.isSome)) ""
  update fun s => { s with m_context := s.m_context.reset.pushSolver, m_pathConditions := [] }
  let contract ← read (·.m_currentContract)
  forEach createVariable
    (match contract with
      | some c => c.stateVariablesIncludingInherited
      | none => [])
  forEach createVariable
    (_function.parameters ++ _function.returnParameters ++ _function.localVariables)
  CHC.clearIndices contract (some _function)

end SMTEncoder

namespace CHC

open Visitor

/-- The method `CHC::predicate(FunctionCall)`: the summary of the callee applied
at a call site. -/
def predicateCall (_funCall : Expression) : Visitor smt.Expression :=
  match _funCall.callee with
  | none => pure (.boolLit true)
  | some function => do
    update fun s => { s with m_error := s.m_error.increaseIndex }
    let errorValue ← read fun s => s.m_error.currentValue
    let stateBefore ← currentStateVariables
    let arguments ← read fun s =>
      _funCall.arguments.map fun arg => (s.m_context.expression arg.id).currentValue
    update fun s =>
      { s with m_context := s.m_stateVariables.foldl (fun c var => c.increaseIndex var) s.m_context }
    let stateAfter ← currentStateVariables
    forEach SMTEncoder.createVariable function.returnParameters
    let returns ← read fun s =>
      function.returnParameters.map fun var => (s.m_context.variableOf var).currentValue
    let block ← deref (fun s => (s.m_summaries.find? fun p => p.1 == function.id).map (·.2))
      "m_summaries.at"
    pure (block.app ([errorValue] ++ stateBefore ++ arguments ++ stateAfter ++ returns))

/-- The method `CHC::visitAssert`. -/
def visitAssert (_funCall : Expression) : Visitor Unit := do
  let args := _funCall.arguments
  solAssert (args.length == 1) ""
  let front ← deref (fun _ => args.head?) "args.front"
  solAssert (front.category == .Bool) ""
  update fun s => { s with m_verificationTargets := s.m_verificationTargets ++ [_funCall] }
  let previousError ← read fun s => s.m_error.currentValue
  update fun s => { s with m_error := s.m_error.increaseIndex }
  solAssert (← read (·.m_currentFunction.isSome)) ""
  let function ← deref (·.m_currentFunction) "m_currentFunction"
  let currentBlock ← read (·.m_currentBlock)
  let sum ← summary function
  let pathConditions ← SMTEncoder.currentPathConditions
  let condition ← read fun s => (s.m_context.expression front.id).currentValue
  let errorValue ← read fun s => s.m_error.currentValue
  let position ← read fun s => s.m_verificationTargets.length
  connectBlocks currentBlock sum
    ((pathConditions.and condition.not).and (errorValue.eq (.intLit position)))
  update fun s => { s with m_context := s.m_context.addAssertion condition }
  update fun s => { s with m_context := s.m_context.addAssertion (errorValue.eq previousError) }
  let assertEntry ← createBlock (.node _funCall.id) ""
  connectBlocks (← read (·.m_currentBlock)) (← predicate assertEntry)
  setCurrentBlock assertEntry none

/-- The method `CHC::internalFunctionCall`. -/
def internalFunctionCall (_funCall : Expression) : Visitor Unit := do
  let previousError ← read fun s => s.m_error.currentValue
  let call ← predicateCall _funCall
  update fun s => { s with m_context := s.m_context.addAssertion call }
  solAssert (← read (·.m_currentFunction.isSome)) ""
  let function ← deref (·.m_currentFunction) "m_currentFunction"
  let currentBlock ← read (·.m_currentBlock)
  let sum ← summary function
  let errorValue ← read fun s => s.m_error.currentValue
  connectBlocks currentBlock sum (errorValue.gt (.intLit 0))
  update fun s => { s with m_context := s.m_context.addAssertion (errorValue.eq (.intLit 0)) }
  update fun s => { s with m_error := s.m_error.increaseIndex }
  let refreshed ← read fun s => s.m_error.currentValue
  update fun s => { s with m_context := s.m_context.addAssertion (refreshed.eq previousError) }
  let postCall ← createBlock (.node _funCall.id) ""
  connectBlocks (← read (·.m_currentBlock)) (← predicate postCall)
  setCurrentBlock postCall none

/-- The method `CHC::unknownFunctionCall`. -/
def unknownFunctionCall (_funCall : Expression) : Visitor Unit := do
  eraseKnowledge
  update fun s => { s with m_unknownFunctionCallSeen := true }

/-- The method `CHC::endVisit(FunctionCall)`. -/
def endVisitFunctionCall (_funCall : Expression) : Visitor Unit := do
  solAssert (_funCall.kind != FunctionCallKind.Unset) ""
  if _funCall.kind != FunctionCallKind.FunctionCall then
    SMTEncoder.endVisitFunctionCall _funCall
  else do
    (match _funCall.functionKind with
      | .Assert => do
        visitAssert _funCall
        SMTEncoder.endVisitFunctionCall _funCall
      | .Internal => internalFunctionCall _funCall
      | .External | .DelegateCall | .BareCall | .BareCallCode | .BareDelegateCall
      | .BareStaticCall | .Creation | .KECCAK256 | .ECRecover | .SHA256 | .RIPEMD160
      | .BlockHash | .AddMod | .MulMod => do
        SMTEncoder.endVisitFunctionCall _funCall
        unknownFunctionCall _funCall
      | _ => SMTEncoder.endVisitFunctionCall _funCall)
    SMTEncoder.createReturnedExpressions _funCall

/-- The method `CHC::endVisit(Break)`. -/
def endVisitBreak (_break : Nat) : Visitor Unit := do
  solAssert (← read (·.m_breakDest.isSome)) ""
  let breakDest ← deref (·.m_breakDest) "m_breakDest"
  connectBlocks (← read (·.m_currentBlock)) (← predicate breakDest)
  let breakGhost ← createBlock (.node _break) "break_ghost_"
  let ghost ← predicate breakGhost
  update fun s => { s with m_currentBlock := ghost }

/-- The method `CHC::endVisit(Continue)`. -/
def endVisitContinue (_continue : Nat) : Visitor Unit := do
  solAssert (← read (·.m_continueDest.isSome)) ""
  let continueDest ← deref (·.m_continueDest) "m_continueDest"
  connectBlocks (← read (·.m_currentBlock)) (← predicate continueDest)
  let continueGhost ← createBlock (.node _continue) "continue_ghost_"
  let ghost ← predicate continueGhost
  update fun s => { s with m_currentBlock := ghost }

end CHC

mutual
/-- Modelled from the spec: the walk over an expression: the children first,
then the `endVisit` of the node.  Calls end in `CHC::endVisit(FunctionCall)`;
the other nodes are encoded by the base class (§6.2). -/
def Expression.accept : Expression → Visitor Unit
  | .Literal i category value =>
    SMTEncoder.defineExpr (.Literal i category value) value.toExpression
  | .Identifier i category decl => do
    let value ← SMTEncoder.currentValue decl
    SMTEncoder.defineExpr (.Identifier i category decl) value
  | .Assignment i category lhs rhs => do
    Expression.accept rhs
    let value ← SMTEncoder.expr rhs
    SMTEncoder.assignment lhs value
    SMTEncoder.defineExpr (.Assignment i category lhs rhs) value
  | .UnaryOperation i category operator sub => do
    Expression.accept sub
    let value ← SMTEncoder.expr sub
    SMTEncoder.defineExpr (.UnaryOperation i category operator sub) (.op operator [value])
  | .BinaryOperation i category operator left right => do
    Expression.accept left
    Expression.accept right
    let leftValue ← SMTEncoder.expr left
    let rightValue ← SMTEncoder.expr right
    SMTEncoder.defineExpr (.BinaryOperation i category operator left right)
      (.op operator [leftValue, rightValue])
  | .FunctionCall i category location kind functionKind callee arguments => do
    Expression.acceptAll arguments
    CHC.endVisitFunctionCall
      (.FunctionCall i category location kind functionKind callee arguments)
/-- Walk over a list of expressions, in order. -/
def Expression.acceptAll : List Expression → Visitor Unit
  | [] => pure ()
  | e :: rest => do
    Expression.accept e
    Expression.acceptAll rest
end

namespace CHC

open Visitor

/-- The method `CHC::visit(IfStatement)`.  The branches are given by the
identity of their node and the walk over it. -/
def visitIfStatement (_if : Nat) (condition : Expression) (trueStatement : Nat × Visitor Unit)
    (falseStatement : Option (Nat × Visitor Unit)) : Visitor Bool := do
  solAssert (← read (·.m_currentFunction.isSome)) ""
  let unknownFunctionCallWasSeen ← read (·.m_unknownFunctionCallSeen)
  update fun s => { s with m_unknownFunctionCallSeen := false }
  solAssert (← read (·.m_currentFunction.isSome)) ""
  let function ← deref (·.m_currentFunction) "m_currentFunction"
  let functionBody ← deref (fun _ => function.body) "body"
  let ifHeaderBlock ← createBlock (.node _if) "if_header_"
  let trueBlock ← createBlock (.node trueStatement.1) "if_true_"
  let falseBlock ← (match falseStatement with
    | some statement => do
      let block ← createBlock (.node statement.1) "if_false_"
      pure (some block)
    | none => pure none)
  let afterIfBlock ← createBlock (.node functionBody.id) ""
  connectBlocks (← read (·.m_currentBlock)) (← predicate ifHeaderBlock)
  setCurrentBlock ifHeaderBlock none
  condition.accept
  let conditionValue ← SMTEncoder.expr condition
  connectBlocks (← read (·.m_currentBlock)) (← predicate trueBlock) conditionValue
  (match falseBlock with
    | some block => do
      connectBlocks (← read (·.m_currentBlock)) (← predicate block) conditionValue.not
    | none => do
      connectBlocks (← read (·.m_currentBlock)) (← predicate afterIfBlock) conditionValue.not)
  setCurrentBlock trueBlock none
  trueStatement.2
  connectBlocks (← read (·.m_currentBlock)) (← predicate afterIfBlock)
  (match falseStatement, falseBlock with
    | some statement, some block => do
      setCurrentBlock block none
      statement.2
      connectBlocks (← read (·.m_currentBlock)) (← predicate afterIfBlock)
    | _, _ => pure ())
  setCurrentBlock afterIfBlock none
  let unknownFunctionCallSeen ← read (·.m_unknownFunctionCallSeen)
  (if unknownFunctionCallSeen then eraseKnowledge else pure ())
  update fun s => { s with m_unknownFunctionCallSeen := unknownFunctionCallWasSeen }
  pure false

/-- The method `CHC::visit(WhileStatement)`. -/
def visitWhileStatement (_while : Nat) (isDoWhile : Bool) (condition : Expression)
    (body : Nat × Visitor Unit) : Visitor Bool := do
  let unknownFunctionCallWasSeen ← read (·.m_unknownFunctionCallSeen)
  update fun s => { s with m_unknownFunctionCallSeen := false }
  solAssert (← read (·.m_currentFunction.isSome)) ""
  let function ← deref (·.m_currentFunction) "m_currentFunction"
  let functionBody ← deref (fun _ => function.body) "body"
  let namePrefix := (if isDoWhile then "do_" else "") ++ "while"
  let loopHeaderBlock ← createBlock (.node _while) (namePrefix ++ "_header_")
  let loopBodyBlock ← createBlock (.node body.1) (namePrefix ++ "_body_")
  let afterLoopBlock ← createBlock (.node functionBody.id) ""
  let outerBreakDest ← read (·.m_breakDest)
  let outerContinueDest ← read (·.m_continueDest)
  update fun s => { s with m_breakDest := some afterLoopBlock }
  update fun s => { s with m_continueDest := some loopHeaderBlock }
  (if isDoWhile then body.2 else pure ())
  connectBlocks (← read (·.m_currentBlock)) (← predicate loopHeaderBlock)
  setCurrentBlock loopHeaderBlock none
  condition.accept
  let conditionValue ← SMTEncoder.expr condition
  connectBlocks (← read (·.m_currentBlock)) (← predicate loopBodyBlock) conditionValue
  connectBlocks (← read (·.m_currentBlock)) (← predicate afterLoopBlock) conditionValue.not
  setCurrentBlock loopBodyBlock none
  body.2
  update fun s => { s with m_breakDest := outerBreakDest }
  update fun s => { s with m_continueDest := outerContinueDest }
  connectBlocks (← read (·.m_currentBlock)) (← predicate loopHeaderBlock)
  setCurrentBlock afterLoopBlock none
  let unknownFunctionCallSeen ← read (·.m_unknownFunctionCallSeen)
  (if unknownFunctionCallSeen then eraseKnowledge else pure ())
  update fun s => { s with m_unknownFunctionCallSeen := unknownFunctionCallWasSeen }
  pure false

/-- The method `CHC::visit(ForStatement)`. -/
def visitForStatement (_for : Nat) (initializationExpression : Option (Visitor Unit))
    (condition : Option Expression) (loopExpression : Option (Nat × Visitor Unit))
    (body : Nat × Visitor Unit) : Visitor Bool := do
  let unknownFunctionCallWasSeen ← read (·.m_unknownFunctionCallSeen)
  update fun s => { s with m_unknownFunctionCallSeen := false }
  solAssert (← read (·.m_currentFunction.isSome)) ""
  let function ← deref (·.m_currentFunction) "m_currentFunction"
  let functionBody ← deref (fun _ => function.body) "body"
  let loopHeaderBlock ← createBlock (.node _for) "for_header_"
  let loopBodyBlock ← createBlock (.node body.1) "for_body_"
  let afterLoopBlock ← createBlock (.node functionBody.id) ""
  let postLoopBlock ← (match loopExpression with
    | some postLoop => do
      let block ← createBlock (.node postLoop.1) "for_post_"
      pure (some block)
    | none => pure none)
  let outerBreakDest ← read (·.m_breakDest)
  let outerContinueDest ← read (·.m_continueDest)
  update fun s => { s with m_breakDest := some afterLoopBlock }
  update fun s =>
    { s with m_continueDest := match postLoopBlock with
      | some block => some block
      | none => some loopHeaderBlock }
  (match initializationExpression with
    | some init => init
    | none => pure ())
  connectBlocks (← read (·.m_currentBlock)) (← predicate loopHeaderBlock)
  setCurrentBlock loopHeaderBlock none
  let conditionValue ← (match condition with
    | some forCondition => do
      forCondition.accept
      SMTEncoder.expr forCondition
    | none => pure (smt.Expression.boolLit true))
  connectBlocks (← read (·.m_currentBlock)) (← predicate loopBodyBlock) conditionValue
  connectBlocks (← read (·.m_currentBlock)) (← predicate afterLoopBlock) conditionValue.not
  setCurrentBlock loopBodyBlock none
  body.2
  (match loopExpression, postLoopBlock with
    | some postLoop, some block => do
      connectBlocks (← read (·.m_currentBlock)) (← predicate block)
      setCurrentBlock block none
      postLoop.2
    | _, _ => pure ())
  update fun s => { s with m_breakDest := outerBreakDest }
  update fun s => { s with m_continueDest := outerContinueDest }
  connectBlocks (← read (·.m_currentBlock)) (← predicate loopHeaderBlock)
  setCurrentBlock afterLoopBlock none
  let unknownFunctionCallSeen ← read (·.m_unknownFunctionCallSeen)
  (if unknownFunctionCallSeen then eraseKnowledge else pure ())
  update fun s => { s with m_unknownFunctionCallSeen := unknownFunctionCallWasSeen }
  pure false

end CHC

mutual
/-- Modelled from the spec: the walk over a statement.  The `visit` methods of
`CHC` return `false`, so it is they that walk the children of an if or a loop;
a block walks its statements in order. -/
def Statement.accept : Statement → Visitor Unit
  | .Block _ statements => Statement.acceptAll statements
  | .IfStatement i condition trueStatement falseStatement => do
    let _ ← CHC.visitIfStatement i condition (trueStatement.id, Statement.accept trueStatement)
      (match falseStatement with
        | some statement => some (statement.id, Statement.accept statement)
        | none => none)
    pure ()
  | .WhileStatement i condition body isDoWhile => do
    let _ ← CHC.visitWhileStatement i isDoWhile condition (body.id, Statement.accept body)
    pure ()
  | .ForStatement i initializationExpression condition loopExpression body => do
    let _ ← CHC.visitForStatement i
      (match initializationExpression with
        | some init => some (Statement.accept init)
        | none => none)
      condition
      (match loopExpression with
        | some postLoop => some (postLoop.id, Statement.accept postLoop)
        | none => none)
      (body.id, Statement.accept body)
    pure ()
  | .Break i => CHC.endVisitBreak i
  | .Continue i => CHC.endVisitContinue i
  | .ExpressionStatement _ expression => expression.accept
  | .VariableDeclarationStatement _ declaration initialValue =>
    match initialValue with
    | some value => do
      value.accept
      SMTEncoder.assignment declaration (← SMTEncoder.expr value)
    | none => pure ()
/-- Walk over a list of statements, in order. -/
def Statement.acceptAll : List Statement → Visitor Unit
  | [] => pure ()
  | statement :: rest => do
    Statement.accept statement
    Statement.acceptAll rest
end

/-- Modelled from the spec: the base-class `visit(FunctionDefinition)`: for a
constructor the base-class constructor hierarchy is inlined first (§4.3.3),
then the body is walked.  `inlineBases` is that inlining, over the bases that
follow the contract of the function. -/
def SMTEncoder.visitFunctionDefinition (inlineBases : Visitor Unit)
    (_function : FunctionDefinition) : Visitor Bool := do
  (if _function.isConstructor then inlineBases else pure ())
  (match _function.body with
    | some body => body.accept
    | none => pure ())
  pure false

namespace CHC

open Visitor

/-- The method `CHC::visit(FunctionDefinition)`. -/
def visitFunctionDefinition (inlineBases : Visitor Unit) (_function : FunctionDefinition) :
    Visitor Bool := do
  if !shouldVisitFunction _function then pure false
  else do
    let active ← read (·.m_currentFunction)
    match active with
    | some currentFunction => do
      solAssert currentFunction.isConstructor ""
      solAssert _function.isConstructor ""
      solAssert (← read fun s => s.m_currentContract.map (·.id) != some _function.scope) ""
      let _ ← SMTEncoder.visitFunctionDefinition inlineBases _function
      pure false
    | none => do
      update fun s => { s with m_currentFunction := some _function }
      SMTEncoder.initFunction _function
      let body ← deref (fun _ => _function.body) "body"
      let functionEntryBlock ← createBlock (.function _function) ""
      let bodyBlock ← createBlock (.node body.id) ""
      let functionPred ← predicateWith functionEntryBlock (← currentFunctionVariables)
      let bodyPred ← predicate bodyBlock
      connectBlocks (← genesis) functionPred
      update fun s =>
        { s with m_context := s.m_context.addAssertion (s.m_error.currentValue.eq (.intLit 0)) }
      forEach
        (fun var => update fun s =>
          { s with m_context := (s.m_context.addAssertion
              (((s.m_context.variableOf var).valueAtIndex 0).eq
                (s.m_context.variableOf var).currentValue)) })
        (← read (·.m_stateVariables))
      connectBlocks functionPred bodyPred
      setCurrentBlock bodyBlock none
      let _ ← SMTEncoder.visitFunctionDefinition inlineBases _function
      pure false

/-- The method `CHC::endVisit(FunctionDefinition)`.  Identity of AST nodes is
identity of their `id`. -/
def endVisitFunctionDefinition (_function : FunctionDefinition) : Visitor Unit := do
  if !shouldVisitFunction _function then pure ()
  else do
    let inlined ← read fun s => s.m_currentFunction.map (·.id) != some _function.id
    (if inlined then do
      solAssert (← read fun s =>
        match s.m_currentFunction with
        | some currentFunction => currentFunction.isConstructor
        | none => false) ""
      solAssert _function.isConstructor ""
      solAssert (← read fun s => s.m_currentContract.map (·.id) != some _function.scope) ""
    else do
      (if _function.isConstructor then do
        let constructorExit ← createSymbolicBlock (← interfaceSort)
          ("constructor_exit_" ++ toString _function.id)
        connectBlocks (← read (·.m_currentBlock))
          (← predicateWith constructorExit (← currentStateVariables))
        clearIndices (← read (·.m_currentContract)) (← read (·.m_currentFunction))
        let stateExprs ← currentStateVariables
        setCurrentBlock constructorExit (some stateExprs)
      else do
        let iface ← interface
        let sum ← summary _function
        connectBlocks (← read (·.m_currentBlock)) sum
        let stateExprs ← initialStateVariables
        let interfacePredicate ← deref (·.m_interfacePredicate) "m_interfacePredicate"
        setCurrentBlock interfacePredicate (some stateExprs)
        (if _function.isPublic then do
          createErrorBlock
          connectBlocks (← read (·.m_currentBlock)) (← error)
            (sum.and ((← read fun s => s.m_error.currentValue).gt (.intLit 0)))
          connectBlocks (← read (·.m_currentBlock)) iface
            (sum.and ((← read fun s => s.m_error.currentValue).eq (.intLit 0)))
          let errorApplication ← error
          update fun s =>
            { s with m_functionErrors :=
                emplaceFunctionError s.m_functionErrors _function errorApplication }
        else pure ()))
      update fun s => { s with m_currentFunction := none })
    SMTEncoder.endVisitFunctionDefinition _function

end CHC

/-- Modelled from the spec: the walk over a function definition: `visit`, which
never asks the walker to descend, then `endVisit`. -/
def FunctionDefinition.accept (inlineBases : Visitor Unit) (_function : FunctionDefinition) :
    Visitor Unit := do
  let _ ← CHC.visitFunctionDefinition inlineBases _function
  CHC.endVisitFunctionDefinition _function

/-- Modelled from the spec: `inlineConstructorHierarchy` (§4.3.1, §4.3.3) over
the bases that follow a contract in the linearization: the first base with an
implemented constructor is visited like a function, and that visit takes care
of the bases after it. -/
def SMTEncoder.inlineConstructorHierarchy : List BaseContract → Visitor Unit
  | [] => pure ()
  | base :: rest =>
    match base.constructor with
    | some baseConstructor =>
      if baseConstructor.isImplemented then
        FunctionDefinition.accept (SMTEncoder.inlineConstructorHierarchy rest) baseConstructor
      else SMTEncoder.inlineConstructorHierarchy rest
    | none => SMTEncoder.inlineConstructorHierarchy rest

/-- Modelled from the spec: the base-class `visit(ContractDefinition)`: the
functions of the contract other than constructors are visited in order;
constructors are visited at contract exit. -/
def SMTEncoder.visitContractDefinition (_contract : ContractDefinition) : Visitor Bool := do
  Visitor.forEach
    (fun function =>
      if function.isConstructor then pure () else FunctionDefinition.accept (pure ()) function)
    (SMTEncoder.resolvedFunctions _contract)
  pure false

namespace CHC

open Visitor

/-- The method `CHC::visit(ContractDefinition)`. -/
def visitContractDefinition (_contract : ContractDefinition) : Visitor Bool := do
  if !shouldVisitContract _contract then pure false
  else do
    reset
    SMTEncoder.initContract _contract
    update fun s => { s with m_stateVariables := _contract.stateVariablesIncludingInherited }
    update fun s => { s with m_stateSorts := s.m_stateSorts ++ s.m_stateVariables.map (·.sort) }
    forEach
      (fun base => forEach
        (fun function => do
          let block ← createSummaryBlock function
          update fun s => { s with m_summaries := emplaceSummary s.m_summaries function block })
        base.definedFunctions)
      _contract.linearizedBaseContracts
    clearIndices (some _contract) none
    let suffix := _contract.name ++ "_" ++ toString _contract.id
    let interfacePredicate ← createSymbolicBlock (← interfaceSort) ("interface_" ++ suffix)
    update fun s => { s with m_interfacePredicate := some interfacePredicate }
    let errorFunctionSort : smt.FunctionSort := ⟨[], .Bool⟩
    let errorPredicate ← createSymbolicBlock errorFunctionSort ("error_" ++ suffix)
    update fun s => { s with m_errorPredicate := some errorPredicate }
    let constructorPredicate ← createSymbolicBlock (← constructorSort)
      ("implicit_constructor_" ++ toString _contract.id)
    update fun s => { s with m_constructorPredicate := some constructorPredicate }
    let stateExprs ← currentStateVariables
    setCurrentBlock interfacePredicate (some stateExprs)
    let _ ← SMTEncoder.visitContractDefinition _contract
    pure false

/-- The method `CHC::endVisit(ContractDefinition)`. -/
def endVisitContractDefinition (_contract : ContractDefinition) : Visitor Unit := do
  if !shouldVisitContract _contract then pure ()
  else do
    forEach
      (fun var => do
        solAssert (← read fun s => s.m_context.knownVariable var) ""
        update fun s => { s with m_context := s.m_context.setZeroValue var })
      (← read (·.m_stateVariables))
    let constructorPredicate ← deref (·.m_constructorPredicate) "m_constructorPredicate"
    let implicitConstructor := constructorPredicate.app (← currentStateVariables)
    connectBlocks (← genesis) implicitConstructor
    update fun s => { s with m_currentBlock := implicitConstructor }
    (match _contract.constructor with
      | some constructor =>
        constructor.accept (SMTEncoder.inlineConstructorHierarchy _contract.baseContracts)
      | none => SMTEncoder.inlineConstructorHierarchy _contract.baseContracts)
    connectBlocks (← read (·.m_currentBlock)) (← interface)
    forEach
      (fun target => do
        let _ ← query target.2 target.1.location
        pure ())
      (← read (·.m_functionErrors))
    SMTEncoder.endVisitContractDefinition _contract

end CHC

/-- Modelled from the spec: the walk over a contract definition: `visit`, which
never asks the walker to descend, then `endVisit`. -/
def ContractDefinition.accept (_contract : ContractDefinition) : Visitor Unit := do
  let _ ← CHC.visitContractDefinition _contract
  CHC.endVisitContractDefinition _contract

/-- Modelled from the spec: the walk over a source unit visits its contracts in
order (§4.6). -/
def SourceUnit.accept (_source : SourceUnit) : Visitor Unit :=
  Visitor.forEach ContractDefinition.accept _source.contracts

namespace CHC

open Visitor

/-- The method `CHC::analyze`.  The choice of the back end only selects the
solver object, which is the `m_interface` of the state. -/
def analyze (_source : SourceUnit) : Visitor Unit := do
  solAssert _source.experimentalSMTChecker ""
  update fun s => { s with m_context := s.m_context.clear }
  update fun s => { s with m_context := { s.m_context with m_accumulateAssertions := false } }
  let genesisSort : smt.FunctionSort := ⟨[], .Bool⟩
  let genesisPredicate ← createSymbolicBlock genesisSort "genesis"
  update fun s => { s with m_genesisPredicate := some genesisPredicate }
  addRule (← genesis) "genesis"
  _source.accept

/-- The analyzer as its constructor leaves it, around a given back end. -/
def new (answer : List smt.SolverCall → smt.Expression → smt.CheckResult) : CHC where
  m_context := ⟨[], [], [], true⟩
  m_interface := ⟨[], answer⟩
  m_outerErrorReporter := ⟨[]⟩
  m_currentContract := none
  m_pathConditions := []
  m_genesisPredicate := none
  m_interfacePredicate := none
  m_errorPredicate := none
  m_constructorPredicate := none
  m_summaries := []
  m_stateSorts := []
  m_stateVariables := []
  m_verificationTargets := []
  m_safeAssertions := []
  m_functionErrors := []
  m_targets := []
  m_error := ⟨"error", .Int, 0⟩
  m_currentBlock := .boolLit true
  m_currentFunction := none
  m_breakDest := none
  m_continueDest := none
  m_unknownFunctionCallSeen := false
  m_blockCounter := 0

end CHC

/-! ## Relations between the state before and after a method -/

/-- A relation between the state before and after that is reflexive and
transitive, so that it passes from the steps of a method to the method. -/
structure StateOrder (R : CHC → CHC → Prop) : Prop where
  refl : ∀ s, R s s
  trans : ∀ s1 s2 s3, R s1 s2 → R s2 s3 → R s1 s3

/-- The method relates every state to the state it leaves behind, whether it
returns or aborts. -/
def Visitor.Respects {α : Type} (R : CHC → CHC → Prop) (m : Visitor α) : Prop :=
  ∀ s, R s (m s).state

/-- What the walk over a function body leaves alone: the recorded function
errors, the distinguished predicates and summaries, the current contract and
function, the state variables, the reporter and the back end; the calls on the
solver adapter are only extended, and by no query. -/
structure BodyFrame (s s1 : CHC) : Prop where
  functionErrors : s1.m_functionErrors = s.m_functionErrors
  errorPredicate : s1.m_errorPredicate = s.m_errorPredicate
  genesisPredicate : s1.m_genesisPredicate = s.m_genesisPredicate
  interfacePredicate : s1.m_interfacePredicate = s.m_interfacePredicate
  constructorPredicate : s1.m_constructorPredicate = s.m_constructorPredicate
  summaries : s1.m_summaries = s.m_summaries
  currentContract : s1.m_currentContract = s.m_currentContract
  currentFunction : s1.m_currentFunction = s.m_currentFunction
  stateVariables : s1.m_stateVariables = s.m_stateVariables
  stateSorts : s1.m_stateSorts = s.m_stateSorts
  reporter : s1.m_outerErrorReporter = s.m_outerErrorReporter
  answer : s1.m_interface.answer = s.m_interface.answer
  calls : ∃ l, s1.m_interface.calls = s.m_interface.calls ++ l ∧ ∀ e ∈ l, ∀ g, e ≠ .query g


/-- What the visit of a constructor leaves alone: as for a body, except that the
current function may change. -/
structure ConstructorFrame (s s1 : CHC) : Prop where
  functionErrors : s1.m_functionErrors = s.m_functionErrors
  errorPredicate : s1.m_errorPredicate = s.m_errorPredicate
  genesisPredicate : s1.m_genesisPredicate = s.m_genesisPredicate
  interfacePredicate : s1.m_interfacePredicate = s.m_interfacePredicate
  constructorPredicate : s1.m_constructorPredicate = s.m_constructorPredicate
  summaries : s1.m_summaries = s.m_summaries
  currentContract : s1.m_currentContract = s.m_currentContract
  stateVariables : s1.m_stateVariables = s.m_stateVariables
  stateSorts : s1.m_stateSorts = s.m_stateSorts
  reporter : s1.m_outerErrorReporter = s.m_outerErrorReporter
  answer : s1.m_interface.answer = s.m_interface.answer
  calls : ∃ l, s1.m_interface.calls = s.m_interface.calls ++ l ∧ ∀ e ∈ l, ∀ g, e ≠ .query g

/-- What every method other than `query` leaves alone: the reporter and the back
end; the calls on the solver adapter are only extended, and by no query. -/
structure FunctionFrame (s s1 : CHC) : Prop where
  reporter : s1.m_outerErrorReporter = s.m_outerErrorReporter
  answer : s1.m_interface.answer = s.m_interface.answer
  calls : ∃ l, s1.m_interface.calls = s.m_interface.calls ++ l ∧ ∀ e ∈ l, ∀ g, e ≠ .query g

/-- A function whose exit records an error predicate: implemented, not a
constructor, and public. -/
def recordedFunction (f : FunctionDefinition) : Bool :=
  !f.isConstructor && f.isImplemented && f.isPublic

/-- The functions of a contract whose visit records an error predicate, in the
order in which they are visited. -/
def recordedFunctions (c : ContractDefinition) : List FunctionDefinition :=
  (SMTEncoder.resolvedFunctions c).filter recordedFunction

/-- The name of the error predicate of a contract. -/
def errorName (c : ContractDefinition) : String :=
  "error_" ++ c.name ++ "_" ++ toString c.id

/-- The error predicates that the visit of a contract records: the `k`-th
recorded function, counted from 1, gets the error predicate at SSA index `k`. -/
def recordedErrors (c : ContractDefinition) : List (FunctionDefinition × smt.Expression) :=
  ((recordedFunctions c).enumFrom 1).map fun p => (p.2, .apply (errorName c) p.1 [])

/-- What the steps that set a contract up leave alone: the recorded function
errors, the error predicate, the current function, the reporter and the back
end; the calls on the solver adapter are only extended, and by no query. -/
structure PrologueFrame (s s1 : CHC) : Prop where
  functionErrors : s1.m_functionErrors = s.m_functionErrors
  errorPredicate : s1.m_errorPredicate = s.m_errorPredicate
  currentFunction : s1.m_currentFunction = s.m_currentFunction
  reporter : s1.m_outerErrorReporter = s.m_outerErrorReporter
  answer : s1.m_interface.answer = s.m_interface.answer
  calls : ∃ l, s1.m_interface.calls = s.m_interface.calls ++ l ∧ ∀ e ∈ l, ∀ g, e ≠ .query g

/-- The effect of visiting functions on the recorded function errors and on the
error predicate: each recorded function refreshes the error predicate and
records the new instance. -/
def recordAll (errors : List (FunctionDefinition × smt.Expression))
    (errorPredicate : smt.SymbolicFunctionVariable) :
    List FunctionDefinition →
      List (FunctionDefinition × smt.Expression) × smt.SymbolicFunctionVariable
  | [] => (errors, errorPredicate)
  | f :: rest =>
    if recordedFunction f then
      recordAll (emplaceFunctionError errors f (errorPredicate.increaseIndex.app []))
        errorPredicate.increaseIndex rest
    else recordAll errors errorPredicate rest

/-- Whether a call on the solver adapter is a query. -/
def smt.SolverCall.isQuery : smt.SolverCall → Bool
  | .query _ => true
  | _ => false

/-- Whether a call on the solver adapter adds a rule. -/
def smt.SolverCall.isRule : smt.SolverCall → Bool
  | .addRule _ _ => true
  | _ => false

/-- The state is left as it was. -/
def Unchanged (s s1 : CHC) : Prop := s1 = s

/-- The solver adapter is left as it was. -/
def SolverKept (s s1 : CHC) : Prop := s1.m_interface = s.m_interface

/-- The calls by which a public function is left: the rule from the block `cur`
into the summary `sum`, the registration of the error predicate refreshed from
`ep`, and the two rules out of the interface `enter`, into the refreshed error
predicate when the error index `ev` is positive and into the interface `leave`
when it is 0. -/
def CHC.exitRules (ep : smt.SymbolicFunctionVariable)
    (cur sum enter leave asr asr1 ev : smt.Expression) : List smt.SolverCall :=
  [.addRule (.implies ((cur.and asr).and (.boolLit true)) sum) (cur.name ++ "_to_" ++ sum.name),
   .registerRelation ep.uniqueName (ep.index + 1) ep.sort,
   .addRule
     (.implies ((enter.and asr1).and (sum.and (ev.gt (.intLit 0))))
       (.apply ep.uniqueName (ep.index + 1) []))
     (enter.name ++ "_to_" ++ (smt.Expression.apply ep.uniqueName (ep.index + 1) []).name),
   .addRule
     (.implies ((enter.and asr1).and (sum.and (ev.eq (.intLit 0)))) leave)
     (enter.name ++ "_to_" ++ leave.name)]
/-! ## The wasm back end: LEB128 and the binary transform -/

namespace yul.wasm

/-- The loop of `LEBEncoder::encode` with the vector `encoded` that it fills:
while `_n` exceeds `0x7f`, the byte `uint8_t(0x80 | (_n & 0x7f))` is appended and
`_n` is shifted right by seven bits; then `_n`, as a byte, is appended.  A byte
is a natural number below 256. -/
def LEBEncoder.encodeLoop (_n : Nat) (encoded : List Nat) : List Nat :=
  if 0x7f < _n then
    LEBEncoder.encodeLoop (_n >>> 7) (encoded ++ [(0x80 ||| (_n &&& 0x7f)) % 256])
  else
    encoded ++ [_n % 256]
termination_by _n
decreasing_by
  rw [Nat.shiftRight_eq_div_pow]
  exact Nat.div_lt_self (by omega) (by decide)

/-- The function `LEBEncoder::encode`; its parameter is a `uint64_t`. -/
def LEBEncoder.encode (_n : Nat) : List Nat :=
  LEBEncoder.encodeLoop (_n % 2 ^ 64) []

/-- The value that a sequence of bytes stands for as an unsigned LEB128 number:
the sum of `(byte_i mod 128) * 128 ^ i` over the positions `i`. -/
def leb128Value (bytes : List Nat) : Nat :=
  ((List.range bytes.length).map fun i => bytes.getD i 0 % 128 * 128 ^ i).sum

/-- The values of `enum class Opcode: uint8_t` of `BinaryTransform.cpp`. -/
inductive Opcode where
  | Unreachable | Nop | Block | Loop | If | Else | Try | Catch | Throw | Rethrow | BrOnExn
  | End | Br | BrIf | BrTable | Return | Call | CallIndirect | ReturnCall | ReturnCallIndirect
  | Drop | Select | LocalGet | LocalSet | LocalTee | GlobalGet | GlobalSet | I32Const | I64Const
  deriving DecidableEq, Repr

/-- The conversion `uint8_t(_o)` of an opcode. -/
def Opcode.toByte : Opcode → Nat
  | .Unreachable => 0x00
  | .Nop => 0x01
  | .Block => 0x02
  | .Loop => 0x03
  | .If => 0x04
  | .Else => 0x05
  | .Try => 0x06
  | .Catch => 0x07
  | .Throw => 0x08
  | .Rethrow => 0x09
  | .BrOnExn => 0x0a
  | .End => 0x0b
  | .Br => 0x0c
  | .BrIf => 0x0d
  | .BrTable => 0x0e
  | .Return => 0x0f
  | .Call => 0x10
  | .CallIndirect => 0x11
  | .ReturnCall => 0x12
  | .ReturnCallIndirect => 0x13
  | .Drop => 0x1a
  | .Select => 0x1b
  | .LocalGet => 0x20
  | .LocalSet => 0x21
  | .LocalTee => 0x22
  | .GlobalGet => 0x23
  | .GlobalSet => 0x24
  | .I32Const => 0x41
  | .I64Const => 0x42

/-- The values of `enum class ValueType: uint8_t` of `BinaryTransform.cpp`. -/
inductive ValueType where
  | Void | Function | I64 | I32
  deriving DecidableEq, Repr

/-- The conversion `uint8_t(_t)` of a value type. -/
def ValueType.toByte : ValueType → Nat
  | .Void => 0x40
  | .Function => 0x60
  | .I64 => 0x7e
  | .I32 => 0x7f

/-- The table `builtins` of `BinaryTransform.cpp`, from the names of the builtin
functions to their opcodes. -/
def builtins : List (String × Nat) :=
  [("i32.load", 0x28), ("i64.load", 0x29), ("i32.load8_s", 0x2c), ("i32.load8_u", 0x2d),
   ("i32.load16_s", 0x2e), ("i32.load16_u", 0x2f), ("i64.load8_s", 0x30),
   ("i64.load8_u", 0x31), ("i64.load16_s", 0x32), ("i64.load16_u", 0x33),
   ("i64.load32_s", 0x34), ("i64.load32_u", 0x35), ("i32.store", 0x36), ("i64.store", 0x37),
   ("i32.store8", 0x3a), ("i32.store16", 0x3b), ("i64.store8", 0x3c), ("i64.store16", 0x3d),
   ("i64.store32", 0x3e), ("memory.size", 0x3f), ("memory.grow", 0x40), ("i32.eqz", 0x45),
   ("i32.eq", 0x46), ("i32.ne", 0x47), ("i32.lt_s", 0x48), ("i32.lt_u", 0x49),
   ("i32.gt_s", 0x4a), ("i32.gt_u", 0x4b), ("i32.le_s", 0x4c), ("i32.le_u", 0x4d),
   ("i32.ge_s", 0x4e), ("i32.ge_u", 0x4f), ("i64.eqz", 0x50), ("i64.eq", 0x51),
   ("i64.ne", 0x52), ("i64.lt_s", 0x53), ("i64.lt_u", 0x54), ("i64.gt_s", 0x55),
   ("i64.gt_u", 0x56), ("i64.le_s", 0x57), ("i64.le_u", 0x58), ("i64.ge_s", 0x59),
   ("i64.ge_u", 0x5a), ("i32.clz", 0x67), ("i32.ctz", 0x68), ("i32.popcnt", 0x69),
   ("i32.add", 0x6a), ("i32.sub", 0x6b), ("i32.mul", 0x6c), ("i32.div_s", 0x6d),
   ("i32.div_u", 0x6e), ("i32.rem_s", 0x6f), ("i32.rem_u", 0x70), ("i32.and", 0x71),
   ("i32.or", 0x72), ("i32.xor", 0x73), ("i32.shl", 0x74), ("i32.shr_s", 0x75),
   ("i32.shr_u", 0x76), ("i32.rotl", 0x77), ("i32.rotr", 0x78), ("i64.clz", 0x79),
   ("i64.ctz", 0x7a), ("i64.popcnt", 0x7b), ("i64.add", 0x7c), ("i64.sub", 0x7d),
   ("i64.mul", 0x7e), ("i64.div_s", 0x7f), ("i64.div_u", 0x80), ("i64.rem_s", 0x81),
   ("i64.rem_u", 0x82), ("i64.and", 0x83), ("i64.or", 0x84), ("i64.xor", 0x85),
   ("i64.shl", 0x86), ("i64.shr_s", 0x87), ("i64.shr_u", 0x88), ("i64.rotl", 0x89),
   ("i64.rotr", 0x8a), ("i32.wrap_i64", 0xa7), ("i64.extend_i32_s", 0xac),
   ("i64.extend_i32_u", 0xad)]

/-- The function `opcode` of `BinaryTransform.cpp`: the one byte of an opcode. -/
def opcode (_o : Opcode) : List Nat :=
  List.replicate 1 _o.toByte

/-- The loop of the function `lebEncode` of `BinaryTransform.cpp`, which repeats
the text of `LEBEncoder::encode`. -/
def lebEncodeLoop (_n : Nat) (encoded : List Nat) : List Nat :=
  if 0x7f < _n then
    lebEncodeLoop (_n >>> 7) (encoded ++ [(0x80 ||| (_n &&& 0x7f)) % 256])
  else
    encoded ++ [_n % 256]
termination_by _n
decreasing_by
  rw [Nat.shiftRight_eq_div_pow]
  exact Nat.div_lt_self (by omega) (by decide)

/-- The function `lebEncode` of `BinaryTransform.cpp`; its parameter is a
`uint64_t`. -/
def lebEncode (_n : Nat) : List Nat :=
  lebEncodeLoop (_n % 2 ^ 64) []

/-- Modelled from the uses in `BinaryTransform.cpp`: the expressions of the wasm
AST that `BinaryTransform` visits, with the fields that its visitors read. -/
inductive Expression where
  | Literal (value : Nat)
  | StringLiteral (value : String)
  | LocalVariable (name : String)
  | GlobalVariable (name : String)
  | BuiltinCall (functionName : String) (arguments : List Expression)
  | FunctionCall (functionName : String) (arguments : List Expression)
  | LocalAssignment (variableName : String) (value : Expression)
  | GlobalAssignment (variableName : String) (value : Expression)
  | If (condition : Expression) (statements : List Expression)
      (elseStatements : Option (List Expression))
  | Loop (labelName : String) (statements : List Expression)
  | Break (label : String)
  | Continue (label : String)
  | Block (labelName : String) (statements : List Expression)
  deriving Repr

/-- The declaration of a variable of the wasm AST: its name. -/
structure VariableDeclaration where
  variableName : String
  deriving DecidableEq, Repr

/-- The declaration of a global variable of the wasm AST: its name. -/
structure GlobalVariableDeclaration where
  variableName : String
  deriving DecidableEq, Repr

/-- The import of a function, of which the binary transform numbers the
internal name. -/
structure FunctionImport where
  internalName : String
  deriving DecidableEq, Repr

/-- Modelled from the uses in `BinaryTransform.cpp`: the definition of a
function of the wasm AST, with the fields that the transform reads. -/
structure FunctionDefinition where
  name : String
  parameterNames : List String
  returns : Bool
  locals : List VariableDeclaration
  body : List Expression
  deriving Repr

/-- A `std::map<string, size_t>`, as the list of its entries. -/
abbrev IndexMap := List (String × Nat)

/-- The call `map.at(key)`, which throws when the key is absent. -/
def IndexMap.at (map : IndexMap) (key : String) : Except String Nat :=
  match map.lookup key with
  | some value => .ok value
  | none => .error "map::at"

/-- The assignment `map[key] = value`, which replaces the value of a key that is
present. -/
def IndexMap.set (map : IndexMap) (key : String) (value : Nat) : IndexMap :=
  if map.any (fun entry => entry.1 == key) then
    map.map fun entry => if entry.1 == key then (key, value) else entry
  else
    map ++ [(key, value)]

/-- The test `_name.find(_part) != string::npos`: whether `_part` occurs in
`_name`. -/
def occursIn (_part _name : String) : Bool :=
  _name.data.tails.any fun rest => _part.data.isPrefixOf rest

/-- The members of `BinaryTransform` that its visitors use. -/
structure BinaryTransform where
  m_locals : IndexMap
  m_globals : IndexMap
  m_functions : IndexMap
  m_labels : List String
  deriving DecidableEq, Repr

namespace BinaryTransform

/-- The first statements of `BinaryTransform::run`, which number the globals,
the imports and the functions; the sections that `run` emits after them are not
modelled. -/
def numberGlobalsAndFunctions (_globals : List GlobalVariableDeclaration)
    (_imports : List FunctionImport) (_functions : List FunctionDefinition)
    (t : BinaryTransform) : BinaryTransform :=
  let globals := (List.range _globals.length).foldl
    (fun (map : IndexMap) i => map.set ((_globals.getD i ⟨""⟩).variableName) i) []
  let imported := _imports.foldl
    (fun (p : IndexMap × Nat) function => (p.1.set function.internalName p.2, p.2 + 1)) ([], 0)
  let defined := _functions.foldl
    (fun (p : IndexMap × Nat) function => (p.1.set function.name p.2, p.2 + 1)) imported
  { t with m_globals := globals, m_functions := defined.1 }

/-- The function `BinaryTransform::prefixSize`. -/
def prefixSize (_data : List Nat) : List Nat :=
  lebEncode _data.length ++ _data

mutual

/-- The overloads of `BinaryTransform::operator()` for the expressions, to which
`boost::apply_visitor(*this, expression)` dispatches.  The result is the bytes
and the transform after the visit, or the exception that was thrown. -/
def applyVisitor : Expression → BinaryTransform → Except String (List Nat × BinaryTransform)
  | .Literal value, t => .ok (opcode .I64Const ++ lebEncode value, t)
  | .StringLiteral _, _ => .error "String literals not yet implemented"
  | .LocalVariable name, t => do
    let index ← t.m_locals.at name
    pure (opcode .LocalGet ++ lebEncode index, t)
  | .GlobalVariable name, t => do
    let index ← t.m_globals.at name
    pure (opcode .LocalGet ++ lebEncode index, t)
  | .BuiltinCall functionName arguments, t => do
    let (args, t1) ← visit arguments t
    if occursIn ".load" functionName || occursIn ".store" functionName then
      let code ← IndexMap.at builtins functionName
      pure (args ++ [code, 0, 0], t1)
    else if functionName == "unreachable" then
      pure (opcode .Unreachable, t1)
    else
      let code ← IndexMap.at builtins functionName
      pure (args ++ List.replicate 1 code, t1)
  | .FunctionCall functionName arguments, t => do
    let (result, t1) ← visit arguments t
    let result := result ++ [Opcode.Call.toByte]
    let index ← t1.m_functions.at functionName
    pure (result ++ [index % 256], t1)
  | .LocalAssignment variableName value, t => do
    let (bytes, t1) ← applyVisitor value t
    let index ← t1.m_locals.at variableName
    pure (bytes ++ opcode .LocalSet ++ lebEncode index, t1)
  | .GlobalAssignment variableName value, t => do
    let (bytes, t1) ← applyVisitor value t
    let index ← t1.m_globals.at variableName
    pure (bytes ++ opcode .GlobalSet ++ lebEncode index, t1)
  | .If condition statements elseStatements, t => do
    let (bytes, t1) ← applyVisitor condition t
    let result := bytes ++ opcode .If ++ List.replicate 1 ValueType.Void.toByte
    let t2 := { t1 with m_labels := "" :: t1.m_labels }
    let (body, t3) ← visit statements t2
    let result := result ++ body
    let (result, t4) ← visitElse elseStatements result t3
    let t5 := { t4 with m_labels := t4.m_labels.tail }
    pure (result ++ opcode .End, t5)
  | .Loop labelName statements, t => do
    let result := opcode .Loop ++ List.replicate 1 ValueType.Void.toByte
    let t1 := { t with m_labels := labelName :: t.m_labels }
    let (body, t2) ← visit statements t1
    let t3 := { t2 with m_labels := t2.m_labels.tail }
    pure (result ++ body ++ opcode .End, t3)
  | .Break _, t => .ok ([], t)
  | .Continue _, _ => .error "Continue does not exist in wasm."
  | .Block _ statements, t => do
    let (body, t1) ← visit statements t
    pure (opcode .Block ++ List.replicate 1 ValueType.Void.toByte ++ body ++ opcode .End, t1)

/-- The statement `if (_if.elseStatements) result += opcode(Opcode::Else) +
visit(*_if.elseStatements)` of the visit of an `If`. -/
def visitElse : Option (List Expression) → List Nat → BinaryTransform →
    Except String (List Nat × BinaryTransform)
  | some elseStatements, result, t => do
    let (bytes, t1) ← visit elseStatements t
    pure (result ++ (opcode .Else ++ bytes), t1)
  | none, result, t => .ok (result, t)

/-- The function `BinaryTransform::visit`: the bytes of the expressions of a
vector, one after the other. -/
def visit : List Expression → BinaryTransform → Except String (List Nat × BinaryTransform)
  | [], t => .ok ([], t)
  | expr :: rest, t => do
    let (bytes, t1) ← applyVisitor expr t
    let (more, t2) ← visit rest t1
    pure (bytes ++ more, t2)

end

/-- The overload of `BinaryTransform::operator()` for the definition of a
function: the locals are numbered after the parameters, then the body is
visited. -/
def applyFunctionDefinition (_function : FunctionDefinition) (t : BinaryTransform) :
    Except String (List Nat × BinaryTransform) := do
  let ret := lebEncode 1 ++ lebEncode _function.locals.length ++ [ValueType.I64.toByte]
  let parameters := _function.parameterNames.foldl
    (fun (p : IndexMap × Nat) name => (p.1.set name p.2, p.2 + 1)) ([], 0)
  let locals := _function.locals.foldl
    (fun (p : IndexMap × Nat) declaration => (p.1.set declaration.variableName p.2, p.2 + 1))
    parameters
  let t1 := { t with m_locals := locals.1 }
  let (body, t2) ← visit _function.body t1
  pure (prefixSize (ret ++ body ++ [Opcode.End.toByte]), t2)

end BinaryTransform

end yul.wasm

namespace Example

/-- The globals `g0` and `g1` of a wasm module. -/
def wasmGlobals : List yul.wasm.GlobalVariableDeclaration :=
  [⟨"g0"⟩, ⟨"g1"⟩]

/-- The wasm function `main(x)` with the local `y` and the body `y := g1`. -/
def wasmFunction : yul.wasm.FunctionDefinition :=
  { name := "main", parameterNames := ["x"], returns := false, locals := [⟨"y"⟩],
    body := [.LocalAssignment "y" (.GlobalVariable "g1")] }

/-- The binary transform after `run` has numbered the globals and the one
function of the module. -/
def wasmTransform : yul.wasm.BinaryTransform :=
  yul.wasm.BinaryTransform.numberGlobalsAndFunctions wasmGlobals [] [wasmFunction]
    ⟨[], [], [], []⟩

/-- The binary transform inside the body of `main`, where the parameter `x` is
local 0 and `y` is local 1. -/
def wasmInMain : yul.wasm.BinaryTransform :=
  { wasmTransform with m_locals := [("x", 0), ("y", 1)] }

end Example
/-! ## The names of the blocks and the block counter -/

namespace smt

/-- Whether a name begins with the kind tag that `createBlock` or
`createSummaryBlock` puts in front of the names it builds. -/
def isCounted (name : String) : Bool :=
  "block_".data.isPrefixOf name.data || "summary_".data.isPrefixOf name.data

/-- The name that a call on the solver adapter registers under a kind tag. -/
def SolverCall.created : SolverCall → Option String
  | .registerRelation name _ _ => if isCounted name then some name else none
  | _ => none

/-- The names registered under a kind tag, in the order of the calls. -/
def createdNames (calls : List SolverCall) : List String :=
  calls.filterMap SolverCall.created

/-- The name consists of a kind tag, the decimal numeral of `k`, an underscore
and whatever follows. -/
def HasCounter (name : String) (k : Nat) : Prop :=
  ∃ rest : String,
    name = "block_" ++ toString k ++ "_" ++ rest ∨ name = "summary_" ++ toString k ++ "_" ++ rest

/-- The number that a list of decimal digits denotes. -/
def decimalValue (digits : List Char) : Nat :=
  digits.foldl (fun value c => 10 * value + (c.toNat - '0'.toNat)) 0

end smt

/-- What keeps the names of the created predicates apart: every name registered
under a kind tag carries a counter value below the block counter, no such name
is registered twice, and the name of the error predicate, which is registered
again at every refresh, carries no kind tag. -/
structure CHC.Counted (s : CHC) : Prop where
  below : ∀ name ∈ smt.createdNames s.m_interface.calls,
    ∃ k, k < s.m_blockCounter ∧ smt.HasCounter name k
  distinct : (smt.createdNames s.m_interface.calls).Nodup
  error : ∀ b, s.m_errorPredicate = some b → smt.isCounted b.uniqueName = false

/-- A method keeps the names of the created predicates apart: run in a state
where they are, it leaves them so, whether it returns, with a value of which
`Q` holds, or aborts. -/
structure Visitor.Counts {α : Type} (m : Visitor α) (Q : α → Prop) : Prop where
  outcome : ∀ s, CHC.Counted s →
    match m s with
    | .ok a s1 => CHC.Counted s1 ∧ Q a
    | .abort _ s1 => CHC.Counted s1
/-! ## Ghost blocks and the heads of rules -/

namespace smt

/-- Whether a list of characters begins with the prefix that the visit of a
`break` or of a `continue` gives to the name of its ghost block. -/
def ghostTail (l : List Char) : Bool :=
  "break_ghost_".data.isPrefixOf l || "continue_ghost_".data.isPrefixOf l

/-- Whether a predicate symbol has a name of the shape of a ghost block:
`block_<counter>_break_ghost_...` or `block_<counter>_continue_ghost_...`. -/
def isGhostName (name : String) : Bool :=
  "block_".data.isPrefixOf name.data &&
    match (name.data.drop 6).dropWhile Char.isDigit with
    | '_' :: rest => ghostTail rest
    | _ => false

/-- The id of the node that the name of a block ends with: the number that its
last decimal digits denote. -/
def nodeOf (name : String) : Nat :=
  decimalValue (name.data.reverse.takeWhile Char.isDigit).reverse

/-- Whether a predicate symbol is the ghost block of one of the `break` and
`continue` statements with the ids `ghosts`: its name has the shape of a ghost
block and ends with one of these ids. -/
def isGhostOf (ghosts : List Nat) (name : String) : Bool :=
  isGhostName name && ghosts.contains (nodeOf name)

/-- Whether a term is the application of a ghost block. -/
def Expression.isGhostOf (ghosts : List Nat) : Expression → Bool
  | .apply name _ _ => smt.isGhostOf ghosts name
  | _ => false

/-- The head of a rule: what an implication implies, and a fact itself. -/
def Expression.head : Expression → Expression
  | .op "implies" [_, q] => q
  | e => e

/-- Whether a call on the solver adapter adds a rule whose head is the
application of a ghost block. -/
def SolverCall.headIsGhostOf (ghosts : List Nat) : SolverCall → Bool
  | .addRule rule _ => rule.head.isGhostOf ghosts
  | _ => false

/-- No rule among the calls has a ghost block as its head. -/
def HeadsClean (ghosts : List Nat) (calls : List SolverCall) : Prop :=
  ∀ c ∈ calls, c.headIsGhostOf ghosts = false

end smt

mutual
/-- The ids of the call expressions in an expression. -/
def Expression.callIds : Expression → List Nat
  | .Literal _ _ _ => []
  | .Identifier _ _ _ => []
  | .Assignment _ _ _ rhs => rhs.callIds
  | .UnaryOperation _ _ _ sub => sub.callIds
  | .BinaryOperation _ _ _ left right => left.callIds ++ right.callIds
  | .FunctionCall i _ _ _ _ _ arguments => i :: Expression.callIdsAll arguments
/-- The ids of the call expressions in a list of expressions. -/
def Expression.callIdsAll : List Expression → List Nat
  | [] => []
  | e :: rest => e.callIds ++ Expression.callIdsAll rest
end

mutual
/-- The ids of the call expressions in a statement. -/
def Statement.callIds : Statement → List Nat
  | .Block _ statements => Statement.callIdsAll statements
  | .IfStatement _ condition trueStatement none => condition.callIds ++ trueStatement.callIds
  | .IfStatement _ condition trueStatement (some falseStatement) =>
    condition.callIds ++ trueStatement.callIds ++ falseStatement.callIds
  | .WhileStatement _ condition body _ => condition.callIds ++ body.callIds
  | .ForStatement _ none condition none body =>
    (match condition with
      | some e => e.callIds
      | none => []) ++ body.callIds
  | .ForStatement _ none condition (some postLoop) body =>
    (match condition with
      | some e => e.callIds
      | none => []) ++ postLoop.callIds ++ body.callIds
  | .ForStatement _ (some init) condition none body =>
    init.callIds ++ (match condition with
      | some e => e.callIds
      | none => []) ++ body.callIds
  | .ForStatement _ (some init) condition (some postLoop) body =>
    init.callIds ++ (match condition with
      | some e => e.callIds
      | none => []) ++ postLoop.callIds ++ body.callIds
  | .Break _ => []
  | .Continue _ => []
  | .ExpressionStatement _ expression => expression.callIds
  | .VariableDeclarationStatement _ _ none => []
  | .VariableDeclarationStatement _ _ (some value) => value.callIds
/-- The ids of the call expressions in a list of statements. -/
def Statement.callIdsAll : List Statement → List Nat
  | [] => []
  | statement :: rest => statement.callIds ++ Statement.callIdsAll rest
end

mutual
/-- The ids of the `break` and `continue` statements in a statement. -/
def Statement.ghostIds : Statement → List Nat
  | .Block _ statements => Statement.ghostIdsAll statements
  | .IfStatement _ _ trueStatement none => trueStatement.ghostIds
  | .IfStatement _ _ trueStatement (some falseStatement) =>
    trueStatement.ghostIds ++ falseStatement.ghostIds
  | .WhileStatement _ _ body _ => body.ghostIds
  | .ForStatement _ none _ none body => body.ghostIds
  | .ForStatement _ none _ (some postLoop) body => postLoop.ghostIds ++ body.ghostIds
  | .ForStatement _ (some init) _ none body => init.ghostIds ++ body.ghostIds
  | .ForStatement _ (some init) _ (some postLoop) body =>
    init.ghostIds ++ postLoop.ghostIds ++ body.ghostIds
  | .Break i => [i]
  | .Continue i => [i]
  | .ExpressionStatement _ _ => []
  | .VariableDeclarationStatement _ _ _ => []
/-- The ids of the `break` and `continue` statements in a list of statements. -/
def Statement.ghostIdsAll : List Statement → List Nat
  | [] => []
  | statement :: rest => statement.ghostIds ++ Statement.ghostIdsAll rest
end

/-- The ids of the nodes of a function for which blocks without a prefix are
created: its body and the call expressions in it. -/
def FunctionDefinition.plainIds (f : FunctionDefinition) : List Nat :=
  match f.body with
  | some body => body.id :: body.callIds
  | none => []

/-- The ids of the `break` and `continue` statements of a function. -/
def FunctionDefinition.ghostIds (f : FunctionDefinition) : List Nat :=
  match f.body with
  | some body => body.ghostIds
  | none => []

/-- The functions that a contract defines and those that its base contracts
define. -/
def ContractDefinition.allFunctions (c : ContractDefinition) : List FunctionDefinition :=
  c.definedFunctions ++ (c.baseContracts.map (·.definedFunctions)).flatten

/-- The functions of all contracts of a source unit. -/
def SourceUnit.allFunctions (source : SourceUnit) : List FunctionDefinition :=
  (source.contracts.map ContractDefinition.allFunctions).flatten

/-- The ids of the function bodies and call expressions of a source unit. -/
def SourceUnit.plainIds (source : SourceUnit) : List Nat :=
  (source.allFunctions.map FunctionDefinition.plainIds).flatten

/-- The ids of the `break` and `continue` statements of a source unit. -/
def SourceUnit.ghostIds (source : SourceUnit) : List Nat :=
  (source.allFunctions.map FunctionDefinition.ghostIds).flatten

/-- Whether no `break` or `continue` statement of a source unit has the id of a
function body or of a call expression, as is the case when the ids of the nodes
are unique. -/
def SourceUnit.idsApart (source : SourceUnit) : Bool :=
  source.ghostIds.all fun i => !source.plainIds.contains i

/-- The ids of the `break` and `continue` statements of a source unit that are
not also the id of a function body or of a call expression: all of them, when
the ids of the nodes are unique. -/
def SourceUnit.ownGhostIds (source : SourceUnit) : List Nat :=
  source.ghostIds.filter fun i => !source.plainIds.contains i

/-- None of the ids of the nodes of a function for which blocks without a
prefix are created is among `ghosts`. -/
def FunctionDefinition.ApartFrom (ghosts : List Nat) (f : FunctionDefinition) : Prop :=
  ∀ id ∈ f.plainIds, id ∉ ghosts

/-- The predicate symbol is no ghost block. -/
def smt.SymbolicFunctionVariable.Plain (ghosts : List Nat)
    (b : smt.SymbolicFunctionVariable) : Prop :=
  smt.isGhostOf ghosts b.uniqueName = false

/-- The term is not the application of a ghost block. -/
def smt.Expression.Plain (ghosts : List Nat) (e : smt.Expression) : Prop :=
  e.isGhostOf ghosts = false

/-- The predicate symbol, when there is one, is no ghost block. -/
def smt.PlainOption (ghosts : List Nat) (o : Option smt.SymbolicFunctionVariable) : Prop :=
  ∀ b, o = some b → b.Plain ghosts

/-- What keeps ghost blocks out of the heads of rules: no rule received by the
solver adapter has a ghost block as its head, the predicate symbols that the
analyzer holds as targets of rules (the destinations of `break` and `continue`,
the summaries, and the genesis, interface, error and constructor predicates)
are no ghost blocks, and the body of the current function is no `break` or
`continue` statement. -/
structure CHC.Tidy (ghosts : List Nat) (s : CHC) : Prop where
  heads : smt.HeadsClean ghosts s.m_interface.calls
  breakDest : smt.PlainOption ghosts s.m_breakDest
  continueDest : smt.PlainOption ghosts s.m_continueDest
  summaries : ∀ p ∈ s.m_summaries, p.2.Plain ghosts
  genesis : smt.PlainOption ghosts s.m_genesisPredicate
  interface : smt.PlainOption ghosts s.m_interfacePredicate
  error : smt.PlainOption ghosts s.m_errorPredicate
  constructor : smt.PlainOption ghosts s.m_constructorPredicate
  function : ∀ f, s.m_currentFunction = some f → ∀ body, f.body = some body →
    body.id ∉ ghosts

/-- A method keeps the analyzer tidy: run in a tidy state, it returns in a tidy
state a value of which `Q` holds, or it aborts with no ghost block at the head
of a rule. -/
structure Visitor.Tidies (ghosts : List Nat) {α : Type} (m : Visitor α) (Q : α → Prop) :
    Prop where
  outcome : ∀ s, CHC.Tidy ghosts s →
    match m s with
    | .ok a s1 => CHC.Tidy ghosts s1 ∧ Q a
    | .abort _ s1 => smt.HeadsClean ghosts s1.m_interface.calls

/-- Whether a prefix of a block name begins with a character other than those
that begin the prefixes of the ghost blocks. -/
def smt.plainPrefix (pfx : String) : Bool :=
  match pfx.data with
  | [] => false
  | c :: _ => c != 'b' && c != 'c'
/-! ## What a method ensures when it returns -/

/-- The unknown-call flag is left as it was. -/
def FlagKept (s s1 : CHC) : Prop := s1.m_unknownFunctionCallSeen = s.m_unknownFunctionCallSeen

/-- Run in a state that satisfies `P`, the method leaves, when it returns, a
state that satisfies `Q`. -/
structure Visitor.Ensures {α : Type} (P : CHC → Prop) (m : Visitor α) (Q : CHC → Prop) :
    Prop where
  run : ∀ s a s1, P s → m s = .ok a s1 → Q s1

/-- The destinations of `break` and `continue` are `b` and `c`. -/
def CHC.DestinationsAre (b c : Option smt.SymbolicFunctionVariable) (s : CHC) : Prop :=
  s.m_breakDest = b ∧ s.m_continueDest = c

/-- The unknown-call flag is `w`. -/
def CHC.FlagIs (w : Bool) (s : CHC) : Prop :=
  s.m_unknownFunctionCallSeen = w

/-- Nothing is asked of the state. -/
def CHC.Any (_ : CHC) : Prop := True

/-- The state in which the visit of an if statement or of a loop returns, from
the state `entered` in which the after-block has become the current block:
knowledge is erased when the unknown-call flag is set, and the flag gets back
the value `wasSeen` that it had when the visit started. -/
def CHC.leaveStatement (wasSeen : Bool) (entered : CHC) : CHC :=
  { (if entered.m_unknownFunctionCallSeen then (CHC.eraseKnowledge entered).state
      else entered) with
    m_unknownFunctionCallSeen := wasSeen }
/-! ## Walks over statements and chains of rules -/

/-- The call by which `connectBlocks` adds the rule from the block `source` into
the block `target`: the implication of `target` by `source`, the assertions
`assumed` of the context and the `constraints`, under the name made of the names
of the two blocks. -/
def CHC.edge (source assumed constraints target : smt.Expression) : smt.SolverCall :=
  .addRule (.implies ((source.and assumed).and constraints) target)
    (source.name ++ "_to_" ++ target.name)

/-- What the walk over an expression leaves alone: the destinations of `break`
and `continue`; the verification targets are only extended. -/
structure ExpressionFrame (s s1 : CHC) : Prop where
  breakDest : s1.m_breakDest = s.m_breakDest
  continueDest : s1.m_continueDest = s.m_continueDest
  targets : ∃ l, s1.m_verificationTargets = s.m_verificationTargets ++ l

/-- The verification targets are only extended. -/
def TargetsFrame (s s1 : CHC) : Prop :=
  ∃ l, s1.m_verificationTargets = s.m_verificationTargets ++ l

/-- The simple statements, which are all that the grammar of the language admits
as the initializer of a for loop: a variable declaration statement or an
expression statement. -/
def Statement.isSimple : Statement → Bool
  | .ExpressionStatement _ _ => true
  | .VariableDeclarationStatement _ _ _ => true
  | _ => false

namespace smt

/-- The value that the failure rule of an assert gives to the error index: the
right-hand side of the last conjunct `error = t` of the constraints of a rule. -/
def SolverCall.failureValue : SolverCall → Option Nat
  | .addRule (.op "implies" [.op "and" [_, .op "and" [_, .op "=" [_, .intLit t]]], _]) _ =>
    some t
  | _ => none

/-- The step of a rule between blocks: the block applied on its left-hand side,
the block it implies, and the name of the rule. -/
def SolverCall.step : SolverCall → Option (String × String × String)
  | .addRule (.op "implies" [.op "and" [.op "and" [.apply source _ _, _], _],
      .apply target _ _]) name => some (source, target, name)
  | _ => none

/-- The chains of rules that lead from the block `source` to the block `target`
without entering a block twice, each given by the names of its rules in order;
`fuel` bounds the length of a chain. -/
def chains (steps : List (String × String × String)) :
    Nat → List String → String → String → List (List String)
  | 0, _, _, _ => []
  | fuel + 1, visited, source, target =>
    if source = target then [[]]
    else
      ((steps.filter fun e => e.1 = source ∧ e.2.1 ∉ visited).map fun e =>
        (chains steps fuel (e.2.1 :: visited) e.2.1 target).map fun chain =>
          e.2.2 :: chain).flatten

/-- The chains of rules among the calls on the solver adapter that lead from
the block `source` to the block `target` without entering a block twice. -/
def chainsOfCalls (calls : List SolverCall) (source target : String) : List (List String) :=
  chains (calls.filterMap SolverCall.step) (calls.length + 1) [source] source target

end smt
/-! ## What the solver adapter has been told -/

namespace smt

mutual
/-- The predicate symbols applied in a term, each with its SSA index. -/
def Expression.predicates : Expression → List (String × Nat)
  | .boolLit _ => []
  | .intLit _ => []
  | .symbol _ _ => []
  | .op _ arguments => Expression.predicatesOfAll arguments
  | .apply predicate index arguments => (predicate, index) :: Expression.predicatesOfAll arguments
/-- The predicate symbols applied in the terms of a list. -/
def Expression.predicatesOfAll : List Expression → List (String × Nat)
  | [] => []
  | e :: rest => e.predicates ++ Expression.predicatesOfAll rest
end

/-- Whether a term is the application of a predicate symbol. -/
def Expression.isApplication : Expression → Bool
  | .apply _ _ _ => true
  | _ => false

/-- Whether a rule has the Horn shape `(P ∧ assumptions) ∧ constraints ⟹ Q`, with
`P` and `Q` applications of predicate symbols. -/
def Expression.isHorn : Expression → Bool
  | .op "implies" [.op "and" [.op "and" [p, _], _], q] => p.isApplication && q.isApplication
  | _ => false

/-- A predicate symbol, at an SSA index, was passed to `register_relation` in a
list of calls. -/
def registered (calls : List SolverCall) (p : String × Nat) : Prop :=
  ∃ sort, SolverCall.registerRelation p.1 p.2 sort ∈ calls

/-- Every predicate symbol applied in a term was registered in a list of calls. -/
def Expression.RegisteredIn (calls : List SolverCall) (e : Expression) : Prop :=
  ∀ p ∈ e.predicates, registered calls p

/-- In a list of calls, every predicate symbol applied in a rule was registered
before the rule was added. -/
def RulesRegistered (calls : List SolverCall) : Prop :=
  ∀ (before after : List SolverCall) (rule : Expression) (name : String),
    calls = before ++ SolverCall.addRule rule name :: after → rule.RegisteredIn before

/-- In a list of calls, every rule is the fact `genesis` or has the Horn shape. -/
def RulesHorn (calls : List SolverCall) : Prop :=
  ∀ (rule : Expression) (name : String), SolverCall.addRule rule name ∈ calls →
    rule = .apply "genesis" 0 [] ∨ rule.isHorn = true

end smt

/-- What is known of the calls received by the solver adapter, and stays known
when further calls are received. -/
structure Known where
  holds : List smt.SolverCall → Prop
  mono : ∀ calls more, holds calls → holds (calls ++ more)

namespace Known

/-- Nothing is known. -/
def top : Known := ⟨fun _ => True, fun _ _ h => h⟩

/-- Both are known. -/
def and (a b : Known) : Known :=
  ⟨fun calls => a.holds calls ∧ b.holds calls, fun calls more h => ⟨a.mono calls more h.1, b.mono calls more h.2⟩⟩

end Known

namespace Known

/-- The predicate symbol is registered. -/
def ofSymbol (b : smt.SymbolicFunctionVariable) : Known :=
  ⟨fun calls => smt.registered calls (b.uniqueName, b.index),
    fun _ _ h => h.imp fun _ hs => List.mem_append_left _ hs⟩

/-- The predicate symbols of the term are registered. -/
def ofTerm (e : smt.Expression) : Known :=
  ⟨fun calls => e.RegisteredIn calls,
    fun _ _ h p hp => (h p hp).imp fun _ hs => List.mem_append_left _ hs⟩

/-- The term is the application of a predicate symbol and its predicate symbols
are registered. -/
def ofBlock (e : smt.Expression) : Known :=
  ⟨fun calls => e.isApplication = true ∧ e.RegisteredIn calls,
    fun _ _ h => ⟨h.1, fun p hp => (h.2 p hp).imp fun _ hs => List.mem_append_left _ hs⟩⟩

/-- The predicate symbol, when there is one, is registered. -/
def ofOptional (o : Option smt.SymbolicFunctionVariable) : Known :=
  ⟨fun calls => ∀ b, o = some b → smt.registered calls (b.uniqueName, b.index),
    fun _ _ h b hb => (h b hb).imp fun _ hs => List.mem_append_left _ hs⟩

/-- The term applies no predicate symbol. -/
def ofFree (e : smt.Expression) : Known :=
  ⟨fun _ => e.predicates = [], fun _ _ h => h⟩

/-- The terms of the list apply no predicate symbol. -/
def ofFreeList (l : List smt.Expression) : Known :=
  ⟨fun _ => smt.Expression.predicatesOfAll l = [], fun _ _ h => h⟩

end Known

/-- The invariant of the analyzer: what the solver adapter received is in order
(every rule is the fact `genesis` or a Horn rule, and applies registered
predicate symbols only), and the predicate symbols and terms that the analyzer
holds, from which it builds rules, are registered.  When `shaped`, the current
block is the application of a predicate symbol. -/
structure CHC.Invariant (shaped : Bool) (s : CHC) : Prop where
  rules : smt.RulesRegistered s.m_interface.calls
  horn : smt.RulesHorn s.m_interface.calls
  currentBlock : s.m_currentBlock.RegisteredIn s.m_interface.calls
  shape : shaped = true → s.m_currentBlock.isApplication = true
  assertions : ∀ e ∈ s.m_context.m_assertions, e.RegisteredIn s.m_interface.calls
  pathConditions : ∀ e ∈ s.m_pathConditions, e.RegisteredIn s.m_interface.calls
  genesis : ∀ b, s.m_genesisPredicate = some b →
    smt.registered s.m_interface.calls (b.uniqueName, b.index)
  interface : ∀ b, s.m_interfacePredicate = some b →
    smt.registered s.m_interface.calls (b.uniqueName, b.index)
  error : ∀ b, s.m_errorPredicate = some b →
    smt.registered s.m_interface.calls (b.uniqueName, b.index)
  constructor : ∀ b, s.m_constructorPredicate = some b →
    smt.registered s.m_interface.calls (b.uniqueName, b.index)
  summaries : ∀ p ∈ s.m_summaries, smt.registered s.m_interface.calls (p.2.uniqueName, p.2.index)
  breakDest : ∀ b, s.m_breakDest = some b →
    smt.registered s.m_interface.calls (b.uniqueName, b.index)
  continueDest : ∀ b, s.m_continueDest = some b →
    smt.registered s.m_interface.calls (b.uniqueName, b.index)

/-- The calls that a run leaves behind are in order. -/
def CHC.InOrder (s : CHC) : Prop :=
  smt.RulesRegistered s.m_interface.calls ∧ smt.RulesHorn s.m_interface.calls

/-- A method keeps the invariant: run in a state that has it (as `pre` says)
and in which `K` is known, it returns in a state that has it (as `post` says),
with the calls extended and `Q` known of the value returned, or it aborts with
the calls in order. -/
structure Visitor.Keeps {α : Type} (pre post : Bool) (K : Known) (m : Visitor α)
    (Q : α → Known) : Prop where
  outcome : ∀ s, CHC.Invariant pre s → K.holds s.m_interface.calls →
    match m s with
    | .ok a s1 =>
      CHC.Invariant post s1 ∧ (∃ l, s1.m_interface.calls = s.m_interface.calls ++ l) ∧
        (Q a).holds s1.m_interface.calls
    | .abort _ s1 => CHC.InOrder s1

/-- What is known entails a fact. -/
class Known.Entails (K Q : Known) : Prop where
  follows : ∀ calls, K.holds calls → Q.holds calls

/-- The assumptions of an Encoding Context apply registered predicate symbols
only. -/
def smt.EncodingContext.Within (calls : List smt.SolverCall) (c : smt.EncodingContext) : Prop :=
  ∀ e ∈ c.m_assertions, e.RegisteredIn calls

/-! ## Concrete programs

Small contracts on which the statements below are evaluated. -/

namespace Example

/-- The function `function f() public {}` of contract 1: public, implemented,
with no assert in its body. -/
def plainFunction : FunctionDefinition :=
  { id := 2, name := "f", kind := .Function, isPublic := true, parameters := [],
    returnParameters := [], localVariables := [],
    body := some (.Block 3 []), scope := 1, location := ⟨13, 35⟩ }

/-- The contract `contract C { function f() public {} }`. -/
def plainContract : ContractDefinition :=
  { id := 1, name := "C", contractKind := .Contract, stateVariablesIncludingInherited := [],
    definedFunctions := [plainFunction], baseContracts := [], location := ⟨0, 37⟩ }

/-- The function `function f() public;` of contract 1: public, not implemented. -/
def declaredFunction : FunctionDefinition :=
  { id := 2, name := "f", kind := .Function, isPublic := true, parameters := [],
    returnParameters := [], localVariables := [],
    body := none, scope := 1, location := ⟨13, 33⟩ }

/-- The contract `contract C { function f() public; }`. -/
def abstractContract : ContractDefinition :=
  { id := 1, name := "C", contractKind := .Contract, stateVariablesIncludingInherited := [],
    definedFunctions := [declaredFunction], baseContracts := [], location := ⟨0, 35⟩ }

/-- The parameter `uint x` of the asserting function. -/
def x : VariableDeclaration :=
  { id := 3, name := "x", sort := .Int, isStateVariable := false,
    hasReferenceOrMappingType := false }

/-- The call `assert(x > 0)`, at the source span 40 to 53. -/
def assertCall : Expression :=
  .FunctionCall 7 .Tuple ⟨40, 53⟩ .FunctionCall .Assert none
    [.BinaryOperation 6 .Bool ">" (.Identifier 4 .Integer x) (.Literal 5 .RationalNumber (.number 0))]

/-- The function `function f(uint x) public { assert(x > 0); }` of contract 1,
at the source span 13 to 56. -/
def assertingFunction : FunctionDefinition :=
  { id := 2, name := "f", kind := .Function, isPublic := true, parameters := [x],
    returnParameters := [], localVariables := [],
    body := some (.Block 9 [.ExpressionStatement 8 assertCall]), scope := 1,
    location := ⟨13, 56⟩ }

/-- The contract `contract C { function f(uint x) public { assert(x > 0); } }`. -/
def assertingContract : ContractDefinition :=
  { id := 1, name := "C", contractKind := .Contract, stateVariablesIncludingInherited := [],
    definedFunctions := [assertingFunction], baseContracts := [], location := ⟨0, 58⟩ }

/-- The contract `contract C {}`. -/
def emptyContract : ContractDefinition :=
  { id := 1, name := "C", contractKind := .Contract, stateVariablesIncludingInherited := [],
    definedFunctions := [], baseContracts := [], location := ⟨0, 13⟩ }

/-- The library `library L { function f() public {} }`. -/
def someLibrary : ContractDefinition :=
  { plainContract with name := "L", contractKind := .Library }

/-- The analyzer at the point where `analyze` starts the walk over the source
unit: the context is cleared, and the genesis predicate is registered and stated
as a fact. -/
def atWalk (answer : List smt.SolverCall → smt.Expression → smt.CheckResult) : CHC :=
  (CHC.analyze ⟨[], true⟩ (CHC.new answer)).state

/-- A contract with the bodies of its functions removed. -/
def declared (c : ContractDefinition) : ContractDefinition :=
  { c with definedFunctions := c.definedFunctions.map fun f => { f with body := none } }

/-- The analyzer at the point where the walk over contract `c`, started by
`analyze`, is about to visit the functions of `c`.  The visit of a function
without a body leaves the analyzer as it is, so that this is the state after
the visit of `c` with the bodies removed, with `c` itself as the current
contract. -/
def atFunctions (c : ContractDefinition)
    (answer : List smt.SolverCall → smt.Expression → smt.CheckResult) : CHC :=
  { (CHC.visitContractDefinition (declared c) (atWalk answer)).state with
    m_currentContract := some c }

/-- The analyzer at the point where the walk over the body of function `f` of
contract `c` has ended and `endVisit` is about to leave `f`: the state that the
visit of `f` leaves, in which `f` is the current function and `c` the current
contract. -/
def atExit (f : FunctionDefinition) (c : ContractDefinition)
    (answer : List smt.SolverCall → smt.Expression → smt.CheckResult) : CHC :=
  { (CHC.visitFunctionDefinition (pure ()) f (atFunctions c answer)).state with
    m_currentFunction := some f, m_currentContract := some c }

/-- The analyzer at the point where the walk over the body of function `f` of
contract `c` starts: the state that the visit of `f` with an empty body leaves,
in which `f` is the current function and `c` the current contract. -/
def atBody (f : FunctionDefinition) (c : ContractDefinition)
    (answer : List smt.SolverCall → smt.Expression → smt.CheckResult) : CHC :=
  { (CHC.visitFunctionDefinition (pure ())
      { f with body := f.body.map fun b => .Block b.id [] } (atFunctions c answer)).state with
    m_currentFunction := some f, m_currentContract := some c }

/-- The analyzer at the point where, in the body of function `f` of contract
`c`, the arguments of a call have been visited and the call itself is about to
be handled. -/
def atCall (call : Expression) (f : FunctionDefinition) (c : ContractDefinition)
    (answer : List smt.SolverCall → smt.Expression → smt.CheckResult) : CHC :=
  { (Expression.acceptAll call.arguments (atBody f c answer)).state with
    m_currentFunction := some f, m_currentContract := some c }

/-- The state variable `uint y` of the calling contract. -/
def y : VariableDeclaration :=
  { id := 11, name := "y", sort := .Int, isStateVariable := true,
    hasReferenceOrMappingType := false }

/-- The parameter `uint a` of the called function. -/
def a : VariableDeclaration :=
  { id := 12, name := "a", sort := .Int, isStateVariable := false,
    hasReferenceOrMappingType := false }

/-- The return parameter `uint r` of the called function. -/
def r : VariableDeclaration :=
  { id := 13, name := "r", sort := .Int, isStateVariable := false,
    hasReferenceOrMappingType := false }

/-- The function `function g(uint a) internal returns (uint r) {}` of contract 1. -/
def calledFunction : FunctionDefinition :=
  { id := 14, name := "g", kind := .Function, isPublic := false, parameters := [a],
    returnParameters := [r], localVariables := [],
    body := some (.Block 15 []), scope := 1, location := ⟨25, 75⟩ }

/-- The call `g(x)`, resolved to the called function. -/
def internalCall : Expression :=
  .FunctionCall 17 .Integer ⟨110, 114⟩ .FunctionCall .Internal (some ⟨14, [r]⟩) [.Identifier 16 .Integer x]

/-- The function `function f(uint x) public { g(x); }` of contract 1. -/
def callingFunction : FunctionDefinition :=
  { id := 2, name := "f", kind := .Function, isPublic := true, parameters := [x],
    returnParameters := [], localVariables := [],
    body := some (.Block 19 [.ExpressionStatement 18 internalCall]), scope := 1,
    location := ⟨80, 117⟩ }

/-- The contract `contract C { uint y; function g(uint a) internal returns (uint r) {}
function f(uint x) public { g(x); } }`. -/
def callingContract : ContractDefinition :=
  { id := 1, name := "C", contractKind := .Contract, stateVariablesIncludingInherited := [y],
    definedFunctions := [calledFunction, callingFunction], baseContracts := [],
    location := ⟨0, 119⟩ }

/-- The loop `do { assert(x > 0); } while (x > 0);`. -/
def assertingLoop : Statement :=
  .WhileStatement 24 (.BinaryOperation 23 .Bool ">" (.Identifier 21 .Integer x) (.Literal 22 .RationalNumber (.number 0)))
    (.Block 20 [.ExpressionStatement 8 assertCall]) true

/-- The function `function f(uint x) public { do { assert(x > 0); } while (x > 0); }`
of contract 1. -/
def loopingFunction : FunctionDefinition :=
  { id := 2, name := "f", kind := .Function, isPublic := true, parameters := [x],
    returnParameters := [], localVariables := [],
    body := some (.Block 25 [assertingLoop]), scope := 1, location := ⟨13, 80⟩ }

/-- The contract `contract C { function f(uint x) public { do { assert(x > 0); }
while (x > 0); } }`. -/
def loopingContract : ContractDefinition :=
  { id := 1, name := "C", contractKind := .Contract, stateVariablesIncludingInherited := [],
    definedFunctions := [loopingFunction], baseContracts := [], location := ⟨0, 82⟩ }

/-- The parameter `bool c` of function 2. -/
def flag : VariableDeclaration :=
  { id := 33, name := "c", sort := .Bool, isStateVariable := false,
    hasReferenceOrMappingType := false }

/-- The loop `do { if (c) break; } while (false);`. -/
def breakingLoop : Statement :=
  .WhileStatement 39 (.Literal 38 .Bool (.boolean false))
    (.Block 37 [.IfStatement 36 (.Identifier 34 .Bool flag) (.Break 35) none]) true

/-- The function `function f(bool c) public { do { if (c) break; } while (false); }`
of contract 1. -/
def breakingFunction : FunctionDefinition :=
  { id := 2, name := "f", kind := .Function, isPublic := true, parameters := [flag],
    returnParameters := [], localVariables := [],
    body := some (.Block 40 [breakingLoop]), scope := 1, location := ⟨13, 80⟩ }

/-- The contract `contract C { function f(bool c) public { do { if (c) break; }
while (false); } }`. -/
def breakingContract : ContractDefinition :=
  { id := 1, name := "C", contractKind := .Contract, stateVariablesIncludingInherited := [],
    definedFunctions := [breakingFunction], baseContracts := [], location := ⟨0, 82⟩ }

/-- The condition `x > 0`. -/
def positive : Expression :=
  .BinaryOperation 43 .Bool ">" (.Identifier 41 .Integer x) (.Literal 42 .RationalNumber (.number 0))

/-- The contract `contract C { f }` of the one function `f`. -/
def contractOf (f : FunctionDefinition) : ContractDefinition :=
  { id := 1, name := "C", contractKind := .Contract, stateVariablesIncludingInherited := [],
    definedFunctions := [f], baseContracts := [], location := ⟨0, 82⟩ }

/-- The function `function f(uint x) public { st }` of the calling contract. -/
def callerOf (st : Statement) : FunctionDefinition :=
  { callingFunction with body := some (.Block 19 [st]) }

/-- The contract `contract C { uint y; function g(uint a) internal returns (uint r) {}
f }`, with `f` for its calling function. -/
def callingContractOf (f : FunctionDefinition) : ContractDefinition :=
  { callingContract with definedFunctions := [calledFunction, f] }

/-- The rules that the walk over the statement `st`, as the body of function `f`
of contract `c`, hands to the solver adapter, each by the block on its
left-hand side, the block it implies and its name. -/
def stepsOf (st : Statement) (f : FunctionDefinition) (c : ContractDefinition) :
    List (String × String × String) :=
  ((st.accept (atBody f c fun _ _ => .UNSATISFIABLE)).state.m_interface.calls.drop
    (atBody f c fun _ _ => .UNSATISFIABLE).m_interface.calls.length).filterMap
    smt.SolverCall.step

/-- The call `this.h()`, an external call, which resolves to no definition. -/
def externalCall : Expression :=
  .FunctionCall 60 .Tuple ⟨100, 108⟩ .FunctionCall .External none []

/-- The statement `if (x > 0) { this.h(); }`. -/
def ifExternal : Statement :=
  .IfStatement 63 positive (.Block 62 [.ExpressionStatement 61 externalCall]) none

/-- The condition `x > 1`. -/
def large : Expression :=
  .BinaryOperation 66 .Bool ">" (.Identifier 64 .Integer x) (.Literal 65 .RationalNumber (.number 1))

/-- The statement `if (x > 1) { if (x > 0) { this.h(); } }`. -/
def nestedIf : Statement :=
  .IfStatement 68 large (.Block 67 [ifExternal]) none

/-- The loop `while (x > 1) { if (x > 0) { this.h(); } }`. -/
def whileNested : Statement :=
  .WhileStatement 68 large (.Block 67 [ifExternal]) false

/-- The loop `while (x > 0) { break; }`. -/
def innerLoop : Statement :=
  .WhileStatement 72 positive (.Block 71 [.Break 70]) false

/-- The loop `while (x > 1) { while (x > 0) { break; } break; }`. -/
def nestedLoops : Statement :=
  .WhileStatement 75 large (.Block 74 [innerLoop, .Break 73]) false

/-- The analyzer at the point where the walk over the statement `st`, as the body
of the calling function of the calling contract, starts. -/
def atStatement (st : Statement) : CHC :=
  atBody (callerOf st) (callingContractOf (callerOf st)) fun _ _ => .UNSATISFIABLE

/-- The analyzer at the point where the visit of the if statement
`if (x > 1) { if (x > 0) { this.h(); } }` hands over to the walk over its true
branch: the visit is stopped there. -/
def atTrueBranch : CHC :=
  (CHC.visitIfStatement 68 large (67, fun s => .abort "" s) none (atStatement nestedIf)).state

/-- The analyzer at the point where the visit of the loop
`while (x > 1) { while (x > 0) { break; } break; }` hands over to the walk over
its body: the visit is stopped there. -/
def atLoopBody : CHC :=
  (CHC.visitWhileStatement 75 false large (74, fun s => .abort "" s)
    (atStatement nestedLoops)).state

/-- The local variable `uint z` of the function with a local variable. -/
def z : VariableDeclaration :=
  { id := 80, name := "z", sort := .Int, isStateVariable := false,
    hasReferenceOrMappingType := false }

/-- The function `function f(uint x) public { uint z; }` of contract 1. -/
def localFunction : FunctionDefinition :=
  { id := 2, name := "f", kind := .Function, isPublic := true, parameters := [x],
    returnParameters := [], localVariables := [z],
    body := some (.Block 82 [.VariableDeclarationStatement 81 z none]), scope := 1,
    location := ⟨13, 50⟩ }

/-- The constructor `constructor() public {}` of contract 1. -/
def emptyConstructor : FunctionDefinition :=
  { id := 2, name := "", kind := .Constructor, isPublic := true, parameters := [],
    returnParameters := [], localVariables := [],
    body := some (.Block 3 []), scope := 1, location := ⟨20, 45⟩ }

/-- The contract `contract C { uint y; constructor() public {} }`. -/
def constructorContract : ContractDefinition :=
  { id := 1, name := "C", contractKind := .Contract, stateVariablesIncludingInherited := [y],
    definedFunctions := [emptyConstructor], baseContracts := [], location := ⟨0, 47⟩ }

/-- The constructor `constructor(uint x) public { assert(x > 0); }` of contract 1. -/
def assertingConstructor : FunctionDefinition :=
  { id := 2, name := "", kind := .Constructor, isPublic := true, parameters := [x],
    returnParameters := [], localVariables := [],
    body := some (.Block 9 [.ExpressionStatement 8 assertCall]), scope := 1,
    location := ⟨13, 60⟩ }

/-- The contract `contract C { constructor(uint x) public { assert(x > 0); } }`. -/
def assertingConstructorContract : ContractDefinition :=
  { id := 1, name := "C", contractKind := .Contract, stateVariablesIncludingInherited := [],
    definedFunctions := [assertingConstructor], baseContracts := [], location := ⟨0, 62⟩ }

/-- The constructor `constructor() public {}` of the base contract 90. -/
def baseConstructor : FunctionDefinition :=
  { id := 91, name := "", kind := .Constructor, isPublic := true, parameters := [],
    returnParameters := [], localVariables := [],
    body := some (.Block 92 []), scope := 90, location := ⟨13, 38⟩ }

/-- The contract `contract C is B { constructor() public {} }`, with the base
`contract B { constructor() public {} }`. -/
def derivedContract : ContractDefinition :=
  { id := 1, name := "C", contractKind := .Contract, stateVariablesIncludingInherited := [],
    definedFunctions := [emptyConstructor], baseContracts := [⟨90, "B", [baseConstructor]⟩],
    location := ⟨40, 90⟩ }

/-- The calls that the analysis of the one contract `c` hands to the solver
adapter: a rule by its name, a registration by the name of the predicate. -/
def callsOf (c : ContractDefinition) : List String :=
  (CHC.analyze ⟨[c], true⟩ (CHC.new fun _ _ => .UNSATISFIABLE)).state.m_interface.calls.map
    fun call =>
      match call with
      | .addRule _ name => name
      | .registerRelation name _ _ => "register " ++ name
      | .query goal => "query " ++ goal.name

/-- The rules that the analysis of the one contract `c` hands to the solver
adapter, each by the block on its left-hand side, the block it implies and its
name. -/
def rulesOf (c : ContractDefinition) : List (String × String × String) :=
  (CHC.analyze ⟨[c], true⟩ (CHC.new fun _ _ => .UNSATISFIABLE)).state.m_interface.calls.filterMap
    smt.SolverCall.step

/-- The analyzer at the point where the visit of the inner if statement of
`if (x > 1) { if (x > 0) { this.h(); } }` hands over to the walk over its true
branch: the visit is stopped there. -/
def atInnerBranch : CHC :=
  (CHC.visitIfStatement 63 positive (62, fun s => .abort "" s) none atTrueBranch).state

/-- The analyzer at the point where the visit of the loop
`while (x > 1) { if (x > 0) { this.h(); } }` hands over to the walk over its
body: the visit is stopped there. -/
def atNestingBody : CHC :=
  (CHC.visitWhileStatement 68 false large (67, fun s => .abort "" s)
    (atStatement whileNested)).state

/-- The analyzer at the point where the visit of the if statement in the body of
`while (x > 1) { if (x > 0) { this.h(); } }` hands over to the walk over its
true branch: the visit is stopped there. -/
def atBranchInLoop : CHC :=
  (CHC.visitIfStatement 63 positive (62, fun s => .abort "" s) none atNestingBody).state

/-- A source unit with two contracts whose functions have the same name and the
same node ids. -/
def twoContracts : SourceUnit :=
  ⟨[plainContract, assertingContract], true⟩

end Example

/-! ## Running a method: unfolding lemmas -/

namespace Visitor

@[simp] theorem pure_run {α : Type} (a : α) (s : CHC) : (Pure.pure a : Visitor α) s = .ok a s := rfl

@[simp] theorem ret_run {α : Type} (a : α) (s : CHC) : (ret a : Visitor α) s = .ok a s := rfl

@[simp] theorem read_run {α : Type} (f : CHC → α) (s : CHC) : read f s = .ok (f s) s := rfl

@[simp] theorem update_run (f : CHC → CHC) (s : CHC) : update f s = .ok () (f s) := rfl

theorem bind_run {α β : Type} (m : Visitor α) (f : α → Visitor β) (s : CHC) :
    (m >>= f) s = match m s with
      | .ok a s1 => f a s1
      | .abort msg s1 => .abort msg s1 := rfl

@[simp] theorem bind_run_ok {α β : Type} (m : Visitor α) (f : α → Visitor β) (s s1 : CHC) (a : α)
    (h : m s = .ok a s1) : (m >>= f) s = f a s1 := by
  rw [bind_run, h]

@[simp] theorem bind_run_abort {α β : Type} (m : Visitor α) (f : α → Visitor β) (s s1 : CHC) (msg : String)
    (h : m s = .abort msg s1) : (m >>= f) s = .abort msg s1 := by
  rw [bind_run, h]

@[simp] theorem andThen_run {α β : Type} (m : Visitor α) (f : α → Visitor β) (s : CHC) :
    andThen m f s = (m >>= f) s := rfl

@[simp] theorem deref_some {α : Type} (f : CHC → Option α) (what : String) (s : CHC) (a : α)
    (h : f s = some a) : deref f what s = .ok a s := by
  simp [deref, h]

@[simp] theorem deref_none {α : Type} (f : CHC → Option α) (what : String) (s : CHC)
    (h : f s = none) : deref f what s = .abort ("null dereference: " ++ what) s := by
  simp [deref, h]

end Visitor

@[simp] theorem solAssert_true (message : String) (s : CHC) :
    solAssert true message s = .ok () s := rfl

@[simp] theorem solAssert_false (message : String) (s : CHC) :
    solAssert false message s = .abort message s := rfl


/-! ## Properties that every step of a walk respects -/

namespace Visitor.Respects

theorem pure {α : Type} {R : CHC → CHC → Prop} (h : StateOrder R) (a : α) :
    Respects R (Pure.pure a : Visitor α) :=
  fun s => h.refl s

theorem bind {α β : Type} {R : CHC → CHC → Prop} (h : StateOrder R) {m : Visitor α}
    {f : α → Visitor β} (hm : Respects R m) (hf : ∀ a, Respects R (f a)) :
    Respects R (m >>= f) := by
  intro s
  rw [Visitor.bind_run]
  have h1 := hm s
  cases hms : m s with
  | ok a s1 =>
    rw [hms] at h1
    exact h.trans _ _ _ h1 (hf a s1)
  | abort msg s1 =>
    rw [hms] at h1
    exact h1

theorem read {α : Type} {R : CHC → CHC → Prop} (h : StateOrder R) (f : CHC → α) :
    Respects R (Visitor.read f) :=
  fun s => h.refl s

theorem deref {α : Type} {R : CHC → CHC → Prop} (h : StateOrder R) (f : CHC → Option α)
    (what : String) : Respects R (Visitor.deref f what) := by
  intro s
  unfold Visitor.deref
  cases f s <;> exact h.refl s

theorem solAssert {R : CHC → CHC → Prop} (h : StateOrder R) (c : Bool) (msg : String) :
    Respects R (solAssert c msg) := by
  intro s
  cases c <;> exact h.refl s

theorem update {R : CHC → CHC → Prop} (f : CHC → CHC) (hf : ∀ s, R s (f s)) :
    Respects R (Visitor.update f) :=
  fun s => hf s

theorem forEach {α : Type} {R : CHC → CHC → Prop} (h : StateOrder R) {f : α → Visitor Unit}
    (hf : ∀ a, Respects R (f a)) : ∀ l : List α, Respects R (Visitor.forEach f l)
  | [] => fun s => h.refl s
  | a :: rest => by
    unfold Visitor.forEach
    exact bind h (hf a) (fun _ => forEach h hf rest)

theorem mono {α : Type} {R R1 : CHC → CHC → Prop} (h : ∀ s s1, R s s1 → R1 s s1) {m : Visitor α}
    (hm : Respects R m) : Respects R1 m :=
  fun s => h _ _ (hm s)

theorem run {α : Type} {R : CHC → CHC → Prop} {m : Visitor α} (hm : Respects R m) (s : CHC) :
    R s (m s).state :=
  hm s

theorem run_ok {α : Type} {R : CHC → CHC → Prop} {m : Visitor α} (hm : Respects R m) {s s1 : CHC}
    {a : α} (h : m s = .ok a s1) : R s s1 := by
  have := hm s
  rw [h] at this
  exact this

theorem of_run {α : Type} {R : CHC → CHC → Prop} {m : Visitor α} (h : ∀ s, R s (m s).state) :
    Respects R m :=
  h

end Visitor.Respects

theorem BodyFrame.bodyOrder : StateOrder BodyFrame where
  refl s := ⟨rfl, rfl, rfl, rfl, rfl, rfl, rfl, rfl, rfl, rfl, rfl, rfl, [], by simp, by simp⟩
  trans s1 s2 s3 h12 h23 := by
    obtain ⟨l1, hl1, hq1⟩ := h12.calls
    obtain ⟨l2, hl2, hq2⟩ := h23.calls
    refine ⟨h23.functionErrors.trans h12.functionErrors, h23.errorPredicate.trans h12.errorPredicate,
      h23.genesisPredicate.trans h12.genesisPredicate,
      h23.interfacePredicate.trans h12.interfacePredicate,
      h23.constructorPredicate.trans h12.constructorPredicate,
      h23.summaries.trans h12.summaries, h23.currentContract.trans h12.currentContract,
      h23.currentFunction.trans h12.currentFunction, h23.stateVariables.trans h12.stateVariables,
      h23.stateSorts.trans h12.stateSorts, h23.reporter.trans h12.reporter,
      h23.answer.trans h12.answer, l1 ++ l2, ?_, ?_⟩
    · rw [hl2, hl1, List.append_assoc]
    · intro e he
      rcases List.mem_append.mp he with h | h
      · exact hq1 e h
      · exact hq2 e h

/-- A change of the state that touches none of the framed members and adds no
call respects the frame. -/
theorem BodyFrame.of_eq (s s1 : CHC)
    (h1 : s1.m_functionErrors = s.m_functionErrors) (h2 : s1.m_errorPredicate = s.m_errorPredicate)
    (h3 : s1.m_genesisPredicate = s.m_genesisPredicate)
    (h4 : s1.m_interfacePredicate = s.m_interfacePredicate)
    (h5 : s1.m_constructorPredicate = s.m_constructorPredicate)
    (h6 : s1.m_summaries = s.m_summaries) (h7 : s1.m_currentContract = s.m_currentContract)
    (h8 : s1.m_currentFunction = s.m_currentFunction)
    (h9 : s1.m_stateVariables = s.m_stateVariables) (h10 : s1.m_stateSorts = s.m_stateSorts)
    (h11 : s1.m_outerErrorReporter = s.m_outerErrorReporter)
    (h12 : s1.m_interface = s.m_interface) : BodyFrame s s1 :=
  ⟨h1, h2, h3, h4, h5, h6, h7, h8, h9, h10, h11, by rw [h12], [], by simp [h12], by simp⟩

/-- An update of members outside the frame respects the frame. -/
theorem BodyFrame.bodyUpdate (f : CHC → CHC)
    (h : ∀ s, (f s).m_functionErrors = s.m_functionErrors ∧
      (f s).m_errorPredicate = s.m_errorPredicate ∧
      (f s).m_genesisPredicate = s.m_genesisPredicate ∧
      (f s).m_interfacePredicate = s.m_interfacePredicate ∧
      (f s).m_constructorPredicate = s.m_constructorPredicate ∧
      (f s).m_summaries = s.m_summaries ∧ (f s).m_currentContract = s.m_currentContract ∧
      (f s).m_currentFunction = s.m_currentFunction ∧
      (f s).m_stateVariables = s.m_stateVariables ∧ (f s).m_stateSorts = s.m_stateSorts ∧
      (f s).m_outerErrorReporter = s.m_outerErrorReporter ∧
      (f s).m_interface = s.m_interface) : Visitor.Respects BodyFrame (Visitor.update f) := by
  intro s
  obtain ⟨h1, h2, h3, h4, h5, h6, h7, h8, h9, h10, h11, h12⟩ := h s
  exact BodyFrame.of_eq _ _ h1 h2 h3 h4 h5 h6 h7 h8 h9 h10 h11 h12

/-- An update that only appends calls other than queries respects the frame. -/
theorem BodyFrame.update_calls (f : CHC → CHC) (l : CHC → List smt.SolverCall)
    (hl : ∀ s, ∀ e ∈ l s, ∀ g, e ≠ .query g)
    (h : ∀ s, (f s).m_functionErrors = s.m_functionErrors ∧
      (f s).m_errorPredicate = s.m_errorPredicate ∧
      (f s).m_genesisPredicate = s.m_genesisPredicate ∧
      (f s).m_interfacePredicate = s.m_interfacePredicate ∧
      (f s).m_constructorPredicate = s.m_constructorPredicate ∧
      (f s).m_summaries = s.m_summaries ∧ (f s).m_currentContract = s.m_currentContract ∧
      (f s).m_currentFunction = s.m_currentFunction ∧
      (f s).m_stateVariables = s.m_stateVariables ∧ (f s).m_stateSorts = s.m_stateSorts ∧
      (f s).m_outerErrorReporter = s.m_outerErrorReporter ∧
      (f s).m_interface.answer = s.m_interface.answer ∧
      (f s).m_interface.calls = s.m_interface.calls ++ l s) :
    Visitor.Respects BodyFrame (Visitor.update f) := by
  intro s
  obtain ⟨h1, h2, h3, h4, h5, h6, h7, h8, h9, h10, h11, h12, h13⟩ := h s
  exact ⟨h1, h2, h3, h4, h5, h6, h7, h8, h9, h10, h11, h12, l s, h13, hl s⟩

theorem CHC.addRule_frame (r : smt.Expression) (n : String) :
    Visitor.Respects BodyFrame (CHC.addRule r n) :=
  BodyFrame.update_calls _ (fun _ => [.addRule r n]) (by simp)
    (fun _ => ⟨rfl, rfl, rfl, rfl, rfl, rfl, rfl, rfl, rfl, rfl, rfl, rfl, rfl⟩)

theorem CHC.registerRelation_frame (b : smt.SymbolicFunctionVariable) :
    Visitor.Respects BodyFrame
      (Visitor.update fun s => { s with m_interface := s.m_interface.registerRelation b }) :=
  BodyFrame.update_calls _ (fun _ => [.registerRelation b.uniqueName b.index b.sort]) (by simp)
    (fun _ => ⟨rfl, rfl, rfl, rfl, rfl, rfl, rfl, rfl, rfl, rfl, rfl, rfl, rfl⟩)

theorem CHC.uniquePrefix_frame : Visitor.Respects BodyFrame CHC.uniquePrefix := by
  intro s
  exact BodyFrame.of_eq _ _ rfl rfl rfl rfl rfl rfl rfl rfl rfl rfl rfl rfl

attribute [irreducible] Visitor.Respects

theorem SMTEncoder.createReturnedExpressions_frame (c : Expression) :
    Visitor.Respects BodyFrame (SMTEncoder.createReturnedExpressions c) := by
  unfold SMTEncoder.createReturnedExpressions
  repeat' (first
    | assumption
    | apply Visitor.Respects.bind BodyFrame.bodyOrder
    | apply Visitor.Respects.pure BodyFrame.bodyOrder
    | apply Visitor.Respects.read BodyFrame.bodyOrder
    | apply Visitor.Respects.deref BodyFrame.bodyOrder
    | apply Visitor.Respects.solAssert BodyFrame.bodyOrder
    | apply Visitor.Respects.forEach BodyFrame.bodyOrder
    | exact BodyFrame.bodyUpdate _ (fun _ => ⟨rfl, rfl, rfl, rfl, rfl, rfl, rfl, rfl, rfl, rfl, rfl, rfl⟩)
    | with_reducible exact CHC.addRule_frame _ _
    | with_reducible exact CHC.registerRelation_frame _
    | with_reducible exact CHC.uniquePrefix_frame
    | intro _
    | split
    | contradiction
    | dsimp only)

theorem CHC.sortNode_frame (n : ASTNode) :
    Visitor.Respects BodyFrame (CHC.sortNode n) := by
  unfold CHC.sortNode
  repeat' (first
    | assumption
    | apply Visitor.Respects.bind BodyFrame.bodyOrder
    | apply Visitor.Respects.pure BodyFrame.bodyOrder
    | apply Visitor.Respects.read BodyFrame.bodyOrder
    | apply Visitor.Respects.deref BodyFrame.bodyOrder
    | apply Visitor.Respects.solAssert BodyFrame.bodyOrder
    | apply Visitor.Respects.forEach BodyFrame.bodyOrder
    | exact BodyFrame.bodyUpdate _ (fun _ => ⟨rfl, rfl, rfl, rfl, rfl, rfl, rfl, rfl, rfl, rfl, rfl, rfl⟩)
    | with_reducible exact CHC.addRule_frame _ _
    | with_reducible exact CHC.registerRelation_frame _
    | with_reducible exact CHC.uniquePrefix_frame
    | intro _
    | split
    | contradiction
    | dsimp only)

theorem CHC.createBlock_frame (n : ASTNode) (p : String) :
    Visitor.Respects BodyFrame (CHC.createBlock n p) := by
  unfold CHC.createBlock
  repeat' (first
    | assumption
    | with_reducible exact CHC.sortNode_frame _
    | with_reducible exact CHC.createSymbolicBlock_frame _ _
    | apply Visitor.Respects.bind BodyFrame.bodyOrder
    | apply Visitor.Respects.pure BodyFrame.bodyOrder
    | apply Visitor.Respects.read BodyFrame.bodyOrder
    | apply Visitor.Respects.deref BodyFrame.bodyOrder
    | apply Visitor.Respects.solAssert BodyFrame.bodyOrder
    | apply Visitor.Respects.forEach BodyFrame.bodyOrder
    | exact BodyFrame.bodyUpdate _ (fun _ => ⟨rfl, rfl, rfl, rfl, rfl, rfl, rfl, rfl, rfl, rfl, rfl, rfl⟩)
    | with_reducible exact CHC.addRule_frame _ _
    | with_reducible exact CHC.registerRelation_frame _
    | with_reducible exact CHC.uniquePrefix_frame
    | intro _
    | split
    | contradiction
    | dsimp only)

theorem CHC.clearIndices_frame (c : Option ContractDefinition) (f : Option FunctionDefinition) :
    Visitor.Respects BodyFrame (CHC.clearIndices c f) := by
  unfold CHC.clearIndices SMTEncoder.clearIndices
  repeat' (first
    | assumption
    | apply Visitor.Respects.bind BodyFrame.bodyOrder
    | apply Visitor.Respects.pure BodyFrame.bodyOrder
    | apply Visitor.Respects.read BodyFrame.bodyOrder
    | apply Visitor.Respects.deref BodyFrame.bodyOrder
    | apply Visitor.Respects.solAssert BodyFrame.bodyOrder
    | apply Visitor.Respects.forEach BodyFrame.bodyOrder
    | exact BodyFrame.bodyUpdate _ (fun _ => ⟨rfl, rfl, rfl, rfl, rfl, rfl, rfl, rfl, rfl, rfl, rfl, rfl⟩)
    | with_reducible exact CHC.addRule_frame _ _
    | with_reducible exact CHC.registerRelation_frame _
    | with_reducible exact CHC.uniquePrefix_frame
    | intro _
    | split
    | contradiction
    | dsimp only)

theorem CHC.currentStateVariables_frame :
    Visitor.Respects BodyFrame CHC.currentStateVariables := by
  unfold CHC.currentStateVariables
  repeat' (first
    | assumption
    | apply Visitor.Respects.bind BodyFrame.bodyOrder
    | apply Visitor.Respects.pure BodyFrame.bodyOrder
    | apply Visitor.Respects.read BodyFrame.bodyOrder
    | apply Visitor.Respects.deref BodyFrame.bodyOrder
    | apply Visitor.Respects.solAssert BodyFrame.bodyOrder
    | apply Visitor.Respects.forEach BodyFrame.bodyOrder
    | exact BodyFrame.bodyUpdate _ (fun _ => ⟨rfl, rfl, rfl, rfl, rfl, rfl, rfl, rfl, rfl, rfl, rfl, rfl⟩)
    | with_reducible exact CHC.addRule_frame _ _
    | with_reducible exact CHC.registerRelation_frame _
    | with_reducible exact CHC.uniquePrefix_frame
    | intro _
    | split
    | contradiction
    | dsimp only)

theorem CHC.initialStateVariables_frame :
    Visitor.Respects BodyFrame CHC.initialStateVariables := by
  unfold CHC.initialStateVariables CHC.stateVariablesAtIndex
  repeat' (first
    | assumption
    | apply Visitor.Respects.bind BodyFrame.bodyOrder
    | apply Visitor.Respects.pure BodyFrame.bodyOrder
    | apply Visitor.Respects.read BodyFrame.bodyOrder
    | apply Visitor.Respects.deref BodyFrame.bodyOrder
    | apply Visitor.Respects.solAssert BodyFrame.bodyOrder
    | apply Visitor.Respects.forEach BodyFrame.bodyOrder
    | exact BodyFrame.bodyUpdate _ (fun _ => ⟨rfl, rfl, rfl, rfl, rfl, rfl, rfl, rfl, rfl, rfl, rfl, rfl⟩)
    | with_reducible exact CHC.addRule_frame _ _
    | with_reducible exact CHC.registerRelation_frame _
    | with_reducible exact CHC.uniquePrefix_frame
    | intro _
    | split
    | contradiction
    | dsimp only)

theorem CHC.currentFunctionVariables_frame :
    Visitor.Respects BodyFrame CHC.currentFunctionVariables := by
  unfold CHC.currentFunctionVariables
  repeat' (first
    | assumption
    | with_reducible exact CHC.currentStateVariables_frame
    | with_reducible exact CHC.initialStateVariables_frame
    | apply Visitor.Respects.bind BodyFrame.bodyOrder
    | apply Visitor.Respects.pure BodyFrame.bodyOrder
    | apply Visitor.Respects.read BodyFrame.bodyOrder
    | apply Visitor.Respects.deref BodyFrame.bodyOrder
    | apply Visitor.Respects.solAssert BodyFrame.bodyOrder
    | apply Visitor.Respects.forEach BodyFrame.bodyOrder
    | exact BodyFrame.bodyUpdate _ (fun _ => ⟨rfl, rfl, rfl, rfl, rfl, rfl, rfl, rfl, rfl, rfl, rfl, rfl⟩)
    | with_reducible exact CHC.addRule_frame _ _
    | with_reducible exact CHC.registerRelation_frame _
    | with_reducible exact CHC.uniquePrefix_frame
    | intro _
    | split
    | contradiction
    | dsimp only)

theorem CHC.currentBlockVariables_frame :
    Visitor.Respects BodyFrame CHC.currentBlockVariables := by
  unfold CHC.currentBlockVariables
  repeat' (first
    | assumption
    | with_reducible exact CHC.currentFunctionVariables_frame
    | apply Visitor.Respects.bind BodyFrame.bodyOrder
    | apply Visitor.Respects.pure BodyFrame.bodyOrder
    | apply Visitor.Respects.read BodyFrame.bodyOrder
    | apply Visitor.Respects.deref BodyFrame.bodyOrder
    | apply Visitor.Respects.solAssert BodyFrame.bodyOrder
    | apply Visitor.Respects.forEach BodyFrame.bodyOrder
    | exact BodyFrame.bodyUpdate _ (fun _ => ⟨rfl, rfl, rfl, rfl, rfl, rfl, rfl, rfl, rfl, rfl, rfl, rfl⟩)
    | with_reducible exact CHC.addRule_frame _ _
    | with_reducible exact CHC.registerRelation_frame _
    | with_reducible exact CHC.uniquePrefix_frame
    | intro _
    | split
    | contradiction
    | dsimp only)

theorem CHC.predicate_frame (b : smt.SymbolicFunctionVariable) :
    Visitor.Respects BodyFrame (CHC.predicate b) := by
  unfold CHC.predicate
  repeat' (first
    | assumption
    | with_reducible exact CHC.currentBlockVariables_frame
    | apply Visitor.Respects.bind BodyFrame.bodyOrder
    | apply Visitor.Respects.pure BodyFrame.bodyOrder
    | apply Visitor.Respects.read BodyFrame.bodyOrder
    | apply Visitor.Respects.deref BodyFrame.bodyOrder
    | apply Visitor.Respects.solAssert BodyFrame.bodyOrder
    | apply Visitor.Respects.forEach BodyFrame.bodyOrder
    | exact BodyFrame.bodyUpdate _ (fun _ => ⟨rfl, rfl, rfl, rfl, rfl, rfl, rfl, rfl, rfl, rfl, rfl, rfl⟩)
    | with_reducible exact CHC.addRule_frame _ _
    | with_reducible exact CHC.registerRelation_frame _
    | with_reducible exact CHC.uniquePrefix_frame
    | intro _
    | split
    | contradiction
    | dsimp only)

theorem CHC.genesis_frame :
    Visitor.Respects BodyFrame CHC.genesis := by
  unfold CHC.genesis
  repeat' (first
    | assumption
    | apply Visitor.Respects.bind BodyFrame.bodyOrder
    | apply Visitor.Respects.pure BodyFrame.bodyOrder
    | apply Visitor.Respects.read BodyFrame.bodyOrder
    | apply Visitor.Respects.deref BodyFrame.bodyOrder
    | apply Visitor.Respects.solAssert BodyFrame.bodyOrder
    | apply Visitor.Respects.forEach BodyFrame.bodyOrder
    | exact BodyFrame.bodyUpdate _ (fun _ => ⟨rfl, rfl, rfl, rfl, rfl, rfl, rfl, rfl, rfl, rfl, rfl, rfl⟩)
    | with_reducible exact CHC.addRule_frame _ _
    | with_reducible exact CHC.registerRelation_frame _
    | with_reducible exact CHC.uniquePrefix_frame
    | intro _
    | split
    | contradiction
    | dsimp only)

theorem CHC.interface_frame :
    Visitor.Respects BodyFrame CHC.interface := by
  unfold CHC.interface
  repeat' (first
    | assumption
    | apply Visitor.Respects.bind BodyFrame.bodyOrder
    | apply Visitor.Respects.pure BodyFrame.bodyOrder
    | apply Visitor.Respects.read BodyFrame.bodyOrder
    | apply Visitor.Respects.deref BodyFrame.bodyOrder
    | apply Visitor.Respects.solAssert BodyFrame.bodyOrder
    | apply Visitor.Respects.forEach BodyFrame.bodyOrder
    | exact BodyFrame.bodyUpdate _ (fun _ => ⟨rfl, rfl, rfl, rfl, rfl, rfl, rfl, rfl, rfl, rfl, rfl, rfl⟩)
    | with_reducible exact CHC.addRule_frame _ _
    | with_reducible exact CHC.registerRelation_frame _
    | with_reducible exact CHC.uniquePrefix_frame
    | intro _
    | split
    | contradiction
    | dsimp only)

theorem CHC.error_frame :
    Visitor.Respects BodyFrame CHC.error := by
  unfold CHC.error
  repeat' (first
    | assumption
    | apply Visitor.Respects.bind BodyFrame.bodyOrder
    | apply Visitor.Respects.pure BodyFrame.bodyOrder
    | apply Visitor.Respects.read BodyFrame.bodyOrder
    | apply Visitor.Respects.deref BodyFrame.bodyOrder
    | apply Visitor.Respects.solAssert BodyFrame.bodyOrder
    | apply Visitor.Respects.forEach BodyFrame.bodyOrder
    | exact BodyFrame.bodyUpdate _ (fun _ => ⟨rfl, rfl, rfl, rfl, rfl, rfl, rfl, rfl, rfl, rfl, rfl, rfl⟩)
    | with_reducible exact CHC.addRule_frame _ _
    | with_reducible exact CHC.registerRelation_frame _
    | with_reducible exact CHC.uniquePrefix_frame
    | intro _
    | split
    | contradiction
    | dsimp only)

theorem CHC.createSymbolicBlock_frame (a : smt.FunctionSort) (n : String) :
    Visitor.Respects BodyFrame (CHC.createSymbolicBlock a n) := by
  unfold CHC.createSymbolicBlock
  repeat' (first
    | assumption
    | apply Visitor.Respects.bind BodyFrame.bodyOrder
    | apply Visitor.Respects.pure BodyFrame.bodyOrder
    | apply Visitor.Respects.read BodyFrame.bodyOrder
    | apply Visitor.Respects.deref BodyFrame.bodyOrder
    | apply Visitor.Respects.solAssert BodyFrame.bodyOrder
    | apply Visitor.Respects.forEach BodyFrame.bodyOrder
    | exact BodyFrame.bodyUpdate _ (fun _ => ⟨rfl, rfl, rfl, rfl, rfl, rfl, rfl, rfl, rfl, rfl, rfl, rfl⟩)
    | with_reducible exact CHC.addRule_frame _ _
    | with_reducible exact CHC.registerRelation_frame _
    | with_reducible exact CHC.uniquePrefix_frame
    | intro _
    | split
    | contradiction
    | dsimp only)

theorem SMTEncoder.initFunction_frame (f : FunctionDefinition) :
    Visitor.Respects BodyFrame (SMTEncoder.initFunction f) := by
  unfold SMTEncoder.initFunction
  repeat' (first
    | assumption
    | with_reducible exact CHC.clearIndices_frame _ _
    | apply Visitor.Respects.bind BodyFrame.bodyOrder
    | apply Visitor.Respects.pure BodyFrame.bodyOrder
    | apply Visitor.Respects.read BodyFrame.bodyOrder
    | apply Visitor.Respects.deref BodyFrame.bodyOrder
    | apply Visitor.Respects.solAssert BodyFrame.bodyOrder
    | apply Visitor.Respects.forEach BodyFrame.bodyOrder
    | exact BodyFrame.bodyUpdate _ (fun _ => ⟨rfl, rfl, rfl, rfl, rfl, rfl, rfl, rfl, rfl, rfl, rfl, rfl⟩)
    | with_reducible exact CHC.addRule_frame _ _
    | with_reducible exact CHC.registerRelation_frame _
    | with_reducible exact CHC.uniquePrefix_frame
    | intro _
    | split
    | contradiction
    | dsimp only)

theorem CHC.setCurrentBlock_frame (b : smt.SymbolicFunctionVariable) (a : Option (List smt.Expression)) :
    Visitor.Respects BodyFrame (CHC.setCurrentBlock b a) := by
  unfold CHC.setCurrentBlock
  repeat' (first
    | assumption
    | with_reducible exact CHC.clearIndices_frame _ _
    | with_reducible exact CHC.predicate_frame _
    | apply Visitor.Respects.bind BodyFrame.bodyOrder
    | apply Visitor.Respects.pure BodyFrame.bodyOrder
    | apply Visitor.Respects.read BodyFrame.bodyOrder
    | apply Visitor.Respects.deref BodyFrame.bodyOrder
    | apply Visitor.Respects.solAssert BodyFrame.bodyOrder
    | apply Visitor.Respects.forEach BodyFrame.bodyOrder
    | exact BodyFrame.bodyUpdate _ (fun _ => ⟨rfl, rfl, rfl, rfl, rfl, rfl, rfl, rfl, rfl, rfl, rfl, rfl⟩)
    | with_reducible exact CHC.addRule_frame _ _
    | with_reducible exact CHC.registerRelation_frame _
    | with_reducible exact CHC.uniquePrefix_frame
    | intro _
    | split
    | contradiction
    | dsimp only)

theorem CHC.summary_frame (f : FunctionDefinition) :
    Visitor.Respects BodyFrame (CHC.summary f) := by
  unfold CHC.summary
  repeat' (first
    | assumption
    | with_reducible exact CHC.currentStateVariables_frame
    | with_reducible exact CHC.initialStateVariables_frame
    | apply Visitor.Respects.bind BodyFrame.bodyOrder
    | apply Visitor.Respects.pure BodyFrame.bodyOrder
    | apply Visitor.Respects.read BodyFrame.bodyOrder
    | apply Visitor.Respects.deref BodyFrame.bodyOrder
    | apply Visitor.Respects.solAssert BodyFrame.bodyOrder
    | apply Visitor.Respects.forEach BodyFrame.bodyOrder
    | exact BodyFrame.bodyUpdate _ (fun _ => ⟨rfl, rfl, rfl, rfl, rfl, rfl, rfl, rfl, rfl, rfl, rfl, rfl⟩)
    | with_reducible exact CHC.addRule_frame _ _
    | with_reducible exact CHC.registerRelation_frame _
    | with_reducible exact CHC.uniquePrefix_frame
    | intro _
    | split
    | contradiction
    | dsimp only)

theorem CHC.predicateCall_frame (c : Expression) :
    Visitor.Respects BodyFrame (CHC.predicateCall c) := by
  unfold CHC.predicateCall
  repeat' (first
    | assumption
    | with_reducible exact CHC.currentStateVariables_frame
    | apply Visitor.Respects.bind BodyFrame.bodyOrder
    | apply Visitor.Respects.pure BodyFrame.bodyOrder
    | apply Visitor.Respects.read BodyFrame.bodyOrder
    | apply Visitor.Respects.deref BodyFrame.bodyOrder
    | apply Visitor.Respects.solAssert BodyFrame.bodyOrder
    | apply Visitor.Respects.forEach BodyFrame.bodyOrder
    | exact BodyFrame.bodyUpdate _ (fun _ => ⟨rfl, rfl, rfl, rfl, rfl, rfl, rfl, rfl, rfl, rfl, rfl, rfl⟩)
    | with_reducible exact CHC.addRule_frame _ _
    | with_reducible exact CHC.registerRelation_frame _
    | with_reducible exact CHC.uniquePrefix_frame
    | intro _
    | split
    | contradiction
    | dsimp only)

theorem CHC.connectBlocks_frame (a b c : smt.Expression) :
    Visitor.Respects BodyFrame (CHC.connectBlocks a b c) := by
  unfold CHC.connectBlocks
  repeat' (first
    | assumption
    | apply Visitor.Respects.bind BodyFrame.bodyOrder
    | apply Visitor.Respects.pure BodyFrame.bodyOrder
    | apply Visitor.Respects.read BodyFrame.bodyOrder
    | apply Visitor.Respects.deref BodyFrame.bodyOrder
    | apply Visitor.Respects.solAssert BodyFrame.bodyOrder
    | apply Visitor.Respects.forEach BodyFrame.bodyOrder
    | exact BodyFrame.bodyUpdate _ (fun _ => ⟨rfl, rfl, rfl, rfl, rfl, rfl, rfl, rfl, rfl, rfl, rfl, rfl⟩)
    | with_reducible exact CHC.addRule_frame _ _
    | with_reducible exact CHC.registerRelation_frame _
    | with_reducible exact CHC.uniquePrefix_frame
    | intro _
    | split
    | contradiction
    | dsimp only)

theorem CHC.eraseKnowledge_frame :
    Visitor.Respects BodyFrame CHC.eraseKnowledge := by
  unfold CHC.eraseKnowledge
  repeat' (first
    | assumption
    | apply Visitor.Respects.bind BodyFrame.bodyOrder
    | apply Visitor.Respects.pure BodyFrame.bodyOrder
    | apply Visitor.Respects.read BodyFrame.bodyOrder
    | apply Visitor.Respects.deref BodyFrame.bodyOrder
    | apply Visitor.Respects.solAssert BodyFrame.bodyOrder
    | apply Visitor.Respects.forEach BodyFrame.bodyOrder
    | exact BodyFrame.bodyUpdate _ (fun _ => ⟨rfl, rfl, rfl, rfl, rfl, rfl, rfl, rfl, rfl, rfl, rfl, rfl⟩)
    | with_reducible exact CHC.addRule_frame _ _
    | with_reducible exact CHC.registerRelation_frame _
    | with_reducible exact CHC.uniquePrefix_frame
    | intro _
    | split
    | contradiction
    | dsimp only)

theorem CHC.visitAssert_frame (c : Expression) :
    Visitor.Respects BodyFrame (CHC.visitAssert c) := by
  unfold CHC.visitAssert
  repeat' (first
    | assumption
    | with_reducible exact CHC.createBlock_frame _ _
    | with_reducible exact CHC.setCurrentBlock_frame _ _
    | with_reducible exact CHC.predicate_frame _
    | with_reducible exact CHC.summary_frame _
    | with_reducible exact CHC.connectBlocks_frame _ _ _
    | with_reducible exact CHC.eraseKnowledge_frame
    | apply Visitor.Respects.bind BodyFrame.bodyOrder
    | apply Visitor.Respects.pure BodyFrame.bodyOrder
    | apply Visitor.Respects.read BodyFrame.bodyOrder
    | apply Visitor.Respects.deref BodyFrame.bodyOrder
    | apply Visitor.Respects.solAssert BodyFrame.bodyOrder
    | apply Visitor.Respects.forEach BodyFrame.bodyOrder
    | exact BodyFrame.bodyUpdate _ (fun _ => ⟨rfl, rfl, rfl, rfl, rfl, rfl, rfl, rfl, rfl, rfl, rfl, rfl⟩)
    | with_reducible exact CHC.addRule_frame _ _
    | with_reducible exact CHC.registerRelation_frame _
    | with_reducible exact CHC.uniquePrefix_frame
    | intro _
    | split
    | contradiction
    | dsimp only)

theorem CHC.internalFunctionCall_frame (c : Expression) :
    Visitor.Respects BodyFrame (CHC.internalFunctionCall c) := by
  unfold CHC.internalFunctionCall
  repeat' (first
    | assumption
    | with_reducible exact CHC.predicateCall_frame _
    | with_reducible exact CHC.createBlock_frame _ _
    | with_reducible exact CHC.setCurrentBlock_frame _ _
    | with_reducible exact CHC.predicate_frame _
    | with_reducible exact CHC.summary_frame _
    | with_reducible exact CHC.connectBlocks_frame _ _ _
    | with_reducible exact CHC.eraseKnowledge_frame
    | apply Visitor.Respects.bind BodyFrame.bodyOrder
    | apply Visitor.Respects.pure BodyFrame.bodyOrder
    | apply Visitor.Respects.read BodyFrame.bodyOrder
    | apply Visitor.Respects.deref BodyFrame.bodyOrder
    | apply Visitor.Respects.solAssert BodyFrame.bodyOrder
    | apply Visitor.Respects.forEach BodyFrame.bodyOrder
    | exact BodyFrame.bodyUpdate _ (fun _ => ⟨rfl, rfl, rfl, rfl, rfl, rfl, rfl, rfl, rfl, rfl, rfl, rfl⟩)
    | with_reducible exact CHC.addRule_frame _ _
    | with_reducible exact CHC.registerRelation_frame _
    | with_reducible exact CHC.uniquePrefix_frame
    | intro _
    | split
    | contradiction
    | dsimp only)

theorem CHC.endVisitFunctionCall_frame (c : Expression) :
    Visitor.Respects BodyFrame (CHC.endVisitFunctionCall c) := by
  unfold CHC.endVisitFunctionCall
  repeat' (first
    | assumption
    | with_reducible exact CHC.visitAssert_frame _
    | with_reducible exact CHC.internalFunctionCall_frame _
    | with_reducible exact SMTEncoder.createReturnedExpressions_frame _
    | with_reducible exact CHC.createBlock_frame _ _
    | with_reducible exact CHC.setCurrentBlock_frame _ _
    | with_reducible exact CHC.predicate_frame _
    | with_reducible exact CHC.summary_frame _
    | with_reducible exact CHC.connectBlocks_frame _ _ _
    | with_reducible exact CHC.eraseKnowledge_frame
    | apply Visitor.Respects.bind BodyFrame.bodyOrder
    | apply Visitor.Respects.pure BodyFrame.bodyOrder
    | apply Visitor.Respects.read BodyFrame.bodyOrder
    | apply Visitor.Respects.deref BodyFrame.bodyOrder
    | apply Visitor.Respects.solAssert BodyFrame.bodyOrder
    | apply Visitor.Respects.forEach BodyFrame.bodyOrder
    | exact BodyFrame.bodyUpdate _ (fun _ => ⟨rfl, rfl, rfl, rfl, rfl, rfl, rfl, rfl, rfl, rfl, rfl, rfl⟩)
    | with_reducible exact CHC.addRule_frame _ _
    | with_reducible exact CHC.registerRelation_frame _
    | with_reducible exact CHC.uniquePrefix_frame
    | intro _
    | split
    | contradiction
    | dsimp only)

theorem CHC.endVisitBreak_frame (i : Nat) :
    Visitor.Respects BodyFrame (CHC.endVisitBreak i) := by
  unfold CHC.endVisitBreak
  repeat' (first
    | assumption
    | with_reducible exact CHC.createBlock_frame _ _
    | with_reducible exact CHC.setCurrentBlock_frame _ _
    | with_reducible exact CHC.predicate_frame _
    | with_reducible exact CHC.summary_frame _
    | with_reducible exact CHC.connectBlocks_frame _ _ _
    | with_reducible exact CHC.eraseKnowledge_frame
    | apply Visitor.Respects.bind BodyFrame.bodyOrder
    | apply Visitor.Respects.pure BodyFrame.bodyOrder
    | apply Visitor.Respects.read BodyFrame.bodyOrder
    | apply Visitor.Respects.deref BodyFrame.bodyOrder
    | apply Visitor.Respects.solAssert BodyFrame.bodyOrder
    | apply Visitor.Respects.forEach BodyFrame.bodyOrder
    | exact BodyFrame.bodyUpdate _ (fun _ => ⟨rfl, rfl, rfl, rfl, rfl, rfl, rfl, rfl, rfl, rfl, rfl, rfl⟩)
    | with_reducible exact CHC.addRule_frame _ _
    | with_reducible exact CHC.registerRelation_frame _
    | with_reducible exact CHC.uniquePrefix_frame
    | intro _
    | split
    | contradiction
    | dsimp only)

theorem CHC.endVisitContinue_frame (i : Nat) :
    Visitor.Respects BodyFrame (CHC.endVisitContinue i) := by
  unfold CHC.endVisitContinue
  repeat' (first
    | assumption
    | with_reducible exact CHC.createBlock_frame _ _
    | with_reducible exact CHC.setCurrentBlock_frame _ _
    | with_reducible exact CHC.predicate_frame _
    | with_reducible exact CHC.summary_frame _
    | with_reducible exact CHC.connectBlocks_frame _ _ _
    | with_reducible exact CHC.eraseKnowledge_frame
    | apply Visitor.Respects.bind BodyFrame.bodyOrder
    | apply Visitor.Respects.pure BodyFrame.bodyOrder
    | apply Visitor.Respects.read BodyFrame.bodyOrder
    | apply Visitor.Respects.deref BodyFrame.bodyOrder
    | apply Visitor.Respects.solAssert BodyFrame.bodyOrder
    | apply Visitor.Respects.forEach BodyFrame.bodyOrder
    | exact BodyFrame.bodyUpdate _ (fun _ => ⟨rfl, rfl, rfl, rfl, rfl, rfl, rfl, rfl, rfl, rfl, rfl, rfl⟩)
    | with_reducible exact CHC.addRule_frame _ _
    | with_reducible exact CHC.registerRelation_frame _
    | with_reducible exact CHC.uniquePrefix_frame
    | intro _
    | split
    | contradiction
    | dsimp only)

mutual
theorem Expression.acceptExpression_frame : ∀ e : Expression, Visitor.Respects BodyFrame e.accept
  | .Literal i category value => by
    rw [Expression.accept]
    repeat' (first
      | assumption
      | with_reducible exact CHC.endVisitFunctionCall_frame _
      | apply Visitor.Respects.bind BodyFrame.bodyOrder
      | apply Visitor.Respects.pure BodyFrame.bodyOrder
      | apply Visitor.Respects.read BodyFrame.bodyOrder
      | apply Visitor.Respects.deref BodyFrame.bodyOrder
      | apply Visitor.Respects.solAssert BodyFrame.bodyOrder
      | apply Visitor.Respects.forEach BodyFrame.bodyOrder
      | exact BodyFrame.bodyUpdate _ (fun _ => ⟨rfl, rfl, rfl, rfl, rfl, rfl, rfl, rfl, rfl, rfl, rfl, rfl⟩)
      | with_reducible exact CHC.addRule_frame _ _
      | with_reducible exact CHC.registerRelation_frame _
      | with_reducible exact CHC.uniquePrefix_frame
      | intro _
      | split
      | contradiction
      | dsimp only)
  | .Identifier i category decl => by
    rw [Expression.accept]
    repeat' (first
      | assumption
      | with_reducible exact CHC.endVisitFunctionCall_frame _
      | apply Visitor.Respects.bind BodyFrame.bodyOrder
      | apply Visitor.Respects.pure BodyFrame.bodyOrder
      | apply Visitor.Respects.read BodyFrame.bodyOrder
      | apply Visitor.Respects.deref BodyFrame.bodyOrder
      | apply Visitor.Respects.solAssert BodyFrame.bodyOrder
      | apply Visitor.Respects.forEach BodyFrame.bodyOrder
      | exact BodyFrame.bodyUpdate _ (fun _ => ⟨rfl, rfl, rfl, rfl, rfl, rfl, rfl, rfl, rfl, rfl, rfl, rfl⟩)
      | with_reducible exact CHC.addRule_frame _ _
      | with_reducible exact CHC.registerRelation_frame _
      | with_reducible exact CHC.uniquePrefix_frame
      | intro _
      | split
      | contradiction
      | dsimp only)
  | .Assignment i category lhs rhs => by
    rw [Expression.accept]
    repeat' (first
      | assumption
      | with_reducible exact Expression.acceptExpression_frame rhs
      | with_reducible exact CHC.endVisitFunctionCall_frame _
      | apply Visitor.Respects.bind BodyFrame.bodyOrder
      | apply Visitor.Respects.pure BodyFrame.bodyOrder
      | apply Visitor.Respects.read BodyFrame.bodyOrder
      | apply Visitor.Respects.deref BodyFrame.bodyOrder
      | apply Visitor.Respects.solAssert BodyFrame.bodyOrder
      | apply Visitor.Respects.forEach BodyFrame.bodyOrder
      | exact BodyFrame.bodyUpdate _ (fun _ => ⟨rfl, rfl, rfl, rfl, rfl, rfl, rfl, rfl, rfl, rfl, rfl, rfl⟩)
      | with_reducible exact CHC.addRule_frame _ _
      | with_reducible exact CHC.registerRelation_frame _
      | with_reducible exact CHC.uniquePrefix_frame
      | intro _
      | split
      | contradiction
      | dsimp only)
  | .UnaryOperation i category operator sub => by
    rw [Expression.accept]
    repeat' (first
      | assumption
      | with_reducible exact Expression.acceptExpression_frame sub
      | with_reducible exact CHC.endVisitFunctionCall_frame _
      | apply Visitor.Respects.bind BodyFrame.bodyOrder
      | apply Visitor.Respects.pure BodyFrame.bodyOrder
      | apply Visitor.Respects.read BodyFrame.bodyOrder
      | apply Visitor.Respects.deref BodyFrame.bodyOrder
      | apply Visitor.Respects.solAssert BodyFrame.bodyOrder
      | apply Visitor.Respects.forEach BodyFrame.bodyOrder
      | exact BodyFrame.bodyUpdate _ (fun _ => ⟨rfl, rfl, rfl, rfl, rfl, rfl, rfl, rfl, rfl, rfl, rfl, rfl⟩)
      | with_reducible exact CHC.addRule_frame _ _
      | with_reducible exact CHC.registerRelation_frame _
      | with_reducible exact CHC.uniquePrefix_frame
      | intro _
      | split
      | contradiction
      | dsimp only)
  | .BinaryOperation i category operator left right => by
    rw [Expression.accept]
    repeat' (first
      | assumption
      | with_reducible exact Expression.acceptExpression_frame left
      | with_reducible exact Expression.acceptExpression_frame right
      | with_reducible exact CHC.endVisitFunctionCall_frame _
      | apply Visitor.Respects.bind BodyFrame.bodyOrder
      | apply Visitor.Respects.pure BodyFrame.bodyOrder
      | apply Visitor.Respects.read BodyFrame.bodyOrder
      | apply Visitor.Respects.deref BodyFrame.bodyOrder
      | apply Visitor.Respects.solAssert BodyFrame.bodyOrder
      | apply Visitor.Respects.forEach BodyFrame.bodyOrder
      | exact BodyFrame.bodyUpdate _ (fun _ => ⟨rfl, rfl, rfl, rfl, rfl, rfl, rfl, rfl, rfl, rfl, rfl, rfl⟩)
      | with_reducible exact CHC.addRule_frame _ _
      | with_reducible exact CHC.registerRelation_frame _
      | with_reducible exact CHC.uniquePrefix_frame
      | intro _
      | split
      | contradiction
      | dsimp only)
  | .FunctionCall i category location kind functionKind callee arguments => by
    rw [Expression.accept]
    repeat' (first
      | assumption
      | with_reducible exact Expression.acceptExpressions_frame arguments
      | with_reducible exact CHC.endVisitFunctionCall_frame _
      | apply Visitor.Respects.bind BodyFrame.bodyOrder
      | apply Visitor.Respects.pure BodyFrame.bodyOrder
      | apply Visitor.Respects.read BodyFrame.bodyOrder
      | apply Visitor.Respects.deref BodyFrame.bodyOrder
      | apply Visitor.Respects.solAssert BodyFrame.bodyOrder
      | apply Visitor.Respects.forEach BodyFrame.bodyOrder
      | exact BodyFrame.bodyUpdate _ (fun _ => ⟨rfl, rfl, rfl, rfl, rfl, rfl, rfl, rfl, rfl, rfl, rfl, rfl⟩)
      | with_reducible exact CHC.addRule_frame _ _
      | with_reducible exact CHC.registerRelation_frame _
      | with_reducible exact CHC.uniquePrefix_frame
      | intro _
      | split
      | contradiction
      | dsimp only)
theorem Expression.acceptExpressions_frame : ∀ l : List Expression, Visitor.Respects BodyFrame (Expression.acceptAll l)
  | [] => by
    rw [Expression.acceptAll]
    exact Visitor.Respects.pure BodyFrame.bodyOrder _
  | e :: rest => by
    rw [Expression.acceptAll]
    exact Visitor.Respects.bind BodyFrame.bodyOrder (Expression.acceptExpression_frame e)
      (fun _ => Expression.acceptExpressions_frame rest)
end

theorem CHC.visitIfStatement_frame (i : Nat) (condition : Expression) (trueStatement : Nat × Visitor Unit)
    (falseStatement : Option (Nat × Visitor Unit)) (hTrue : Visitor.Respects BodyFrame trueStatement.2)
    (h : ∀ st, falseStatement = some st → Visitor.Respects BodyFrame st.2) :
    Visitor.Respects BodyFrame (CHC.visitIfStatement i condition trueStatement falseStatement) := by
  unfold CHC.visitIfStatement
  repeat' (first
    | assumption
    | with_reducible exact CHC.createBlock_frame _ _
    | with_reducible exact CHC.setCurrentBlock_frame _ _
    | with_reducible exact CHC.predicate_frame _
    | with_reducible exact CHC.summary_frame _
    | with_reducible exact CHC.connectBlocks_frame _ _ _
    | with_reducible exact CHC.eraseKnowledge_frame
    | with_reducible exact Expression.acceptExpression_frame _
    | exact h _ rfl
    | exact h _ ‹_›
    | apply Visitor.Respects.bind BodyFrame.bodyOrder
    | apply Visitor.Respects.pure BodyFrame.bodyOrder
    | apply Visitor.Respects.read BodyFrame.bodyOrder
    | apply Visitor.Respects.deref BodyFrame.bodyOrder
    | apply Visitor.Respects.solAssert BodyFrame.bodyOrder
    | apply Visitor.Respects.forEach BodyFrame.bodyOrder
    | exact BodyFrame.bodyUpdate _ (fun _ => ⟨rfl, rfl, rfl, rfl, rfl, rfl, rfl, rfl, rfl, rfl, rfl, rfl⟩)
    | with_reducible exact CHC.addRule_frame _ _
    | with_reducible exact CHC.registerRelation_frame _
    | with_reducible exact CHC.uniquePrefix_frame
    | intro _
    | split
    | contradiction
    | dsimp only)

theorem CHC.visitWhileStatement_frame (i : Nat) (isDoWhile : Bool) (condition : Expression)
    (body : Nat × Visitor Unit) (hBody : Visitor.Respects BodyFrame body.2) :
    Visitor.Respects BodyFrame (CHC.visitWhileStatement i isDoWhile condition body) := by
  unfold CHC.visitWhileStatement
  repeat' (first
    | assumption
    | with_reducible exact CHC.createBlock_frame _ _
    | with_reducible exact CHC.setCurrentBlock_frame _ _
    | with_reducible exact CHC.predicate_frame _
    | with_reducible exact CHC.summary_frame _
    | with_reducible exact CHC.connectBlocks_frame _ _ _
    | with_reducible exact CHC.eraseKnowledge_frame
    | with_reducible exact Expression.acceptExpression_frame _
    | exact h _ rfl
    | exact h _ ‹_›
    | apply Visitor.Respects.bind BodyFrame.bodyOrder
    | apply Visitor.Respects.pure BodyFrame.bodyOrder
    | apply Visitor.Respects.read BodyFrame.bodyOrder
    | apply Visitor.Respects.deref BodyFrame.bodyOrder
    | apply Visitor.Respects.solAssert BodyFrame.bodyOrder
    | apply Visitor.Respects.forEach BodyFrame.bodyOrder
    | exact BodyFrame.bodyUpdate _ (fun _ => ⟨rfl, rfl, rfl, rfl, rfl, rfl, rfl, rfl, rfl, rfl, rfl, rfl⟩)
    | with_reducible exact CHC.addRule_frame _ _
    | with_reducible exact CHC.registerRelation_frame _
    | with_reducible exact CHC.uniquePrefix_frame
    | intro _
    | split
    | contradiction
    | dsimp only)

theorem CHC.visitForStatement_frame (i : Nat) (init : Option (Visitor Unit)) (condition : Option Expression)
    (loopExpression : Option (Nat × Visitor Unit)) (body : Nat × Visitor Unit)
    (hInit : ∀ m, init = some m → Visitor.Respects BodyFrame m)
    (h : ∀ st, loopExpression = some st → Visitor.Respects BodyFrame st.2) (hBody : Visitor.Respects BodyFrame body.2) :
    Visitor.Respects BodyFrame (CHC.visitForStatement i init condition loopExpression body) := by
  unfold CHC.visitForStatement
  repeat' (first
    | assumption
    | with_reducible exact CHC.createBlock_frame _ _
    | with_reducible exact CHC.setCurrentBlock_frame _ _
    | with_reducible exact CHC.predicate_frame _
    | with_reducible exact CHC.summary_frame _
    | with_reducible exact CHC.connectBlocks_frame _ _ _
    | with_reducible exact CHC.eraseKnowledge_frame
    | with_reducible exact Expression.acceptExpression_frame _
    | exact h _ rfl
    | exact h _ ‹_›
    | exact hInit _ rfl
    | apply Visitor.Respects.bind BodyFrame.bodyOrder
    | apply Visitor.Respects.pure BodyFrame.bodyOrder
    | apply Visitor.Respects.read BodyFrame.bodyOrder
    | apply Visitor.Respects.deref BodyFrame.bodyOrder
    | apply Visitor.Respects.solAssert BodyFrame.bodyOrder
    | apply Visitor.Respects.forEach BodyFrame.bodyOrder
    | exact BodyFrame.bodyUpdate _ (fun _ => ⟨rfl, rfl, rfl, rfl, rfl, rfl, rfl, rfl, rfl, rfl, rfl, rfl⟩)
    | with_reducible exact CHC.addRule_frame _ _
    | with_reducible exact CHC.registerRelation_frame _
    | with_reducible exact CHC.uniquePrefix_frame
    | intro _
    | split
    | contradiction
    | dsimp only)

mutual
theorem Statement.acceptStatement_frame : ∀ st : Statement, Visitor.Respects BodyFrame st.accept
  | .Block i statements => by
    rw [Statement.accept]
    repeat' (first
      | assumption
      | with_reducible exact Statement.acceptStatements_frame statements
      | apply Visitor.Respects.bind BodyFrame.bodyOrder
      | apply Visitor.Respects.pure BodyFrame.bodyOrder
      | apply Visitor.Respects.read BodyFrame.bodyOrder
      | apply Visitor.Respects.deref BodyFrame.bodyOrder
      | apply Visitor.Respects.solAssert BodyFrame.bodyOrder
      | apply Visitor.Respects.forEach BodyFrame.bodyOrder
      | exact BodyFrame.bodyUpdate _ (fun _ => ⟨rfl, rfl, rfl, rfl, rfl, rfl, rfl, rfl, rfl, rfl, rfl, rfl⟩)
      | with_reducible exact CHC.addRule_frame _ _
      | with_reducible exact CHC.registerRelation_frame _
      | with_reducible exact CHC.uniquePrefix_frame
      | intro _
      | split
      | contradiction
      | dsimp only)
  | .IfStatement i condition trueStatement none => by
    rw [Statement.accept]
    repeat' (first
      | assumption
      | with_reducible exact CHC.visitIfStatement_frame _ _ _ _ (Statement.acceptStatement_frame trueStatement) (by intro st h; cases h)
      | apply Visitor.Respects.bind BodyFrame.bodyOrder
      | apply Visitor.Respects.pure BodyFrame.bodyOrder
      | apply Visitor.Respects.read BodyFrame.bodyOrder
      | apply Visitor.Respects.deref BodyFrame.bodyOrder
      | apply Visitor.Respects.solAssert BodyFrame.bodyOrder
      | apply Visitor.Respects.forEach BodyFrame.bodyOrder
      | exact BodyFrame.bodyUpdate _ (fun _ => ⟨rfl, rfl, rfl, rfl, rfl, rfl, rfl, rfl, rfl, rfl, rfl, rfl⟩)
      | with_reducible exact CHC.addRule_frame _ _
      | with_reducible exact CHC.registerRelation_frame _
      | with_reducible exact CHC.uniquePrefix_frame
      | intro _
      | split
      | contradiction
      | dsimp only)
  | .IfStatement i condition trueStatement (some falseStatement) => by
    rw [Statement.accept]
    repeat' (first
      | assumption
      | with_reducible exact CHC.visitIfStatement_frame _ _ _ _ (Statement.acceptStatement_frame trueStatement) (by intro st h; cases h; exact Statement.acceptStatement_frame falseStatement)
      | apply Visitor.Respects.bind BodyFrame.bodyOrder
      | apply Visitor.Respects.pure BodyFrame.bodyOrder
      | apply Visitor.Respects.read BodyFrame.bodyOrder
      | apply Visitor.Respects.deref BodyFrame.bodyOrder
      | apply Visitor.Respects.solAssert BodyFrame.bodyOrder
      | apply Visitor.Respects.forEach BodyFrame.bodyOrder
      | exact BodyFrame.bodyUpdate _ (fun _ => ⟨rfl, rfl, rfl, rfl, rfl, rfl, rfl, rfl, rfl, rfl, rfl, rfl⟩)
      | with_reducible exact CHC.addRule_frame _ _
      | with_reducible exact CHC.registerRelation_frame _
      | with_reducible exact CHC.uniquePrefix_frame
      | intro _
      | split
      | contradiction
      | dsimp only)
  | .WhileStatement i condition body isDoWhile => by
    rw [Statement.accept]
    repeat' (first
      | assumption
      | with_reducible exact CHC.visitWhileStatement_frame _ _ _ _ (Statement.acceptStatement_frame body)
      | apply Visitor.Respects.bind BodyFrame.bodyOrder
      | apply Visitor.Respects.pure BodyFrame.bodyOrder
      | apply Visitor.Respects.read BodyFrame.bodyOrder
      | apply Visitor.Respects.deref BodyFrame.bodyOrder
      | apply Visitor.Respects.solAssert BodyFrame.bodyOrder
      | apply Visitor.Respects.forEach BodyFrame.bodyOrder
      | exact BodyFrame.bodyUpdate _ (fun _ => ⟨rfl, rfl, rfl, rfl, rfl, rfl, rfl, rfl, rfl, rfl, rfl, rfl⟩)
      | with_reducible exact CHC.addRule_frame _ _
      | with_reducible exact CHC.registerRelation_frame _
      | with_reducible exact CHC.uniquePrefix_frame
      | intro _
      | split
      | contradiction
      | dsimp only)
  | .ForStatement i none condition none body => by
    rw [Statement.accept]
    repeat' (first
      | assumption
      | with_reducible exact CHC.visitForStatement_frame _ _ _ _ _ (by intro m h; cases h) (by intro m h; cases h) (Statement.acceptStatement_frame body)
      | apply Visitor.Respects.bind BodyFrame.bodyOrder
      | apply Visitor.Respects.pure BodyFrame.bodyOrder
      | apply Visitor.Respects.read BodyFrame.bodyOrder
      | apply Visitor.Respects.deref BodyFrame.bodyOrder
      | apply Visitor.Respects.solAssert BodyFrame.bodyOrder
      | apply Visitor.Respects.forEach BodyFrame.bodyOrder
      | exact BodyFrame.bodyUpdate _ (fun _ => ⟨rfl, rfl, rfl, rfl, rfl, rfl, rfl, rfl, rfl, rfl, rfl, rfl⟩)
      | with_reducible exact CHC.addRule_frame _ _
      | with_reducible exact CHC.registerRelation_frame _
      | with_reducible exact CHC.uniquePrefix_frame
      | intro _
      | split
      | contradiction
      | dsimp only)
  | .ForStatement i none condition (some postLoop) body => by
    rw [Statement.accept]
    repeat' (first
      | assumption
      | with_reducible exact CHC.visitForStatement_frame _ _ _ _ _ (by intro m h; cases h) (by intro m h; cases h; exact Statement.acceptStatement_frame postLoop) (Statement.acceptStatement_frame body)
      | apply Visitor.Respects.bind BodyFrame.bodyOrder
      | apply Visitor.Respects.pure BodyFrame.bodyOrder
      | apply Visitor.Respects.read BodyFrame.bodyOrder
      | apply Visitor.Respects.deref BodyFrame.bodyOrder
      | apply Visitor.Respects.solAssert BodyFrame.bodyOrder
      | apply Visitor.Respects.forEach BodyFrame.bodyOrder
      | exact BodyFrame.bodyUpdate _ (fun _ => ⟨rfl, rfl, rfl, rfl, rfl, rfl, rfl, rfl, rfl, rfl, rfl, rfl⟩)
      | with_reducible exact CHC.addRule_frame _ _
      | with_reducible exact CHC.registerRelation_frame _
      | with_reducible exact CHC.uniquePrefix_frame
      | intro _
      | split
      | contradiction
      | dsimp only)
  | .ForStatement i (some init) condition none body => by
    rw [Statement.accept]
    repeat' (first
      | assumption
      | with_reducible exact CHC.visitForStatement_frame _ _ _ _ _ (by intro m h; cases h; exact Statement.acceptStatement_frame init) (by intro m h; cases h) (Statement.acceptStatement_frame body)
      | apply Visitor.Respects.bind BodyFrame.bodyOrder
      | apply Visitor.Respects.pure BodyFrame.bodyOrder
      | apply Visitor.Respects.read BodyFrame.bodyOrder
      | apply Visitor.Respects.deref BodyFrame.bodyOrder
      | apply Visitor.Respects.solAssert BodyFrame.bodyOrder
      | apply Visitor.Respects.forEach BodyFrame.bodyOrder
      | exact BodyFrame.bodyUpdate _ (fun _ => ⟨rfl, rfl, rfl, rfl, rfl, rfl, rfl, rfl, rfl, rfl, rfl, rfl⟩)
      | with_reducible exact CHC.addRule_frame _ _
      | with_reducible exact CHC.registerRelation_frame _
      | with_reducible exact CHC.uniquePrefix_frame
      | intro _
      | split
      | contradiction
      | dsimp only)
  | .ForStatement i (some init) condition (some postLoop) body => by
    rw [Statement.accept]
    repeat' (first
      | assumption
      | with_reducible exact CHC.visitForStatement_frame _ _ _ _ _ (by intro m h; cases h; exact Statement.acceptStatement_frame init) (by intro m h; cases h; exact Statement.acceptStatement_frame postLoop) (Statement.acceptStatement_frame body)
      | apply Visitor.Respects.bind BodyFrame.bodyOrder
      | apply Visitor.Respects.pure BodyFrame.bodyOrder
      | apply Visitor.Respects.read BodyFrame.bodyOrder
      | apply Visitor.Respects.deref BodyFrame.bodyOrder
      | apply Visitor.Respects.solAssert BodyFrame.bodyOrder
      | apply Visitor.Respects.forEach BodyFrame.bodyOrder
      | exact BodyFrame.bodyUpdate _ (fun _ => ⟨rfl, rfl, rfl, rfl, rfl, rfl, rfl, rfl, rfl, rfl, rfl, rfl⟩)
      | with_reducible exact CHC.addRule_frame _ _
      | with_reducible exact CHC.registerRelation_frame _
      | with_reducible exact CHC.uniquePrefix_frame
      | intro _
      | split
      | contradiction
      | dsimp only)
  | .Break i => by
    rw [Statement.accept]
    repeat' (first
      | assumption
      | with_reducible exact CHC.endVisitBreak_frame _
      | apply Visitor.Respects.bind BodyFrame.bodyOrder
      | apply Visitor.Respects.pure BodyFrame.bodyOrder
      | apply Visitor.Respects.read BodyFrame.bodyOrder
      | apply Visitor.Respects.deref BodyFrame.bodyOrder
      | apply Visitor.Respects.solAssert BodyFrame.bodyOrder
      | apply Visitor.Respects.forEach BodyFrame.bodyOrder
      | exact BodyFrame.bodyUpdate _ (fun _ => ⟨rfl, rfl, rfl, rfl, rfl, rfl, rfl, rfl, rfl, rfl, rfl, rfl⟩)
      | with_reducible exact CHC.addRule_frame _ _
      | with_reducible exact CHC.registerRelation_frame _
      | with_reducible exact CHC.uniquePrefix_frame
      | intro _
      | split
      | contradiction
      | dsimp only)
  | .Continue i => by
    rw [Statement.accept]
    repeat' (first
      | assumption
      | with_reducible exact CHC.endVisitContinue_frame _
      | apply Visitor.Respects.bind BodyFrame.bodyOrder
      | apply Visitor.Respects.pure BodyFrame.bodyOrder
      | apply Visitor.Respects.read BodyFrame.bodyOrder
      | apply Visitor.Respects.deref BodyFrame.bodyOrder
      | apply Visitor.Respects.solAssert BodyFrame.bodyOrder
      | apply Visitor.Respects.forEach BodyFrame.bodyOrder
      | exact BodyFrame.bodyUpdate _ (fun _ => ⟨rfl, rfl, rfl, rfl, rfl, rfl, rfl, rfl, rfl, rfl, rfl, rfl⟩)
      | with_reducible exact CHC.addRule_frame _ _
      | with_reducible exact CHC.registerRelation_frame _
      | with_reducible exact CHC.uniquePrefix_frame
      | intro _
      | split
      | contradiction
      | dsimp only)
  | .ExpressionStatement i expression => by
    rw [Statement.accept]
    repeat' (first
      | assumption
      | with_reducible exact Expression.acceptExpression_frame _
      | apply Visitor.Respects.bind BodyFrame.bodyOrder
      | apply Visitor.Respects.pure BodyFrame.bodyOrder
      | apply Visitor.Respects.read BodyFrame.bodyOrder
      | apply Visitor.Respects.deref BodyFrame.bodyOrder
      | apply Visitor.Respects.solAssert BodyFrame.bodyOrder
      | apply Visitor.Respects.forEach BodyFrame.bodyOrder
      | exact BodyFrame.bodyUpdate _ (fun _ => ⟨rfl, rfl, rfl, rfl, rfl, rfl, rfl, rfl, rfl, rfl, rfl, rfl⟩)
      | with_reducible exact CHC.addRule_frame _ _
      | with_reducible exact CHC.registerRelation_frame _
      | with_reducible exact CHC.uniquePrefix_frame
      | intro _
      | split
      | contradiction
      | dsimp only)
  | .VariableDeclarationStatement i declaration none => by
    rw [Statement.accept]
    repeat' (first
      | assumption
      | apply Visitor.Respects.bind BodyFrame.bodyOrder
      | apply Visitor.Respects.pure BodyFrame.bodyOrder
      | apply Visitor.Respects.read BodyFrame.bodyOrder
      | apply Visitor.Respects.deref BodyFrame.bodyOrder
      | apply Visitor.Respects.solAssert BodyFrame.bodyOrder
      | apply Visitor.Respects.forEach BodyFrame.bodyOrder
      | exact BodyFrame.bodyUpdate _ (fun _ => ⟨rfl, rfl, rfl, rfl, rfl, rfl, rfl, rfl, rfl, rfl, rfl, rfl⟩)
      | with_reducible exact CHC.addRule_frame _ _
      | with_reducible exact CHC.registerRelation_frame _
      | with_reducible exact CHC.uniquePrefix_frame
      | intro _
      | split
      | contradiction
      | dsimp only)
  | .VariableDeclarationStatement i declaration (some value) => by
    rw [Statement.accept]
    repeat' (first
      | assumption
      | with_reducible exact Expression.acceptExpression_frame _
      | apply Visitor.Respects.bind BodyFrame.bodyOrder
      | apply Visitor.Respects.pure BodyFrame.bodyOrder
      | apply Visitor.Respects.read BodyFrame.bodyOrder
      | apply Visitor.Respects.deref BodyFrame.bodyOrder
      | apply Visitor.Respects.solAssert BodyFrame.bodyOrder
      | apply Visitor.Respects.forEach BodyFrame.bodyOrder
      | exact BodyFrame.bodyUpdate _ (fun _ => ⟨rfl, rfl, rfl, rfl, rfl, rfl, rfl, rfl, rfl, rfl, rfl, rfl⟩)
      | with_reducible exact CHC.addRule_frame _ _
      | with_reducible exact CHC.registerRelation_frame _
      | with_reducible exact CHC.uniquePrefix_frame
      | intro _
      | split
      | contradiction
      | dsimp only)
theorem Statement.acceptStatements_frame : ∀ l : List Statement, Visitor.Respects BodyFrame (Statement.acceptAll l)
  | [] => by
    rw [Statement.acceptAll]
    exact Visitor.Respects.pure BodyFrame.bodyOrder _
  | st :: rest => by
    rw [Statement.acceptAll]
    exact Visitor.Respects.bind BodyFrame.bodyOrder (Statement.acceptStatement_frame st)
      (fun _ => Statement.acceptStatements_frame rest)
end

/-! ## What the visit of a function leaves alone -/

theorem BodyFrame.toConstructorFrame (s s1 : CHC) (h : BodyFrame s s1) : ConstructorFrame s s1 :=
  ⟨h.functionErrors, h.errorPredicate, h.genesisPredicate, h.interfacePredicate,
    h.constructorPredicate, h.summaries, h.currentContract, h.stateVariables, h.stateSorts,
    h.reporter, h.answer, h.calls⟩

theorem ConstructorFrame.constructorToFunctionFrame (s s1 : CHC) (h : ConstructorFrame s s1) :
    FunctionFrame s s1 :=
  ⟨h.reporter, h.answer, h.calls⟩

theorem BodyFrame.bodyToFunctionFrame (s s1 : CHC) (h : BodyFrame s s1) : FunctionFrame s s1 :=
  (h.toConstructorFrame).constructorToFunctionFrame

theorem ConstructorFrame.constructorOrder : StateOrder ConstructorFrame where
  refl s := ⟨rfl, rfl, rfl, rfl, rfl, rfl, rfl, rfl, rfl, rfl, rfl, [], by simp, by simp⟩
  trans s1 s2 s3 h12 h23 := by
    obtain ⟨l1, hl1, hq1⟩ := h12.calls
    obtain ⟨l2, hl2, hq2⟩ := h23.calls
    refine ⟨h23.functionErrors.trans h12.functionErrors, h23.errorPredicate.trans h12.errorPredicate,
      h23.genesisPredicate.trans h12.genesisPredicate,
      h23.interfacePredicate.trans h12.interfacePredicate,
      h23.constructorPredicate.trans h12.constructorPredicate,
      h23.summaries.trans h12.summaries, h23.currentContract.trans h12.currentContract,
      h23.stateVariables.trans h12.stateVariables,
      h23.stateSorts.trans h12.stateSorts, h23.reporter.trans h12.reporter,
      h23.answer.trans h12.answer, l1 ++ l2, ?_, ?_⟩
    · rw [hl2, hl1, List.append_assoc]
    · intro e he
      rcases List.mem_append.mp he with h | h
      · exact hq1 e h
      · exact hq2 e h

theorem FunctionFrame.functionOrder : StateOrder FunctionFrame where
  refl s := ⟨rfl, rfl, [], by simp, by simp⟩
  trans s1 s2 s3 h12 h23 := by
    obtain ⟨l1, hl1, hq1⟩ := h12.calls
    obtain ⟨l2, hl2, hq2⟩ := h23.calls
    refine ⟨h23.reporter.trans h12.reporter, h23.answer.trans h12.answer, l1 ++ l2, ?_, ?_⟩
    · rw [hl2, hl1, List.append_assoc]
    · intro e he
      rcases List.mem_append.mp he with h | h
      · exact hq1 e h
      · exact hq2 e h

/-- An update of members outside the frame respects the frame. -/
theorem ConstructorFrame.constructorUpdate (f : CHC → CHC)
    (h : ∀ s, (f s).m_functionErrors = s.m_functionErrors ∧
      (f s).m_errorPredicate = s.m_errorPredicate ∧
      (f s).m_genesisPredicate = s.m_genesisPredicate ∧
      (f s).m_interfacePredicate = s.m_interfacePredicate ∧
      (f s).m_constructorPredicate = s.m_constructorPredicate ∧
      (f s).m_summaries = s.m_summaries ∧ (f s).m_currentContract = s.m_currentContract ∧
      (f s).m_stateVariables = s.m_stateVariables ∧ (f s).m_stateSorts = s.m_stateSorts ∧
      (f s).m_outerErrorReporter = s.m_outerErrorReporter ∧
      (f s).m_interface = s.m_interface) :
    Visitor.Respects ConstructorFrame (Visitor.update f) := by
  apply Visitor.Respects.of_run
  intro s
  obtain ⟨h1, h2, h3, h4, h5, h6, h7, h9, h10, h11, h12⟩ := h s
  exact ⟨h1, h2, h3, h4, h5, h6, h7, h9, h10, h11, by rw [Visitor.update_run, Result.state, h12],
    [], by simp [Result.state, h12], by simp⟩

/-- An update of members outside the frame respects the frame. -/
theorem FunctionFrame.functionUpdate (f : CHC → CHC)
    (h : ∀ s, (f s).m_outerErrorReporter = s.m_outerErrorReporter ∧
      (f s).m_interface = s.m_interface) :
    Visitor.Respects FunctionFrame (Visitor.update f) := by
  apply Visitor.Respects.of_run
  intro s
  obtain ⟨h11, h12⟩ := h s
  exact ⟨h11, by rw [Visitor.update_run, Result.state, h12],
    [], by simp [Result.state, h12], by simp⟩

theorem CHC.createErrorBlock_frame : Visitor.Respects FunctionFrame CHC.createErrorBlock := by
  unfold CHC.createErrorBlock
  repeat' (first
    | exact Visitor.Respects.mono BodyFrame.bodyToFunctionFrame (CHC.registerRelation_frame _)
    | apply Visitor.Respects.bind FunctionFrame.functionOrder
    | apply Visitor.Respects.deref FunctionFrame.functionOrder
    | exact FunctionFrame.functionUpdate _ (fun _ => ⟨rfl, rfl⟩)
    | intro _
    | dsimp only)


theorem SMTEncoder.baseVisitFunctionDefinition_frameF (inlineBases : Visitor Unit) (_function : FunctionDefinition)
    (h : Visitor.Respects FunctionFrame inlineBases) :
    Visitor.Respects FunctionFrame (SMTEncoder.visitFunctionDefinition inlineBases _function) := by
  unfold SMTEncoder.visitFunctionDefinition
  repeat' (first
    | assumption
    | with_reducible exact CHC.createErrorBlock_frame
    | with_reducible exact Visitor.Respects.mono BodyFrame.bodyToFunctionFrame (Statement.acceptStatement_frame _)
    | with_reducible exact Visitor.Respects.mono BodyFrame.bodyToFunctionFrame (CHC.createBlock_frame _ _)
    | with_reducible exact Visitor.Respects.mono BodyFrame.bodyToFunctionFrame (CHC.setCurrentBlock_frame _ _)
    | with_reducible exact Visitor.Respects.mono BodyFrame.bodyToFunctionFrame (CHC.predicate_frame _)
    | with_reducible exact Visitor.Respects.mono BodyFrame.bodyToFunctionFrame (CHC.summary_frame _)
    | with_reducible exact Visitor.Respects.mono BodyFrame.bodyToFunctionFrame (CHC.connectBlocks_frame _ _ _)
    | with_reducible exact Visitor.Respects.mono BodyFrame.bodyToFunctionFrame (SMTEncoder.initFunction_frame _)
    | with_reducible exact Visitor.Respects.mono BodyFrame.bodyToFunctionFrame (CHC.currentFunctionVariables_frame)
    | with_reducible exact Visitor.Respects.mono BodyFrame.bodyToFunctionFrame (CHC.currentStateVariables_frame)
    | with_reducible exact Visitor.Respects.mono BodyFrame.bodyToFunctionFrame (CHC.initialStateVariables_frame)
    | with_reducible exact Visitor.Respects.mono BodyFrame.bodyToFunctionFrame (CHC.genesis_frame)
    | with_reducible exact Visitor.Respects.mono BodyFrame.bodyToFunctionFrame (CHC.interface_frame)
    | with_reducible exact Visitor.Respects.mono BodyFrame.bodyToFunctionFrame (CHC.error_frame)
    | with_reducible exact Visitor.Respects.mono BodyFrame.bodyToFunctionFrame (CHC.clearIndices_frame _ _)
    | with_reducible exact Visitor.Respects.mono BodyFrame.bodyToFunctionFrame (CHC.createSymbolicBlock_frame _ _)
    | with_reducible exact Visitor.Respects.mono BodyFrame.bodyToFunctionFrame (CHC.addRule_frame _ _)
    | with_reducible exact Visitor.Respects.mono BodyFrame.bodyToFunctionFrame (CHC.registerRelation_frame _)
    | with_reducible exact Visitor.Respects.mono BodyFrame.bodyToFunctionFrame (CHC.uniquePrefix_frame)
    | apply Visitor.Respects.bind FunctionFrame.functionOrder
    | apply Visitor.Respects.pure FunctionFrame.functionOrder
    | apply Visitor.Respects.read FunctionFrame.functionOrder
    | apply Visitor.Respects.deref FunctionFrame.functionOrder
    | apply Visitor.Respects.solAssert FunctionFrame.functionOrder
    | apply Visitor.Respects.forEach FunctionFrame.functionOrder
    | exact FunctionFrame.functionUpdate _ (fun _ => ⟨rfl, rfl⟩)
    | intro _
    | split
    | contradiction
    | dsimp only)

theorem CHC.visitFunctionDefinition_frameF (inlineBases : Visitor Unit) (_function : FunctionDefinition)
    (h : Visitor.Respects FunctionFrame inlineBases) :
    Visitor.Respects FunctionFrame (CHC.visitFunctionDefinition inlineBases _function) := by
  unfold CHC.visitFunctionDefinition
  repeat' (first
    | assumption
    | with_reducible exact CHC.createErrorBlock_frame
    | with_reducible exact SMTEncoder.baseVisitFunctionDefinition_frameF _ _ h
    | with_reducible exact Visitor.Respects.mono BodyFrame.bodyToFunctionFrame (Statement.acceptStatement_frame _)
    | with_reducible exact Visitor.Respects.mono BodyFrame.bodyToFunctionFrame (CHC.createBlock_frame _ _)
    | with_reducible exact Visitor.Respects.mono BodyFrame.bodyToFunctionFrame (CHC.setCurrentBlock_frame _ _)
    | with_reducible exact Visitor.Respects.mono BodyFrame.bodyToFunctionFrame (CHC.predicate_frame _)
    | with_reducible exact Visitor.Respects.mono BodyFrame.bodyToFunctionFrame (CHC.summary_frame _)
    | with_reducible exact Visitor.Respects.mono BodyFrame.bodyToFunctionFrame (CHC.connectBlocks_frame _ _ _)
    | with_reducible exact Visitor.Respects.mono BodyFrame.bodyToFunctionFrame (SMTEncoder.initFunction_frame _)
    | with_reducible exact Visitor.Respects.mono BodyFrame.bodyToFunctionFrame (CHC.currentFunctionVariables_frame)
    | with_reducible exact Visitor.Respects.mono BodyFrame.bodyToFunctionFrame (CHC.currentStateVariables_frame)
    | with_reducible exact Visitor.Respects.mono BodyFrame.bodyToFunctionFrame (CHC.initialStateVariables_frame)
    | with_reducible exact Visitor.Respects.mono BodyFrame.bodyToFunctionFrame (CHC.genesis_frame)
    | with_reducible exact Visitor.Respects.mono BodyFrame.bodyToFunctionFrame (CHC.interface_frame)
    | with_reducible exact Visitor.Respects.mono BodyFrame.bodyToFunctionFrame (CHC.error_frame)
    | with_reducible exact Visitor.Respects.mono BodyFrame.bodyToFunctionFrame (CHC.clearIndices_frame _ _)
    | with_reducible exact Visitor.Respects.mono BodyFrame.bodyToFunctionFrame (CHC.createSymbolicBlock_frame _ _)
    | with_reducible exact Visitor.Respects.mono BodyFrame.bodyToFunctionFrame (CHC.addRule_frame _ _)
    | with_reducible exact Visitor.Respects.mono BodyFrame.bodyToFunctionFrame (CHC.registerRelation_frame _)
    | with_reducible exact Visitor.Respects.mono BodyFrame.bodyToFunctionFrame (CHC.uniquePrefix_frame)
    | apply Visitor.Respects.bind FunctionFrame.functionOrder
    | apply Visitor.Respects.pure FunctionFrame.functionOrder
    | apply Visitor.Respects.read FunctionFrame.functionOrder
    | apply Visitor.Respects.deref FunctionFrame.functionOrder
    | apply Visitor.Respects.solAssert FunctionFrame.functionOrder
    | apply Visitor.Respects.forEach FunctionFrame.functionOrder
    | exact FunctionFrame.functionUpdate _ (fun _ => ⟨rfl, rfl⟩)
    | intro _
    | split
    | contradiction
    | dsimp only)

theorem CHC.endVisitFunctionDefinition_frameF (_function : FunctionDefinition) :
    Visitor.Respects FunctionFrame (CHC.endVisitFunctionDefinition _function) := by
  unfold CHC.endVisitFunctionDefinition
  repeat' (first
    | assumption
    | with_reducible exact CHC.createErrorBlock_frame
    | with_reducible exact Visitor.Respects.mono BodyFrame.bodyToFunctionFrame (Statement.acceptStatement_frame _)
    | with_reducible exact Visitor.Respects.mono BodyFrame.bodyToFunctionFrame (CHC.createBlock_frame _ _)
    | with_reducible exact Visitor.Respects.mono BodyFrame.bodyToFunctionFrame (CHC.setCurrentBlock_frame _ _)
    | with_reducible exact Visitor.Respects.mono BodyFrame.bodyToFunctionFrame (CHC.predicate_frame _)
    | with_reducible exact Visitor.Respects.mono BodyFrame.bodyToFunctionFrame (CHC.summary_frame _)
    | with_reducible exact Visitor.Respects.mono BodyFrame.bodyToFunctionFrame (CHC.connectBlocks_frame _ _ _)
    | with_reducible exact Visitor.Respects.mono BodyFrame.bodyToFunctionFrame (SMTEncoder.initFunction_frame _)
    | with_reducible exact Visitor.Respects.mono BodyFrame.bodyToFunctionFrame (CHC.currentFunctionVariables_frame)
    | with_reducible exact Visitor.Respects.mono BodyFrame.bodyToFunctionFrame (CHC.currentStateVariables_frame)
    | with_reducible exact Visitor.Respects.mono BodyFrame.bodyToFunctionFrame (CHC.initialStateVariables_frame)
    | with_reducible exact Visitor.Respects.mono BodyFrame.bodyToFunctionFrame (CHC.genesis_frame)
    | with_reducible exact Visitor.Respects.mono BodyFrame.bodyToFunctionFrame (CHC.interface_frame)
    | with_reducible exact Visitor.Respects.mono BodyFrame.bodyToFunctionFrame (CHC.error_frame)
    | with_reducible exact Visitor.Respects.mono BodyFrame.bodyToFunctionFrame (CHC.clearIndices_frame _ _)
    | with_reducible exact Visitor.Respects.mono BodyFrame.bodyToFunctionFrame (CHC.createSymbolicBlock_frame _ _)
    | with_reducible exact Visitor.Respects.mono BodyFrame.bodyToFunctionFrame (CHC.addRule_frame _ _)
    | with_reducible exact Visitor.Respects.mono BodyFrame.bodyToFunctionFrame (CHC.registerRelation_frame _)
    | with_reducible exact Visitor.Respects.mono BodyFrame.bodyToFunctionFrame (CHC.uniquePrefix_frame)
    | apply Visitor.Respects.bind FunctionFrame.functionOrder
    | apply Visitor.Respects.pure FunctionFrame.functionOrder
    | apply Visitor.Respects.read FunctionFrame.functionOrder
    | apply Visitor.Respects.deref FunctionFrame.functionOrder
    | apply Visitor.Respects.solAssert FunctionFrame.functionOrder
    | apply Visitor.Respects.forEach FunctionFrame.functionOrder
    | exact FunctionFrame.functionUpdate _ (fun _ => ⟨rfl, rfl⟩)
    | intro _
    | split
    | contradiction
    | dsimp only)

theorem FunctionDefinition.accept_frameF (inlineBases : Visitor Unit) (_function : FunctionDefinition)
    (h : Visitor.Respects FunctionFrame inlineBases) :
    Visitor.Respects FunctionFrame (FunctionDefinition.accept inlineBases _function) := by
  unfold FunctionDefinition.accept
  exact Visitor.Respects.bind FunctionFrame.functionOrder (CHC.visitFunctionDefinition_frameF _ _ h)
    (fun _ => CHC.endVisitFunctionDefinition_frameF _)

theorem SMTEncoder.baseVisitFunctionDefinition_frameC (inlineBases : Visitor Unit) (_function : FunctionDefinition)
    (h : Visitor.Respects ConstructorFrame inlineBases) :
    Visitor.Respects ConstructorFrame (SMTEncoder.visitFunctionDefinition inlineBases _function) := by
  unfold SMTEncoder.visitFunctionDefinition
  repeat' (first
    | assumption
    | with_reducible exact Visitor.Respects.mono BodyFrame.toConstructorFrame (Statement.acceptStatement_frame _)
    | with_reducible exact Visitor.Respects.mono BodyFrame.toConstructorFrame (CHC.createBlock_frame _ _)
    | with_reducible exact Visitor.Respects.mono BodyFrame.toConstructorFrame (CHC.setCurrentBlock_frame _ _)
    | with_reducible exact Visitor.Respects.mono BodyFrame.toConstructorFrame (CHC.predicate_frame _)
    | with_reducible exact Visitor.Respects.mono BodyFrame.toConstructorFrame (CHC.summary_frame _)
    | with_reducible exact Visitor.Respects.mono BodyFrame.toConstructorFrame (CHC.connectBlocks_frame _ _ _)
    | with_reducible exact Visitor.Respects.mono BodyFrame.toConstructorFrame (SMTEncoder.initFunction_frame _)
    | with_reducible exact Visitor.Respects.mono BodyFrame.toConstructorFrame (CHC.currentFunctionVariables_frame)
    | with_reducible exact Visitor.Respects.mono BodyFrame.toConstructorFrame (CHC.currentStateVariables_frame)
    | with_reducible exact Visitor.Respects.mono BodyFrame.toConstructorFrame (CHC.initialStateVariables_frame)
    | with_reducible exact Visitor.Respects.mono BodyFrame.toConstructorFrame (CHC.genesis_frame)
    | with_reducible exact Visitor.Respects.mono BodyFrame.toConstructorFrame (CHC.interface_frame)
    | with_reducible exact Visitor.Respects.mono BodyFrame.toConstructorFrame (CHC.error_frame)
    | with_reducible exact Visitor.Respects.mono BodyFrame.toConstructorFrame (CHC.clearIndices_frame _ _)
    | with_reducible exact Visitor.Respects.mono BodyFrame.toConstructorFrame (CHC.createSymbolicBlock_frame _ _)
    | with_reducible exact Visitor.Respects.mono BodyFrame.toConstructorFrame (CHC.addRule_frame _ _)
    | with_reducible exact Visitor.Respects.mono BodyFrame.toConstructorFrame (CHC.registerRelation_frame _)
    | with_reducible exact Visitor.Respects.mono BodyFrame.toConstructorFrame (CHC.uniquePrefix_frame)
    | apply Visitor.Respects.bind ConstructorFrame.constructorOrder
    | apply Visitor.Respects.pure ConstructorFrame.constructorOrder
    | apply Visitor.Respects.read ConstructorFrame.constructorOrder
    | apply Visitor.Respects.deref ConstructorFrame.constructorOrder
    | apply Visitor.Respects.solAssert ConstructorFrame.constructorOrder
    | apply Visitor.Respects.forEach ConstructorFrame.constructorOrder
    | exact ConstructorFrame.constructorUpdate _ (fun _ => ⟨rfl, rfl, rfl, rfl, rfl, rfl, rfl, rfl, rfl, rfl, rfl⟩)
    | intro _
    | split
    | contradiction
    | dsimp only)

theorem CHC.visitFunctionDefinition_frameC (inlineBases : Visitor Unit) (_function : FunctionDefinition)
    (h : Visitor.Respects ConstructorFrame inlineBases) :
    Visitor.Respects ConstructorFrame (CHC.visitFunctionDefinition inlineBases _function) := by
  unfold CHC.visitFunctionDefinition
  repeat' (first
    | assumption
    | with_reducible exact SMTEncoder.baseVisitFunctionDefinition_frameC _ _ h
    | with_reducible exact Visitor.Respects.mono BodyFrame.toConstructorFrame (Statement.acceptStatement_frame _)
    | with_reducible exact Visitor.Respects.mono BodyFrame.toConstructorFrame (CHC.createBlock_frame _ _)
    | with_reducible exact Visitor.Respects.mono BodyFrame.toConstructorFrame (CHC.setCurrentBlock_frame _ _)
    | with_reducible exact Visitor.Respects.mono BodyFrame.toConstructorFrame (CHC.predicate_frame _)
    | with_reducible exact Visitor.Respects.mono BodyFrame.toConstructorFrame (CHC.summary_frame _)
    | with_reducible exact Visitor.Respects.mono BodyFrame.toConstructorFrame (CHC.connectBlocks_frame _ _ _)
    | with_reducible exact Visitor.Respects.mono BodyFrame.toConstructorFrame (SMTEncoder.initFunction_frame _)
    | with_reducible exact Visitor.Respects.mono BodyFrame.toConstructorFrame (CHC.currentFunctionVariables_frame)
    | with_reducible exact Visitor.Respects.mono BodyFrame.toConstructorFrame (CHC.currentStateVariables_frame)
    | with_reducible exact Visitor.Respects.mono BodyFrame.toConstructorFrame (CHC.initialStateVariables_frame)
    | with_reducible exact Visitor.Respects.mono BodyFrame.toConstructorFrame (CHC.genesis_frame)
    | with_reducible exact Visitor.Respects.mono BodyFrame.toConstructorFrame (CHC.interface_frame)
    | with_reducible exact Visitor.Respects.mono BodyFrame.toConstructorFrame (CHC.error_frame)
    | with_reducible exact Visitor.Respects.mono BodyFrame.toConstructorFrame (CHC.clearIndices_frame _ _)
    | with_reducible exact Visitor.Respects.mono BodyFrame.toConstructorFrame (CHC.createSymbolicBlock_frame _ _)
    | with_reducible exact Visitor.Respects.mono BodyFrame.toConstructorFrame (CHC.addRule_frame _ _)
    | with_reducible exact Visitor.Respects.mono BodyFrame.toConstructorFrame (CHC.registerRelation_frame _)
    | with_reducible exact Visitor.Respects.mono BodyFrame.toConstructorFrame (CHC.uniquePrefix_frame)
    | apply Visitor.Respects.bind ConstructorFrame.constructorOrder
    | apply Visitor.Respects.pure ConstructorFrame.constructorOrder
    | apply Visitor.Respects.read ConstructorFrame.constructorOrder
    | apply Visitor.Respects.deref ConstructorFrame.constructorOrder
    | apply Visitor.Respects.solAssert ConstructorFrame.constructorOrder
    | apply Visitor.Respects.forEach ConstructorFrame.constructorOrder
    | exact ConstructorFrame.constructorUpdate _ (fun _ => ⟨rfl, rfl, rfl, rfl, rfl, rfl, rfl, rfl, rfl, rfl, rfl⟩)
    | intro _
    | split
    | contradiction
    | dsimp only)

theorem CHC.endVisitFunctionDefinition_frameC (_function : FunctionDefinition) (hctor : _function.isConstructor = true) :
    Visitor.Respects ConstructorFrame (CHC.endVisitFunctionDefinition _function) := by
  unfold CHC.endVisitFunctionDefinition
  repeat' (first
    | assumption
    | with_reducible exact Visitor.Respects.mono BodyFrame.toConstructorFrame (Statement.acceptStatement_frame _)
    | with_reducible exact Visitor.Respects.mono BodyFrame.toConstructorFrame (CHC.createBlock_frame _ _)
    | with_reducible exact Visitor.Respects.mono BodyFrame.toConstructorFrame (CHC.setCurrentBlock_frame _ _)
    | with_reducible exact Visitor.Respects.mono BodyFrame.toConstructorFrame (CHC.predicate_frame _)
    | with_reducible exact Visitor.Respects.mono BodyFrame.toConstructorFrame (CHC.summary_frame _)
    | with_reducible exact Visitor.Respects.mono BodyFrame.toConstructorFrame (CHC.connectBlocks_frame _ _ _)
    | with_reducible exact Visitor.Respects.mono BodyFrame.toConstructorFrame (SMTEncoder.initFunction_frame _)
    | with_reducible exact Visitor.Respects.mono BodyFrame.toConstructorFrame (CHC.currentFunctionVariables_frame)
    | with_reducible exact Visitor.Respects.mono BodyFrame.toConstructorFrame (CHC.currentStateVariables_frame)
    | with_reducible exact Visitor.Respects.mono BodyFrame.toConstructorFrame (CHC.initialStateVariables_frame)
    | with_reducible exact Visitor.Respects.mono BodyFrame.toConstructorFrame (CHC.genesis_frame)
    | with_reducible exact Visitor.Respects.mono BodyFrame.toConstructorFrame (CHC.interface_frame)
    | with_reducible exact Visitor.Respects.mono BodyFrame.toConstructorFrame (CHC.error_frame)
    | with_reducible exact Visitor.Respects.mono BodyFrame.toConstructorFrame (CHC.clearIndices_frame _ _)
    | with_reducible exact Visitor.Respects.mono BodyFrame.toConstructorFrame (CHC.createSymbolicBlock_frame _ _)
    | with_reducible exact Visitor.Respects.mono BodyFrame.toConstructorFrame (CHC.addRule_frame _ _)
    | with_reducible exact Visitor.Respects.mono BodyFrame.toConstructorFrame (CHC.registerRelation_frame _)
    | with_reducible exact Visitor.Respects.mono BodyFrame.toConstructorFrame (CHC.uniquePrefix_frame)
    | apply Visitor.Respects.bind ConstructorFrame.constructorOrder
    | apply Visitor.Respects.pure ConstructorFrame.constructorOrder
    | apply Visitor.Respects.read ConstructorFrame.constructorOrder
    | apply Visitor.Respects.deref ConstructorFrame.constructorOrder
    | apply Visitor.Respects.solAssert ConstructorFrame.constructorOrder
    | apply Visitor.Respects.forEach ConstructorFrame.constructorOrder
    | exact ConstructorFrame.constructorUpdate _ (fun _ => ⟨rfl, rfl, rfl, rfl, rfl, rfl, rfl, rfl, rfl, rfl, rfl⟩)
    | intro _
    | split
    | contradiction
    | dsimp only)

theorem FunctionDefinition.accept_frameC (inlineBases : Visitor Unit) (_function : FunctionDefinition)
    (hctor : _function.isConstructor = true) (h : Visitor.Respects ConstructorFrame inlineBases) :
    Visitor.Respects ConstructorFrame (FunctionDefinition.accept inlineBases _function) := by
  unfold FunctionDefinition.accept
  exact Visitor.Respects.bind ConstructorFrame.constructorOrder (CHC.visitFunctionDefinition_frameC _ _ h)
    (fun _ => CHC.endVisitFunctionDefinition_frameC _ hctor)

theorem BaseContract.baseConstructor_isConstructor (base : BaseContract) (f : FunctionDefinition)
    (h : base.constructor = some f) : f.isConstructor = true := by
  unfold BaseContract.constructor at h
  exact List.find?_some h

theorem ContractDefinition.contractConstructor_isConstructor (c : ContractDefinition)
    (f : FunctionDefinition) (h : c.constructor = some f) : f.isConstructor = true := by
  unfold ContractDefinition.constructor at h
  exact List.find?_some h

theorem SMTEncoder.inlineConstructorHierarchy_frame :
    ∀ bases : List BaseContract,
      Visitor.Respects ConstructorFrame (SMTEncoder.inlineConstructorHierarchy bases)
  | [] => by
    rw [SMTEncoder.inlineConstructorHierarchy]
    exact Visitor.Respects.pure ConstructorFrame.constructorOrder _
  | base :: rest => by
    rw [SMTEncoder.inlineConstructorHierarchy]
    have ih := SMTEncoder.inlineConstructorHierarchy_frame rest
    split
    · rename_i baseConstructor hbase
      split
      · exact FunctionDefinition.accept_frameC _ _
          (BaseContract.baseConstructor_isConstructor _ _ hbase) ih
      · exact ih
    · exact ih

/-! ## The visit of a function that returns -/

theorem Visitor.bind_ok_iff {α β : Type} (m : Visitor α) (f : α → Visitor β) (s s1 : CHC) (b : β) :
    (m >>= f) s = .ok b s1 ↔ ∃ a s0, m s = .ok a s0 ∧ f a s0 = .ok b s1 := by
  rw [Visitor.bind_run]
  cases h : m s with
  | ok a s0 =>
    constructor
    · intro h1
      exact ⟨a, s0, rfl, h1⟩
    · rintro ⟨a1, s2, h1, h2⟩
      cases h1
      exact h2
  | abort msg s0 => simp

theorem Visitor.bind_ok {α β : Type} {m : Visitor α} {f : α → Visitor β} {s s1 : CHC} {b : β}
    (h : (m >>= f) s = .ok b s1) : ∃ a s0, m s = .ok a s0 ∧ f a s0 = .ok b s1 :=
  (Visitor.bind_ok_iff m f s s1 b).mp h

theorem Visitor.read_ok {α : Type} {f : CHC → α} {s s1 : CHC} {a : α}
    (h : Visitor.read f s = .ok a s1) : a = f s ∧ s1 = s := by
  rw [Visitor.read_run] at h
  cases h
  exact ⟨rfl, rfl⟩

theorem Visitor.update_ok {f : CHC → CHC} {s s1 : CHC} {a : Unit}
    (h : Visitor.update f s = .ok a s1) : s1 = f s := by
  rw [Visitor.update_run] at h
  cases h
  rfl

theorem Visitor.pure_ok {α : Type} {a b : α} {s s1 : CHC}
    (h : (Pure.pure a : Visitor α) s = .ok b s1) : b = a ∧ s1 = s := by
  rw [Visitor.pure_run] at h
  cases h
  exact ⟨rfl, rfl⟩

theorem Visitor.deref_ok {α : Type} {f : CHC → Option α} {what : String} {s s1 : CHC} {a : α}
    (h : Visitor.deref f what s = .ok a s1) : f s = some a ∧ s1 = s := by
  unfold Visitor.deref at h
  cases hf : f s with
  | none => rw [hf] at h; cases h
  | some b =>
    rw [hf] at h
    cases h
    exact ⟨rfl, rfl⟩

theorem SMTEncoder.visitFunctionDefinition_frame (inlineBases : Visitor Unit)
    (f : FunctionDefinition) (hc : f.isConstructor = false) :
    Visitor.Respects BodyFrame (SMTEncoder.visitFunctionDefinition inlineBases f) := by
  unfold SMTEncoder.visitFunctionDefinition
  rw [hc]
  repeat' (first
    | exact Statement.acceptStatement_frame _
    | apply Visitor.Respects.bind BodyFrame.bodyOrder
    | apply Visitor.Respects.pure BodyFrame.bodyOrder
    | intro _
    | split
    | contradiction)

/-- Entering a function that is implemented, when none is active, makes it the
current function and otherwise respects the frame of a body. -/
theorem CHC.visitFunctionDefinition_enter (inlineBases : Visitor Unit) (f : FunctionDefinition)
    (s : CHC) (hn : s.m_currentFunction = none) (hi : f.isImplemented = true)
    (hc : f.isConstructor = false) :
    BodyFrame { s with m_currentFunction := some f }
      (CHC.visitFunctionDefinition inlineBases f s).state := by
  unfold CHC.visitFunctionDefinition
  simp only [CHC.shouldVisitFunction, hi, Bool.not_true, Bool.false_eq_true, ↓reduceIte]
  rw [Visitor.bind_run]
  simp only [Visitor.read_run, hn]
  rw [Visitor.bind_run]
  simp only [Visitor.update_run]
  apply Visitor.Respects.run
  repeat' (first
    | exact SMTEncoder.visitFunctionDefinition_frame _ _ hc
    | exact SMTEncoder.initFunction_frame _
    | exact CHC.createBlock_frame _ _
    | exact CHC.currentFunctionVariables_frame
    | exact CHC.predicate_frame _
    | exact CHC.genesis_frame
    | exact CHC.connectBlocks_frame _ _ _
    | exact CHC.setCurrentBlock_frame _ _
    | apply Visitor.Respects.bind BodyFrame.bodyOrder
    | apply Visitor.Respects.pure BodyFrame.bodyOrder
    | apply Visitor.Respects.read BodyFrame.bodyOrder
    | apply Visitor.Respects.deref BodyFrame.bodyOrder
    | apply Visitor.Respects.forEach BodyFrame.bodyOrder
    | exact BodyFrame.bodyUpdate _ (fun _ => ⟨rfl, rfl, rfl, rfl, rfl, rfl, rfl, rfl, rfl, rfl, rfl, rfl⟩)
    | intro _
    | dsimp only)

/-- Leaving a function that is current, implemented and not a constructor: if it
returns, no function is current, and for a public function the error predicate
was refreshed once and recorded. -/
theorem CHC.endVisitFunctionDefinition_ok (f : FunctionDefinition) (s s1 : CHC)
    (hcur : s.m_currentFunction = some f) (hi : f.isImplemented = true)
    (hc : f.isConstructor = false) (h : CHC.endVisitFunctionDefinition f s = .ok () s1) :
    s1.m_currentFunction = none ∧
    (if f.isPublic then
      ∃ ep, s.m_errorPredicate = some ep ∧ s1.m_errorPredicate = some ep.increaseIndex ∧
        s1.m_functionErrors = emplaceFunctionError s.m_functionErrors f (ep.increaseIndex.app [])
    else s1.m_errorPredicate = s.m_errorPredicate ∧ s1.m_functionErrors = s.m_functionErrors) := by
  unfold CHC.endVisitFunctionDefinition at h
  simp only [CHC.shouldVisitFunction, hi, hc, Bool.not_true, Bool.false_eq_true, ↓reduceIte] at h
  obtain ⟨inlined, s0, h0, ha⟩ := Visitor.bind_ok h
  obtain ⟨rfl, rfl⟩ := Visitor.read_ok h0
  obtain ⟨_, s2, hb, hend⟩ := Visitor.bind_ok ha
  obtain ⟨-, rfl⟩ := Visitor.pure_ok hend
  simp only [hcur, Option.map_some', bne_self_eq_false, Bool.false_eq_true, ↓reduceIte] at hb
  obtain ⟨_, s3, hc0, hnone⟩ := Visitor.bind_ok hb
  obtain rfl := Visitor.update_ok hnone
  refine ⟨rfl, ?_⟩
  obtain ⟨iface, s4, h1, hd⟩ := Visitor.bind_ok hc0
  have f1 := Visitor.Respects.run_ok CHC.interface_frame h1
  obtain ⟨sum, s5, h2, he⟩ := Visitor.bind_ok hd
  have f2 := Visitor.Respects.run_ok (CHC.summary_frame _) h2
  obtain ⟨cur, s6, h3, hf⟩ := Visitor.bind_ok he
  obtain ⟨-, rfl⟩ := Visitor.read_ok h3
  obtain ⟨_, s7, h4, hg⟩ := Visitor.bind_ok hf
  have f4 := Visitor.Respects.run_ok (CHC.connectBlocks_frame _ _ _) h4
  obtain ⟨st, s8, h5, hh⟩ := Visitor.bind_ok hg
  have f5 := Visitor.Respects.run_ok CHC.initialStateVariables_frame h5
  obtain ⟨ip, s9, h6, hj⟩ := Visitor.bind_ok hh
  obtain ⟨-, rfl⟩ := Visitor.deref_ok h6
  obtain ⟨_, s10, h7, hk⟩ := Visitor.bind_ok hj
  have f7 := Visitor.Respects.run_ok (CHC.setCurrentBlock_frame _ _) h7
  have fr := BodyFrame.bodyOrder.trans _ _ _ f1 (BodyFrame.bodyOrder.trans _ _ _ f2
    (BodyFrame.bodyOrder.trans _ _ _ f4 (BodyFrame.bodyOrder.trans _ _ _ f5 f7)))
  by_cases hp : f.isPublic = true
  · simp only [hp, ↓reduceIte] at hk ⊢
    obtain ⟨_, s11, h8, hl⟩ := Visitor.bind_ok hk
    unfold CHC.createErrorBlock at h8
    obtain ⟨ep, s12, h9, h8a⟩ := Visitor.bind_ok h8
    obtain ⟨hep, rfl⟩ := Visitor.deref_ok h9
    obtain ⟨_, s13, h10, h8b⟩ := Visitor.bind_ok h8a
    obtain rfl := Visitor.update_ok h10
    obtain rfl := Visitor.update_ok h8b
    obtain ⟨c1, s14, h11, hm⟩ := Visitor.bind_ok hl
    obtain ⟨-, rfl⟩ := Visitor.read_ok h11
    obtain ⟨e1, s15, h12, hn⟩ := Visitor.bind_ok hm
    have f12 := Visitor.Respects.run_ok CHC.error_frame h12
    obtain ⟨v1, s16, h13, ho⟩ := Visitor.bind_ok hn
    obtain ⟨-, rfl⟩ := Visitor.read_ok h13
    obtain ⟨_, s17, h14, hq⟩ := Visitor.bind_ok ho
    have f14 := Visitor.Respects.run_ok (CHC.connectBlocks_frame _ _ _) h14
    obtain ⟨c2, s18, h15, hr⟩ := Visitor.bind_ok hq
    obtain ⟨-, rfl⟩ := Visitor.read_ok h15
    obtain ⟨v2, s19, h16, hs⟩ := Visitor.bind_ok hr
    obtain ⟨-, rfl⟩ := Visitor.read_ok h16
    obtain ⟨_, s20, h17, ht⟩ := Visitor.bind_ok hs
    have f17 := Visitor.Respects.run_ok (CHC.connectBlocks_frame _ _ _) h17
    obtain ⟨e2, s21, h18, hu⟩ := Visitor.bind_ok ht
    have f18 := Visitor.Respects.run_ok CHC.error_frame h18
    obtain rfl := Visitor.update_ok hu
    have fr2 := BodyFrame.bodyOrder.trans _ _ _ f12 (BodyFrame.bodyOrder.trans _ _ _ f14
      (BodyFrame.bodyOrder.trans _ _ _ f17 f18))
    unfold CHC.error at h18
    obtain ⟨ep2, s22, h19, h18a⟩ := Visitor.bind_ok h18
    obtain ⟨hep2, rfl⟩ := Visitor.deref_ok h19
    obtain ⟨rfl, -⟩ := Visitor.pure_ok h18a
    have e1 : s21.m_errorPredicate = some ep.increaseIndex := fr2.errorPredicate
    have e2 : s21.m_functionErrors = s0.m_functionErrors :=
      fr2.functionErrors.trans fr.functionErrors
    have e3 : ep2 = ep.increaseIndex := by
      have h20 := f18.errorPredicate
      rw [hep2, e1] at h20
      exact (Option.some.inj h20).symm
    have e4 : s0.m_errorPredicate = some ep := by
      rw [← fr.errorPredicate]
      exact hep
    refine ⟨ep, e4, e1, ?_⟩
    show emplaceFunctionError s21.m_functionErrors f (ep2.app []) = _
    rw [e2, e3]
  · simp only [hp, ↓reduceIte, Bool.false_eq_true] at hk ⊢
    obtain ⟨-, rfl⟩ := Visitor.pure_ok hk
    exact ⟨fr.errorPredicate, fr.functionErrors⟩

/-- The visit of a function other than a constructor, when none is active: if it
returns, no function is active again, and the error predicate was refreshed
once and recorded exactly when the function is implemented and public. -/
theorem FunctionDefinition.acceptFunction_ok (inlineBases : Visitor Unit) (f : FunctionDefinition)
    (s s1 : CHC) (hn : s.m_currentFunction = none) (hc : f.isConstructor = false)
    (h : FunctionDefinition.accept inlineBases f s = .ok () s1) :
    s1.m_currentFunction = none ∧
    (if recordedFunction f then
      ∃ ep, s.m_errorPredicate = some ep ∧ s1.m_errorPredicate = some ep.increaseIndex ∧
        s1.m_functionErrors = emplaceFunctionError s.m_functionErrors f (ep.increaseIndex.app [])
    else s1.m_errorPredicate = s.m_errorPredicate ∧ s1.m_functionErrors = s.m_functionErrors) := by
  unfold FunctionDefinition.accept at h
  obtain ⟨b, s2, hv, he⟩ := Visitor.bind_ok h
  by_cases hi : f.isImplemented = true
  · have hfr := CHC.visitFunctionDefinition_enter inlineBases f s hn hi hc
    rw [hv] at hfr
    have hcur : s2.m_currentFunction = some f := hfr.currentFunction
    obtain ⟨h1, h2⟩ := CHC.endVisitFunctionDefinition_ok f s2 s1 hcur hi hc he
    refine ⟨h1, ?_⟩
    have e1 : s2.m_errorPredicate = s.m_errorPredicate := hfr.errorPredicate
    have e2 : s2.m_functionErrors = s.m_functionErrors := hfr.functionErrors
    simp only [recordedFunction, hc, hi, Bool.not_false, Bool.true_and]
    rw [e1, e2] at h2
    exact h2
  · have hi2 : f.isImplemented = false := by simpa using hi
    unfold CHC.visitFunctionDefinition at hv
    unfold CHC.endVisitFunctionDefinition at he
    simp only [CHC.shouldVisitFunction, hi2, Bool.not_false, ↓reduceIte] at hv he
    obtain ⟨-, rfl⟩ := Visitor.pure_ok hv
    obtain ⟨-, rfl⟩ := Visitor.pure_ok he
    simp [recordedFunction, hn, hi2]

/-! ## The visit of a contract that returns -/

theorem BodyFrame.toPrologueFrame (s s1 : CHC) (h : BodyFrame s s1) : PrologueFrame s s1 :=
  ⟨h.functionErrors, h.errorPredicate, h.currentFunction, h.reporter, h.answer, h.calls⟩

theorem PrologueFrame.prologueToFunctionFrame (s s1 : CHC) (h : PrologueFrame s s1) : FunctionFrame s s1 :=
  ⟨h.reporter, h.answer, h.calls⟩

theorem PrologueFrame.prologueOrder : StateOrder PrologueFrame where
  refl s := ⟨rfl, rfl, rfl, rfl, rfl, [], by simp, by simp⟩
  trans s1 s2 s3 h12 h23 := by
    obtain ⟨l1, hl1, hq1⟩ := h12.calls
    obtain ⟨l2, hl2, hq2⟩ := h23.calls
    refine ⟨h23.functionErrors.trans h12.functionErrors, h23.errorPredicate.trans h12.errorPredicate,
      h23.currentFunction.trans h12.currentFunction, h23.reporter.trans h12.reporter,
      h23.answer.trans h12.answer, l1 ++ l2, ?_, ?_⟩
    · rw [hl2, hl1, List.append_assoc]
    · intro e he
      rcases List.mem_append.mp he with h | h
      · exact hq1 e h
      · exact hq2 e h

/-- An update of members outside the frame respects the frame. -/
theorem PrologueFrame.prologueUpdate (f : CHC → CHC)
    (h : ∀ s, (f s).m_functionErrors = s.m_functionErrors ∧
      (f s).m_errorPredicate = s.m_errorPredicate ∧
      (f s).m_currentFunction = s.m_currentFunction ∧
      (f s).m_outerErrorReporter = s.m_outerErrorReporter ∧
      (f s).m_interface = s.m_interface) :
    Visitor.Respects PrologueFrame (Visitor.update f) := by
  apply Visitor.Respects.of_run
  intro s
  obtain ⟨h1, h2, h3, h4, h5⟩ := h s
  exact ⟨h1, h2, h3, h4, by rw [Visitor.update_run, Result.state, h5],
    [], by simp [Result.state, h5], by simp⟩

theorem SMTEncoder.initContract_frame (c : ContractDefinition) :
    Visitor.Respects PrologueFrame (SMTEncoder.initContract c) := by
  unfold SMTEncoder.initContract
  repeat' (first
    | exact Visitor.Respects.mono BodyFrame.toPrologueFrame (CHC.clearIndices_frame _ _)
    | apply Visitor.Respects.bind PrologueFrame.prologueOrder
    | apply Visitor.Respects.forEach PrologueFrame.prologueOrder
    | exact PrologueFrame.prologueUpdate _ (fun _ => ⟨rfl, rfl, rfl, rfl, rfl⟩)
    | intro _)

theorem CHC.createSummaryBlock_frame (f : FunctionDefinition) :
    Visitor.Respects BodyFrame (CHC.createSummaryBlock f) := by
  unfold CHC.createSummaryBlock
  repeat' (first
    | exact CHC.createSymbolicBlock_frame _ _
    | exact CHC.uniquePrefix_frame
    | apply Visitor.Respects.bind BodyFrame.bodyOrder
    | apply Visitor.Respects.read BodyFrame.bodyOrder
    | intro _)

theorem CHC.visitContractDefinition_frame (c : ContractDefinition) :
    Visitor.Respects FunctionFrame (CHC.visitContractDefinition c) := by
  unfold CHC.visitContractDefinition SMTEncoder.visitContractDefinition
  repeat' (first
    | exact FunctionDefinition.accept_frameF _ _ (Visitor.Respects.pure FunctionFrame.functionOrder _)
    | exact Visitor.Respects.mono PrologueFrame.prologueToFunctionFrame (SMTEncoder.initContract_frame _)
    | exact Visitor.Respects.mono BodyFrame.bodyToFunctionFrame (CHC.createSummaryBlock_frame _)
    | exact Visitor.Respects.mono BodyFrame.bodyToFunctionFrame (CHC.clearIndices_frame _ _)
    | exact Visitor.Respects.mono BodyFrame.bodyToFunctionFrame (CHC.createSymbolicBlock_frame _ _)
    | exact Visitor.Respects.mono BodyFrame.bodyToFunctionFrame CHC.currentStateVariables_frame
    | exact Visitor.Respects.mono BodyFrame.bodyToFunctionFrame (CHC.setCurrentBlock_frame _ _)
    | apply Visitor.Respects.bind FunctionFrame.functionOrder
    | apply Visitor.Respects.pure FunctionFrame.functionOrder
    | apply Visitor.Respects.read FunctionFrame.functionOrder
    | apply Visitor.Respects.forEach FunctionFrame.functionOrder
    | exact FunctionFrame.functionUpdate _ (fun _ => ⟨rfl, rfl⟩)
    | intro _
    | split
    | dsimp only)

/-- The loop over the functions of a contract: if it returns, no function is
active and the function errors and the error predicate are those computed by
`recordAll`. -/
theorem SMTEncoder.visitFunctions_ok :
    ∀ (fs : List FunctionDefinition) (s s1 : CHC) (ep : smt.SymbolicFunctionVariable),
      s.m_currentFunction = none → s.m_errorPredicate = some ep →
      Visitor.forEach
        (fun function =>
          if function.isConstructor then pure () else FunctionDefinition.accept (pure ()) function)
        fs s = .ok () s1 →
      s1.m_currentFunction = none ∧
      s1.m_errorPredicate = some (recordAll s.m_functionErrors ep fs).2 ∧
      s1.m_functionErrors = (recordAll s.m_functionErrors ep fs).1
  | [], s, s1, ep, hn, hep, h => by
    rw [Visitor.forEach] at h
    cases h
    exact ⟨hn, hep, rfl⟩
  | f :: rest, s, s1, ep, hn, hep, h => by
    rw [Visitor.forEach, Visitor.andThen_run] at h
    obtain ⟨_, s2, h1, h2⟩ := Visitor.bind_ok h
    by_cases hc : f.isConstructor = true
    · simp only [hc, ↓reduceIte] at h1
      obtain ⟨-, rfl⟩ := Visitor.pure_ok h1
      have ih := SMTEncoder.visitFunctions_ok rest s2 s1 ep hn hep h2
      simpa [recordAll, recordedFunction, hc] using ih
    · have hc2 : f.isConstructor = false := by simpa using hc
      simp only [hc2, Bool.false_eq_true, ↓reduceIte] at h1
      obtain ⟨hn2, hrec⟩ := FunctionDefinition.acceptFunction_ok _ f s s2 hn hc2 h1
      by_cases hr : recordedFunction f = true
      · simp only [hr, ↓reduceIte] at hrec
        obtain ⟨ep1, he1, he2, he3⟩ := hrec
        rw [hep] at he1
        cases he1
        have ih := SMTEncoder.visitFunctions_ok rest s2 s1 _ hn2 he2 h2
        rw [he3] at ih
        simpa [recordAll, hr] using ih
      · have hr2 : recordedFunction f = false := by simpa using hr
        simp only [hr2, Bool.false_eq_true, ↓reduceIte] at hrec
        obtain ⟨he2, he3⟩ := hrec
        have ih := SMTEncoder.visitFunctions_ok rest s2 s1 ep hn2 (he2.trans hep) h2
        rw [he3] at ih
        simpa [recordAll, hr2] using ih


theorem recordAll_eq :
    ∀ (fs : List FunctionDefinition) (errors : List (FunctionDefinition × smt.Expression))
      (ep : smt.SymbolicFunctionVariable),
      (fs.map (·.id)).Nodup → (∀ f ∈ fs, ∀ p ∈ errors, p.1.id ≠ f.id) →
      recordAll errors ep fs =
        (errors ++ ((fs.filter recordedFunction).enumFrom (ep.index + 1)).map
            (fun p => (p.2, smt.Expression.apply ep.uniqueName p.1 [])),
          { ep with index := ep.index + (fs.filter recordedFunction).length })
  | [], errors, ep, _, _ => by
    simp [recordAll]
  | f :: rest, errors, ep, hnd, hdis => by
    rw [List.map_cons, List.nodup_cons] at hnd
    have hrest : ∀ g ∈ rest, ∀ p ∈ errors, p.1.id ≠ g.id :=
      fun g hg p hp => hdis g (List.mem_cons_of_mem _ hg) p hp
    by_cases hr : recordedFunction f = true
    · have hany : (errors.any fun p => p.1.id == f.id) = false := by
        rw [List.any_eq_false]
        intro p hp
        simpa using hdis f (List.mem_cons_self _ _) p hp
      have hdis2 : ∀ g ∈ rest,
          ∀ p ∈ errors ++ [(f, ep.increaseIndex.app [])], p.1.id ≠ g.id := by
        intro g hg p hp
        rcases List.mem_append.mp hp with h | h
        · exact hrest g hg p h
        · simp only [List.mem_singleton] at h
          subst h
          intro heq
          exact hnd.1 (List.mem_map.mpr ⟨g, hg, heq.symm⟩)
      rw [recordAll, if_pos hr, emplaceFunctionError, hany]
      simp only [Bool.false_eq_true, ↓reduceIte]
      rw [recordAll_eq rest _ _ hnd.2 hdis2]
      simp only [List.filter_cons, hr, ↓reduceIte, List.enumFrom_cons, List.map_cons,
        List.length_cons, smt.SymbolicFunctionVariable.increaseIndex,
        smt.SymbolicFunctionVariable.app, List.append_assoc, List.singleton_append, Prod.mk.injEq,
        smt.SymbolicFunctionVariable.mk.injEq, true_and]
      omega
    · have hr2 : recordedFunction f = false := by simpa using hr
      rw [recordAll, if_neg hr, recordAll_eq rest _ _ hnd.2 hrest]
      simp [List.filter_cons, hr2]

theorem PrologueFrame.prologue_of_update_ok {f : CHC → CHC} {s s1 : CHC} {a : Unit}
    (h : Visitor.update f s = .ok a s1)
    (hf : (f s).m_functionErrors = s.m_functionErrors ∧
      (f s).m_errorPredicate = s.m_errorPredicate ∧
      (f s).m_currentFunction = s.m_currentFunction ∧
      (f s).m_outerErrorReporter = s.m_outerErrorReporter ∧
      (f s).m_interface = s.m_interface) : PrologueFrame s s1 := by
  obtain rfl := Visitor.update_ok h
  obtain ⟨h1, h2, h3, h4, h5⟩ := hf
  exact ⟨h1, h2, h3, h4, by rw [h5], [], by simp [h5], by simp⟩

theorem CHC.summaryLoop_frame (c : ContractDefinition) :
    Visitor.Respects PrologueFrame
      (Visitor.forEach
        (fun base : BaseContract => Visitor.forEach
          (fun function => do
            let block ← CHC.createSummaryBlock function
            Visitor.update fun s =>
              { s with m_summaries := emplaceSummary s.m_summaries function block })
          base.definedFunctions)
        c.linearizedBaseContracts) := by
  repeat' (first
    | exact Visitor.Respects.mono BodyFrame.toPrologueFrame (CHC.createSummaryBlock_frame _)
    | apply Visitor.Respects.bind PrologueFrame.prologueOrder
    | apply Visitor.Respects.forEach PrologueFrame.prologueOrder
    | exact PrologueFrame.prologueUpdate _ (fun _ => ⟨rfl, rfl, rfl, rfl, rfl⟩)
    | intro _)

/-- The visit of a contract that is not skipped, when it returns, is a run of
steps that set the contract up, with no function active, no recorded error and
the error predicate of the contract at index 0, followed by the loop over the
functions of the contract. -/
theorem CHC.visitContractDefinition_split (c : ContractDefinition) (s s2 : CHC) (b : Bool)
    (hv : CHC.shouldVisitContract c = true) (hn : s.m_currentFunction = none)
    (h : CHC.visitContractDefinition c s = .ok b s2) :
    ∃ s0, s0.m_currentFunction = none ∧
      s0.m_errorPredicate = some ⟨errorName c, ⟨[], .Bool⟩, 0⟩ ∧
      s0.m_functionErrors = [] ∧
      (∃ l, s0.m_interface.calls = s.m_interface.calls ++ l ∧ ∀ e ∈ l, ∀ g, e ≠ .query g) ∧
      Visitor.forEach
        (fun function =>
          if function.isConstructor then pure () else FunctionDefinition.accept (pure ()) function)
        (SMTEncoder.resolvedFunctions c) s0 = .ok () s2 := by
  unfold CHC.visitContractDefinition at h
  simp only [hv, Bool.not_true, Bool.false_eq_true, ↓reduceIte] at h
  obtain ⟨_, s3, h1, ha⟩ := Visitor.bind_ok h
  obtain rfl := Visitor.update_ok h1
  obtain ⟨_, s4, h2, hb⟩ := Visitor.bind_ok ha
  have f2 := Visitor.Respects.run_ok (SMTEncoder.initContract_frame _) h2
  obtain ⟨_, s5, h3, hc⟩ := Visitor.bind_ok hb
  have f3 := PrologueFrame.prologue_of_update_ok h3 ⟨rfl, rfl, rfl, rfl, rfl⟩
  obtain ⟨_, s6, h4, hd⟩ := Visitor.bind_ok hc
  have f4 := PrologueFrame.prologue_of_update_ok h4 ⟨rfl, rfl, rfl, rfl, rfl⟩
  obtain ⟨_, s7, h5, he⟩ := Visitor.bind_ok hd
  have f5 := Visitor.Respects.run_ok (CHC.summaryLoop_frame c) h5
  obtain ⟨_, s8, h6, hf⟩ := Visitor.bind_ok he
  have f6 := Visitor.Respects.run_ok
    (Visitor.Respects.mono BodyFrame.toPrologueFrame (CHC.clearIndices_frame _ _)) h6
  obtain ⟨isort, s9, h7, hg⟩ := Visitor.bind_ok hf
  obtain ⟨-, rfl⟩ := Visitor.read_ok h7
  obtain ⟨ip, s10, h8, hh⟩ := Visitor.bind_ok hg
  have f8 := Visitor.Respects.run_ok
    (Visitor.Respects.mono BodyFrame.toPrologueFrame (CHC.createSymbolicBlock_frame _ _)) h8
  obtain ⟨_, s11, h9, hi⟩ := Visitor.bind_ok hh
  have f9 := PrologueFrame.prologue_of_update_ok h9 ⟨rfl, rfl, rfl, rfl, rfl⟩
  obtain ⟨ep, s12, h10, hj⟩ := Visitor.bind_ok hi
  have f10 := Visitor.Respects.run_ok
    (Visitor.Respects.mono BodyFrame.toPrologueFrame (CHC.createSymbolicBlock_frame _ _)) h10
  have hepv : ep = ⟨errorName c, ⟨[], .Bool⟩, 0⟩ := by
    unfold CHC.createSymbolicBlock at h10
    obtain ⟨_, s20, h20, h21⟩ := Visitor.bind_ok h10
    obtain ⟨h22, -⟩ := Visitor.pure_ok h21
    rw [h22]
    rfl
  obtain ⟨_, s13, h11, hk⟩ := Visitor.bind_ok hj
  obtain rfl := Visitor.update_ok h11
  obtain ⟨csort, s14, h12, hl⟩ := Visitor.bind_ok hk
  unfold CHC.constructorSort CHC.interfaceSort at h12
  obtain ⟨-, rfl⟩ := Visitor.read_ok h12
  obtain ⟨cp, s15, h13, hm⟩ := Visitor.bind_ok hl
  have f13 := Visitor.Respects.run_ok
    (Visitor.Respects.mono BodyFrame.toPrologueFrame (CHC.createSymbolicBlock_frame _ _)) h13
  obtain ⟨_, s16, h14, ho⟩ := Visitor.bind_ok hm
  have f14 := PrologueFrame.prologue_of_update_ok h14 ⟨rfl, rfl, rfl, rfl, rfl⟩
  obtain ⟨st, s17, h15, hp⟩ := Visitor.bind_ok ho
  have f15 := Visitor.Respects.run_ok
    (Visitor.Respects.mono BodyFrame.toPrologueFrame CHC.currentStateVariables_frame) h15
  obtain ⟨_, s18, h16, hq⟩ := Visitor.bind_ok hp
  have f16 := Visitor.Respects.run_ok
    (Visitor.Respects.mono BodyFrame.toPrologueFrame (CHC.setCurrentBlock_frame _ _)) h16
  obtain ⟨_, s19, h17, hr⟩ := Visitor.bind_ok hq
  obtain ⟨-, rfl⟩ := Visitor.pure_ok hr
  unfold SMTEncoder.visitContractDefinition at h17
  obtain ⟨_, s21, h18, hs⟩ := Visitor.bind_ok h17
  obtain ⟨-, rfl⟩ := Visitor.pure_ok hs
  have fa := PrologueFrame.prologueOrder.trans _ _ _ f2 (PrologueFrame.prologueOrder.trans _ _ _ f3
    (PrologueFrame.prologueOrder.trans _ _ _ f4 (PrologueFrame.prologueOrder.trans _ _ _ f5
    (PrologueFrame.prologueOrder.trans _ _ _ f6 (PrologueFrame.prologueOrder.trans _ _ _ f8
    (PrologueFrame.prologueOrder.trans _ _ _ f9 f10))))))
  have fb := PrologueFrame.prologueOrder.trans _ _ _ f13 (PrologueFrame.prologueOrder.trans _ _ _ f14
    (PrologueFrame.prologueOrder.trans _ _ _ f15 f16))
  have hnone : s18.m_currentFunction = none := by
    rw [fb.currentFunction]
    show s12.m_currentFunction = none
    rw [fa.currentFunction]
    exact hn
  have hep2 : s18.m_errorPredicate = some ep := fb.errorPredicate
  have herr : s18.m_functionErrors = [] := by
    rw [fb.functionErrors]
    show s12.m_functionErrors = []
    rw [fa.functionErrors]
  rw [hepv] at hep2
  have hcalls : ∃ l, s18.m_interface.calls = s.m_interface.calls ++ l ∧
      ∀ e ∈ l, ∀ g, e ≠ .query g := by
    obtain ⟨l1, hl1, hq1⟩ := fa.calls
    obtain ⟨l2, hl2, hq2⟩ := fb.calls
    refine ⟨l1 ++ l2, ?_, ?_⟩
    · rw [hl2]
      show s12.m_interface.calls ++ l2 = _
      rw [hl1]
      simp
    · intro e he
      rcases List.mem_append.mp he with h3 | h3
      · exact hq1 e h3
      · exact hq2 e h3
  exact ⟨s18, hnone, hep2, herr, hcalls, h18⟩

theorem CHC.visitContractDefinition_ok (c : ContractDefinition) (s s2 : CHC) (b : Bool)
    (hv : CHC.shouldVisitContract c = true) (hn : s.m_currentFunction = none)
    (h : CHC.visitContractDefinition c s = .ok b s2) :
    s2.m_currentFunction = none ∧
    s2.m_functionErrors =
      (recordAll [] ⟨errorName c, ⟨[], .Bool⟩, 0⟩ (SMTEncoder.resolvedFunctions c)).1 := by
  obtain ⟨s0, hnone, hep, herr, -, hloop⟩ := CHC.visitContractDefinition_split c s s2 b hv hn h
  obtain ⟨r1, r2, r3⟩ := SMTEncoder.visitFunctions_ok _ s0 s2 _ hnone hep hloop
  rw [herr] at r3
  exact ⟨r1, r3⟩


/-! ## The exit of a contract -/

/-- One query: the goal is handed to the solver, and a warning, if any, is
located where the caller said. -/
theorem CHC.query_ok (goal : smt.Expression) (location : SourceLocation) (s : CHC) :
    ∃ b s1, CHC.query goal location s = .ok b s1 ∧
      s1.m_interface.calls = s.m_interface.calls ++ [.query goal] ∧
      s1.m_interface.answer = s.m_interface.answer ∧
      s1.m_functionErrors = s.m_functionErrors ∧
      ∃ ws, s1.m_outerErrorReporter.warnings = s.m_outerErrorReporter.warnings ++ ws ∧
        ∀ w ∈ ws, w.1 = location := by
  unfold CHC.query
  cases h : s.m_interface.answer s.m_interface.calls goal <;>
    simp [smt.CHCSolverInterface.query, h, ErrorReporter.warning]

/-- The loop of queries at the exit of a contract returns; it hands each
recorded error predicate to the solver, in order, changes nothing else of the
solver and of the recorded errors, and locates every warning at a recorded
function. -/
theorem CHC.queryLoop_ok :
    ∀ (targets : List (FunctionDefinition × smt.Expression)) (s : CHC),
      ∃ s1, Visitor.forEach
          (fun target : FunctionDefinition × smt.Expression => do
            let _ ← CHC.query target.2 target.1.location
            pure ())
          targets s = .ok () s1 ∧
        s1.m_interface.calls = s.m_interface.calls ++ targets.map (fun p => .query p.2) ∧
        s1.m_interface.answer = s.m_interface.answer ∧
        s1.m_functionErrors = s.m_functionErrors ∧
        ∃ ws, s1.m_outerErrorReporter.warnings = s.m_outerErrorReporter.warnings ++ ws ∧
          ∀ w ∈ ws, ∃ p ∈ targets, w.1 = p.1.location
  | [], s => ⟨s, rfl, by simp, rfl, rfl, [], by simp, by simp⟩
  | p :: rest, s => by
    obtain ⟨b, s1, h1, hc1, ha1, hf1, ws1, hw1, hl1⟩ := CHC.query_ok p.2 p.1.location s
    obtain ⟨s2, h2, hc2, ha2, hf2, ws2, hw2, hl2⟩ := CHC.queryLoop_ok rest s1
    refine ⟨s2, ?_, ?_, ha2.trans ha1, hf2.trans hf1, ws1 ++ ws2, ?_, ?_⟩
    · rw [Visitor.forEach, Visitor.andThen_run]
      simp only [Visitor.bind_run, h1, Visitor.pure_run]
      exact h2
    · rw [hc2, hc1]
      simp
    · rw [hw2, hw1, List.append_assoc]
    · intro w hw
      rcases List.mem_append.mp hw with h | h
      · exact ⟨p, List.mem_cons_self _ _, hl1 w h⟩
      · obtain ⟨q, hq, hq2⟩ := hl2 w h
        exact ⟨q, List.mem_cons_of_mem _ hq, hq2⟩

theorem ConstructorFrame.constructor_of_update_ok {f : CHC → CHC} {s s1 : CHC} {a : Unit}
    (h : Visitor.update f s = .ok a s1) (hf : ConstructorFrame s (f s)) :
    ConstructorFrame s s1 := by
  obtain rfl := Visitor.update_ok h
  exact hf

theorem CHC.zeroStateVariables_frame (vars : List VariableDeclaration) :
    Visitor.Respects BodyFrame
      (Visitor.forEach
        (fun var => do
          solAssert (← Visitor.read fun s => s.m_context.knownVariable var) ""
          Visitor.update fun s => { s with m_context := s.m_context.setZeroValue var })
        vars) := by
  repeat' (first
    | apply Visitor.Respects.bind BodyFrame.bodyOrder
    | apply Visitor.Respects.forEach BodyFrame.bodyOrder
    | apply Visitor.Respects.read BodyFrame.bodyOrder
    | apply Visitor.Respects.solAssert BodyFrame.bodyOrder
    | exact BodyFrame.bodyUpdate _ (fun _ => ⟨rfl, rfl, rfl, rfl, rfl, rfl, rfl, rfl, rfl, rfl, rfl, rfl⟩)
    | intro _)

/-- The constructor step at the exit of a contract respects the frame of a
constructor. -/
theorem CHC.constructorStep_frame (c : ContractDefinition) :
    Visitor.Respects ConstructorFrame
      (match c.constructor with
        | some constructor =>
          constructor.accept (SMTEncoder.inlineConstructorHierarchy c.baseContracts)
        | none => SMTEncoder.inlineConstructorHierarchy c.baseContracts) := by
  split
  · rename_i ctor hctor
    exact FunctionDefinition.accept_frameC _ _
      (ContractDefinition.contractConstructor_isConstructor c ctor hctor)
      (SMTEncoder.inlineConstructorHierarchy_frame _)
  · exact SMTEncoder.inlineConstructorHierarchy_frame _

/-- The exit of a visited contract, when it returns, is a run of steps that
respect the frame of a constructor, then the loop of queries over the recorded
errors, then the exit of the base class. -/
theorem CHC.endVisitContractDefinition_split (c : ContractDefinition) (s s1 : CHC)
    (hv : CHC.shouldVisitContract c = true)
    (h : CHC.endVisitContractDefinition c s = .ok () s1) :
    ∃ s2 s3, ConstructorFrame s s2 ∧
      Visitor.forEach
          (fun target : FunctionDefinition × smt.Expression => do
            let _ ← CHC.query target.2 target.1.location
            pure ())
          s2.m_functionErrors s2 = .ok () s3 ∧
      s1.m_functionErrors = s3.m_functionErrors ∧
      s1.m_interface = s3.m_interface ∧
      s1.m_outerErrorReporter = s3.m_outerErrorReporter := by
  unfold CHC.endVisitContractDefinition at h
  simp only [hv, Bool.not_true, Bool.false_eq_true, ↓reduceIte] at h
  obtain ⟨vars, s2, h1, ha⟩ := Visitor.bind_ok h
  obtain ⟨-, rfl⟩ := Visitor.read_ok h1
  obtain ⟨_, s3, h2, hb⟩ := Visitor.bind_ok ha
  have f2 := Visitor.Respects.run_ok
    (Visitor.Respects.mono BodyFrame.toConstructorFrame (CHC.zeroStateVariables_frame _)) h2
  obtain ⟨cp, s4, h3, hc⟩ := Visitor.bind_ok hb
  obtain ⟨-, rfl⟩ := Visitor.deref_ok h3
  obtain ⟨st, s5, h4, hd⟩ := Visitor.bind_ok hc
  have f4 := Visitor.Respects.run_ok
    (Visitor.Respects.mono BodyFrame.toConstructorFrame CHC.currentStateVariables_frame) h4
  obtain ⟨g, s6, h5, he⟩ := Visitor.bind_ok hd
  have f5 := Visitor.Respects.run_ok
    (Visitor.Respects.mono BodyFrame.toConstructorFrame CHC.genesis_frame) h5
  obtain ⟨_, s7, h6, hf⟩ := Visitor.bind_ok he
  have f6 := Visitor.Respects.run_ok
    (Visitor.Respects.mono BodyFrame.toConstructorFrame (CHC.connectBlocks_frame _ _ _)) h6
  obtain ⟨_, s8, h7, hg⟩ := Visitor.bind_ok hf
  have f7 := ConstructorFrame.constructor_of_update_ok h7
    ⟨rfl, rfl, rfl, rfl, rfl, rfl, rfl, rfl, rfl, rfl, rfl, [], by simp, by simp⟩
  obtain ⟨_, s9, h8, hh⟩ := Visitor.bind_ok hg
  have f8 := Visitor.Respects.run_ok (CHC.constructorStep_frame c) h8
  obtain ⟨cb, s10, h9, hi⟩ := Visitor.bind_ok hh
  obtain ⟨-, rfl⟩ := Visitor.read_ok h9
  obtain ⟨ifc, s11, h10, hj⟩ := Visitor.bind_ok hi
  have f10 := Visitor.Respects.run_ok
    (Visitor.Respects.mono BodyFrame.toConstructorFrame CHC.interface_frame) h10
  obtain ⟨_, s12, h11, hk⟩ := Visitor.bind_ok hj
  have f11 := Visitor.Respects.run_ok
    (Visitor.Respects.mono BodyFrame.toConstructorFrame (CHC.connectBlocks_frame _ _ _)) h11
  obtain ⟨targets, s13, h12, hl⟩ := Visitor.bind_ok hk
  obtain ⟨rfl, rfl⟩ := Visitor.read_ok h12
  obtain ⟨_, s14, h13, hm⟩ := Visitor.bind_ok hl
  unfold SMTEncoder.endVisitContractDefinition at hm
  obtain rfl := Visitor.update_ok hm
  have fa := ConstructorFrame.constructorOrder.trans _ _ _ f2 (ConstructorFrame.constructorOrder.trans _ _ _ f4
    (ConstructorFrame.constructorOrder.trans _ _ _ f5 (ConstructorFrame.constructorOrder.trans _ _ _ f6
    (ConstructorFrame.constructorOrder.trans _ _ _ f7 (ConstructorFrame.constructorOrder.trans _ _ _ f8
    (ConstructorFrame.constructorOrder.trans _ _ _ f10 f11))))))
  exact ⟨s13, s14, fa, h13, rfl, rfl, rfl⟩

/-- The exit of a visited contract, when it returns: the recorded errors are
kept, every one of them was handed to the solver as a query after all the other
calls, which are no queries, and every warning is located at a function with a
recorded error. -/
theorem CHC.endVisitContractDefinition_ok (c : ContractDefinition) (s s1 : CHC)
    (hv : CHC.shouldVisitContract c = true)
    (h : CHC.endVisitContractDefinition c s = .ok () s1) :
    s1.m_functionErrors = s.m_functionErrors ∧
    s1.m_interface.answer = s.m_interface.answer ∧
    (∃ l, s1.m_interface.calls =
        s.m_interface.calls ++ l ++ s.m_functionErrors.map (fun p => .query p.2) ∧
      ∀ e ∈ l, ∀ g, e ≠ .query g) ∧
    ∃ ws, s1.m_outerErrorReporter.warnings = s.m_outerErrorReporter.warnings ++ ws ∧
      ∀ w ∈ ws, ∃ p ∈ s.m_functionErrors, w.1 = p.1.location := by
  obtain ⟨s2, s3, fa, h13, e1, e2, e3⟩ := CHC.endVisitContractDefinition_split c s s1 hv h
  obtain ⟨s15, h14, hc15, ha15, hf15, ws, hw15, hl15⟩ := CHC.queryLoop_ok s2.m_functionErrors s2
  rw [h14] at h13
  cases h13
  obtain ⟨l, hl1, hl2⟩ := fa.calls
  refine ⟨?_, ?_, ⟨l, ?_, hl2⟩, ws, ?_, ?_⟩
  · rw [e1, hf15, fa.functionErrors]
  · rw [e2, ha15, fa.answer]
  · rw [e2, hc15, hl1, fa.functionErrors]
  · rw [e3, hw15, fa.reporter]
  · intro w hw
    obtain ⟨p, hp, hp2⟩ := hl15 w hw
    rw [fa.functionErrors] at hp
    exact ⟨p, hp, hp2⟩

theorem recordAll_fresh (c : ContractDefinition)
    (hnd : ((SMTEncoder.resolvedFunctions c).map (·.id)).Nodup) :
    (recordAll [] ⟨errorName c, ⟨[], .Bool⟩, 0⟩ (SMTEncoder.resolvedFunctions c)).1 =
      recordedErrors c := by
  rw [recordAll_eq _ _ _ hnd (by simp)]
  simp [recordedErrors, recordedFunctions]

/-- The walk over a visited contract, when it returns: the recorded errors are
those of the recorded functions of the contract, each was handed to the solver
as a query after all the other calls of the walk, which are no queries, and
every warning is located at a recorded function. -/
theorem ContractDefinition.acceptContract_ok (c : ContractDefinition) (s s1 : CHC)
    (hv : CHC.shouldVisitContract c = true) (hn : s.m_currentFunction = none)
    (hnd : ((SMTEncoder.resolvedFunctions c).map (·.id)).Nodup)
    (h : c.accept s = .ok () s1) :
    s1.m_functionErrors = recordedErrors c ∧
    s1.m_interface.answer = s.m_interface.answer ∧
    (∃ l, s1.m_interface.calls =
        s.m_interface.calls ++ l ++ (recordedErrors c).map (fun p => .query p.2) ∧
      ∀ e ∈ l, ∀ g, e ≠ .query g) ∧
    ∃ ws, s1.m_outerErrorReporter.warnings = s.m_outerErrorReporter.warnings ++ ws ∧
      ∀ w ∈ ws, ∃ f ∈ recordedFunctions c, w.1 = f.location := by
  unfold ContractDefinition.accept at h
  obtain ⟨b, s2, h1, h2⟩ := Visitor.bind_ok h
  obtain ⟨-, herr⟩ := CHC.visitContractDefinition_ok c s s2 b hv hn h1
  rw [recordAll_fresh c hnd] at herr
  have fr := Visitor.Respects.run_ok (CHC.visitContractDefinition_frame c) h1
  obtain ⟨he, ha, ⟨l2, hl2, hq2⟩, ws, hw, hloc⟩ := CHC.endVisitContractDefinition_ok c s2 s1 hv h2
  obtain ⟨l1, hl1, hq1⟩ := fr.calls
  refine ⟨he.trans herr, ha.trans fr.answer, ⟨l1 ++ l2, ?_, ?_⟩, ws, ?_, ?_⟩
  · rw [hl2, hl1, herr]
    simp
  · intro e he2
    rcases List.mem_append.mp he2 with h3 | h3
    · exact hq1 e h3
    · exact hq2 e h3
  · rw [hw, fr.reporter]
  · intro w hw2
    obtain ⟨p, hp, hp2⟩ := hloc w hw2
    rw [herr, recordedErrors] at hp
    obtain ⟨q, hq, rfl⟩ := List.mem_map.mp hp
    exact ⟨q.2, List.snd_mem_of_mem_enumFrom hq, hp2⟩


/-- In the list of recorded errors built over functions with distinct ids, a
function of the list has exactly one pair, and the query of its predicate
occurs exactly once among the queries of all the pairs. -/
theorem recordedErrors_unique (name : String) (f : FunctionDefinition) :
    ∀ (fs : List FunctionDefinition) (n : Nat), (fs.map (·.id)).Nodup → f ∈ fs →
      ∃ k, n ≤ k ∧ k < n + fs.length ∧
        ((fs.enumFrom n).map
            (fun p => ((p.2, smt.Expression.apply name p.1 []) :
              FunctionDefinition × smt.Expression))).filter
          (fun p => p.1.id == f.id) = [(f, .apply name k [])] ∧
        (((fs.enumFrom n).map
            (fun p => ((p.2, smt.Expression.apply name p.1 []) :
              FunctionDefinition × smt.Expression))).map
          (fun p => smt.SolverCall.query p.2)).count (.query (.apply name k [])) = 1
  | [], _, _, hf => by cases hf
  | g :: rest, n, hnd, hf => by
    rw [List.map_cons, List.nodup_cons] at hnd
    have hno : ∀ (m : Nat) (k : Nat), k < m →
        (((rest.enumFrom m).map
            (fun p => ((p.2, smt.Expression.apply name p.1 []) :
              FunctionDefinition × smt.Expression))).map
          (fun p => smt.SolverCall.query p.2)).count (.query (.apply name k [])) = 0 := by
      intro m k hk
      rw [List.count_eq_zero]
      intro hmem
      simp only [List.map_map, List.mem_map, Function.comp_apply] at hmem
      obtain ⟨q, hq, hq2⟩ := hmem
      have h1 := (List.mem_enumFrom (show (q.1, q.2) ∈ List.enumFrom m rest from hq)).1
      simp only [smt.SolverCall.query.injEq, smt.Expression.apply.injEq, and_true] at hq2
      omega
    by_cases hfg : f = g
    · subst hfg
      refine ⟨n, le_refl _, by simp, ?_, ?_⟩
      · simp only [List.enumFrom_cons, List.map_cons, List.filter_cons, beq_self_eq_true,
          ↓reduceIte, List.cons.injEq, true_and]
        rw [List.filter_eq_nil_iff]
        intro p hp
        obtain ⟨q, hq, rfl⟩ := List.mem_map.mp hp
        have hq2 := List.snd_mem_of_mem_enumFrom hq
        simp only [beq_iff_eq]
        intro heq
        exact hnd.1 (List.mem_map.mpr ⟨q.2, hq2, heq⟩)
      · simp only [List.enumFrom_cons, List.map_cons, List.count_cons_self]
        rw [hno (n + 1) n (by omega)]
    · have hfr : f ∈ rest := by
        rcases List.mem_cons.mp hf with h | h
        · exact absurd h hfg
        · exact h
      obtain ⟨k, hk1, hk2, hk3, hk4⟩ := recordedErrors_unique name f rest (n + 1) hnd.2 hfr
      refine ⟨k, by omega, by simp only [List.length_cons]; omega, ?_, ?_⟩
      · have hid : (g.id == f.id) = false := by
          rw [beq_eq_false_iff_ne]
          intro heq
          exact hnd.1 (List.mem_map.mpr ⟨f, hfr, heq.symm⟩)
        simp only [List.enumFrom_cons, List.map_cons, List.filter_cons, hid, Bool.false_eq_true,
          ↓reduceIte]
        exact hk3
      · simp only [List.enumFrom_cons, List.map_cons]
        rw [List.count_cons_of_ne]
        · exact hk4
        · simp only [ne_eq, smt.SolverCall.query.injEq, smt.Expression.apply.injEq, and_true,
            true_and]
          omega


/-- One query that the back end answers with an error passes the warning of an
error, at the location the caller said, to the reporter. -/
theorem CHC.query_error (goal : smt.Expression) (location : SourceLocation) (s s1 : CHC) (b : Bool)
    (hans : ∀ calls, s.m_interface.answer calls goal = .ERROR)
    (h : CHC.query goal location s = .ok b s1) :
    s1.m_outerErrorReporter.warnings =
      s.m_outerErrorReporter.warnings ++ [(location, "Error trying to invoke SMT solver.")] := by
  unfold CHC.query at h
  simp only [smt.CHCSolverInterface.query, hans] at h
  cases h
  rfl

/-- In the loop of queries at the exit of a contract, a recorded error whose
query the back end answers with an error leaves a warning at the location of its
function. -/
theorem CHC.queryLoop_error (q : FunctionDefinition × smt.Expression) :
    ∀ (targets : List (FunctionDefinition × smt.Expression)) (s s1 : CHC),
      (∀ calls, s.m_interface.answer calls q.2 = .ERROR) → q ∈ targets →
      Visitor.forEach
          (fun target : FunctionDefinition × smt.Expression => do
            let _ ← CHC.query target.2 target.1.location
            pure ())
          targets s = .ok () s1 →
      ∃ before after, s1.m_outerErrorReporter.warnings =
        s.m_outerErrorReporter.warnings ++ before ++
          [(q.1.location, "Error trying to invoke SMT solver.")] ++ after
  | [], _, _, _, hq, _ => by cases hq
  | p :: rest, s, s1, hans, hq, h => by
    rw [Visitor.forEach, Visitor.andThen_run] at h
    obtain ⟨_, s2, h1, h2⟩ := Visitor.bind_ok h
    obtain ⟨b, s3, h3, h4⟩ := Visitor.bind_ok h1
    obtain ⟨-, rfl⟩ := Visitor.pure_ok h4
    obtain ⟨b2, s4, h5, -, ha, -, ws, hw, -⟩ := CHC.query_ok p.2 p.1.location s
    rw [h3] at h5
    cases h5
    obtain ⟨s5, h6, -, -, -, ws2, hw2, -⟩ := CHC.queryLoop_ok rest s2
    rw [h2] at h6
    cases h6
    by_cases hpq : q = p
    · subst hpq
      have hw3 := CHC.query_error _ _ s s2 b hans h3
      exact ⟨[], ws2, by rw [hw2, hw3]; simp⟩
    · have hr : q ∈ rest := by
        rcases List.mem_cons.mp hq with h7 | h7
        · exact absurd h7 hpq
        · exact h7
      have hans2 : ∀ calls, s2.m_interface.answer calls q.2 = .ERROR := by
        intro calls
        rw [ha]
        exact hans calls
      obtain ⟨before, after, hba⟩ := CHC.queryLoop_error q rest s2 s1 hans2 hr h2
      exact ⟨ws ++ before, after, by rw [hba, hw]; simp⟩

/-- A run of a method without a value that is not aborted is a return with the
state it leaves. -/
theorem Result.eq_ok_of_isOk (r : Result Unit) (h : r.isOk = true) : r = .ok () r.state := by
  cases r with
  | ok v s => rfl
  | abort m s => cases h


/-- When a sequence returns and what follows its first step respects a
relation, the first step returned and the relation holds from there. -/
theorem Visitor.bind_ok_frame {α β : Type} {R : CHC → CHC → Prop} {m : Visitor α}
    {f : α → Visitor β} {s s1 : CHC} {b : β}
    (h : (m >>= f) s = .ok b s1) (hf : ∀ a, Visitor.Respects R (f a)) :
    ∃ a s0, m s = .ok a s0 ∧ R s0 s1 := by
  obtain ⟨a, s0, h1, h2⟩ := Visitor.bind_ok h
  exact ⟨a, s0, h1, Visitor.Respects.run_ok (hf a) h2⟩

theorem CHC.createSymbolicBlock_ok {sort : smt.FunctionSort} {name : String} {s s1 : CHC}
    {b : smt.SymbolicFunctionVariable} (h : CHC.createSymbolicBlock sort name s = .ok b s1) :
    b = ⟨name, sort, 0⟩ ∧
    s1 = { s with m_interface := s.m_interface.registerRelation ⟨name, sort, 0⟩ } := by
  unfold CHC.createSymbolicBlock at h
  obtain ⟨_, s2, h1, h2⟩ := Visitor.bind_ok h
  obtain rfl := Visitor.update_ok h1
  obtain ⟨rfl, rfl⟩ := Visitor.pure_ok h2
  exact ⟨rfl, rfl⟩

/-- The visit of a contract that is not skipped, when it returns, has
registered the interface predicate of the contract, at index 0. -/
theorem CHC.visitContractDefinition_registers (c : ContractDefinition) (s s2 : CHC) (b : Bool)
    (hv : CHC.shouldVisitContract c = true)
    (h : CHC.visitContractDefinition c s = .ok b s2) :
    ∃ before after sort, s2.m_interface.calls = s.m_interface.calls ++ before ++
      [.registerRelation ("interface_" ++ c.name ++ "_" ++ toString c.id) 0 sort] ++ after := by
  unfold CHC.visitContractDefinition at h
  simp only [hv, Bool.not_true, Bool.false_eq_true, ↓reduceIte] at h
  obtain ⟨_, s3, h1, ha⟩ := Visitor.bind_ok h
  obtain rfl := Visitor.update_ok h1
  obtain ⟨_, s4, h2, hb⟩ := Visitor.bind_ok ha
  have f2 := Visitor.Respects.run_ok (SMTEncoder.initContract_frame _) h2
  obtain ⟨_, s5, h3, hc⟩ := Visitor.bind_ok hb
  have f3 := PrologueFrame.prologue_of_update_ok h3 ⟨rfl, rfl, rfl, rfl, rfl⟩
  obtain ⟨_, s6, h4, hd⟩ := Visitor.bind_ok hc
  have f4 := PrologueFrame.prologue_of_update_ok h4 ⟨rfl, rfl, rfl, rfl, rfl⟩
  obtain ⟨_, s7, h5, he⟩ := Visitor.bind_ok hd
  have f5 := Visitor.Respects.run_ok (CHC.summaryLoop_frame c) h5
  obtain ⟨_, s8, h6, hf⟩ := Visitor.bind_ok he
  have f6 := Visitor.Respects.run_ok
    (Visitor.Respects.mono BodyFrame.toPrologueFrame (CHC.clearIndices_frame _ _)) h6
  obtain ⟨isort, s9, h7, hg⟩ := Visitor.bind_ok hf
  obtain ⟨-, rfl⟩ := Visitor.read_ok h7
  have hrest : ∃ ip s10, CHC.createSymbolicBlock isort ("interface_" ++ (c.name ++ "_" ++ toString c.id)) s9 = .ok ip s10 ∧ FunctionFrame s10 s2 := by
    refine Visitor.bind_ok_frame hg ?_
    intro ip
    unfold CHC.constructorSort SMTEncoder.visitContractDefinition
    repeat' (first
      | exact FunctionDefinition.accept_frameF _ _ (Visitor.Respects.pure FunctionFrame.functionOrder _)
      | exact Visitor.Respects.mono BodyFrame.bodyToFunctionFrame (CHC.createSymbolicBlock_frame _ _)
      | exact Visitor.Respects.mono BodyFrame.bodyToFunctionFrame CHC.currentStateVariables_frame
      | exact Visitor.Respects.mono BodyFrame.bodyToFunctionFrame (CHC.setCurrentBlock_frame _ _)
      | apply Visitor.Respects.bind FunctionFrame.functionOrder
      | apply Visitor.Respects.pure FunctionFrame.functionOrder
      | apply Visitor.Respects.read FunctionFrame.functionOrder
      | apply Visitor.Respects.forEach FunctionFrame.functionOrder
      | exact FunctionFrame.functionUpdate _ (fun _ => ⟨rfl, rfl⟩)
      | intro _
      | split)
  obtain ⟨ip, s10, h8, f8⟩ := hrest
  obtain ⟨-, rfl⟩ := CHC.createSymbolicBlock_ok h8
  have fa := PrologueFrame.prologueOrder.trans _ _ _ f2 (PrologueFrame.prologueOrder.trans _ _ _ f3
    (PrologueFrame.prologueOrder.trans _ _ _ f4 (PrologueFrame.prologueOrder.trans _ _ _ f5 f6)))
  obtain ⟨l1, hl1, -⟩ := fa.calls
  obtain ⟨l2, hl2, -⟩ := f8.calls
  refine ⟨l1, l2, isort, ?_⟩
  rw [hl2]
  show (s9.m_interface.calls ++ _) ++ l2 = _
  rw [hl1]
  simp [String.append_assoc]

/-! ## Running straight-line code forwards -/

namespace Visitor

theorem read_bind_run {α β : Type} (f : CHC → α) (k : α → Visitor β) (s : CHC) :
    (read f >>= k) s = k (f s) s := rfl

theorem update_bind_run {β : Type} (f : CHC → CHC) (k : Unit → Visitor β) (s : CHC) :
    (update f >>= k) s = k () (f s) := rfl

theorem pure_bind_run {α β : Type} (a : α) (k : α → Visitor β) (s : CHC) :
    ((Pure.pure a : Visitor α) >>= k) s = k a s := rfl

theorem bind_assoc_run {α β γ : Type} (m : Visitor α) (f : α → Visitor β) (g : β → Visitor γ)
    (s : CHC) : ((m >>= f) >>= g) s = (m >>= fun a => f a >>= g) s := by
  simp only [bind_run]
  cases m s <;> rfl

theorem deref_bind_run {α β : Type} (f : CHC → Option α) (what : String) (k : α → Visitor β)
    (s : CHC) : (deref f what >>= k) s =
      match f s with
      | some a => k a s
      | none => .abort ("null dereference: " ++ what) s := by
  rw [bind_run]
  unfold deref
  cases f s <;> rfl

theorem solAssert_bind_run {β : Type} (c : Bool) (message : String) (k : Unit → Visitor β)
    (s : CHC) : (solAssert c message >>= k) s = if c then k () s else .abort message s := by
  cases c <;> rfl

end Visitor

theorem CHC.uniquePrefix_bind_run {β : Type} (k : String → Visitor β) (s : CHC) :
    (CHC.uniquePrefix >>= k) s =
      k (toString s.m_blockCounter) { s with m_blockCounter := s.m_blockCounter + 1 } := rfl

/-- A loop of updates of the context is one update, by the fold of the steps. -/
theorem Visitor.forEach_updateContext {α : Type}
    (g : α → smt.EncodingContext → smt.EncodingContext) :
    ∀ (l : List α) (s : CHC),
      Visitor.forEach (fun a => Visitor.update fun s => { s with m_context := g a s.m_context }) l s =
        .ok () { s with m_context := l.foldl (fun c a => g a c) s.m_context }
  | [], s => rfl
  | a :: rest, s => by
    rw [Visitor.forEach, Visitor.andThen_run, Visitor.update_bind_run,
      Visitor.forEach_updateContext g rest]
    rfl

namespace smt.EncodingContext

@[simp] theorem setIndex_assertions (c : EncodingContext) (decl : VariableDeclaration) (i : Nat) :
    (c.setIndex decl i).m_assertions = c.m_assertions := by
  unfold setIndex
  split <;> rfl

@[simp] theorem createVariable_assertions (c : EncodingContext) (decl : VariableDeclaration) :
    (c.createVariable decl).m_assertions = c.m_assertions := by
  unfold createVariable
  split
  · rfl
  · exact setIndex_assertions _ _ _

@[simp] theorem increaseIndex_assertions (c : EncodingContext) (decl : VariableDeclaration) :
    (c.increaseIndex decl).m_assertions = c.m_assertions :=
  setIndex_assertions _ _ _

@[simp] theorem resetIndex_assertions (c : EncodingContext) (decl : VariableDeclaration) :
    (c.resetIndex decl).m_assertions = c.m_assertions :=
  setIndex_assertions _ _ _

/-- A fold of steps that keep the assumptions keeps the assumptions. -/
theorem foldl_assertions {α : Type} (g : EncodingContext → α → EncodingContext)
    (hg : ∀ c a, (g c a).m_assertions = c.m_assertions) :
    ∀ (l : List α) (c : EncodingContext), (l.foldl g c).m_assertions = c.m_assertions
  | [], _ => rfl
  | a :: rest, c => by
    rw [List.foldl_cons, foldl_assertions g hg rest, hg]

@[simp] theorem foldl_createVariable_assertions (l : List VariableDeclaration)
    (c : EncodingContext) :
    (l.foldl (fun c v => c.createVariable v) c).m_assertions = c.m_assertions :=
  foldl_assertions _ createVariable_assertions l c

@[simp] theorem foldl_increaseIndex_assertions (l : List VariableDeclaration)
    (c : EncodingContext) :
    (l.foldl (fun c v => c.increaseIndex v) c).m_assertions = c.m_assertions :=
  foldl_assertions _ increaseIndex_assertions l c

@[simp] theorem foldl_resetIndex_assertions (l : List VariableDeclaration)
    (c : EncodingContext) :
    (l.foldl (fun c v => c.resetIndex v) c).m_assertions = c.m_assertions :=
  foldl_assertions _ resetIndex_assertions l c

end smt.EncodingContext

/-- Entering a function of a current contract returns; it changes the context
and drops the path conditions, and nothing else. -/
theorem SMTEncoder.initFunction_run (f : FunctionDefinition) (s : CHC) (c : ContractDefinition)
    (hc : s.m_currentContract = some c) :
    ∃ context, SMTEncoder.initFunction f s =
        .ok () { s with m_context := context, m_pathConditions := [] } ∧
      context.m_assertions = [.boolLit true] := by
  obtain ⟨a1, a2, a3, a4, a5, a6, a7, a8, a9, a10, a11, a12, a13, a14, a15, a16, a17, a18, a19,
    a20, a21, a22, a23⟩ := s
  simp only at hc
  subst hc
  have hrun : SMTEncoder.initFunction f ⟨a1, a2, a3, some c, a5, a6, a7, a8, a9, a10, a11, a12,
        a13, a14, a15, a16, a17, a18, a19, a20, a21, a22, a23⟩ =
      SMTEncoder.initFunction f ⟨a1, a2, a3, some c, a5, a6, a7, a8, a9, a10, a11, a12,
        a13, a14, a15, a16, a17, a18, a19, a20, a21, a22, a23⟩ := rfl
  conv at hrun =>
    rhs
    unfold SMTEncoder.initFunction SMTEncoder.createVariable CHC.clearIndices
      SMTEncoder.clearIndices
    simp only [Visitor.bind_assoc_run, Visitor.read_bind_run, Visitor.update_bind_run,
      Option.isSome_some, Visitor.solAssert_bind_run, ↓reduceIte]
    rw [Visitor.bind_run_ok _ _ _ _ _
      (Visitor.forEach_updateContext (fun decl c => c.createVariable decl) _ _)]
    rw [Visitor.bind_run_ok _ _ _ _ _
      (Visitor.forEach_updateContext (fun decl c => c.createVariable decl) _ _)]
    simp only [Visitor.bind_assoc_run, Visitor.read_bind_run, Visitor.update_bind_run,
      Option.isSome_some, Visitor.solAssert_bind_run, ↓reduceIte, Visitor.update_run]
  refine ⟨_, hrun, ?_⟩
  simp [smt.EncodingContext.pushSolver, smt.EncodingContext.reset,
    smt.EncodingContext.assertions]

/-- A loop that assumes, for every variable of a list, a fact that does not
depend on the assumptions stacks these facts on the innermost scope. -/
theorem smt.EncodingContext.foldl_addAssertion
    (fact : smt.EncodingContext → VariableDeclaration → smt.Expression)
    (hfact : ∀ c a v, fact { c with m_assertions := a } v = fact c v) :
    ∀ (vars : List VariableDeclaration) (c : smt.EncodingContext) (top : smt.Expression)
      (rest : List smt.Expression), c.m_assertions = top :: rest →
      vars.foldl (fun c v => c.addAssertion (fact c v)) c =
        { c with m_assertions := vars.foldl (fun a v => (fact c v).and a) top :: rest }
  | [], c, top, rest, h => by
    cases c
    simp only at h
    subst h
    rfl
  | v :: vars, c, top, rest, h => by
    rw [List.foldl_cons]
    have h1 : c.addAssertion (fact c v) =
        { c with m_assertions := (fact c v).and top :: rest } := by
      unfold smt.EncodingContext.addAssertion
      rw [h]
    rw [h1, smt.EncodingContext.foldl_addAssertion fact hfact vars _ ((fact c v).and top) rest rfl]
    simp only [hfact, List.foldl_cons]

theorem smt.CHCSolverInterface.calls_of_two_blocks (i : smt.CHCSolverInterface)
    (b1 b2 : smt.SymbolicFunctionVariable) (r1 r2 : smt.Expression) (n1 n2 : String) :
    ((((i.registerRelation b1).registerRelation b2).addRule r1 n1).addRule r2 n2).calls =
      i.calls ++ [.registerRelation b1.uniqueName b1.index b1.sort,
        .registerRelation b2.uniqueName b2.index b2.sort, .addRule r1 n1, .addRule r2 n2] := by
  simp [smt.CHCSolverInterface.registerRelation, smt.CHCSolverInterface.addRule]

theorem Visitor.ret_bind_run {α β : Type} (a : α) (k : α → Visitor β) (s : CHC) :
    (Visitor.ret a >>= k) s = k a s := rfl

theorem Visitor.andThen_eq {α β : Type} (m : Visitor α) (f : α → Visitor β) :
    Visitor.andThen m f = (m >>= f) := rfl

theorem Visitor.ret_eq {α : Type} (a : α) : (Visitor.ret a : Visitor α) = pure a := rfl

theorem smt.CHCSolverInterface.calls_of_contract (i : smt.CHCSolverInterface)
    (b1 b2 b3 : smt.SymbolicFunctionVariable) (r1 r2 : smt.Expression) (n1 n2 : String) :
    (((((i.registerRelation b1).registerRelation b2).registerRelation b3).addRule r1 n1).addRule
        r2 n2).calls =
      i.calls ++ [.registerRelation b1.uniqueName b1.index b1.sort,
        .registerRelation b2.uniqueName b2.index b2.sort,
        .registerRelation b3.uniqueName b3.index b3.sort, .addRule r1 n1, .addRule r2 n2] := by
  simp [smt.CHCSolverInterface.registerRelation, smt.CHCSolverInterface.addRule]

/-! ## The rules of a public function -/

theorem Unchanged.unchangedOrder : StateOrder Unchanged where
  refl _ := rfl
  trans _ _ _ h12 h23 := h23.trans h12

theorem SolverKept.solverOrder : StateOrder SolverKept where
  refl _ := rfl
  trans _ _ _ h12 h23 := h23.trans h12

theorem Unchanged.toSolverKept (s s1 : CHC) (h : Unchanged s s1) : SolverKept s s1 := by
  rw [h]
  rfl

theorem SolverKept.solverUpdate (f : CHC → CHC) (h : ∀ s, (f s).m_interface = s.m_interface) :
    Visitor.Respects SolverKept (Visitor.update f) := by
  apply Visitor.Respects.of_run
  intro s
  exact h s

theorem CHC.stateVariablesAtIndex_unchanged (i : Nat) :
    Visitor.Respects Unchanged (CHC.stateVariablesAtIndex i) := by
  unfold CHC.stateVariablesAtIndex
  repeat' (first
    | apply Visitor.Respects.bind Unchanged.unchangedOrder
    | apply Visitor.Respects.read Unchanged.unchangedOrder
    | apply Visitor.Respects.solAssert Unchanged.unchangedOrder
    | intro _)

theorem CHC.currentStateVariables_unchanged :
    Visitor.Respects Unchanged CHC.currentStateVariables := by
  unfold CHC.currentStateVariables
  repeat' (first
    | apply Visitor.Respects.bind Unchanged.unchangedOrder
    | apply Visitor.Respects.read Unchanged.unchangedOrder
    | apply Visitor.Respects.solAssert Unchanged.unchangedOrder
    | intro _)

theorem CHC.interface_unchanged : Visitor.Respects Unchanged CHC.interface := by
  unfold CHC.interface
  repeat' (first
    | apply Visitor.Respects.bind Unchanged.unchangedOrder
    | apply Visitor.Respects.read Unchanged.unchangedOrder
    | apply Visitor.Respects.deref Unchanged.unchangedOrder
    | apply Visitor.Respects.pure Unchanged.unchangedOrder
    | intro _)

theorem CHC.error_unchanged : Visitor.Respects Unchanged CHC.error := by
  unfold CHC.error
  repeat' (first
    | apply Visitor.Respects.bind Unchanged.unchangedOrder
    | apply Visitor.Respects.deref Unchanged.unchangedOrder
    | apply Visitor.Respects.pure Unchanged.unchangedOrder
    | intro _)

theorem CHC.summary_unchanged (f : FunctionDefinition) :
    Visitor.Respects Unchanged (CHC.summary f) := by
  unfold CHC.summary CHC.initialStateVariables
  repeat' (first
    | exact CHC.stateVariablesAtIndex_unchanged _
    | exact CHC.currentStateVariables_unchanged
    | apply Visitor.Respects.bind Unchanged.unchangedOrder
    | apply Visitor.Respects.read Unchanged.unchangedOrder
    | apply Visitor.Respects.deref Unchanged.unchangedOrder
    | apply Visitor.Respects.pure Unchanged.unchangedOrder
    | intro _)

theorem CHC.currentBlockVariables_unchanged :
    Visitor.Respects Unchanged CHC.currentBlockVariables := by
  unfold CHC.currentBlockVariables CHC.currentFunctionVariables CHC.initialStateVariables
  repeat' (first
    | exact CHC.stateVariablesAtIndex_unchanged _
    | exact CHC.currentStateVariables_unchanged
    | apply Visitor.Respects.bind Unchanged.unchangedOrder
    | apply Visitor.Respects.read Unchanged.unchangedOrder
    | apply Visitor.Respects.deref Unchanged.unchangedOrder
    | apply Visitor.Respects.pure Unchanged.unchangedOrder
    | intro _)

theorem CHC.setCurrentBlock_solver (b : smt.SymbolicFunctionVariable)
    (a : Option (List smt.Expression)) :
    Visitor.Respects SolverKept (CHC.setCurrentBlock b a) := by
  unfold CHC.setCurrentBlock CHC.clearIndices SMTEncoder.clearIndices CHC.predicate
    CHC.predicateWith
  repeat' (first
    | exact Visitor.Respects.mono Unchanged.toSolverKept CHC.currentBlockVariables_unchanged
    | apply Visitor.Respects.bind SolverKept.solverOrder
    | apply Visitor.Respects.read SolverKept.solverOrder
    | apply Visitor.Respects.solAssert SolverKept.solverOrder
    | apply Visitor.Respects.pure SolverKept.solverOrder
    | exact SolverKept.solverUpdate _ (fun _ => rfl)
    | intro _
    | split)

/-- A call of `connectBlocks` returns, with one rule added and nothing else
changed. -/
theorem CHC.connectBlocks_run (_from _to _constraints : smt.Expression) (s : CHC) :
    CHC.connectBlocks _from _to _constraints s =
      .ok () { s with m_interface := { s.m_interface with calls := s.m_interface.calls ++
        [.addRule (.implies ((_from.and s.m_context.assertions).and _constraints) _to)
          (_from.name ++ "_to_" ++ _to.name)] } } := by
  simp [CHC.connectBlocks, CHC.addRule, Visitor.bind_run, smt.CHCSolverInterface.addRule]

theorem CHC.connectBlocks_ok {_from _to _constraints : smt.Expression} {s s1 : CHC} {u : Unit}
    (h : CHC.connectBlocks _from _to _constraints s = .ok u s1) :
    s1 = { s with m_interface := { s.m_interface with calls := s.m_interface.calls ++
        [.addRule (.implies ((_from.and s.m_context.assertions).and _constraints) _to)
          (_from.name ++ "_to_" ++ _to.name)] } } := by
  rw [CHC.connectBlocks_run] at h
  cases h
  rfl

theorem Visitor.bind_assoc {α β γ : Type} (m : Visitor α) (f : α → Visitor β)
    (g : β → Visitor γ) : ((m >>= f) >>= g) = (m >>= fun a => f a >>= g) := by
  funext s
  exact Visitor.bind_assoc_run m f g s

theorem solAssert_ok {c : Bool} {message : String} {s s1 : CHC} {u : Unit}
    (h : solAssert c message s = .ok u s1) : c = true ∧ s1 = s := by
  cases c
  · cases h
  · cases h
    exact ⟨rfl, rfl⟩

/-- Leaving a public function that is current, implemented and not a
constructor, when it returns: the rule into the summary of the function, the
registration of the refreshed error predicate and the two rules out of the
interface were handed to the solver, in this order, and nothing else. -/
theorem CHC.endVisitFunctionDefinition_rules (f : FunctionDefinition) (s s1 : CHC)
    (ep : smt.SymbolicFunctionVariable)
    (hcur : s.m_currentFunction = some f) (hi : f.isImplemented = true)
    (hc : f.isConstructor = false) (hp : f.isPublic = true)
    (hep : s.m_errorPredicate = some ep)
    (h : CHC.endVisitFunctionDefinition f s = .ok () s1) :
    ∃ (sum enter leave asr asr1 : smt.Expression),
      CHC.summary f s = .ok sum s ∧ CHC.interface s = .ok leave s ∧
      s1.m_interface.calls = s.m_interface.calls ++
        CHC.exitRules ep s.m_currentBlock sum enter leave asr asr1 s.m_error.currentValue := by
  have h0 := h
  unfold CHC.endVisitFunctionDefinition at h0
  simp only [CHC.shouldVisitFunction, hi, hc, hp, Bool.not_true, Bool.false_eq_true,
    ↓reduceIte] at h0
  rw [Visitor.read_bind_run] at h0
  simp only [hcur, Option.map_some', bne_self_eq_false, Bool.false_eq_true, ↓reduceIte,
    Visitor.bind_assoc] at h0
  obtain ⟨leave, s4, h1, hd⟩ := Visitor.bind_ok h0
  have u1 : s4 = s := Visitor.Respects.run_ok CHC.interface_unchanged h1
  rw [u1] at h1 hd
  obtain ⟨sum, s5, h2, he⟩ := Visitor.bind_ok hd
  have u2 : s5 = s := Visitor.Respects.run_ok (CHC.summary_unchanged _) h2
  rw [u2] at h2
  have hip : ∃ ip, s.m_interfacePredicate = some ip := by
    have h1a := h1
    unfold CHC.interface at h1a
    rw [Visitor.read_bind_run] at h1a
    obtain ⟨ip, s6, h3, -⟩ := Visitor.bind_ok h1a
    exact ⟨ip, (Visitor.deref_ok h3).1⟩
  have hcc : ∃ c, s.m_currentContract = some c := by
    have h2a := h2
    unfold CHC.summary CHC.initialStateVariables CHC.stateVariablesAtIndex at h2a
    simp only [Visitor.read_bind_run, Visitor.bind_assoc_run] at h2a
    obtain ⟨_, s6, h3, -⟩ := Visitor.bind_ok h2a
    exact Option.isSome_iff_exists.mp (solAssert_ok h3).1
  obtain ⟨ip, hip⟩ := hip
  obtain ⟨c, hcc⟩ := hcc
  clear h0 hd he u1 u2 s4 s5
  obtain ⟨a1, a2, a3, a4, a5, a6, a7, a8, a9, a10, a11, a12, a13, a14, a15, a16, a17, a18, a19,
    a20, a21, a22, a23⟩ := s
  simp only at hcur hep hip hcc
  subst hcur hep hip hcc
  unfold CHC.endVisitFunctionDefinition at h
  simp only [CHC.shouldVisitFunction, hi, hc, hp, Bool.not_true, Bool.false_eq_true,
    ↓reduceIte] at h
  rw [Visitor.read_bind_run] at h
  simp only [Option.map_some', bne_self_eq_false, Bool.false_eq_true, ↓reduceIte,
    Visitor.bind_assoc] at h
  rw [Visitor.bind_run_ok _ _ _ _ _ h1, Visitor.bind_run_ok _ _ _ _ _ h2] at h
  unfold CHC.setCurrentBlock CHC.createErrorBlock CHC.error CHC.predicateWith
    CHC.initialStateVariables CHC.stateVariablesAtIndex
    CHC.connectBlocks CHC.addRule CHC.clearIndices SMTEncoder.clearIndices
    SMTEncoder.endVisitFunctionDefinition at h
  simp only [Visitor.bind_assoc_run, Visitor.read_bind_run, Visitor.update_bind_run,
    Visitor.pure_bind_run, Option.isSome_some, Visitor.solAssert_bind_run,
    Visitor.deref_bind_run, ↓reduceIte, Visitor.pure_run] at h
  cases h
  refine ⟨sum, ?enter, leave, ?asr, ?asr1, h2, h1, ?calls⟩
  case calls =>
    unfold CHC.exitRules
    simp only [smt.CHCSolverInterface.registerRelation, smt.CHCSolverInterface.addRule,
      smt.SymbolicFunctionVariable.increaseIndex, smt.SymbolicFunctionVariable.app,
      List.append_assoc, List.singleton_append, List.cons_append, List.nil_append]
    exact rfl

/-- The visit of a recorded function, when no function is active: when it
returns, the calls it made end with the calls by which a public function is
left, and those before are no queries. -/
theorem FunctionDefinition.accept_rules (inlineBases : Visitor Unit) (f : FunctionDefinition)
    (s s1 : CHC) (ep : smt.SymbolicFunctionVariable)
    (hn : s.m_currentFunction = none) (hr : recordedFunction f = true)
    (hep : s.m_errorPredicate = some ep)
    (h : FunctionDefinition.accept inlineBases f s = .ok () s1) :
    ∃ (before : List smt.SolverCall) (sx : CHC) (cur sum enter leave asr asr1 ev : smt.Expression),
      CHC.summary f sx = .ok sum sx ∧ (∀ e ∈ before, ∀ g, e ≠ .query g) ∧
      s1.m_interface.calls = s.m_interface.calls ++ before ++
        CHC.exitRules ep cur sum enter leave asr asr1 ev := by
  have hc : f.isConstructor = false := by
    unfold recordedFunction at hr
    cases hcc : f.isConstructor
    · rfl
    · simp [hcc] at hr
  have hi : f.isImplemented = true := by
    unfold recordedFunction at hr
    simp only [Bool.and_eq_true] at hr
    exact hr.1.2
  have hp : f.isPublic = true := by
    unfold recordedFunction at hr
    simp only [Bool.and_eq_true] at hr
    exact hr.2
  unfold FunctionDefinition.accept at h
  obtain ⟨b, s2, hv, he⟩ := Visitor.bind_ok h
  have hfr := CHC.visitFunctionDefinition_enter inlineBases f s hn hi hc
  rw [hv] at hfr
  have hcur : s2.m_currentFunction = some f := hfr.currentFunction
  have hep2 : s2.m_errorPredicate = some ep := hfr.errorPredicate.trans hep
  obtain ⟨sum, enter, leave, asr, asr1, h1, -, h3⟩ :=
    CHC.endVisitFunctionDefinition_rules f s2 s1 ep hcur hi hc hp hep2 he
  obtain ⟨l, hl, hq⟩ := hfr.calls
  have hl2 : s2.m_interface.calls = s.m_interface.calls ++ l := hl
  exact ⟨l, s2, _, sum, enter, leave, asr, asr1, _, h1, hq, by rw [h3, hl2]⟩

/-- A function visit keeps the recorded errors that are there. -/
theorem FunctionDefinition.accept_keeps_errors (f : FunctionDefinition) (s s1 : CHC)
    (p : FunctionDefinition × smt.Expression)
    (hn : s.m_currentFunction = none) (hc : f.isConstructor = false)
    (h : FunctionDefinition.accept (pure ()) f s = .ok () s1)
    (hp : p ∈ s.m_functionErrors) : p ∈ s1.m_functionErrors := by
  obtain ⟨-, h2⟩ := FunctionDefinition.acceptFunction_ok _ f s s1 hn hc h
  by_cases hr : recordedFunction f = true
  · simp only [hr, ↓reduceIte] at h2
    obtain ⟨ep, -, -, h3⟩ := h2
    rw [h3]
    unfold emplaceFunctionError
    split
    · exact hp
    · exact List.mem_append_left _ hp
  · have hr2 : recordedFunction f = false := by simpa using hr
    simp only [hr2, Bool.false_eq_true, ↓reduceIte] at h2
    rw [h2.2]
    exact hp

/-- The loop over the functions of a contract keeps the recorded errors that
are there, and only extends the calls, by no query. -/
theorem SMTEncoder.visitFunctions_keeps :
    ∀ (fs : List FunctionDefinition) (s s1 : CHC),
      s.m_currentFunction = none →
      Visitor.forEach
        (fun function =>
          if function.isConstructor then pure () else FunctionDefinition.accept (pure ()) function)
        fs s = .ok () s1 →
      (∀ p ∈ s.m_functionErrors, p ∈ s1.m_functionErrors) ∧
      ∃ l, s1.m_interface.calls = s.m_interface.calls ++ l ∧ ∀ e ∈ l, ∀ g, e ≠ .query g
  | [], s, s1, _, h => by
    rw [Visitor.forEach] at h
    cases h
    exact ⟨fun p hp => hp, [], by simp, by simp⟩
  | f :: rest, s, s1, hn, h => by
    rw [Visitor.forEach, Visitor.andThen_run] at h
    obtain ⟨_, s2, h1, h2⟩ := Visitor.bind_ok h
    by_cases hc : f.isConstructor = true
    · simp only [hc, ↓reduceIte] at h1
      obtain ⟨-, rfl⟩ := Visitor.pure_ok h1
      exact SMTEncoder.visitFunctions_keeps rest s2 s1 hn h2
    · have hc2 : f.isConstructor = false := by simpa using hc
      simp only [hc2, Bool.false_eq_true, ↓reduceIte] at h1
      obtain ⟨hn2, -⟩ := FunctionDefinition.acceptFunction_ok _ f s s2 hn hc2 h1
      obtain ⟨ih1, l2, hl2, hq2⟩ := SMTEncoder.visitFunctions_keeps rest s2 s1 hn2 h2
      have fr := Visitor.Respects.run_ok
        (FunctionDefinition.accept_frameF _ f (Visitor.Respects.pure FunctionFrame.functionOrder _)) h1
      obtain ⟨l1, hl1, hq1⟩ := fr.calls
      refine ⟨fun p hp => ih1 p (FunctionDefinition.accept_keeps_errors f s s2 p hn hc2 h1 hp),
        l1 ++ l2, by rw [hl2, hl1, List.append_assoc], ?_⟩
      intro e he
      rcases List.mem_append.mp he with h3 | h3
      · exact hq1 e h3
      · exact hq2 e h3

/-- The loop over the functions of a contract, when it returns: for every
recorded function of the list, the calls of the loop contain the calls by which
that function is left, with the error predicate at the index that the function
refreshed it to, and that instance of the error predicate is recorded for the
function. -/
theorem SMTEncoder.visitFunctions_rules (f : FunctionDefinition) :
    ∀ (fs : List FunctionDefinition) (s s1 : CHC) (ep : smt.SymbolicFunctionVariable),
      s.m_currentFunction = none → s.m_errorPredicate = some ep →
      (fs.map (·.id)).Nodup → (∀ g ∈ fs, ∀ p ∈ s.m_functionErrors, p.1.id ≠ g.id) →
      Visitor.forEach
        (fun function =>
          if function.isConstructor then pure () else FunctionDefinition.accept (pure ()) function)
        fs s = .ok () s1 →
      f ∈ fs → recordedFunction f = true →
      ∃ (k : Nat) (before after : List smt.SolverCall) (sx : CHC)
        (cur sum enter leave asr asr1 ev : smt.Expression),
        CHC.summary f sx = .ok sum sx ∧
        (∀ e ∈ before, ∀ g, e ≠ .query g) ∧ (∀ e ∈ after, ∀ g, e ≠ .query g) ∧
        s1.m_interface.calls = s.m_interface.calls ++ before ++
          CHC.exitRules ⟨ep.uniqueName, ep.sort, k⟩ cur sum enter leave asr asr1 ev ++ after ∧
        (f, smt.Expression.apply ep.uniqueName (k + 1) []) ∈ s1.m_functionErrors
  | [], _, _, _, _, _, _, _, _, hf, _ => by cases hf
  | f1 :: rest, s, s1, ep, hn, hep, hnd, hdis, h, hf, hr => by
    rw [Visitor.forEach, Visitor.andThen_run] at h
    obtain ⟨_, s2, h1, h2⟩ := Visitor.bind_ok h
    rw [List.map_cons, List.nodup_cons] at hnd
    by_cases hff : f = f1
    · subst hff
      have hc : f.isConstructor = false := by
        unfold recordedFunction at hr
        cases hcc : f.isConstructor
        · rfl
        · simp [hcc] at hr
      simp only [hc, Bool.false_eq_true, ↓reduceIte] at h1
      obtain ⟨before, sx, cur, sum, enter, leave, asr, asr1, ev, e1, e2, e3⟩ :=
        FunctionDefinition.accept_rules _ f s s2 ep hn hr hep h1
      obtain ⟨hn2, hrec⟩ := FunctionDefinition.acceptFunction_ok _ f s s2 hn hc h1
      simp only [hr, ↓reduceIte] at hrec
      obtain ⟨ep1, he1, -, he3⟩ := hrec
      rw [hep] at he1
      cases he1
      obtain ⟨hkeep, after, hl, hq⟩ := SMTEncoder.visitFunctions_keeps rest s2 s1 hn2 h2
      refine ⟨ep.index, before, after, sx, cur, sum, enter, leave, asr, asr1, ev, e1, e2, hq,
        by rw [hl, e3], ?_⟩
      apply hkeep
      rw [he3]
      have hany : (s.m_functionErrors.any fun p => p.1.id == f.id) = false := by
        rw [List.any_eq_false]
        intro p hp
        simpa using hdis f (List.mem_cons_self _ _) p hp
      rw [emplaceFunctionError, hany]
      simp [smt.SymbolicFunctionVariable.increaseIndex, smt.SymbolicFunctionVariable.app]
    · have hfr : f ∈ rest := by
        rcases List.mem_cons.mp hf with h3 | h3
        · exact absurd h3 hff
        · exact h3
      by_cases hc : f1.isConstructor = true
      · simp only [hc, ↓reduceIte] at h1
        obtain ⟨-, rfl⟩ := Visitor.pure_ok h1
        exact SMTEncoder.visitFunctions_rules f rest s2 s1 ep hn hep hnd.2
          (fun g hg p hp => hdis g (List.mem_cons_of_mem _ hg) p hp) h2 hfr hr
      · have hc2 : f1.isConstructor = false := by simpa using hc
        simp only [hc2, Bool.false_eq_true, ↓reduceIte] at h1
        obtain ⟨hn2, hrec⟩ := FunctionDefinition.acceptFunction_ok _ f1 s s2 hn hc2 h1
        have fr := Visitor.Respects.run_ok
          (FunctionDefinition.accept_frameF _ f1
            (Visitor.Respects.pure FunctionFrame.functionOrder _)) h1
        obtain ⟨l1, hl1, hq1⟩ := fr.calls
        have hdis2 : ∀ g ∈ rest, ∀ p ∈ s2.m_functionErrors, p.1.id ≠ g.id := by
          intro g hg p hp
          by_cases hr1 : recordedFunction f1 = true
          · simp only [hr1, ↓reduceIte] at hrec
            obtain ⟨ep1, -, -, he3⟩ := hrec
            rw [he3] at hp
            unfold emplaceFunctionError at hp
            split at hp
            · exact hdis g (List.mem_cons_of_mem _ hg) p hp
            · rcases List.mem_append.mp hp with h4 | h4
              · exact hdis g (List.mem_cons_of_mem _ hg) p h4
              · simp only [List.mem_singleton] at h4
                subst h4
                intro heq
                exact hnd.1 (List.mem_map.mpr ⟨g, hg, heq.symm⟩)
          · have hr2 : recordedFunction f1 = false := by simpa using hr1
            simp only [hr2, Bool.false_eq_true, ↓reduceIte] at hrec
            rw [hrec.2] at hp
            exact hdis g (List.mem_cons_of_mem _ hg) p hp
        have hstep : ∃ ep2 : smt.SymbolicFunctionVariable, s2.m_errorPredicate = some ep2 ∧
            ep2.uniqueName = ep.uniqueName ∧ ep2.sort = ep.sort := by
          by_cases hr1 : recordedFunction f1 = true
          · simp only [hr1, ↓reduceIte] at hrec
            obtain ⟨ep1, he1, he2, -⟩ := hrec
            rw [hep] at he1
            cases he1
            exact ⟨_, he2, rfl, rfl⟩
          · have hr2 : recordedFunction f1 = false := by simpa using hr1
            simp only [hr2, Bool.false_eq_true, ↓reduceIte] at hrec
            exact ⟨ep, hrec.1.trans hep, rfl, rfl⟩
        obtain ⟨ep2, hep2, hname, hsort⟩ := hstep
        obtain ⟨k, before, after, sx, cur, sum, enter, leave, asr, asr1, ev, e1, e2, e3, e4, e5⟩ :=
          SMTEncoder.visitFunctions_rules f rest s2 s1 ep2 hn2 hep2 hnd.2 hdis2 h2 hfr hr
        rw [hname, hsort] at e4
        rw [hname] at e5
        refine ⟨k, l1 ++ before, after, sx, cur, sum, enter, leave, asr, asr1, ev, e1, ?_, e3,
          by rw [e4, hl1]; simp only [List.append_assoc], e5⟩
        intro e he
        rcases List.mem_append.mp he with h3 | h3
        · exact hq1 e h3
        · exact e2 e h3

/-! ## The calls received by the solver adapter -/

namespace smt

theorem registered_append_left {calls : List SolverCall} {p : String × Nat}
    (more : List SolverCall) (h : registered calls p) : registered (calls ++ more) p :=
  h.imp fun _ hs => List.mem_append_left _ hs

theorem registered_singleton (calls : List SolverCall) (b : SymbolicFunctionVariable) :
    registered (calls ++ [.registerRelation b.uniqueName b.index b.sort])
      (b.uniqueName, b.index) :=
  ⟨b.sort, List.mem_append_right _ (List.mem_singleton.mpr rfl)⟩

namespace Expression

theorem RegisteredIn.registeredIn_append_left {calls : List SolverCall} {e : Expression}
    (more : List SolverCall) (h : e.RegisteredIn calls) : e.RegisteredIn (calls ++ more) :=
  fun p hp => registered_append_left more (h p hp)

theorem registeredIn_of_free {e : Expression} (calls : List SolverCall)
    (h : e.predicates = []) : e.RegisteredIn calls := by
  intro p hp
  rw [h] at hp
  cases hp

@[simp] theorem predicates_boolLit (b : Bool) : (boolLit b).predicates = [] := by
  rw [predicates]

@[simp] theorem predicates_intLit (n : Nat) : (intLit n).predicates = [] := by
  rw [predicates]

@[simp] theorem predicates_symbol (u : String) (i : Nat) : (symbol u i).predicates = [] := by
  rw [predicates]

@[simp] theorem predicates_op (o : String) (l : List Expression) :
    (op o l).predicates = predicatesOfAll l := by
  rw [predicates]

@[simp] theorem predicates_apply (p : String) (i : Nat) (l : List Expression) :
    (apply p i l).predicates = (p, i) :: predicatesOfAll l := by
  rw [predicates]

@[simp] theorem predicatesOfAll_nil : predicatesOfAll [] = [] := by
  rw [predicatesOfAll]

@[simp] theorem predicatesOfAll_cons (e : Expression) (l : List Expression) :
    predicatesOfAll (e :: l) = e.predicates ++ predicatesOfAll l := by
  rw [predicatesOfAll]

@[simp] theorem predicatesOfAll_append (l1 l2 : List Expression) :
    predicatesOfAll (l1 ++ l2) = predicatesOfAll l1 ++ predicatesOfAll l2 := by
  induction l1 with
  | nil => simp
  | cons e l ih => simp [ih]

theorem predicatesOfAll_map_free {α : Type} (f : α → Expression) (l : List α)
    (h : ∀ a, (f a).predicates = []) : predicatesOfAll (l.map f) = [] := by
  induction l with
  | nil => simp
  | cons a l ih => simp [ih, h]

@[simp] theorem predicates_and (a b : Expression) :
    (a.and b).predicates = a.predicates ++ b.predicates := by
  simp [Expression.and]

@[simp] theorem predicates_not (a : Expression) : a.not.predicates = a.predicates := by
  simp [Expression.not]

@[simp] theorem predicates_eq (a b : Expression) :
    (a.eq b).predicates = a.predicates ++ b.predicates := by
  simp [Expression.eq]

@[simp] theorem predicates_gt (a b : Expression) :
    (a.gt b).predicates = a.predicates ++ b.predicates := by
  simp [Expression.gt]

@[simp] theorem predicates_implies (a b : Expression) :
    (a.implies b).predicates = a.predicates ++ b.predicates := by
  simp [Expression.implies]

@[simp] theorem predicates_valueAtIndex (v : SymbolicVariable) (i : Nat) :
    (v.valueAtIndex i).predicates = [] := by
  simp [SymbolicVariable.valueAtIndex]

@[simp] theorem predicates_currentValue (v : SymbolicVariable) :
    v.currentValue.predicates = [] := by
  simp [SymbolicVariable.currentValue]

@[simp] theorem predicates_app (b : SymbolicFunctionVariable) (l : List Expression) :
    (b.app l).predicates = (b.uniqueName, b.index) :: predicatesOfAll l := by
  simp [SymbolicFunctionVariable.app]

@[simp] theorem isApplication_app (b : SymbolicFunctionVariable) (l : List Expression) :
    (b.app l).isApplication = true := rfl

theorem registeredIn_append {calls : List SolverCall} {a b : List (String × Nat)} :
    (∀ p ∈ a ++ b, registered calls p) ↔
      (∀ p ∈ a, registered calls p) ∧ ∀ p ∈ b, registered calls p := by
  simp only [List.mem_append]
  constructor
  · intro h
    exact ⟨fun p hp => h p (Or.inl hp), fun p hp => h p (Or.inr hp)⟩
  · rintro ⟨h1, h2⟩ p (hp | hp)
    · exact h1 p hp
    · exact h2 p hp

@[simp] theorem registeredIn_and {calls : List SolverCall} (a b : Expression) :
    (a.and b).RegisteredIn calls ↔ a.RegisteredIn calls ∧ b.RegisteredIn calls := by
  unfold RegisteredIn
  rw [predicates_and]
  exact registeredIn_append

@[simp] theorem registeredIn_eq {calls : List SolverCall} (a b : Expression) :
    (a.eq b).RegisteredIn calls ↔ a.RegisteredIn calls ∧ b.RegisteredIn calls := by
  unfold RegisteredIn
  rw [predicates_eq]
  exact registeredIn_append

@[simp] theorem registeredIn_gt {calls : List SolverCall} (a b : Expression) :
    (a.gt b).RegisteredIn calls ↔ a.RegisteredIn calls ∧ b.RegisteredIn calls := by
  unfold RegisteredIn
  rw [predicates_gt]
  exact registeredIn_append

@[simp] theorem registeredIn_implies {calls : List SolverCall} (a b : Expression) :
    (a.implies b).RegisteredIn calls ↔ a.RegisteredIn calls ∧ b.RegisteredIn calls := by
  unfold RegisteredIn
  rw [predicates_implies]
  exact registeredIn_append

@[simp] theorem registeredIn_not {calls : List SolverCall} (a : Expression) :
    a.not.RegisteredIn calls ↔ a.RegisteredIn calls := by
  unfold RegisteredIn
  rw [predicates_not]

@[simp] theorem registeredIn_boolLit {calls : List SolverCall} (b : Bool) :
    (boolLit b).RegisteredIn calls :=
  registeredIn_of_free calls (predicates_boolLit b)

@[simp] theorem registeredIn_intLit {calls : List SolverCall} (n : Nat) :
    (intLit n).RegisteredIn calls :=
  registeredIn_of_free calls (predicates_intLit n)

theorem registeredIn_app {calls : List SolverCall} (b : SymbolicFunctionVariable)
    (l : List Expression) (hb : registered calls (b.uniqueName, b.index))
    (hl : predicatesOfAll l = []) : (b.app l).RegisteredIn calls := by
  intro p hp
  rw [predicates_app, hl] at hp
  rw [List.mem_singleton.mp hp]
  exact hb

theorem isHorn_implies (p a c q : Expression) (hp : p.isApplication = true)
    (hq : q.isApplication = true) : (((p.and a).and c).implies q).isHorn = true := by
  simp [Expression.implies, Expression.and, isHorn, hp, hq]

end Expression

theorem RulesRegistered.registered_nil : RulesRegistered [] := by
  intro before after rule name h
  cases before <;> cases h

theorem RulesRegistered.registered_append_rule {calls : List SolverCall} {rule : Expression} (name : String)
    (h : RulesRegistered calls) (hr : rule.RegisteredIn calls) :
    RulesRegistered (calls ++ [.addRule rule name]) := by
  intro before after r n heq
  rcases List.eq_nil_or_concat after with rfl | ⟨after1, last, rfl⟩
  · have h2 : calls ++ [SolverCall.addRule rule name] = before ++ [SolverCall.addRule r n] := heq
    obtain ⟨h3, h4⟩ := List.append_inj' h2 rfl
    cases h4
    rw [← h3]
    exact hr
  · rw [List.concat_eq_append, ← List.cons_append, ← List.append_assoc] at heq
    obtain ⟨h3, -⟩ := List.append_inj' heq rfl
    exact h before after1 r n h3

theorem RulesRegistered.registered_append_other {calls : List SolverCall} {call : SolverCall}
    (h : RulesRegistered calls) (hc : ∀ rule name, call ≠ .addRule rule name) :
    RulesRegistered (calls ++ [call]) := by
  intro before after r n heq
  rcases List.eq_nil_or_concat after with rfl | ⟨after1, last, rfl⟩
  · have h2 : calls ++ [call] = before ++ [SolverCall.addRule r n] := heq
    obtain ⟨-, h4⟩ := List.append_inj' h2 rfl
    cases h4
    exact absurd rfl (hc r n)
  · rw [List.concat_eq_append, ← List.cons_append, ← List.append_assoc] at heq
    obtain ⟨h3, -⟩ := List.append_inj' heq rfl
    exact h before after1 r n h3

theorem RulesHorn.horn_nil : RulesHorn [] := by
  intro rule name h
  cases h

theorem RulesHorn.horn_append_rule {calls : List SolverCall} {rule : Expression} (name : String)
    (h : RulesHorn calls) (hr : rule = .apply "genesis" 0 [] ∨ rule.isHorn = true) :
    RulesHorn (calls ++ [.addRule rule name]) := by
  intro r n hmem
  rcases List.mem_append.mp hmem with h1 | h1
  · exact h r n h1
  · simp only [List.mem_singleton, SolverCall.addRule.injEq] at h1
    rw [h1.1]
    exact hr

theorem RulesHorn.horn_append_other {calls : List SolverCall} {call : SolverCall}
    (h : RulesHorn calls) (hc : ∀ rule name, call ≠ .addRule rule name) :
    RulesHorn (calls ++ [call]) := by
  intro r n hmem
  rcases List.mem_append.mp hmem with h1 | h1
  · exact h r n h1
  · rw [List.mem_singleton] at h1
    exact absurd h1.symm (hc r n)

end smt

/-! ## The invariant of the analyzer -/

namespace CHC.Invariant

theorem unshaped {b : Bool} {s : CHC} (h : CHC.Invariant b s) : CHC.Invariant false s :=
  ⟨h.rules, h.horn, h.currentBlock, (fun hf => by cases hf), h.assertions, h.pathConditions,
    h.genesis, h.interface, h.error, h.constructor, h.summaries, h.breakDest, h.continueDest⟩

theorem inOrder {b : Bool} {s : CHC} (h : CHC.Invariant b s) : CHC.InOrder s :=
  ⟨h.rules, h.horn⟩

/-- A state that differs in nothing that the invariant reads has the invariant. -/
theorem frame {b : Bool} {s s1 : CHC} (h : CHC.Invariant b s)
    (hcalls : s1.m_interface.calls = s.m_interface.calls)
    (hblock : s1.m_currentBlock = s.m_currentBlock)
    (hassert : s1.m_context.m_assertions = s.m_context.m_assertions)
    (hpath : s1.m_pathConditions = s.m_pathConditions)
    (hgen : s1.m_genesisPredicate = s.m_genesisPredicate)
    (hifc : s1.m_interfacePredicate = s.m_interfacePredicate)
    (herr : s1.m_errorPredicate = s.m_errorPredicate)
    (hctor : s1.m_constructorPredicate = s.m_constructorPredicate)
    (hsum : s1.m_summaries = s.m_summaries)
    (hbrk : s1.m_breakDest = s.m_breakDest)
    (hcont : s1.m_continueDest = s.m_continueDest) : CHC.Invariant b s1 := by
  refine ⟨?_, ?_, ?_, ?_, ?_, ?_, ?_, ?_, ?_, ?_, ?_, ?_, ?_⟩
  · rw [hcalls]; exact h.rules
  · rw [hcalls]; exact h.horn
  · rw [hcalls, hblock]; exact h.currentBlock
  · rw [hblock]; exact h.shape
  · rw [hcalls, hassert]; exact h.assertions
  · rw [hcalls, hpath]; exact h.pathConditions
  · rw [hcalls, hgen]; exact h.genesis
  · rw [hcalls, hifc]; exact h.interface
  · rw [hcalls, herr]; exact h.error
  · rw [hcalls, hctor]; exact h.constructor
  · rw [hcalls, hsum]; exact h.summaries
  · rw [hcalls, hbrk]; exact h.breakDest
  · rw [hcalls, hcont]; exact h.continueDest

/-- More calls, in order, keep the invariant. -/
theorem extend {b : Bool} {s s1 : CHC} (h : CHC.Invariant b s) (more : List smt.SolverCall)
    (hcalls : s1.m_interface.calls = s.m_interface.calls ++ more)
    (hrules : smt.RulesRegistered (s.m_interface.calls ++ more))
    (hhorn : smt.RulesHorn (s.m_interface.calls ++ more))
    (hblock : s1.m_currentBlock = s.m_currentBlock)
    (hassert : s1.m_context.m_assertions = s.m_context.m_assertions)
    (hpath : s1.m_pathConditions = s.m_pathConditions)
    (hgen : s1.m_genesisPredicate = s.m_genesisPredicate)
    (hifc : s1.m_interfacePredicate = s.m_interfacePredicate)
    (herr : s1.m_errorPredicate = s.m_errorPredicate)
    (hctor : s1.m_constructorPredicate = s.m_constructorPredicate)
    (hsum : s1.m_summaries = s.m_summaries)
    (hbrk : s1.m_breakDest = s.m_breakDest)
    (hcont : s1.m_continueDest = s.m_continueDest) : CHC.Invariant b s1 := by
  refine ⟨?_, ?_, ?_, ?_, ?_, ?_, ?_, ?_, ?_, ?_, ?_, ?_, ?_⟩
  · rw [hcalls]; exact hrules
  · rw [hcalls]; exact hhorn
  · rw [hcalls, hblock]; exact h.currentBlock.registeredIn_append_left more
  · rw [hblock]; exact h.shape
  · rw [hcalls, hassert]; exact fun e he => (h.assertions e he).registeredIn_append_left more
  · rw [hcalls, hpath]; exact fun e he => (h.pathConditions e he).registeredIn_append_left more
  · rw [hcalls, hgen]; exact fun x hx => smt.registered_append_left more (h.genesis x hx)
  · rw [hcalls, hifc]; exact fun x hx => smt.registered_append_left more (h.interface x hx)
  · rw [hcalls, herr]; exact fun x hx => smt.registered_append_left more (h.error x hx)
  · rw [hcalls, hctor]; exact fun x hx => smt.registered_append_left more (h.constructor x hx)
  · rw [hcalls, hsum]; exact fun x hx => smt.registered_append_left more (h.summaries x hx)
  · rw [hcalls, hbrk]; exact fun x hx => smt.registered_append_left more (h.breakDest x hx)
  · rw [hcalls, hcont]; exact fun x hx => smt.registered_append_left more (h.continueDest x hx)

end CHC.Invariant

/-! ## What follows from what is known -/

namespace Known.Entails

@[instance] theorem entails_top (K : Known) : Known.Entails K Known.top :=
  ⟨fun _ _ => trivial⟩

@[instance] theorem entails_there (K Q Q1 : Known) [h : Known.Entails K Q] :
    Known.Entails (K.and Q1) Q :=
  ⟨fun calls hK => h.follows calls hK.1⟩

@[instance] theorem entails_here (K Q : Known) : Known.Entails (K.and Q) Q :=
  ⟨fun _ hK => hK.2⟩

@[instance] theorem term_of_block (K : Known) (e : smt.Expression)
    [h : Known.Entails K (Known.ofBlock e)] : Known.Entails K (Known.ofTerm e) :=
  ⟨fun calls hK => (h.follows calls hK).2⟩

@[instance] theorem term_of_free (K : Known) (e : smt.Expression)
    [h : Known.Entails K (Known.ofFree e)] : Known.Entails K (Known.ofTerm e) :=
  ⟨fun calls hK => smt.Expression.registeredIn_of_free calls (h.follows calls hK)⟩

@[instance] theorem term_and (K : Known) (a b : smt.Expression)
    [ha : Known.Entails K (Known.ofTerm a)] [hb : Known.Entails K (Known.ofTerm b)] :
    Known.Entails K (Known.ofTerm (a.and b)) :=
  ⟨fun calls hK =>
    (smt.Expression.registeredIn_and a b).mpr ⟨ha.follows calls hK, hb.follows calls hK⟩⟩

@[instance] theorem term_eq (K : Known) (a b : smt.Expression)
    [ha : Known.Entails K (Known.ofTerm a)] [hb : Known.Entails K (Known.ofTerm b)] :
    Known.Entails K (Known.ofTerm (a.eq b)) :=
  ⟨fun calls hK =>
    (smt.Expression.registeredIn_eq a b).mpr ⟨ha.follows calls hK, hb.follows calls hK⟩⟩

@[instance] theorem term_gt (K : Known) (a b : smt.Expression)
    [ha : Known.Entails K (Known.ofTerm a)] [hb : Known.Entails K (Known.ofTerm b)] :
    Known.Entails K (Known.ofTerm (a.gt b)) :=
  ⟨fun calls hK =>
    (smt.Expression.registeredIn_gt a b).mpr ⟨ha.follows calls hK, hb.follows calls hK⟩⟩

@[instance] theorem term_not (K : Known) (a : smt.Expression)
    [ha : Known.Entails K (Known.ofTerm a)] : Known.Entails K (Known.ofTerm a.not) :=
  ⟨fun calls hK => (smt.Expression.registeredIn_not a).mpr (ha.follows calls hK)⟩

@[instance] theorem term_boolLit (K : Known) (b : Bool) :
    Known.Entails K (Known.ofTerm (.boolLit b)) :=
  ⟨fun _ _ => smt.Expression.registeredIn_boolLit b⟩

@[instance] theorem term_intLit (K : Known) (n : Nat) :
    Known.Entails K (Known.ofTerm (.intLit n)) :=
  ⟨fun _ _ => smt.Expression.registeredIn_intLit n⟩

@[instance] theorem term_unary (K : Known) (o : String) (a : smt.Expression)
    [ha : Known.Entails K (Known.ofTerm a)] : Known.Entails K (Known.ofTerm (.op o [a])) :=
  ⟨fun calls hK p hp => by
    simp only [smt.Expression.predicates_op, smt.Expression.predicatesOfAll_cons,
      smt.Expression.predicatesOfAll_nil, List.append_nil] at hp
    exact ha.follows calls hK p hp⟩

@[instance] theorem term_binary (K : Known) (o : String) (a b : smt.Expression)
    [ha : Known.Entails K (Known.ofTerm a)] [hb : Known.Entails K (Known.ofTerm b)] :
    Known.Entails K (Known.ofTerm (.op o [a, b])) :=
  ⟨fun calls hK p hp => by
    simp only [smt.Expression.predicates_op, smt.Expression.predicatesOfAll_cons,
      smt.Expression.predicatesOfAll_nil, List.append_nil, List.mem_append] at hp
    rcases hp with hp | hp
    · exact ha.follows calls hK p hp
    · exact hb.follows calls hK p hp⟩

@[instance] theorem term_literal (K : Known) (v : LiteralValue) :
    Known.Entails K (Known.ofTerm v.toExpression) :=
  ⟨fun calls _ => smt.Expression.registeredIn_of_free calls (by cases v <;> simp [LiteralValue.toExpression])⟩

@[instance] theorem free_boolLit (K : Known) (b : Bool) :
    Known.Entails K (Known.ofFree (.boolLit b)) :=
  ⟨fun _ _ => smt.Expression.predicates_boolLit b⟩

@[instance] theorem block_app (K : Known) (b : smt.SymbolicFunctionVariable)
    (l : List smt.Expression) [hb : Known.Entails K (Known.ofSymbol b)]
    [hl : Known.Entails K (Known.ofFreeList l)] : Known.Entails K (Known.ofBlock (b.app l)) :=
  ⟨fun calls hK => ⟨rfl, smt.Expression.registeredIn_app b l (hb.follows calls hK)
    (hl.follows calls hK)⟩⟩

@[instance] theorem symbol_of_optional (K : Known) (b : smt.SymbolicFunctionVariable)
    [h : Known.Entails K (Known.ofOptional (some b))] : Known.Entails K (Known.ofSymbol b) :=
  ⟨fun calls hK => h.follows calls hK b rfl⟩

@[instance] theorem optional_none (K : Known) : Known.Entails K (Known.ofOptional none) :=
  ⟨fun _ _ _ h => by cases h⟩

@[instance] theorem freeList_nil (K : Known) : Known.Entails K (Known.ofFreeList []) :=
  ⟨fun _ _ => smt.Expression.predicatesOfAll_nil⟩

@[instance] theorem freeList_cons (K : Known) (a : smt.Expression) (l : List smt.Expression)
    [ha : Known.Entails K (Known.ofFree a)] [hl : Known.Entails K (Known.ofFreeList l)] :
    Known.Entails K (Known.ofFreeList (a :: l)) :=
  ⟨fun calls hK => by
    have h1 : a.predicates = [] := ha.follows calls hK
    have h2 : smt.Expression.predicatesOfAll l = [] := hl.follows calls hK
    show smt.Expression.predicatesOfAll (a :: l) = []
    rw [smt.Expression.predicatesOfAll_cons, h1, h2]
    rfl⟩

@[instance] theorem freeList_append (K : Known) (l1 l2 : List smt.Expression)
    [h1 : Known.Entails K (Known.ofFreeList l1)] [h2 : Known.Entails K (Known.ofFreeList l2)] :
    Known.Entails K (Known.ofFreeList (l1 ++ l2)) :=
  ⟨fun calls hK => by
    have e1 : smt.Expression.predicatesOfAll l1 = [] := h1.follows calls hK
    have e2 : smt.Expression.predicatesOfAll l2 = [] := h2.follows calls hK
    show smt.Expression.predicatesOfAll (l1 ++ l2) = []
    rw [smt.Expression.predicatesOfAll_append, e1, e2]
    rfl⟩

end Known.Entails

/-! ## A logic of methods that keep the invariant -/

namespace Visitor.Keeps

theorem keeps_bind {α β : Type} {pre mid post : Bool} {K : Known} {m : Visitor α}
    {f : α → Visitor β} {Q : α → Known} {Q1 : β → Known}
    (hm : Keeps pre mid K m Q) (hf : ∀ a, Keeps mid post (K.and (Q a)) (f a) Q1) :
    Keeps pre post K (m >>= f) Q1 := by
  refine ⟨fun s hI hK => ?_⟩
  rw [Visitor.bind_run]
  have h1 := hm.outcome s hI hK
  cases hms : m s with
  | ok a s1 =>
    rw [hms] at h1
    obtain ⟨hI1, ⟨l, hl⟩, hQ⟩ := h1
    have hK1 : (K.and (Q a)).holds s1.m_interface.calls := by
      refine ⟨?_, hQ⟩
      rw [hl]
      exact K.mono _ _ hK
    have h2 := (hf a).outcome s1 hI1 hK1
    simp only
    cases hfs : f a s1 with
    | ok b s2 =>
      rw [hfs] at h2
      obtain ⟨hI2, ⟨l2, hl2⟩, hQ2⟩ := h2
      exact ⟨hI2, ⟨l ++ l2, by rw [hl2, hl, List.append_assoc]⟩, hQ2⟩
    | abort msg s2 =>
      rw [hfs] at h2
      exact h2
  | abort msg s1 =>
    rw [hms] at h1
    exact h1

theorem keeps_read {α : Type} {b : Bool} (K : Known) (Q : α → Known) (f : CHC → α)
    (h : ∀ s, CHC.Invariant b s → K.holds s.m_interface.calls →
      (Q (f s)).holds s.m_interface.calls) :
    Keeps b b K (Visitor.read f) Q :=
  ⟨fun s hI hK => ⟨hI, ⟨[], by simp⟩, h s hI hK⟩⟩

theorem keeps_pure {α : Type} {b : Bool} (K : Known) (Q : α → Known) (a : α)
    [h : Known.Entails K (Q a)] : Keeps b b K (Pure.pure a : Visitor α) Q :=
  ⟨fun s hI hK => ⟨hI, ⟨[], by simp⟩, h.follows _ hK⟩⟩

theorem pure_block {b : Bool} (K : Known) (e : smt.Expression)
    [Known.Entails K (Known.ofBlock e)] :
    Keeps b b K (Pure.pure e : Visitor smt.Expression) Known.ofBlock :=
  keeps_pure K _ e

theorem pure_free {b : Bool} (K : Known) (e : smt.Expression)
    [Known.Entails K (Known.ofFree e)] :
    Keeps b b K (Pure.pure e : Visitor smt.Expression) Known.ofFree :=
  keeps_pure K _ e

theorem pure_term {b : Bool} (K : Known) (e : smt.Expression)
    [Known.Entails K (Known.ofTerm e)] :
    Keeps b b K (Pure.pure e : Visitor smt.Expression) Known.ofTerm :=
  keeps_pure K _ e

theorem pure_freeList {b : Bool} (K : Known) (l : List smt.Expression)
    [Known.Entails K (Known.ofFreeList l)] :
    Keeps b b K (Pure.pure l : Visitor (List smt.Expression)) Known.ofFreeList :=
  keeps_pure K _ l

theorem pure_symbol {b : Bool} (K : Known) (x : smt.SymbolicFunctionVariable)
    [Known.Entails K (Known.ofSymbol x)] :
    Keeps b b K (Pure.pure x : Visitor smt.SymbolicFunctionVariable) Known.ofSymbol :=
  keeps_pure K _ x

theorem pure_some {b : Bool} (K : Known) (x : smt.SymbolicFunctionVariable)
    [h : Known.Entails K (Known.ofSymbol x)] :
    Keeps b b K (Pure.pure (some x) : Visitor (Option smt.SymbolicFunctionVariable))
      Known.ofOptional :=
  ⟨fun s hI hK => ⟨hI, ⟨[], by simp⟩, fun y hy => by
    cases hy
    exact h.follows _ hK⟩⟩

theorem pure_none {b : Bool} (K : Known) :
    Keeps b b K (Pure.pure none : Visitor (Option smt.SymbolicFunctionVariable))
      Known.ofOptional :=
  keeps_pure K _ none

theorem pure_top {α : Type} {b : Bool} (K : Known) (a : α) :
    Keeps b b K (Pure.pure a : Visitor α) (fun _ => Known.top) :=
  ⟨fun _ hI _ => ⟨hI, ⟨[], by simp⟩, trivial⟩⟩

theorem read_top {α : Type} {b : Bool} (K : Known) (f : CHC → α) :
    Keeps b b K (Visitor.read f) (fun _ => Known.top) :=
  ⟨fun _ hI _ => ⟨hI, ⟨[], by simp⟩, trivial⟩⟩

theorem read_free {b : Bool} (K : Known) (f : CHC → smt.Expression)
    (h : ∀ s, (f s).predicates = []) : Keeps b b K (Visitor.read f) Known.ofFree :=
  ⟨fun s hI _ => ⟨hI, ⟨[], by simp⟩, h s⟩⟩

theorem read_freeList {b : Bool} (K : Known) (f : CHC → List smt.Expression)
    (h : ∀ s, smt.Expression.predicatesOfAll (f s) = []) :
    Keeps b b K (Visitor.read f) Known.ofFreeList :=
  ⟨fun s hI _ => ⟨hI, ⟨[], by simp⟩, h s⟩⟩

theorem read_block (K : Known) :
    Keeps true true K (Visitor.read fun s => s.m_currentBlock) Known.ofBlock :=
  ⟨fun _ hI _ => ⟨hI, ⟨[], by simp⟩, hI.shape rfl, hI.currentBlock⟩⟩

theorem read_breakDest {b : Bool} (K : Known) :
    Keeps b b K (Visitor.read fun s => s.m_breakDest) Known.ofOptional :=
  ⟨fun _ hI _ => ⟨hI, ⟨[], by simp⟩, hI.breakDest⟩⟩

theorem read_continueDest {b : Bool} (K : Known) :
    Keeps b b K (Visitor.read fun s => s.m_continueDest) Known.ofOptional :=
  ⟨fun _ hI _ => ⟨hI, ⟨[], by simp⟩, hI.continueDest⟩⟩

theorem keeps_deref {α : Type} {b : Bool} (K : Known) (Q : α → Known) (f : CHC → Option α)
    (what : String)
    (h : ∀ s a, CHC.Invariant b s → f s = some a → (Q a).holds s.m_interface.calls) :
    Keeps b b K (Visitor.deref f what) Q := by
  refine ⟨fun s hI _ => ?_⟩
  unfold Visitor.deref
  cases hf : f s with
  | none => exact hI.inOrder
  | some a => exact ⟨hI, ⟨[], by simp⟩, h s a hI hf⟩

theorem deref_top {α : Type} {b : Bool} (K : Known) (f : CHC → Option α) (what : String) :
    Keeps b b K (Visitor.deref f what) (fun _ => Known.top) :=
  keeps_deref K _ f what fun _ _ _ _ => trivial

theorem deref_genesis {b : Bool} (K : Known) (what : String) :
    Keeps b b K (Visitor.deref (fun s => s.m_genesisPredicate) what) Known.ofSymbol :=
  keeps_deref K _ _ what fun _ a hI h => hI.genesis a h

theorem deref_interface {b : Bool} (K : Known) (what : String) :
    Keeps b b K (Visitor.deref (fun s => s.m_interfacePredicate) what) Known.ofSymbol :=
  keeps_deref K _ _ what fun _ a hI h => hI.interface a h

theorem deref_error {b : Bool} (K : Known) (what : String) :
    Keeps b b K (Visitor.deref (fun s => s.m_errorPredicate) what) Known.ofSymbol :=
  keeps_deref K _ _ what fun _ a hI h => hI.error a h

theorem deref_constructor {b : Bool} (K : Known) (what : String) :
    Keeps b b K (Visitor.deref (fun s => s.m_constructorPredicate) what) Known.ofSymbol :=
  keeps_deref K _ _ what fun _ a hI h => hI.constructor a h

theorem deref_breakDest {b : Bool} (K : Known) (what : String) :
    Keeps b b K (Visitor.deref (fun s => s.m_breakDest) what) Known.ofSymbol :=
  keeps_deref K _ _ what fun _ a hI h => hI.breakDest a h

theorem deref_continueDest {b : Bool} (K : Known) (what : String) :
    Keeps b b K (Visitor.deref (fun s => s.m_continueDest) what) Known.ofSymbol :=
  keeps_deref K _ _ what fun _ a hI h => hI.continueDest a h

theorem deref_summary {b : Bool} (K : Known) (i : Nat) (what : String) :
    Keeps b b K
      (Visitor.deref (fun s => (s.m_summaries.find? fun p => p.1 == i).map (·.2)) what)
      Known.ofSymbol :=
  keeps_deref K _ _ what fun s a hI h => by
    obtain ⟨p, hp, rfl⟩ := Option.map_eq_some'.mp h
    exact hI.summaries p (List.mem_of_find?_eq_some hp)

theorem keeps_solAssert {b : Bool} (K : Known) (c : Bool) (message : String) :
    Keeps b b K (solAssert c message) (fun _ => Known.top) := by
  refine ⟨fun s hI _ => ?_⟩
  cases c
  · exact hI.inOrder
  · exact ⟨hI, ⟨[], by simp⟩, trivial⟩

theorem keeps_update {pre post : Bool} (K : Known) (f : CHC → CHC)
    (h : ∀ s, CHC.Invariant pre s → K.holds s.m_interface.calls →
      CHC.Invariant post (f s) ∧ (f s).m_interface.calls = s.m_interface.calls) :
    Keeps pre post K (Visitor.update f) (fun _ => Known.top) := by
  refine ⟨fun s hI hK => ?_⟩
  obtain ⟨h1, h2⟩ := h s hI hK
  exact ⟨h1, ⟨[], by simp [Visitor.update, h2]⟩, trivial⟩

theorem update_frame {b : Bool} (K : Known) (f : CHC → CHC)
    (h : ∀ s, (f s).m_interface.calls = s.m_interface.calls ∧
      (f s).m_currentBlock = s.m_currentBlock ∧
      (f s).m_context.m_assertions = s.m_context.m_assertions ∧
      (f s).m_pathConditions = s.m_pathConditions ∧
      (f s).m_genesisPredicate = s.m_genesisPredicate ∧
      (f s).m_interfacePredicate = s.m_interfacePredicate ∧
      (f s).m_errorPredicate = s.m_errorPredicate ∧
      (f s).m_constructorPredicate = s.m_constructorPredicate ∧
      (f s).m_summaries = s.m_summaries ∧
      (f s).m_breakDest = s.m_breakDest ∧
      (f s).m_continueDest = s.m_continueDest) :
    Keeps b b K (Visitor.update f) (fun _ => Known.top) := by
  apply keeps_update
  intro s hI _
  obtain ⟨h1, h2, h3, h4, h5, h6, h7, h8, h9, h10, h11⟩ := h s
  exact ⟨hI.frame h1 h2 h3 h4 h5 h6 h7 h8 h9 h10 h11, h1⟩

theorem weaken {α : Type} {pre post : Bool} {K K1 : Known} {m : Visitor α} {Q Q1 : α → Known}
    (hm : Keeps pre post K m Q) (hK : ∀ calls, K1.holds calls → K.holds calls)
    (hQ : ∀ a calls, (Q a).holds calls → (Q1 a).holds calls) : Keeps pre post K1 m Q1 := by
  refine ⟨fun s hI hK1 => ?_⟩
  have h1 := hm.outcome s hI (hK _ hK1)
  cases hms : m s with
  | ok a s1 =>
    rw [hms] at h1
    exact ⟨h1.1, h1.2.1, hQ _ _ h1.2.2⟩
  | abort msg s1 =>
    rw [hms] at h1
    exact h1

theorem keeps_then {β : Type} {pre mid post : Bool} {K : Known} {m : Visitor Unit}
    {f : Unit → Visitor β} {Q1 : β → Known}
    (hm : Keeps pre mid K m (fun _ => Known.top)) (hf : ∀ a, Keeps mid post K (f a) Q1) :
    Keeps pre post K (m >>= f) Q1 :=
  keeps_bind hm (fun a => weaken (hf a) (fun _ h => h.1) (fun _ _ h => h))

theorem same_then {β : Type} {b : Bool} {K : Known} {m : Visitor Unit}
    {f : Unit → Visitor β} {Q1 : β → Known}
    (hm : Keeps b b K m (fun _ => Known.top)) (hf : ∀ a, Keeps b b K (f a) Q1) :
    Keeps b b K (m >>= f) Q1 :=
  keeps_then hm hf

theorem same_bind {α β : Type} {b : Bool} {K : Known} {m : Visitor α}
    {f : α → Visitor β} {Q : α → Known} {Q1 : β → Known}
    (hm : Keeps b b K m Q) (hf : ∀ a, Keeps b b (K.and (Q a)) (f a) Q1) :
    Keeps b b K (m >>= f) Q1 :=
  keeps_bind hm hf

theorem keeps_forEach {α : Type} {b : Bool} {K : Known} {f : α → Visitor Unit}
    (hf : ∀ a : α, Keeps b b K (f a) (fun _ => Known.top)) :
    ∀ l : List α, Keeps b b K (Visitor.forEach f l) (fun _ => Known.top)
  | [] => ⟨fun _ hI _ => ⟨hI, ⟨[], by simp⟩, trivial⟩⟩
  | a :: rest => by
    rw [Visitor.forEach, Visitor.andThen_eq]
    exact keeps_bind (hf a)
      (fun _ => weaken (keeps_forEach hf rest) (fun _ h => h.1) (fun _ _ h => h))

theorem forget {α : Type} {pre post : Bool} {K : Known} {m : Visitor α} {Q : α → Known}
    (hm : Keeps pre post K m Q) : Keeps pre post K m (fun _ => Known.top) :=
  weaken hm (fun _ h => h) (fun _ _ _ => trivial)

theorem unshape {α : Type} {pre : Bool} {K : Known} {m : Visitor α} {Q : α → Known}
    (hm : Keeps pre true K m Q) : Keeps pre false K m Q := by
  refine ⟨fun s hI hK => ?_⟩
  have h1 := hm.outcome s hI hK
  cases hms : m s with
  | ok a s1 =>
    rw [hms] at h1
    exact ⟨h1.1.unshaped, h1.2⟩
  | abort msg s1 =>
    rw [hms] at h1
    exact h1

theorem keeps_inOrder {α : Type} {pre post : Bool} {K : Known} {m : Visitor α} {Q : α → Known}
    (h : Keeps pre post K m Q) (s : CHC) (hI : CHC.Invariant pre s)
    (hK : K.holds s.m_interface.calls) : CHC.InOrder (m s).state := by
  have h1 := h.outcome s hI hK
  cases hms : m s with
  | ok a s1 =>
    rw [hms] at h1
    exact h1.1.inOrder
  | abort msg s1 =>
    rw [hms] at h1
    exact h1

end Visitor.Keeps

/-! ## The assumptions of the Encoding Context -/

namespace smt

theorem predicates_zeroValue : ∀ sort : SortPointer, (zeroValue sort).predicates = []
  | .Bool => by simp [zeroValue]
  | .Int => by simp [zeroValue]
  | .Array _ r => by simp [zeroValue, predicates_zeroValue r]
  | .Tuple _ => by simp [zeroValue]

namespace EncodingContext

@[simp] theorem createExpression_assertions (c : EncodingContext) (e : Nat) :
    (c.createExpression e).m_assertions = c.m_assertions := by
  unfold createExpression
  split <;> rfl

@[simp] theorem resetVariables_assertions (c : EncodingContext)
    (pred : VariableDeclaration → Bool) : (c.resetVariables pred).m_assertions = c.m_assertions :=
  rfl

@[simp] theorem resetAllVariables_assertions (c : EncodingContext) :
    c.resetAllVariables.m_assertions = c.m_assertions :=
  rfl

theorem within_of_eq {calls : List SolverCall} {c c1 : EncodingContext}
    (h : c1.m_assertions = c.m_assertions) (hc : c.Within calls) : c1.Within calls := by
  unfold Within
  rw [h]
  exact hc

theorem within_assertions {calls : List SolverCall} {c : EncodingContext} (hc : c.Within calls) :
    c.assertions.RegisteredIn calls := by
  unfold assertions
  split
  · exact Expression.registeredIn_boolLit true
  · rename_i a rest h
    exact hc a (by rw [h]; exact List.mem_cons_self _ _)

theorem within_addAssertion {calls : List SolverCall} {c : EncodingContext} {e : Expression}
    (hc : c.Within calls) (he : e.RegisteredIn calls) : (c.addAssertion e).Within calls := by
  unfold addAssertion
  split
  · intro x hx
    rw [List.mem_singleton.mp hx]
    exact he
  · rename_i a rest h
    intro x hx
    rcases List.mem_cons.mp hx with h1 | h1
    · rw [h1]
      exact (Expression.registeredIn_and e a).mpr
        ⟨he, hc a (by rw [h]; exact List.mem_cons_self _ _)⟩
    · exact hc x (by rw [h]; exact List.mem_cons_of_mem _ h1)

theorem within_popSolver {calls : List SolverCall} {c : EncodingContext} (hc : c.Within calls) :
    c.popSolver.Within calls :=
  fun x hx => hc x (List.mem_of_mem_tail hx)

theorem within_pushSolver {calls : List SolverCall} {c : EncodingContext} (hc : c.Within calls) :
    c.pushSolver.Within calls := by
  intro x hx
  rcases List.mem_cons.mp hx with h1 | h1
  · rw [h1]
    split
    · exact within_assertions hc
    · exact Expression.registeredIn_boolLit true
  · exact hc x h1

theorem within_reset (calls : List SolverCall) (c : EncodingContext) : c.reset.Within calls :=
  fun _ hx => by cases hx

theorem within_clear (calls : List SolverCall) (c : EncodingContext) : c.clear.Within calls :=
  fun _ hx => by cases hx

end EncodingContext

end smt

theorem CHC.Invariant.withContext {b : Bool} {s : CHC} (h : CHC.Invariant b s)
    (c : smt.EncodingContext) (hc : c.Within s.m_interface.calls) :
    CHC.Invariant b { s with m_context := c } :=
  ⟨h.rules, h.horn, h.currentBlock, h.shape, hc, h.pathConditions, h.genesis, h.interface,
    h.error, h.constructor, h.summaries, h.breakDest, h.continueDest⟩

theorem CHC.Invariant.within {b : Bool} {s : CHC} (h : CHC.Invariant b s) :
    s.m_context.Within s.m_interface.calls :=
  h.assertions

/-! ## The updates of the state -/

namespace Visitor.Keeps

theorem update_context {b : Bool} (K : Known) (g : CHC → smt.EncodingContext)
    (h : ∀ s calls, s.m_context.Within calls → K.holds calls → (g s).Within calls) :
    Keeps b b K (Visitor.update fun s => { s with m_context := g s }) (fun _ => Known.top) :=
  keeps_update K _ fun s hI hK => ⟨hI.withContext _ (h s _ hI.within hK), rfl⟩

theorem update_popSolver {b : Bool} (K : Known) :
    Keeps b b K (Visitor.update fun s => { s with m_context := s.m_context.popSolver })
      (fun _ => Known.top) :=
  update_context K _ fun _ _ h _ => smt.EncodingContext.within_popSolver h

theorem update_pushSolver {b : Bool} (K : Known) :
    Keeps b b K (Visitor.update fun s => { s with m_context := s.m_context.pushSolver })
      (fun _ => Known.top) :=
  update_context K _ fun _ _ h _ => smt.EncodingContext.within_pushSolver h

theorem update_resetContext {b : Bool} (K : Known) :
    Keeps b b K (Visitor.update fun s => { s with m_context := s.m_context.reset.pushSolver })
      (fun _ => Known.top) :=
  update_context K _ fun _ _ _ _ =>
    smt.EncodingContext.within_pushSolver (smt.EncodingContext.within_reset _ _)

theorem update_clearContext {b : Bool} (K : Known) :
    Keeps b b K (Visitor.update fun s => { s with m_context := s.m_context.clear })
      (fun _ => Known.top) :=
  update_context K _ fun _ _ _ _ => smt.EncodingContext.within_clear _ _

theorem update_enterFunction {b : Bool} (K : Known) :
    Keeps b b K
      (Visitor.update fun s =>
        { s with m_context := s.m_context.reset.pushSolver, m_pathConditions := [] })
      (fun _ => Known.top) :=
  keeps_update K _ fun s hI _ =>
    ⟨⟨hI.rules, hI.horn, hI.currentBlock, hI.shape,
      smt.EncodingContext.within_pushSolver (smt.EncodingContext.within_reset _ _),
      (fun _ hx => by cases hx), hI.genesis, hI.interface, hI.error, hI.constructor, hI.summaries,
      hI.breakDest, hI.continueDest⟩, rfl⟩

theorem keeps_addAssertion {b : Bool} (K : Known) (e : smt.Expression)
    [he : Known.Entails K (Known.ofTerm e)] :
    Keeps b b K (Visitor.update fun s => { s with m_context := s.m_context.addAssertion e })
      (fun _ => Known.top) :=
  update_context K _ fun _ calls h hK =>
    smt.EncodingContext.within_addAssertion h (he.follows calls hK)

theorem addAssertion_free {b : Bool} (K : Known) (e : CHC → smt.Expression)
    (he : ∀ s, (e s).predicates = []) :
    Keeps b b K (Visitor.update fun s => { s with m_context := s.m_context.addAssertion (e s) })
      (fun _ => Known.top) :=
  update_context K _ fun s calls h _ =>
    smt.EncodingContext.within_addAssertion h (smt.Expression.registeredIn_of_free calls (he s))

theorem keeps_setZeroValue {b : Bool} (K : Known) (decl : VariableDeclaration) :
    Keeps b b K (Visitor.update fun s => { s with m_context := s.m_context.setZeroValue decl })
      (fun _ => Known.top) :=
  update_context K _ fun s calls h _ =>
    smt.EncodingContext.within_addAssertion h
      (smt.Expression.registeredIn_of_free calls (by simp [smt.predicates_zeroValue]))

theorem keeps_defineExpr {b : Bool} (K : Known) (e : Expression) (value : smt.Expression)
    [he : Known.Entails K (Known.ofTerm value)] :
    Keeps b b K (SMTEncoder.defineExpr e value) (fun _ => Known.top) :=
  update_context K _ fun s calls h hK =>
    smt.EncodingContext.within_addAssertion
      (smt.EncodingContext.within_of_eq (smt.EncodingContext.createExpression_assertions _ _) h)
      ((smt.Expression.registeredIn_eq _ _).mpr
        ⟨smt.Expression.registeredIn_of_free calls (smt.Expression.predicates_currentValue _),
          he.follows calls hK⟩)

theorem keeps_assignment {b : Bool} (K : Known) (decl : VariableDeclaration)
    (value : smt.Expression) [he : Known.Entails K (Known.ofTerm value)] :
    Keeps b b K (SMTEncoder.assignment decl value) (fun _ => Known.top) :=
  update_context K _ fun s calls h hK =>
    smt.EncodingContext.within_addAssertion
      (smt.EncodingContext.within_of_eq (smt.EncodingContext.increaseIndex_assertions _ _) h)
      ((smt.Expression.registeredIn_eq _ _).mpr
        ⟨smt.Expression.registeredIn_of_free calls (smt.Expression.predicates_currentValue _),
          he.follows calls hK⟩)

theorem update_block {b : Bool} (K : Known) (e : smt.Expression)
    [he : Known.Entails K (Known.ofBlock e)] :
    Keeps b true K (Visitor.update fun s => { s with m_currentBlock := e })
      (fun _ => Known.top) :=
  keeps_update K _ fun s hI hK =>
    ⟨⟨hI.rules, hI.horn, (he.follows _ hK).2, fun _ => (he.follows _ hK).1, hI.assertions,
      hI.pathConditions, hI.genesis, hI.interface, hI.error, hI.constructor, hI.summaries,
      hI.breakDest, hI.continueDest⟩, rfl⟩

theorem update_genesisPredicate {b : Bool} (K : Known) (x : smt.SymbolicFunctionVariable)
    [hx : Known.Entails K (Known.ofSymbol x)] :
    Keeps b b K (Visitor.update fun s => { s with m_genesisPredicate := some x })
      (fun _ => Known.top) :=
  keeps_update K _ fun s hI hK =>
    ⟨⟨hI.rules, hI.horn, hI.currentBlock, hI.shape, hI.assertions, hI.pathConditions,
      (fun y hy => by cases hy; exact hx.follows _ hK),
      hI.interface, hI.error, hI.constructor, hI.summaries, hI.breakDest, hI.continueDest⟩, rfl⟩

theorem update_interfacePredicate {b : Bool} (K : Known) (x : smt.SymbolicFunctionVariable)
    [hx : Known.Entails K (Known.ofSymbol x)] :
    Keeps b b K (Visitor.update fun s => { s with m_interfacePredicate := some x })
      (fun _ => Known.top) :=
  keeps_update K _ fun s hI hK =>
    ⟨⟨hI.rules, hI.horn, hI.currentBlock, hI.shape, hI.assertions, hI.pathConditions,
      hI.genesis, (fun y hy => by cases hy; exact hx.follows _ hK),
      hI.error, hI.constructor, hI.summaries, hI.breakDest, hI.continueDest⟩, rfl⟩

theorem update_errorPredicate {b : Bool} (K : Known) (x : smt.SymbolicFunctionVariable)
    [hx : Known.Entails K (Known.ofSymbol x)] :
    Keeps b b K (Visitor.update fun s => { s with m_errorPredicate := some x })
      (fun _ => Known.top) :=
  keeps_update K _ fun s hI hK =>
    ⟨⟨hI.rules, hI.horn, hI.currentBlock, hI.shape, hI.assertions, hI.pathConditions,
      hI.genesis, hI.interface, (fun y hy => by cases hy; exact hx.follows _ hK),
      hI.constructor, hI.summaries, hI.breakDest, hI.continueDest⟩, rfl⟩

theorem update_constructorPredicate {b : Bool} (K : Known) (x : smt.SymbolicFunctionVariable)
    [hx : Known.Entails K (Known.ofSymbol x)] :
    Keeps b b K (Visitor.update fun s => { s with m_constructorPredicate := some x })
      (fun _ => Known.top) :=
  keeps_update K _ fun s hI hK =>
    ⟨⟨hI.rules, hI.horn, hI.currentBlock, hI.shape, hI.assertions, hI.pathConditions,
      hI.genesis, hI.interface, hI.error, (fun y hy => by cases hy; exact hx.follows _ hK),
      hI.summaries, hI.breakDest, hI.continueDest⟩, rfl⟩

theorem update_breakDest {b : Bool} (K : Known) (o : Option smt.SymbolicFunctionVariable)
    [ho : Known.Entails K (Known.ofOptional o)] :
    Keeps b b K (Visitor.update fun s => { s with m_breakDest := o }) (fun _ => Known.top) :=
  keeps_update K _ fun s hI hK =>
    ⟨⟨hI.rules, hI.horn, hI.currentBlock, hI.shape, hI.assertions, hI.pathConditions,
      hI.genesis, hI.interface, hI.error, hI.constructor, hI.summaries,
      fun y hy => ho.follows _ hK y hy, hI.continueDest⟩, rfl⟩

theorem update_continueDest {b : Bool} (K : Known) (o : Option smt.SymbolicFunctionVariable)
    [ho : Known.Entails K (Known.ofOptional o)] :
    Keeps b b K (Visitor.update fun s => { s with m_continueDest := o })
      (fun _ => Known.top) :=
  keeps_update K _ fun s hI hK =>
    ⟨⟨hI.rules, hI.horn, hI.currentBlock, hI.shape, hI.assertions, hI.pathConditions,
      hI.genesis, hI.interface, hI.error, hI.constructor, hI.summaries, hI.breakDest,
      fun y hy => ho.follows _ hK y hy⟩, rfl⟩

theorem update_breakDest_some {b : Bool} (K : Known) (x : smt.SymbolicFunctionVariable)
    [hx : Known.Entails K (Known.ofSymbol x)] :
    Keeps b b K (Visitor.update fun s => { s with m_breakDest := some x })
      (fun _ => Known.top) :=
  keeps_update K _ fun s hI hK =>
    ⟨⟨hI.rules, hI.horn, hI.currentBlock, hI.shape, hI.assertions, hI.pathConditions,
      hI.genesis, hI.interface, hI.error, hI.constructor, hI.summaries,
      (fun y hy => by cases hy; exact hx.follows _ hK), hI.continueDest⟩, rfl⟩

theorem update_continueDest_some {b : Bool} (K : Known) (x : smt.SymbolicFunctionVariable)
    [hx : Known.Entails K (Known.ofSymbol x)] :
    Keeps b b K (Visitor.update fun s => { s with m_continueDest := some x })
      (fun _ => Known.top) :=
  keeps_update K _ fun s hI hK =>
    ⟨⟨hI.rules, hI.horn, hI.currentBlock, hI.shape, hI.assertions, hI.pathConditions,
      hI.genesis, hI.interface, hI.error, hI.constructor, hI.summaries, hI.breakDest,
      (fun y hy => by cases hy; exact hx.follows _ hK)⟩, rfl⟩

theorem update_continueDest_post {b : Bool} (K : Known)
    (o : Option smt.SymbolicFunctionVariable) (x : smt.SymbolicFunctionVariable)
    [ho : Known.Entails K (Known.ofOptional o)] [hx : Known.Entails K (Known.ofSymbol x)] :
    Keeps b b K
      (Visitor.update fun s =>
        { s with m_continueDest := match o with
          | some block => some block
          | none => some x })
      (fun _ => Known.top) :=
  keeps_update K _ fun s hI hK =>
    ⟨⟨hI.rules, hI.horn, hI.currentBlock, hI.shape, hI.assertions, hI.pathConditions,
      hI.genesis, hI.interface, hI.error, hI.constructor, hI.summaries, hI.breakDest,
      (fun y hy => by
        cases o with
        | none =>
          cases hy
          exact hx.follows _ hK
        | some z =>
          cases hy
          exact ho.follows _ hK _ rfl)⟩, rfl⟩

theorem update_summaries {b : Bool} (K : Known) (function : FunctionDefinition)
    (x : smt.SymbolicFunctionVariable) [hx : Known.Entails K (Known.ofSymbol x)] :
    Keeps b b K
      (Visitor.update fun s => { s with m_summaries := emplaceSummary s.m_summaries function x })
      (fun _ => Known.top) :=
  keeps_update K _ fun s hI hK =>
    ⟨⟨hI.rules, hI.horn, hI.currentBlock, hI.shape, hI.assertions, hI.pathConditions,
      hI.genesis, hI.interface, hI.error, hI.constructor,
      (fun p hp => by
        have hp1 : p ∈ emplaceSummary s.m_summaries function x := hp
        unfold emplaceSummary at hp1
        split at hp1
        · exact hI.summaries p hp1
        · rcases List.mem_append.mp hp1 with h1 | h1
          · exact hI.summaries p h1
          · rw [List.mem_singleton.mp h1]
            exact hx.follows _ hK),
      hI.breakDest, hI.continueDest⟩, rfl⟩

end Visitor.Keeps

/-! ## The methods that talk to the solver adapter -/

theorem CHC.reset_inv {b : Bool} (K : Known) :
    Visitor.Keeps b b K CHC.reset (fun _ => Known.top) :=
  Visitor.Keeps.keeps_update K _ fun s hI _ =>
    ⟨⟨hI.rules, hI.horn, hI.currentBlock, hI.shape, hI.assertions, hI.pathConditions,
      hI.genesis, hI.interface, hI.error, hI.constructor, (fun _ hp => by cases hp),
      (fun _ hy => by cases hy), (fun _ hy => by cases hy)⟩, rfl⟩

theorem CHC.uniquePrefix_inv {b : Bool} (K : Known) :
    Visitor.Keeps b b K CHC.uniquePrefix (fun _ => Known.top) :=
  ⟨fun s hI _ => ⟨hI.frame rfl rfl rfl rfl rfl rfl rfl rfl rfl rfl rfl, ⟨[], by simp⟩, trivial⟩⟩

theorem CHC.createSymbolicBlock_inv {b : Bool} (K : Known) (sort : smt.FunctionSort)
    (name : String) :
    Visitor.Keeps b b K (CHC.createSymbolicBlock sort name) Known.ofSymbol := by
  refine ⟨fun s hI _ => ?_⟩
  have hcalls : ({ s with m_interface := s.m_interface.registerRelation ⟨name, sort, 0⟩ } : CHC).m_interface.calls
      = s.m_interface.calls ++ [.registerRelation name 0 sort] := rfl
  exact ⟨hI.extend _ hcalls
      (hI.rules.registered_append_other (fun _ _ h => by cases h))
      (hI.horn.horn_append_other (fun _ _ h => by cases h))
      rfl rfl rfl rfl rfl rfl rfl rfl rfl rfl,
    ⟨_, hcalls⟩, smt.registered_singleton s.m_interface.calls ⟨name, sort, 0⟩⟩

theorem CHC.createErrorBlock_inv {b : Bool} (K : Known) :
    Visitor.Keeps b b K CHC.createErrorBlock (fun _ => Known.top) := by
  refine ⟨fun s hI _ => ?_⟩
  unfold CHC.createErrorBlock
  cases he : s.m_errorPredicate with
  | none =>
    simp only [Visitor.bind_run, Visitor.deref, he]
    exact hI.inOrder
  | some ep =>
    simp only [Visitor.bind_run, Visitor.deref, he, Visitor.update_run]
    have hcalls : ({ ({ s with m_errorPredicate := some ep.increaseIndex } : CHC) with
        m_interface := s.m_interface.registerRelation ep.increaseIndex } : CHC).m_interface.calls
        = s.m_interface.calls ++
          [.registerRelation ep.increaseIndex.uniqueName ep.increaseIndex.index
            ep.increaseIndex.sort] := rfl
    have hreg := smt.registered_singleton s.m_interface.calls ep.increaseIndex
    have hr := @smt.RulesRegistered.registered_append_other _ (.registerRelation
      ep.increaseIndex.uniqueName ep.increaseIndex.index ep.increaseIndex.sort) hI.rules
      (fun _ _ h => by cases h)
    have hh := @smt.RulesHorn.horn_append_other _ (.registerRelation
      ep.increaseIndex.uniqueName ep.increaseIndex.index ep.increaseIndex.sort) hI.horn
      (fun _ _ h => by cases h)
    refine ⟨⟨hr, hh, hI.currentBlock.registeredIn_append_left _, hI.shape,
      fun e h => (hI.assertions e h).registeredIn_append_left _,
      fun e h => (hI.pathConditions e h).registeredIn_append_left _,
      fun x h => smt.registered_append_left _ (hI.genesis x h),
      fun x h => smt.registered_append_left _ (hI.interface x h),
      fun x h => ?_,
      fun x h => smt.registered_append_left _ (hI.constructor x h),
      fun x h => smt.registered_append_left _ (hI.summaries x h),
      fun x h => smt.registered_append_left _ (hI.breakDest x h),
      fun x h => smt.registered_append_left _ (hI.continueDest x h)⟩, ⟨_, hcalls⟩, trivial⟩
    cases h
    exact hreg

theorem CHC.connectBlocks_inv {b : Bool} (K : Known) (source target constraints : smt.Expression)
    [hs : Known.Entails K (Known.ofBlock source)] [ht : Known.Entails K (Known.ofBlock target)]
    [hc : Known.Entails K (Known.ofTerm constraints)] :
    Visitor.Keeps b b K (CHC.connectBlocks source target constraints) (fun _ => Known.top) := by
  refine ⟨fun s hI hK => ?_⟩
  rw [CHC.connectBlocks_run]
  obtain ⟨hs1, hs2⟩ := hs.follows _ hK
  obtain ⟨ht1, ht2⟩ := ht.follows _ hK
  have hc1 := hc.follows _ hK
  refine ⟨hI.extend _ rfl (hI.rules.registered_append_rule _ ?_)
      (hI.horn.horn_append_rule _ (Or.inr (smt.Expression.isHorn_implies _ _ _ _ hs1 ht1)))
      rfl rfl rfl rfl rfl rfl rfl rfl rfl rfl, ⟨_, rfl⟩, trivial⟩
  exact (smt.Expression.registeredIn_implies _ _).mpr
    ⟨(smt.Expression.registeredIn_and _ _).mpr ⟨(smt.Expression.registeredIn_and _ _).mpr
      ⟨hs2, smt.EncodingContext.within_assertions hI.within⟩, hc1⟩, ht2⟩

theorem CHC.query_inv {b : Bool} (K : Known) (goal : smt.Expression) (location : SourceLocation) :
    Visitor.Keeps b b K (CHC.query goal location) (fun _ => Known.top) := by
  refine ⟨fun s hI _ => ?_⟩
  have hr := @smt.RulesRegistered.registered_append_other _ (.query goal) hI.rules
    (fun _ _ h => by cases h)
  have hh := @smt.RulesHorn.horn_append_other _ (.query goal) hI.horn
    (fun _ _ h => by cases h)
  unfold CHC.query
  cases h : s.m_interface.answer s.m_interface.calls goal <;>
    simp only [smt.CHCSolverInterface.query, h] <;>
    exact ⟨hI.extend [.query goal] rfl hr hh rfl rfl rfl rfl rfl rfl rfl rfl rfl rfl,
      ⟨_, rfl⟩, trivial⟩

set_option linter.unusedTactic false
set_option linter.unreachableTactic false

/-! ## The methods of the analyzer keep the invariant -/

theorem SMTEncoder.expr_inv {b : Bool} (K : Known) (e : Expression) :
    Visitor.Keeps b b K (SMTEncoder.expr e) Known.ofFree := by
  unfold SMTEncoder.expr
  repeat' (first
    | with_reducible exact CHC.connectBlocks_inv _ _ _ _
    | with_reducible exact CHC.createSymbolicBlock_inv _ _ _
    | with_reducible exact CHC.createErrorBlock_inv _
    | with_reducible exact CHC.query_inv _ _ _
    | with_reducible exact CHC.reset_inv _
    | with_reducible exact CHC.uniquePrefix_inv _
    | exact Visitor.Keeps.keeps_defineExpr _ _ _
    | exact Visitor.Keeps.keeps_assignment _ _ _
    | apply Visitor.Keeps.same_bind
    | apply Visitor.Keeps.keeps_bind
    | exact Visitor.Keeps.keeps_solAssert _ _ _
    | exact Visitor.Keeps.pure_block _ _
    | exact Visitor.Keeps.pure_free _ _
    | exact Visitor.Keeps.pure_term _ _
    | exact Visitor.Keeps.pure_freeList _ _
    | exact Visitor.Keeps.pure_symbol _ _
    | exact Visitor.Keeps.pure_some _ _
    | exact Visitor.Keeps.pure_none _
    | exact Visitor.Keeps.pure_top _ _
    | exact Visitor.Keeps.read_block _
    | exact Visitor.Keeps.read_breakDest _
    | exact Visitor.Keeps.read_continueDest _
    | (refine Visitor.Keeps.read_free _ _ (fun _ => ?_); simp; done)
    | (refine Visitor.Keeps.read_freeList _ _ (fun _ => ?_); simp [smt.Expression.predicatesOfAll_map_free]; done)
    | (refine Visitor.Keeps.read_freeList _ _ (fun _ => ?_); split <;> simp [smt.Expression.predicatesOfAll_map_free]; done)
    | exact Visitor.Keeps.read_top _ _
    | exact Visitor.Keeps.deref_genesis _ _
    | exact Visitor.Keeps.deref_interface _ _
    | exact Visitor.Keeps.deref_error _ _
    | exact Visitor.Keeps.deref_constructor _ _
    | exact Visitor.Keeps.deref_breakDest _ _
    | exact Visitor.Keeps.deref_continueDest _ _
    | exact Visitor.Keeps.deref_summary _ _ _
    | exact Visitor.Keeps.deref_top _ _ _
    | exact Visitor.Keeps.update_frame _ _ (fun _ => ⟨rfl, rfl, rfl, rfl, rfl, rfl, rfl, rfl, rfl, rfl, rfl⟩)
    | (refine Visitor.Keeps.update_frame _ _ (fun _ => ⟨rfl, rfl, ?_, rfl, rfl, rfl, rfl, rfl, rfl, rfl, rfl⟩); simp; done)
    | exact Visitor.Keeps.update_popSolver _
    | exact Visitor.Keeps.update_pushSolver _
    | exact Visitor.Keeps.update_resetContext _
    | exact Visitor.Keeps.update_clearContext _
    | exact Visitor.Keeps.update_enterFunction _
    | exact Visitor.Keeps.keeps_addAssertion _ _
    | (refine Visitor.Keeps.addAssertion_free _ _ (fun _ => ?_); simp; done)
    | exact Visitor.Keeps.keeps_setZeroValue _ _
    | exact Visitor.Keeps.update_block _ _
    | exact Visitor.Keeps.update_genesisPredicate _ _
    | exact Visitor.Keeps.update_interfacePredicate _ _
    | exact Visitor.Keeps.update_errorPredicate _ _
    | exact Visitor.Keeps.update_constructorPredicate _ _
    | exact Visitor.Keeps.update_breakDest_some _ _
    | exact Visitor.Keeps.update_continueDest_some _ _
    | exact Visitor.Keeps.update_breakDest _ _
    | exact Visitor.Keeps.update_continueDest _ _
    | exact Visitor.Keeps.update_continueDest_post _ _ _
    | exact Visitor.Keeps.update_summaries _ _ _
    | apply Visitor.Keeps.keeps_forEach
    | intro _
    | split
    | (show Visitor.Keeps _ _ _ _ (fun _ => Known.top); split)
    | dsimp only)

theorem SMTEncoder.currentValue_inv {b : Bool} (K : Known) (decl : VariableDeclaration) :
    Visitor.Keeps b b K (SMTEncoder.currentValue decl) Known.ofFree := by
  unfold SMTEncoder.currentValue
  repeat' (first
    | with_reducible exact CHC.connectBlocks_inv _ _ _ _
    | with_reducible exact CHC.createSymbolicBlock_inv _ _ _
    | with_reducible exact CHC.createErrorBlock_inv _
    | with_reducible exact CHC.query_inv _ _ _
    | with_reducible exact CHC.reset_inv _
    | with_reducible exact CHC.uniquePrefix_inv _
    | exact Visitor.Keeps.keeps_defineExpr _ _ _
    | exact Visitor.Keeps.keeps_assignment _ _ _
    | apply Visitor.Keeps.same_bind
    | apply Visitor.Keeps.keeps_bind
    | exact Visitor.Keeps.keeps_solAssert _ _ _
    | exact Visitor.Keeps.pure_block _ _
    | exact Visitor.Keeps.pure_free _ _
    | exact Visitor.Keeps.pure_term _ _
    | exact Visitor.Keeps.pure_freeList _ _
    | exact Visitor.Keeps.pure_symbol _ _
    | exact Visitor.Keeps.pure_some _ _
    | exact Visitor.Keeps.pure_none _
    | exact Visitor.Keeps.pure_top _ _
    | exact Visitor.Keeps.read_block _
    | exact Visitor.Keeps.read_breakDest _
    | exact Visitor.Keeps.read_continueDest _
    | (refine Visitor.Keeps.read_free _ _ (fun _ => ?_); simp; done)
    | (refine Visitor.Keeps.read_freeList _ _ (fun _ => ?_); simp [smt.Expression.predicatesOfAll_map_free]; done)
    | (refine Visitor.Keeps.read_freeList _ _ (fun _ => ?_); split <;> simp [smt.Expression.predicatesOfAll_map_free]; done)
    | exact Visitor.Keeps.read_top _ _
    | exact Visitor.Keeps.deref_genesis _ _
    | exact Visitor.Keeps.deref_interface _ _
    | exact Visitor.Keeps.deref_error _ _
    | exact Visitor.Keeps.deref_constructor _ _
    | exact Visitor.Keeps.deref_breakDest _ _
    | exact Visitor.Keeps.deref_continueDest _ _
    | exact Visitor.Keeps.deref_summary _ _ _
    | exact Visitor.Keeps.deref_top _ _ _
    | exact Visitor.Keeps.update_frame _ _ (fun _ => ⟨rfl, rfl, rfl, rfl, rfl, rfl, rfl, rfl, rfl, rfl, rfl⟩)
    | (refine Visitor.Keeps.update_frame _ _ (fun _ => ⟨rfl, rfl, ?_, rfl, rfl, rfl, rfl, rfl, rfl, rfl, rfl⟩); simp; done)
    | exact Visitor.Keeps.update_popSolver _
    | exact Visitor.Keeps.update_pushSolver _
    | exact Visitor.Keeps.update_resetContext _
    | exact Visitor.Keeps.update_clearContext _
    | exact Visitor.Keeps.update_enterFunction _
    | exact Visitor.Keeps.keeps_addAssertion _ _
    | (refine Visitor.Keeps.addAssertion_free _ _ (fun _ => ?_); simp; done)
    | exact Visitor.Keeps.keeps_setZeroValue _ _
    | exact Visitor.Keeps.update_block _ _
    | exact Visitor.Keeps.update_genesisPredicate _ _
    | exact Visitor.Keeps.update_interfacePredicate _ _
    | exact Visitor.Keeps.update_errorPredicate _ _
    | exact Visitor.Keeps.update_constructorPredicate _ _
    | exact Visitor.Keeps.update_breakDest_some _ _
    | exact Visitor.Keeps.update_continueDest_some _ _
    | exact Visitor.Keeps.update_breakDest _ _
    | exact Visitor.Keeps.update_continueDest _ _
    | exact Visitor.Keeps.update_continueDest_post _ _ _
    | exact Visitor.Keeps.update_summaries _ _ _
    | apply Visitor.Keeps.keeps_forEach
    | intro _
    | split
    | (show Visitor.Keeps _ _ _ _ (fun _ => Known.top); split)
    | dsimp only)

theorem SMTEncoder.currentPathConditions_inv {b : Bool} (K : Known) :
    Visitor.Keeps b b K SMTEncoder.currentPathConditions Known.ofTerm := by
  unfold SMTEncoder.currentPathConditions
  refine Visitor.Keeps.keeps_read K _ _ fun s hI _ => ?_
  show smt.Expression.RegisteredIn _ _
  split
  · exact smt.Expression.registeredIn_boolLit true
  · rename_i c rest h
    exact hI.pathConditions c (by rw [h]; exact List.mem_cons_self _ _)

theorem SMTEncoder.createVariable_inv {b : Bool} (K : Known) (decl : VariableDeclaration) :
    Visitor.Keeps b b K (SMTEncoder.createVariable decl) (fun _ => Known.top) := by
  unfold SMTEncoder.createVariable
  repeat' (first
    | with_reducible exact CHC.connectBlocks_inv _ _ _ _
    | with_reducible exact CHC.createSymbolicBlock_inv _ _ _
    | with_reducible exact CHC.createErrorBlock_inv _
    | with_reducible exact CHC.query_inv _ _ _
    | with_reducible exact CHC.reset_inv _
    | with_reducible exact CHC.uniquePrefix_inv _
    | exact Visitor.Keeps.keeps_defineExpr _ _ _
    | exact Visitor.Keeps.keeps_assignment _ _ _
    | apply Visitor.Keeps.same_bind
    | apply Visitor.Keeps.keeps_bind
    | exact Visitor.Keeps.keeps_solAssert _ _ _
    | exact Visitor.Keeps.pure_block _ _
    | exact Visitor.Keeps.pure_free _ _
    | exact Visitor.Keeps.pure_term _ _
    | exact Visitor.Keeps.pure_freeList _ _
    | exact Visitor.Keeps.pure_symbol _ _
    | exact Visitor.Keeps.pure_some _ _
    | exact Visitor.Keeps.pure_none _
    | exact Visitor.Keeps.pure_top _ _
    | exact Visitor.Keeps.read_block _
    | exact Visitor.Keeps.read_breakDest _
    | exact Visitor.Keeps.read_continueDest _
    | (refine Visitor.Keeps.read_free _ _ (fun _ => ?_); simp; done)
    | (refine Visitor.Keeps.read_freeList _ _ (fun _ => ?_); simp [smt.Expression.predicatesOfAll_map_free]; done)
    | (refine Visitor.Keeps.read_freeList _ _ (fun _ => ?_); split <;> simp [smt.Expression.predicatesOfAll_map_free]; done)
    | exact Visitor.Keeps.read_top _ _
    | exact Visitor.Keeps.deref_genesis _ _
    | exact Visitor.Keeps.deref_interface _ _
    | exact Visitor.Keeps.deref_error _ _
    | exact Visitor.Keeps.deref_constructor _ _
    | exact Visitor.Keeps.deref_breakDest _ _
    | exact Visitor.Keeps.deref_continueDest _ _
    | exact Visitor.Keeps.deref_summary _ _ _
    | exact Visitor.Keeps.deref_top _ _ _
    | exact Visitor.Keeps.update_frame _ _ (fun _ => ⟨rfl, rfl, rfl, rfl, rfl, rfl, rfl, rfl, rfl, rfl, rfl⟩)
    | (refine Visitor.Keeps.update_frame _ _ (fun _ => ⟨rfl, rfl, ?_, rfl, rfl, rfl, rfl, rfl, rfl, rfl, rfl⟩); simp; done)
    | exact Visitor.Keeps.update_popSolver _
    | exact Visitor.Keeps.update_pushSolver _
    | exact Visitor.Keeps.update_resetContext _
    | exact Visitor.Keeps.update_clearContext _
    | exact Visitor.Keeps.update_enterFunction _
    | exact Visitor.Keeps.keeps_addAssertion _ _
    | (refine Visitor.Keeps.addAssertion_free _ _ (fun _ => ?_); simp; done)
    | exact Visitor.Keeps.keeps_setZeroValue _ _
    | exact Visitor.Keeps.update_block _ _
    | exact Visitor.Keeps.update_genesisPredicate _ _
    | exact Visitor.Keeps.update_interfacePredicate _ _
    | exact Visitor.Keeps.update_errorPredicate _ _
    | exact Visitor.Keeps.update_constructorPredicate _ _
    | exact Visitor.Keeps.update_breakDest_some _ _
    | exact Visitor.Keeps.update_continueDest_some _ _
    | exact Visitor.Keeps.update_breakDest _ _
    | exact Visitor.Keeps.update_continueDest _ _
    | exact Visitor.Keeps.update_continueDest_post _ _ _
    | exact Visitor.Keeps.update_summaries _ _ _
    | apply Visitor.Keeps.keeps_forEach
    | intro _
    | split
    | (show Visitor.Keeps _ _ _ _ (fun _ => Known.top); split)
    | dsimp only)

theorem SMTEncoder.baseClearIndices_inv {b : Bool} (K : Known) (c : Option ContractDefinition) (f : Option FunctionDefinition) :
    Visitor.Keeps b b K (SMTEncoder.clearIndices c f) (fun _ => Known.top) := by
  unfold SMTEncoder.clearIndices
  repeat' (first
    | with_reducible exact CHC.connectBlocks_inv _ _ _ _
    | with_reducible exact CHC.createSymbolicBlock_inv _ _ _
    | with_reducible exact CHC.createErrorBlock_inv _
    | with_reducible exact CHC.query_inv _ _ _
    | with_reducible exact CHC.reset_inv _
    | with_reducible exact CHC.uniquePrefix_inv _
    | exact Visitor.Keeps.keeps_defineExpr _ _ _
    | exact Visitor.Keeps.keeps_assignment _ _ _
    | apply Visitor.Keeps.same_bind
    | apply Visitor.Keeps.keeps_bind
    | exact Visitor.Keeps.keeps_solAssert _ _ _
    | exact Visitor.Keeps.pure_block _ _
    | exact Visitor.Keeps.pure_free _ _
    | exact Visitor.Keeps.pure_term _ _
    | exact Visitor.Keeps.pure_freeList _ _
    | exact Visitor.Keeps.pure_symbol _ _
    | exact Visitor.Keeps.pure_some _ _
    | exact Visitor.Keeps.pure_none _
    | exact Visitor.Keeps.pure_top _ _
    | exact Visitor.Keeps.read_block _
    | exact Visitor.Keeps.read_breakDest _
    | exact Visitor.Keeps.read_continueDest _
    | (refine Visitor.Keeps.read_free _ _ (fun _ => ?_); simp; done)
    | (refine Visitor.Keeps.read_freeList _ _ (fun _ => ?_); simp [smt.Expression.predicatesOfAll_map_free]; done)
    | (refine Visitor.Keeps.read_freeList _ _ (fun _ => ?_); split <;> simp [smt.Expression.predicatesOfAll_map_free]; done)
    | exact Visitor.Keeps.read_top _ _
    | exact Visitor.Keeps.deref_genesis _ _
    | exact Visitor.Keeps.deref_interface _ _
    | exact Visitor.Keeps.deref_error _ _
    | exact Visitor.Keeps.deref_constructor _ _
    | exact Visitor.Keeps.deref_breakDest _ _
    | exact Visitor.Keeps.deref_continueDest _ _
    | exact Visitor.Keeps.deref_summary _ _ _
    | exact Visitor.Keeps.deref_top _ _ _
    | exact Visitor.Keeps.update_frame _ _ (fun _ => ⟨rfl, rfl, rfl, rfl, rfl, rfl, rfl, rfl, rfl, rfl, rfl⟩)
    | (refine Visitor.Keeps.update_frame _ _ (fun _ => ⟨rfl, rfl, ?_, rfl, rfl, rfl, rfl, rfl, rfl, rfl, rfl⟩); simp; done)
    | exact Visitor.Keeps.update_popSolver _
    | exact Visitor.Keeps.update_pushSolver _
    | exact Visitor.Keeps.update_resetContext _
    | exact Visitor.Keeps.update_clearContext _
    | exact Visitor.Keeps.update_enterFunction _
    | exact Visitor.Keeps.keeps_addAssertion _ _
    | (refine Visitor.Keeps.addAssertion_free _ _ (fun _ => ?_); simp; done)
    | exact Visitor.Keeps.keeps_setZeroValue _ _
    | exact Visitor.Keeps.update_block _ _
    | exact Visitor.Keeps.update_genesisPredicate _ _
    | exact Visitor.Keeps.update_interfacePredicate _ _
    | exact Visitor.Keeps.update_errorPredicate _ _
    | exact Visitor.Keeps.update_constructorPredicate _ _
    | exact Visitor.Keeps.update_breakDest_some _ _
    | exact Visitor.Keeps.update_continueDest_some _ _
    | exact Visitor.Keeps.update_breakDest _ _
    | exact Visitor.Keeps.update_continueDest _ _
    | exact Visitor.Keeps.update_continueDest_post _ _ _
    | exact Visitor.Keeps.update_summaries _ _ _
    | apply Visitor.Keeps.keeps_forEach
    | intro _
    | split
    | (show Visitor.Keeps _ _ _ _ (fun _ => Known.top); split)
    | dsimp only)

theorem SMTEncoder.resetStateVariables_inv {b : Bool} (K : Known) :
    Visitor.Keeps b b K SMTEncoder.resetStateVariables (fun _ => Known.top) := by
  unfold SMTEncoder.resetStateVariables
  repeat' (first
    | with_reducible exact CHC.connectBlocks_inv _ _ _ _
    | with_reducible exact CHC.createSymbolicBlock_inv _ _ _
    | with_reducible exact CHC.createErrorBlock_inv _
    | with_reducible exact CHC.query_inv _ _ _
    | with_reducible exact CHC.reset_inv _
    | with_reducible exact CHC.uniquePrefix_inv _
    | exact Visitor.Keeps.keeps_defineExpr _ _ _
    | exact Visitor.Keeps.keeps_assignment _ _ _
    | apply Visitor.Keeps.same_bind
    | apply Visitor.Keeps.keeps_bind
    | exact Visitor.Keeps.keeps_solAssert _ _ _
    | exact Visitor.Keeps.pure_block _ _
    | exact Visitor.Keeps.pure_free _ _
    | exact Visitor.Keeps.pure_term _ _
    | exact Visitor.Keeps.pure_freeList _ _
    | exact Visitor.Keeps.pure_symbol _ _
    | exact Visitor.Keeps.pure_some _ _
    | exact Visitor.Keeps.pure_none _
    | exact Visitor.Keeps.pure_top _ _
    | exact Visitor.Keeps.read_block _
    | exact Visitor.Keeps.read_breakDest _
    | exact Visitor.Keeps.read_continueDest _
    | (refine Visitor.Keeps.read_free _ _ (fun _ => ?_); simp; done)
    | (refine Visitor.Keeps.read_freeList _ _ (fun _ => ?_); simp [smt.Expression.predicatesOfAll_map_free]; done)
    | (refine Visitor.Keeps.read_freeList _ _ (fun _ => ?_); split <;> simp [smt.Expression.predicatesOfAll_map_free]; done)
    | exact Visitor.Keeps.read_top _ _
    | exact Visitor.Keeps.deref_genesis _ _
    | exact Visitor.Keeps.deref_interface _ _
    | exact Visitor.Keeps.deref_error _ _
    | exact Visitor.Keeps.deref_constructor _ _
    | exact Visitor.Keeps.deref_breakDest _ _
    | exact Visitor.Keeps.deref_continueDest _ _
    | exact Visitor.Keeps.deref_summary _ _ _
    | exact Visitor.Keeps.deref_top _ _ _
    | exact Visitor.Keeps.update_frame _ _ (fun _ => ⟨rfl, rfl, rfl, rfl, rfl, rfl, rfl, rfl, rfl, rfl, rfl⟩)
    | (refine Visitor.Keeps.update_frame _ _ (fun _ => ⟨rfl, rfl, ?_, rfl, rfl, rfl, rfl, rfl, rfl, rfl, rfl⟩); simp; done)
    | exact Visitor.Keeps.update_popSolver _
    | exact Visitor.Keeps.update_pushSolver _
    | exact Visitor.Keeps.update_resetContext _
    | exact Visitor.Keeps.update_clearContext _
    | exact Visitor.Keeps.update_enterFunction _
    | exact Visitor.Keeps.keeps_addAssertion _ _
    | (refine Visitor.Keeps.addAssertion_free _ _ (fun _ => ?_); simp; done)
    | exact Visitor.Keeps.keeps_setZeroValue _ _
    | exact Visitor.Keeps.update_block _ _
    | exact Visitor.Keeps.update_genesisPredicate _ _
    | exact Visitor.Keeps.update_interfacePredicate _ _
    | exact Visitor.Keeps.update_errorPredicate _ _
    | exact Visitor.Keeps.update_constructorPredicate _ _
    | exact Visitor.Keeps.update_breakDest_some _ _
    | exact Visitor.Keeps.update_continueDest_some _ _
    | exact Visitor.Keeps.update_breakDest _ _
    | exact Visitor.Keeps.update_continueDest _ _
    | exact Visitor.Keeps.update_continueDest_post _ _ _
    | exact Visitor.Keeps.update_summaries _ _ _
    | apply Visitor.Keeps.keeps_forEach
    | intro _
    | split
    | (show Visitor.Keeps _ _ _ _ (fun _ => Known.top); split)
    | dsimp only)

theorem SMTEncoder.baseEndVisitFunctionCall_inv {b : Bool} (K : Known) (c : Expression) :
    Visitor.Keeps b b K (SMTEncoder.endVisitFunctionCall c) (fun _ => Known.top) := by
  unfold SMTEncoder.endVisitFunctionCall
  repeat' (first
    | with_reducible exact CHC.connectBlocks_inv _ _ _ _
    | with_reducible exact CHC.createSymbolicBlock_inv _ _ _
    | with_reducible exact CHC.createErrorBlock_inv _
    | with_reducible exact CHC.query_inv _ _ _
    | with_reducible exact CHC.reset_inv _
    | with_reducible exact CHC.uniquePrefix_inv _
    | exact Visitor.Keeps.keeps_defineExpr _ _ _
    | exact Visitor.Keeps.keeps_assignment _ _ _
    | apply Visitor.Keeps.same_bind
    | apply Visitor.Keeps.keeps_bind
    | exact Visitor.Keeps.keeps_solAssert _ _ _
    | exact Visitor.Keeps.pure_block _ _
    | exact Visitor.Keeps.pure_free _ _
    | exact Visitor.Keeps.pure_term _ _
    | exact Visitor.Keeps.pure_freeList _ _
    | exact Visitor.Keeps.pure_symbol _ _
    | exact Visitor.Keeps.pure_some _ _
    | exact Visitor.Keeps.pure_none _
    | exact Visitor.Keeps.pure_top _ _
    | exact Visitor.Keeps.read_block _
    | exact Visitor.Keeps.read_breakDest _
    | exact Visitor.Keeps.read_continueDest _
    | (refine Visitor.Keeps.read_free _ _ (fun _ => ?_); simp; done)
    | (refine Visitor.Keeps.read_freeList _ _ (fun _ => ?_); simp [smt.Expression.predicatesOfAll_map_free]; done)
    | (refine Visitor.Keeps.read_freeList _ _ (fun _ => ?_); split <;> simp [smt.Expression.predicatesOfAll_map_free]; done)
    | exact Visitor.Keeps.read_top _ _
    | exact Visitor.Keeps.deref_genesis _ _
    | exact Visitor.Keeps.deref_interface _ _
    | exact Visitor.Keeps.deref_error _ _
    | exact Visitor.Keeps.deref_constructor _ _
    | exact Visitor.Keeps.deref_breakDest _ _
    | exact Visitor.Keeps.deref_continueDest _ _
    | exact Visitor.Keeps.deref_summary _ _ _
    | exact Visitor.Keeps.deref_top _ _ _
    | exact Visitor.Keeps.update_frame _ _ (fun _ => ⟨rfl, rfl, rfl, rfl, rfl, rfl, rfl, rfl, rfl, rfl, rfl⟩)
    | (refine Visitor.Keeps.update_frame _ _ (fun _ => ⟨rfl, rfl, ?_, rfl, rfl, rfl, rfl, rfl, rfl, rfl, rfl⟩); simp; done)
    | exact Visitor.Keeps.update_popSolver _
    | exact Visitor.Keeps.update_pushSolver _
    | exact Visitor.Keeps.update_resetContext _
    | exact Visitor.Keeps.update_clearContext _
    | exact Visitor.Keeps.update_enterFunction _
    | exact Visitor.Keeps.keeps_addAssertion _ _
    | (refine Visitor.Keeps.addAssertion_free _ _ (fun _ => ?_); simp; done)
    | exact Visitor.Keeps.keeps_setZeroValue _ _
    | exact Visitor.Keeps.update_block _ _
    | exact Visitor.Keeps.update_genesisPredicate _ _
    | exact Visitor.Keeps.update_interfacePredicate _ _
    | exact Visitor.Keeps.update_errorPredicate _ _
    | exact Visitor.Keeps.update_constructorPredicate _ _
    | exact Visitor.Keeps.update_breakDest_some _ _
    | exact Visitor.Keeps.update_continueDest_some _ _
    | exact Visitor.Keeps.update_breakDest _ _
    | exact Visitor.Keeps.update_continueDest _ _
    | exact Visitor.Keeps.update_continueDest_post _ _ _
    | exact Visitor.Keeps.update_summaries _ _ _
    | apply Visitor.Keeps.keeps_forEach
    | intro _
    | split
    | (show Visitor.Keeps _ _ _ _ (fun _ => Known.top); split)
    | dsimp only)

theorem SMTEncoder.createReturnedExpressions_inv {b : Bool} (K : Known) (c : Expression) :
    Visitor.Keeps b b K (SMTEncoder.createReturnedExpressions c) (fun _ => Known.top) := by
  unfold SMTEncoder.createReturnedExpressions
  repeat' (first
    | with_reducible exact SMTEncoder.createVariable_inv _ _
    | with_reducible exact SMTEncoder.currentValue_inv _ _
    | with_reducible exact CHC.connectBlocks_inv _ _ _ _
    | with_reducible exact CHC.createSymbolicBlock_inv _ _ _
    | with_reducible exact CHC.createErrorBlock_inv _
    | with_reducible exact CHC.query_inv _ _ _
    | with_reducible exact CHC.reset_inv _
    | with_reducible exact CHC.uniquePrefix_inv _
    | exact Visitor.Keeps.keeps_defineExpr _ _ _
    | exact Visitor.Keeps.keeps_assignment _ _ _
    | apply Visitor.Keeps.same_bind
    | apply Visitor.Keeps.keeps_bind
    | exact Visitor.Keeps.keeps_solAssert _ _ _
    | exact Visitor.Keeps.pure_block _ _
    | exact Visitor.Keeps.pure_free _ _
    | exact Visitor.Keeps.pure_term _ _
    | exact Visitor.Keeps.pure_freeList _ _
    | exact Visitor.Keeps.pure_symbol _ _
    | exact Visitor.Keeps.pure_some _ _
    | exact Visitor.Keeps.pure_none _
    | exact Visitor.Keeps.pure_top _ _
    | exact Visitor.Keeps.read_block _
    | exact Visitor.Keeps.read_breakDest _
    | exact Visitor.Keeps.read_continueDest _
    | (refine Visitor.Keeps.read_free _ _ (fun _ => ?_); simp; done)
    | (refine Visitor.Keeps.read_freeList _ _ (fun _ => ?_); simp [smt.Expression.predicatesOfAll_map_free]; done)
    | (refine Visitor.Keeps.read_freeList _ _ (fun _ => ?_); split <;> simp [smt.Expression.predicatesOfAll_map_free]; done)
    | exact Visitor.Keeps.read_top _ _
    | exact Visitor.Keeps.deref_genesis _ _
    | exact Visitor.Keeps.deref_interface _ _
    | exact Visitor.Keeps.deref_error _ _
    | exact Visitor.Keeps.deref_constructor _ _
    | exact Visitor.Keeps.deref_breakDest _ _
    | exact Visitor.Keeps.deref_continueDest _ _
    | exact Visitor.Keeps.deref_summary _ _ _
    | exact Visitor.Keeps.deref_top _ _ _
    | exact Visitor.Keeps.update_frame _ _ (fun _ => ⟨rfl, rfl, rfl, rfl, rfl, rfl, rfl, rfl, rfl, rfl, rfl⟩)
    | (refine Visitor.Keeps.update_frame _ _ (fun _ => ⟨rfl, rfl, ?_, rfl, rfl, rfl, rfl, rfl, rfl, rfl, rfl⟩); simp; done)
    | exact Visitor.Keeps.update_popSolver _
    | exact Visitor.Keeps.update_pushSolver _
    | exact Visitor.Keeps.update_resetContext _
    | exact Visitor.Keeps.update_clearContext _
    | exact Visitor.Keeps.update_enterFunction _
    | exact Visitor.Keeps.keeps_addAssertion _ _
    | (refine Visitor.Keeps.addAssertion_free _ _ (fun _ => ?_); simp; done)
    | exact Visitor.Keeps.keeps_setZeroValue _ _
    | exact Visitor.Keeps.update_block _ _
    | exact Visitor.Keeps.update_genesisPredicate _ _
    | exact Visitor.Keeps.update_interfacePredicate _ _
    | exact Visitor.Keeps.update_errorPredicate _ _
    | exact Visitor.Keeps.update_constructorPredicate _ _
    | exact Visitor.Keeps.update_breakDest_some _ _
    | exact Visitor.Keeps.update_continueDest_some _ _
    | exact Visitor.Keeps.update_breakDest _ _
    | exact Visitor.Keeps.update_continueDest _ _
    | exact Visitor.Keeps.update_continueDest_post _ _ _
    | exact Visitor.Keeps.update_summaries _ _ _
    | apply Visitor.Keeps.keeps_forEach
    | intro _
    | split
    | (show Visitor.Keeps _ _ _ _ (fun _ => Known.top); split)
    | dsimp only)

theorem CHC.stateVariablesAtIndex_inv {b : Bool} (K : Known) (i : Nat) :
    Visitor.Keeps b b K (CHC.stateVariablesAtIndex i) Known.ofFreeList := by
  unfold CHC.stateVariablesAtIndex
  repeat' (first
    | with_reducible exact CHC.connectBlocks_inv _ _ _ _
    | with_reducible exact CHC.createSymbolicBlock_inv _ _ _
    | with_reducible exact CHC.createErrorBlock_inv _
    | with_reducible exact CHC.query_inv _ _ _
    | with_reducible exact CHC.reset_inv _
    | with_reducible exact CHC.uniquePrefix_inv _
    | exact Visitor.Keeps.keeps_defineExpr _ _ _
    | exact Visitor.Keeps.keeps_assignment _ _ _
    | apply Visitor.Keeps.same_bind
    | apply Visitor.Keeps.keeps_bind
    | exact Visitor.Keeps.keeps_solAssert _ _ _
    | exact Visitor.Keeps.pure_block _ _
    | exact Visitor.Keeps.pure_free _ _
    | exact Visitor.Keeps.pure_term _ _
    | exact Visitor.Keeps.pure_freeList _ _
    | exact Visitor.Keeps.pure_symbol _ _
    | exact Visitor.Keeps.pure_some _ _
    | exact Visitor.Keeps.pure_none _
    | exact Visitor.Keeps.pure_top _ _
    | exact Visitor.Keeps.read_block _
    | exact Visitor.Keeps.read_breakDest _
    | exact Visitor.Keeps.read_continueDest _
    | (refine Visitor.Keeps.read_free _ _ (fun _ => ?_); simp; done)
    | (refine Visitor.Keeps.read_freeList _ _ (fun _ => ?_); simp [smt.Expression.predicatesOfAll_map_free]; done)
    | (refine Visitor.Keeps.read_freeList _ _ (fun _ => ?_); split <;> simp [smt.Expression.predicatesOfAll_map_free]; done)
    | exact Visitor.Keeps.read_top _ _
    | exact Visitor.Keeps.deref_genesis _ _
    | exact Visitor.Keeps.deref_interface _ _
    | exact Visitor.Keeps.deref_error _ _
    | exact Visitor.Keeps.deref_constructor _ _
    | exact Visitor.Keeps.deref_breakDest _ _
    | exact Visitor.Keeps.deref_continueDest _ _
    | exact Visitor.Keeps.deref_summary _ _ _
    | exact Visitor.Keeps.deref_top _ _ _
    | exact Visitor.Keeps.update_frame _ _ (fun _ => ⟨rfl, rfl, rfl, rfl, rfl, rfl, rfl, rfl, rfl, rfl, rfl⟩)
    | (refine Visitor.Keeps.update_frame _ _ (fun _ => ⟨rfl, rfl, ?_, rfl, rfl, rfl, rfl, rfl, rfl, rfl, rfl⟩); simp; done)
    | exact Visitor.Keeps.update_popSolver _
    | exact Visitor.Keeps.update_pushSolver _
    | exact Visitor.Keeps.update_resetContext _
    | exact Visitor.Keeps.update_clearContext _
    | exact Visitor.Keeps.update_enterFunction _
    | exact Visitor.Keeps.keeps_addAssertion _ _
    | (refine Visitor.Keeps.addAssertion_free _ _ (fun _ => ?_); simp; done)
    | exact Visitor.Keeps.keeps_setZeroValue _ _
    | exact Visitor.Keeps.update_block _ _
    | exact Visitor.Keeps.update_genesisPredicate _ _
    | exact Visitor.Keeps.update_interfacePredicate _ _
    | exact Visitor.Keeps.update_errorPredicate _ _
    | exact Visitor.Keeps.update_constructorPredicate _ _
    | exact Visitor.Keeps.update_breakDest_some _ _
    | exact Visitor.Keeps.update_continueDest_some _ _
    | exact Visitor.Keeps.update_breakDest _ _
    | exact Visitor.Keeps.update_continueDest _ _
    | exact Visitor.Keeps.update_continueDest_post _ _ _
    | exact Visitor.Keeps.update_summaries _ _ _
    | apply Visitor.Keeps.keeps_forEach
    | intro _
    | split
    | (show Visitor.Keeps _ _ _ _ (fun _ => Known.top); split)
    | dsimp only)

theorem CHC.initialStateVariables_inv {b : Bool} (K : Known) :
    Visitor.Keeps b b K CHC.initialStateVariables Known.ofFreeList := by
  unfold CHC.initialStateVariables
  repeat' (first
    | with_reducible exact CHC.stateVariablesAtIndex_inv _ _
    | with_reducible exact CHC.connectBlocks_inv _ _ _ _
    | with_reducible exact CHC.createSymbolicBlock_inv _ _ _
    | with_reducible exact CHC.createErrorBlock_inv _
    | with_reducible exact CHC.query_inv _ _ _
    | with_reducible exact CHC.reset_inv _
    | with_reducible exact CHC.uniquePrefix_inv _
    | exact Visitor.Keeps.keeps_defineExpr _ _ _
    | exact Visitor.Keeps.keeps_assignment _ _ _
    | apply Visitor.Keeps.same_bind
    | apply Visitor.Keeps.keeps_bind
    | exact Visitor.Keeps.keeps_solAssert _ _ _
    | exact Visitor.Keeps.pure_block _ _
    | exact Visitor.Keeps.pure_free _ _
    | exact Visitor.Keeps.pure_term _ _
    | exact Visitor.Keeps.pure_freeList _ _
    | exact Visitor.Keeps.pure_symbol _ _
    | exact Visitor.Keeps.pure_some _ _
    | exact Visitor.Keeps.pure_none _
    | exact Visitor.Keeps.pure_top _ _
    | exact Visitor.Keeps.read_block _
    | exact Visitor.Keeps.read_breakDest _
    | exact Visitor.Keeps.read_continueDest _
    | (refine Visitor.Keeps.read_free _ _ (fun _ => ?_); simp; done)
    | (refine Visitor.Keeps.read_freeList _ _ (fun _ => ?_); simp [smt.Expression.predicatesOfAll_map_free]; done)
    | (refine Visitor.Keeps.read_freeList _ _ (fun _ => ?_); split <;> simp [smt.Expression.predicatesOfAll_map_free]; done)
    | exact Visitor.Keeps.read_top _ _
    | exact Visitor.Keeps.deref_genesis _ _
    | exact Visitor.Keeps.deref_interface _ _
    | exact Visitor.Keeps.deref_error _ _
    | exact Visitor.Keeps.deref_constructor _ _
    | exact Visitor.Keeps.deref_breakDest _ _
    | exact Visitor.Keeps.deref_continueDest _ _
    | exact Visitor.Keeps.deref_summary _ _ _
    | exact Visitor.Keeps.deref_top _ _ _
    | exact Visitor.Keeps.update_frame _ _ (fun _ => ⟨rfl, rfl, rfl, rfl, rfl, rfl, rfl, rfl, rfl, rfl, rfl⟩)
    | (refine Visitor.Keeps.update_frame _ _ (fun _ => ⟨rfl, rfl, ?_, rfl, rfl, rfl, rfl, rfl, rfl, rfl, rfl⟩); simp; done)
    | exact Visitor.Keeps.update_popSolver _
    | exact Visitor.Keeps.update_pushSolver _
    | exact Visitor.Keeps.update_resetContext _
    | exact Visitor.Keeps.update_clearContext _
    | exact Visitor.Keeps.update_enterFunction _
    | exact Visitor.Keeps.keeps_addAssertion _ _
    | (refine Visitor.Keeps.addAssertion_free _ _ (fun _ => ?_); simp; done)
    | exact Visitor.Keeps.keeps_setZeroValue _ _
    | exact Visitor.Keeps.update_block _ _
    | exact Visitor.Keeps.update_genesisPredicate _ _
    | exact Visitor.Keeps.update_interfacePredicate _ _
    | exact Visitor.Keeps.update_errorPredicate _ _
    | exact Visitor.Keeps.update_constructorPredicate _ _
    | exact Visitor.Keeps.update_breakDest_some _ _
    | exact Visitor.Keeps.update_continueDest_some _ _
    | exact Visitor.Keeps.update_breakDest _ _
    | exact Visitor.Keeps.update_continueDest _ _
    | exact Visitor.Keeps.update_continueDest_post _ _ _
    | exact Visitor.Keeps.update_summaries _ _ _
    | apply Visitor.Keeps.keeps_forEach
    | intro _
    | split
    | (show Visitor.Keeps _ _ _ _ (fun _ => Known.top); split)
    | dsimp only)

theorem CHC.currentStateVariables_inv {b : Bool} (K : Known) :
    Visitor.Keeps b b K CHC.currentStateVariables Known.ofFreeList := by
  unfold CHC.currentStateVariables
  repeat' (first
    | with_reducible exact CHC.connectBlocks_inv _ _ _ _
    | with_reducible exact CHC.createSymbolicBlock_inv _ _ _
    | with_reducible exact CHC.createErrorBlock_inv _
    | with_reducible exact CHC.query_inv _ _ _
    | with_reducible exact CHC.reset_inv _
    | with_reducible exact CHC.uniquePrefix_inv _
    | exact Visitor.Keeps.keeps_defineExpr _ _ _
    | exact Visitor.Keeps.keeps_assignment _ _ _
    | apply Visitor.Keeps.same_bind
    | apply Visitor.Keeps.keeps_bind
    | exact Visitor.Keeps.keeps_solAssert _ _ _
    | exact Visitor.Keeps.pure_block _ _
    | exact Visitor.Keeps.pure_free _ _
    | exact Visitor.Keeps.pure_term _ _
    | exact Visitor.Keeps.pure_freeList _ _
    | exact Visitor.Keeps.pure_symbol _ _
    | exact Visitor.Keeps.pure_some _ _
    | exact Visitor.Keeps.pure_none _
    | exact Visitor.Keeps.pure_top _ _
    | exact Visitor.Keeps.read_block _
    | exact Visitor.Keeps.read_breakDest _
    | exact Visitor.Keeps.read_continueDest _
    | (refine Visitor.Keeps.read_free _ _ (fun _ => ?_); simp; done)
    | (refine Visitor.Keeps.read_freeList _ _ (fun _ => ?_); simp [smt.Expression.predicatesOfAll_map_free]; done)
    | (refine Visitor.Keeps.read_freeList _ _ (fun _ => ?_); split <;> simp [smt.Expression.predicatesOfAll_map_free]; done)
    | exact Visitor.Keeps.read_top _ _
    | exact Visitor.Keeps.deref_genesis _ _
    | exact Visitor.Keeps.deref_interface _ _
    | exact Visitor.Keeps.deref_error _ _
    | exact Visitor.Keeps.deref_constructor _ _
    | exact Visitor.Keeps.deref_breakDest _ _
    | exact Visitor.Keeps.deref_continueDest _ _
    | exact Visitor.Keeps.deref_summary _ _ _
    | exact Visitor.Keeps.deref_top _ _ _
    | exact Visitor.Keeps.update_frame _ _ (fun _ => ⟨rfl, rfl, rfl, rfl, rfl, rfl, rfl, rfl, rfl, rfl, rfl⟩)
    | (refine Visitor.Keeps.update_frame _ _ (fun _ => ⟨rfl, rfl, ?_, rfl, rfl, rfl, rfl, rfl, rfl, rfl, rfl⟩); simp; done)
    | exact Visitor.Keeps.update_popSolver _
    | exact Visitor.Keeps.update_pushSolver _
    | exact Visitor.Keeps.update_resetContext _
    | exact Visitor.Keeps.update_clearContext _
    | exact Visitor.Keeps.update_enterFunction _
    | exact Visitor.Keeps.keeps_addAssertion _ _
    | (refine Visitor.Keeps.addAssertion_free _ _ (fun _ => ?_); simp; done)
    | exact Visitor.Keeps.keeps_setZeroValue _ _
    | exact Visitor.Keeps.update_block _ _
    | exact Visitor.Keeps.update_genesisPredicate _ _
    | exact Visitor.Keeps.update_interfacePredicate _ _
    | exact Visitor.Keeps.update_errorPredicate _ _
    | exact Visitor.Keeps.update_constructorPredicate _ _
    | exact Visitor.Keeps.update_breakDest_some _ _
    | exact Visitor.Keeps.update_continueDest_some _ _
    | exact Visitor.Keeps.update_breakDest _ _
    | exact Visitor.Keeps.update_continueDest _ _
    | exact Visitor.Keeps.update_continueDest_post _ _ _
    | exact Visitor.Keeps.update_summaries _ _ _
    | apply Visitor.Keeps.keeps_forEach
    | intro _
    | split
    | (show Visitor.Keeps _ _ _ _ (fun _ => Known.top); split)
    | dsimp only)

theorem CHC.currentFunctionVariables_inv {b : Bool} (K : Known) :
    Visitor.Keeps b b K CHC.currentFunctionVariables Known.ofFreeList := by
  unfold CHC.currentFunctionVariables
  repeat' (first
    | with_reducible exact CHC.initialStateVariables_inv _
    | with_reducible exact CHC.currentStateVariables_inv _
    | with_reducible exact CHC.connectBlocks_inv _ _ _ _
    | with_reducible exact CHC.createSymbolicBlock_inv _ _ _
    | with_reducible exact CHC.createErrorBlock_inv _
    | with_reducible exact CHC.query_inv _ _ _
    | with_reducible exact CHC.reset_inv _
    | with_reducible exact CHC.uniquePrefix_inv _
    | exact Visitor.Keeps.keeps_defineExpr _ _ _
    | exact Visitor.Keeps.keeps_assignment _ _ _
    | apply Visitor.Keeps.same_bind
    | apply Visitor.Keeps.keeps_bind
    | exact Visitor.Keeps.keeps_solAssert _ _ _
    | exact Visitor.Keeps.pure_block _ _
    | exact Visitor.Keeps.pure_free _ _
    | exact Visitor.Keeps.pure_term _ _
    | exact Visitor.Keeps.pure_freeList _ _
    | exact Visitor.Keeps.pure_symbol _ _
    | exact Visitor.Keeps.pure_some _ _
    | exact Visitor.Keeps.pure_none _
    | exact Visitor.Keeps.pure_top _ _
    | exact Visitor.Keeps.read_block _
    | exact Visitor.Keeps.read_breakDest _
    | exact Visitor.Keeps.read_continueDest _
    | (refine Visitor.Keeps.read_free _ _ (fun _ => ?_); simp; done)
    | (refine Visitor.Keeps.read_freeList _ _ (fun _ => ?_); simp [smt.Expression.predicatesOfAll_map_free]; done)
    | (refine Visitor.Keeps.read_freeList _ _ (fun _ => ?_); split <;> simp [smt.Expression.predicatesOfAll_map_free]; done)
    | exact Visitor.Keeps.read_top _ _
    | exact Visitor.Keeps.deref_genesis _ _
    | exact Visitor.Keeps.deref_interface _ _
    | exact Visitor.Keeps.deref_error _ _
    | exact Visitor.Keeps.deref_constructor _ _
    | exact Visitor.Keeps.deref_breakDest _ _
    | exact Visitor.Keeps.deref_continueDest _ _
    | exact Visitor.Keeps.deref_summary _ _ _
    | exact Visitor.Keeps.deref_top _ _ _
    | exact Visitor.Keeps.update_frame _ _ (fun _ => ⟨rfl, rfl, rfl, rfl, rfl, rfl, rfl, rfl, rfl, rfl, rfl⟩)
    | (refine Visitor.Keeps.update_frame _ _ (fun _ => ⟨rfl, rfl, ?_, rfl, rfl, rfl, rfl, rfl, rfl, rfl, rfl⟩); simp; done)
    | exact Visitor.Keeps.update_popSolver _
    | exact Visitor.Keeps.update_pushSolver _
    | exact Visitor.Keeps.update_resetContext _
    | exact Visitor.Keeps.update_clearContext _
    | exact Visitor.Keeps.update_enterFunction _
    | exact Visitor.Keeps.keeps_addAssertion _ _
    | (refine Visitor.Keeps.addAssertion_free _ _ (fun _ => ?_); simp; done)
    | exact Visitor.Keeps.keeps_setZeroValue _ _
    | exact Visitor.Keeps.update_block _ _
    | exact Visitor.Keeps.update_genesisPredicate _ _
    | exact Visitor.Keeps.update_interfacePredicate _ _
    | exact Visitor.Keeps.update_errorPredicate _ _
    | exact Visitor.Keeps.update_constructorPredicate _ _
    | exact Visitor.Keeps.update_breakDest_some _ _
    | exact Visitor.Keeps.update_continueDest_some _ _
    | exact Visitor.Keeps.update_breakDest _ _
    | exact Visitor.Keeps.update_continueDest _ _
    | exact Visitor.Keeps.update_continueDest_post _ _ _
    | exact Visitor.Keeps.update_summaries _ _ _
    | apply Visitor.Keeps.keeps_forEach
    | intro _
    | split
    | (show Visitor.Keeps _ _ _ _ (fun _ => Known.top); split)
    | dsimp only)

theorem CHC.currentBlockVariables_inv {b : Bool} (K : Known) :
    Visitor.Keeps b b K CHC.currentBlockVariables Known.ofFreeList := by
  unfold CHC.currentBlockVariables
  repeat' (first
    | with_reducible exact CHC.currentFunctionVariables_inv _
    | with_reducible exact CHC.connectBlocks_inv _ _ _ _
    | with_reducible exact CHC.createSymbolicBlock_inv _ _ _
    | with_reducible exact CHC.createErrorBlock_inv _
    | with_reducible exact CHC.query_inv _ _ _
    | with_reducible exact CHC.reset_inv _
    | with_reducible exact CHC.uniquePrefix_inv _
    | exact Visitor.Keeps.keeps_defineExpr _ _ _
    | exact Visitor.Keeps.keeps_assignment _ _ _
    | apply Visitor.Keeps.same_bind
    | apply Visitor.Keeps.keeps_bind
    | exact Visitor.Keeps.keeps_solAssert _ _ _
    | exact Visitor.Keeps.pure_block _ _
    | exact Visitor.Keeps.pure_free _ _
    | exact Visitor.Keeps.pure_term _ _
    | exact Visitor.Keeps.pure_freeList _ _
    | exact Visitor.Keeps.pure_symbol _ _
    | exact Visitor.Keeps.pure_some _ _
    | exact Visitor.Keeps.pure_none _
    | exact Visitor.Keeps.pure_top _ _
    | exact Visitor.Keeps.read_block _
    | exact Visitor.Keeps.read_breakDest _
    | exact Visitor.Keeps.read_continueDest _
    | (refine Visitor.Keeps.read_free _ _ (fun _ => ?_); simp; done)
    | (refine Visitor.Keeps.read_freeList _ _ (fun _ => ?_); simp [smt.Expression.predicatesOfAll_map_free]; done)
    | (refine Visitor.Keeps.read_freeList _ _ (fun _ => ?_); split <;> simp [smt.Expression.predicatesOfAll_map_free]; done)
    | exact Visitor.Keeps.read_top _ _
    | exact Visitor.Keeps.deref_genesis _ _
    | exact Visitor.Keeps.deref_interface _ _
    | exact Visitor.Keeps.deref_error _ _
    | exact Visitor.Keeps.deref_constructor _ _
    | exact Visitor.Keeps.deref_breakDest _ _
    | exact Visitor.Keeps.deref_continueDest _ _
    | exact Visitor.Keeps.deref_summary _ _ _
    | exact Visitor.Keeps.deref_top _ _ _
    | exact Visitor.Keeps.update_frame _ _ (fun _ => ⟨rfl, rfl, rfl, rfl, rfl, rfl, rfl, rfl, rfl, rfl, rfl⟩)
    | (refine Visitor.Keeps.update_frame _ _ (fun _ => ⟨rfl, rfl, ?_, rfl, rfl, rfl, rfl, rfl, rfl, rfl, rfl⟩); simp; done)
    | exact Visitor.Keeps.update_popSolver _
    | exact Visitor.Keeps.update_pushSolver _
    | exact Visitor.Keeps.update_resetContext _
    | exact Visitor.Keeps.update_clearContext _
    | exact Visitor.Keeps.update_enterFunction _
    | exact Visitor.Keeps.keeps_addAssertion _ _
    | (refine Visitor.Keeps.addAssertion_free _ _ (fun _ => ?_); simp; done)
    | exact Visitor.Keeps.keeps_setZeroValue _ _
    | exact Visitor.Keeps.update_block _ _
    | exact Visitor.Keeps.update_genesisPredicate _ _
    | exact Visitor.Keeps.update_interfacePredicate _ _
    | exact Visitor.Keeps.update_errorPredicate _ _
    | exact Visitor.Keeps.update_constructorPredicate _ _
    | exact Visitor.Keeps.update_breakDest_some _ _
    | exact Visitor.Keeps.update_continueDest_some _ _
    | exact Visitor.Keeps.update_breakDest _ _
    | exact Visitor.Keeps.update_continueDest _ _
    | exact Visitor.Keeps.update_continueDest_post _ _ _
    | exact Visitor.Keeps.update_summaries _ _ _
    | apply Visitor.Keeps.keeps_forEach
    | intro _
    | split
    | (show Visitor.Keeps _ _ _ _ (fun _ => Known.top); split)
    | dsimp only)

theorem CHC.predicate_inv {b : Bool} (K : Known) (block : smt.SymbolicFunctionVariable)
    [Known.Entails K (Known.ofSymbol block)] :
    Visitor.Keeps b b K (CHC.predicate block) Known.ofBlock := by
  unfold CHC.predicate
  repeat' (first
    | with_reducible exact CHC.currentBlockVariables_inv _
    | with_reducible exact CHC.connectBlocks_inv _ _ _ _
    | with_reducible exact CHC.createSymbolicBlock_inv _ _ _
    | with_reducible exact CHC.createErrorBlock_inv _
    | with_reducible exact CHC.query_inv _ _ _
    | with_reducible exact CHC.reset_inv _
    | with_reducible exact CHC.uniquePrefix_inv _
    | exact Visitor.Keeps.keeps_defineExpr _ _ _
    | exact Visitor.Keeps.keeps_assignment _ _ _
    | apply Visitor.Keeps.same_bind
    | apply Visitor.Keeps.keeps_bind
    | exact Visitor.Keeps.keeps_solAssert _ _ _
    | exact Visitor.Keeps.pure_block _ _
    | exact Visitor.Keeps.pure_free _ _
    | exact Visitor.Keeps.pure_term _ _
    | exact Visitor.Keeps.pure_freeList _ _
    | exact Visitor.Keeps.pure_symbol _ _
    | exact Visitor.Keeps.pure_some _ _
    | exact Visitor.Keeps.pure_none _
    | exact Visitor.Keeps.pure_top _ _
    | exact Visitor.Keeps.read_block _
    | exact Visitor.Keeps.read_breakDest _
    | exact Visitor.Keeps.read_continueDest _
    | (refine Visitor.Keeps.read_free _ _ (fun _ => ?_); simp; done)
    | (refine Visitor.Keeps.read_freeList _ _ (fun _ => ?_); simp [smt.Expression.predicatesOfAll_map_free]; done)
    | (refine Visitor.Keeps.read_freeList _ _ (fun _ => ?_); split <;> simp [smt.Expression.predicatesOfAll_map_free]; done)
    | exact Visitor.Keeps.read_top _ _
    | exact Visitor.Keeps.deref_genesis _ _
    | exact Visitor.Keeps.deref_interface _ _
    | exact Visitor.Keeps.deref_error _ _
    | exact Visitor.Keeps.deref_constructor _ _
    | exact Visitor.Keeps.deref_breakDest _ _
    | exact Visitor.Keeps.deref_continueDest _ _
    | exact Visitor.Keeps.deref_summary _ _ _
    | exact Visitor.Keeps.deref_top _ _ _
    | exact Visitor.Keeps.update_frame _ _ (fun _ => ⟨rfl, rfl, rfl, rfl, rfl, rfl, rfl, rfl, rfl, rfl, rfl⟩)
    | (refine Visitor.Keeps.update_frame _ _ (fun _ => ⟨rfl, rfl, ?_, rfl, rfl, rfl, rfl, rfl, rfl, rfl, rfl⟩); simp; done)
    | exact Visitor.Keeps.update_popSolver _
    | exact Visitor.Keeps.update_pushSolver _
    | exact Visitor.Keeps.update_resetContext _
    | exact Visitor.Keeps.update_clearContext _
    | exact Visitor.Keeps.update_enterFunction _
    | exact Visitor.Keeps.keeps_addAssertion _ _
    | (refine Visitor.Keeps.addAssertion_free _ _ (fun _ => ?_); simp; done)
    | exact Visitor.Keeps.keeps_setZeroValue _ _
    | exact Visitor.Keeps.update_block _ _
    | exact Visitor.Keeps.update_genesisPredicate _ _
    | exact Visitor.Keeps.update_interfacePredicate _ _
    | exact Visitor.Keeps.update_errorPredicate _ _
    | exact Visitor.Keeps.update_constructorPredicate _ _
    | exact Visitor.Keeps.update_breakDest_some _ _
    | exact Visitor.Keeps.update_continueDest_some _ _
    | exact Visitor.Keeps.update_breakDest _ _
    | exact Visitor.Keeps.update_continueDest _ _
    | exact Visitor.Keeps.update_continueDest_post _ _ _
    | exact Visitor.Keeps.update_summaries _ _ _
    | apply Visitor.Keeps.keeps_forEach
    | intro _
    | split
    | (show Visitor.Keeps _ _ _ _ (fun _ => Known.top); split)
    | dsimp only)

theorem CHC.predicateWith_inv {b : Bool} (K : Known) (block : smt.SymbolicFunctionVariable)
    (arguments : List smt.Expression) [Known.Entails K (Known.ofSymbol block)]
    [Known.Entails K (Known.ofFreeList arguments)] :
    Visitor.Keeps b b K (CHC.predicateWith block arguments) Known.ofBlock := by
  unfold CHC.predicateWith
  repeat' (first
    | with_reducible exact CHC.connectBlocks_inv _ _ _ _
    | with_reducible exact CHC.createSymbolicBlock_inv _ _ _
    | with_reducible exact CHC.createErrorBlock_inv _
    | with_reducible exact CHC.query_inv _ _ _
    | with_reducible exact CHC.reset_inv _
    | with_reducible exact CHC.uniquePrefix_inv _
    | exact Visitor.Keeps.keeps_defineExpr _ _ _
    | exact Visitor.Keeps.keeps_assignment _ _ _
    | apply Visitor.Keeps.same_bind
    | apply Visitor.Keeps.keeps_bind
    | exact Visitor.Keeps.keeps_solAssert _ _ _
    | exact Visitor.Keeps.pure_block _ _
    | exact Visitor.Keeps.pure_free _ _
    | exact Visitor.Keeps.pure_term _ _
    | exact Visitor.Keeps.pure_freeList _ _
    | exact Visitor.Keeps.pure_symbol _ _
    | exact Visitor.Keeps.pure_some _ _
    | exact Visitor.Keeps.pure_none _
    | exact Visitor.Keeps.pure_top _ _
    | exact Visitor.Keeps.read_block _
    | exact Visitor.Keeps.read_breakDest _
    | exact Visitor.Keeps.read_continueDest _
    | (refine Visitor.Keeps.read_free _ _ (fun _ => ?_); simp; done)
    | (refine Visitor.Keeps.read_freeList _ _ (fun _ => ?_); simp [smt.Expression.predicatesOfAll_map_free]; done)
    | (refine Visitor.Keeps.read_freeList _ _ (fun _ => ?_); split <;> simp [smt.Expression.predicatesOfAll_map_free]; done)
    | exact Visitor.Keeps.read_top _ _
    | exact Visitor.Keeps.deref_genesis _ _
    | exact Visitor.Keeps.deref_interface _ _
    | exact Visitor.Keeps.deref_error _ _
    | exact Visitor.Keeps.deref_constructor _ _
    | exact Visitor.Keeps.deref_breakDest _ _
    | exact Visitor.Keeps.deref_continueDest _ _
    | exact Visitor.Keeps.deref_summary _ _ _
    | exact Visitor.Keeps.deref_top _ _ _
    | exact Visitor.Keeps.update_frame _ _ (fun _ => ⟨rfl, rfl, rfl, rfl, rfl, rfl, rfl, rfl, rfl, rfl, rfl⟩)
    | (refine Visitor.Keeps.update_frame _ _ (fun _ => ⟨rfl, rfl, ?_, rfl, rfl, rfl, rfl, rfl, rfl, rfl, rfl⟩); simp; done)
    | exact Visitor.Keeps.update_popSolver _
    | exact Visitor.Keeps.update_pushSolver _
    | exact Visitor.Keeps.update_resetContext _
    | exact Visitor.Keeps.update_clearContext _
    | exact Visitor.Keeps.update_enterFunction _
    | exact Visitor.Keeps.keeps_addAssertion _ _
    | (refine Visitor.Keeps.addAssertion_free _ _ (fun _ => ?_); simp; done)
    | exact Visitor.Keeps.keeps_setZeroValue _ _
    | exact Visitor.Keeps.update_block _ _
    | exact Visitor.Keeps.update_genesisPredicate _ _
    | exact Visitor.Keeps.update_interfacePredicate _ _
    | exact Visitor.Keeps.update_errorPredicate _ _
    | exact Visitor.Keeps.update_constructorPredicate _ _
    | exact Visitor.Keeps.update_breakDest_some _ _
    | exact Visitor.Keeps.update_continueDest_some _ _
    | exact Visitor.Keeps.update_breakDest _ _
    | exact Visitor.Keeps.update_continueDest _ _
    | exact Visitor.Keeps.update_continueDest_post _ _ _
    | exact Visitor.Keeps.update_summaries _ _ _
    | apply Visitor.Keeps.keeps_forEach
    | intro _
    | split
    | (show Visitor.Keeps _ _ _ _ (fun _ => Known.top); split)
    | dsimp only)

theorem CHC.genesis_inv {b : Bool} (K : Known) :
    Visitor.Keeps b b K CHC.genesis Known.ofBlock := by
  unfold CHC.genesis
  repeat' (first
    | with_reducible exact CHC.connectBlocks_inv _ _ _ _
    | with_reducible exact CHC.createSymbolicBlock_inv _ _ _
    | with_reducible exact CHC.createErrorBlock_inv _
    | with_reducible exact CHC.query_inv _ _ _
    | with_reducible exact CHC.reset_inv _
    | with_reducible exact CHC.uniquePrefix_inv _
    | exact Visitor.Keeps.keeps_defineExpr _ _ _
    | exact Visitor.Keeps.keeps_assignment _ _ _
    | apply Visitor.Keeps.same_bind
    | apply Visitor.Keeps.keeps_bind
    | exact Visitor.Keeps.keeps_solAssert _ _ _
    | exact Visitor.Keeps.pure_block _ _
    | exact Visitor.Keeps.pure_free _ _
    | exact Visitor.Keeps.pure_term _ _
    | exact Visitor.Keeps.pure_freeList _ _
    | exact Visitor.Keeps.pure_symbol _ _
    | exact Visitor.Keeps.pure_some _ _
    | exact Visitor.Keeps.pure_none _
    | exact Visitor.Keeps.pure_top _ _
    | exact Visitor.Keeps.read_block _
    | exact Visitor.Keeps.read_breakDest _
    | exact Visitor.Keeps.read_continueDest _
    | (refine Visitor.Keeps.read_free _ _ (fun _ => ?_); simp; done)
    | (refine Visitor.Keeps.read_freeList _ _ (fun _ => ?_); simp [smt.Expression.predicatesOfAll_map_free]; done)
    | (refine Visitor.Keeps.read_freeList _ _ (fun _ => ?_); split <;> simp [smt.Expression.predicatesOfAll_map_free]; done)
    | exact Visitor.Keeps.read_top _ _
    | exact Visitor.Keeps.deref_genesis _ _
    | exact Visitor.Keeps.deref_interface _ _
    | exact Visitor.Keeps.deref_error _ _
    | exact Visitor.Keeps.deref_constructor _ _
    | exact Visitor.Keeps.deref_breakDest _ _
    | exact Visitor.Keeps.deref_continueDest _ _
    | exact Visitor.Keeps.deref_summary _ _ _
    | exact Visitor.Keeps.deref_top _ _ _
    | exact Visitor.Keeps.update_frame _ _ (fun _ => ⟨rfl, rfl, rfl, rfl, rfl, rfl, rfl, rfl, rfl, rfl, rfl⟩)
    | (refine Visitor.Keeps.update_frame _ _ (fun _ => ⟨rfl, rfl, ?_, rfl, rfl, rfl, rfl, rfl, rfl, rfl, rfl⟩); simp; done)
    | exact Visitor.Keeps.update_popSolver _
    | exact Visitor.Keeps.update_pushSolver _
    | exact Visitor.Keeps.update_resetContext _
    | exact Visitor.Keeps.update_clearContext _
    | exact Visitor.Keeps.update_enterFunction _
    | exact Visitor.Keeps.keeps_addAssertion _ _
    | (refine Visitor.Keeps.addAssertion_free _ _ (fun _ => ?_); simp; done)
    | exact Visitor.Keeps.keeps_setZeroValue _ _
    | exact Visitor.Keeps.update_block _ _
    | exact Visitor.Keeps.update_genesisPredicate _ _
    | exact Visitor.Keeps.update_interfacePredicate _ _
    | exact Visitor.Keeps.update_errorPredicate _ _
    | exact Visitor.Keeps.update_constructorPredicate _ _
    | exact Visitor.Keeps.update_breakDest_some _ _
    | exact Visitor.Keeps.update_continueDest_some _ _
    | exact Visitor.Keeps.update_breakDest _ _
    | exact Visitor.Keeps.update_continueDest _ _
    | exact Visitor.Keeps.update_continueDest_post _ _ _
    | exact Visitor.Keeps.update_summaries _ _ _
    | apply Visitor.Keeps.keeps_forEach
    | intro _
    | split
    | (show Visitor.Keeps _ _ _ _ (fun _ => Known.top); split)
    | dsimp only)

theorem CHC.interface_inv {b : Bool} (K : Known) :
    Visitor.Keeps b b K CHC.interface Known.ofBlock := by
  unfold CHC.interface
  repeat' (first
    | with_reducible exact CHC.connectBlocks_inv _ _ _ _
    | with_reducible exact CHC.createSymbolicBlock_inv _ _ _
    | with_reducible exact CHC.createErrorBlock_inv _
    | with_reducible exact CHC.query_inv _ _ _
    | with_reducible exact CHC.reset_inv _
    | with_reducible exact CHC.uniquePrefix_inv _
    | exact Visitor.Keeps.keeps_defineExpr _ _ _
    | exact Visitor.Keeps.keeps_assignment _ _ _
    | apply Visitor.Keeps.same_bind
    | apply Visitor.Keeps.keeps_bind
    | exact Visitor.Keeps.keeps_solAssert _ _ _
    | exact Visitor.Keeps.pure_block _ _
    | exact Visitor.Keeps.pure_free _ _
    | exact Visitor.Keeps.pure_term _ _
    | exact Visitor.Keeps.pure_freeList _ _
    | exact Visitor.Keeps.pure_symbol _ _
    | exact Visitor.Keeps.pure_some _ _
    | exact Visitor.Keeps.pure_none _
    | exact Visitor.Keeps.pure_top _ _
    | exact Visitor.Keeps.read_block _
    | exact Visitor.Keeps.read_breakDest _
    | exact Visitor.Keeps.read_continueDest _
    | (refine Visitor.Keeps.read_free _ _ (fun _ => ?_); simp; done)
    | (refine Visitor.Keeps.read_freeList _ _ (fun _ => ?_); simp [smt.Expression.predicatesOfAll_map_free]; done)
    | (refine Visitor.Keeps.read_freeList _ _ (fun _ => ?_); split <;> simp [smt.Expression.predicatesOfAll_map_free]; done)
    | exact Visitor.Keeps.read_top _ _
    | exact Visitor.Keeps.deref_genesis _ _
    | exact Visitor.Keeps.deref_interface _ _
    | exact Visitor.Keeps.deref_error _ _
    | exact Visitor.Keeps.deref_constructor _ _
    | exact Visitor.Keeps.deref_breakDest _ _
    | exact Visitor.Keeps.deref_continueDest _ _
    | exact Visitor.Keeps.deref_summary _ _ _
    | exact Visitor.Keeps.deref_top _ _ _
    | exact Visitor.Keeps.update_frame _ _ (fun _ => ⟨rfl, rfl, rfl, rfl, rfl, rfl, rfl, rfl, rfl, rfl, rfl⟩)
    | (refine Visitor.Keeps.update_frame _ _ (fun _ => ⟨rfl, rfl, ?_, rfl, rfl, rfl, rfl, rfl, rfl, rfl, rfl⟩); simp; done)
    | exact Visitor.Keeps.update_popSolver _
    | exact Visitor.Keeps.update_pushSolver _
    | exact Visitor.Keeps.update_resetContext _
    | exact Visitor.Keeps.update_clearContext _
    | exact Visitor.Keeps.update_enterFunction _
    | exact Visitor.Keeps.keeps_addAssertion _ _
    | (refine Visitor.Keeps.addAssertion_free _ _ (fun _ => ?_); simp; done)
    | exact Visitor.Keeps.keeps_setZeroValue _ _
    | exact Visitor.Keeps.update_block _ _
    | exact Visitor.Keeps.update_genesisPredicate _ _
    | exact Visitor.Keeps.update_interfacePredicate _ _
    | exact Visitor.Keeps.update_errorPredicate _ _
    | exact Visitor.Keeps.update_constructorPredicate _ _
    | exact Visitor.Keeps.update_breakDest_some _ _
    | exact Visitor.Keeps.update_continueDest_some _ _
    | exact Visitor.Keeps.update_breakDest _ _
    | exact Visitor.Keeps.update_continueDest _ _
    | exact Visitor.Keeps.update_continueDest_post _ _ _
    | exact Visitor.Keeps.update_summaries _ _ _
    | apply Visitor.Keeps.keeps_forEach
    | intro _
    | split
    | (show Visitor.Keeps _ _ _ _ (fun _ => Known.top); split)
    | dsimp only)

theorem CHC.error_inv {b : Bool} (K : Known) :
    Visitor.Keeps b b K CHC.error Known.ofBlock := by
  unfold CHC.error
  repeat' (first
    | with_reducible exact CHC.connectBlocks_inv _ _ _ _
    | with_reducible exact CHC.createSymbolicBlock_inv _ _ _
    | with_reducible exact CHC.createErrorBlock_inv _
    | with_reducible exact CHC.query_inv _ _ _
    | with_reducible exact CHC.reset_inv _
    | with_reducible exact CHC.uniquePrefix_inv _
    | exact Visitor.Keeps.keeps_defineExpr _ _ _
    | exact Visitor.Keeps.keeps_assignment _ _ _
    | apply Visitor.Keeps.same_bind
    | apply Visitor.Keeps.keeps_bind
    | exact Visitor.Keeps.keeps_solAssert _ _ _
    | exact Visitor.Keeps.pure_block _ _
    | exact Visitor.Keeps.pure_free _ _
    | exact Visitor.Keeps.pure_term _ _
    | exact Visitor.Keeps.pure_freeList _ _
    | exact Visitor.Keeps.pure_symbol _ _
    | exact Visitor.Keeps.pure_some _ _
    | exact Visitor.Keeps.pure_none _
    | exact Visitor.Keeps.pure_top _ _
    | exact Visitor.Keeps.read_block _
    | exact Visitor.Keeps.read_breakDest _
    | exact Visitor.Keeps.read_continueDest _
    | (refine Visitor.Keeps.read_free _ _ (fun _ => ?_); simp; done)
    | (refine Visitor.Keeps.read_freeList _ _ (fun _ => ?_); simp [smt.Expression.predicatesOfAll_map_free]; done)
    | (refine Visitor.Keeps.read_freeList _ _ (fun _ => ?_); split <;> simp [smt.Expression.predicatesOfAll_map_free]; done)
    | exact Visitor.Keeps.read_top _ _
    | exact Visitor.Keeps.deref_genesis _ _
    | exact Visitor.Keeps.deref_interface _ _
    | exact Visitor.Keeps.deref_error _ _
    | exact Visitor.Keeps.deref_constructor _ _
    | exact Visitor.Keeps.deref_breakDest _ _
    | exact Visitor.Keeps.deref_continueDest _ _
    | exact Visitor.Keeps.deref_summary _ _ _
    | exact Visitor.Keeps.deref_top _ _ _
    | exact Visitor.Keeps.update_frame _ _ (fun _ => ⟨rfl, rfl, rfl, rfl, rfl, rfl, rfl, rfl, rfl, rfl, rfl⟩)
    | (refine Visitor.Keeps.update_frame _ _ (fun _ => ⟨rfl, rfl, ?_, rfl, rfl, rfl, rfl, rfl, rfl, rfl, rfl⟩); simp; done)
    | exact Visitor.Keeps.update_popSolver _
    | exact Visitor.Keeps.update_pushSolver _
    | exact Visitor.Keeps.update_resetContext _
    | exact Visitor.Keeps.update_clearContext _
    | exact Visitor.Keeps.update_enterFunction _
    | exact Visitor.Keeps.keeps_addAssertion _ _
    | (refine Visitor.Keeps.addAssertion_free _ _ (fun _ => ?_); simp; done)
    | exact Visitor.Keeps.keeps_setZeroValue _ _
    | exact Visitor.Keeps.update_block _ _
    | exact Visitor.Keeps.update_genesisPredicate _ _
    | exact Visitor.Keeps.update_interfacePredicate _ _
    | exact Visitor.Keeps.update_errorPredicate _ _
    | exact Visitor.Keeps.update_constructorPredicate _ _
    | exact Visitor.Keeps.update_breakDest_some _ _
    | exact Visitor.Keeps.update_continueDest_some _ _
    | exact Visitor.Keeps.update_breakDest _ _
    | exact Visitor.Keeps.update_continueDest _ _
    | exact Visitor.Keeps.update_continueDest_post _ _ _
    | exact Visitor.Keeps.update_summaries _ _ _
    | apply Visitor.Keeps.keeps_forEach
    | intro _
    | split
    | (show Visitor.Keeps _ _ _ _ (fun _ => Known.top); split)
    | dsimp only)

theorem CHC.summary_inv {b : Bool} (K : Known) (f : FunctionDefinition) :
    Visitor.Keeps b b K (CHC.summary f) Known.ofBlock := by
  unfold CHC.summary
  repeat' (first
    | with_reducible exact CHC.initialStateVariables_inv _
    | with_reducible exact CHC.currentStateVariables_inv _
    | with_reducible exact CHC.connectBlocks_inv _ _ _ _
    | with_reducible exact CHC.createSymbolicBlock_inv _ _ _
    | with_reducible exact CHC.createErrorBlock_inv _
    | with_reducible exact CHC.query_inv _ _ _
    | with_reducible exact CHC.reset_inv _
    | with_reducible exact CHC.uniquePrefix_inv _
    | exact Visitor.Keeps.keeps_defineExpr _ _ _
    | exact Visitor.Keeps.keeps_assignment _ _ _
    | apply Visitor.Keeps.same_bind
    | apply Visitor.Keeps.keeps_bind
    | exact Visitor.Keeps.keeps_solAssert _ _ _
    | exact Visitor.Keeps.pure_block _ _
    | exact Visitor.Keeps.pure_free _ _
    | exact Visitor.Keeps.pure_term _ _
    | exact Visitor.Keeps.pure_freeList _ _
    | exact Visitor.Keeps.pure_symbol _ _
    | exact Visitor.Keeps.pure_some _ _
    | exact Visitor.Keeps.pure_none _
    | exact Visitor.Keeps.pure_top _ _
    | exact Visitor.Keeps.read_block _
    | exact Visitor.Keeps.read_breakDest _
    | exact Visitor.Keeps.read_continueDest _
    | (refine Visitor.Keeps.read_free _ _ (fun _ => ?_); simp; done)
    | (refine Visitor.Keeps.read_freeList _ _ (fun _ => ?_); simp [smt.Expression.predicatesOfAll_map_free]; done)
    | (refine Visitor.Keeps.read_freeList _ _ (fun _ => ?_); split <;> simp [smt.Expression.predicatesOfAll_map_free]; done)
    | exact Visitor.Keeps.read_top _ _
    | exact Visitor.Keeps.deref_genesis _ _
    | exact Visitor.Keeps.deref_interface _ _
    | exact Visitor.Keeps.deref_error _ _
    | exact Visitor.Keeps.deref_constructor _ _
    | exact Visitor.Keeps.deref_breakDest _ _
    | exact Visitor.Keeps.deref_continueDest _ _
    | exact Visitor.Keeps.deref_summary _ _ _
    | exact Visitor.Keeps.deref_top _ _ _
    | exact Visitor.Keeps.update_frame _ _ (fun _ => ⟨rfl, rfl, rfl, rfl, rfl, rfl, rfl, rfl, rfl, rfl, rfl⟩)
    | (refine Visitor.Keeps.update_frame _ _ (fun _ => ⟨rfl, rfl, ?_, rfl, rfl, rfl, rfl, rfl, rfl, rfl, rfl⟩); simp; done)
    | exact Visitor.Keeps.update_popSolver _
    | exact Visitor.Keeps.update_pushSolver _
    | exact Visitor.Keeps.update_resetContext _
    | exact Visitor.Keeps.update_clearContext _
    | exact Visitor.Keeps.update_enterFunction _
    | exact Visitor.Keeps.keeps_addAssertion _ _
    | (refine Visitor.Keeps.addAssertion_free _ _ (fun _ => ?_); simp; done)
    | exact Visitor.Keeps.keeps_setZeroValue _ _
    | exact Visitor.Keeps.update_block _ _
    | exact Visitor.Keeps.update_genesisPredicate _ _
    | exact Visitor.Keeps.update_interfacePredicate _ _
    | exact Visitor.Keeps.update_errorPredicate _ _
    | exact Visitor.Keeps.update_constructorPredicate _ _
    | exact Visitor.Keeps.update_breakDest_some _ _
    | exact Visitor.Keeps.update_continueDest_some _ _
    | exact Visitor.Keeps.update_breakDest _ _
    | exact Visitor.Keeps.update_continueDest _ _
    | exact Visitor.Keeps.update_continueDest_post _ _ _
    | exact Visitor.Keeps.update_summaries _ _ _
    | apply Visitor.Keeps.keeps_forEach
    | intro _
    | split
    | (show Visitor.Keeps _ _ _ _ (fun _ => Known.top); split)
    | dsimp only)

theorem CHC.interfaceSort_inv {b : Bool} (K : Known) :
    Visitor.Keeps b b K CHC.interfaceSort (fun _ => Known.top) := by
  unfold CHC.interfaceSort
  repeat' (first
    | with_reducible exact CHC.connectBlocks_inv _ _ _ _
    | with_reducible exact CHC.createSymbolicBlock_inv _ _ _
    | with_reducible exact CHC.createErrorBlock_inv _
    | with_reducible exact CHC.query_inv _ _ _
    | with_reducible exact CHC.reset_inv _
    | with_reducible exact CHC.uniquePrefix_inv _
    | exact Visitor.Keeps.keeps_defineExpr _ _ _
    | exact Visitor.Keeps.keeps_assignment _ _ _
    | apply Visitor.Keeps.same_bind
    | apply Visitor.Keeps.keeps_bind
    | exact Visitor.Keeps.keeps_solAssert _ _ _
    | exact Visitor.Keeps.pure_block _ _
    | exact Visitor.Keeps.pure_free _ _
    | exact Visitor.Keeps.pure_term _ _
    | exact Visitor.Keeps.pure_freeList _ _
    | exact Visitor.Keeps.pure_symbol _ _
    | exact Visitor.Keeps.pure_some _ _
    | exact Visitor.Keeps.pure_none _
    | exact Visitor.Keeps.pure_top _ _
    | exact Visitor.Keeps.read_block _
    | exact Visitor.Keeps.read_breakDest _
    | exact Visitor.Keeps.read_continueDest _
    | (refine Visitor.Keeps.read_free _ _ (fun _ => ?_); simp; done)
    | (refine Visitor.Keeps.read_freeList _ _ (fun _ => ?_); simp [smt.Expression.predicatesOfAll_map_free]; done)
    | (refine Visitor.Keeps.read_freeList _ _ (fun _ => ?_); split <;> simp [smt.Expression.predicatesOfAll_map_free]; done)
    | exact Visitor.Keeps.read_top _ _
    | exact Visitor.Keeps.deref_genesis _ _
    | exact Visitor.Keeps.deref_interface _ _
    | exact Visitor.Keeps.deref_error _ _
    | exact Visitor.Keeps.deref_constructor _ _
    | exact Visitor.Keeps.deref_breakDest _ _
    | exact Visitor.Keeps.deref_continueDest _ _
    | exact Visitor.Keeps.deref_summary _ _ _
    | exact Visitor.Keeps.deref_top _ _ _
    | exact Visitor.Keeps.update_frame _ _ (fun _ => ⟨rfl, rfl, rfl, rfl, rfl, rfl, rfl, rfl, rfl, rfl, rfl⟩)
    | (refine Visitor.Keeps.update_frame _ _ (fun _ => ⟨rfl, rfl, ?_, rfl, rfl, rfl, rfl, rfl, rfl, rfl, rfl⟩); simp; done)
    | exact Visitor.Keeps.update_popSolver _
    | exact Visitor.Keeps.update_pushSolver _
    | exact Visitor.Keeps.update_resetContext _
    | exact Visitor.Keeps.update_clearContext _
    | exact Visitor.Keeps.update_enterFunction _
    | exact Visitor.Keeps.keeps_addAssertion _ _
    | (refine Visitor.Keeps.addAssertion_free _ _ (fun _ => ?_); simp; done)
    | exact Visitor.Keeps.keeps_setZeroValue _ _
    | exact Visitor.Keeps.update_block _ _
    | exact Visitor.Keeps.update_genesisPredicate _ _
    | exact Visitor.Keeps.update_interfacePredicate _ _
    | exact Visitor.Keeps.update_errorPredicate _ _
    | exact Visitor.Keeps.update_constructorPredicate _ _
    | exact Visitor.Keeps.update_breakDest_some _ _
    | exact Visitor.Keeps.update_continueDest_some _ _
    | exact Visitor.Keeps.update_breakDest _ _
    | exact Visitor.Keeps.update_continueDest _ _
    | exact Visitor.Keeps.update_continueDest_post _ _ _
    | exact Visitor.Keeps.update_summaries _ _ _
    | apply Visitor.Keeps.keeps_forEach
    | intro _
    | split
    | (show Visitor.Keeps _ _ _ _ (fun _ => Known.top); split)
    | dsimp only)

theorem CHC.constructorSort_inv {b : Bool} (K : Known) :
    Visitor.Keeps b b K CHC.constructorSort (fun _ => Known.top) := by
  unfold CHC.constructorSort
  repeat' (first
    | with_reducible exact CHC.interfaceSort_inv _
    | with_reducible exact CHC.connectBlocks_inv _ _ _ _
    | with_reducible exact CHC.createSymbolicBlock_inv _ _ _
    | with_reducible exact CHC.createErrorBlock_inv _
    | with_reducible exact CHC.query_inv _ _ _
    | with_reducible exact CHC.reset_inv _
    | with_reducible exact CHC.uniquePrefix_inv _
    | exact Visitor.Keeps.keeps_defineExpr _ _ _
    | exact Visitor.Keeps.keeps_assignment _ _ _
    | apply Visitor.Keeps.same_bind
    | apply Visitor.Keeps.keeps_bind
    | exact Visitor.Keeps.keeps_solAssert _ _ _
    | exact Visitor.Keeps.pure_block _ _
    | exact Visitor.Keeps.pure_free _ _
    | exact Visitor.Keeps.pure_term _ _
    | exact Visitor.Keeps.pure_freeList _ _
    | exact Visitor.Keeps.pure_symbol _ _
    | exact Visitor.Keeps.pure_some _ _
    | exact Visitor.Keeps.pure_none _
    | exact Visitor.Keeps.pure_top _ _
    | exact Visitor.Keeps.read_block _
    | exact Visitor.Keeps.read_breakDest _
    | exact Visitor.Keeps.read_continueDest _
    | (refine Visitor.Keeps.read_free _ _ (fun _ => ?_); simp; done)
    | (refine Visitor.Keeps.read_freeList _ _ (fun _ => ?_); simp [smt.Expression.predicatesOfAll_map_free]; done)
    | (refine Visitor.Keeps.read_freeList _ _ (fun _ => ?_); split <;> simp [smt.Expression.predicatesOfAll_map_free]; done)
    | exact Visitor.Keeps.read_top _ _
    | exact Visitor.Keeps.deref_genesis _ _
    | exact Visitor.Keeps.deref_interface _ _
    | exact Visitor.Keeps.deref_error _ _
    | exact Visitor.Keeps.deref_constructor _ _
    | exact Visitor.Keeps.deref_breakDest _ _
    | exact Visitor.Keeps.deref_continueDest _ _
    | exact Visitor.Keeps.deref_summary _ _ _
    | exact Visitor.Keeps.deref_top _ _ _
    | exact Visitor.Keeps.update_frame _ _ (fun _ => ⟨rfl, rfl, rfl, rfl, rfl, rfl, rfl, rfl, rfl, rfl, rfl⟩)
    | (refine Visitor.Keeps.update_frame _ _ (fun _ => ⟨rfl, rfl, ?_, rfl, rfl, rfl, rfl, rfl, rfl, rfl, rfl⟩); simp; done)
    | exact Visitor.Keeps.update_popSolver _
    | exact Visitor.Keeps.update_pushSolver _
    | exact Visitor.Keeps.update_resetContext _
    | exact Visitor.Keeps.update_clearContext _
    | exact Visitor.Keeps.update_enterFunction _
    | exact Visitor.Keeps.keeps_addAssertion _ _
    | (refine Visitor.Keeps.addAssertion_free _ _ (fun _ => ?_); simp; done)
    | exact Visitor.Keeps.keeps_setZeroValue _ _
    | exact Visitor.Keeps.update_block _ _
    | exact Visitor.Keeps.update_genesisPredicate _ _
    | exact Visitor.Keeps.update_interfacePredicate _ _
    | exact Visitor.Keeps.update_errorPredicate _ _
    | exact Visitor.Keeps.update_constructorPredicate _ _
    | exact Visitor.Keeps.update_breakDest_some _ _
    | exact Visitor.Keeps.update_continueDest_some _ _
    | exact Visitor.Keeps.update_breakDest _ _
    | exact Visitor.Keeps.update_continueDest _ _
    | exact Visitor.Keeps.update_continueDest_post _ _ _
    | exact Visitor.Keeps.update_summaries _ _ _
    | apply Visitor.Keeps.keeps_forEach
    | intro _
    | split
    | (show Visitor.Keeps _ _ _ _ (fun _ => Known.top); split)
    | dsimp only)

theorem CHC.sort_inv {b : Bool} (K : Known) (f : FunctionDefinition) :
    Visitor.Keeps b b K (CHC.sort f) (fun _ => Known.top) := by
  unfold CHC.sort
  repeat' (first
    | with_reducible exact CHC.connectBlocks_inv _ _ _ _
    | with_reducible exact CHC.createSymbolicBlock_inv _ _ _
    | with_reducible exact CHC.createErrorBlock_inv _
    | with_reducible exact CHC.query_inv _ _ _
    | with_reducible exact CHC.reset_inv _
    | with_reducible exact CHC.uniquePrefix_inv _
    | exact Visitor.Keeps.keeps_defineExpr _ _ _
    | exact Visitor.Keeps.keeps_assignment _ _ _
    | apply Visitor.Keeps.same_bind
    | apply Visitor.Keeps.keeps_bind
    | exact Visitor.Keeps.keeps_solAssert _ _ _
    | exact Visitor.Keeps.pure_block _ _
    | exact Visitor.Keeps.pure_free _ _
    | exact Visitor.Keeps.pure_term _ _
    | exact Visitor.Keeps.pure_freeList _ _
    | exact Visitor.Keeps.pure_symbol _ _
    | exact Visitor.Keeps.pure_some _ _
    | exact Visitor.Keeps.pure_none _
    | exact Visitor.Keeps.pure_top _ _
    | exact Visitor.Keeps.read_block _
    | exact Visitor.Keeps.read_breakDest _
    | exact Visitor.Keeps.read_continueDest _
    | (refine Visitor.Keeps.read_free _ _ (fun _ => ?_); simp; done)
    | (refine Visitor.Keeps.read_freeList _ _ (fun _ => ?_); simp [smt.Expression.predicatesOfAll_map_free]; done)
    | (refine Visitor.Keeps.read_freeList _ _ (fun _ => ?_); split <;> simp [smt.Expression.predicatesOfAll_map_free]; done)
    | exact Visitor.Keeps.read_top _ _
    | exact Visitor.Keeps.deref_genesis _ _
    | exact Visitor.Keeps.deref_interface _ _
    | exact Visitor.Keeps.deref_error _ _
    | exact Visitor.Keeps.deref_constructor _ _
    | exact Visitor.Keeps.deref_breakDest _ _
    | exact Visitor.Keeps.deref_continueDest _ _
    | exact Visitor.Keeps.deref_summary _ _ _
    | exact Visitor.Keeps.deref_top _ _ _
    | exact Visitor.Keeps.update_frame _ _ (fun _ => ⟨rfl, rfl, rfl, rfl, rfl, rfl, rfl, rfl, rfl, rfl, rfl⟩)
    | (refine Visitor.Keeps.update_frame _ _ (fun _ => ⟨rfl, rfl, ?_, rfl, rfl, rfl, rfl, rfl, rfl, rfl, rfl⟩); simp; done)
    | exact Visitor.Keeps.update_popSolver _
    | exact Visitor.Keeps.update_pushSolver _
    | exact Visitor.Keeps.update_resetContext _
    | exact Visitor.Keeps.update_clearContext _
    | exact Visitor.Keeps.update_enterFunction _
    | exact Visitor.Keeps.keeps_addAssertion _ _
    | (refine Visitor.Keeps.addAssertion_free _ _ (fun _ => ?_); simp; done)
    | exact Visitor.Keeps.keeps_setZeroValue _ _
    | exact Visitor.Keeps.update_block _ _
    | exact Visitor.Keeps.update_genesisPredicate _ _
    | exact Visitor.Keeps.update_interfacePredicate _ _
    | exact Visitor.Keeps.update_errorPredicate _ _
    | exact Visitor.Keeps.update_constructorPredicate _ _
    | exact Visitor.Keeps.update_breakDest_some _ _
    | exact Visitor.Keeps.update_continueDest_some _ _
    | exact Visitor.Keeps.update_breakDest _ _
    | exact Visitor.Keeps.update_continueDest _ _
    | exact Visitor.Keeps.update_continueDest_post _ _ _
    | exact Visitor.Keeps.update_summaries _ _ _
    | apply Visitor.Keeps.keeps_forEach
    | intro _
    | split
    | (show Visitor.Keeps _ _ _ _ (fun _ => Known.top); split)
    | dsimp only)

theorem CHC.sortNode_inv {b : Bool} (K : Known) (n : ASTNode) :
    Visitor.Keeps b b K (CHC.sortNode n) (fun _ => Known.top) := by
  unfold CHC.sortNode
  repeat' (first
    | with_reducible exact CHC.sort_inv _ _
    | with_reducible exact CHC.connectBlocks_inv _ _ _ _
    | with_reducible exact CHC.createSymbolicBlock_inv _ _ _
    | with_reducible exact CHC.createErrorBlock_inv _
    | with_reducible exact CHC.query_inv _ _ _
    | with_reducible exact CHC.reset_inv _
    | with_reducible exact CHC.uniquePrefix_inv _
    | exact Visitor.Keeps.keeps_defineExpr _ _ _
    | exact Visitor.Keeps.keeps_assignment _ _ _
    | apply Visitor.Keeps.same_bind
    | apply Visitor.Keeps.keeps_bind
    | exact Visitor.Keeps.keeps_solAssert _ _ _
    | exact Visitor.Keeps.pure_block _ _
    | exact Visitor.Keeps.pure_free _ _
    | exact Visitor.Keeps.pure_term _ _
    | exact Visitor.Keeps.pure_freeList _ _
    | exact Visitor.Keeps.pure_symbol _ _
    | exact Visitor.Keeps.pure_some _ _
    | exact Visitor.Keeps.pure_none _
    | exact Visitor.Keeps.pure_top _ _
    | exact Visitor.Keeps.read_block _
    | exact Visitor.Keeps.read_breakDest _
    | exact Visitor.Keeps.read_continueDest _
    | (refine Visitor.Keeps.read_free _ _ (fun _ => ?_); simp; done)
    | (refine Visitor.Keeps.read_freeList _ _ (fun _ => ?_); simp [smt.Expression.predicatesOfAll_map_free]; done)
    | (refine Visitor.Keeps.read_freeList _ _ (fun _ => ?_); split <;> simp [smt.Expression.predicatesOfAll_map_free]; done)
    | exact Visitor.Keeps.read_top _ _
    | exact Visitor.Keeps.deref_genesis _ _
    | exact Visitor.Keeps.deref_interface _ _
    | exact Visitor.Keeps.deref_error _ _
    | exact Visitor.Keeps.deref_constructor _ _
    | exact Visitor.Keeps.deref_breakDest _ _
    | exact Visitor.Keeps.deref_continueDest _ _
    | exact Visitor.Keeps.deref_summary _ _ _
    | exact Visitor.Keeps.deref_top _ _ _
    | exact Visitor.Keeps.update_frame _ _ (fun _ => ⟨rfl, rfl, rfl, rfl, rfl, rfl, rfl, rfl, rfl, rfl, rfl⟩)
    | (refine Visitor.Keeps.update_frame _ _ (fun _ => ⟨rfl, rfl, ?_, rfl, rfl, rfl, rfl, rfl, rfl, rfl, rfl⟩); simp; done)
    | exact Visitor.Keeps.update_popSolver _
    | exact Visitor.Keeps.update_pushSolver _
    | exact Visitor.Keeps.update_resetContext _
    | exact Visitor.Keeps.update_clearContext _
    | exact Visitor.Keeps.update_enterFunction _
    | exact Visitor.Keeps.keeps_addAssertion _ _
    | (refine Visitor.Keeps.addAssertion_free _ _ (fun _ => ?_); simp; done)
    | exact Visitor.Keeps.keeps_setZeroValue _ _
    | exact Visitor.Keeps.update_block _ _
    | exact Visitor.Keeps.update_genesisPredicate _ _
    | exact Visitor.Keeps.update_interfacePredicate _ _
    | exact Visitor.Keeps.update_errorPredicate _ _
    | exact Visitor.Keeps.update_constructorPredicate _ _
    | exact Visitor.Keeps.update_breakDest_some _ _
    | exact Visitor.Keeps.update_continueDest_some _ _
    | exact Visitor.Keeps.update_breakDest _ _
    | exact Visitor.Keeps.update_continueDest _ _
    | exact Visitor.Keeps.update_continueDest_post _ _ _
    | exact Visitor.Keeps.update_summaries _ _ _
    | apply Visitor.Keeps.keeps_forEach
    | intro _
    | split
    | (show Visitor.Keeps _ _ _ _ (fun _ => Known.top); split)
    | dsimp only)

theorem CHC.summarySort_inv {b : Bool} (K : Known) (f : FunctionDefinition) :
    Visitor.Keeps b b K (CHC.summarySort f) (fun _ => Known.top) := by
  unfold CHC.summarySort
  repeat' (first
    | with_reducible exact CHC.connectBlocks_inv _ _ _ _
    | with_reducible exact CHC.createSymbolicBlock_inv _ _ _
    | with_reducible exact CHC.createErrorBlock_inv _
    | with_reducible exact CHC.query_inv _ _ _
    | with_reducible exact CHC.reset_inv _
    | with_reducible exact CHC.uniquePrefix_inv _
    | exact Visitor.Keeps.keeps_defineExpr _ _ _
    | exact Visitor.Keeps.keeps_assignment _ _ _
    | apply Visitor.Keeps.same_bind
    | apply Visitor.Keeps.keeps_bind
    | exact Visitor.Keeps.keeps_solAssert _ _ _
    | exact Visitor.Keeps.pure_block _ _
    | exact Visitor.Keeps.pure_free _ _
    | exact Visitor.Keeps.pure_term _ _
    | exact Visitor.Keeps.pure_freeList _ _
    | exact Visitor.Keeps.pure_symbol _ _
    | exact Visitor.Keeps.pure_some _ _
    | exact Visitor.Keeps.pure_none _
    | exact Visitor.Keeps.pure_top _ _
    | exact Visitor.Keeps.read_block _
    | exact Visitor.Keeps.read_breakDest _
    | exact Visitor.Keeps.read_continueDest _
    | (refine Visitor.Keeps.read_free _ _ (fun _ => ?_); simp; done)
    | (refine Visitor.Keeps.read_freeList _ _ (fun _ => ?_); simp [smt.Expression.predicatesOfAll_map_free]; done)
    | (refine Visitor.Keeps.read_freeList _ _ (fun _ => ?_); split <;> simp [smt.Expression.predicatesOfAll_map_free]; done)
    | exact Visitor.Keeps.read_top _ _
    | exact Visitor.Keeps.deref_genesis _ _
    | exact Visitor.Keeps.deref_interface _ _
    | exact Visitor.Keeps.deref_error _ _
    | exact Visitor.Keeps.deref_constructor _ _
    | exact Visitor.Keeps.deref_breakDest _ _
    | exact Visitor.Keeps.deref_continueDest _ _
    | exact Visitor.Keeps.deref_summary _ _ _
    | exact Visitor.Keeps.deref_top _ _ _
    | exact Visitor.Keeps.update_frame _ _ (fun _ => ⟨rfl, rfl, rfl, rfl, rfl, rfl, rfl, rfl, rfl, rfl, rfl⟩)
    | (refine Visitor.Keeps.update_frame _ _ (fun _ => ⟨rfl, rfl, ?_, rfl, rfl, rfl, rfl, rfl, rfl, rfl, rfl⟩); simp; done)
    | exact Visitor.Keeps.update_popSolver _
    | exact Visitor.Keeps.update_pushSolver _
    | exact Visitor.Keeps.update_resetContext _
    | exact Visitor.Keeps.update_clearContext _
    | exact Visitor.Keeps.update_enterFunction _
    | exact Visitor.Keeps.keeps_addAssertion _ _
    | (refine Visitor.Keeps.addAssertion_free _ _ (fun _ => ?_); simp; done)
    | exact Visitor.Keeps.keeps_setZeroValue _ _
    | exact Visitor.Keeps.update_block _ _
    | exact Visitor.Keeps.update_genesisPredicate _ _
    | exact Visitor.Keeps.update_interfacePredicate _ _
    | exact Visitor.Keeps.update_errorPredicate _ _
    | exact Visitor.Keeps.update_constructorPredicate _ _
    | exact Visitor.Keeps.update_breakDest_some _ _
    | exact Visitor.Keeps.update_continueDest_some _ _
    | exact Visitor.Keeps.update_breakDest _ _
    | exact Visitor.Keeps.update_continueDest _ _
    | exact Visitor.Keeps.update_continueDest_post _ _ _
    | exact Visitor.Keeps.update_summaries _ _ _
    | apply Visitor.Keeps.keeps_forEach
    | intro _
    | split
    | (show Visitor.Keeps _ _ _ _ (fun _ => Known.top); split)
    | dsimp only)

theorem CHC.predicateName_inv {b : Bool} (K : Known) (n : ASTNode) :
    Visitor.Keeps b b K (CHC.predicateName n) (fun _ => Known.top) := by
  unfold CHC.predicateName
  repeat' (first
    | with_reducible exact CHC.connectBlocks_inv _ _ _ _
    | with_reducible exact CHC.createSymbolicBlock_inv _ _ _
    | with_reducible exact CHC.createErrorBlock_inv _
    | with_reducible exact CHC.query_inv _ _ _
    | with_reducible exact CHC.reset_inv _
    | with_reducible exact CHC.uniquePrefix_inv _
    | exact Visitor.Keeps.keeps_defineExpr _ _ _
    | exact Visitor.Keeps.keeps_assignment _ _ _
    | apply Visitor.Keeps.same_bind
    | apply Visitor.Keeps.keeps_bind
    | exact Visitor.Keeps.keeps_solAssert _ _ _
    | exact Visitor.Keeps.pure_block _ _
    | exact Visitor.Keeps.pure_free _ _
    | exact Visitor.Keeps.pure_term _ _
    | exact Visitor.Keeps.pure_freeList _ _
    | exact Visitor.Keeps.pure_symbol _ _
    | exact Visitor.Keeps.pure_some _ _
    | exact Visitor.Keeps.pure_none _
    | exact Visitor.Keeps.pure_top _ _
    | exact Visitor.Keeps.read_block _
    | exact Visitor.Keeps.read_breakDest _
    | exact Visitor.Keeps.read_continueDest _
    | (refine Visitor.Keeps.read_free _ _ (fun _ => ?_); simp; done)
    | (refine Visitor.Keeps.read_freeList _ _ (fun _ => ?_); simp [smt.Expression.predicatesOfAll_map_free]; done)
    | (refine Visitor.Keeps.read_freeList _ _ (fun _ => ?_); split <;> simp [smt.Expression.predicatesOfAll_map_free]; done)
    | exact Visitor.Keeps.read_top _ _
    | exact Visitor.Keeps.deref_genesis _ _
    | exact Visitor.Keeps.deref_interface _ _
    | exact Visitor.Keeps.deref_error _ _
    | exact Visitor.Keeps.deref_constructor _ _
    | exact Visitor.Keeps.deref_breakDest _ _
    | exact Visitor.Keeps.deref_continueDest _ _
    | exact Visitor.Keeps.deref_summary _ _ _
    | exact Visitor.Keeps.deref_top _ _ _
    | exact Visitor.Keeps.update_frame _ _ (fun _ => ⟨rfl, rfl, rfl, rfl, rfl, rfl, rfl, rfl, rfl, rfl, rfl⟩)
    | (refine Visitor.Keeps.update_frame _ _ (fun _ => ⟨rfl, rfl, ?_, rfl, rfl, rfl, rfl, rfl, rfl, rfl, rfl⟩); simp; done)
    | exact Visitor.Keeps.update_popSolver _
    | exact Visitor.Keeps.update_pushSolver _
    | exact Visitor.Keeps.update_resetContext _
    | exact Visitor.Keeps.update_clearContext _
    | exact Visitor.Keeps.update_enterFunction _
    | exact Visitor.Keeps.keeps_addAssertion _ _
    | (refine Visitor.Keeps.addAssertion_free _ _ (fun _ => ?_); simp; done)
    | exact Visitor.Keeps.keeps_setZeroValue _ _
    | exact Visitor.Keeps.update_block _ _
    | exact Visitor.Keeps.update_genesisPredicate _ _
    | exact Visitor.Keeps.update_interfacePredicate _ _
    | exact Visitor.Keeps.update_errorPredicate _ _
    | exact Visitor.Keeps.update_constructorPredicate _ _
    | exact Visitor.Keeps.update_breakDest_some _ _
    | exact Visitor.Keeps.update_continueDest_some _ _
    | exact Visitor.Keeps.update_breakDest _ _
    | exact Visitor.Keeps.update_continueDest _ _
    | exact Visitor.Keeps.update_continueDest_post _ _ _
    | exact Visitor.Keeps.update_summaries _ _ _
    | apply Visitor.Keeps.keeps_forEach
    | intro _
    | split
    | (show Visitor.Keeps _ _ _ _ (fun _ => Known.top); split)
    | dsimp only)

theorem CHC.createBlock_inv {b : Bool} (K : Known) (n : ASTNode) (p : String) :
    Visitor.Keeps b b K (CHC.createBlock n p) Known.ofSymbol := by
  unfold CHC.createBlock
  repeat' (first
    | with_reducible exact CHC.sortNode_inv _ _
    | with_reducible exact CHC.predicateName_inv _ _
    | with_reducible exact CHC.connectBlocks_inv _ _ _ _
    | with_reducible exact CHC.createSymbolicBlock_inv _ _ _
    | with_reducible exact CHC.createErrorBlock_inv _
    | with_reducible exact CHC.query_inv _ _ _
    | with_reducible exact CHC.reset_inv _
    | with_reducible exact CHC.uniquePrefix_inv _
    | exact Visitor.Keeps.keeps_defineExpr _ _ _
    | exact Visitor.Keeps.keeps_assignment _ _ _
    | apply Visitor.Keeps.same_bind
    | apply Visitor.Keeps.keeps_bind
    | exact Visitor.Keeps.keeps_solAssert _ _ _
    | exact Visitor.Keeps.pure_block _ _
    | exact Visitor.Keeps.pure_free _ _
    | exact Visitor.Keeps.pure_term _ _
    | exact Visitor.Keeps.pure_freeList _ _
    | exact Visitor.Keeps.pure_symbol _ _
    | exact Visitor.Keeps.pure_some _ _
    | exact Visitor.Keeps.pure_none _
    | exact Visitor.Keeps.pure_top _ _
    | exact Visitor.Keeps.read_block _
    | exact Visitor.Keeps.read_breakDest _
    | exact Visitor.Keeps.read_continueDest _
    | (refine Visitor.Keeps.read_free _ _ (fun _ => ?_); simp; done)
    | (refine Visitor.Keeps.read_freeList _ _ (fun _ => ?_); simp [smt.Expression.predicatesOfAll_map_free]; done)
    | (refine Visitor.Keeps.read_freeList _ _ (fun _ => ?_); split <;> simp [smt.Expression.predicatesOfAll_map_free]; done)
    | exact Visitor.Keeps.read_top _ _
    | exact Visitor.Keeps.deref_genesis _ _
    | exact Visitor.Keeps.deref_interface _ _
    | exact Visitor.Keeps.deref_error _ _
    | exact Visitor.Keeps.deref_constructor _ _
    | exact Visitor.Keeps.deref_breakDest _ _
    | exact Visitor.Keeps.deref_continueDest _ _
    | exact Visitor.Keeps.deref_summary _ _ _
    | exact Visitor.Keeps.deref_top _ _ _
    | exact Visitor.Keeps.update_frame _ _ (fun _ => ⟨rfl, rfl, rfl, rfl, rfl, rfl, rfl, rfl, rfl, rfl, rfl⟩)
    | (refine Visitor.Keeps.update_frame _ _ (fun _ => ⟨rfl, rfl, ?_, rfl, rfl, rfl, rfl, rfl, rfl, rfl, rfl⟩); simp; done)
    | exact Visitor.Keeps.update_popSolver _
    | exact Visitor.Keeps.update_pushSolver _
    | exact Visitor.Keeps.update_resetContext _
    | exact Visitor.Keeps.update_clearContext _
    | exact Visitor.Keeps.update_enterFunction _
    | exact Visitor.Keeps.keeps_addAssertion _ _
    | (refine Visitor.Keeps.addAssertion_free _ _ (fun _ => ?_); simp; done)
    | exact Visitor.Keeps.keeps_setZeroValue _ _
    | exact Visitor.Keeps.update_block _ _
    | exact Visitor.Keeps.update_genesisPredicate _ _
    | exact Visitor.Keeps.update_interfacePredicate _ _
    | exact Visitor.Keeps.update_errorPredicate _ _
    | exact Visitor.Keeps.update_constructorPredicate _ _
    | exact Visitor.Keeps.update_breakDest_some _ _
    | exact Visitor.Keeps.update_continueDest_some _ _
    | exact Visitor.Keeps.update_breakDest _ _
    | exact Visitor.Keeps.update_continueDest _ _
    | exact Visitor.Keeps.update_continueDest_post _ _ _
    | exact Visitor.Keeps.update_summaries _ _ _
    | apply Visitor.Keeps.keeps_forEach
    | intro _
    | split
    | (show Visitor.Keeps _ _ _ _ (fun _ => Known.top); split)
    | dsimp only)

theorem CHC.createOptionalBlock_inv {b : Bool} (K : Known) (o : Option (Nat × Visitor Unit))
    (pfx : String) :
    Visitor.Keeps b b K
      (match o with
        | some statement => do
          let block ← CHC.createBlock (.node statement.1) pfx
          pure (some block)
        | none => pure none) Known.ofOptional := by
  cases o with
  | none => exact Visitor.Keeps.pure_none _
  | some st =>
    exact Visitor.Keeps.keeps_bind (CHC.createBlock_inv _ _ _)
      (fun _ => Visitor.Keeps.pure_some _ _)

theorem CHC.createSummaryBlock_inv {b : Bool} (K : Known) (f : FunctionDefinition) :
    Visitor.Keeps b b K (CHC.createSummaryBlock f) Known.ofSymbol := by
  unfold CHC.createSummaryBlock
  repeat' (first
    | with_reducible exact CHC.summarySort_inv _ _
    | with_reducible exact CHC.predicateName_inv _ _
    | with_reducible exact CHC.connectBlocks_inv _ _ _ _
    | with_reducible exact CHC.createSymbolicBlock_inv _ _ _
    | with_reducible exact CHC.createErrorBlock_inv _
    | with_reducible exact CHC.query_inv _ _ _
    | with_reducible exact CHC.reset_inv _
    | with_reducible exact CHC.uniquePrefix_inv _
    | exact Visitor.Keeps.keeps_defineExpr _ _ _
    | exact Visitor.Keeps.keeps_assignment _ _ _
    | apply Visitor.Keeps.same_bind
    | apply Visitor.Keeps.keeps_bind
    | exact Visitor.Keeps.keeps_solAssert _ _ _
    | exact Visitor.Keeps.pure_block _ _
    | exact Visitor.Keeps.pure_free _ _
    | exact Visitor.Keeps.pure_term _ _
    | exact Visitor.Keeps.pure_freeList _ _
    | exact Visitor.Keeps.pure_symbol _ _
    | exact Visitor.Keeps.pure_some _ _
    | exact Visitor.Keeps.pure_none _
    | exact Visitor.Keeps.pure_top _ _
    | exact Visitor.Keeps.read_block _
    | exact Visitor.Keeps.read_breakDest _
    | exact Visitor.Keeps.read_continueDest _
    | (refine Visitor.Keeps.read_free _ _ (fun _ => ?_); simp; done)
    | (refine Visitor.Keeps.read_freeList _ _ (fun _ => ?_); simp [smt.Expression.predicatesOfAll_map_free]; done)
    | (refine Visitor.Keeps.read_freeList _ _ (fun _ => ?_); split <;> simp [smt.Expression.predicatesOfAll_map_free]; done)
    | exact Visitor.Keeps.read_top _ _
    | exact Visitor.Keeps.deref_genesis _ _
    | exact Visitor.Keeps.deref_interface _ _
    | exact Visitor.Keeps.deref_error _ _
    | exact Visitor.Keeps.deref_constructor _ _
    | exact Visitor.Keeps.deref_breakDest _ _
    | exact Visitor.Keeps.deref_continueDest _ _
    | exact Visitor.Keeps.deref_summary _ _ _
    | exact Visitor.Keeps.deref_top _ _ _
    | exact Visitor.Keeps.update_frame _ _ (fun _ => ⟨rfl, rfl, rfl, rfl, rfl, rfl, rfl, rfl, rfl, rfl, rfl⟩)
    | (refine Visitor.Keeps.update_frame _ _ (fun _ => ⟨rfl, rfl, ?_, rfl, rfl, rfl, rfl, rfl, rfl, rfl, rfl⟩); simp; done)
    | exact Visitor.Keeps.update_popSolver _
    | exact Visitor.Keeps.update_pushSolver _
    | exact Visitor.Keeps.update_resetContext _
    | exact Visitor.Keeps.update_clearContext _
    | exact Visitor.Keeps.update_enterFunction _
    | exact Visitor.Keeps.keeps_addAssertion _ _
    | (refine Visitor.Keeps.addAssertion_free _ _ (fun _ => ?_); simp; done)
    | exact Visitor.Keeps.keeps_setZeroValue _ _
    | exact Visitor.Keeps.update_block _ _
    | exact Visitor.Keeps.update_genesisPredicate _ _
    | exact Visitor.Keeps.update_interfacePredicate _ _
    | exact Visitor.Keeps.update_errorPredicate _ _
    | exact Visitor.Keeps.update_constructorPredicate _ _
    | exact Visitor.Keeps.update_breakDest_some _ _
    | exact Visitor.Keeps.update_continueDest_some _ _
    | exact Visitor.Keeps.update_breakDest _ _
    | exact Visitor.Keeps.update_continueDest _ _
    | exact Visitor.Keeps.update_continueDest_post _ _ _
    | exact Visitor.Keeps.update_summaries _ _ _
    | apply Visitor.Keeps.keeps_forEach
    | intro _
    | split
    | (show Visitor.Keeps _ _ _ _ (fun _ => Known.top); split)
    | dsimp only)

theorem CHC.clearIndices_inv {b : Bool} (K : Known) (c : Option ContractDefinition) (f : Option FunctionDefinition) :
    Visitor.Keeps b b K (CHC.clearIndices c f) (fun _ => Known.top) := by
  unfold CHC.clearIndices
  repeat' (first
    | with_reducible exact SMTEncoder.baseClearIndices_inv _ _ _
    | with_reducible exact CHC.connectBlocks_inv _ _ _ _
    | with_reducible exact CHC.createSymbolicBlock_inv _ _ _
    | with_reducible exact CHC.createErrorBlock_inv _
    | with_reducible exact CHC.query_inv _ _ _
    | with_reducible exact CHC.reset_inv _
    | with_reducible exact CHC.uniquePrefix_inv _
    | exact Visitor.Keeps.keeps_defineExpr _ _ _
    | exact Visitor.Keeps.keeps_assignment _ _ _
    | apply Visitor.Keeps.same_bind
    | apply Visitor.Keeps.keeps_bind
    | exact Visitor.Keeps.keeps_solAssert _ _ _
    | exact Visitor.Keeps.pure_block _ _
    | exact Visitor.Keeps.pure_free _ _
    | exact Visitor.Keeps.pure_term _ _
    | exact Visitor.Keeps.pure_freeList _ _
    | exact Visitor.Keeps.pure_symbol _ _
    | exact Visitor.Keeps.pure_some _ _
    | exact Visitor.Keeps.pure_none _
    | exact Visitor.Keeps.pure_top _ _
    | exact Visitor.Keeps.read_block _
    | exact Visitor.Keeps.read_breakDest _
    | exact Visitor.Keeps.read_continueDest _
    | (refine Visitor.Keeps.read_free _ _ (fun _ => ?_); simp; done)
    | (refine Visitor.Keeps.read_freeList _ _ (fun _ => ?_); simp [smt.Expression.predicatesOfAll_map_free]; done)
    | (refine Visitor.Keeps.read_freeList _ _ (fun _ => ?_); split <;> simp [smt.Expression.predicatesOfAll_map_free]; done)
    | exact Visitor.Keeps.read_top _ _
    | exact Visitor.Keeps.deref_genesis _ _
    | exact Visitor.Keeps.deref_interface _ _
    | exact Visitor.Keeps.deref_error _ _
    | exact Visitor.Keeps.deref_constructor _ _
    | exact Visitor.Keeps.deref_breakDest _ _
    | exact Visitor.Keeps.deref_continueDest _ _
    | exact Visitor.Keeps.deref_summary _ _ _
    | exact Visitor.Keeps.deref_top _ _ _
    | exact Visitor.Keeps.update_frame _ _ (fun _ => ⟨rfl, rfl, rfl, rfl, rfl, rfl, rfl, rfl, rfl, rfl, rfl⟩)
    | (refine Visitor.Keeps.update_frame _ _ (fun _ => ⟨rfl, rfl, ?_, rfl, rfl, rfl, rfl, rfl, rfl, rfl, rfl⟩); simp; done)
    | exact Visitor.Keeps.update_popSolver _
    | exact Visitor.Keeps.update_pushSolver _
    | exact Visitor.Keeps.update_resetContext _
    | exact Visitor.Keeps.update_clearContext _
    | exact Visitor.Keeps.update_enterFunction _
    | exact Visitor.Keeps.keeps_addAssertion _ _
    | (refine Visitor.Keeps.addAssertion_free _ _ (fun _ => ?_); simp; done)
    | exact Visitor.Keeps.keeps_setZeroValue _ _
    | exact Visitor.Keeps.update_block _ _
    | exact Visitor.Keeps.update_genesisPredicate _ _
    | exact Visitor.Keeps.update_interfacePredicate _ _
    | exact Visitor.Keeps.update_errorPredicate _ _
    | exact Visitor.Keeps.update_constructorPredicate _ _
    | exact Visitor.Keeps.update_breakDest_some _ _
    | exact Visitor.Keeps.update_continueDest_some _ _
    | exact Visitor.Keeps.update_breakDest _ _
    | exact Visitor.Keeps.update_continueDest _ _
    | exact Visitor.Keeps.update_continueDest_post _ _ _
    | exact Visitor.Keeps.update_summaries _ _ _
    | apply Visitor.Keeps.keeps_forEach
    | intro _
    | split
    | (show Visitor.Keeps _ _ _ _ (fun _ => Known.top); split)
    | dsimp only)

theorem CHC.setCurrentBlock_inv {b : Bool} (K : Known) (block : smt.SymbolicFunctionVariable)
    [Known.Entails K (Known.ofSymbol block)] :
    Visitor.Keeps b true K (CHC.setCurrentBlock block none) (fun _ => Known.top) := by
  unfold CHC.setCurrentBlock
  repeat' (first
    | with_reducible exact CHC.clearIndices_inv _ _ _
    | with_reducible exact CHC.predicate_inv _ _
    | with_reducible exact CHC.predicateWith_inv _ _ _
    | with_reducible exact CHC.connectBlocks_inv _ _ _ _
    | with_reducible exact CHC.createSymbolicBlock_inv _ _ _
    | with_reducible exact CHC.createErrorBlock_inv _
    | with_reducible exact CHC.query_inv _ _ _
    | with_reducible exact CHC.reset_inv _
    | with_reducible exact CHC.uniquePrefix_inv _
    | exact Visitor.Keeps.keeps_defineExpr _ _ _
    | exact Visitor.Keeps.keeps_assignment _ _ _
    | apply Visitor.Keeps.same_bind
    | apply Visitor.Keeps.keeps_bind
    | exact Visitor.Keeps.keeps_solAssert _ _ _
    | exact Visitor.Keeps.pure_block _ _
    | exact Visitor.Keeps.pure_free _ _
    | exact Visitor.Keeps.pure_term _ _
    | exact Visitor.Keeps.pure_freeList _ _
    | exact Visitor.Keeps.pure_symbol _ _
    | exact Visitor.Keeps.pure_some _ _
    | exact Visitor.Keeps.pure_none _
    | exact Visitor.Keeps.pure_top _ _
    | exact Visitor.Keeps.read_block _
    | exact Visitor.Keeps.read_breakDest _
    | exact Visitor.Keeps.read_continueDest _
    | (refine Visitor.Keeps.read_free _ _ (fun _ => ?_); simp; done)
    | (refine Visitor.Keeps.read_freeList _ _ (fun _ => ?_); simp [smt.Expression.predicatesOfAll_map_free]; done)
    | (refine Visitor.Keeps.read_freeList _ _ (fun _ => ?_); split <;> simp [smt.Expression.predicatesOfAll_map_free]; done)
    | exact Visitor.Keeps.read_top _ _
    | exact Visitor.Keeps.deref_genesis _ _
    | exact Visitor.Keeps.deref_interface _ _
    | exact Visitor.Keeps.deref_error _ _
    | exact Visitor.Keeps.deref_constructor _ _
    | exact Visitor.Keeps.deref_breakDest _ _
    | exact Visitor.Keeps.deref_continueDest _ _
    | exact Visitor.Keeps.deref_summary _ _ _
    | exact Visitor.Keeps.deref_top _ _ _
    | exact Visitor.Keeps.update_frame _ _ (fun _ => ⟨rfl, rfl, rfl, rfl, rfl, rfl, rfl, rfl, rfl, rfl, rfl⟩)
    | (refine Visitor.Keeps.update_frame _ _ (fun _ => ⟨rfl, rfl, ?_, rfl, rfl, rfl, rfl, rfl, rfl, rfl, rfl⟩); simp; done)
    | exact Visitor.Keeps.update_popSolver _
    | exact Visitor.Keeps.update_pushSolver _
    | exact Visitor.Keeps.update_resetContext _
    | exact Visitor.Keeps.update_clearContext _
    | exact Visitor.Keeps.update_enterFunction _
    | exact Visitor.Keeps.keeps_addAssertion _ _
    | (refine Visitor.Keeps.addAssertion_free _ _ (fun _ => ?_); simp; done)
    | exact Visitor.Keeps.keeps_setZeroValue _ _
    | exact Visitor.Keeps.update_block _ _
    | exact Visitor.Keeps.update_genesisPredicate _ _
    | exact Visitor.Keeps.update_interfacePredicate _ _
    | exact Visitor.Keeps.update_errorPredicate _ _
    | exact Visitor.Keeps.update_constructorPredicate _ _
    | exact Visitor.Keeps.update_breakDest_some _ _
    | exact Visitor.Keeps.update_continueDest_some _ _
    | exact Visitor.Keeps.update_breakDest _ _
    | exact Visitor.Keeps.update_continueDest _ _
    | exact Visitor.Keeps.update_continueDest_post _ _ _
    | exact Visitor.Keeps.update_summaries _ _ _
    | apply Visitor.Keeps.keeps_forEach
    | intro _
    | split
    | (show Visitor.Keeps _ _ _ _ (fun _ => Known.top); split)
    | dsimp only)

theorem CHC.setCurrentBlockWith_inv {b : Bool} (K : Known) (block : smt.SymbolicFunctionVariable)
    (arguments : List smt.Expression) [Known.Entails K (Known.ofSymbol block)]
    [Known.Entails K (Known.ofFreeList arguments)] :
    Visitor.Keeps b true K (CHC.setCurrentBlock block (some arguments)) (fun _ => Known.top) := by
  unfold CHC.setCurrentBlock
  repeat' (first
    | with_reducible exact CHC.clearIndices_inv _ _ _
    | with_reducible exact CHC.predicate_inv _ _
    | with_reducible exact CHC.predicateWith_inv _ _ _
    | with_reducible exact CHC.connectBlocks_inv _ _ _ _
    | with_reducible exact CHC.createSymbolicBlock_inv _ _ _
    | with_reducible exact CHC.createErrorBlock_inv _
    | with_reducible exact CHC.query_inv _ _ _
    | with_reducible exact CHC.reset_inv _
    | with_reducible exact CHC.uniquePrefix_inv _
    | exact Visitor.Keeps.keeps_defineExpr _ _ _
    | exact Visitor.Keeps.keeps_assignment _ _ _
    | apply Visitor.Keeps.same_bind
    | apply Visitor.Keeps.keeps_bind
    | exact Visitor.Keeps.keeps_solAssert _ _ _
    | exact Visitor.Keeps.pure_block _ _
    | exact Visitor.Keeps.pure_free _ _
    | exact Visitor.Keeps.pure_term _ _
    | exact Visitor.Keeps.pure_freeList _ _
    | exact Visitor.Keeps.pure_symbol _ _
    | exact Visitor.Keeps.pure_some _ _
    | exact Visitor.Keeps.pure_none _
    | exact Visitor.Keeps.pure_top _ _
    | exact Visitor.Keeps.read_block _
    | exact Visitor.Keeps.read_breakDest _
    | exact Visitor.Keeps.read_continueDest _
    | (refine Visitor.Keeps.read_free _ _ (fun _ => ?_); simp; done)
    | (refine Visitor.Keeps.read_freeList _ _ (fun _ => ?_); simp [smt.Expression.predicatesOfAll_map_free]; done)
    | (refine Visitor.Keeps.read_freeList _ _ (fun _ => ?_); split <;> simp [smt.Expression.predicatesOfAll_map_free]; done)
    | exact Visitor.Keeps.read_top _ _
    | exact Visitor.Keeps.deref_genesis _ _
    | exact Visitor.Keeps.deref_interface _ _
    | exact Visitor.Keeps.deref_error _ _
    | exact Visitor.Keeps.deref_constructor _ _
    | exact Visitor.Keeps.deref_breakDest _ _
    | exact Visitor.Keeps.deref_continueDest _ _
    | exact Visitor.Keeps.deref_summary _ _ _
    | exact Visitor.Keeps.deref_top _ _ _
    | exact Visitor.Keeps.update_frame _ _ (fun _ => ⟨rfl, rfl, rfl, rfl, rfl, rfl, rfl, rfl, rfl, rfl, rfl⟩)
    | (refine Visitor.Keeps.update_frame _ _ (fun _ => ⟨rfl, rfl, ?_, rfl, rfl, rfl, rfl, rfl, rfl, rfl, rfl⟩); simp; done)
    | exact Visitor.Keeps.update_popSolver _
    | exact Visitor.Keeps.update_pushSolver _
    | exact Visitor.Keeps.update_resetContext _
    | exact Visitor.Keeps.update_clearContext _
    | exact Visitor.Keeps.update_enterFunction _
    | exact Visitor.Keeps.keeps_addAssertion _ _
    | (refine Visitor.Keeps.addAssertion_free _ _ (fun _ => ?_); simp; done)
    | exact Visitor.Keeps.keeps_setZeroValue _ _
    | exact Visitor.Keeps.update_block _ _
    | exact Visitor.Keeps.update_genesisPredicate _ _
    | exact Visitor.Keeps.update_interfacePredicate _ _
    | exact Visitor.Keeps.update_errorPredicate _ _
    | exact Visitor.Keeps.update_constructorPredicate _ _
    | exact Visitor.Keeps.update_breakDest_some _ _
    | exact Visitor.Keeps.update_continueDest_some _ _
    | exact Visitor.Keeps.update_breakDest _ _
    | exact Visitor.Keeps.update_continueDest _ _
    | exact Visitor.Keeps.update_continueDest_post _ _ _
    | exact Visitor.Keeps.update_summaries _ _ _
    | apply Visitor.Keeps.keeps_forEach
    | intro _
    | split
    | (show Visitor.Keeps _ _ _ _ (fun _ => Known.top); split)
    | dsimp only)

theorem CHC.eraseKnowledge_inv {b : Bool} (K : Known) :
    Visitor.Keeps b b K CHC.eraseKnowledge (fun _ => Known.top) := by
  unfold CHC.eraseKnowledge
  repeat' (first
    | with_reducible exact SMTEncoder.resetStateVariables_inv _
    | with_reducible exact CHC.connectBlocks_inv _ _ _ _
    | with_reducible exact CHC.createSymbolicBlock_inv _ _ _
    | with_reducible exact CHC.createErrorBlock_inv _
    | with_reducible exact CHC.query_inv _ _ _
    | with_reducible exact CHC.reset_inv _
    | with_reducible exact CHC.uniquePrefix_inv _
    | exact Visitor.Keeps.keeps_defineExpr _ _ _
    | exact Visitor.Keeps.keeps_assignment _ _ _
    | apply Visitor.Keeps.same_bind
    | apply Visitor.Keeps.keeps_bind
    | exact Visitor.Keeps.keeps_solAssert _ _ _
    | exact Visitor.Keeps.pure_block _ _
    | exact Visitor.Keeps.pure_free _ _
    | exact Visitor.Keeps.pure_term _ _
    | exact Visitor.Keeps.pure_freeList _ _
    | exact Visitor.Keeps.pure_symbol _ _
    | exact Visitor.Keeps.pure_some _ _
    | exact Visitor.Keeps.pure_none _
    | exact Visitor.Keeps.pure_top _ _
    | exact Visitor.Keeps.read_block _
    | exact Visitor.Keeps.read_breakDest _
    | exact Visitor.Keeps.read_continueDest _
    | (refine Visitor.Keeps.read_free _ _ (fun _ => ?_); simp; done)
    | (refine Visitor.Keeps.read_freeList _ _ (fun _ => ?_); simp [smt.Expression.predicatesOfAll_map_free]; done)
    | (refine Visitor.Keeps.read_freeList _ _ (fun _ => ?_); split <;> simp [smt.Expression.predicatesOfAll_map_free]; done)
    | exact Visitor.Keeps.read_top _ _
    | exact Visitor.Keeps.deref_genesis _ _
    | exact Visitor.Keeps.deref_interface _ _
    | exact Visitor.Keeps.deref_error _ _
    | exact Visitor.Keeps.deref_constructor _ _
    | exact Visitor.Keeps.deref_breakDest _ _
    | exact Visitor.Keeps.deref_continueDest _ _
    | exact Visitor.Keeps.deref_summary _ _ _
    | exact Visitor.Keeps.deref_top _ _ _
    | exact Visitor.Keeps.update_frame _ _ (fun _ => ⟨rfl, rfl, rfl, rfl, rfl, rfl, rfl, rfl, rfl, rfl, rfl⟩)
    | (refine Visitor.Keeps.update_frame _ _ (fun _ => ⟨rfl, rfl, ?_, rfl, rfl, rfl, rfl, rfl, rfl, rfl, rfl⟩); simp; done)
    | exact Visitor.Keeps.update_popSolver _
    | exact Visitor.Keeps.update_pushSolver _
    | exact Visitor.Keeps.update_resetContext _
    | exact Visitor.Keeps.update_clearContext _
    | exact Visitor.Keeps.update_enterFunction _
    | exact Visitor.Keeps.keeps_addAssertion _ _
    | (refine Visitor.Keeps.addAssertion_free _ _ (fun _ => ?_); simp; done)
    | exact Visitor.Keeps.keeps_setZeroValue _ _
    | exact Visitor.Keeps.update_block _ _
    | exact Visitor.Keeps.update_genesisPredicate _ _
    | exact Visitor.Keeps.update_interfacePredicate _ _
    | exact Visitor.Keeps.update_errorPredicate _ _
    | exact Visitor.Keeps.update_constructorPredicate _ _
    | exact Visitor.Keeps.update_breakDest_some _ _
    | exact Visitor.Keeps.update_continueDest_some _ _
    | exact Visitor.Keeps.update_breakDest _ _
    | exact Visitor.Keeps.update_continueDest _ _
    | exact Visitor.Keeps.update_continueDest_post _ _ _
    | exact Visitor.Keeps.update_summaries _ _ _
    | apply Visitor.Keeps.keeps_forEach
    | intro _
    | split
    | (show Visitor.Keeps _ _ _ _ (fun _ => Known.top); split)
    | dsimp only)

theorem SMTEncoder.initContract_inv {b : Bool} (K : Known) (c : ContractDefinition) :
    Visitor.Keeps b b K (SMTEncoder.initContract c) (fun _ => Known.top) := by
  unfold SMTEncoder.initContract
  repeat' (first
    | with_reducible exact SMTEncoder.createVariable_inv _ _
    | with_reducible exact CHC.clearIndices_inv _ _ _
    | with_reducible exact CHC.connectBlocks_inv _ _ _ _
    | with_reducible exact CHC.createSymbolicBlock_inv _ _ _
    | with_reducible exact CHC.createErrorBlock_inv _
    | with_reducible exact CHC.query_inv _ _ _
    | with_reducible exact CHC.reset_inv _
    | with_reducible exact CHC.uniquePrefix_inv _
    | exact Visitor.Keeps.keeps_defineExpr _ _ _
    | exact Visitor.Keeps.keeps_assignment _ _ _
    | apply Visitor.Keeps.same_bind
    | apply Visitor.Keeps.keeps_bind
    | exact Visitor.Keeps.keeps_solAssert _ _ _
    | exact Visitor.Keeps.pure_block _ _
    | exact Visitor.Keeps.pure_free _ _
    | exact Visitor.Keeps.pure_term _ _
    | exact Visitor.Keeps.pure_freeList _ _
    | exact Visitor.Keeps.pure_symbol _ _
    | exact Visitor.Keeps.pure_some _ _
    | exact Visitor.Keeps.pure_none _
    | exact Visitor.Keeps.pure_top _ _
    | exact Visitor.Keeps.read_block _
    | exact Visitor.Keeps.read_breakDest _
    | exact Visitor.Keeps.read_continueDest _
    | (refine Visitor.Keeps.read_free _ _ (fun _ => ?_); simp; done)
    | (refine Visitor.Keeps.read_freeList _ _ (fun _ => ?_); simp [smt.Expression.predicatesOfAll_map_free]; done)
    | (refine Visitor.Keeps.read_freeList _ _ (fun _ => ?_); split <;> simp [smt.Expression.predicatesOfAll_map_free]; done)
    | exact Visitor.Keeps.read_top _ _
    | exact Visitor.Keeps.deref_genesis _ _
    | exact Visitor.Keeps.deref_interface _ _
    | exact Visitor.Keeps.deref_error _ _
    | exact Visitor.Keeps.deref_constructor _ _
    | exact Visitor.Keeps.deref_breakDest _ _
    | exact Visitor.Keeps.deref_continueDest _ _
    | exact Visitor.Keeps.deref_summary _ _ _
    | exact Visitor.Keeps.deref_top _ _ _
    | exact Visitor.Keeps.update_frame _ _ (fun _ => ⟨rfl, rfl, rfl, rfl, rfl, rfl, rfl, rfl, rfl, rfl, rfl⟩)
    | (refine Visitor.Keeps.update_frame _ _ (fun _ => ⟨rfl, rfl, ?_, rfl, rfl, rfl, rfl, rfl, rfl, rfl, rfl⟩); simp; done)
    | exact Visitor.Keeps.update_popSolver _
    | exact Visitor.Keeps.update_pushSolver _
    | exact Visitor.Keeps.update_resetContext _
    | exact Visitor.Keeps.update_clearContext _
    | exact Visitor.Keeps.update_enterFunction _
    | exact Visitor.Keeps.keeps_addAssertion _ _
    | (refine Visitor.Keeps.addAssertion_free _ _ (fun _ => ?_); simp; done)
    | exact Visitor.Keeps.keeps_setZeroValue _ _
    | exact Visitor.Keeps.update_block _ _
    | exact Visitor.Keeps.update_genesisPredicate _ _
    | exact Visitor.Keeps.update_interfacePredicate _ _
    | exact Visitor.Keeps.update_errorPredicate _ _
    | exact Visitor.Keeps.update_constructorPredicate _ _
    | exact Visitor.Keeps.update_breakDest_some _ _
    | exact Visitor.Keeps.update_continueDest_some _ _
    | exact Visitor.Keeps.update_breakDest _ _
    | exact Visitor.Keeps.update_continueDest _ _
    | exact Visitor.Keeps.update_continueDest_post _ _ _
    | exact Visitor.Keeps.update_summaries _ _ _
    | apply Visitor.Keeps.keeps_forEach
    | intro _
    | split
    | (show Visitor.Keeps _ _ _ _ (fun _ => Known.top); split)
    | dsimp only)

theorem SMTEncoder.initFunction_inv {b : Bool} (K : Known) (f : FunctionDefinition) :
    Visitor.Keeps b b K (SMTEncoder.initFunction f) (fun _ => Known.top) := by
  unfold SMTEncoder.initFunction
  repeat' (first
    | with_reducible exact SMTEncoder.createVariable_inv _ _
    | with_reducible exact CHC.clearIndices_inv _ _ _
    | with_reducible exact CHC.connectBlocks_inv _ _ _ _
    | with_reducible exact CHC.createSymbolicBlock_inv _ _ _
    | with_reducible exact CHC.createErrorBlock_inv _
    | with_reducible exact CHC.query_inv _ _ _
    | with_reducible exact CHC.reset_inv _
    | with_reducible exact CHC.uniquePrefix_inv _
    | exact Visitor.Keeps.keeps_defineExpr _ _ _
    | exact Visitor.Keeps.keeps_assignment _ _ _
    | apply Visitor.Keeps.same_bind
    | apply Visitor.Keeps.keeps_bind
    | exact Visitor.Keeps.keeps_solAssert _ _ _
    | exact Visitor.Keeps.pure_block _ _
    | exact Visitor.Keeps.pure_free _ _
    | exact Visitor.Keeps.pure_term _ _
    | exact Visitor.Keeps.pure_freeList _ _
    | exact Visitor.Keeps.pure_symbol _ _
    | exact Visitor.Keeps.pure_some _ _
    | exact Visitor.Keeps.pure_none _
    | exact Visitor.Keeps.pure_top _ _
    | exact Visitor.Keeps.read_block _
    | exact Visitor.Keeps.read_breakDest _
    | exact Visitor.Keeps.read_continueDest _
    | (refine Visitor.Keeps.read_free _ _ (fun _ => ?_); simp; done)
    | (refine Visitor.Keeps.read_freeList _ _ (fun _ => ?_); simp [smt.Expression.predicatesOfAll_map_free]; done)
    | (refine Visitor.Keeps.read_freeList _ _ (fun _ => ?_); split <;> simp [smt.Expression.predicatesOfAll_map_free]; done)
    | exact Visitor.Keeps.read_top _ _
    | exact Visitor.Keeps.deref_genesis _ _
    | exact Visitor.Keeps.deref_interface _ _
    | exact Visitor.Keeps.deref_error _ _
    | exact Visitor.Keeps.deref_constructor _ _
    | exact Visitor.Keeps.deref_breakDest _ _
    | exact Visitor.Keeps.deref_continueDest _ _
    | exact Visitor.Keeps.deref_summary _ _ _
    | exact Visitor.Keeps.deref_top _ _ _
    | exact Visitor.Keeps.update_frame _ _ (fun _ => ⟨rfl, rfl, rfl, rfl, rfl, rfl, rfl, rfl, rfl, rfl, rfl⟩)
    | (refine Visitor.Keeps.update_frame _ _ (fun _ => ⟨rfl, rfl, ?_, rfl, rfl, rfl, rfl, rfl, rfl, rfl, rfl⟩); simp; done)
    | exact Visitor.Keeps.update_popSolver _
    | exact Visitor.Keeps.update_pushSolver _
    | exact Visitor.Keeps.update_resetContext _
    | exact Visitor.Keeps.update_clearContext _
    | exact Visitor.Keeps.update_enterFunction _
    | exact Visitor.Keeps.keeps_addAssertion _ _
    | (refine Visitor.Keeps.addAssertion_free _ _ (fun _ => ?_); simp; done)
    | exact Visitor.Keeps.keeps_setZeroValue _ _
    | exact Visitor.Keeps.update_block _ _
    | exact Visitor.Keeps.update_genesisPredicate _ _
    | exact Visitor.Keeps.update_interfacePredicate _ _
    | exact Visitor.Keeps.update_errorPredicate _ _
    | exact Visitor.Keeps.update_constructorPredicate _ _
    | exact Visitor.Keeps.update_breakDest_some _ _
    | exact Visitor.Keeps.update_continueDest_some _ _
    | exact Visitor.Keeps.update_breakDest _ _
    | exact Visitor.Keeps.update_continueDest _ _
    | exact Visitor.Keeps.update_continueDest_post _ _ _
    | exact Visitor.Keeps.update_summaries _ _ _
    | apply Visitor.Keeps.keeps_forEach
    | intro _
    | split
    | (show Visitor.Keeps _ _ _ _ (fun _ => Known.top); split)
    | dsimp only)

theorem CHC.predicateCall_inv {b : Bool} (K : Known) (c : Expression) :
    Visitor.Keeps b b K (CHC.predicateCall c) Known.ofTerm := by
  unfold CHC.predicateCall
  repeat' (first
    | with_reducible exact SMTEncoder.createVariable_inv _ _
    | with_reducible exact CHC.initialStateVariables_inv _
    | with_reducible exact CHC.currentStateVariables_inv _
    | with_reducible exact CHC.connectBlocks_inv _ _ _ _
    | with_reducible exact CHC.createSymbolicBlock_inv _ _ _
    | with_reducible exact CHC.createErrorBlock_inv _
    | with_reducible exact CHC.query_inv _ _ _
    | with_reducible exact CHC.reset_inv _
    | with_reducible exact CHC.uniquePrefix_inv _
    | exact Visitor.Keeps.keeps_defineExpr _ _ _
    | exact Visitor.Keeps.keeps_assignment _ _ _
    | apply Visitor.Keeps.same_bind
    | apply Visitor.Keeps.keeps_bind
    | exact Visitor.Keeps.keeps_solAssert _ _ _
    | exact Visitor.Keeps.pure_block _ _
    | exact Visitor.Keeps.pure_free _ _
    | exact Visitor.Keeps.pure_term _ _
    | exact Visitor.Keeps.pure_freeList _ _
    | exact Visitor.Keeps.pure_symbol _ _
    | exact Visitor.Keeps.pure_some _ _
    | exact Visitor.Keeps.pure_none _
    | exact Visitor.Keeps.pure_top _ _
    | exact Visitor.Keeps.read_block _
    | exact Visitor.Keeps.read_breakDest _
    | exact Visitor.Keeps.read_continueDest _
    | (refine Visitor.Keeps.read_free _ _ (fun _ => ?_); simp; done)
    | (refine Visitor.Keeps.read_freeList _ _ (fun _ => ?_); simp [smt.Expression.predicatesOfAll_map_free]; done)
    | (refine Visitor.Keeps.read_freeList _ _ (fun _ => ?_); split <;> simp [smt.Expression.predicatesOfAll_map_free]; done)
    | exact Visitor.Keeps.read_top _ _
    | exact Visitor.Keeps.deref_genesis _ _
    | exact Visitor.Keeps.deref_interface _ _
    | exact Visitor.Keeps.deref_error _ _
    | exact Visitor.Keeps.deref_constructor _ _
    | exact Visitor.Keeps.deref_breakDest _ _
    | exact Visitor.Keeps.deref_continueDest _ _
    | exact Visitor.Keeps.deref_summary _ _ _
    | exact Visitor.Keeps.deref_top _ _ _
    | exact Visitor.Keeps.update_frame _ _ (fun _ => ⟨rfl, rfl, rfl, rfl, rfl, rfl, rfl, rfl, rfl, rfl, rfl⟩)
    | (refine Visitor.Keeps.update_frame _ _ (fun _ => ⟨rfl, rfl, ?_, rfl, rfl, rfl, rfl, rfl, rfl, rfl, rfl⟩); simp; done)
    | exact Visitor.Keeps.update_popSolver _
    | exact Visitor.Keeps.update_pushSolver _
    | exact Visitor.Keeps.update_resetContext _
    | exact Visitor.Keeps.update_clearContext _
    | exact Visitor.Keeps.update_enterFunction _
    | exact Visitor.Keeps.keeps_addAssertion _ _
    | (refine Visitor.Keeps.addAssertion_free _ _ (fun _ => ?_); simp; done)
    | exact Visitor.Keeps.keeps_setZeroValue _ _
    | exact Visitor.Keeps.update_block _ _
    | exact Visitor.Keeps.update_genesisPredicate _ _
    | exact Visitor.Keeps.update_interfacePredicate _ _
    | exact Visitor.Keeps.update_errorPredicate _ _
    | exact Visitor.Keeps.update_constructorPredicate _ _
    | exact Visitor.Keeps.update_breakDest_some _ _
    | exact Visitor.Keeps.update_continueDest_some _ _
    | exact Visitor.Keeps.update_breakDest _ _
    | exact Visitor.Keeps.update_continueDest _ _
    | exact Visitor.Keeps.update_continueDest_post _ _ _
    | exact Visitor.Keeps.update_summaries _ _ _
    | apply Visitor.Keeps.keeps_forEach
    | intro _
    | split
    | (show Visitor.Keeps _ _ _ _ (fun _ => Known.top); split)
    | dsimp only)

theorem CHC.visitAssert_inv (K : Known) (c : Expression) :
    Visitor.Keeps true true K (CHC.visitAssert c) (fun _ => Known.top) := by
  unfold CHC.visitAssert
  repeat' (first
    | with_reducible exact CHC.createBlock_inv _ _ _
    | with_reducible exact CHC.setCurrentBlock_inv _ _
    | with_reducible exact CHC.predicate_inv _ _
    | with_reducible exact CHC.summary_inv _ _
    | with_reducible exact CHC.eraseKnowledge_inv _
    | with_reducible exact SMTEncoder.currentPathConditions_inv _
    | with_reducible exact SMTEncoder.expr_inv _ _
    | with_reducible exact CHC.connectBlocks_inv _ _ _ _
    | with_reducible exact CHC.createSymbolicBlock_inv _ _ _
    | with_reducible exact CHC.createErrorBlock_inv _
    | with_reducible exact CHC.query_inv _ _ _
    | with_reducible exact CHC.reset_inv _
    | with_reducible exact CHC.uniquePrefix_inv _
    | exact Visitor.Keeps.keeps_defineExpr _ _ _
    | exact Visitor.Keeps.keeps_assignment _ _ _
    | apply Visitor.Keeps.same_bind
    | apply Visitor.Keeps.keeps_bind
    | exact Visitor.Keeps.keeps_solAssert _ _ _
    | exact Visitor.Keeps.pure_block _ _
    | exact Visitor.Keeps.pure_free _ _
    | exact Visitor.Keeps.pure_term _ _
    | exact Visitor.Keeps.pure_freeList _ _
    | exact Visitor.Keeps.pure_symbol _ _
    | exact Visitor.Keeps.pure_some _ _
    | exact Visitor.Keeps.pure_none _
    | exact Visitor.Keeps.pure_top _ _
    | exact Visitor.Keeps.read_block _
    | exact Visitor.Keeps.read_breakDest _
    | exact Visitor.Keeps.read_continueDest _
    | (refine Visitor.Keeps.read_free _ _ (fun _ => ?_); simp; done)
    | (refine Visitor.Keeps.read_freeList _ _ (fun _ => ?_); simp [smt.Expression.predicatesOfAll_map_free]; done)
    | (refine Visitor.Keeps.read_freeList _ _ (fun _ => ?_); split <;> simp [smt.Expression.predicatesOfAll_map_free]; done)
    | exact Visitor.Keeps.read_top _ _
    | exact Visitor.Keeps.deref_genesis _ _
    | exact Visitor.Keeps.deref_interface _ _
    | exact Visitor.Keeps.deref_error _ _
    | exact Visitor.Keeps.deref_constructor _ _
    | exact Visitor.Keeps.deref_breakDest _ _
    | exact Visitor.Keeps.deref_continueDest _ _
    | exact Visitor.Keeps.deref_summary _ _ _
    | exact Visitor.Keeps.deref_top _ _ _
    | exact Visitor.Keeps.update_frame _ _ (fun _ => ⟨rfl, rfl, rfl, rfl, rfl, rfl, rfl, rfl, rfl, rfl, rfl⟩)
    | (refine Visitor.Keeps.update_frame _ _ (fun _ => ⟨rfl, rfl, ?_, rfl, rfl, rfl, rfl, rfl, rfl, rfl, rfl⟩); simp; done)
    | exact Visitor.Keeps.update_popSolver _
    | exact Visitor.Keeps.update_pushSolver _
    | exact Visitor.Keeps.update_resetContext _
    | exact Visitor.Keeps.update_clearContext _
    | exact Visitor.Keeps.update_enterFunction _
    | exact Visitor.Keeps.keeps_addAssertion _ _
    | (refine Visitor.Keeps.addAssertion_free _ _ (fun _ => ?_); simp; done)
    | exact Visitor.Keeps.keeps_setZeroValue _ _
    | exact Visitor.Keeps.update_block _ _
    | exact Visitor.Keeps.update_genesisPredicate _ _
    | exact Visitor.Keeps.update_interfacePredicate _ _
    | exact Visitor.Keeps.update_errorPredicate _ _
    | exact Visitor.Keeps.update_constructorPredicate _ _
    | exact Visitor.Keeps.update_breakDest_some _ _
    | exact Visitor.Keeps.update_continueDest_some _ _
    | exact Visitor.Keeps.update_breakDest _ _
    | exact Visitor.Keeps.update_continueDest _ _
    | exact Visitor.Keeps.update_continueDest_post _ _ _
    | exact Visitor.Keeps.update_summaries _ _ _
    | apply Visitor.Keeps.keeps_forEach
    | intro _
    | split
    | (show Visitor.Keeps _ _ _ _ (fun _ => Known.top); split)
    | dsimp only)

theorem CHC.internalFunctionCall_inv (K : Known) (c : Expression) :
    Visitor.Keeps true true K (CHC.internalFunctionCall c) (fun _ => Known.top) := by
  unfold CHC.internalFunctionCall
  repeat' (first
    | with_reducible exact CHC.predicateCall_inv _ _
    | with_reducible exact CHC.createBlock_inv _ _ _
    | with_reducible exact CHC.setCurrentBlock_inv _ _
    | with_reducible exact CHC.predicate_inv _ _
    | with_reducible exact CHC.summary_inv _ _
    | with_reducible exact CHC.eraseKnowledge_inv _
    | with_reducible exact SMTEncoder.currentPathConditions_inv _
    | with_reducible exact SMTEncoder.expr_inv _ _
    | with_reducible exact CHC.connectBlocks_inv _ _ _ _
    | with_reducible exact CHC.createSymbolicBlock_inv _ _ _
    | with_reducible exact CHC.createErrorBlock_inv _
    | with_reducible exact CHC.query_inv _ _ _
    | with_reducible exact CHC.reset_inv _
    | with_reducible exact CHC.uniquePrefix_inv _
    | exact Visitor.Keeps.keeps_defineExpr _ _ _
    | exact Visitor.Keeps.keeps_assignment _ _ _
    | apply Visitor.Keeps.same_bind
    | apply Visitor.Keeps.keeps_bind
    | exact Visitor.Keeps.keeps_solAssert _ _ _
    | exact Visitor.Keeps.pure_block _ _
    | exact Visitor.Keeps.pure_free _ _
    | exact Visitor.Keeps.pure_term _ _
    | exact Visitor.Keeps.pure_freeList _ _
    | exact Visitor.Keeps.pure_symbol _ _
    | exact Visitor.Keeps.pure_some _ _
    | exact Visitor.Keeps.pure_none _
    | exact Visitor.Keeps.pure_top _ _
    | exact Visitor.Keeps.read_block _
    | exact Visitor.Keeps.read_breakDest _
    | exact Visitor.Keeps.read_continueDest _
    | (refine Visitor.Keeps.read_free _ _ (fun _ => ?_); simp; done)
    | (refine Visitor.Keeps.read_freeList _ _ (fun _ => ?_); simp [smt.Expression.predicatesOfAll_map_free]; done)
    | (refine Visitor.Keeps.read_freeList _ _ (fun _ => ?_); split <;> simp [smt.Expression.predicatesOfAll_map_free]; done)
    | exact Visitor.Keeps.read_top _ _
    | exact Visitor.Keeps.deref_genesis _ _
    | exact Visitor.Keeps.deref_interface _ _
    | exact Visitor.Keeps.deref_error _ _
    | exact Visitor.Keeps.deref_constructor _ _
    | exact Visitor.Keeps.deref_breakDest _ _
    | exact Visitor.Keeps.deref_continueDest _ _
    | exact Visitor.Keeps.deref_summary _ _ _
    | exact Visitor.Keeps.deref_top _ _ _
    | exact Visitor.Keeps.update_frame _ _ (fun _ => ⟨rfl, rfl, rfl, rfl, rfl, rfl, rfl, rfl, rfl, rfl, rfl⟩)
    | (refine Visitor.Keeps.update_frame _ _ (fun _ => ⟨rfl, rfl, ?_, rfl, rfl, rfl, rfl, rfl, rfl, rfl, rfl⟩); simp; done)
    | exact Visitor.Keeps.update_popSolver _
    | exact Visitor.Keeps.update_pushSolver _
    | exact Visitor.Keeps.update_resetContext _
    | exact Visitor.Keeps.update_clearContext _
    | exact Visitor.Keeps.update_enterFunction _
    | exact Visitor.Keeps.keeps_addAssertion _ _
    | (refine Visitor.Keeps.addAssertion_free _ _ (fun _ => ?_); simp; done)
    | exact Visitor.Keeps.keeps_setZeroValue _ _
    | exact Visitor.Keeps.update_block _ _
    | exact Visitor.Keeps.update_genesisPredicate _ _
    | exact Visitor.Keeps.update_interfacePredicate _ _
    | exact Visitor.Keeps.update_errorPredicate _ _
    | exact Visitor.Keeps.update_constructorPredicate _ _
    | exact Visitor.Keeps.update_breakDest_some _ _
    | exact Visitor.Keeps.update_continueDest_some _ _
    | exact Visitor.Keeps.update_breakDest _ _
    | exact Visitor.Keeps.update_continueDest _ _
    | exact Visitor.Keeps.update_continueDest_post _ _ _
    | exact Visitor.Keeps.update_summaries _ _ _
    | apply Visitor.Keeps.keeps_forEach
    | intro _
    | split
    | (show Visitor.Keeps _ _ _ _ (fun _ => Known.top); split)
    | dsimp only)

theorem CHC.unknownFunctionCall_inv {b : Bool} (K : Known) (c : Expression) :
    Visitor.Keeps b b K (CHC.unknownFunctionCall c) (fun _ => Known.top) := by
  unfold CHC.unknownFunctionCall
  repeat' (first
    | with_reducible exact CHC.createBlock_inv _ _ _
    | with_reducible exact CHC.setCurrentBlock_inv _ _
    | with_reducible exact CHC.predicate_inv _ _
    | with_reducible exact CHC.summary_inv _ _
    | with_reducible exact CHC.eraseKnowledge_inv _
    | with_reducible exact SMTEncoder.currentPathConditions_inv _
    | with_reducible exact SMTEncoder.expr_inv _ _
    | with_reducible exact CHC.connectBlocks_inv _ _ _ _
    | with_reducible exact CHC.createSymbolicBlock_inv _ _ _
    | with_reducible exact CHC.createErrorBlock_inv _
    | with_reducible exact CHC.query_inv _ _ _
    | with_reducible exact CHC.reset_inv _
    | with_reducible exact CHC.uniquePrefix_inv _
    | exact Visitor.Keeps.keeps_defineExpr _ _ _
    | exact Visitor.Keeps.keeps_assignment _ _ _
    | apply Visitor.Keeps.same_bind
    | apply Visitor.Keeps.keeps_bind
    | exact Visitor.Keeps.keeps_solAssert _ _ _
    | exact Visitor.Keeps.pure_block _ _
    | exact Visitor.Keeps.pure_free _ _
    | exact Visitor.Keeps.pure_term _ _
    | exact Visitor.Keeps.pure_freeList _ _
    | exact Visitor.Keeps.pure_symbol _ _
    | exact Visitor.Keeps.pure_some _ _
    | exact Visitor.Keeps.pure_none _
    | exact Visitor.Keeps.pure_top _ _
    | exact Visitor.Keeps.read_block _
    | exact Visitor.Keeps.read_breakDest _
    | exact Visitor.Keeps.read_continueDest _
    | (refine Visitor.Keeps.read_free _ _ (fun _ => ?_); simp; done)
    | (refine Visitor.Keeps.read_freeList _ _ (fun _ => ?_); simp [smt.Expression.predicatesOfAll_map_free]; done)
    | (refine Visitor.Keeps.read_freeList _ _ (fun _ => ?_); split <;> simp [smt.Expression.predicatesOfAll_map_free]; done)
    | exact Visitor.Keeps.read_top _ _
    | exact Visitor.Keeps.deref_genesis _ _
    | exact Visitor.Keeps.deref_interface _ _
    | exact Visitor.Keeps.deref_error _ _
    | exact Visitor.Keeps.deref_constructor _ _
    | exact Visitor.Keeps.deref_breakDest _ _
    | exact Visitor.Keeps.deref_continueDest _ _
    | exact Visitor.Keeps.deref_summary _ _ _
    | exact Visitor.Keeps.deref_top _ _ _
    | exact Visitor.Keeps.update_frame _ _ (fun _ => ⟨rfl, rfl, rfl, rfl, rfl, rfl, rfl, rfl, rfl, rfl, rfl⟩)
    | (refine Visitor.Keeps.update_frame _ _ (fun _ => ⟨rfl, rfl, ?_, rfl, rfl, rfl, rfl, rfl, rfl, rfl, rfl⟩); simp; done)
    | exact Visitor.Keeps.update_popSolver _
    | exact Visitor.Keeps.update_pushSolver _
    | exact Visitor.Keeps.update_resetContext _
    | exact Visitor.Keeps.update_clearContext _
    | exact Visitor.Keeps.update_enterFunction _
    | exact Visitor.Keeps.keeps_addAssertion _ _
    | (refine Visitor.Keeps.addAssertion_free _ _ (fun _ => ?_); simp; done)
    | exact Visitor.Keeps.keeps_setZeroValue _ _
    | exact Visitor.Keeps.update_block _ _
    | exact Visitor.Keeps.update_genesisPredicate _ _
    | exact Visitor.Keeps.update_interfacePredicate _ _
    | exact Visitor.Keeps.update_errorPredicate _ _
    | exact Visitor.Keeps.update_constructorPredicate _ _
    | exact Visitor.Keeps.update_breakDest_some _ _
    | exact Visitor.Keeps.update_continueDest_some _ _
    | exact Visitor.Keeps.update_breakDest _ _
    | exact Visitor.Keeps.update_continueDest _ _
    | exact Visitor.Keeps.update_continueDest_post _ _ _
    | exact Visitor.Keeps.update_summaries _ _ _
    | apply Visitor.Keeps.keeps_forEach
    | intro _
    | split
    | (show Visitor.Keeps _ _ _ _ (fun _ => Known.top); split)
    | dsimp only)

set_option maxHeartbeats 4000000 in
theorem CHC.endVisitFunctionCall_inv (K : Known) (c : Expression) :
    Visitor.Keeps true true K (CHC.endVisitFunctionCall c) (fun _ => Known.top) := by
  unfold CHC.endVisitFunctionCall
  generalize c.functionKind = fk
  cases fk <;>
  repeat' (first
    | with_reducible exact CHC.visitAssert_inv _ _
    | with_reducible exact CHC.internalFunctionCall_inv _ _
    | with_reducible exact CHC.unknownFunctionCall_inv _ _
    | with_reducible exact SMTEncoder.baseEndVisitFunctionCall_inv _ _
    | with_reducible exact SMTEncoder.createReturnedExpressions_inv _ _
    | with_reducible exact CHC.connectBlocks_inv _ _ _ _
    | with_reducible exact CHC.createSymbolicBlock_inv _ _ _
    | with_reducible exact CHC.createErrorBlock_inv _
    | with_reducible exact CHC.query_inv _ _ _
    | with_reducible exact CHC.reset_inv _
    | with_reducible exact CHC.uniquePrefix_inv _
    | exact Visitor.Keeps.keeps_defineExpr _ _ _
    | exact Visitor.Keeps.keeps_assignment _ _ _
    | apply Visitor.Keeps.same_bind
    | apply Visitor.Keeps.keeps_bind
    | exact Visitor.Keeps.keeps_solAssert _ _ _
    | exact Visitor.Keeps.pure_block _ _
    | exact Visitor.Keeps.pure_free _ _
    | exact Visitor.Keeps.pure_term _ _
    | exact Visitor.Keeps.pure_freeList _ _
    | exact Visitor.Keeps.pure_symbol _ _
    | exact Visitor.Keeps.pure_some _ _
    | exact Visitor.Keeps.pure_none _
    | exact Visitor.Keeps.pure_top _ _
    | exact Visitor.Keeps.read_block _
    | exact Visitor.Keeps.read_breakDest _
    | exact Visitor.Keeps.read_continueDest _
    | (refine Visitor.Keeps.read_free _ _ (fun _ => ?_); simp; done)
    | (refine Visitor.Keeps.read_freeList _ _ (fun _ => ?_); simp [smt.Expression.predicatesOfAll_map_free]; done)
    | (refine Visitor.Keeps.read_freeList _ _ (fun _ => ?_); split <;> simp [smt.Expression.predicatesOfAll_map_free]; done)
    | exact Visitor.Keeps.read_top _ _
    | exact Visitor.Keeps.deref_genesis _ _
    | exact Visitor.Keeps.deref_interface _ _
    | exact Visitor.Keeps.deref_error _ _
    | exact Visitor.Keeps.deref_constructor _ _
    | exact Visitor.Keeps.deref_breakDest _ _
    | exact Visitor.Keeps.deref_continueDest _ _
    | exact Visitor.Keeps.deref_summary _ _ _
    | exact Visitor.Keeps.deref_top _ _ _
    | exact Visitor.Keeps.update_frame _ _ (fun _ => ⟨rfl, rfl, rfl, rfl, rfl, rfl, rfl, rfl, rfl, rfl, rfl⟩)
    | (refine Visitor.Keeps.update_frame _ _ (fun _ => ⟨rfl, rfl, ?_, rfl, rfl, rfl, rfl, rfl, rfl, rfl, rfl⟩); simp; done)
    | exact Visitor.Keeps.update_popSolver _
    | exact Visitor.Keeps.update_pushSolver _
    | exact Visitor.Keeps.update_resetContext _
    | exact Visitor.Keeps.update_clearContext _
    | exact Visitor.Keeps.update_enterFunction _
    | exact Visitor.Keeps.keeps_addAssertion _ _
    | (refine Visitor.Keeps.addAssertion_free _ _ (fun _ => ?_); simp; done)
    | exact Visitor.Keeps.keeps_setZeroValue _ _
    | exact Visitor.Keeps.update_block _ _
    | exact Visitor.Keeps.update_genesisPredicate _ _
    | exact Visitor.Keeps.update_interfacePredicate _ _
    | exact Visitor.Keeps.update_errorPredicate _ _
    | exact Visitor.Keeps.update_constructorPredicate _ _
    | exact Visitor.Keeps.update_breakDest_some _ _
    | exact Visitor.Keeps.update_continueDest_some _ _
    | exact Visitor.Keeps.update_breakDest _ _
    | exact Visitor.Keeps.update_continueDest _ _
    | exact Visitor.Keeps.update_continueDest_post _ _ _
    | exact Visitor.Keeps.update_summaries _ _ _
    | apply Visitor.Keeps.keeps_forEach
    | intro _
    | split
    | (show Visitor.Keeps _ _ _ _ (fun _ => Known.top); split)
    | dsimp only)

theorem CHC.endVisitBreak_inv (K : Known) (i : Nat) :
    Visitor.Keeps true true K (CHC.endVisitBreak i) (fun _ => Known.top) := by
  unfold CHC.endVisitBreak
  repeat' (first
    | with_reducible exact CHC.createBlock_inv _ _ _
    | with_reducible exact CHC.setCurrentBlock_inv _ _
    | with_reducible exact CHC.predicate_inv _ _
    | with_reducible exact CHC.summary_inv _ _
    | with_reducible exact CHC.eraseKnowledge_inv _
    | with_reducible exact SMTEncoder.currentPathConditions_inv _
    | with_reducible exact SMTEncoder.expr_inv _ _
    | with_reducible exact CHC.connectBlocks_inv _ _ _ _
    | with_reducible exact CHC.createSymbolicBlock_inv _ _ _
    | with_reducible exact CHC.createErrorBlock_inv _
    | with_reducible exact CHC.query_inv _ _ _
    | with_reducible exact CHC.reset_inv _
    | with_reducible exact CHC.uniquePrefix_inv _
    | exact Visitor.Keeps.keeps_defineExpr _ _ _
    | exact Visitor.Keeps.keeps_assignment _ _ _
    | apply Visitor.Keeps.same_bind
    | apply Visitor.Keeps.keeps_bind
    | exact Visitor.Keeps.keeps_solAssert _ _ _
    | exact Visitor.Keeps.pure_block _ _
    | exact Visitor.Keeps.pure_free _ _
    | exact Visitor.Keeps.pure_term _ _
    | exact Visitor.Keeps.pure_freeList _ _
    | exact Visitor.Keeps.pure_symbol _ _
    | exact Visitor.Keeps.pure_some _ _
    | exact Visitor.Keeps.pure_none _
    | exact Visitor.Keeps.pure_top _ _
    | exact Visitor.Keeps.read_block _
    | exact Visitor.Keeps.read_breakDest _
    | exact Visitor.Keeps.read_continueDest _
    | (refine Visitor.Keeps.read_free _ _ (fun _ => ?_); simp; done)
    | (refine Visitor.Keeps.read_freeList _ _ (fun _ => ?_); simp [smt.Expression.predicatesOfAll_map_free]; done)
    | (refine Visitor.Keeps.read_freeList _ _ (fun _ => ?_); split <;> simp [smt.Expression.predicatesOfAll_map_free]; done)
    | exact Visitor.Keeps.read_top _ _
    | exact Visitor.Keeps.deref_genesis _ _
    | exact Visitor.Keeps.deref_interface _ _
    | exact Visitor.Keeps.deref_error _ _
    | exact Visitor.Keeps.deref_constructor _ _
    | exact Visitor.Keeps.deref_breakDest _ _
    | exact Visitor.Keeps.deref_continueDest _ _
    | exact Visitor.Keeps.deref_summary _ _ _
    | exact Visitor.Keeps.deref_top _ _ _
    | exact Visitor.Keeps.update_frame _ _ (fun _ => ⟨rfl, rfl, rfl, rfl, rfl, rfl, rfl, rfl, rfl, rfl, rfl⟩)
    | (refine Visitor.Keeps.update_frame _ _ (fun _ => ⟨rfl, rfl, ?_, rfl, rfl, rfl, rfl, rfl, rfl, rfl, rfl⟩); simp; done)
    | exact Visitor.Keeps.update_popSolver _
    | exact Visitor.Keeps.update_pushSolver _
    | exact Visitor.Keeps.update_resetContext _
    | exact Visitor.Keeps.update_clearContext _
    | exact Visitor.Keeps.update_enterFunction _
    | exact Visitor.Keeps.keeps_addAssertion _ _
    | (refine Visitor.Keeps.addAssertion_free _ _ (fun _ => ?_); simp; done)
    | exact Visitor.Keeps.keeps_setZeroValue _ _
    | exact Visitor.Keeps.update_block _ _
    | exact Visitor.Keeps.update_genesisPredicate _ _
    | exact Visitor.Keeps.update_interfacePredicate _ _
    | exact Visitor.Keeps.update_errorPredicate _ _
    | exact Visitor.Keeps.update_constructorPredicate _ _
    | exact Visitor.Keeps.update_breakDest_some _ _
    | exact Visitor.Keeps.update_continueDest_some _ _
    | exact Visitor.Keeps.update_breakDest _ _
    | exact Visitor.Keeps.update_continueDest _ _
    | exact Visitor.Keeps.update_continueDest_post _ _ _
    | exact Visitor.Keeps.update_summaries _ _ _
    | apply Visitor.Keeps.keeps_forEach
    | intro _
    | split
    | (show Visitor.Keeps _ _ _ _ (fun _ => Known.top); split)
    | dsimp only)

theorem CHC.endVisitContinue_inv (K : Known) (i : Nat) :
    Visitor.Keeps true true K (CHC.endVisitContinue i) (fun _ => Known.top) := by
  unfold CHC.endVisitContinue
  repeat' (first
    | with_reducible exact CHC.createBlock_inv _ _ _
    | with_reducible exact CHC.setCurrentBlock_inv _ _
    | with_reducible exact CHC.predicate_inv _ _
    | with_reducible exact CHC.summary_inv _ _
    | with_reducible exact CHC.eraseKnowledge_inv _
    | with_reducible exact SMTEncoder.currentPathConditions_inv _
    | with_reducible exact SMTEncoder.expr_inv _ _
    | with_reducible exact CHC.connectBlocks_inv _ _ _ _
    | with_reducible exact CHC.createSymbolicBlock_inv _ _ _
    | with_reducible exact CHC.createErrorBlock_inv _
    | with_reducible exact CHC.query_inv _ _ _
    | with_reducible exact CHC.reset_inv _
    | with_reducible exact CHC.uniquePrefix_inv _
    | exact Visitor.Keeps.keeps_defineExpr _ _ _
    | exact Visitor.Keeps.keeps_assignment _ _ _
    | apply Visitor.Keeps.same_bind
    | apply Visitor.Keeps.keeps_bind
    | exact Visitor.Keeps.keeps_solAssert _ _ _
    | exact Visitor.Keeps.pure_block _ _
    | exact Visitor.Keeps.pure_free _ _
    | exact Visitor.Keeps.pure_term _ _
    | exact Visitor.Keeps.pure_freeList _ _
    | exact Visitor.Keeps.pure_symbol _ _
    | exact Visitor.Keeps.pure_some _ _
    | exact Visitor.Keeps.pure_none _
    | exact Visitor.Keeps.pure_top _ _
    | exact Visitor.Keeps.read_block _
    | exact Visitor.Keeps.read_breakDest _
    | exact Visitor.Keeps.read_continueDest _
    | (refine Visitor.Keeps.read_free _ _ (fun _ => ?_); simp; done)
    | (refine Visitor.Keeps.read_freeList _ _ (fun _ => ?_); simp [smt.Expression.predicatesOfAll_map_free]; done)
    | (refine Visitor.Keeps.read_freeList _ _ (fun _ => ?_); split <;> simp [smt.Expression.predicatesOfAll_map_free]; done)
    | exact Visitor.Keeps.read_top _ _
    | exact Visitor.Keeps.deref_genesis _ _
    | exact Visitor.Keeps.deref_interface _ _
    | exact Visitor.Keeps.deref_error _ _
    | exact Visitor.Keeps.deref_constructor _ _
    | exact Visitor.Keeps.deref_breakDest _ _
    | exact Visitor.Keeps.deref_continueDest _ _
    | exact Visitor.Keeps.deref_summary _ _ _
    | exact Visitor.Keeps.deref_top _ _ _
    | exact Visitor.Keeps.update_frame _ _ (fun _ => ⟨rfl, rfl, rfl, rfl, rfl, rfl, rfl, rfl, rfl, rfl, rfl⟩)
    | (refine Visitor.Keeps.update_frame _ _ (fun _ => ⟨rfl, rfl, ?_, rfl, rfl, rfl, rfl, rfl, rfl, rfl, rfl⟩); simp; done)
    | exact Visitor.Keeps.update_popSolver _
    | exact Visitor.Keeps.update_pushSolver _
    | exact Visitor.Keeps.update_resetContext _
    | exact Visitor.Keeps.update_clearContext _
    | exact Visitor.Keeps.update_enterFunction _
    | exact Visitor.Keeps.keeps_addAssertion _ _
    | (refine Visitor.Keeps.addAssertion_free _ _ (fun _ => ?_); simp; done)
    | exact Visitor.Keeps.keeps_setZeroValue _ _
    | exact Visitor.Keeps.update_block _ _
    | exact Visitor.Keeps.update_genesisPredicate _ _
    | exact Visitor.Keeps.update_interfacePredicate _ _
    | exact Visitor.Keeps.update_errorPredicate _ _
    | exact Visitor.Keeps.update_constructorPredicate _ _
    | exact Visitor.Keeps.update_breakDest_some _ _
    | exact Visitor.Keeps.update_continueDest_some _ _
    | exact Visitor.Keeps.update_breakDest _ _
    | exact Visitor.Keeps.update_continueDest _ _
    | exact Visitor.Keeps.update_continueDest_post _ _ _
    | exact Visitor.Keeps.update_summaries _ _ _
    | apply Visitor.Keeps.keeps_forEach
    | intro _
    | split
    | (show Visitor.Keeps _ _ _ _ (fun _ => Known.top); split)
    | dsimp only)

mutual
theorem Expression.acceptExpression_inv :
    ∀ (e : Expression) (K : Known), Visitor.Keeps true true K (e.accept) (fun _ => Known.top)
  | .Literal i category value, K => by
    rw [Expression.accept]
    repeat' (first
      | with_reducible exact CHC.endVisitFunctionCall_inv _ _
      | with_reducible exact SMTEncoder.expr_inv _ _
      | with_reducible exact SMTEncoder.currentValue_inv _ _
      | with_reducible exact CHC.connectBlocks_inv _ _ _ _
      | with_reducible exact CHC.createSymbolicBlock_inv _ _ _
      | with_reducible exact CHC.createErrorBlock_inv _
      | with_reducible exact CHC.query_inv _ _ _
      | with_reducible exact CHC.reset_inv _
      | with_reducible exact CHC.uniquePrefix_inv _
      | exact Visitor.Keeps.keeps_defineExpr _ _ _
      | exact Visitor.Keeps.keeps_assignment _ _ _
      | apply Visitor.Keeps.same_bind
      | apply Visitor.Keeps.keeps_bind
      | exact Visitor.Keeps.keeps_solAssert _ _ _
      | exact Visitor.Keeps.pure_block _ _
      | exact Visitor.Keeps.pure_free _ _
      | exact Visitor.Keeps.pure_term _ _
      | exact Visitor.Keeps.pure_freeList _ _
      | exact Visitor.Keeps.pure_symbol _ _
      | exact Visitor.Keeps.pure_some _ _
      | exact Visitor.Keeps.pure_none _
      | exact Visitor.Keeps.pure_top _ _
      | exact Visitor.Keeps.read_block _
      | exact Visitor.Keeps.read_breakDest _
      | exact Visitor.Keeps.read_continueDest _
      | (refine Visitor.Keeps.read_free _ _ (fun _ => ?_); simp; done)
      | (refine Visitor.Keeps.read_freeList _ _ (fun _ => ?_); simp [smt.Expression.predicatesOfAll_map_free]; done)
      | (refine Visitor.Keeps.read_freeList _ _ (fun _ => ?_); split <;> simp [smt.Expression.predicatesOfAll_map_free]; done)
      | exact Visitor.Keeps.read_top _ _
      | exact Visitor.Keeps.deref_genesis _ _
      | exact Visitor.Keeps.deref_interface _ _
      | exact Visitor.Keeps.deref_error _ _
      | exact Visitor.Keeps.deref_constructor _ _
      | exact Visitor.Keeps.deref_breakDest _ _
      | exact Visitor.Keeps.deref_continueDest _ _
      | exact Visitor.Keeps.deref_summary _ _ _
      | exact Visitor.Keeps.deref_top _ _ _
      | exact Visitor.Keeps.update_frame _ _ (fun _ => ⟨rfl, rfl, rfl, rfl, rfl, rfl, rfl, rfl, rfl, rfl, rfl⟩)
      | (refine Visitor.Keeps.update_frame _ _ (fun _ => ⟨rfl, rfl, ?_, rfl, rfl, rfl, rfl, rfl, rfl, rfl, rfl⟩); simp; done)
      | exact Visitor.Keeps.update_popSolver _
      | exact Visitor.Keeps.update_pushSolver _
      | exact Visitor.Keeps.update_resetContext _
      | exact Visitor.Keeps.update_clearContext _
      | exact Visitor.Keeps.update_enterFunction _
      | exact Visitor.Keeps.keeps_addAssertion _ _
      | (refine Visitor.Keeps.addAssertion_free _ _ (fun _ => ?_); simp; done)
      | exact Visitor.Keeps.keeps_setZeroValue _ _
      | exact Visitor.Keeps.update_block _ _
      | exact Visitor.Keeps.update_genesisPredicate _ _
      | exact Visitor.Keeps.update_interfacePredicate _ _
      | exact Visitor.Keeps.update_errorPredicate _ _
      | exact Visitor.Keeps.update_constructorPredicate _ _
      | exact Visitor.Keeps.update_breakDest_some _ _
      | exact Visitor.Keeps.update_continueDest_some _ _
      | exact Visitor.Keeps.update_breakDest _ _
      | exact Visitor.Keeps.update_continueDest _ _
      | exact Visitor.Keeps.update_continueDest_post _ _ _
      | exact Visitor.Keeps.update_summaries _ _ _
      | apply Visitor.Keeps.keeps_forEach
      | intro _
      | split
      | (show Visitor.Keeps _ _ _ _ (fun _ => Known.top); split)
      | dsimp only)
  | .Identifier i category decl, K => by
    rw [Expression.accept]
    repeat' (first
      | with_reducible exact CHC.endVisitFunctionCall_inv _ _
      | with_reducible exact SMTEncoder.expr_inv _ _
      | with_reducible exact SMTEncoder.currentValue_inv _ _
      | with_reducible exact CHC.connectBlocks_inv _ _ _ _
      | with_reducible exact CHC.createSymbolicBlock_inv _ _ _
      | with_reducible exact CHC.createErrorBlock_inv _
      | with_reducible exact CHC.query_inv _ _ _
      | with_reducible exact CHC.reset_inv _
      | with_reducible exact CHC.uniquePrefix_inv _
      | exact Visitor.Keeps.keeps_defineExpr _ _ _
      | exact Visitor.Keeps.keeps_assignment _ _ _
      | apply Visitor.Keeps.same_bind
      | apply Visitor.Keeps.keeps_bind
      | exact Visitor.Keeps.keeps_solAssert _ _ _
      | exact Visitor.Keeps.pure_block _ _
      | exact Visitor.Keeps.pure_free _ _
      | exact Visitor.Keeps.pure_term _ _
      | exact Visitor.Keeps.pure_freeList _ _
      | exact Visitor.Keeps.pure_symbol _ _
      | exact Visitor.Keeps.pure_some _ _
      | exact Visitor.Keeps.pure_none _
      | exact Visitor.Keeps.pure_top _ _
      | exact Visitor.Keeps.read_block _
      | exact Visitor.Keeps.read_breakDest _
      | exact Visitor.Keeps.read_continueDest _
      | (refine Visitor.Keeps.read_free _ _ (fun _ => ?_); simp; done)
      | (refine Visitor.Keeps.read_freeList _ _ (fun _ => ?_); simp [smt.Expression.predicatesOfAll_map_free]; done)
      | (refine Visitor.Keeps.read_freeList _ _ (fun _ => ?_); split <;> simp [smt.Expression.predicatesOfAll_map_free]; done)
      | exact Visitor.Keeps.read_top _ _
      | exact Visitor.Keeps.deref_genesis _ _
      | exact Visitor.Keeps.deref_interface _ _
      | exact Visitor.Keeps.deref_error _ _
      | exact Visitor.Keeps.deref_constructor _ _
      | exact Visitor.Keeps.deref_breakDest _ _
      | exact Visitor.Keeps.deref_continueDest _ _
      | exact Visitor.Keeps.deref_summary _ _ _
      | exact Visitor.Keeps.deref_top _ _ _
      | exact Visitor.Keeps.update_frame _ _ (fun _ => ⟨rfl, rfl, rfl, rfl, rfl, rfl, rfl, rfl, rfl, rfl, rfl⟩)
      | (refine Visitor.Keeps.update_frame _ _ (fun _ => ⟨rfl, rfl, ?_, rfl, rfl, rfl, rfl, rfl, rfl, rfl, rfl⟩); simp; done)
      | exact Visitor.Keeps.update_popSolver _
      | exact Visitor.Keeps.update_pushSolver _
      | exact Visitor.Keeps.update_resetContext _
      | exact Visitor.Keeps.update_clearContext _
      | exact Visitor.Keeps.update_enterFunction _
      | exact Visitor.Keeps.keeps_addAssertion _ _
      | (refine Visitor.Keeps.addAssertion_free _ _ (fun _ => ?_); simp; done)
      | exact Visitor.Keeps.keeps_setZeroValue _ _
      | exact Visitor.Keeps.update_block _ _
      | exact Visitor.Keeps.update_genesisPredicate _ _
      | exact Visitor.Keeps.update_interfacePredicate _ _
      | exact Visitor.Keeps.update_errorPredicate _ _
      | exact Visitor.Keeps.update_constructorPredicate _ _
      | exact Visitor.Keeps.update_breakDest_some _ _
      | exact Visitor.Keeps.update_continueDest_some _ _
      | exact Visitor.Keeps.update_breakDest _ _
      | exact Visitor.Keeps.update_continueDest _ _
      | exact Visitor.Keeps.update_continueDest_post _ _ _
      | exact Visitor.Keeps.update_summaries _ _ _
      | apply Visitor.Keeps.keeps_forEach
      | intro _
      | split
      | (show Visitor.Keeps _ _ _ _ (fun _ => Known.top); split)
      | dsimp only)
  | .Assignment i category lhs rhs, K => by
    rw [Expression.accept]
    repeat' (first
      | with_reducible exact Expression.acceptExpression_inv rhs _
      | with_reducible exact CHC.endVisitFunctionCall_inv _ _
      | with_reducible exact SMTEncoder.expr_inv _ _
      | with_reducible exact SMTEncoder.currentValue_inv _ _
      | with_reducible exact CHC.connectBlocks_inv _ _ _ _
      | with_reducible exact CHC.createSymbolicBlock_inv _ _ _
      | with_reducible exact CHC.createErrorBlock_inv _
      | with_reducible exact CHC.query_inv _ _ _
      | with_reducible exact CHC.reset_inv _
      | with_reducible exact CHC.uniquePrefix_inv _
      | exact Visitor.Keeps.keeps_defineExpr _ _ _
      | exact Visitor.Keeps.keeps_assignment _ _ _
      | apply Visitor.Keeps.same_bind
      | apply Visitor.Keeps.keeps_bind
      | exact Visitor.Keeps.keeps_solAssert _ _ _
      | exact Visitor.Keeps.pure_block _ _
      | exact Visitor.Keeps.pure_free _ _
      | exact Visitor.Keeps.pure_term _ _
      | exact Visitor.Keeps.pure_freeList _ _
      | exact Visitor.Keeps.pure_symbol _ _
      | exact Visitor.Keeps.pure_some _ _
      | exact Visitor.Keeps.pure_none _
      | exact Visitor.Keeps.pure_top _ _
      | exact Visitor.Keeps.read_block _
      | exact Visitor.Keeps.read_breakDest _
      | exact Visitor.Keeps.read_continueDest _
      | (refine Visitor.Keeps.read_free _ _ (fun _ => ?_); simp; done)
      | (refine Visitor.Keeps.read_freeList _ _ (fun _ => ?_); simp [smt.Expression.predicatesOfAll_map_free]; done)
      | (refine Visitor.Keeps.read_freeList _ _ (fun _ => ?_); split <;> simp [smt.Expression.predicatesOfAll_map_free]; done)
      | exact Visitor.Keeps.read_top _ _
      | exact Visitor.Keeps.deref_genesis _ _
      | exact Visitor.Keeps.deref_interface _ _
      | exact Visitor.Keeps.deref_error _ _
      | exact Visitor.Keeps.deref_constructor _ _
      | exact Visitor.Keeps.deref_breakDest _ _
      | exact Visitor.Keeps.deref_continueDest _ _
      | exact Visitor.Keeps.deref_summary _ _ _
      | exact Visitor.Keeps.deref_top _ _ _
      | exact Visitor.Keeps.update_frame _ _ (fun _ => ⟨rfl, rfl, rfl, rfl, rfl, rfl, rfl, rfl, rfl, rfl, rfl⟩)
      | (refine Visitor.Keeps.update_frame _ _ (fun _ => ⟨rfl, rfl, ?_, rfl, rfl, rfl, rfl, rfl, rfl, rfl, rfl⟩); simp; done)
      | exact Visitor.Keeps.update_popSolver _
      | exact Visitor.Keeps.update_pushSolver _
      | exact Visitor.Keeps.update_resetContext _
      | exact Visitor.Keeps.update_clearContext _
      | exact Visitor.Keeps.update_enterFunction _
      | exact Visitor.Keeps.keeps_addAssertion _ _
      | (refine Visitor.Keeps.addAssertion_free _ _ (fun _ => ?_); simp; done)
      | exact Visitor.Keeps.keeps_setZeroValue _ _
      | exact Visitor.Keeps.update_block _ _
      | exact Visitor.Keeps.update_genesisPredicate _ _
      | exact Visitor.Keeps.update_interfacePredicate _ _
      | exact Visitor.Keeps.update_errorPredicate _ _
      | exact Visitor.Keeps.update_constructorPredicate _ _
      | exact Visitor.Keeps.update_breakDest_some _ _
      | exact Visitor.Keeps.update_continueDest_some _ _
      | exact Visitor.Keeps.update_breakDest _ _
      | exact Visitor.Keeps.update_continueDest _ _
      | exact Visitor.Keeps.update_continueDest_post _ _ _
      | exact Visitor.Keeps.update_summaries _ _ _
      | apply Visitor.Keeps.keeps_forEach
      | intro _
      | split
      | (show Visitor.Keeps _ _ _ _ (fun _ => Known.top); split)
      | dsimp only)
  | .UnaryOperation i category operator sub, K => by
    rw [Expression.accept]
    repeat' (first
      | with_reducible exact Expression.acceptExpression_inv sub _
      | with_reducible exact CHC.endVisitFunctionCall_inv _ _
      | with_reducible exact SMTEncoder.expr_inv _ _
      | with_reducible exact SMTEncoder.currentValue_inv _ _
      | with_reducible exact CHC.connectBlocks_inv _ _ _ _
      | with_reducible exact CHC.createSymbolicBlock_inv _ _ _
      | with_reducible exact CHC.createErrorBlock_inv _
      | with_reducible exact CHC.query_inv _ _ _
      | with_reducible exact CHC.reset_inv _
      | with_reducible exact CHC.uniquePrefix_inv _
      | exact Visitor.Keeps.keeps_defineExpr _ _ _
      | exact Visitor.Keeps.keeps_assignment _ _ _
      | apply Visitor.Keeps.same_bind
      | apply Visitor.Keeps.keeps_bind
      | exact Visitor.Keeps.keeps_solAssert _ _ _
      | exact Visitor.Keeps.pure_block _ _
      | exact Visitor.Keeps.pure_free _ _
      | exact Visitor.Keeps.pure_term _ _
      | exact Visitor.Keeps.pure_freeList _ _
      | exact Visitor.Keeps.pure_symbol _ _
      | exact Visitor.Keeps.pure_some _ _
      | exact Visitor.Keeps.pure_none _
      | exact Visitor.Keeps.pure_top _ _
      | exact Visitor.Keeps.read_block _
      | exact Visitor.Keeps.read_breakDest _
      | exact Visitor.Keeps.read_continueDest _
      | (refine Visitor.Keeps.read_free _ _ (fun _ => ?_); simp; done)
      | (refine Visitor.Keeps.read_freeList _ _ (fun _ => ?_); simp [smt.Expression.predicatesOfAll_map_free]; done)
      | (refine Visitor.Keeps.read_freeList _ _ (fun _ => ?_); split <;> simp [smt.Expression.predicatesOfAll_map_free]; done)
      | exact Visitor.Keeps.read_top _ _
      | exact Visitor.Keeps.deref_genesis _ _
      | exact Visitor.Keeps.deref_interface _ _
      | exact Visitor.Keeps.deref_error _ _
      | exact Visitor.Keeps.deref_constructor _ _
      | exact Visitor.Keeps.deref_breakDest _ _
      | exact Visitor.Keeps.deref_continueDest _ _
      | exact Visitor.Keeps.deref_summary _ _ _
      | exact Visitor.Keeps.deref_top _ _ _
      | exact Visitor.Keeps.update_frame _ _ (fun _ => ⟨rfl, rfl, rfl, rfl, rfl, rfl, rfl, rfl, rfl, rfl, rfl⟩)
      | (refine Visitor.Keeps.update_frame _ _ (fun _ => ⟨rfl, rfl, ?_, rfl, rfl, rfl, rfl, rfl, rfl, rfl, rfl⟩); simp; done)
      | exact Visitor.Keeps.update_popSolver _
      | exact Visitor.Keeps.update_pushSolver _
      | exact Visitor.Keeps.update_resetContext _
      | exact Visitor.Keeps.update_clearContext _
      | exact Visitor.Keeps.update_enterFunction _
      | exact Visitor.Keeps.keeps_addAssertion _ _
      | (refine Visitor.Keeps.addAssertion_free _ _ (fun _ => ?_); simp; done)
      | exact Visitor.Keeps.keeps_setZeroValue _ _
      | exact Visitor.Keeps.update_block _ _
      | exact Visitor.Keeps.update_genesisPredicate _ _
      | exact Visitor.Keeps.update_interfacePredicate _ _
      | exact Visitor.Keeps.update_errorPredicate _ _
      | exact Visitor.Keeps.update_constructorPredicate _ _
      | exact Visitor.Keeps.update_breakDest_some _ _
      | exact Visitor.Keeps.update_continueDest_some _ _
      | exact Visitor.Keeps.update_breakDest _ _
      | exact Visitor.Keeps.update_continueDest _ _
      | exact Visitor.Keeps.update_continueDest_post _ _ _
      | exact Visitor.Keeps.update_summaries _ _ _
      | apply Visitor.Keeps.keeps_forEach
      | intro _
      | split
      | (show Visitor.Keeps _ _ _ _ (fun _ => Known.top); split)
      | dsimp only)
  | .BinaryOperation i category operator left right, K => by
    rw [Expression.accept]
    repeat' (first
      | with_reducible exact Expression.acceptExpression_inv left _
      | with_reducible exact Expression.acceptExpression_inv right _
      | with_reducible exact CHC.endVisitFunctionCall_inv _ _
      | with_reducible exact SMTEncoder.expr_inv _ _
      | with_reducible exact SMTEncoder.currentValue_inv _ _
      | with_reducible exact CHC.connectBlocks_inv _ _ _ _
      | with_reducible exact CHC.createSymbolicBlock_inv _ _ _
      | with_reducible exact CHC.createErrorBlock_inv _
      | with_reducible exact CHC.query_inv _ _ _
      | with_reducible exact CHC.reset_inv _
      | with_reducible exact CHC.uniquePrefix_inv _
      | exact Visitor.Keeps.keeps_defineExpr _ _ _
      | exact Visitor.Keeps.keeps_assignment _ _ _
      | apply Visitor.Keeps.same_bind
      | apply Visitor.Keeps.keeps_bind
      | exact Visitor.Keeps.keeps_solAssert _ _ _
      | exact Visitor.Keeps.pure_block _ _
      | exact Visitor.Keeps.pure_free _ _
      | exact Visitor.Keeps.pure_term _ _
      | exact Visitor.Keeps.pure_freeList _ _
      | exact Visitor.Keeps.pure_symbol _ _
      | exact Visitor.Keeps.pure_some _ _
      | exact Visitor.Keeps.pure_none _
      | exact Visitor.Keeps.pure_top _ _
      | exact Visitor.Keeps.read_block _
      | exact Visitor.Keeps.read_breakDest _
      | exact Visitor.Keeps.read_continueDest _
      | (refine Visitor.Keeps.read_free _ _ (fun _ => ?_); simp; done)
      | (refine Visitor.Keeps.read_freeList _ _ (fun _ => ?_); simp [smt.Expression.predicatesOfAll_map_free]; done)
      | (refine Visitor.Keeps.read_freeList _ _ (fun _ => ?_); split <;> simp [smt.Expression.predicatesOfAll_map_free]; done)
      | exact Visitor.Keeps.read_top _ _
      | exact Visitor.Keeps.deref_genesis _ _
      | exact Visitor.Keeps.deref_interface _ _
      | exact Visitor.Keeps.deref_error _ _
      | exact Visitor.Keeps.deref_constructor _ _
      | exact Visitor.Keeps.deref_breakDest _ _
      | exact Visitor.Keeps.deref_continueDest _ _
      | exact Visitor.Keeps.deref_summary _ _ _
      | exact Visitor.Keeps.deref_top _ _ _
      | exact Visitor.Keeps.update_frame _ _ (fun _ => ⟨rfl, rfl, rfl, rfl, rfl, rfl, rfl, rfl, rfl, rfl, rfl⟩)
      | (refine Visitor.Keeps.update_frame _ _ (fun _ => ⟨rfl, rfl, ?_, rfl, rfl, rfl, rfl, rfl, rfl, rfl, rfl⟩); simp; done)
      | exact Visitor.Keeps.update_popSolver _
      | exact Visitor.Keeps.update_pushSolver _
      | exact Visitor.Keeps.update_resetContext _
      | exact Visitor.Keeps.update_clearContext _
      | exact Visitor.Keeps.update_enterFunction _
      | exact Visitor.Keeps.keeps_addAssertion _ _
      | (refine Visitor.Keeps.addAssertion_free _ _ (fun _ => ?_); simp; done)
      | exact Visitor.Keeps.keeps_setZeroValue _ _
      | exact Visitor.Keeps.update_block _ _
      | exact Visitor.Keeps.update_genesisPredicate _ _
      | exact Visitor.Keeps.update_interfacePredicate _ _
      | exact Visitor.Keeps.update_errorPredicate _ _
      | exact Visitor.Keeps.update_constructorPredicate _ _
      | exact Visitor.Keeps.update_breakDest_some _ _
      | exact Visitor.Keeps.update_continueDest_some _ _
      | exact Visitor.Keeps.update_breakDest _ _
      | exact Visitor.Keeps.update_continueDest _ _
      | exact Visitor.Keeps.update_continueDest_post _ _ _
      | exact Visitor.Keeps.update_summaries _ _ _
      | apply Visitor.Keeps.keeps_forEach
      | intro _
      | split
      | (show Visitor.Keeps _ _ _ _ (fun _ => Known.top); split)
      | dsimp only)
  | .FunctionCall i category location kind functionKind callee arguments, K => by
    rw [Expression.accept]
    repeat' (first
      | with_reducible exact Expression.acceptExpressions_inv arguments _
      | with_reducible exact CHC.endVisitFunctionCall_inv _ _
      | with_reducible exact SMTEncoder.expr_inv _ _
      | with_reducible exact SMTEncoder.currentValue_inv _ _
      | with_reducible exact CHC.connectBlocks_inv _ _ _ _
      | with_reducible exact CHC.createSymbolicBlock_inv _ _ _
      | with_reducible exact CHC.createErrorBlock_inv _
      | with_reducible exact CHC.query_inv _ _ _
      | with_reducible exact CHC.reset_inv _
      | with_reducible exact CHC.uniquePrefix_inv _
      | exact Visitor.Keeps.keeps_defineExpr _ _ _
      | exact Visitor.Keeps.keeps_assignment _ _ _
      | apply Visitor.Keeps.same_bind
      | apply Visitor.Keeps.keeps_bind
      | exact Visitor.Keeps.keeps_solAssert _ _ _
      | exact Visitor.Keeps.pure_block _ _
      | exact Visitor.Keeps.pure_free _ _
      | exact Visitor.Keeps.pure_term _ _
      | exact Visitor.Keeps.pure_freeList _ _
      | exact Visitor.Keeps.pure_symbol _ _
      | exact Visitor.Keeps.pure_some _ _
      | exact Visitor.Keeps.pure_none _
      | exact Visitor.Keeps.pure_top _ _
      | exact Visitor.Keeps.read_block _
      | exact Visitor.Keeps.read_breakDest _
      | exact Visitor.Keeps.read_continueDest _
      | (refine Visitor.Keeps.read_free _ _ (fun _ => ?_); simp; done)
      | (refine Visitor.Keeps.read_freeList _ _ (fun _ => ?_); simp [smt.Expression.predicatesOfAll_map_free]; done)
      | (refine Visitor.Keeps.read_freeList _ _ (fun _ => ?_); split <;> simp [smt.Expression.predicatesOfAll_map_free]; done)
      | exact Visitor.Keeps.read_top _ _
      | exact Visitor.Keeps.deref_genesis _ _
      | exact Visitor.Keeps.deref_interface _ _
      | exact Visitor.Keeps.deref_error _ _
      | exact Visitor.Keeps.deref_constructor _ _
      | exact Visitor.Keeps.deref_breakDest _ _
      | exact Visitor.Keeps.deref_continueDest _ _
      | exact Visitor.Keeps.deref_summary _ _ _
      | exact Visitor.Keeps.deref_top _ _ _
      | exact Visitor.Keeps.update_frame _ _ (fun _ => ⟨rfl, rfl, rfl, rfl, rfl, rfl, rfl, rfl, rfl, rfl, rfl⟩)
      | (refine Visitor.Keeps.update_frame _ _ (fun _ => ⟨rfl, rfl, ?_, rfl, rfl, rfl, rfl, rfl, rfl, rfl, rfl⟩); simp; done)
      | exact Visitor.Keeps.update_popSolver _
      | exact Visitor.Keeps.update_pushSolver _
      | exact Visitor.Keeps.update_resetContext _
      | exact Visitor.Keeps.update_clearContext _
      | exact Visitor.Keeps.update_enterFunction _
      | exact Visitor.Keeps.keeps_addAssertion _ _
      | (refine Visitor.Keeps.addAssertion_free _ _ (fun _ => ?_); simp; done)
      | exact Visitor.Keeps.keeps_setZeroValue _ _
      | exact Visitor.Keeps.update_block _ _
      | exact Visitor.Keeps.update_genesisPredicate _ _
      | exact Visitor.Keeps.update_interfacePredicate _ _
      | exact Visitor.Keeps.update_errorPredicate _ _
      | exact Visitor.Keeps.update_constructorPredicate _ _
      | exact Visitor.Keeps.update_breakDest_some _ _
      | exact Visitor.Keeps.update_continueDest_some _ _
      | exact Visitor.Keeps.update_breakDest _ _
      | exact Visitor.Keeps.update_continueDest _ _
      | exact Visitor.Keeps.update_continueDest_post _ _ _
      | exact Visitor.Keeps.update_summaries _ _ _
      | apply Visitor.Keeps.keeps_forEach
      | intro _
      | split
      | (show Visitor.Keeps _ _ _ _ (fun _ => Known.top); split)
      | dsimp only)
theorem Expression.acceptExpressions_inv :
    ∀ (l : List Expression) (K : Known), Visitor.Keeps true true K (Expression.acceptAll l) (fun _ => Known.top)
  | [], K => by
    rw [Expression.acceptAll]
    exact Visitor.Keeps.pure_top _ _
  | e :: rest, K => by
    rw [Expression.acceptAll]
    exact Visitor.Keeps.keeps_bind (Expression.acceptExpression_inv e K)
      (fun _ => Expression.acceptExpressions_inv rest _)
end

theorem CHC.forCondition_inv (K : Known) (condition : Option Expression) :
    Visitor.Keeps true true K
      (match condition with
        | some forCondition => do
          forCondition.accept
          SMTEncoder.expr forCondition
        | none => pure (smt.Expression.boolLit true)) Known.ofFree := by
  cases condition with
  | none => exact Visitor.Keeps.pure_free _ _
  | some c =>
    exact Visitor.Keeps.keeps_then (Expression.acceptExpression_inv _ _)
      (fun _ => SMTEncoder.expr_inv _ _)

set_option maxHeartbeats 4000000 in
theorem CHC.visitIfStatement_inv (K : Known) (i : Nat) (condition : Expression)
    (trueStatement : Nat × Visitor Unit) (falseStatement : Option (Nat × Visitor Unit))
    (hTrue : ∀ K : Known, Visitor.Keeps true true K trueStatement.2 (fun _ => Known.top))
    (h : ∀ st, falseStatement = some st → ∀ K : Known, Visitor.Keeps true true K st.2 (fun _ => Known.top)) :
    Visitor.Keeps true true K (CHC.visitIfStatement i condition trueStatement falseStatement) (fun _ => Known.top) := by
  unfold CHC.visitIfStatement
  repeat' (first
    | with_reducible exact CHC.createBlock_inv _ _ _
    | with_reducible exact CHC.setCurrentBlock_inv _ _
    | with_reducible exact CHC.predicate_inv _ _
    | with_reducible exact CHC.summary_inv _ _
    | with_reducible exact CHC.eraseKnowledge_inv _
    | with_reducible exact SMTEncoder.currentPathConditions_inv _
    | with_reducible exact SMTEncoder.expr_inv _ _
    | exact CHC.createOptionalBlock_inv _ _ _
    | exact CHC.forCondition_inv _ _
    | with_reducible exact Expression.acceptExpression_inv _ _
    | exact hTrue _
    | exact hBody _
    | exact h _ rfl _
    | exact h _ ‹_› _
    | exact hInit _ rfl _
    | exact hInit _ ‹_› _
    | with_reducible exact CHC.connectBlocks_inv _ _ _ _
    | with_reducible exact CHC.createSymbolicBlock_inv _ _ _
    | with_reducible exact CHC.createErrorBlock_inv _
    | with_reducible exact CHC.query_inv _ _ _
    | with_reducible exact CHC.reset_inv _
    | with_reducible exact CHC.uniquePrefix_inv _
    | exact Visitor.Keeps.keeps_defineExpr _ _ _
    | exact Visitor.Keeps.keeps_assignment _ _ _
    | apply Visitor.Keeps.same_bind
    | apply Visitor.Keeps.keeps_bind
    | exact Visitor.Keeps.keeps_solAssert _ _ _
    | exact Visitor.Keeps.pure_block _ _
    | exact Visitor.Keeps.pure_free _ _
    | exact Visitor.Keeps.pure_term _ _
    | exact Visitor.Keeps.pure_freeList _ _
    | exact Visitor.Keeps.pure_symbol _ _
    | exact Visitor.Keeps.pure_some _ _
    | exact Visitor.Keeps.pure_none _
    | exact Visitor.Keeps.pure_top _ _
    | exact Visitor.Keeps.read_block _
    | exact Visitor.Keeps.read_breakDest _
    | exact Visitor.Keeps.read_continueDest _
    | (refine Visitor.Keeps.read_free _ _ (fun _ => ?_); simp; done)
    | (refine Visitor.Keeps.read_freeList _ _ (fun _ => ?_); simp [smt.Expression.predicatesOfAll_map_free]; done)
    | (refine Visitor.Keeps.read_freeList _ _ (fun _ => ?_); split <;> simp [smt.Expression.predicatesOfAll_map_free]; done)
    | exact Visitor.Keeps.read_top _ _
    | exact Visitor.Keeps.deref_genesis _ _
    | exact Visitor.Keeps.deref_interface _ _
    | exact Visitor.Keeps.deref_error _ _
    | exact Visitor.Keeps.deref_constructor _ _
    | exact Visitor.Keeps.deref_breakDest _ _
    | exact Visitor.Keeps.deref_continueDest _ _
    | exact Visitor.Keeps.deref_summary _ _ _
    | exact Visitor.Keeps.deref_top _ _ _
    | exact Visitor.Keeps.update_frame _ _ (fun _ => ⟨rfl, rfl, rfl, rfl, rfl, rfl, rfl, rfl, rfl, rfl, rfl⟩)
    | (refine Visitor.Keeps.update_frame _ _ (fun _ => ⟨rfl, rfl, ?_, rfl, rfl, rfl, rfl, rfl, rfl, rfl, rfl⟩); simp; done)
    | exact Visitor.Keeps.update_popSolver _
    | exact Visitor.Keeps.update_pushSolver _
    | exact Visitor.Keeps.update_resetContext _
    | exact Visitor.Keeps.update_clearContext _
    | exact Visitor.Keeps.update_enterFunction _
    | exact Visitor.Keeps.keeps_addAssertion _ _
    | (refine Visitor.Keeps.addAssertion_free _ _ (fun _ => ?_); simp; done)
    | exact Visitor.Keeps.keeps_setZeroValue _ _
    | exact Visitor.Keeps.update_block _ _
    | exact Visitor.Keeps.update_genesisPredicate _ _
    | exact Visitor.Keeps.update_interfacePredicate _ _
    | exact Visitor.Keeps.update_errorPredicate _ _
    | exact Visitor.Keeps.update_constructorPredicate _ _
    | exact Visitor.Keeps.update_breakDest_some _ _
    | exact Visitor.Keeps.update_continueDest_some _ _
    | exact Visitor.Keeps.update_breakDest _ _
    | exact Visitor.Keeps.update_continueDest _ _
    | exact Visitor.Keeps.update_continueDest_post _ _ _
    | exact Visitor.Keeps.update_summaries _ _ _
    | apply Visitor.Keeps.keeps_forEach
    | intro _
    | split
    | (show Visitor.Keeps _ _ _ _ (fun _ => Known.top); split)
    | dsimp only)

set_option maxHeartbeats 4000000 in
theorem CHC.visitWhileStatement_inv (K : Known) (i : Nat) (isDoWhile : Bool) (condition : Expression)
    (body : Nat × Visitor Unit) (hBody : ∀ K : Known, Visitor.Keeps true true K body.2 (fun _ => Known.top)) :
    Visitor.Keeps true true K (CHC.visitWhileStatement i isDoWhile condition body) (fun _ => Known.top) := by
  unfold CHC.visitWhileStatement
  repeat' (first
    | with_reducible exact CHC.createBlock_inv _ _ _
    | with_reducible exact CHC.setCurrentBlock_inv _ _
    | with_reducible exact CHC.predicate_inv _ _
    | with_reducible exact CHC.summary_inv _ _
    | with_reducible exact CHC.eraseKnowledge_inv _
    | with_reducible exact SMTEncoder.currentPathConditions_inv _
    | with_reducible exact SMTEncoder.expr_inv _ _
    | exact CHC.createOptionalBlock_inv _ _ _
    | exact CHC.forCondition_inv _ _
    | with_reducible exact Expression.acceptExpression_inv _ _
    | exact hTrue _
    | exact hBody _
    | exact h _ rfl _
    | exact h _ ‹_› _
    | exact hInit _ rfl _
    | exact hInit _ ‹_› _
    | with_reducible exact CHC.connectBlocks_inv _ _ _ _
    | with_reducible exact CHC.createSymbolicBlock_inv _ _ _
    | with_reducible exact CHC.createErrorBlock_inv _
    | with_reducible exact CHC.query_inv _ _ _
    | with_reducible exact CHC.reset_inv _
    | with_reducible exact CHC.uniquePrefix_inv _
    | exact Visitor.Keeps.keeps_defineExpr _ _ _
    | exact Visitor.Keeps.keeps_assignment _ _ _
    | apply Visitor.Keeps.same_bind
    | apply Visitor.Keeps.keeps_bind
    | exact Visitor.Keeps.keeps_solAssert _ _ _
    | exact Visitor.Keeps.pure_block _ _
    | exact Visitor.Keeps.pure_free _ _
    | exact Visitor.Keeps.pure_term _ _
    | exact Visitor.Keeps.pure_freeList _ _
    | exact Visitor.Keeps.pure_symbol _ _
    | exact Visitor.Keeps.pure_some _ _
    | exact Visitor.Keeps.pure_none _
    | exact Visitor.Keeps.pure_top _ _
    | exact Visitor.Keeps.read_block _
    | exact Visitor.Keeps.read_breakDest _
    | exact Visitor.Keeps.read_continueDest _
    | (refine Visitor.Keeps.read_free _ _ (fun _ => ?_); simp; done)
    | (refine Visitor.Keeps.read_freeList _ _ (fun _ => ?_); simp [smt.Expression.predicatesOfAll_map_free]; done)
    | (refine Visitor.Keeps.read_freeList _ _ (fun _ => ?_); split <;> simp [smt.Expression.predicatesOfAll_map_free]; done)
    | exact Visitor.Keeps.read_top _ _
    | exact Visitor.Keeps.deref_genesis _ _
    | exact Visitor.Keeps.deref_interface _ _
    | exact Visitor.Keeps.deref_error _ _
    | exact Visitor.Keeps.deref_constructor _ _
    | exact Visitor.Keeps.deref_breakDest _ _
    | exact Visitor.Keeps.deref_continueDest _ _
    | exact Visitor.Keeps.deref_summary _ _ _
    | exact Visitor.Keeps.deref_top _ _ _
    | exact Visitor.Keeps.update_frame _ _ (fun _ => ⟨rfl, rfl, rfl, rfl, rfl, rfl, rfl, rfl, rfl, rfl, rfl⟩)
    | (refine Visitor.Keeps.update_frame _ _ (fun _ => ⟨rfl, rfl, ?_, rfl, rfl, rfl, rfl, rfl, rfl, rfl, rfl⟩); simp; done)
    | exact Visitor.Keeps.update_popSolver _
    | exact Visitor.Keeps.update_pushSolver _
    | exact Visitor.Keeps.update_resetContext _
    | exact Visitor.Keeps.update_clearContext _
    | exact Visitor.Keeps.update_enterFunction _
    | exact Visitor.Keeps.keeps_addAssertion _ _
    | (refine Visitor.Keeps.addAssertion_free _ _ (fun _ => ?_); simp; done)
    | exact Visitor.Keeps.keeps_setZeroValue _ _
    | exact Visitor.Keeps.update_block _ _
    | exact Visitor.Keeps.update_genesisPredicate _ _
    | exact Visitor.Keeps.update_interfacePredicate _ _
    | exact Visitor.Keeps.update_errorPredicate _ _
    | exact Visitor.Keeps.update_constructorPredicate _ _
    | exact Visitor.Keeps.update_breakDest_some _ _
    | exact Visitor.Keeps.update_continueDest_some _ _
    | exact Visitor.Keeps.update_breakDest _ _
    | exact Visitor.Keeps.update_continueDest _ _
    | exact Visitor.Keeps.update_continueDest_post _ _ _
    | exact Visitor.Keeps.update_summaries _ _ _
    | apply Visitor.Keeps.keeps_forEach
    | intro _
    | split
    | (show Visitor.Keeps _ _ _ _ (fun _ => Known.top); split)
    | dsimp only)

set_option maxHeartbeats 4000000 in
theorem CHC.visitForStatement_inv (K : Known) (i : Nat) (init : Option (Visitor Unit))
    (condition : Option Expression) (loopExpression : Option (Nat × Visitor Unit))
    (body : Nat × Visitor Unit)
    (hInit : ∀ m, init = some m → ∀ K : Known, Visitor.Keeps true true K m (fun _ => Known.top))
    (h : ∀ st, loopExpression = some st → ∀ K : Known, Visitor.Keeps true true K st.2 (fun _ => Known.top))
    (hBody : ∀ K : Known, Visitor.Keeps true true K body.2 (fun _ => Known.top)) :
    Visitor.Keeps true true K (CHC.visitForStatement i init condition loopExpression body) (fun _ => Known.top) := by
  unfold CHC.visitForStatement
  repeat' (first
    | with_reducible exact CHC.createBlock_inv _ _ _
    | with_reducible exact CHC.setCurrentBlock_inv _ _
    | with_reducible exact CHC.predicate_inv _ _
    | with_reducible exact CHC.summary_inv _ _
    | with_reducible exact CHC.eraseKnowledge_inv _
    | with_reducible exact SMTEncoder.currentPathConditions_inv _
    | with_reducible exact SMTEncoder.expr_inv _ _
    | exact CHC.createOptionalBlock_inv _ _ _
    | exact CHC.forCondition_inv _ _
    | with_reducible exact Expression.acceptExpression_inv _ _
    | exact hTrue _
    | exact hBody _
    | exact h _ rfl _
    | exact h _ ‹_› _
    | exact hInit _ rfl _
    | exact hInit _ ‹_› _
    | with_reducible exact CHC.connectBlocks_inv _ _ _ _
    | with_reducible exact CHC.createSymbolicBlock_inv _ _ _
    | with_reducible exact CHC.createErrorBlock_inv _
    | with_reducible exact CHC.query_inv _ _ _
    | with_reducible exact CHC.reset_inv _
    | with_reducible exact CHC.uniquePrefix_inv _
    | exact Visitor.Keeps.keeps_defineExpr _ _ _
    | exact Visitor.Keeps.keeps_assignment _ _ _
    | apply Visitor.Keeps.same_bind
    | apply Visitor.Keeps.keeps_bind
    | exact Visitor.Keeps.keeps_solAssert _ _ _
    | exact Visitor.Keeps.pure_block _ _
    | exact Visitor.Keeps.pure_free _ _
    | exact Visitor.Keeps.pure_term _ _
    | exact Visitor.Keeps.pure_freeList _ _
    | exact Visitor.Keeps.pure_symbol _ _
    | exact Visitor.Keeps.pure_some _ _
    | exact Visitor.Keeps.pure_none _
    | exact Visitor.Keeps.pure_top _ _
    | exact Visitor.Keeps.read_block _
    | exact Visitor.Keeps.read_breakDest _
    | exact Visitor.Keeps.read_continueDest _
    | (refine Visitor.Keeps.read_free _ _ (fun _ => ?_); simp; done)
    | (refine Visitor.Keeps.read_freeList _ _ (fun _ => ?_); simp [smt.Expression.predicatesOfAll_map_free]; done)
    | (refine Visitor.Keeps.read_freeList _ _ (fun _ => ?_); split <;> simp [smt.Expression.predicatesOfAll_map_free]; done)
    | exact Visitor.Keeps.read_top _ _
    | exact Visitor.Keeps.deref_genesis _ _
    | exact Visitor.Keeps.deref_interface _ _
    | exact Visitor.Keeps.deref_error _ _
    | exact Visitor.Keeps.deref_constructor _ _
    | exact Visitor.Keeps.deref_breakDest _ _
    | exact Visitor.Keeps.deref_continueDest _ _
    | exact Visitor.Keeps.deref_summary _ _ _
    | exact Visitor.Keeps.deref_top _ _ _
    | exact Visitor.Keeps.update_frame _ _ (fun _ => ⟨rfl, rfl, rfl, rfl, rfl, rfl, rfl, rfl, rfl, rfl, rfl⟩)
    | (refine Visitor.Keeps.update_frame _ _ (fun _ => ⟨rfl, rfl, ?_, rfl, rfl, rfl, rfl, rfl, rfl, rfl, rfl⟩); simp; done)
    | exact Visitor.Keeps.update_popSolver _
    | exact Visitor.Keeps.update_pushSolver _
    | exact Visitor.Keeps.update_resetContext _
    | exact Visitor.Keeps.update_clearContext _
    | exact Visitor.Keeps.update_enterFunction _
    | exact Visitor.Keeps.keeps_addAssertion _ _
    | (refine Visitor.Keeps.addAssertion_free _ _ (fun _ => ?_); simp; done)
    | exact Visitor.Keeps.keeps_setZeroValue _ _
    | exact Visitor.Keeps.update_block _ _
    | exact Visitor.Keeps.update_genesisPredicate _ _
    | exact Visitor.Keeps.update_interfacePredicate _ _
    | exact Visitor.Keeps.update_errorPredicate _ _
    | exact Visitor.Keeps.update_constructorPredicate _ _
    | exact Visitor.Keeps.update_breakDest_some _ _
    | exact Visitor.Keeps.update_continueDest_some _ _
    | exact Visitor.Keeps.update_breakDest _ _
    | exact Visitor.Keeps.update_continueDest _ _
    | exact Visitor.Keeps.update_continueDest_post _ _ _
    | exact Visitor.Keeps.update_summaries _ _ _
    | apply Visitor.Keeps.keeps_forEach
    | intro _
    | split
    | (show Visitor.Keeps _ _ _ _ (fun _ => Known.top); split)
    | dsimp only)

mutual
theorem Statement.acceptStatement_inv :
    ∀ (st : Statement) (K : Known), Visitor.Keeps true true K (st.accept) (fun _ => Known.top)
  | .Block i statements, K => by
    rw [Statement.accept]
    repeat' (first
      | with_reducible exact Statement.acceptStatements_inv statements _
      | apply Visitor.Keeps.same_bind
      | exact Visitor.Keeps.pure_top _ _
      | exact Visitor.Keeps.keeps_assignment _ _ _
      | intro _
      | dsimp only)
  | .IfStatement i condition trueStatement none, K => by
    rw [Statement.accept]
    repeat' (first
      | with_reducible exact CHC.visitIfStatement_inv _ _ _ _ _ (Statement.acceptStatement_inv trueStatement) (by intro st h; cases h)
      | apply Visitor.Keeps.same_bind
      | exact Visitor.Keeps.pure_top _ _
      | exact Visitor.Keeps.keeps_assignment _ _ _
      | intro _
      | dsimp only)
  | .IfStatement i condition trueStatement (some falseStatement), K => by
    rw [Statement.accept]
    repeat' (first
      | with_reducible exact CHC.visitIfStatement_inv _ _ _ _ _ (Statement.acceptStatement_inv trueStatement) (by intro st h; cases h; exact Statement.acceptStatement_inv falseStatement)
      | apply Visitor.Keeps.same_bind
      | exact Visitor.Keeps.pure_top _ _
      | exact Visitor.Keeps.keeps_assignment _ _ _
      | intro _
      | dsimp only)
  | .WhileStatement i condition body isDoWhile, K => by
    rw [Statement.accept]
    repeat' (first
      | with_reducible exact CHC.visitWhileStatement_inv _ _ _ _ _ (Statement.acceptStatement_inv body)
      | apply Visitor.Keeps.same_bind
      | exact Visitor.Keeps.pure_top _ _
      | exact Visitor.Keeps.keeps_assignment _ _ _
      | intro _
      | dsimp only)
  | .ForStatement i none condition none body, K => by
    rw [Statement.accept]
    repeat' (first
      | with_reducible exact CHC.visitForStatement_inv _ _ _ _ _ _ (by intro m h; cases h) (by intro m h; cases h) (Statement.acceptStatement_inv body)
      | apply Visitor.Keeps.same_bind
      | exact Visitor.Keeps.pure_top _ _
      | exact Visitor.Keeps.keeps_assignment _ _ _
      | intro _
      | dsimp only)
  | .ForStatement i none condition (some postLoop) body, K => by
    rw [Statement.accept]
    repeat' (first
      | with_reducible exact CHC.visitForStatement_inv _ _ _ _ _ _ (by intro m h; cases h) (by intro m h; cases h; exact Statement.acceptStatement_inv postLoop) (Statement.acceptStatement_inv body)
      | apply Visitor.Keeps.same_bind
      | exact Visitor.Keeps.pure_top _ _
      | exact Visitor.Keeps.keeps_assignment _ _ _
      | intro _
      | dsimp only)
  | .ForStatement i (some init) condition none body, K => by
    rw [Statement.accept]
    repeat' (first
      | with_reducible exact CHC.visitForStatement_inv _ _ _ _ _ _ (by intro m h; cases h; exact Statement.acceptStatement_inv init) (by intro m h; cases h) (Statement.acceptStatement_inv body)
      | apply Visitor.Keeps.same_bind
      | exact Visitor.Keeps.pure_top _ _
      | exact Visitor.Keeps.keeps_assignment _ _ _
      | intro _
      | dsimp only)
  | .ForStatement i (some init) condition (some postLoop) body, K => by
    rw [Statement.accept]
    repeat' (first
      | with_reducible exact CHC.visitForStatement_inv _ _ _ _ _ _ (by intro m h; cases h; exact Statement.acceptStatement_inv init) (by intro m h; cases h; exact Statement.acceptStatement_inv postLoop) (Statement.acceptStatement_inv body)
      | apply Visitor.Keeps.same_bind
      | exact Visitor.Keeps.pure_top _ _
      | exact Visitor.Keeps.keeps_assignment _ _ _
      | intro _
      | dsimp only)
  | .Break i, K => by
    rw [Statement.accept]
    repeat' (first
      | with_reducible exact CHC.endVisitBreak_inv _ _
      | apply Visitor.Keeps.same_bind
      | exact Visitor.Keeps.pure_top _ _
      | exact Visitor.Keeps.keeps_assignment _ _ _
      | intro _
      | dsimp only)
  | .Continue i, K => by
    rw [Statement.accept]
    repeat' (first
      | with_reducible exact CHC.endVisitContinue_inv _ _
      | apply Visitor.Keeps.same_bind
      | exact Visitor.Keeps.pure_top _ _
      | exact Visitor.Keeps.keeps_assignment _ _ _
      | intro _
      | dsimp only)
  | .ExpressionStatement i expression, K => by
    rw [Statement.accept]
    repeat' (first
      | with_reducible exact Expression.acceptExpression_inv _ _
      | apply Visitor.Keeps.same_bind
      | exact Visitor.Keeps.pure_top _ _
      | exact Visitor.Keeps.keeps_assignment _ _ _
      | intro _
      | dsimp only)
  | .VariableDeclarationStatement i declaration none, K => by
    rw [Statement.accept]
    repeat' (first
      | apply Visitor.Keeps.same_bind
      | exact Visitor.Keeps.pure_top _ _
      | exact Visitor.Keeps.keeps_assignment _ _ _
      | intro _
      | dsimp only)
  | .VariableDeclarationStatement i declaration (some value), K => by
    rw [Statement.accept]
    repeat' (first
      | with_reducible exact Expression.acceptExpression_inv _ _
      | with_reducible exact SMTEncoder.expr_inv _ _
      | apply Visitor.Keeps.same_bind
      | exact Visitor.Keeps.pure_top _ _
      | exact Visitor.Keeps.keeps_assignment _ _ _
      | intro _
      | dsimp only)
theorem Statement.acceptStatements_inv :
    ∀ (l : List Statement) (K : Known), Visitor.Keeps true true K (Statement.acceptAll l) (fun _ => Known.top)
  | [], K => by
    rw [Statement.acceptAll]
    exact Visitor.Keeps.pure_top _ _
  | st :: rest, K => by
    rw [Statement.acceptAll]
    exact Visitor.Keeps.keeps_bind (Statement.acceptStatement_inv st K)
      (fun _ => Statement.acceptStatements_inv rest _)
end

theorem SMTEncoder.baseVisitFunctionDefinition_inv (K : Known) (inlineBases : Visitor Unit)
    (_function : FunctionDefinition) (hBases : ∀ K : Known, Visitor.Keeps true true K inlineBases (fun _ => Known.top)) :
    Visitor.Keeps true true K (SMTEncoder.visitFunctionDefinition inlineBases _function) (fun _ => Known.top) := by
  unfold SMTEncoder.visitFunctionDefinition
  repeat' (first
    | with_reducible exact Statement.acceptStatement_inv _ _
    | exact hBases _
    | with_reducible exact SMTEncoder.initFunction_inv _ _
    | with_reducible exact CHC.createBlock_inv _ _ _
    | with_reducible exact CHC.setCurrentBlock_inv _ _
    | with_reducible exact CHC.setCurrentBlockWith_inv _ _ _
    | with_reducible exact CHC.predicate_inv _ _
    | with_reducible exact CHC.predicateWith_inv _ _ _
    | with_reducible exact CHC.currentFunctionVariables_inv _
    | with_reducible exact CHC.currentStateVariables_inv _
    | with_reducible exact CHC.initialStateVariables_inv _
    | with_reducible exact CHC.genesis_inv _
    | with_reducible exact CHC.interface_inv _
    | with_reducible exact CHC.error_inv _
    | with_reducible exact CHC.summary_inv _ _
    | with_reducible exact CHC.clearIndices_inv _ _ _
    | with_reducible exact CHC.interfaceSort_inv _
    | with_reducible exact CHC.connectBlocks_inv _ _ _ _
    | with_reducible exact CHC.createSymbolicBlock_inv _ _ _
    | with_reducible exact CHC.createErrorBlock_inv _
    | with_reducible exact CHC.query_inv _ _ _
    | with_reducible exact CHC.reset_inv _
    | with_reducible exact CHC.uniquePrefix_inv _
    | exact Visitor.Keeps.keeps_defineExpr _ _ _
    | exact Visitor.Keeps.keeps_assignment _ _ _
    | apply Visitor.Keeps.same_bind
    | apply Visitor.Keeps.keeps_bind
    | exact Visitor.Keeps.keeps_solAssert _ _ _
    | exact Visitor.Keeps.pure_block _ _
    | exact Visitor.Keeps.pure_free _ _
    | exact Visitor.Keeps.pure_term _ _
    | exact Visitor.Keeps.pure_freeList _ _
    | exact Visitor.Keeps.pure_symbol _ _
    | exact Visitor.Keeps.pure_some _ _
    | exact Visitor.Keeps.pure_none _
    | exact Visitor.Keeps.pure_top _ _
    | exact Visitor.Keeps.read_block _
    | exact Visitor.Keeps.read_breakDest _
    | exact Visitor.Keeps.read_continueDest _
    | (refine Visitor.Keeps.read_free _ _ (fun _ => ?_); simp; done)
    | (refine Visitor.Keeps.read_freeList _ _ (fun _ => ?_); simp [smt.Expression.predicatesOfAll_map_free]; done)
    | (refine Visitor.Keeps.read_freeList _ _ (fun _ => ?_); split <;> simp [smt.Expression.predicatesOfAll_map_free]; done)
    | exact Visitor.Keeps.read_top _ _
    | exact Visitor.Keeps.deref_genesis _ _
    | exact Visitor.Keeps.deref_interface _ _
    | exact Visitor.Keeps.deref_error _ _
    | exact Visitor.Keeps.deref_constructor _ _
    | exact Visitor.Keeps.deref_breakDest _ _
    | exact Visitor.Keeps.deref_continueDest _ _
    | exact Visitor.Keeps.deref_summary _ _ _
    | exact Visitor.Keeps.deref_top _ _ _
    | exact Visitor.Keeps.update_frame _ _ (fun _ => ⟨rfl, rfl, rfl, rfl, rfl, rfl, rfl, rfl, rfl, rfl, rfl⟩)
    | (refine Visitor.Keeps.update_frame _ _ (fun _ => ⟨rfl, rfl, ?_, rfl, rfl, rfl, rfl, rfl, rfl, rfl, rfl⟩); simp; done)
    | exact Visitor.Keeps.update_popSolver _
    | exact Visitor.Keeps.update_pushSolver _
    | exact Visitor.Keeps.update_resetContext _
    | exact Visitor.Keeps.update_clearContext _
    | exact Visitor.Keeps.update_enterFunction _
    | exact Visitor.Keeps.keeps_addAssertion _ _
    | (refine Visitor.Keeps.addAssertion_free _ _ (fun _ => ?_); simp; done)
    | exact Visitor.Keeps.keeps_setZeroValue _ _
    | exact Visitor.Keeps.update_block _ _
    | exact Visitor.Keeps.update_genesisPredicate _ _
    | exact Visitor.Keeps.update_interfacePredicate _ _
    | exact Visitor.Keeps.update_errorPredicate _ _
    | exact Visitor.Keeps.update_constructorPredicate _ _
    | exact Visitor.Keeps.update_breakDest_some _ _
    | exact Visitor.Keeps.update_continueDest_some _ _
    | exact Visitor.Keeps.update_breakDest _ _
    | exact Visitor.Keeps.update_continueDest _ _
    | exact Visitor.Keeps.update_continueDest_post _ _ _
    | exact Visitor.Keeps.update_summaries _ _ _
    | apply Visitor.Keeps.keeps_forEach
    | intro _
    | split
    | (show Visitor.Keeps _ _ _ _ (fun _ => Known.top); split)
    | dsimp only)

set_option maxHeartbeats 4000000 in
theorem CHC.visitFunctionDefinition_inv (K : Known) (inlineBases : Visitor Unit)
    (_function : FunctionDefinition) (hBases : ∀ K : Known, Visitor.Keeps true true K inlineBases (fun _ => Known.top)) :
    Visitor.Keeps true true K (CHC.visitFunctionDefinition inlineBases _function) (fun _ => Known.top) := by
  unfold CHC.visitFunctionDefinition
  repeat' (first
    | with_reducible exact SMTEncoder.baseVisitFunctionDefinition_inv _ _ _ hBases
    | with_reducible exact Statement.acceptStatement_inv _ _
    | exact hBases _
    | with_reducible exact SMTEncoder.initFunction_inv _ _
    | with_reducible exact CHC.createBlock_inv _ _ _
    | with_reducible exact CHC.setCurrentBlock_inv _ _
    | with_reducible exact CHC.setCurrentBlockWith_inv _ _ _
    | with_reducible exact CHC.predicate_inv _ _
    | with_reducible exact CHC.predicateWith_inv _ _ _
    | with_reducible exact CHC.currentFunctionVariables_inv _
    | with_reducible exact CHC.currentStateVariables_inv _
    | with_reducible exact CHC.initialStateVariables_inv _
    | with_reducible exact CHC.genesis_inv _
    | with_reducible exact CHC.interface_inv _
    | with_reducible exact CHC.error_inv _
    | with_reducible exact CHC.summary_inv _ _
    | with_reducible exact CHC.clearIndices_inv _ _ _
    | with_reducible exact CHC.interfaceSort_inv _
    | with_reducible exact CHC.connectBlocks_inv _ _ _ _
    | with_reducible exact CHC.createSymbolicBlock_inv _ _ _
    | with_reducible exact CHC.createErrorBlock_inv _
    | with_reducible exact CHC.query_inv _ _ _
    | with_reducible exact CHC.reset_inv _
    | with_reducible exact CHC.uniquePrefix_inv _
    | exact Visitor.Keeps.keeps_defineExpr _ _ _
    | exact Visitor.Keeps.keeps_assignment _ _ _
    | apply Visitor.Keeps.same_bind
    | apply Visitor.Keeps.keeps_bind
    | exact Visitor.Keeps.keeps_solAssert _ _ _
    | exact Visitor.Keeps.pure_block _ _
    | exact Visitor.Keeps.pure_free _ _
    | exact Visitor.Keeps.pure_term _ _
    | exact Visitor.Keeps.pure_freeList _ _
    | exact Visitor.Keeps.pure_symbol _ _
    | exact Visitor.Keeps.pure_some _ _
    | exact Visitor.Keeps.pure_none _
    | exact Visitor.Keeps.pure_top _ _
    | exact Visitor.Keeps.read_block _
    | exact Visitor.Keeps.read_breakDest _
    | exact Visitor.Keeps.read_continueDest _
    | (refine Visitor.Keeps.read_free _ _ (fun _ => ?_); simp; done)
    | (refine Visitor.Keeps.read_freeList _ _ (fun _ => ?_); simp [smt.Expression.predicatesOfAll_map_free]; done)
    | (refine Visitor.Keeps.read_freeList _ _ (fun _ => ?_); split <;> simp [smt.Expression.predicatesOfAll_map_free]; done)
    | exact Visitor.Keeps.read_top _ _
    | exact Visitor.Keeps.deref_genesis _ _
    | exact Visitor.Keeps.deref_interface _ _
    | exact Visitor.Keeps.deref_error _ _
    | exact Visitor.Keeps.deref_constructor _ _
    | exact Visitor.Keeps.deref_breakDest _ _
    | exact Visitor.Keeps.deref_continueDest _ _
    | exact Visitor.Keeps.deref_summary _ _ _
    | exact Visitor.Keeps.deref_top _ _ _
    | exact Visitor.Keeps.update_frame _ _ (fun _ => ⟨rfl, rfl, rfl, rfl, rfl, rfl, rfl, rfl, rfl, rfl, rfl⟩)
    | (refine Visitor.Keeps.update_frame _ _ (fun _ => ⟨rfl, rfl, ?_, rfl, rfl, rfl, rfl, rfl, rfl, rfl, rfl⟩); simp; done)
    | exact Visitor.Keeps.update_popSolver _
    | exact Visitor.Keeps.update_pushSolver _
    | exact Visitor.Keeps.update_resetContext _
    | exact Visitor.Keeps.update_clearContext _
    | exact Visitor.Keeps.update_enterFunction _
    | exact Visitor.Keeps.keeps_addAssertion _ _
    | (refine Visitor.Keeps.addAssertion_free _ _ (fun _ => ?_); simp; done)
    | exact Visitor.Keeps.keeps_setZeroValue _ _
    | exact Visitor.Keeps.update_block _ _
    | exact Visitor.Keeps.update_genesisPredicate _ _
    | exact Visitor.Keeps.update_interfacePredicate _ _
    | exact Visitor.Keeps.update_errorPredicate _ _
    | exact Visitor.Keeps.update_constructorPredicate _ _
    | exact Visitor.Keeps.update_breakDest_some _ _
    | exact Visitor.Keeps.update_continueDest_some _ _
    | exact Visitor.Keeps.update_breakDest _ _
    | exact Visitor.Keeps.update_continueDest _ _
    | exact Visitor.Keeps.update_continueDest_post _ _ _
    | exact Visitor.Keeps.update_summaries _ _ _
    | apply Visitor.Keeps.keeps_forEach
    | intro _
    | split
    | (show Visitor.Keeps _ _ _ _ (fun _ => Known.top); split)
    | dsimp only)

set_option maxHeartbeats 4000000 in
theorem CHC.endVisitFunctionDefinition_inv (K : Known) (_function : FunctionDefinition) :
    Visitor.Keeps true true K (CHC.endVisitFunctionDefinition _function) (fun _ => Known.top) := by
  unfold CHC.endVisitFunctionDefinition SMTEncoder.endVisitFunctionDefinition
  repeat' (first
    | with_reducible exact Statement.acceptStatement_inv _ _
    | exact hBases _
    | with_reducible exact SMTEncoder.initFunction_inv _ _
    | with_reducible exact CHC.createBlock_inv _ _ _
    | with_reducible exact CHC.setCurrentBlock_inv _ _
    | with_reducible exact CHC.setCurrentBlockWith_inv _ _ _
    | with_reducible exact CHC.predicate_inv _ _
    | with_reducible exact CHC.predicateWith_inv _ _ _
    | with_reducible exact CHC.currentFunctionVariables_inv _
    | with_reducible exact CHC.currentStateVariables_inv _
    | with_reducible exact CHC.initialStateVariables_inv _
    | with_reducible exact CHC.genesis_inv _
    | with_reducible exact CHC.interface_inv _
    | with_reducible exact CHC.error_inv _
    | with_reducible exact CHC.summary_inv _ _
    | with_reducible exact CHC.clearIndices_inv _ _ _
    | with_reducible exact CHC.interfaceSort_inv _
    | with_reducible exact CHC.connectBlocks_inv _ _ _ _
    | with_reducible exact CHC.createSymbolicBlock_inv _ _ _
    | with_reducible exact CHC.createErrorBlock_inv _
    | with_reducible exact CHC.query_inv _ _ _
    | with_reducible exact CHC.reset_inv _
    | with_reducible exact CHC.uniquePrefix_inv _
    | exact Visitor.Keeps.keeps_defineExpr _ _ _
    | exact Visitor.Keeps.keeps_assignment _ _ _
    | apply Visitor.Keeps.same_bind
    | apply Visitor.Keeps.keeps_bind
    | exact Visitor.Keeps.keeps_solAssert _ _ _
    | exact Visitor.Keeps.pure_block _ _
    | exact Visitor.Keeps.pure_free _ _
    | exact Visitor.Keeps.pure_term _ _
    | exact Visitor.Keeps.pure_freeList _ _
    | exact Visitor.Keeps.pure_symbol _ _
    | exact Visitor.Keeps.pure_some _ _
    | exact Visitor.Keeps.pure_none _
    | exact Visitor.Keeps.pure_top _ _
    | exact Visitor.Keeps.read_block _
    | exact Visitor.Keeps.read_breakDest _
    | exact Visitor.Keeps.read_continueDest _
    | (refine Visitor.Keeps.read_free _ _ (fun _ => ?_); simp; done)
    | (refine Visitor.Keeps.read_freeList _ _ (fun _ => ?_); simp [smt.Expression.predicatesOfAll_map_free]; done)
    | (refine Visitor.Keeps.read_freeList _ _ (fun _ => ?_); split <;> simp [smt.Expression.predicatesOfAll_map_free]; done)
    | exact Visitor.Keeps.read_top _ _
    | exact Visitor.Keeps.deref_genesis _ _
    | exact Visitor.Keeps.deref_interface _ _
    | exact Visitor.Keeps.deref_error _ _
    | exact Visitor.Keeps.deref_constructor _ _
    | exact Visitor.Keeps.deref_breakDest _ _
    | exact Visitor.Keeps.deref_continueDest _ _
    | exact Visitor.Keeps.deref_summary _ _ _
    | exact Visitor.Keeps.deref_top _ _ _
    | exact Visitor.Keeps.update_frame _ _ (fun _ => ⟨rfl, rfl, rfl, rfl, rfl, rfl, rfl, rfl, rfl, rfl, rfl⟩)
    | (refine Visitor.Keeps.update_frame _ _ (fun _ => ⟨rfl, rfl, ?_, rfl, rfl, rfl, rfl, rfl, rfl, rfl, rfl⟩); simp; done)
    | exact Visitor.Keeps.update_popSolver _
    | exact Visitor.Keeps.update_pushSolver _
    | exact Visitor.Keeps.update_resetContext _
    | exact Visitor.Keeps.update_clearContext _
    | exact Visitor.Keeps.update_enterFunction _
    | exact Visitor.Keeps.keeps_addAssertion _ _
    | (refine Visitor.Keeps.addAssertion_free _ _ (fun _ => ?_); simp; done)
    | exact Visitor.Keeps.keeps_setZeroValue _ _
    | exact Visitor.Keeps.update_block _ _
    | exact Visitor.Keeps.update_genesisPredicate _ _
    | exact Visitor.Keeps.update_interfacePredicate _ _
    | exact Visitor.Keeps.update_errorPredicate _ _
    | exact Visitor.Keeps.update_constructorPredicate _ _
    | exact Visitor.Keeps.update_breakDest_some _ _
    | exact Visitor.Keeps.update_continueDest_some _ _
    | exact Visitor.Keeps.update_breakDest _ _
    | exact Visitor.Keeps.update_continueDest _ _
    | exact Visitor.Keeps.update_continueDest_post _ _ _
    | exact Visitor.Keeps.update_summaries _ _ _
    | apply Visitor.Keeps.keeps_forEach
    | intro _
    | split
    | (show Visitor.Keeps _ _ _ _ (fun _ => Known.top); split)
    | dsimp only)

theorem FunctionDefinition.acceptFunction_inv (K : Known) (inlineBases : Visitor Unit)
    (_function : FunctionDefinition) (hBases : ∀ K : Known, Visitor.Keeps true true K inlineBases (fun _ => Known.top)) :
    Visitor.Keeps true true K (FunctionDefinition.accept inlineBases _function) (fun _ => Known.top) := by
  unfold FunctionDefinition.accept
  exact Visitor.Keeps.keeps_bind (CHC.visitFunctionDefinition_inv _ _ _ hBases)
    (fun _ => CHC.endVisitFunctionDefinition_inv _ _)

theorem SMTEncoder.inlineConstructorHierarchy_inv :
    ∀ (bases : List BaseContract) (K : Known),
      Visitor.Keeps true true K (SMTEncoder.inlineConstructorHierarchy bases) (fun _ => Known.top)
  | [], K => by
    rw [SMTEncoder.inlineConstructorHierarchy]
    exact Visitor.Keeps.pure_top _ _
  | base :: rest, K => by
    rw [SMTEncoder.inlineConstructorHierarchy]
    have ih := SMTEncoder.inlineConstructorHierarchy_inv rest
    split
    · split
      · exact FunctionDefinition.acceptFunction_inv _ _ _ ih
      · exact ih _
    · exact ih _

theorem SMTEncoder.baseVisitContractDefinition_inv (K : Known) (c : ContractDefinition) :
    Visitor.Keeps true true K (SMTEncoder.visitContractDefinition c) (fun _ => Known.top) := by
  unfold SMTEncoder.visitContractDefinition
  repeat' (first
    | with_reducible exact FunctionDefinition.acceptFunction_inv _ _ _ (fun _ => Visitor.Keeps.pure_top _ _)
    | with_reducible exact CHC.connectBlocks_inv _ _ _ _
    | with_reducible exact CHC.createSymbolicBlock_inv _ _ _
    | with_reducible exact CHC.createErrorBlock_inv _
    | with_reducible exact CHC.query_inv _ _ _
    | with_reducible exact CHC.reset_inv _
    | with_reducible exact CHC.uniquePrefix_inv _
    | exact Visitor.Keeps.keeps_defineExpr _ _ _
    | exact Visitor.Keeps.keeps_assignment _ _ _
    | apply Visitor.Keeps.same_bind
    | apply Visitor.Keeps.keeps_bind
    | exact Visitor.Keeps.keeps_solAssert _ _ _
    | exact Visitor.Keeps.pure_block _ _
    | exact Visitor.Keeps.pure_free _ _
    | exact Visitor.Keeps.pure_term _ _
    | exact Visitor.Keeps.pure_freeList _ _
    | exact Visitor.Keeps.pure_symbol _ _
    | exact Visitor.Keeps.pure_some _ _
    | exact Visitor.Keeps.pure_none _
    | exact Visitor.Keeps.pure_top _ _
    | exact Visitor.Keeps.read_block _
    | exact Visitor.Keeps.read_breakDest _
    | exact Visitor.Keeps.read_continueDest _
    | (refine Visitor.Keeps.read_free _ _ (fun _ => ?_); simp; done)
    | (refine Visitor.Keeps.read_freeList _ _ (fun _ => ?_); simp [smt.Expression.predicatesOfAll_map_free]; done)
    | (refine Visitor.Keeps.read_freeList _ _ (fun _ => ?_); split <;> simp [smt.Expression.predicatesOfAll_map_free]; done)
    | exact Visitor.Keeps.read_top _ _
    | exact Visitor.Keeps.deref_genesis _ _
    | exact Visitor.Keeps.deref_interface _ _
    | exact Visitor.Keeps.deref_error _ _
    | exact Visitor.Keeps.deref_constructor _ _
    | exact Visitor.Keeps.deref_breakDest _ _
    | exact Visitor.Keeps.deref_continueDest _ _
    | exact Visitor.Keeps.deref_summary _ _ _
    | exact Visitor.Keeps.deref_top _ _ _
    | exact Visitor.Keeps.update_frame _ _ (fun _ => ⟨rfl, rfl, rfl, rfl, rfl, rfl, rfl, rfl, rfl, rfl, rfl⟩)
    | (refine Visitor.Keeps.update_frame _ _ (fun _ => ⟨rfl, rfl, ?_, rfl, rfl, rfl, rfl, rfl, rfl, rfl, rfl⟩); simp; done)
    | exact Visitor.Keeps.update_popSolver _
    | exact Visitor.Keeps.update_pushSolver _
    | exact Visitor.Keeps.update_resetContext _
    | exact Visitor.Keeps.update_clearContext _
    | exact Visitor.Keeps.update_enterFunction _
    | exact Visitor.Keeps.keeps_addAssertion _ _
    | (refine Visitor.Keeps.addAssertion_free _ _ (fun _ => ?_); simp; done)
    | exact Visitor.Keeps.keeps_setZeroValue _ _
    | exact Visitor.Keeps.update_block _ _
    | exact Visitor.Keeps.update_genesisPredicate _ _
    | exact Visitor.Keeps.update_interfacePredicate _ _
    | exact Visitor.Keeps.update_errorPredicate _ _
    | exact Visitor.Keeps.update_constructorPredicate _ _
    | exact Visitor.Keeps.update_breakDest_some _ _
    | exact Visitor.Keeps.update_continueDest_some _ _
    | exact Visitor.Keeps.update_breakDest _ _
    | exact Visitor.Keeps.update_continueDest _ _
    | exact Visitor.Keeps.update_continueDest_post _ _ _
    | exact Visitor.Keeps.update_summaries _ _ _
    | apply Visitor.Keeps.keeps_forEach
    | intro _
    | split
    | (show Visitor.Keeps _ _ _ _ (fun _ => Known.top); split)
    | dsimp only)

set_option maxHeartbeats 4000000 in
theorem CHC.visitContractDefinition_inv {b : Bool} (K : Known) (c : ContractDefinition)
    (hv : CHC.shouldVisitContract c = true) :
    Visitor.Keeps b true K (CHC.visitContractDefinition c) (fun _ => Known.top) := by
  unfold CHC.visitContractDefinition
  simp only [hv, Bool.not_true, Bool.false_eq_true, ↓reduceIte]
  repeat' (first
    | with_reducible exact SMTEncoder.baseVisitContractDefinition_inv _ _
    | with_reducible exact SMTEncoder.initContract_inv _ _
    | with_reducible exact CHC.createSummaryBlock_inv _ _
    | with_reducible exact FunctionDefinition.acceptFunction_inv _ _ _ (SMTEncoder.inlineConstructorHierarchy_inv _)
    | with_reducible exact SMTEncoder.inlineConstructorHierarchy_inv _ _
    | with_reducible exact CHC.constructorSort_inv _
    | with_reducible exact SMTEncoder.initFunction_inv _ _
    | with_reducible exact CHC.createBlock_inv _ _ _
    | with_reducible exact CHC.setCurrentBlock_inv _ _
    | with_reducible exact CHC.setCurrentBlockWith_inv _ _ _
    | with_reducible exact CHC.predicate_inv _ _
    | with_reducible exact CHC.predicateWith_inv _ _ _
    | with_reducible exact CHC.currentFunctionVariables_inv _
    | with_reducible exact CHC.currentStateVariables_inv _
    | with_reducible exact CHC.initialStateVariables_inv _
    | with_reducible exact CHC.genesis_inv _
    | with_reducible exact CHC.interface_inv _
    | with_reducible exact CHC.error_inv _
    | with_reducible exact CHC.summary_inv _ _
    | with_reducible exact CHC.clearIndices_inv _ _ _
    | with_reducible exact CHC.interfaceSort_inv _
    | with_reducible exact CHC.connectBlocks_inv _ _ _ _
    | with_reducible exact CHC.createSymbolicBlock_inv _ _ _
    | with_reducible exact CHC.createErrorBlock_inv _
    | with_reducible exact CHC.query_inv _ _ _
    | with_reducible exact CHC.reset_inv _
    | with_reducible exact CHC.uniquePrefix_inv _
    | exact Visitor.Keeps.keeps_defineExpr _ _ _
    | exact Visitor.Keeps.keeps_assignment _ _ _
    | apply Visitor.Keeps.same_bind
    | apply Visitor.Keeps.keeps_bind
    | exact Visitor.Keeps.keeps_solAssert _ _ _
    | exact Visitor.Keeps.pure_block _ _
    | exact Visitor.Keeps.pure_free _ _
    | exact Visitor.Keeps.pure_term _ _
    | exact Visitor.Keeps.pure_freeList _ _
    | exact Visitor.Keeps.pure_symbol _ _
    | exact Visitor.Keeps.pure_some _ _
    | exact Visitor.Keeps.pure_none _
    | exact Visitor.Keeps.pure_top _ _
    | exact Visitor.Keeps.read_block _
    | exact Visitor.Keeps.read_breakDest _
    | exact Visitor.Keeps.read_continueDest _
    | (refine Visitor.Keeps.read_free _ _ (fun _ => ?_); simp; done)
    | (refine Visitor.Keeps.read_freeList _ _ (fun _ => ?_); simp [smt.Expression.predicatesOfAll_map_free]; done)
    | (refine Visitor.Keeps.read_freeList _ _ (fun _ => ?_); split <;> simp [smt.Expression.predicatesOfAll_map_free]; done)
    | exact Visitor.Keeps.read_top _ _
    | exact Visitor.Keeps.deref_genesis _ _
    | exact Visitor.Keeps.deref_interface _ _
    | exact Visitor.Keeps.deref_error _ _
    | exact Visitor.Keeps.deref_constructor _ _
    | exact Visitor.Keeps.deref_breakDest _ _
    | exact Visitor.Keeps.deref_continueDest _ _
    | exact Visitor.Keeps.deref_summary _ _ _
    | exact Visitor.Keeps.deref_top _ _ _
    | exact Visitor.Keeps.update_frame _ _ (fun _ => ⟨rfl, rfl, rfl, rfl, rfl, rfl, rfl, rfl, rfl, rfl, rfl⟩)
    | (refine Visitor.Keeps.update_frame _ _ (fun _ => ⟨rfl, rfl, ?_, rfl, rfl, rfl, rfl, rfl, rfl, rfl, rfl⟩); simp; done)
    | exact Visitor.Keeps.update_popSolver _
    | exact Visitor.Keeps.update_pushSolver _
    | exact Visitor.Keeps.update_resetContext _
    | exact Visitor.Keeps.update_clearContext _
    | exact Visitor.Keeps.update_enterFunction _
    | exact Visitor.Keeps.keeps_addAssertion _ _
    | (refine Visitor.Keeps.addAssertion_free _ _ (fun _ => ?_); simp; done)
    | exact Visitor.Keeps.keeps_setZeroValue _ _
    | exact Visitor.Keeps.update_block _ _
    | exact Visitor.Keeps.update_genesisPredicate _ _
    | exact Visitor.Keeps.update_interfacePredicate _ _
    | exact Visitor.Keeps.update_errorPredicate _ _
    | exact Visitor.Keeps.update_constructorPredicate _ _
    | exact Visitor.Keeps.update_breakDest_some _ _
    | exact Visitor.Keeps.update_continueDest_some _ _
    | exact Visitor.Keeps.update_breakDest _ _
    | exact Visitor.Keeps.update_continueDest _ _
    | exact Visitor.Keeps.update_continueDest_post _ _ _
    | exact Visitor.Keeps.update_summaries _ _ _
    | apply Visitor.Keeps.keeps_forEach
    | intro _
    | split
    | (show Visitor.Keeps _ _ _ _ (fun _ => Known.top); split)
    | dsimp only)

set_option maxHeartbeats 4000000 in
theorem CHC.endVisitContractDefinition_inv {b : Bool} (K : Known) (c : ContractDefinition)
    (hv : CHC.shouldVisitContract c = true) :
    Visitor.Keeps b true K (CHC.endVisitContractDefinition c) (fun _ => Known.top) := by
  unfold CHC.endVisitContractDefinition SMTEncoder.endVisitContractDefinition
  simp only [hv, Bool.not_true, Bool.false_eq_true, ↓reduceIte]
  repeat' (first
    | with_reducible exact SMTEncoder.baseVisitContractDefinition_inv _ _
    | with_reducible exact SMTEncoder.initContract_inv _ _
    | with_reducible exact CHC.createSummaryBlock_inv _ _
    | with_reducible exact FunctionDefinition.acceptFunction_inv _ _ _ (SMTEncoder.inlineConstructorHierarchy_inv _)
    | with_reducible exact SMTEncoder.inlineConstructorHierarchy_inv _ _
    | with_reducible exact CHC.constructorSort_inv _
    | with_reducible exact SMTEncoder.initFunction_inv _ _
    | with_reducible exact CHC.createBlock_inv _ _ _
    | with_reducible exact CHC.setCurrentBlock_inv _ _
    | with_reducible exact CHC.setCurrentBlockWith_inv _ _ _
    | with_reducible exact CHC.predicate_inv _ _
    | with_reducible exact CHC.predicateWith_inv _ _ _
    | with_reducible exact CHC.currentFunctionVariables_inv _
    | with_reducible exact CHC.currentStateVariables_inv _
    | with_reducible exact CHC.initialStateVariables_inv _
    | with_reducible exact CHC.genesis_inv _
    | with_reducible exact CHC.interface_inv _
    | with_reducible exact CHC.error_inv _
    | with_reducible exact CHC.summary_inv _ _
    | with_reducible exact CHC.clearIndices_inv _ _ _
    | with_reducible exact CHC.interfaceSort_inv _
    | with_reducible exact CHC.connectBlocks_inv _ _ _ _
    | with_reducible exact CHC.createSymbolicBlock_inv _ _ _
    | with_reducible exact CHC.createErrorBlock_inv _
    | with_reducible exact CHC.query_inv _ _ _
    | with_reducible exact CHC.reset_inv _
    | with_reducible exact CHC.uniquePrefix_inv _
    | exact Visitor.Keeps.keeps_defineExpr _ _ _
    | exact Visitor.Keeps.keeps_assignment _ _ _
    | apply Visitor.Keeps.same_bind
    | apply Visitor.Keeps.keeps_bind
    | exact Visitor.Keeps.keeps_solAssert _ _ _
    | exact Visitor.Keeps.pure_block _ _
    | exact Visitor.Keeps.pure_free _ _
    | exact Visitor.Keeps.pure_term _ _
    | exact Visitor.Keeps.pure_freeList _ _
    | exact Visitor.Keeps.pure_symbol _ _
    | exact Visitor.Keeps.pure_some _ _
    | exact Visitor.Keeps.pure_none _
    | exact Visitor.Keeps.pure_top _ _
    | exact Visitor.Keeps.read_block _
    | exact Visitor.Keeps.read_breakDest _
    | exact Visitor.Keeps.read_continueDest _
    | (refine Visitor.Keeps.read_free _ _ (fun _ => ?_); simp; done)
    | (refine Visitor.Keeps.read_freeList _ _ (fun _ => ?_); simp [smt.Expression.predicatesOfAll_map_free]; done)
    | (refine Visitor.Keeps.read_freeList _ _ (fun _ => ?_); split <;> simp [smt.Expression.predicatesOfAll_map_free]; done)
    | exact Visitor.Keeps.read_top _ _
    | exact Visitor.Keeps.deref_genesis _ _
    | exact Visitor.Keeps.deref_interface _ _
    | exact Visitor.Keeps.deref_error _ _
    | exact Visitor.Keeps.deref_constructor _ _
    | exact Visitor.Keeps.deref_breakDest _ _
    | exact Visitor.Keeps.deref_continueDest _ _
    | exact Visitor.Keeps.deref_summary _ _ _
    | exact Visitor.Keeps.deref_top _ _ _
    | exact Visitor.Keeps.update_frame _ _ (fun _ => ⟨rfl, rfl, rfl, rfl, rfl, rfl, rfl, rfl, rfl, rfl, rfl⟩)
    | (refine Visitor.Keeps.update_frame _ _ (fun _ => ⟨rfl, rfl, ?_, rfl, rfl, rfl, rfl, rfl, rfl, rfl, rfl⟩); simp; done)
    | exact Visitor.Keeps.update_popSolver _
    | exact Visitor.Keeps.update_pushSolver _
    | exact Visitor.Keeps.update_resetContext _
    | exact Visitor.Keeps.update_clearContext _
    | exact Visitor.Keeps.update_enterFunction _
    | exact Visitor.Keeps.keeps_addAssertion _ _
    | (refine Visitor.Keeps.addAssertion_free _ _ (fun _ => ?_); simp; done)
    | exact Visitor.Keeps.keeps_setZeroValue _ _
    | exact Visitor.Keeps.update_block _ _
    | exact Visitor.Keeps.update_genesisPredicate _ _
    | exact Visitor.Keeps.update_interfacePredicate _ _
    | exact Visitor.Keeps.update_errorPredicate _ _
    | exact Visitor.Keeps.update_constructorPredicate _ _
    | exact Visitor.Keeps.update_breakDest_some _ _
    | exact Visitor.Keeps.update_continueDest_some _ _
    | exact Visitor.Keeps.update_breakDest _ _
    | exact Visitor.Keeps.update_continueDest _ _
    | exact Visitor.Keeps.update_continueDest_post _ _ _
    | exact Visitor.Keeps.update_summaries _ _ _
    | apply Visitor.Keeps.keeps_forEach
    | intro _
    | split
    | (show Visitor.Keeps _ _ _ _ (fun _ => Known.top); split)
    | dsimp only)

theorem ContractDefinition.acceptContract_inv (K : Known) (c : ContractDefinition) :
    Visitor.Keeps false false K (ContractDefinition.accept c) (fun _ => Known.top) := by
  unfold ContractDefinition.accept
  by_cases hv : CHC.shouldVisitContract c = true
  · exact Visitor.Keeps.unshape (Visitor.Keeps.keeps_bind (CHC.visitContractDefinition_inv _ _ hv)
      (fun _ => CHC.endVisitContractDefinition_inv _ _ hv))
  · have hv2 : CHC.shouldVisitContract c = false := by simpa using hv
    unfold CHC.visitContractDefinition CHC.endVisitContractDefinition
    simp only [hv2, Bool.not_false, ↓reduceIte]
    exact Visitor.Keeps.keeps_bind (Visitor.Keeps.pure_top _ _) (fun _ => Visitor.Keeps.pure_top _ _)

theorem SourceUnit.acceptSource_inv (K : Known) (source : SourceUnit) :
    Visitor.Keeps false false K (SourceUnit.accept source) (fun _ => Known.top) := by
  unfold SourceUnit.accept
  exact Visitor.Keeps.keeps_forEach (fun c => ContractDefinition.acceptContract_inv _ c) _

/-- The analyzer when the walk over the source unit starts: the context is
empty, `genesis` is registered and is the only rule. -/
theorem CHC.analyze_run (source : SourceUnit)
    (answer : List smt.SolverCall → smt.Expression → smt.CheckResult)
    (h : source.experimentalSMTChecker = true) :
    ∃ s0, CHC.analyze source (CHC.new answer) = source.accept s0 ∧ CHC.Invariant false s0 := by
  refine ⟨?s0, ?h1, ?h2⟩
  case h1 =>
    unfold CHC.analyze
    rw [h]
    exact rfl
  case h2 =>
    have hreg : smt.registered
        [smt.SolverCall.registerRelation "genesis" 0 ⟨[], .Bool⟩,
          smt.SolverCall.addRule (.apply "genesis" 0 []) "genesis"] ("genesis", 0) :=
      ⟨⟨[], .Bool⟩, List.mem_cons_self _ _⟩
    refine ⟨?_, ?_, ?_, (fun hf => by cases hf), (fun _ he => by cases he),
      (fun _ he => by cases he), ?_, (fun _ hb => by cases hb), (fun _ hb => by cases hb),
      (fun _ hb => by cases hb), (fun _ hp => by cases hp), (fun _ hb => by cases hb),
      (fun _ hb => by cases hb)⟩
    · exact (@smt.RulesRegistered.registered_append_other []
        (.registerRelation "genesis" 0 ⟨[], .Bool⟩) smt.RulesRegistered.registered_nil
        (fun _ _ hc => by cases hc)).registered_append_rule "genesis"
        (by
          intro p hp
          have hp2 : p ∈ [("genesis", 0)] := hp
          rw [List.mem_singleton.mp hp2]
          exact ⟨⟨[], .Bool⟩, List.mem_cons_self _ _⟩)
    · exact (@smt.RulesHorn.horn_append_other []
        (.registerRelation "genesis" 0 ⟨[], .Bool⟩) smt.RulesHorn.horn_nil
        (fun _ _ hc => by cases hc)).horn_append_rule "genesis" (Or.inl rfl)
    · exact smt.Expression.registeredIn_boolLit true
    · intro b hb
      cases hb
      exact hreg

/-- Whatever the source unit and the back end, the calls that an analysis leaves
behind are in order. -/
theorem CHC.analyze_inOrder (source : SourceUnit)
    (answer : List smt.SolverCall → smt.Expression → smt.CheckResult) :
    CHC.InOrder (CHC.analyze source (CHC.new answer)).state := by
  by_cases h : source.experimentalSMTChecker = true
  · obtain ⟨s0, h1, h2⟩ := CHC.analyze_run source answer h
    rw [h1]
    exact (SourceUnit.acceptSource_inv Known.top source).keeps_inOrder s0 h2 trivial
  · have h3 : source.experimentalSMTChecker = false := by simpa using h
    have h4 : CHC.analyze source (CHC.new answer) = .abort "" (CHC.new answer) := by
      unfold CHC.analyze
      rw [h3]
      rfl
    rw [h4]
    exact ⟨smt.RulesRegistered.registered_nil, smt.RulesHorn.horn_nil⟩


/-! ## Leaving a function -/

namespace smt.EncodingContext

@[simp] theorem setIndex_accumulate (c : EncodingContext) (decl : VariableDeclaration) (i : Nat) :
    (c.setIndex decl i).m_accumulateAssertions = c.m_accumulateAssertions := by
  unfold setIndex
  split <;> rfl

@[simp] theorem increaseIndex_accumulate (c : EncodingContext) (decl : VariableDeclaration) :
    (c.increaseIndex decl).m_accumulateAssertions = c.m_accumulateAssertions :=
  setIndex_accumulate _ _ _

@[simp] theorem resetIndex_accumulate (c : EncodingContext) (decl : VariableDeclaration) :
    (c.resetIndex decl).m_accumulateAssertions = c.m_accumulateAssertions :=
  setIndex_accumulate _ _ _

/-- A fold of steps that keep the accumulation flag keeps the flag. -/
theorem foldl_accumulate {α : Type} (g : EncodingContext → α → EncodingContext)
    (hg : ∀ c a, (g c a).m_accumulateAssertions = c.m_accumulateAssertions) :
    ∀ (l : List α) (c : EncodingContext),
      (l.foldl g c).m_accumulateAssertions = c.m_accumulateAssertions
  | [], _ => rfl
  | a :: rest, c => by
    rw [List.foldl_cons, foldl_accumulate g hg rest, hg]

@[simp] theorem foldl_increaseIndex_accumulate (l : List VariableDeclaration)
    (c : EncodingContext) :
    (l.foldl (fun c v => c.increaseIndex v) c).m_accumulateAssertions =
      c.m_accumulateAssertions :=
  foldl_accumulate _ increaseIndex_accumulate l c

@[simp] theorem foldl_resetIndex_accumulate (l : List VariableDeclaration)
    (c : EncodingContext) :
    (l.foldl (fun c v => c.resetIndex v) c).m_accumulateAssertions =
      c.m_accumulateAssertions :=
  foldl_accumulate _ resetIndex_accumulate l c

@[simp] theorem popSolver_accumulate (c : EncodingContext) :
    c.popSolver.m_accumulateAssertions = c.m_accumulateAssertions :=
  rfl

theorem pushSolver_assertions (c : EncodingContext) :
    c.pushSolver.assertions = if c.m_accumulateAssertions then c.assertions else .boolLit true :=
  rfl

end smt.EncodingContext

theorem CHC.endVisitFunctionDefinition_run (f : FunctionDefinition) (s : CHC)
    (c : ContractDefinition) (block ip ep : smt.SymbolicFunctionVariable)
    (hcur : s.m_currentFunction = some f) (hi : f.isImplemented = true)
    (hc : f.isConstructor = false) (hcon : s.m_currentContract = some c)
    (hsum : (s.m_summaries.find? fun p => p.1 == f.id).map (·.2) = some block)
    (hip : s.m_interfacePredicate = some ip) (hep : s.m_errorPredicate = some ep)
    (hacc : s.m_context.m_accumulateAssertions = false) :
    ∃ s1, CHC.endVisitFunctionDefinition f s = .ok () s1 ∧
      s1.m_interface.calls = s.m_interface.calls ++
        (if f.isPublic then
          CHC.exitRules ep s.m_currentBlock
            (block.app ([s.m_error.currentValue] ++
              (s.m_stateVariables.map fun v => (s.m_context.variableOf v).valueAtIndex 0) ++
              (f.parameters.map fun v => (s.m_context.variableOf v).valueAtIndex 0) ++
              (s.m_stateVariables.map fun v => (s.m_context.variableOf v).currentValue) ++
              (f.returnParameters.map fun v => (s.m_context.variableOf v).currentValue)))
            (ip.app (s.m_stateVariables.map fun v => (s.m_context.variableOf v).valueAtIndex 0))
            (ip.app (s.m_stateVariables.map fun v => (s.m_context.variableOf v).currentValue))
            s.m_context.assertions (.boolLit true) s.m_error.currentValue
        else
          [.addRule
            (.implies ((s.m_currentBlock.and s.m_context.assertions).and (.boolLit true))
              (block.app ([s.m_error.currentValue] ++
                (s.m_stateVariables.map fun v => (s.m_context.variableOf v).valueAtIndex 0) ++
                (f.parameters.map fun v => (s.m_context.variableOf v).valueAtIndex 0) ++
                (s.m_stateVariables.map fun v => (s.m_context.variableOf v).currentValue) ++
                (f.returnParameters.map fun v => (s.m_context.variableOf v).currentValue))))
            (s.m_currentBlock.name ++ "_to_" ++ (block.app ([s.m_error.currentValue] ++
                (s.m_stateVariables.map fun v => (s.m_context.variableOf v).valueAtIndex 0) ++
                (f.parameters.map fun v => (s.m_context.variableOf v).valueAtIndex 0) ++
                (s.m_stateVariables.map fun v => (s.m_context.variableOf v).currentValue) ++
                (f.returnParameters.map fun v => (s.m_context.variableOf v).currentValue))).name)]) ∧
      s1.m_functionErrors =
        (if f.isPublic then
          emplaceFunctionError s.m_functionErrors f (.apply ep.uniqueName (ep.index + 1) [])
        else s.m_functionErrors) ∧
      s1.m_errorPredicate = (if f.isPublic then some ep.increaseIndex else some ep) ∧
      s1.m_currentFunction = none ∧
      s1.m_currentBlock =
        ip.app (s.m_stateVariables.map fun v => (s.m_context.variableOf v).valueAtIndex 0) ∧
      s1.m_verificationTargets = s.m_verificationTargets := by
  obtain ⟨a1, a2, a3, a4, a5, a6, a7, a8, a9, a10, a11, a12, a13, a14, a15, a16, a17, a18, a19,
    a20, a21, a22, a23⟩ := s
  obtain ⟨v1, v2, v3, v4⟩ := a1
  simp only at hcur hcon hip hep hacc hsum
  subst hcur hcon hip hep hacc
  have hrun : CHC.endVisitFunctionDefinition f ⟨⟨v1, v2, v3, false⟩, a2, a3, some c, a5, a6,
        some ip, some ep, a9, a10, a11, a12, a13, a14, a15, a16, a17, a18, some f, a20, a21, a22,
        a23⟩ =
      CHC.endVisitFunctionDefinition f ⟨⟨v1, v2, v3, false⟩, a2, a3, some c, a5, a6,
        some ip, some ep, a9, a10, a11, a12, a13, a14, a15, a16, a17, a18, some f, a20, a21, a22,
        a23⟩ := rfl
  cases hp : f.isPublic
  all_goals
    conv at hrun =>
      rhs
      unfold CHC.endVisitFunctionDefinition
      simp only [CHC.shouldVisitFunction, hi, hc, hp, Bool.not_true, Bool.false_eq_true,
        ↓reduceIte]
      rw [Visitor.read_bind_run]
      simp only [Option.map_some', bne_self_eq_false, Bool.false_eq_true, ↓reduceIte,
        Visitor.bind_assoc]
      unfold CHC.interface CHC.summary CHC.setCurrentBlock CHC.createErrorBlock CHC.error
        CHC.predicateWith CHC.initialStateVariables CHC.stateVariablesAtIndex
        CHC.currentStateVariables
        CHC.connectBlocks CHC.addRule CHC.clearIndices SMTEncoder.clearIndices
        SMTEncoder.endVisitFunctionDefinition
      simp only [Visitor.bind_assoc_run, Visitor.read_bind_run, Visitor.update_bind_run,
        Visitor.pure_bind_run, Option.isSome_some, Visitor.solAssert_bind_run,
        Visitor.deref_bind_run, ↓reduceIte, Visitor.pure_run, hsum]
  · refine ⟨_, hrun, ?_, ?_, ?_, ?_, ?_, ?_⟩
    all_goals simp only [Bool.false_eq_true, ↓reduceIte]
    all_goals exact rfl
  · refine ⟨_, hrun, ?_, ?_, ?_, ?_, ?_, ?_⟩
    all_goals simp only [↓reduceIte, smt.EncodingContext.pushSolver_assertions,
      smt.EncodingContext.foldl_increaseIndex_accumulate,
      smt.EncodingContext.foldl_resetIndex_accumulate, smt.EncodingContext.popSolver_accumulate,
      Bool.false_eq_true]
    · unfold CHC.exitRules
      simp only [smt.CHCSolverInterface.registerRelation, smt.CHCSolverInterface.addRule,
        smt.SymbolicFunctionVariable.increaseIndex, smt.SymbolicFunctionVariable.app,
        List.append_assoc, List.singleton_append, List.cons_append, List.nil_append]
    all_goals exact rfl

/-! ## Asserts and internal calls -/

/-- The visit of an assert call whose argument is not of a type of category
`Bool` aborts at the second check of `visitAssert`, with the state as it was. -/
theorem CHC.visitAssert_not_bool (call cond : Expression) (s : CHC)
    (hargs : call.arguments = [cond]) (hbool : cond.category ≠ .Bool) :
    ∃ message, CHC.visitAssert call s = .abort message s := by
  have h : (cond.category == TypeCategory.Bool) = false := by
    cases hc : cond.category == TypeCategory.Bool
    · rfl
    · exact absurd (beq_iff_eq.mp hc) hbool
  unfold CHC.visitAssert
  simp only [hargs, List.length_singleton, beq_self_eq_true, List.head?_cons]
  refine ⟨"", ?_⟩
  simp only [Visitor.bind_assoc_run, Visitor.solAssert_bind_run, Visitor.deref_bind_run, h,
    ↓reduceIte, Bool.false_eq_true]

theorem CHC.visitAssert_run (call cond : Expression) (s : CHC) (f : FunctionDefinition)
    (c : ContractDefinition) (block : smt.SymbolicFunctionVariable)
    (hargs : call.arguments = [cond]) (hbool : cond.category = .Bool)
    (hcur : s.m_currentFunction = some f) (hcon : s.m_currentContract = some c)
    (hsum : (s.m_summaries.find? fun p => p.1 == f.id).map (·.2) = some block) :
    ∃ (s1 : CHC) (entryName : String) (entrySort : smt.FunctionSort)
      (args1 rest : List smt.Expression),
      CHC.visitAssert call s = .ok () s1 ∧
      s1.m_verificationTargets = s.m_verificationTargets ++ [call] ∧
      s1.m_error = s.m_error.increaseIndex ∧
      s1.m_interface.calls = s.m_interface.calls ++
        [.addRule
          (.implies
            ((s.m_currentBlock.and s.m_context.assertions).and
              (((match s.m_pathConditions with
                  | [] => smt.Expression.boolLit true
                  | p :: _ => p).and (s.m_context.expression cond.id).currentValue.not).and
                (s.m_error.increaseIndex.currentValue.eq
                  (.intLit (s.m_verificationTargets.length + 1)))))
            (block.app ([s.m_error.increaseIndex.currentValue] ++
              (s.m_stateVariables.map fun v => (s.m_context.variableOf v).valueAtIndex 0) ++
              (f.parameters.map fun v => (s.m_context.variableOf v).valueAtIndex 0) ++
              (s.m_stateVariables.map fun v => (s.m_context.variableOf v).currentValue) ++
              (f.returnParameters.map fun v => (s.m_context.variableOf v).currentValue))))
          (s.m_currentBlock.name ++ "_to_" ++
            (block.app ([s.m_error.increaseIndex.currentValue] ++
              (s.m_stateVariables.map fun v => (s.m_context.variableOf v).valueAtIndex 0) ++
              (f.parameters.map fun v => (s.m_context.variableOf v).valueAtIndex 0) ++
              (s.m_stateVariables.map fun v => (s.m_context.variableOf v).currentValue) ++
              (f.returnParameters.map fun v => (s.m_context.variableOf v).currentValue))).name),
         .registerRelation entryName 0 entrySort,
         .addRule
          (.implies
            ((s.m_currentBlock.and
              ((s.m_context.addAssertion (s.m_context.expression cond.id).currentValue).addAssertion
                (s.m_error.increaseIndex.currentValue.eq s.m_error.currentValue)).assertions).and
              (.boolLit true))
            (smt.Expression.apply entryName 0 args1))
          (s.m_currentBlock.name ++ "_to_" ++ (smt.Expression.apply entryName 0 args1).name)] ∧
      s1.m_currentBlock = .apply entryName 0 rest ∧
      CHC.currentBlockVariables s1 = .ok rest s1 := by
  obtain ⟨a1, a2, a3, a4, a5, a6, a7, a8, a9, a10, a11, a12, a13, a14, a15, a16, a17, a18, a19,
    a20, a21, a22, a23⟩ := s
  simp only at hcur hcon hsum
  subst hcur hcon
  have hrun : CHC.visitAssert call ⟨a1, a2, a3, some c, a5, a6, a7, a8, a9, a10, a11, a12, a13,
        a14, a15, a16, a17, a18, some f, a20, a21, a22, a23⟩ =
      CHC.visitAssert call ⟨a1, a2, a3, some c, a5, a6, a7, a8, a9, a10, a11, a12, a13,
        a14, a15, a16, a17, a18, some f, a20, a21, a22, a23⟩ := rfl
  conv at hrun =>
    rhs
    unfold CHC.visitAssert
    simp only [hargs, hbool, List.length_singleton, beq_self_eq_true, List.head?_cons]
    unfold CHC.summary CHC.initialStateVariables CHC.stateVariablesAtIndex
      CHC.currentStateVariables SMTEncoder.currentPathConditions CHC.connectBlocks CHC.addRule
      CHC.setCurrentBlock CHC.createBlock CHC.sortNode CHC.sort CHC.predicateName
      CHC.createSymbolicBlock CHC.predicate CHC.currentBlockVariables
      CHC.currentFunctionVariables CHC.initialStateVariables CHC.stateVariablesAtIndex
      CHC.currentStateVariables CHC.clearIndices SMTEncoder.clearIndices
    simp only [Visitor.bind_assoc_run, Visitor.read_bind_run, Visitor.update_bind_run,
      Visitor.pure_bind_run, CHC.uniquePrefix_bind_run, Option.isSome_some,
      Visitor.solAssert_bind_run, Visitor.deref_bind_run, ↓reduceIte, Visitor.pure_run,
      Visitor.update_run, hsum, hbool, beq_self_eq_true]
  refine ⟨_, ?entry, ?sort, ?args1, ?rest, hrun, ?_, ?_, ?calls, ?cur, ?vars⟩
  case calls =>
    simp only [smt.CHCSolverInterface.registerRelation, smt.CHCSolverInterface.addRule,
      List.append_assoc, List.singleton_append, List.cons_append, List.nil_append,
      List.length_append, List.length_singleton]
    exact rfl
  case cur => exact rfl
  all_goals exact rfl

/-- The call predicate of a call that resolves to a callee with a summary, in a
current contract: the method returns the summary of the callee applied to the
refreshed error index, the state before, the arguments, the refreshed state
and the return parameters of the callee; it refreshes the error index and the
state variables and creates the return parameters, and changes nothing else. -/
theorem CHC.predicateCall_run (call : Expression) (g : CalleeRef) (s : CHC)
    (c : ContractDefinition) (block : smt.SymbolicFunctionVariable)
    (hcal : call.callee = some g) (hcon : s.m_currentContract = some c)
    (hsum : (s.m_summaries.find? fun p => p.1 == g.id).map (·.2) = some block) :
    CHC.predicateCall call s =
      .ok
        (block.app ([s.m_error.increaseIndex.currentValue] ++
          (s.m_stateVariables.map fun v => (s.m_context.variableOf v).currentValue) ++
          (call.arguments.map fun arg => (s.m_context.expression arg.id).currentValue) ++
          (s.m_stateVariables.map fun v =>
            ((s.m_stateVariables.foldl (fun c v => c.increaseIndex v) s.m_context).variableOf
              v).currentValue) ++
          (g.returnParameters.map fun v =>
            ((g.returnParameters.foldl (fun c v => c.createVariable v)
              (s.m_stateVariables.foldl (fun c v => c.increaseIndex v) s.m_context)).variableOf
                v).currentValue)))
        { s with
          m_error := s.m_error.increaseIndex
          m_context := g.returnParameters.foldl (fun c v => c.createVariable v)
            (s.m_stateVariables.foldl (fun c v => c.increaseIndex v) s.m_context) } := by
  obtain ⟨a1, a2, a3, a4, a5, a6, a7, a8, a9, a10, a11, a12, a13, a14, a15, a16, a17, a18, a19,
    a20, a21, a22, a23⟩ := s
  simp only at hcon hsum
  subst hcon
  unfold CHC.predicateCall
  simp only [hcal]
  unfold CHC.currentStateVariables SMTEncoder.createVariable
  simp only [Visitor.bind_assoc_run, Visitor.read_bind_run, Visitor.update_bind_run,
    Visitor.pure_bind_run, Option.isSome_some, Visitor.solAssert_bind_run,
    Visitor.deref_bind_run, ↓reduceIte, Visitor.pure_run, Visitor.update_run]
  rw [Visitor.bind_run_ok _ _ _ _ _
    (Visitor.forEach_updateContext (fun decl c => c.createVariable decl) _ _)]
  simp only [Visitor.bind_assoc_run, Visitor.read_bind_run, Visitor.update_bind_run,
    Visitor.pure_bind_run, Option.isSome_some, Visitor.solAssert_bind_run,
    Visitor.deref_bind_run, ↓reduceIte, Visitor.pure_run, Visitor.update_run, hsum]

namespace smt.EncodingContext

theorem index_congr (c : EncodingContext) {d e : VariableDeclaration} (h : d.id = e.id) :
    c.index d = c.index e := by
  unfold index
  rw [h]

theorem find_map_same (i : Nat) (k : Nat) :
    ∀ l : List (VariableDeclaration × Nat), (l.any fun p => p.1.id == k) = true →
      ∃ q, ((l.map fun p => if p.1.id == k then (p.1, i) else p).find?
        fun p => p.1.id == k) = some q ∧ q.2 = i
  | [], h => by simp at h
  | p :: rest, h => by
    by_cases hp : p.1.id = k
    · exact ⟨(p.1, i), by simp [hp], rfl⟩
    · have hp2 : (p.1.id == k) = false := by simpa using hp
      have hrest : (rest.any fun p => p.1.id == k) = true := by
        simpa [hp2] using h
      obtain ⟨q, hq, hqi⟩ := find_map_same i k rest hrest
      refine ⟨q, ?_, hqi⟩
      simp only [List.map_cons, hp2, Bool.false_eq_true, ↓reduceIte, List.find?_cons]
      exact hq

theorem find_map_other (i : Nat) (k j : Nat) (hkj : j ≠ k) :
    ∀ l : List (VariableDeclaration × Nat),
      ((l.map fun p => if p.1.id == k then (p.1, i) else p).find? fun p => p.1.id == j) =
        l.find? fun p => p.1.id == j
  | [] => rfl
  | p :: rest => by
    have ih := find_map_other i k j hkj rest
    by_cases hp : p.1.id = k
    · have hj : (p.1.id == j) = false := by
        rw [hp]
        simpa using fun h => hkj h.symm
      have hk : (p.1.id == k) = true := by simpa using hp
      simp only [List.map_cons, hk, ↓reduceIte, List.find?_cons, hj]
      exact ih
    · have hp2 : (p.1.id == k) = false := by simpa using hp
      simp only [List.map_cons, hp2, Bool.false_eq_true, ↓reduceIte, List.find?_cons]
      rw [ih]

/-- The index stored by `setIndex` is the index read back, and the indices of
the other declarations stay. -/
theorem index_setIndex (c : EncodingContext) (decl d : VariableDeclaration) (i : Nat) :
    (c.setIndex decl i).index d = if d.id = decl.id then i else c.index d := by
  unfold setIndex
  by_cases hk : c.knownVariable decl = true
  · simp only [hk, ↓reduceIte]
    by_cases hd : d.id = decl.id
    · simp only [hd, ↓reduceIte]
      unfold knownVariable at hk
      obtain ⟨q, hq, hqi⟩ := find_map_same i decl.id c.m_variables hk
      unfold index
      simp only [hd]
      rw [hq]
      exact hqi
    · simp only [hd, ↓reduceIte]
      unfold index
      simp only
      rw [find_map_other i decl.id d.id hd]
  · have hk2 : c.knownVariable decl = false := by simpa using hk
    simp only [hk2, Bool.false_eq_true, ↓reduceIte]
    unfold index
    simp only [List.find?_append]
    by_cases hd : d.id = decl.id
    · simp only [hd, ↓reduceIte]
      unfold knownVariable at hk2
      have hnone : List.find? (fun p => p.1.id == decl.id) c.m_variables = none := by
        rw [List.find?_eq_none]
        intro p hp
        have := List.any_eq_false.mp hk2 p hp
        simpa using this
      simp [hnone]
    · have hd2 : (decl.id == d.id) = false := by simpa using fun h => hd h.symm
      simp only [hd, ↓reduceIte]
      cases hf : List.find? (fun p => p.1.id == d.id) c.m_variables with
      | none => simp [hd2]
      | some q => simp

/-- Increasing once the index of every declaration of a list without repeated
identities adds one to the index of each of them. -/
theorem index_foldl_increaseIndex :
    ∀ (l : List VariableDeclaration) (c : EncodingContext) (d : VariableDeclaration),
      (l.map (·.id)).Nodup →
      (l.foldl (fun c v => c.increaseIndex v) c).index d =
        if d.id ∈ l.map (·.id) then c.index d + 1 else c.index d
  | [], c, d, _ => by simp
  | a :: rest, c, d, hnd => by
    rw [List.map_cons, List.nodup_cons] at hnd
    rw [List.foldl_cons, index_foldl_increaseIndex rest _ d hnd.2]
    unfold increaseIndex
    rw [index_setIndex]
    by_cases hd : d.id = a.id
    · simp only [hd, ↓reduceIte, List.map_cons, List.mem_cons, true_or]
      rw [index_congr c hd]
      have hnot := hnd.1
      simp only [List.mem_map] at hnot
      simp only [List.mem_map, hnot, ↓reduceIte]
    · simp only [hd, ↓reduceIte, List.map_cons, List.mem_cons, false_or]

end smt.EncodingContext

namespace smt.EncodingContext

@[simp] theorem variableOf_addAssertion (c : EncodingContext) (e : Expression)
    (v : VariableDeclaration) : (c.addAssertion e).variableOf v = c.variableOf v := by
  unfold addAssertion
  split <;> rfl

end smt.EncodingContext

/-- The summary of a function that has a summary predicate, in a current
contract: the predicate applied to the error index, the state variables at
index 0, the parameters at index 0, the state variables at their current index
and the return parameters at their current index. -/
theorem CHC.summary_run (f : FunctionDefinition) (s : CHC) (c : ContractDefinition)
    (block : smt.SymbolicFunctionVariable) (hcon : s.m_currentContract = some c)
    (hsum : (s.m_summaries.find? fun p => p.1 == f.id).map (·.2) = some block) :
    CHC.summary f s =
      .ok (block.app ([s.m_error.currentValue] ++
        (s.m_stateVariables.map fun v => (s.m_context.variableOf v).valueAtIndex 0) ++
        (f.parameters.map fun v => (s.m_context.variableOf v).valueAtIndex 0) ++
        (s.m_stateVariables.map fun v => (s.m_context.variableOf v).currentValue) ++
        (f.returnParameters.map fun v => (s.m_context.variableOf v).currentValue))) s := by
  unfold CHC.summary CHC.initialStateVariables CHC.stateVariablesAtIndex
    CHC.currentStateVariables
  simp only [Visitor.bind_assoc_run, Visitor.read_bind_run, Visitor.update_bind_run,
    Visitor.pure_bind_run, Option.isSome_some, hcon,
    Visitor.solAssert_bind_run, Visitor.deref_bind_run, ↓reduceIte, Visitor.pure_run, hsum]

/-- An internal call to a callee with a summary, in a function with a summary
of a current contract: the method returns. -/
theorem CHC.internalFunctionCall_run (call : Expression) (g : CalleeRef) (s : CHC)
    (f : FunctionDefinition) (c : ContractDefinition)
    (blockf blockg : smt.SymbolicFunctionVariable)
    (hcal : call.callee = some g) (hcur : s.m_currentFunction = some f)
    (hcon : s.m_currentContract = some c)
    (hsumf : (s.m_summaries.find? fun p => p.1 == f.id).map (·.2) = some blockf)
    (hsumg : (s.m_summaries.find? fun p => p.1 == g.id).map (·.2) = some blockg) :
    ∃ (sp s1 : CHC) (callPredicate sum : smt.Expression) (postName : String)
      (postSort : smt.FunctionSort) (args1 rest : List smt.Expression),
      CHC.predicateCall call s = .ok callPredicate sp ∧
      CHC.summary f sp = .ok sum sp ∧
      CHC.internalFunctionCall call s = .ok () s1 ∧
      s1.m_interface.calls = s.m_interface.calls ++
        [.addRule
          (.implies
            ((s.m_currentBlock.and (sp.m_context.addAssertion callPredicate).assertions).and
              (sp.m_error.currentValue.gt (.intLit 0)))
            sum)
          (s.m_currentBlock.name ++ "_to_" ++ sum.name),
         .registerRelation postName 0 postSort,
         .addRule
          (.implies
            ((s.m_currentBlock.and
              (((sp.m_context.addAssertion callPredicate).addAssertion
                  (sp.m_error.currentValue.eq (.intLit 0))).addAssertion
                (sp.m_error.increaseIndex.currentValue.eq s.m_error.currentValue)).assertions).and
              (.boolLit true))
            (.apply postName 0 args1))
          (s.m_currentBlock.name ++ "_to_" ++ (smt.Expression.apply postName 0 args1).name)] ∧
      sp.m_error = s.m_error.increaseIndex ∧
      s1.m_error = s.m_error.increaseIndex.increaseIndex ∧
      s1.m_currentBlock = .apply postName 0 rest ∧
      CHC.currentBlockVariables s1 = .ok rest s1 := by
  have hp := CHC.predicateCall_run call g s c blockg hcal hcon hsumg
  obtain ⟨a1, a2, a3, a4, a5, a6, a7, a8, a9, a10, a11, a12, a13, a14, a15, a16, a17, a18, a19,
    a20, a21, a22, a23⟩ := s
  simp only at hcur hcon hsumf hsumg hp
  subst hcur hcon
  have hrun : CHC.internalFunctionCall call ⟨a1, a2, a3, some c, a5, a6, a7, a8, a9, a10, a11,
        a12, a13, a14, a15, a16, a17, a18, some f, a20, a21, a22, a23⟩ =
      CHC.internalFunctionCall call ⟨a1, a2, a3, some c, a5, a6, a7, a8, a9, a10, a11,
        a12, a13, a14, a15, a16, a17, a18, some f, a20, a21, a22, a23⟩ := rfl
  conv at hrun =>
    rhs
    unfold CHC.internalFunctionCall
    rw [Visitor.read_bind_run, Visitor.bind_run_ok _ _ _ _ _ hp]
    unfold CHC.summary CHC.initialStateVariables CHC.stateVariablesAtIndex
      CHC.currentStateVariables CHC.connectBlocks CHC.addRule
      CHC.setCurrentBlock CHC.createBlock CHC.sortNode CHC.sort CHC.predicateName
      CHC.createSymbolicBlock CHC.predicate CHC.currentBlockVariables
      CHC.currentFunctionVariables CHC.initialStateVariables CHC.stateVariablesAtIndex
      CHC.currentStateVariables CHC.clearIndices SMTEncoder.clearIndices
    simp only [Visitor.bind_assoc_run, Visitor.read_bind_run, Visitor.update_bind_run,
      Visitor.pure_bind_run, CHC.uniquePrefix_bind_run, Option.isSome_some,
      Visitor.solAssert_bind_run, Visitor.deref_bind_run, ↓reduceIte, Visitor.pure_run,
      Visitor.update_run, hsumf]
  have hs := CHC.summary_run f
      { m_context := List.foldl (fun c v => c.createVariable v)
          (List.foldl (fun c v => c.increaseIndex v) a1 a12) g.returnParameters,
        m_interface := a2, m_outerErrorReporter := a3, m_currentContract := some c,
        m_pathConditions := a5, m_genesisPredicate := a6, m_interfacePredicate := a7,
        m_errorPredicate := a8, m_constructorPredicate := a9, m_summaries := a10,
        m_stateSorts := a11, m_stateVariables := a12, m_verificationTargets := a13,
        m_safeAssertions := a14, m_functionErrors := a15, m_targets := a16,
        m_error := a17.increaseIndex, m_currentBlock := a18, m_currentFunction := some f,
        m_breakDest := a20, m_continueDest := a21, m_unknownFunctionCallSeen := a22,
        m_blockCounter := a23 } c blockf rfl hsumf
  refine ⟨_, _, _, _, ?postName, ?postSort, ?args1, ?rest, hp, hs, hrun, ?calls, ?_, ?_, ?cur,
    ?vars⟩
  case calls =>
    simp only [smt.CHCSolverInterface.registerRelation, smt.CHCSolverInterface.addRule,
      List.append_assoc, List.singleton_append, List.cons_append, List.nil_append,
      smt.EncodingContext.variableOf_addAssertion]
    exact rfl
  case cur => exact rfl
  all_goals exact rfl

/-! ## What a walk does to the jump destinations and the verification targets -/

theorem ExpressionFrame.walkOrder : StateOrder ExpressionFrame where
  refl s := ⟨rfl, rfl, [], by simp⟩
  trans s1 s2 s3 h12 h23 := by
    obtain ⟨l1, hl1⟩ := h12.targets
    obtain ⟨l2, hl2⟩ := h23.targets
    exact ⟨h23.breakDest.trans h12.breakDest, h23.continueDest.trans h12.continueDest,
      l1 ++ l2, by rw [hl2, hl1, List.append_assoc]⟩

theorem TargetsFrame.targetsOrder : StateOrder TargetsFrame where
  refl s := ⟨[], by simp⟩
  trans s1 s2 s3 h12 h23 := by
    obtain ⟨l1, hl1⟩ := h12
    obtain ⟨l2, hl2⟩ := h23
    exact ⟨l1 ++ l2, by rw [hl2, hl1, List.append_assoc]⟩

theorem ExpressionFrame.toTargets (s s1 : CHC) (h : ExpressionFrame s s1) : TargetsFrame s s1 :=
  h.targets

/-- An update of members outside the frame respects the frame. -/
theorem ExpressionFrame.walkUpdate (f : CHC → CHC)
    (h : ∀ s, (f s).m_breakDest = s.m_breakDest ∧ (f s).m_continueDest = s.m_continueDest ∧
      (f s).m_verificationTargets = s.m_verificationTargets) :
    Visitor.Respects ExpressionFrame (Visitor.update f) :=
  Visitor.Respects.of_run fun s =>
    ⟨(h s).1, (h s).2.1, [], by rw [List.append_nil]; exact (h s).2.2⟩

/-- Appending a verification target respects the frame. -/
theorem ExpressionFrame.walkAppend (call : Expression) :
    Visitor.Respects ExpressionFrame (Visitor.update fun s =>
      { s with m_verificationTargets := s.m_verificationTargets ++ [call] }) :=
  Visitor.Respects.of_run fun _ => ⟨rfl, rfl, [call], rfl⟩

theorem CHC.uniquePrefix_walk : Visitor.Respects ExpressionFrame CHC.uniquePrefix :=
  Visitor.Respects.of_run fun _ => ⟨rfl, rfl, [], by simp [CHC.uniquePrefix, Result.state]⟩

/-- An update that leaves the verification targets alone respects the frame. -/
theorem TargetsFrame.targetsUpdate (f : CHC → CHC)
    (h : ∀ s, (f s).m_verificationTargets = s.m_verificationTargets) :
    Visitor.Respects TargetsFrame (Visitor.update f) :=
  Visitor.Respects.of_run fun s => ⟨[], by rw [List.append_nil]; exact h s⟩

set_option linter.unusedTactic false
set_option linter.unreachableTactic false

theorem SMTEncoder.createReturnedExpressions_walk (c : Expression) :
    Visitor.Respects ExpressionFrame (SMTEncoder.createReturnedExpressions c) := by
  unfold SMTEncoder.createReturnedExpressions
  repeat' (first
    | assumption
    | apply Visitor.Respects.bind ExpressionFrame.walkOrder
    | apply Visitor.Respects.pure ExpressionFrame.walkOrder
    | apply Visitor.Respects.read ExpressionFrame.walkOrder
    | apply Visitor.Respects.deref ExpressionFrame.walkOrder
    | apply Visitor.Respects.solAssert ExpressionFrame.walkOrder
    | apply Visitor.Respects.forEach ExpressionFrame.walkOrder
    | exact ExpressionFrame.walkUpdate _ (fun _ => ⟨rfl, rfl, rfl⟩)
    | exact ExpressionFrame.walkAppend _
    | with_reducible exact CHC.uniquePrefix_walk
    | intro _
    | split
    | contradiction
    | dsimp only)

theorem CHC.sortNode_walk (n : ASTNode) :
    Visitor.Respects ExpressionFrame (CHC.sortNode n) := by
  unfold CHC.sortNode
  repeat' (first
    | assumption
    | apply Visitor.Respects.bind ExpressionFrame.walkOrder
    | apply Visitor.Respects.pure ExpressionFrame.walkOrder
    | apply Visitor.Respects.read ExpressionFrame.walkOrder
    | apply Visitor.Respects.deref ExpressionFrame.walkOrder
    | apply Visitor.Respects.solAssert ExpressionFrame.walkOrder
    | apply Visitor.Respects.forEach ExpressionFrame.walkOrder
    | exact ExpressionFrame.walkUpdate _ (fun _ => ⟨rfl, rfl, rfl⟩)
    | exact ExpressionFrame.walkAppend _
    | with_reducible exact CHC.uniquePrefix_walk
    | intro _
    | split
    | contradiction
    | dsimp only)

theorem CHC.createSymbolicBlock_walk (a : smt.FunctionSort) (n : String) :
    Visitor.Respects ExpressionFrame (CHC.createSymbolicBlock a n) := by
  unfold CHC.createSymbolicBlock
  repeat' (first
    | assumption
    | apply Visitor.Respects.bind ExpressionFrame.walkOrder
    | apply Visitor.Respects.pure ExpressionFrame.walkOrder
    | apply Visitor.Respects.read ExpressionFrame.walkOrder
    | apply Visitor.Respects.deref ExpressionFrame.walkOrder
    | apply Visitor.Respects.solAssert ExpressionFrame.walkOrder
    | apply Visitor.Respects.forEach ExpressionFrame.walkOrder
    | exact ExpressionFrame.walkUpdate _ (fun _ => ⟨rfl, rfl, rfl⟩)
    | exact ExpressionFrame.walkAppend _
    | with_reducible exact CHC.uniquePrefix_walk
    | intro _
    | split
    | contradiction
    | dsimp only)

theorem CHC.createBlock_walk (n : ASTNode) (p : String) :
    Visitor.Respects ExpressionFrame (CHC.createBlock n p) := by
  unfold CHC.createBlock
  repeat' (first
    | assumption
    | with_reducible exact CHC.sortNode_walk _
    | with_reducible exact CHC.createSymbolicBlock_walk _ _
    | apply Visitor.Respects.bind ExpressionFrame.walkOrder
    | apply Visitor.Respects.pure ExpressionFrame.walkOrder
    | apply Visitor.Respects.read ExpressionFrame.walkOrder
    | apply Visitor.Respects.deref ExpressionFrame.walkOrder
    | apply Visitor.Respects.solAssert ExpressionFrame.walkOrder
    | apply Visitor.Respects.forEach ExpressionFrame.walkOrder
    | exact ExpressionFrame.walkUpdate _ (fun _ => ⟨rfl, rfl, rfl⟩)
    | exact ExpressionFrame.walkAppend _
    | with_reducible exact CHC.uniquePrefix_walk
    | intro _
    | split
    | contradiction
    | dsimp only)

theorem CHC.clearIndices_walk (c : Option ContractDefinition) (f : Option FunctionDefinition) :
    Visitor.Respects ExpressionFrame (CHC.clearIndices c f) := by
  unfold CHC.clearIndices SMTEncoder.clearIndices
  repeat' (first
    | assumption
    | apply Visitor.Respects.bind ExpressionFrame.walkOrder
    | apply Visitor.Respects.pure ExpressionFrame.walkOrder
    | apply Visitor.Respects.read ExpressionFrame.walkOrder
    | apply Visitor.Respects.deref ExpressionFrame.walkOrder
    | apply Visitor.Respects.solAssert ExpressionFrame.walkOrder
    | apply Visitor.Respects.forEach ExpressionFrame.walkOrder
    | exact ExpressionFrame.walkUpdate _ (fun _ => ⟨rfl, rfl, rfl⟩)
    | exact ExpressionFrame.walkAppend _
    | with_reducible exact CHC.uniquePrefix_walk
    | intro _
    | split
    | contradiction
    | dsimp only)

theorem CHC.currentStateVariables_walk :
    Visitor.Respects ExpressionFrame CHC.currentStateVariables := by
  unfold CHC.currentStateVariables
  repeat' (first
    | assumption
    | apply Visitor.Respects.bind ExpressionFrame.walkOrder
    | apply Visitor.Respects.pure ExpressionFrame.walkOrder
    | apply Visitor.Respects.read ExpressionFrame.walkOrder
    | apply Visitor.Respects.deref ExpressionFrame.walkOrder
    | apply Visitor.Respects.solAssert ExpressionFrame.walkOrder
    | apply Visitor.Respects.forEach ExpressionFrame.walkOrder
    | exact ExpressionFrame.walkUpdate _ (fun _ => ⟨rfl, rfl, rfl⟩)
    | exact ExpressionFrame.walkAppend _
    | with_reducible exact CHC.uniquePrefix_walk
    | intro _
    | split
    | contradiction
    | dsimp only)

theorem CHC.initialStateVariables_walk :
    Visitor.Respects ExpressionFrame CHC.initialStateVariables := by
  unfold CHC.initialStateVariables CHC.stateVariablesAtIndex
  repeat' (first
    | assumption
    | apply Visitor.Respects.bind ExpressionFrame.walkOrder
    | apply Visitor.Respects.pure ExpressionFrame.walkOrder
    | apply Visitor.Respects.read ExpressionFrame.walkOrder
    | apply Visitor.Respects.deref ExpressionFrame.walkOrder
    | apply Visitor.Respects.solAssert ExpressionFrame.walkOrder
    | apply Visitor.Respects.forEach ExpressionFrame.walkOrder
    | exact ExpressionFrame.walkUpdate _ (fun _ => ⟨rfl, rfl, rfl⟩)
    | exact ExpressionFrame.walkAppend _
    | with_reducible exact CHC.uniquePrefix_walk
    | intro _
    | split
    | contradiction
    | dsimp only)

theorem CHC.currentFunctionVariables_walk :
    Visitor.Respects ExpressionFrame CHC.currentFunctionVariables := by
  unfold CHC.currentFunctionVariables
  repeat' (first
    | assumption
    | with_reducible exact CHC.currentStateVariables_walk
    | with_reducible exact CHC.initialStateVariables_walk
    | apply Visitor.Respects.bind ExpressionFrame.walkOrder
    | apply Visitor.Respects.pure ExpressionFrame.walkOrder
    | apply Visitor.Respects.read ExpressionFrame.walkOrder
    | apply Visitor.Respects.deref ExpressionFrame.walkOrder
    | apply Visitor.Respects.solAssert ExpressionFrame.walkOrder
    | apply Visitor.Respects.forEach ExpressionFrame.walkOrder
    | exact ExpressionFrame.walkUpdate _ (fun _ => ⟨rfl, rfl, rfl⟩)
    | exact ExpressionFrame.walkAppend _
    | with_reducible exact CHC.uniquePrefix_walk
    | intro _
    | split
    | contradiction
    | dsimp only)

theorem CHC.currentBlockVariables_walk :
    Visitor.Respects ExpressionFrame CHC.currentBlockVariables := by
  unfold CHC.currentBlockVariables
  repeat' (first
    | assumption
    | with_reducible exact CHC.currentFunctionVariables_walk
    | apply Visitor.Respects.bind ExpressionFrame.walkOrder
    | apply Visitor.Respects.pure ExpressionFrame.walkOrder
    | apply Visitor.Respects.read ExpressionFrame.walkOrder
    | apply Visitor.Respects.deref ExpressionFrame.walkOrder
    | apply Visitor.Respects.solAssert ExpressionFrame.walkOrder
    | apply Visitor.Respects.forEach ExpressionFrame.walkOrder
    | exact ExpressionFrame.walkUpdate _ (fun _ => ⟨rfl, rfl, rfl⟩)
    | exact ExpressionFrame.walkAppend _
    | with_reducible exact CHC.uniquePrefix_walk
    | intro _
    | split
    | contradiction
    | dsimp only)

theorem CHC.predicate_walk (b : smt.SymbolicFunctionVariable) :
    Visitor.Respects ExpressionFrame (CHC.predicate b) := by
  unfold CHC.predicate
  repeat' (first
    | assumption
    | with_reducible exact CHC.currentBlockVariables_walk
    | apply Visitor.Respects.bind ExpressionFrame.walkOrder
    | apply Visitor.Respects.pure ExpressionFrame.walkOrder
    | apply Visitor.Respects.read ExpressionFrame.walkOrder
    | apply Visitor.Respects.deref ExpressionFrame.walkOrder
    | apply Visitor.Respects.solAssert ExpressionFrame.walkOrder
    | apply Visitor.Respects.forEach ExpressionFrame.walkOrder
    | exact ExpressionFrame.walkUpdate _ (fun _ => ⟨rfl, rfl, rfl⟩)
    | exact ExpressionFrame.walkAppend _
    | with_reducible exact CHC.uniquePrefix_walk
    | intro _
    | split
    | contradiction
    | dsimp only)

theorem CHC.setCurrentBlock_walk (b : smt.SymbolicFunctionVariable) (a : Option (List smt.Expression)) :
    Visitor.Respects ExpressionFrame (CHC.setCurrentBlock b a) := by
  unfold CHC.setCurrentBlock
  repeat' (first
    | assumption
    | with_reducible exact CHC.clearIndices_walk _ _
    | with_reducible exact CHC.predicate_walk _
    | apply Visitor.Respects.bind ExpressionFrame.walkOrder
    | apply Visitor.Respects.pure ExpressionFrame.walkOrder
    | apply Visitor.Respects.read ExpressionFrame.walkOrder
    | apply Visitor.Respects.deref ExpressionFrame.walkOrder
    | apply Visitor.Respects.solAssert ExpressionFrame.walkOrder
    | apply Visitor.Respects.forEach ExpressionFrame.walkOrder
    | exact ExpressionFrame.walkUpdate _ (fun _ => ⟨rfl, rfl, rfl⟩)
    | exact ExpressionFrame.walkAppend _
    | with_reducible exact CHC.uniquePrefix_walk
    | intro _
    | split
    | contradiction
    | dsimp only)

theorem CHC.summary_walk (f : FunctionDefinition) :
    Visitor.Respects ExpressionFrame (CHC.summary f) := by
  unfold CHC.summary
  repeat' (first
    | assumption
    | with_reducible exact CHC.currentStateVariables_walk
    | with_reducible exact CHC.initialStateVariables_walk
    | apply Visitor.Respects.bind ExpressionFrame.walkOrder
    | apply Visitor.Respects.pure ExpressionFrame.walkOrder
    | apply Visitor.Respects.read ExpressionFrame.walkOrder
    | apply Visitor.Respects.deref ExpressionFrame.walkOrder
    | apply Visitor.Respects.solAssert ExpressionFrame.walkOrder
    | apply Visitor.Respects.forEach ExpressionFrame.walkOrder
    | exact ExpressionFrame.walkUpdate _ (fun _ => ⟨rfl, rfl, rfl⟩)
    | exact ExpressionFrame.walkAppend _
    | with_reducible exact CHC.uniquePrefix_walk
    | intro _
    | split
    | contradiction
    | dsimp only)

theorem CHC.predicateCall_walk (c : Expression) :
    Visitor.Respects ExpressionFrame (CHC.predicateCall c) := by
  unfold CHC.predicateCall
  repeat' (first
    | assumption
    | with_reducible exact CHC.currentStateVariables_walk
    | apply Visitor.Respects.bind ExpressionFrame.walkOrder
    | apply Visitor.Respects.pure ExpressionFrame.walkOrder
    | apply Visitor.Respects.read ExpressionFrame.walkOrder
    | apply Visitor.Respects.deref ExpressionFrame.walkOrder
    | apply Visitor.Respects.solAssert ExpressionFrame.walkOrder
    | apply Visitor.Respects.forEach ExpressionFrame.walkOrder
    | exact ExpressionFrame.walkUpdate _ (fun _ => ⟨rfl, rfl, rfl⟩)
    | exact ExpressionFrame.walkAppend _
    | with_reducible exact CHC.uniquePrefix_walk
    | intro _
    | split
    | contradiction
    | dsimp only)

theorem CHC.connectBlocks_walk (a b c : smt.Expression) :
    Visitor.Respects ExpressionFrame (CHC.connectBlocks a b c) := by
  unfold CHC.connectBlocks CHC.addRule
  repeat' (first
    | assumption
    | apply Visitor.Respects.bind ExpressionFrame.walkOrder
    | apply Visitor.Respects.pure ExpressionFrame.walkOrder
    | apply Visitor.Respects.read ExpressionFrame.walkOrder
    | apply Visitor.Respects.deref ExpressionFrame.walkOrder
    | apply Visitor.Respects.solAssert ExpressionFrame.walkOrder
    | apply Visitor.Respects.forEach ExpressionFrame.walkOrder
    | exact ExpressionFrame.walkUpdate _ (fun _ => ⟨rfl, rfl, rfl⟩)
    | exact ExpressionFrame.walkAppend _
    | with_reducible exact CHC.uniquePrefix_walk
    | intro _
    | split
    | contradiction
    | dsimp only)

theorem CHC.eraseKnowledge_walk :
    Visitor.Respects ExpressionFrame CHC.eraseKnowledge := by
  unfold CHC.eraseKnowledge
  repeat' (first
    | assumption
    | apply Visitor.Respects.bind ExpressionFrame.walkOrder
    | apply Visitor.Respects.pure ExpressionFrame.walkOrder
    | apply Visitor.Respects.read ExpressionFrame.walkOrder
    | apply Visitor.Respects.deref ExpressionFrame.walkOrder
    | apply Visitor.Respects.solAssert ExpressionFrame.walkOrder
    | apply Visitor.Respects.forEach ExpressionFrame.walkOrder
    | exact ExpressionFrame.walkUpdate _ (fun _ => ⟨rfl, rfl, rfl⟩)
    | exact ExpressionFrame.walkAppend _
    | with_reducible exact CHC.uniquePrefix_walk
    | intro _
    | split
    | contradiction
    | dsimp only)

theorem CHC.visitAssert_walk (c : Expression) :
    Visitor.Respects ExpressionFrame (CHC.visitAssert c) := by
  unfold CHC.visitAssert
  repeat' (first
    | assumption
    | with_reducible exact CHC.createBlock_walk _ _
    | with_reducible exact CHC.setCurrentBlock_walk _ _
    | with_reducible exact CHC.predicate_walk _
    | with_reducible exact CHC.summary_walk _
    | with_reducible exact CHC.connectBlocks_walk _ _ _
    | with_reducible exact CHC.eraseKnowledge_walk
    | apply Visitor.Respects.bind ExpressionFrame.walkOrder
    | apply Visitor.Respects.pure ExpressionFrame.walkOrder
    | apply Visitor.Respects.read ExpressionFrame.walkOrder
    | apply Visitor.Respects.deref ExpressionFrame.walkOrder
    | apply Visitor.Respects.solAssert ExpressionFrame.walkOrder
    | apply Visitor.Respects.forEach ExpressionFrame.walkOrder
    | exact ExpressionFrame.walkUpdate _ (fun _ => ⟨rfl, rfl, rfl⟩)
    | exact ExpressionFrame.walkAppend _
    | with_reducible exact CHC.uniquePrefix_walk
    | intro _
    | split
    | contradiction
    | dsimp only)

theorem CHC.internalFunctionCall_walk (c : Expression) :
    Visitor.Respects ExpressionFrame (CHC.internalFunctionCall c) := by
  unfold CHC.internalFunctionCall
  repeat' (first
    | assumption
    | with_reducible exact CHC.predicateCall_walk _
    | with_reducible exact CHC.createBlock_walk _ _
    | with_reducible exact CHC.setCurrentBlock_walk _ _
    | with_reducible exact CHC.predicate_walk _
    | with_reducible exact CHC.summary_walk _
    | with_reducible exact CHC.connectBlocks_walk _ _ _
    | with_reducible exact CHC.eraseKnowledge_walk
    | apply Visitor.Respects.bind ExpressionFrame.walkOrder
    | apply Visitor.Respects.pure ExpressionFrame.walkOrder
    | apply Visitor.Respects.read ExpressionFrame.walkOrder
    | apply Visitor.Respects.deref ExpressionFrame.walkOrder
    | apply Visitor.Respects.solAssert ExpressionFrame.walkOrder
    | apply Visitor.Respects.forEach ExpressionFrame.walkOrder
    | exact ExpressionFrame.walkUpdate _ (fun _ => ⟨rfl, rfl, rfl⟩)
    | exact ExpressionFrame.walkAppend _
    | with_reducible exact CHC.uniquePrefix_walk
    | intro _
    | split
    | contradiction
    | dsimp only)

theorem CHC.endVisitFunctionCall_walk (c : Expression) :
    Visitor.Respects ExpressionFrame (CHC.endVisitFunctionCall c) := by
  unfold CHC.endVisitFunctionCall
  repeat' (first
    | assumption
    | with_reducible exact CHC.visitAssert_walk _
    | with_reducible exact CHC.internalFunctionCall_walk _
    | with_reducible exact SMTEncoder.createReturnedExpressions_walk _
    | with_reducible exact CHC.createBlock_walk _ _
    | with_reducible exact CHC.setCurrentBlock_walk _ _
    | with_reducible exact CHC.predicate_walk _
    | with_reducible exact CHC.summary_walk _
    | with_reducible exact CHC.connectBlocks_walk _ _ _
    | with_reducible exact CHC.eraseKnowledge_walk
    | apply Visitor.Respects.bind ExpressionFrame.walkOrder
    | apply Visitor.Respects.pure ExpressionFrame.walkOrder
    | apply Visitor.Respects.read ExpressionFrame.walkOrder
    | apply Visitor.Respects.deref ExpressionFrame.walkOrder
    | apply Visitor.Respects.solAssert ExpressionFrame.walkOrder
    | apply Visitor.Respects.forEach ExpressionFrame.walkOrder
    | exact ExpressionFrame.walkUpdate _ (fun _ => ⟨rfl, rfl, rfl⟩)
    | exact ExpressionFrame.walkAppend _
    | with_reducible exact CHC.uniquePrefix_walk
    | intro _
    | split
    | contradiction
    | dsimp only)

theorem CHC.endVisitBreak_walk (i : Nat) :
    Visitor.Respects ExpressionFrame (CHC.endVisitBreak i) := by
  unfold CHC.endVisitBreak
  repeat' (first
    | assumption
    | with_reducible exact CHC.createBlock_walk _ _
    | with_reducible exact CHC.setCurrentBlock_walk _ _
    | with_reducible exact CHC.predicate_walk _
    | with_reducible exact CHC.summary_walk _
    | with_reducible exact CHC.connectBlocks_walk _ _ _
    | with_reducible exact CHC.eraseKnowledge_walk
    | apply Visitor.Respects.bind ExpressionFrame.walkOrder
    | apply Visitor.Respects.pure ExpressionFrame.walkOrder
    | apply Visitor.Respects.read ExpressionFrame.walkOrder
    | apply Visitor.Respects.deref ExpressionFrame.walkOrder
    | apply Visitor.Respects.solAssert ExpressionFrame.walkOrder
    | apply Visitor.Respects.forEach ExpressionFrame.walkOrder
    | exact ExpressionFrame.walkUpdate _ (fun _ => ⟨rfl, rfl, rfl⟩)
    | exact ExpressionFrame.walkAppend _
    | with_reducible exact CHC.uniquePrefix_walk
    | intro _
    | split
    | contradiction
    | dsimp only)

theorem CHC.endVisitContinue_walk (i : Nat) :
    Visitor.Respects ExpressionFrame (CHC.endVisitContinue i) := by
  unfold CHC.endVisitContinue
  repeat' (first
    | assumption
    | with_reducible exact CHC.createBlock_walk _ _
    | with_reducible exact CHC.setCurrentBlock_walk _ _
    | with_reducible exact CHC.predicate_walk _
    | with_reducible exact CHC.summary_walk _
    | with_reducible exact CHC.connectBlocks_walk _ _ _
    | with_reducible exact CHC.eraseKnowledge_walk
    | apply Visitor.Respects.bind ExpressionFrame.walkOrder
    | apply Visitor.Respects.pure ExpressionFrame.walkOrder
    | apply Visitor.Respects.read ExpressionFrame.walkOrder
    | apply Visitor.Respects.deref ExpressionFrame.walkOrder
    | apply Visitor.Respects.solAssert ExpressionFrame.walkOrder
    | apply Visitor.Respects.forEach ExpressionFrame.walkOrder
    | exact ExpressionFrame.walkUpdate _ (fun _ => ⟨rfl, rfl, rfl⟩)
    | exact ExpressionFrame.walkAppend _
    | with_reducible exact CHC.uniquePrefix_walk
    | intro _
    | split
    | contradiction
    | dsimp only)

mutual
theorem Expression.acceptExpression_walk : ∀ e : Expression, Visitor.Respects ExpressionFrame e.accept
  | .Literal i category value => by
    rw [Expression.accept]
    repeat' (first
      | assumption
      | with_reducible exact CHC.endVisitFunctionCall_walk _
      | apply Visitor.Respects.bind ExpressionFrame.walkOrder
      | apply Visitor.Respects.pure ExpressionFrame.walkOrder
      | apply Visitor.Respects.read ExpressionFrame.walkOrder
      | apply Visitor.Respects.deref ExpressionFrame.walkOrder
      | apply Visitor.Respects.solAssert ExpressionFrame.walkOrder
      | apply Visitor.Respects.forEach ExpressionFrame.walkOrder
      | exact ExpressionFrame.walkUpdate _ (fun _ => ⟨rfl, rfl, rfl⟩)
      | exact ExpressionFrame.walkAppend _
      | with_reducible exact CHC.uniquePrefix_walk
      | intro _
      | split
      | contradiction
      | dsimp only)
  | .Identifier i category decl => by
    rw [Expression.accept]
    repeat' (first
      | assumption
      | with_reducible exact CHC.endVisitFunctionCall_walk _
      | apply Visitor.Respects.bind ExpressionFrame.walkOrder
      | apply Visitor.Respects.pure ExpressionFrame.walkOrder
      | apply Visitor.Respects.read ExpressionFrame.walkOrder
      | apply Visitor.Respects.deref ExpressionFrame.walkOrder
      | apply Visitor.Respects.solAssert ExpressionFrame.walkOrder
      | apply Visitor.Respects.forEach ExpressionFrame.walkOrder
      | exact ExpressionFrame.walkUpdate _ (fun _ => ⟨rfl, rfl, rfl⟩)
      | exact ExpressionFrame.walkAppend _
      | with_reducible exact CHC.uniquePrefix_walk
      | intro _
      | split
      | contradiction
      | dsimp only)
  | .Assignment i category lhs rhs => by
    rw [Expression.accept]
    repeat' (first
      | assumption
      | with_reducible exact Expression.acceptExpression_walk rhs
      | with_reducible exact CHC.endVisitFunctionCall_walk _
      | apply Visitor.Respects.bind ExpressionFrame.walkOrder
      | apply Visitor.Respects.pure ExpressionFrame.walkOrder
      | apply Visitor.Respects.read ExpressionFrame.walkOrder
      | apply Visitor.Respects.deref ExpressionFrame.walkOrder
      | apply Visitor.Respects.solAssert ExpressionFrame.walkOrder
      | apply Visitor.Respects.forEach ExpressionFrame.walkOrder
      | exact ExpressionFrame.walkUpdate _ (fun _ => ⟨rfl, rfl, rfl⟩)
      | exact ExpressionFrame.walkAppend _
      | with_reducible exact CHC.uniquePrefix_walk
      | intro _
      | split
      | contradiction
      | dsimp only)
  | .UnaryOperation i category operator sub => by
    rw [Expression.accept]
    repeat' (first
      | assumption
      | with_reducible exact Expression.acceptExpression_walk sub
      | with_reducible exact CHC.endVisitFunctionCall_walk _
      | apply Visitor.Respects.bind ExpressionFrame.walkOrder
      | apply Visitor.Respects.pure ExpressionFrame.walkOrder
      | apply Visitor.Respects.read ExpressionFrame.walkOrder
      | apply Visitor.Respects.deref ExpressionFrame.walkOrder
      | apply Visitor.Respects.solAssert ExpressionFrame.walkOrder
      | apply Visitor.Respects.forEach ExpressionFrame.walkOrder
      | exact ExpressionFrame.walkUpdate _ (fun _ => ⟨rfl, rfl, rfl⟩)
      | exact ExpressionFrame.walkAppend _
      | with_reducible exact CHC.uniquePrefix_walk
      | intro _
      | split
      | contradiction
      | dsimp only)
  | .BinaryOperation i category operator left right => by
    rw [Expression.accept]
    repeat' (first
      | assumption
      | with_reducible exact Expression.acceptExpression_walk left
      | with_reducible exact Expression.acceptExpression_walk right
      | with_reducible exact CHC.endVisitFunctionCall_walk _
      | apply Visitor.Respects.bind ExpressionFrame.walkOrder
      | apply Visitor.Respects.pure ExpressionFrame.walkOrder
      | apply Visitor.Respects.read ExpressionFrame.walkOrder
      | apply Visitor.Respects.deref ExpressionFrame.walkOrder
      | apply Visitor.Respects.solAssert ExpressionFrame.walkOrder
      | apply Visitor.Respects.forEach ExpressionFrame.walkOrder
      | exact ExpressionFrame.walkUpdate _ (fun _ => ⟨rfl, rfl, rfl⟩)
      | exact ExpressionFrame.walkAppend _
      | with_reducible exact CHC.uniquePrefix_walk
      | intro _
      | split
      | contradiction
      | dsimp only)
  | .FunctionCall i category location kind functionKind callee arguments => by
    rw [Expression.accept]
    repeat' (first
      | assumption
      | with_reducible exact Expression.acceptExpressions_walk arguments
      | with_reducible exact CHC.endVisitFunctionCall_walk _
      | apply Visitor.Respects.bind ExpressionFrame.walkOrder
      | apply Visitor.Respects.pure ExpressionFrame.walkOrder
      | apply Visitor.Respects.read ExpressionFrame.walkOrder
      | apply Visitor.Respects.deref ExpressionFrame.walkOrder
      | apply Visitor.Respects.solAssert ExpressionFrame.walkOrder
      | apply Visitor.Respects.forEach ExpressionFrame.walkOrder
      | exact ExpressionFrame.walkUpdate _ (fun _ => ⟨rfl, rfl, rfl⟩)
      | exact ExpressionFrame.walkAppend _
      | with_reducible exact CHC.uniquePrefix_walk
      | intro _
      | split
      | contradiction
      | dsimp only)
theorem Expression.acceptExpressions_walk : ∀ l : List Expression, Visitor.Respects ExpressionFrame (Expression.acceptAll l)
  | [] => by
    rw [Expression.acceptAll]
    exact Visitor.Respects.pure ExpressionFrame.walkOrder _
  | e :: rest => by
    rw [Expression.acceptAll]
    exact Visitor.Respects.bind ExpressionFrame.walkOrder (Expression.acceptExpression_walk e)
      (fun _ => Expression.acceptExpressions_walk rest)
end

theorem CHC.createBlock_targets (n : ASTNode) (p : String) :
    Visitor.Respects TargetsFrame (CHC.createBlock n p) :=
  Visitor.Respects.mono ExpressionFrame.toTargets (CHC.createBlock_walk n p)

theorem CHC.setCurrentBlock_targets (b : smt.SymbolicFunctionVariable) (a : Option (List smt.Expression)) :
    Visitor.Respects TargetsFrame (CHC.setCurrentBlock b a) :=
  Visitor.Respects.mono ExpressionFrame.toTargets (CHC.setCurrentBlock_walk b a)

theorem CHC.predicate_targets (b : smt.SymbolicFunctionVariable) :
    Visitor.Respects TargetsFrame (CHC.predicate b) :=
  Visitor.Respects.mono ExpressionFrame.toTargets (CHC.predicate_walk b)

theorem CHC.connectBlocks_targets (a b c : smt.Expression) :
    Visitor.Respects TargetsFrame (CHC.connectBlocks a b c) :=
  Visitor.Respects.mono ExpressionFrame.toTargets (CHC.connectBlocks_walk a b c)

theorem CHC.eraseKnowledge_targets :
    Visitor.Respects TargetsFrame (CHC.eraseKnowledge) :=
  Visitor.Respects.mono ExpressionFrame.toTargets (CHC.eraseKnowledge_walk )

theorem CHC.endVisitBreak_targets (i : Nat) :
    Visitor.Respects TargetsFrame (CHC.endVisitBreak i) :=
  Visitor.Respects.mono ExpressionFrame.toTargets (CHC.endVisitBreak_walk i)

theorem CHC.endVisitContinue_targets (i : Nat) :
    Visitor.Respects TargetsFrame (CHC.endVisitContinue i) :=
  Visitor.Respects.mono ExpressionFrame.toTargets (CHC.endVisitContinue_walk i)

theorem Expression.acceptExpression_targets (e : Expression) :
    Visitor.Respects TargetsFrame (e.accept) :=
  Visitor.Respects.mono ExpressionFrame.toTargets (Expression.acceptExpression_walk e)

theorem CHC.visitIfStatement_targets (i : Nat) (condition : Expression) (trueStatement : Nat × Visitor Unit)
    (falseStatement : Option (Nat × Visitor Unit)) (hTrue : Visitor.Respects TargetsFrame trueStatement.2)
    (h : ∀ st, falseStatement = some st → Visitor.Respects TargetsFrame st.2) :
    Visitor.Respects TargetsFrame (CHC.visitIfStatement i condition trueStatement falseStatement) := by
  unfold CHC.visitIfStatement
  repeat' (first
    | assumption
    | with_reducible exact CHC.createBlock_targets _ _
    | with_reducible exact CHC.setCurrentBlock_targets _ _
    | with_reducible exact CHC.predicate_targets _
    | with_reducible exact CHC.connectBlocks_targets _ _ _
    | with_reducible exact CHC.eraseKnowledge_targets
    | with_reducible exact Expression.acceptExpression_targets _
    | exact h _ rfl
    | exact h _ ‹_›
    | apply Visitor.Respects.bind TargetsFrame.targetsOrder
    | apply Visitor.Respects.pure TargetsFrame.targetsOrder
    | apply Visitor.Respects.read TargetsFrame.targetsOrder
    | apply Visitor.Respects.deref TargetsFrame.targetsOrder
    | apply Visitor.Respects.solAssert TargetsFrame.targetsOrder
    | apply Visitor.Respects.forEach TargetsFrame.targetsOrder
    | exact TargetsFrame.targetsUpdate _ (fun _ => rfl)
    | intro _
    | split
    | contradiction
    | dsimp only)

theorem CHC.visitWhileStatement_targets (i : Nat) (isDoWhile : Bool) (condition : Expression)
    (body : Nat × Visitor Unit) (hBody : Visitor.Respects TargetsFrame body.2) :
    Visitor.Respects TargetsFrame (CHC.visitWhileStatement i isDoWhile condition body) := by
  unfold CHC.visitWhileStatement
  repeat' (first
    | assumption
    | with_reducible exact CHC.createBlock_targets _ _
    | with_reducible exact CHC.setCurrentBlock_targets _ _
    | with_reducible exact CHC.predicate_targets _
    | with_reducible exact CHC.connectBlocks_targets _ _ _
    | with_reducible exact CHC.eraseKnowledge_targets
    | with_reducible exact Expression.acceptExpression_targets _
    | exact h _ rfl
    | exact h _ ‹_›
    | apply Visitor.Respects.bind TargetsFrame.targetsOrder
    | apply Visitor.Respects.pure TargetsFrame.targetsOrder
    | apply Visitor.Respects.read TargetsFrame.targetsOrder
    | apply Visitor.Respects.deref TargetsFrame.targetsOrder
    | apply Visitor.Respects.solAssert TargetsFrame.targetsOrder
    | apply Visitor.Respects.forEach TargetsFrame.targetsOrder
    | exact TargetsFrame.targetsUpdate _ (fun _ => rfl)
    | intro _
    | split
    | contradiction
    | dsimp only)

theorem CHC.visitForStatement_targets (i : Nat) (init : Option (Visitor Unit)) (condition : Option Expression)
    (loopExpression : Option (Nat × Visitor Unit)) (body : Nat × Visitor Unit)
    (hInit : ∀ m, init = some m → Visitor.Respects TargetsFrame m)
    (h : ∀ st, loopExpression = some st → Visitor.Respects TargetsFrame st.2) (hBody : Visitor.Respects TargetsFrame body.2) :
    Visitor.Respects TargetsFrame (CHC.visitForStatement i init condition loopExpression body) := by
  unfold CHC.visitForStatement
  repeat' (first
    | assumption
    | with_reducible exact CHC.createBlock_targets _ _
    | with_reducible exact CHC.setCurrentBlock_targets _ _
    | with_reducible exact CHC.predicate_targets _
    | with_reducible exact CHC.connectBlocks_targets _ _ _
    | with_reducible exact CHC.eraseKnowledge_targets
    | with_reducible exact Expression.acceptExpression_targets _
    | exact h _ rfl
    | exact h _ ‹_›
    | exact hInit _ rfl
    | apply Visitor.Respects.bind TargetsFrame.targetsOrder
    | apply Visitor.Respects.pure TargetsFrame.targetsOrder
    | apply Visitor.Respects.read TargetsFrame.targetsOrder
    | apply Visitor.Respects.deref TargetsFrame.targetsOrder
    | apply Visitor.Respects.solAssert TargetsFrame.targetsOrder
    | apply Visitor.Respects.forEach TargetsFrame.targetsOrder
    | exact TargetsFrame.targetsUpdate _ (fun _ => rfl)
    | intro _
    | split
    | contradiction
    | dsimp only)

mutual
theorem Statement.acceptStatement_targets : ∀ st : Statement, Visitor.Respects TargetsFrame st.accept
  | .Block i statements => by
    rw [Statement.accept]
    repeat' (first
      | assumption
      | with_reducible exact Statement.acceptStatements_targets statements
      | apply Visitor.Respects.bind TargetsFrame.targetsOrder
      | apply Visitor.Respects.pure TargetsFrame.targetsOrder
      | apply Visitor.Respects.read TargetsFrame.targetsOrder
      | apply Visitor.Respects.deref TargetsFrame.targetsOrder
      | apply Visitor.Respects.solAssert TargetsFrame.targetsOrder
      | apply Visitor.Respects.forEach TargetsFrame.targetsOrder
      | exact TargetsFrame.targetsUpdate _ (fun _ => rfl)
      | intro _
      | split
      | contradiction
      | dsimp only)
  | .IfStatement i condition trueStatement none => by
    rw [Statement.accept]
    repeat' (first
      | assumption
      | with_reducible exact CHC.visitIfStatement_targets _ _ _ _ (Statement.acceptStatement_targets trueStatement) (by intro st h; cases h)
      | apply Visitor.Respects.bind TargetsFrame.targetsOrder
      | apply Visitor.Respects.pure TargetsFrame.targetsOrder
      | apply Visitor.Respects.read TargetsFrame.targetsOrder
      | apply Visitor.Respects.deref TargetsFrame.targetsOrder
      | apply Visitor.Respects.solAssert TargetsFrame.targetsOrder
      | apply Visitor.Respects.forEach TargetsFrame.targetsOrder
      | exact TargetsFrame.targetsUpdate _ (fun _ => rfl)
      | intro _
      | split
      | contradiction
      | dsimp only)
  | .IfStatement i condition trueStatement (some falseStatement) => by
    rw [Statement.accept]
    repeat' (first
      | assumption
      | with_reducible exact CHC.visitIfStatement_targets _ _ _ _ (Statement.acceptStatement_targets trueStatement) (by intro st h; cases h; exact Statement.acceptStatement_targets falseStatement)
      | apply Visitor.Respects.bind TargetsFrame.targetsOrder
      | apply Visitor.Respects.pure TargetsFrame.targetsOrder
      | apply Visitor.Respects.read TargetsFrame.targetsOrder
      | apply Visitor.Respects.deref TargetsFrame.targetsOrder
      | apply Visitor.Respects.solAssert TargetsFrame.targetsOrder
      | apply Visitor.Respects.forEach TargetsFrame.targetsOrder
      | exact TargetsFrame.targetsUpdate _ (fun _ => rfl)
      | intro _
      | split
      | contradiction
      | dsimp only)
  | .WhileStatement i condition body isDoWhile => by
    rw [Statement.accept]
    repeat' (first
      | assumption
      | with_reducible exact CHC.visitWhileStatement_targets _ _ _ _ (Statement.acceptStatement_targets body)
      | apply Visitor.Respects.bind TargetsFrame.targetsOrder
      | apply Visitor.Respects.pure TargetsFrame.targetsOrder
      | apply Visitor.Respects.read TargetsFrame.targetsOrder
      | apply Visitor.Respects.deref TargetsFrame.targetsOrder
      | apply Visitor.Respects.solAssert TargetsFrame.targetsOrder
      | apply Visitor.Respects.forEach TargetsFrame.targetsOrder
      | exact TargetsFrame.targetsUpdate _ (fun _ => rfl)
      | intro _
      | split
      | contradiction
      | dsimp only)
  | .ForStatement i none condition none body => by
    rw [Statement.accept]
    repeat' (first
      | assumption
      | with_reducible exact CHC.visitForStatement_targets _ _ _ _ _ (by intro m h; cases h) (by intro m h; cases h) (Statement.acceptStatement_targets body)
      | apply Visitor.Respects.bind TargetsFrame.targetsOrder
      | apply Visitor.Respects.pure TargetsFrame.targetsOrder
      | apply Visitor.Respects.read TargetsFrame.targetsOrder
      | apply Visitor.Respects.deref TargetsFrame.targetsOrder
      | apply Visitor.Respects.solAssert TargetsFrame.targetsOrder
      | apply Visitor.Respects.forEach TargetsFrame.targetsOrder
      | exact TargetsFrame.targetsUpdate _ (fun _ => rfl)
      | intro _
      | split
      | contradiction
      | dsimp only)
  | .ForStatement i none condition (some postLoop) body => by
    rw [Statement.accept]
    repeat' (first
      | assumption
      | with_reducible exact CHC.visitForStatement_targets _ _ _ _ _ (by intro m h; cases h) (by intro m h; cases h; exact Statement.acceptStatement_targets postLoop) (Statement.acceptStatement_targets body)
      | apply Visitor.Respects.bind TargetsFrame.targetsOrder
      | apply Visitor.Respects.pure TargetsFrame.targetsOrder
      | apply Visitor.Respects.read TargetsFrame.targetsOrder
      | apply Visitor.Respects.deref TargetsFrame.targetsOrder
      | apply Visitor.Respects.solAssert TargetsFrame.targetsOrder
      | apply Visitor.Respects.forEach TargetsFrame.targetsOrder
      | exact TargetsFrame.targetsUpdate _ (fun _ => rfl)
      | intro _
      | split
      | contradiction
      | dsimp only)
  | .ForStatement i (some init) condition none body => by
    rw [Statement.accept]
    repeat' (first
      | assumption
      | with_reducible exact CHC.visitForStatement_targets _ _ _ _ _ (by intro m h; cases h; exact Statement.acceptStatement_targets init) (by intro m h; cases h) (Statement.acceptStatement_targets body)
      | apply Visitor.Respects.bind TargetsFrame.targetsOrder
      | apply Visitor.Respects.pure TargetsFrame.targetsOrder
      | apply Visitor.Respects.read TargetsFrame.targetsOrder
      | apply Visitor.Respects.deref TargetsFrame.targetsOrder
      | apply Visitor.Respects.solAssert TargetsFrame.targetsOrder
      | apply Visitor.Respects.forEach TargetsFrame.targetsOrder
      | exact TargetsFrame.targetsUpdate _ (fun _ => rfl)
      | intro _
      | split
      | contradiction
      | dsimp only)
  | .ForStatement i (some init) condition (some postLoop) body => by
    rw [Statement.accept]
    repeat' (first
      | assumption
      | with_reducible exact CHC.visitForStatement_targets _ _ _ _ _ (by intro m h; cases h; exact Statement.acceptStatement_targets init) (by intro m h; cases h; exact Statement.acceptStatement_targets postLoop) (Statement.acceptStatement_targets body)
      | apply Visitor.Respects.bind TargetsFrame.targetsOrder
      | apply Visitor.Respects.pure TargetsFrame.targetsOrder
      | apply Visitor.Respects.read TargetsFrame.targetsOrder
      | apply Visitor.Respects.deref TargetsFrame.targetsOrder
      | apply Visitor.Respects.solAssert TargetsFrame.targetsOrder
      | apply Visitor.Respects.forEach TargetsFrame.targetsOrder
      | exact TargetsFrame.targetsUpdate _ (fun _ => rfl)
      | intro _
      | split
      | contradiction
      | dsimp only)
  | .Break i => by
    rw [Statement.accept]
    repeat' (first
      | assumption
      | with_reducible exact CHC.endVisitBreak_targets _
      | apply Visitor.Respects.bind TargetsFrame.targetsOrder
      | apply Visitor.Respects.pure TargetsFrame.targetsOrder
      | apply Visitor.Respects.read TargetsFrame.targetsOrder
      | apply Visitor.Respects.deref TargetsFrame.targetsOrder
      | apply Visitor.Respects.solAssert TargetsFrame.targetsOrder
      | apply Visitor.Respects.forEach TargetsFrame.targetsOrder
      | exact TargetsFrame.targetsUpdate _ (fun _ => rfl)
      | intro _
      | split
      | contradiction
      | dsimp only)
  | .Continue i => by
    rw [Statement.accept]
    repeat' (first
      | assumption
      | with_reducible exact CHC.endVisitContinue_targets _
      | apply Visitor.Respects.bind TargetsFrame.targetsOrder
      | apply Visitor.Respects.pure TargetsFrame.targetsOrder
      | apply Visitor.Respects.read TargetsFrame.targetsOrder
      | apply Visitor.Respects.deref TargetsFrame.targetsOrder
      | apply Visitor.Respects.solAssert TargetsFrame.targetsOrder
      | apply Visitor.Respects.forEach TargetsFrame.targetsOrder
      | exact TargetsFrame.targetsUpdate _ (fun _ => rfl)
      | intro _
      | split
      | contradiction
      | dsimp only)
  | .ExpressionStatement i expression => by
    rw [Statement.accept]
    repeat' (first
      | assumption
      | with_reducible exact Expression.acceptExpression_targets _
      | apply Visitor.Respects.bind TargetsFrame.targetsOrder
      | apply Visitor.Respects.pure TargetsFrame.targetsOrder
      | apply Visitor.Respects.read TargetsFrame.targetsOrder
      | apply Visitor.Respects.deref TargetsFrame.targetsOrder
      | apply Visitor.Respects.solAssert TargetsFrame.targetsOrder
      | apply Visitor.Respects.forEach TargetsFrame.targetsOrder
      | exact TargetsFrame.targetsUpdate _ (fun _ => rfl)
      | intro _
      | split
      | contradiction
      | dsimp only)
  | .VariableDeclarationStatement i declaration none => by
    rw [Statement.accept]
    repeat' (first
      | assumption
      | apply Visitor.Respects.bind TargetsFrame.targetsOrder
      | apply Visitor.Respects.pure TargetsFrame.targetsOrder
      | apply Visitor.Respects.read TargetsFrame.targetsOrder
      | apply Visitor.Respects.deref TargetsFrame.targetsOrder
      | apply Visitor.Respects.solAssert TargetsFrame.targetsOrder
      | apply Visitor.Respects.forEach TargetsFrame.targetsOrder
      | exact TargetsFrame.targetsUpdate _ (fun _ => rfl)
      | intro _
      | split
      | contradiction
      | dsimp only)
  | .VariableDeclarationStatement i declaration (some value) => by
    rw [Statement.accept]
    repeat' (first
      | assumption
      | with_reducible exact Expression.acceptExpression_targets _
      | apply Visitor.Respects.bind TargetsFrame.targetsOrder
      | apply Visitor.Respects.pure TargetsFrame.targetsOrder
      | apply Visitor.Respects.read TargetsFrame.targetsOrder
      | apply Visitor.Respects.deref TargetsFrame.targetsOrder
      | apply Visitor.Respects.solAssert TargetsFrame.targetsOrder
      | apply Visitor.Respects.forEach TargetsFrame.targetsOrder
      | exact TargetsFrame.targetsUpdate _ (fun _ => rfl)
      | intro _
      | split
      | contradiction
      | dsimp only)
theorem Statement.acceptStatements_targets : ∀ l : List Statement, Visitor.Respects TargetsFrame (Statement.acceptAll l)
  | [] => by
    rw [Statement.acceptAll]
    exact Visitor.Respects.pure TargetsFrame.targetsOrder _
  | st :: rest => by
    rw [Statement.acceptAll]
    exact Visitor.Respects.bind TargetsFrame.targetsOrder (Statement.acceptStatement_targets st)
      (fun _ => Statement.acceptStatements_targets rest)
end

/-! ## The rules of an if statement and of a loop -/

/-- What is left of a run that has reached a sub-visit: from the state in which
the sub-visit starts, every return of the sub-visit continues the run. -/
theorem Visitor.bind_run_split {α β : Type} {r : Result β} {m : Visitor α} {f : α → Visitor β}
    {s : CHC} (h : r = (m >>= f) s) :
    ∃ s2, s2 = s ∧ ∀ a s3, m s2 = .ok a s3 → r = f a s3 := by
  refine ⟨s, rfl, fun a s3 hm => ?_⟩
  rw [h, Visitor.bind_run_ok _ _ _ _ _ hm]

theorem Statement.acceptSimple_walk (st : Statement) (h : st.isSimple = true) :
    Visitor.Respects ExpressionFrame st.accept := by
  cases st with
  | ExpressionStatement i expression =>
    rw [Statement.accept]
    exact Expression.acceptExpression_walk _
  | VariableDeclarationStatement i declaration initialValue =>
    cases initialValue <;> rw [Statement.accept] <;>
      repeat' (first
        | exact Expression.acceptExpression_walk _
        | apply Visitor.Respects.bind ExpressionFrame.walkOrder
        | apply Visitor.Respects.pure ExpressionFrame.walkOrder
        | apply Visitor.Respects.read ExpressionFrame.walkOrder
        | exact ExpressionFrame.walkUpdate _ (fun _ => ⟨rfl, rfl, rfl⟩)
        | intro _
        | dsimp only)
  | _ => cases h

/-- The step of the visit of an if statement or of a loop that erases knowledge
when the unknown-call flag is set: it returns, in the state in which knowledge
is erased or in the state it started from. -/
theorem CHC.leaveStatement_step (s : CHC) :
    (if s.m_unknownFunctionCallSeen = true then CHC.eraseKnowledge else pure ()) s =
      .ok () (if s.m_unknownFunctionCallSeen then (CHC.eraseKnowledge s).state else s) := by
  cases s.m_unknownFunctionCallSeen <;> rfl

/-! ## What the state of the after-block keeps when the visit returns -/

theorem CHC.leaveStatement_breakDest (w : Bool) (s : CHC) :
    (CHC.leaveStatement w s).m_breakDest = s.m_breakDest := by
  unfold CHC.leaveStatement
  cases s.m_unknownFunctionCallSeen <;> rfl

theorem CHC.leaveStatement_continueDest (w : Bool) (s : CHC) :
    (CHC.leaveStatement w s).m_continueDest = s.m_continueDest := by
  unfold CHC.leaveStatement
  cases s.m_unknownFunctionCallSeen <;> rfl

theorem CHC.leaveStatement_flag (w : Bool) (s : CHC) :
    (CHC.leaveStatement w s).m_unknownFunctionCallSeen = w := rfl

/-! ## What a method ensures when it returns -/

namespace Visitor.Ensures

theorem bind_via {α β : Type} {P R Q : CHC → Prop} {m : Visitor α} {f : α → Visitor β}
    (hm : Ensures P m R) (hf : ∀ a, Ensures R (f a) Q) : Ensures P (m >>= f) Q := by
  refine ⟨fun s b s1 hP h => ?_⟩
  obtain ⟨a, s2, h1, h2⟩ := Visitor.bind_ok h
  exact (hf a).run s2 b s1 (hm.run s a s2 hP h1) h2

theorem pure_kept {α : Type} {P : CHC → Prop} (a : α) : Ensures P (Pure.pure a : Visitor α) P := by
  refine ⟨fun s b s1 hP h => ?_⟩
  obtain ⟨_, hs⟩ := Visitor.pure_ok h
  rw [hs]
  exact hP

/-- Whatever the method, nothing is ensured trivially. -/
theorem any {α : Type} {P : CHC → Prop} (m : Visitor α) : Ensures P m CHC.Any :=
  ⟨fun _ _ _ _ _ => trivial⟩

/-- A frame that the method respects carries a property that the frame keeps. -/
theorem of_respects {α : Type} {R : CHC → CHC → Prop} {P Q : CHC → Prop} {m : Visitor α}
    (hm : Visitor.Respects R m) (h : ∀ s s1, P s → R s s1 → Q s1) : Ensures P m Q :=
  ⟨fun s _ s1 hP hrun => h s s1 hP (hm.run_ok hrun)⟩

end Visitor.Ensures

namespace Visitor.Ensures

theorem read_kept {α : Type} {P : CHC → Prop} (g : CHC → α) : Ensures P (Visitor.read g) P := by
  refine ⟨fun s a s1 hP h => ?_⟩
  rw [(Visitor.read_ok h).2]
  exact hP

theorem solAssert_kept {P : CHC → Prop} (c : Bool) (message : String) :
    Ensures P (solAssert c message) P := by
  refine ⟨fun s a s1 hP h => ?_⟩
  cases c
  · cases h
  · cases h
    exact hP

theorem deref_kept {α : Type} {P : CHC → Prop} (g : CHC → Option α) (what : String) :
    Ensures P (Visitor.deref g what) P := by
  refine ⟨fun s a s1 hP h => ?_⟩
  rw [(Visitor.deref_ok h).2]
  exact hP

theorem update_to {P Q : CHC → Prop} (g : CHC → CHC) (h : ∀ s, P s → Q (g s)) :
    Ensures P (Visitor.update g) Q := by
  refine ⟨fun s a s1 hP hrun => ?_⟩
  rw [(Visitor.update_ok hrun)]
  exact h s hP

/-- The walk over an expression, and every step that respects its frame, keeps
the destinations of `break` and `continue`. -/
theorem of_walk {α : Type} {m : Visitor α} {b c : Option smt.SymbolicFunctionVariable}
    (hm : Visitor.Respects ExpressionFrame m) :
    Ensures (CHC.DestinationsAre b c) m (CHC.DestinationsAre b c) :=
  of_respects hm fun _ _ hP hR => ⟨hR.breakDest.trans hP.1, hR.continueDest.trans hP.2⟩

theorem update_dests {b c : Option smt.SymbolicFunctionVariable} (g : CHC → CHC)
    (h : ∀ s, (g s).m_breakDest = s.m_breakDest ∧ (g s).m_continueDest = s.m_continueDest) :
    Ensures (CHC.DestinationsAre b c) (Visitor.update g) (CHC.DestinationsAre b c) :=
  update_to g fun s hP => ⟨(h s).1.trans hP.1, (h s).2.trans hP.2⟩

/-- Setting both destinations, whatever they were. -/
theorem setDests {β : Type} {P Q : CHC → Prop} {b c : Option smt.SymbolicFunctionVariable}
    {k : Visitor β} (h : Ensures (CHC.DestinationsAre b c) k Q) :
    Ensures P
      ((Visitor.update fun s => { s with m_breakDest := b }) >>= fun _ =>
        (Visitor.update fun s => { s with m_continueDest := c }) >>= fun _ => k) Q := by
  refine ⟨fun s a s1 _ hrun => ?_⟩
  rw [Visitor.update_bind_run, Visitor.update_bind_run] at hrun
  exact h.run _ a s1 ⟨rfl, rfl⟩ hrun

/-- A step that keeps the property, followed by steps that start from it. -/
theorem bind_same {α β : Type} {P Q : CHC → Prop} {m : Visitor α} {f : α → Visitor β}
    (hm : Ensures P m P) (hf : ∀ a, Ensures P (f a) Q) : Ensures P (m >>= f) Q :=
  bind_via hm hf

theorem with_breakDest {β : Type} {b c : Option smt.SymbolicFunctionVariable}
    {k : Option smt.SymbolicFunctionVariable → Visitor β} {Q : CHC → Prop}
    (h : Ensures (CHC.DestinationsAre b c) (k b) Q) :
    Ensures (CHC.DestinationsAre b c) (Visitor.read (·.m_breakDest) >>= k) Q := by
  refine ⟨fun s a s1 hP hrun => ?_⟩
  rw [Visitor.read_bind_run, hP.1] at hrun
  exact h.run s a s1 hP hrun

theorem with_continueDest {β : Type} {b c : Option smt.SymbolicFunctionVariable}
    {k : Option smt.SymbolicFunctionVariable → Visitor β} {Q : CHC → Prop}
    (h : Ensures (CHC.DestinationsAre b c) (k c) Q) :
    Ensures (CHC.DestinationsAre b c) (Visitor.read (·.m_continueDest) >>= k) Q := by
  refine ⟨fun s a s1 hP hrun => ?_⟩
  rw [Visitor.read_bind_run, hP.2] at hrun
  exact h.run s a s1 hP hrun

/-- Reading the flag gives the value it is known to have; what follows need not
know it. -/
theorem read_flag {β : Type} {w : Bool} {k : Bool → Visitor β} {Q : CHC → Prop}
    (h : Ensures CHC.Any (k w) Q) :
    Ensures (CHC.FlagIs w) (Visitor.read (·.m_unknownFunctionCallSeen) >>= k) Q := by
  refine ⟨fun s a s1 hP hrun => ?_⟩
  have hw : s.m_unknownFunctionCallSeen = w := hP
  rw [Visitor.read_bind_run, hw] at hrun
  exact h.run s a s1 trivial hrun

/-- A step of which nothing is asked, followed by steps of which nothing is
known when they start. -/
theorem bind_any {α β : Type} {Q : CHC → Prop} {m : Visitor α} {f : α → Visitor β}
    (hf : ∀ a, Ensures CHC.Any (f a) Q) : Ensures CHC.Any (m >>= f) Q :=
  bind_via (any m) hf

/-- Putting the flag back as the last step. -/
theorem restoreFlag {α : Type} (w : Bool) (a : α) :
    Ensures CHC.Any
      ((Visitor.update fun s => { s with m_unknownFunctionCallSeen := w }) >>= fun _ =>
        (Pure.pure a : Visitor α)) (CHC.FlagIs w) := by
  refine ⟨fun s b s1 _ hrun => ?_⟩
  rw [Visitor.update_bind_run] at hrun
  obtain ⟨_, hs⟩ := Visitor.pure_ok hrun
  rw [hs]
  rfl

end Visitor.Ensures

/-! ## The visit of a statement puts the destinations of `break` and `continue` back -/

theorem CHC.visitIfStatement_dests (i : Nat) (condition : Expression) (trueStatement : Nat × Visitor Unit)
    (falseStatement : Option (Nat × Visitor Unit)) (hTrue : ∀ b c, Visitor.Ensures (CHC.DestinationsAre b c) (trueStatement.2) (CHC.DestinationsAre b c))
    (h : ∀ st, falseStatement = some st → ∀ b c, Visitor.Ensures (CHC.DestinationsAre b c) (st.2) (CHC.DestinationsAre b c)) :
    ∀ b c, Visitor.Ensures (CHC.DestinationsAre b c) (CHC.visitIfStatement i condition trueStatement falseStatement) (CHC.DestinationsAre b c) := by
  intro b c
  unfold CHC.visitIfStatement SMTEncoder.expr
  repeat' (first
    | with_reducible exact hTrue _ _
    | with_reducible exact h _ rfl _ _
    | with_reducible exact h _ ‹_› _ _
    | with_reducible exact Visitor.Ensures.of_walk (CHC.createBlock_walk _ _)
    | with_reducible exact Visitor.Ensures.of_walk (CHC.setCurrentBlock_walk _ _)
    | with_reducible exact Visitor.Ensures.of_walk (CHC.predicate_walk _)
    | with_reducible exact Visitor.Ensures.of_walk (CHC.connectBlocks_walk _ _ _)
    | with_reducible exact Visitor.Ensures.of_walk (CHC.eraseKnowledge_walk)
    | with_reducible exact Visitor.Ensures.of_walk (Expression.acceptExpression_walk _)
    | with_reducible exact Visitor.Ensures.of_walk (CHC.endVisitBreak_walk _)
    | with_reducible exact Visitor.Ensures.of_walk (CHC.endVisitContinue_walk _)
    | with_reducible apply Visitor.Ensures.with_breakDest
    | with_reducible apply Visitor.Ensures.with_continueDest
    | with_reducible apply Visitor.Ensures.setDests
    | with_reducible apply Visitor.Ensures.bind_same
    | with_reducible exact Visitor.Ensures.read_kept _
    | with_reducible exact Visitor.Ensures.pure_kept _
    | with_reducible exact Visitor.Ensures.solAssert_kept _ _
    | with_reducible exact Visitor.Ensures.deref_kept _ _
    | exact Visitor.Ensures.update_dests _ (fun _ => ⟨rfl, rfl⟩)
    | intro _
    | split
    | contradiction
    | dsimp only)

theorem CHC.visitWhileStatement_dests (i : Nat) (isDoWhile : Bool) (condition : Expression)
    (body : Nat × Visitor Unit) (hBody : ∀ b c, Visitor.Ensures (CHC.DestinationsAre b c) (body.2) (CHC.DestinationsAre b c)) :
    ∀ b c, Visitor.Ensures (CHC.DestinationsAre b c) (CHC.visitWhileStatement i isDoWhile condition body) (CHC.DestinationsAre b c) := by
  intro b c
  unfold CHC.visitWhileStatement SMTEncoder.expr
  repeat' (first
    | with_reducible exact hBody _ _
    | with_reducible exact Visitor.Ensures.of_walk (CHC.createBlock_walk _ _)
    | with_reducible exact Visitor.Ensures.of_walk (CHC.setCurrentBlock_walk _ _)
    | with_reducible exact Visitor.Ensures.of_walk (CHC.predicate_walk _)
    | with_reducible exact Visitor.Ensures.of_walk (CHC.connectBlocks_walk _ _ _)
    | with_reducible exact Visitor.Ensures.of_walk (CHC.eraseKnowledge_walk)
    | with_reducible exact Visitor.Ensures.of_walk (Expression.acceptExpression_walk _)
    | with_reducible exact Visitor.Ensures.of_walk (CHC.endVisitBreak_walk _)
    | with_reducible exact Visitor.Ensures.of_walk (CHC.endVisitContinue_walk _)
    | with_reducible apply Visitor.Ensures.with_breakDest
    | with_reducible apply Visitor.Ensures.with_continueDest
    | with_reducible apply Visitor.Ensures.setDests
    | with_reducible apply Visitor.Ensures.bind_same
    | with_reducible exact Visitor.Ensures.read_kept _
    | with_reducible exact Visitor.Ensures.pure_kept _
    | with_reducible exact Visitor.Ensures.solAssert_kept _ _
    | with_reducible exact Visitor.Ensures.deref_kept _ _
    | exact Visitor.Ensures.update_dests _ (fun _ => ⟨rfl, rfl⟩)
    | intro _
    | split
    | contradiction
    | dsimp only)

theorem CHC.visitForStatement_dests (i : Nat) (init : Option (Visitor Unit)) (condition : Option Expression)
    (loopExpression : Option (Nat × Visitor Unit)) (body : Nat × Visitor Unit)
    (hInit : ∀ m, init = some m → ∀ b c, Visitor.Ensures (CHC.DestinationsAre b c) (m) (CHC.DestinationsAre b c))
    (h : ∀ st, loopExpression = some st → ∀ b c, Visitor.Ensures (CHC.DestinationsAre b c) (st.2) (CHC.DestinationsAre b c)) (hBody : ∀ b c, Visitor.Ensures (CHC.DestinationsAre b c) (body.2) (CHC.DestinationsAre b c)) :
    ∀ b c, Visitor.Ensures (CHC.DestinationsAre b c) (CHC.visitForStatement i init condition loopExpression body) (CHC.DestinationsAre b c) := by
  intro b c
  unfold CHC.visitForStatement SMTEncoder.expr
  repeat' (first
    | with_reducible exact hBody _ _
    | with_reducible exact hInit _ rfl _ _
    | with_reducible exact h _ rfl _ _
    | with_reducible exact h _ ‹_› _ _
    | with_reducible exact Visitor.Ensures.of_walk (CHC.createBlock_walk _ _)
    | with_reducible exact Visitor.Ensures.of_walk (CHC.setCurrentBlock_walk _ _)
    | with_reducible exact Visitor.Ensures.of_walk (CHC.predicate_walk _)
    | with_reducible exact Visitor.Ensures.of_walk (CHC.connectBlocks_walk _ _ _)
    | with_reducible exact Visitor.Ensures.of_walk (CHC.eraseKnowledge_walk)
    | with_reducible exact Visitor.Ensures.of_walk (Expression.acceptExpression_walk _)
    | with_reducible exact Visitor.Ensures.of_walk (CHC.endVisitBreak_walk _)
    | with_reducible exact Visitor.Ensures.of_walk (CHC.endVisitContinue_walk _)
    | with_reducible apply Visitor.Ensures.with_breakDest
    | with_reducible apply Visitor.Ensures.with_continueDest
    | with_reducible apply Visitor.Ensures.setDests
    | with_reducible apply Visitor.Ensures.bind_same
    | with_reducible exact Visitor.Ensures.read_kept _
    | with_reducible exact Visitor.Ensures.pure_kept _
    | with_reducible exact Visitor.Ensures.solAssert_kept _ _
    | with_reducible exact Visitor.Ensures.deref_kept _ _
    | exact Visitor.Ensures.update_dests _ (fun _ => ⟨rfl, rfl⟩)
    | intro _
    | split
    | contradiction
    | dsimp only)

mutual
theorem Statement.acceptStatement_dests : ∀ st : Statement, ∀ b c, Visitor.Ensures (CHC.DestinationsAre b c) (st.accept) (CHC.DestinationsAre b c)
  | .Block i statements => by
    intro b c
    rw [Statement.accept]
    exact Statement.acceptStatements_dests statements b c
  | .IfStatement i condition trueStatement none => by
    intro b c
    rw [Statement.accept]
    exact Visitor.Ensures.bind_same (CHC.visitIfStatement_dests _ _ _ _ (Statement.acceptStatement_dests trueStatement) (by intro st h; cases h) b c)
      (fun _ => Visitor.Ensures.pure_kept _)
  | .IfStatement i condition trueStatement (some falseStatement) => by
    intro b c
    rw [Statement.accept]
    exact Visitor.Ensures.bind_same (CHC.visitIfStatement_dests _ _ _ _ (Statement.acceptStatement_dests trueStatement) (by intro st h; cases h; exact Statement.acceptStatement_dests falseStatement) b c)
      (fun _ => Visitor.Ensures.pure_kept _)
  | .WhileStatement i condition body isDoWhile => by
    intro b c
    rw [Statement.accept]
    exact Visitor.Ensures.bind_same (CHC.visitWhileStatement_dests _ _ _ _ (Statement.acceptStatement_dests body) b c)
      (fun _ => Visitor.Ensures.pure_kept _)
  | .ForStatement i none condition none body => by
    intro b c
    rw [Statement.accept]
    exact Visitor.Ensures.bind_same (CHC.visitForStatement_dests _ _ _ _ _ (by intro m h; cases h) (by intro m h; cases h) (Statement.acceptStatement_dests body) b c)
      (fun _ => Visitor.Ensures.pure_kept _)
  | .ForStatement i none condition (some postLoop) body => by
    intro b c
    rw [Statement.accept]
    exact Visitor.Ensures.bind_same (CHC.visitForStatement_dests _ _ _ _ _ (by intro m h; cases h) (by intro m h; cases h; exact Statement.acceptStatement_dests postLoop) (Statement.acceptStatement_dests body) b c)
      (fun _ => Visitor.Ensures.pure_kept _)
  | .ForStatement i (some init) condition none body => by
    intro b c
    rw [Statement.accept]
    exact Visitor.Ensures.bind_same (CHC.visitForStatement_dests _ _ _ _ _ (by intro m h; cases h; exact Statement.acceptStatement_dests init) (by intro m h; cases h) (Statement.acceptStatement_dests body) b c)
      (fun _ => Visitor.Ensures.pure_kept _)
  | .ForStatement i (some init) condition (some postLoop) body => by
    intro b c
    rw [Statement.accept]
    exact Visitor.Ensures.bind_same (CHC.visitForStatement_dests _ _ _ _ _ (by intro m h; cases h; exact Statement.acceptStatement_dests init) (by intro m h; cases h; exact Statement.acceptStatement_dests postLoop) (Statement.acceptStatement_dests body) b c)
      (fun _ => Visitor.Ensures.pure_kept _)
  | .Break i => by
    intro b c
    rw [Statement.accept]
    exact Visitor.Ensures.of_walk (CHC.endVisitBreak_walk _)
  | .Continue i => by
    intro b c
    rw [Statement.accept]
    exact Visitor.Ensures.of_walk (CHC.endVisitContinue_walk _)
  | .ExpressionStatement i expression => by
    intro b c
    rw [Statement.accept]
    exact Visitor.Ensures.of_walk (Expression.acceptExpression_walk _)
  | .VariableDeclarationStatement i declaration none => by
    intro b c
    rw [Statement.accept]
    exact Visitor.Ensures.pure_kept _
  | .VariableDeclarationStatement i declaration (some value) => by
    intro b c
    exact Visitor.Ensures.of_walk
      (Statement.acceptSimple_walk (.VariableDeclarationStatement i declaration (some value)) rfl)
theorem Statement.acceptStatements_dests : ∀ l : List Statement, ∀ b c, Visitor.Ensures (CHC.DestinationsAre b c) (Statement.acceptAll l) (CHC.DestinationsAre b c)
  | [] => by
    intro b c
    rw [Statement.acceptAll]
    exact Visitor.Ensures.pure_kept _
  | st :: rest => by
    intro b c
    rw [Statement.acceptAll]
    exact Visitor.Ensures.bind_via (Statement.acceptStatement_dests st b c)
      (fun _ => Statement.acceptStatements_dests rest b c)
end

/-! ## The visit of an if statement or of a loop puts the unknown-call flag back -/

theorem CHC.visitIfStatement_flagback (i : Nat) (condition : Expression) (trueStatement : Nat × Visitor Unit)
    (falseStatement : Option (Nat × Visitor Unit)) :
    ∀ w, Visitor.Ensures (CHC.FlagIs w) (CHC.visitIfStatement i condition trueStatement falseStatement) (CHC.FlagIs w) := by
  intro w
  unfold CHC.visitIfStatement
  repeat' (first
    | with_reducible exact Visitor.Ensures.restoreFlag _ _
    | with_reducible apply Visitor.Ensures.read_flag
    | with_reducible apply Visitor.Ensures.bind_any
    | with_reducible apply Visitor.Ensures.bind_same
    | with_reducible exact Visitor.Ensures.read_kept _
    | with_reducible exact Visitor.Ensures.solAssert_kept _ _
    | intro _)

theorem CHC.visitWhileStatement_flagback (i : Nat) (isDoWhile : Bool) (condition : Expression)
    (body : Nat × Visitor Unit) :
    ∀ w, Visitor.Ensures (CHC.FlagIs w) (CHC.visitWhileStatement i isDoWhile condition body) (CHC.FlagIs w) := by
  intro w
  unfold CHC.visitWhileStatement
  repeat' (first
    | with_reducible exact Visitor.Ensures.restoreFlag _ _
    | with_reducible apply Visitor.Ensures.read_flag
    | with_reducible apply Visitor.Ensures.bind_any
    | with_reducible apply Visitor.Ensures.bind_same
    | with_reducible exact Visitor.Ensures.read_kept _
    | with_reducible exact Visitor.Ensures.solAssert_kept _ _
    | intro _)

theorem CHC.visitForStatement_flagback (i : Nat) (init : Option (Visitor Unit)) (condition : Option Expression)
    (loopExpression : Option (Nat × Visitor Unit)) (body : Nat × Visitor Unit) :
    ∀ w, Visitor.Ensures (CHC.FlagIs w) (CHC.visitForStatement i init condition loopExpression body) (CHC.FlagIs w) := by
  intro w
  unfold CHC.visitForStatement
  repeat' (first
    | with_reducible exact Visitor.Ensures.restoreFlag _ _
    | with_reducible apply Visitor.Ensures.read_flag
    | with_reducible apply Visitor.Ensures.bind_any
    | with_reducible apply Visitor.Ensures.bind_same
    | with_reducible exact Visitor.Ensures.read_kept _
    | with_reducible exact Visitor.Ensures.solAssert_kept _ _
    | intro _)

/-! ## The steps of a while loop and of a do-while loop -/

/-- A while loop, in a function with a body of a current contract: the three
blocks are registered and the header is entered, the condition is walked, the
two rules out of the header are added, the body is walked, and the rule back to
the header is added. -/
theorem CHC.visitWhileStatement_steps (i : Nat) (cond : Expression) (body : Statement) (s : CHC)
    (f : FunctionDefinition) (fb : Statement) (c : ContractDefinition)
    (hcur : s.m_currentFunction = some f) (hfb : f.body = some fb)
    (hcon : s.m_currentContract = some c) :
    ∃ (header bodyBlock after : smt.SymbolicFunctionVariable) (s2 : CHC)
      (vars vars2 : List smt.Expression),
      CHC.currentBlockVariables s = .ok vars s ∧
      s2.m_interface.calls = s.m_interface.calls ++
        [.registerRelation header.uniqueName header.index header.sort,
         .registerRelation bodyBlock.uniqueName bodyBlock.index bodyBlock.sort,
         .registerRelation after.uniqueName after.index after.sort,
         CHC.edge s.m_currentBlock s.m_context.assertions (.boolLit true) (header.app vars)] ∧
      s2.m_currentBlock = header.app vars2 ∧ CHC.currentBlockVariables s2 = .ok vars2 s2 ∧
      s2.m_breakDest = some after ∧ s2.m_continueDest = some header ∧
      s2.m_unknownFunctionCallSeen = false ∧
      CHC.setCurrentBlock header none
        { s with
          m_interface := ⟨s.m_interface.calls ++
            [.registerRelation header.uniqueName header.index header.sort,
             .registerRelation bodyBlock.uniqueName bodyBlock.index bodyBlock.sort,
             .registerRelation after.uniqueName after.index after.sort,
             CHC.edge s.m_currentBlock s.m_context.assertions (.boolLit true) (header.app vars)],
            s.m_interface.answer⟩
          m_breakDest := some after
          m_continueDest := some header
          m_unknownFunctionCallSeen := false
          m_blockCounter := s.m_blockCounter + 3 } = .ok () s2 ∧
      ∀ s3, cond.accept s2 = .ok () s3 →
        ∃ (s4 : CHC) (vars3 vars4 : List smt.Expression),
          CHC.currentBlockVariables s3 = .ok vars3 s3 ∧
          s4.m_interface.calls = s3.m_interface.calls ++
            [CHC.edge s3.m_currentBlock s3.m_context.assertions
              (s3.m_context.expression cond.id).currentValue (bodyBlock.app vars3),
             CHC.edge s3.m_currentBlock s3.m_context.assertions
              (s3.m_context.expression cond.id).currentValue.not (after.app vars3)] ∧
          s4.m_currentBlock = bodyBlock.app vars4 ∧
          CHC.currentBlockVariables s4 = .ok vars4 s4 ∧
          s4.m_breakDest = some after ∧ s4.m_continueDest = some header ∧
          s4.m_unknownFunctionCallSeen = s3.m_unknownFunctionCallSeen ∧
          CHC.setCurrentBlock bodyBlock none
            { s3 with
              m_interface := ⟨s3.m_interface.calls ++
                [CHC.edge s3.m_currentBlock s3.m_context.assertions
                  (s3.m_context.expression cond.id).currentValue (bodyBlock.app vars3),
                 CHC.edge s3.m_currentBlock s3.m_context.assertions
                  (s3.m_context.expression cond.id).currentValue.not (after.app vars3)],
                s3.m_interface.answer⟩ } = .ok () s4 ∧
          ∀ s5, body.accept s4 = .ok () s5 →
            ∃ (s6 : CHC) (vars5 vars6 : List smt.Expression),
              (Statement.WhileStatement i cond body false).accept s =
                .ok () (CHC.leaveStatement s.m_unknownFunctionCallSeen s6) ∧
              CHC.currentBlockVariables s5 = .ok vars5 s5 ∧
              s6.m_interface.calls = s5.m_interface.calls ++
                [CHC.edge s5.m_currentBlock s5.m_context.assertions (.boolLit true)
                  (header.app vars5)] ∧
              s6.m_currentBlock = after.app vars6 ∧
              s6.m_breakDest = s.m_breakDest ∧ s6.m_continueDest = s.m_continueDest ∧
              s6.m_unknownFunctionCallSeen = s5.m_unknownFunctionCallSeen ∧
              CHC.setCurrentBlock after none
                { s5 with
                  m_interface := ⟨s5.m_interface.calls ++
                    [CHC.edge s5.m_currentBlock s5.m_context.assertions (.boolLit true)
                      (header.app vars5)], s5.m_interface.answer⟩
                  m_breakDest := s.m_breakDest
                  m_continueDest := s.m_continueDest } = .ok () s6 := by
  obtain ⟨a1, a2, a3, a4, a5, a6, a7, a8, a9, a10, a11, a12, a13, a14, a15, a16, a17, a18, a19,
    a20, a21, a22, a23⟩ := s
  simp only at hcur hcon
  subst hcur hcon
  have hrun : (Statement.WhileStatement i cond body false).accept
        ⟨a1, a2, a3, some c, a5, a6, a7, a8, a9, a10, a11, a12, a13,
          a14, a15, a16, a17, a18, some f, a20, a21, a22, a23⟩ =
      (Statement.WhileStatement i cond body false).accept
        ⟨a1, a2, a3, some c, a5, a6, a7, a8, a9, a10, a11, a12, a13,
          a14, a15, a16, a17, a18, some f, a20, a21, a22, a23⟩ := rfl
  conv at hrun =>
    rhs
    rw [Statement.accept]
    unfold CHC.visitWhileStatement
    unfold CHC.connectBlocks CHC.addRule
      CHC.setCurrentBlock CHC.createBlock CHC.sortNode CHC.sort CHC.predicateName
      CHC.createSymbolicBlock CHC.predicate CHC.currentBlockVariables
      CHC.currentFunctionVariables CHC.initialStateVariables CHC.stateVariablesAtIndex
      CHC.currentStateVariables CHC.clearIndices SMTEncoder.clearIndices SMTEncoder.expr
    simp only [Visitor.bind_assoc_run, Visitor.read_bind_run, Visitor.update_bind_run,
      Visitor.pure_bind_run, CHC.uniquePrefix_bind_run, Option.isSome_some,
      Visitor.solAssert_bind_run, Visitor.deref_bind_run, ↓reduceIte, Visitor.pure_run,
      Visitor.update_run, hfb, Bool.false_eq_true]
  obtain ⟨s2, hs2, hnext⟩ := Visitor.bind_run_split hrun
  clear hrun
  refine ⟨⟨?hn, ?hs, ?hi⟩, ⟨?bn, ?bs, ?bi⟩, ⟨?an, ?as, ?ai⟩, s2, ?vars, ?vars2, ?v0, ?calls,
    ?cur, ?v2, ?bd, ?cd, ?fl, ?tie, ?rest⟩
  case fl => rw [hs2]
  case bd => rw [hs2]; exact rfl
  case cd => rw [hs2]; exact rfl
  case cur => rw [hs2]; exact rfl
  case v2 => rw [hs2]; exact rfl
  case v0 => exact rfl
  case rest =>
    intro s3 hc
    have hb := (Expression.acceptExpression_frame cond).run_ok hc
    have he := (Expression.acceptExpression_walk cond).run_ok hc
    have hrun3 := hnext () s3 hc
    have h3f : s3.m_currentFunction = some f := by rw [hb.currentFunction, hs2]
    have h3c : s3.m_currentContract = some c := by rw [hb.currentContract, hs2]
    have h3bd := he.breakDest
    have h3cd := he.continueDest
    rw [hs2] at h3bd h3cd
    obtain ⟨b1, b2, b3, b4, b5, b6, b7, b8, b9, b10, b11, b12, b13, b14, b15, b16, b17, b18, b19,
      b20, b21, b22, b23⟩ := s3
    simp only at h3f h3c h3bd h3cd
    subst h3f h3c h3bd h3cd
    simp only [Visitor.bind_assoc_run, Visitor.read_bind_run, Visitor.update_bind_run,
      Visitor.pure_bind_run, CHC.uniquePrefix_bind_run, Option.isSome_some,
      Visitor.solAssert_bind_run, Visitor.deref_bind_run, ↓reduceIte, Visitor.pure_run,
      Visitor.update_run, hfb, Bool.false_eq_true] at hrun3
    obtain ⟨s4, hs4, hnext4⟩ := Visitor.bind_run_split hrun3
    refine ⟨s4, ?vars3, ?vars4, ?v3, ?calls4, ?cur4, ?v4, ?bd4, ?cd4, ?fl4, ?tie4, ?rest4⟩
    case fl4 => rw [hs4]
    case bd4 => rw [hs4]
    case cd4 => rw [hs4]
    case cur4 => rw [hs4]; exact rfl
    case v4 => rw [hs4]; exact rfl
    case v3 => exact rfl
    case rest4 =>
      intro s5 hc5
      have hb5 := (Statement.acceptStatement_frame body).run_ok hc5
      have hrun5 := hnext4 () s5 hc5
      have h5f : s5.m_currentFunction = some f := by rw [hb5.currentFunction, hs4]
      have h5c : s5.m_currentContract = some c := by rw [hb5.currentContract, hs4]
      obtain ⟨d1, d2, d3, d4, d5, d6, d7, d8, d9, d10, d11, d12, d13, d14, d15, d16, d17, d18,
        d19, d20, d21, d22, d23⟩ := s5
      simp only at h5f h5c
      subst h5f h5c
      simp only [Visitor.bind_assoc_run, Visitor.read_bind_run, Visitor.update_bind_run,
        Visitor.pure_bind_run, CHC.uniquePrefix_bind_run, Option.isSome_some,
        Visitor.solAssert_bind_run, Visitor.deref_bind_run, ↓reduceIte, Visitor.pure_run,
        Visitor.update_run, hfb, Bool.false_eq_true] at hrun5
      obtain ⟨s6, hs6, hnext6⟩ := Visitor.bind_run_split hrun5
      refine ⟨s6, ?vars5, ?vars6, ?run, ?v5, ?calls6, ?cur6, ?bd6, ?cd6, ?fl6, ?tie6⟩
      case run =>
        have hf6 : s6.m_unknownFunctionCallSeen = d22 := by rw [hs6]
        have hstep := CHC.leaveStatement_step s6
        rw [hf6] at hstep
        rw [hnext6 () _ hstep]
        unfold CHC.leaveStatement
        rw [hf6]
        rfl
      case fl6 => rw [hs6]
      case bd6 => rw [hs6]
      case cd6 => rw [hs6]
      case cur6 => rw [hs6]; exact rfl
      case v5 => exact rfl
      case calls6 =>
        rw [hs6]
        unfold CHC.edge
        simp only [smt.CHCSolverInterface.registerRelation, smt.CHCSolverInterface.addRule,
          List.append_assoc, List.singleton_append, List.cons_append, List.nil_append]
      case tie6 =>
        rw [hs6]
        unfold CHC.setCurrentBlock CHC.predicate CHC.currentBlockVariables
          CHC.currentFunctionVariables CHC.initialStateVariables CHC.stateVariablesAtIndex
          CHC.currentStateVariables CHC.clearIndices SMTEncoder.clearIndices CHC.edge
        simp only [Visitor.bind_assoc_run, Visitor.read_bind_run, Visitor.update_bind_run,
          Visitor.pure_bind_run, Option.isSome_some,
          Visitor.solAssert_bind_run, Visitor.deref_bind_run, ↓reduceIte, Visitor.pure_run,
          Visitor.update_run, smt.CHCSolverInterface.registerRelation,
          smt.CHCSolverInterface.addRule, List.append_assoc, List.singleton_append, List.cons_append,
          List.nil_append]
        first | done | exact rfl
    case calls4 =>
      rw [hs4]
      unfold CHC.edge
      simp only [smt.CHCSolverInterface.registerRelation, smt.CHCSolverInterface.addRule,
        List.append_assoc, List.singleton_append, List.cons_append, List.nil_append]
    case tie4 =>
      rw [hs4]
      unfold CHC.setCurrentBlock CHC.predicate CHC.currentBlockVariables
        CHC.currentFunctionVariables CHC.initialStateVariables CHC.stateVariablesAtIndex
        CHC.currentStateVariables CHC.clearIndices SMTEncoder.clearIndices CHC.edge
      simp only [Visitor.bind_assoc_run, Visitor.read_bind_run, Visitor.update_bind_run,
        Visitor.pure_bind_run, Option.isSome_some,
        Visitor.solAssert_bind_run, Visitor.deref_bind_run, ↓reduceIte, Visitor.pure_run,
        Visitor.update_run, smt.CHCSolverInterface.registerRelation,
        smt.CHCSolverInterface.addRule, List.append_assoc, List.singleton_append, List.cons_append,
        List.nil_append]
      first | done | exact rfl
  case calls =>
    rw [hs2]
    unfold CHC.edge
    simp only [smt.CHCSolverInterface.registerRelation, smt.CHCSolverInterface.addRule,
      List.append_assoc, List.singleton_append, List.cons_append, List.nil_append]
  case tie =>
    rw [hs2]
    unfold CHC.setCurrentBlock CHC.predicate CHC.currentBlockVariables
      CHC.currentFunctionVariables CHC.initialStateVariables CHC.stateVariablesAtIndex
      CHC.currentStateVariables CHC.clearIndices SMTEncoder.clearIndices CHC.edge
    simp only [Visitor.bind_assoc_run, Visitor.read_bind_run, Visitor.update_bind_run,
      Visitor.pure_bind_run, Option.isSome_some,
      Visitor.solAssert_bind_run, Visitor.deref_bind_run, ↓reduceIte, Visitor.pure_run,
      Visitor.update_run, smt.CHCSolverInterface.registerRelation,
      smt.CHCSolverInterface.addRule, List.append_assoc, List.singleton_append, List.cons_append,
      List.nil_append]
    first | done | exact rfl

/-- A do-while loop, in a function with a body of a current contract: the three
blocks are registered, the body is walked, then the header is entered, the
condition is walked, the two rules out of the header are added, the body is
walked again, and the rule back to the header is added. -/
theorem CHC.visitDoWhileStatement_steps (i : Nat) (cond : Expression) (body : Statement) (s : CHC)
    (f : FunctionDefinition) (fb : Statement) (c : ContractDefinition)
    (hcur : s.m_currentFunction = some f) (hfb : f.body = some fb)
    (hcon : s.m_currentContract = some c) :
    ∃ (header bodyBlock after : smt.SymbolicFunctionVariable) (s1 : CHC),
      s1.m_interface.calls = s.m_interface.calls ++
        [.registerRelation header.uniqueName header.index header.sort,
         .registerRelation bodyBlock.uniqueName bodyBlock.index bodyBlock.sort,
         .registerRelation after.uniqueName after.index after.sort] ∧
      s1.m_currentBlock = s.m_currentBlock ∧
      s1.m_breakDest = some after ∧ s1.m_continueDest = some header ∧
      s1.m_unknownFunctionCallSeen = false ∧
      s1 =
        { s with
          m_interface := ⟨s.m_interface.calls ++
            [.registerRelation header.uniqueName header.index header.sort,
             .registerRelation bodyBlock.uniqueName bodyBlock.index bodyBlock.sort,
             .registerRelation after.uniqueName after.index after.sort],
            s.m_interface.answer⟩
          m_breakDest := some after
          m_continueDest := some header
          m_unknownFunctionCallSeen := false
          m_blockCounter := s.m_blockCounter + 3 } ∧
      ∀ s2, body.accept s1 = .ok () s2 →
        ∃ (s3 : CHC) (vars2 vars3 : List smt.Expression),
          CHC.currentBlockVariables s2 = .ok vars2 s2 ∧
          s3.m_interface.calls = s2.m_interface.calls ++
            [CHC.edge s2.m_currentBlock s2.m_context.assertions (.boolLit true)
              (header.app vars2)] ∧
          s3.m_currentBlock = header.app vars3 ∧ CHC.currentBlockVariables s3 = .ok vars3 s3 ∧
          s3.m_breakDest = some after ∧ s3.m_continueDest = some header ∧
          s3.m_unknownFunctionCallSeen = s2.m_unknownFunctionCallSeen ∧
          CHC.setCurrentBlock header none
            { s2 with
              m_interface := ⟨s2.m_interface.calls ++
                [CHC.edge s2.m_currentBlock s2.m_context.assertions (.boolLit true)
                  (header.app vars2)], s2.m_interface.answer⟩ } = .ok () s3 ∧
          ∀ s4, cond.accept s3 = .ok () s4 →
            ∃ (s5 : CHC) (vars4 vars5 : List smt.Expression),
              CHC.currentBlockVariables s4 = .ok vars4 s4 ∧
              s5.m_interface.calls = s4.m_interface.calls ++
                [CHC.edge s4.m_currentBlock s4.m_context.assertions
                  (s4.m_context.expression cond.id).currentValue (bodyBlock.app vars4),
                 CHC.edge s4.m_currentBlock s4.m_context.assertions
                  (s4.m_context.expression cond.id).currentValue.not (after.app vars4)] ∧
              s5.m_currentBlock = bodyBlock.app vars5 ∧
              CHC.currentBlockVariables s5 = .ok vars5 s5 ∧
              s5.m_breakDest = some after ∧ s5.m_continueDest = some header ∧
              s5.m_unknownFunctionCallSeen = s4.m_unknownFunctionCallSeen ∧
              CHC.setCurrentBlock bodyBlock none
                { s4 with
                  m_interface := ⟨s4.m_interface.calls ++
                    [CHC.edge s4.m_currentBlock s4.m_context.assertions
                      (s4.m_context.expression cond.id).currentValue (bodyBlock.app vars4),
                     CHC.edge s4.m_currentBlock s4.m_context.assertions
                      (s4.m_context.expression cond.id).currentValue.not (after.app vars4)],
                    s4.m_interface.answer⟩ } = .ok () s5 ∧
              ∀ s6, body.accept s5 = .ok () s6 →
                ∃ (s7 : CHC) (vars6 vars7 : List smt.Expression),
                  (Statement.WhileStatement i cond body true).accept s =
                    .ok () (CHC.leaveStatement s.m_unknownFunctionCallSeen s7) ∧
                  CHC.currentBlockVariables s6 = .ok vars6 s6 ∧
                  s7.m_interface.calls = s6.m_interface.calls ++
                    [CHC.edge s6.m_currentBlock s6.m_context.assertions (.boolLit true)
                      (header.app vars6)] ∧
                  s7.m_currentBlock = after.app vars7 ∧
                  s7.m_breakDest = s.m_breakDest ∧ s7.m_continueDest = s.m_continueDest ∧
                  s7.m_unknownFunctionCallSeen = s6.m_unknownFunctionCallSeen ∧
                  CHC.setCurrentBlock after none
                    { s6 with
                      m_interface := ⟨s6.m_interface.calls ++
                        [CHC.edge s6.m_currentBlock s6.m_context.assertions (.boolLit true)
                          (header.app vars6)], s6.m_interface.answer⟩
                      m_breakDest := s.m_breakDest
                      m_continueDest := s.m_continueDest } = .ok () s7 := by
  obtain ⟨a1, a2, a3, a4, a5, a6, a7, a8, a9, a10, a11, a12, a13, a14, a15, a16, a17, a18, a19,
    a20, a21, a22, a23⟩ := s
  simp only at hcur hcon
  subst hcur hcon
  have hrun : (Statement.WhileStatement i cond body true).accept
        ⟨a1, a2, a3, some c, a5, a6, a7, a8, a9, a10, a11, a12, a13,
          a14, a15, a16, a17, a18, some f, a20, a21, a22, a23⟩ =
      (Statement.WhileStatement i cond body true).accept
        ⟨a1, a2, a3, some c, a5, a6, a7, a8, a9, a10, a11, a12, a13,
          a14, a15, a16, a17, a18, some f, a20, a21, a22, a23⟩ := rfl
  conv at hrun =>
    rhs
    rw [Statement.accept]
    unfold CHC.visitWhileStatement
    unfold CHC.connectBlocks CHC.addRule
      CHC.setCurrentBlock CHC.createBlock CHC.sortNode CHC.sort CHC.predicateName
      CHC.createSymbolicBlock CHC.predicate CHC.currentBlockVariables
      CHC.currentFunctionVariables CHC.initialStateVariables CHC.stateVariablesAtIndex
      CHC.currentStateVariables CHC.clearIndices SMTEncoder.clearIndices SMTEncoder.expr
    simp only [Visitor.bind_assoc_run, Visitor.read_bind_run, Visitor.update_bind_run,
      Visitor.pure_bind_run, CHC.uniquePrefix_bind_run, Option.isSome_some,
      Visitor.solAssert_bind_run, Visitor.deref_bind_run, ↓reduceIte, Visitor.pure_run,
      Visitor.update_run, hfb, Bool.false_eq_true]
  obtain ⟨s1, hs1, hnext⟩ := Visitor.bind_run_split hrun
  clear hrun
  refine ⟨⟨?hn, ?hs, ?hi⟩, ⟨?bn, ?bs, ?bi⟩, ⟨?an, ?as, ?ai⟩, s1, ?calls, ?cur, ?bd, ?cd, ?fl,
    ?tie, ?rest⟩
  case fl => rw [hs1]
  case bd => rw [hs1]; first | done | exact rfl
  case cd => rw [hs1]; first | done | exact rfl
  case cur => rw [hs1]
  case rest =>
    intro s2 hc2
    have hb2 := (Statement.acceptStatement_frame body).run_ok hc2
    have hd2 := (Statement.acceptStatement_dests body _ _).run s1 () s2
      ⟨by rw [hs1], by rw [hs1]⟩ hc2
    have hrun2 := hnext () s2 hc2
    have h2f : s2.m_currentFunction = some f := by rw [hb2.currentFunction, hs1]
    have h2c : s2.m_currentContract = some c := by rw [hb2.currentContract, hs1]
    have h2bd := hd2.1
    have h2cd := hd2.2
    clear hb2 hd2
    obtain ⟨b1, b2, b3, b4, b5, b6, b7, b8, b9, b10, b11, b12,
      b13, b14, b15, b16, b17, b18, b19, b20, b21, b22, b23⟩ := s2
    simp only at h2f h2c h2bd h2cd
    subst h2f h2c h2bd h2cd
    simp only [Visitor.bind_assoc_run, Visitor.read_bind_run, Visitor.update_bind_run,
      Visitor.pure_bind_run, CHC.uniquePrefix_bind_run, Option.isSome_some,
      Visitor.solAssert_bind_run, Visitor.deref_bind_run, ↓reduceIte, Visitor.pure_run,
      Visitor.update_run, hfb, Bool.false_eq_true] at hrun2
    obtain ⟨s3, hs3, hnext3⟩ := Visitor.bind_run_split hrun2
    refine ⟨s3, ?vars2, ?vars3, ?v2, ?calls3, ?cur3, ?v3, ?bd3, ?cd3, ?fl3, ?tie3, ?rest3⟩
    case fl3 => rw [hs3]
    case bd3 => rw [hs3]
    case cd3 => rw [hs3]
    case cur3 => rw [hs3]; exact rfl
    case v3 => rw [hs3]; exact rfl
    case v2 => exact rfl
    case rest3 =>
      intro s4 hc4
      have hb4 := (Expression.acceptExpression_frame cond).run_ok hc4
      have he4 := (Expression.acceptExpression_walk cond).run_ok hc4
      have hrun4 := hnext3 () s4 hc4
      have h4f : s4.m_currentFunction = some f := by rw [hb4.currentFunction, hs3]
      have h4c : s4.m_currentContract = some c := by rw [hb4.currentContract, hs3]
      have h4bd := he4.breakDest
      have h4cd := he4.continueDest
      rw [hs3] at h4bd h4cd
      clear hb4 he4
      obtain ⟨d1, d2, d3, d4, d5, d6, d7, d8, d9, d10, d11, d12,
        d13, d14, d15, d16, d17, d18, d19, d20, d21, d22, d23⟩ := s4
      simp only at h4f h4c h4bd h4cd
      subst h4f h4c h4bd h4cd
      simp only [Visitor.bind_assoc_run, Visitor.read_bind_run, Visitor.update_bind_run,
      Visitor.pure_bind_run, CHC.uniquePrefix_bind_run, Option.isSome_some,
      Visitor.solAssert_bind_run, Visitor.deref_bind_run, ↓reduceIte, Visitor.pure_run,
      Visitor.update_run, hfb, Bool.false_eq_true] at hrun4
      obtain ⟨s5, hs5, hnext5⟩ := Visitor.bind_run_split hrun4
      refine ⟨s5, ?vars4, ?vars5, ?v4, ?calls5, ?cur5, ?v5, ?bd5, ?cd5, ?fl5, ?tie5, ?rest5⟩
      case fl5 => rw [hs5]
      case bd5 => rw [hs5]
      case cd5 => rw [hs5]
      case cur5 => rw [hs5]; exact rfl
      case v5 => rw [hs5]; exact rfl
      case v4 => exact rfl
      case rest5 =>
        intro s6 hc6
        have hb6 := (Statement.acceptStatement_frame body).run_ok hc6
        have hrun6 := hnext5 () s6 hc6
        have h6f : s6.m_currentFunction = some f := by rw [hb6.currentFunction, hs5]
        have h6c : s6.m_currentContract = some c := by rw [hb6.currentContract, hs5]
        obtain ⟨e1, e2, e3, e4, e5, e6, e7, e8, e9, e10, e11, e12,
          e13, e14, e15, e16, e17, e18, e19, e20, e21, e22, e23⟩ := s6
        simp only at h6f h6c
        subst h6f h6c
        simp only [Visitor.bind_assoc_run, Visitor.read_bind_run, Visitor.update_bind_run,
      Visitor.pure_bind_run, CHC.uniquePrefix_bind_run, Option.isSome_some,
      Visitor.solAssert_bind_run, Visitor.deref_bind_run, ↓reduceIte, Visitor.pure_run,
      Visitor.update_run, hfb, Bool.false_eq_true] at hrun6
        obtain ⟨s7, hs7, hnext7⟩ := Visitor.bind_run_split hrun6
        refine ⟨s7, ?vars6, ?vars7, ?run, ?v6, ?calls7, ?cur7, ?bd7, ?cd7, ?fl7, ?tie7⟩
        case run =>
          have hf7 : s7.m_unknownFunctionCallSeen = e22 := by rw [hs7]
          have hstep := CHC.leaveStatement_step s7
          rw [hf7] at hstep
          rw [hnext7 () _ hstep]
          unfold CHC.leaveStatement
          rw [hf7]
          rfl
        case fl7 => rw [hs7]
        case bd7 => rw [hs7]
        case cd7 => rw [hs7]
        case cur7 => rw [hs7]; exact rfl
        case v6 => exact rfl
        case calls7 =>
          rw [hs7]
          unfold CHC.edge
          simp only [smt.CHCSolverInterface.registerRelation, smt.CHCSolverInterface.addRule,
            List.append_assoc, List.singleton_append, List.cons_append, List.nil_append]
          first | done | exact rfl
        case tie7 =>
          rw [hs7]
          unfold CHC.setCurrentBlock CHC.predicate CHC.currentBlockVariables
            CHC.currentFunctionVariables CHC.initialStateVariables CHC.stateVariablesAtIndex
            CHC.currentStateVariables CHC.clearIndices SMTEncoder.clearIndices CHC.edge
          simp only [Visitor.bind_assoc_run, Visitor.read_bind_run, Visitor.update_bind_run,
            Visitor.pure_bind_run, Option.isSome_some,
            Visitor.solAssert_bind_run, Visitor.deref_bind_run, ↓reduceIte, Visitor.pure_run,
            Visitor.update_run, smt.CHCSolverInterface.registerRelation,
            smt.CHCSolverInterface.addRule, List.append_assoc, List.singleton_append, List.cons_append,
            List.nil_append]
          first | done | exact rfl
      case calls5 =>
        rw [hs5]
        unfold CHC.edge
        simp only [smt.CHCSolverInterface.registerRelation, smt.CHCSolverInterface.addRule,
          List.append_assoc, List.singleton_append, List.cons_append, List.nil_append]
        first | done | exact rfl
      case tie5 =>
        rw [hs5]
        unfold CHC.setCurrentBlock CHC.predicate CHC.currentBlockVariables
          CHC.currentFunctionVariables CHC.initialStateVariables CHC.stateVariablesAtIndex
          CHC.currentStateVariables CHC.clearIndices SMTEncoder.clearIndices CHC.edge
        simp only [Visitor.bind_assoc_run, Visitor.read_bind_run, Visitor.update_bind_run,
          Visitor.pure_bind_run, Option.isSome_some,
          Visitor.solAssert_bind_run, Visitor.deref_bind_run, ↓reduceIte, Visitor.pure_run,
          Visitor.update_run, smt.CHCSolverInterface.registerRelation,
          smt.CHCSolverInterface.addRule, List.append_assoc, List.singleton_append, List.cons_append,
          List.nil_append]
        first | done | exact rfl
    case calls3 =>
      rw [hs3]
      unfold CHC.edge
      simp only [smt.CHCSolverInterface.registerRelation, smt.CHCSolverInterface.addRule,
        List.append_assoc, List.singleton_append, List.cons_append, List.nil_append]
      first | done | exact rfl
    case tie3 =>
      rw [hs3]
      unfold CHC.setCurrentBlock CHC.predicate CHC.currentBlockVariables
        CHC.currentFunctionVariables CHC.initialStateVariables CHC.stateVariablesAtIndex
        CHC.currentStateVariables CHC.clearIndices SMTEncoder.clearIndices CHC.edge
      simp only [Visitor.bind_assoc_run, Visitor.read_bind_run, Visitor.update_bind_run,
        Visitor.pure_bind_run, Option.isSome_some,
        Visitor.solAssert_bind_run, Visitor.deref_bind_run, ↓reduceIte, Visitor.pure_run,
        Visitor.update_run, smt.CHCSolverInterface.registerRelation,
        smt.CHCSolverInterface.addRule, List.append_assoc, List.singleton_append, List.cons_append,
        List.nil_append]
      first | done | exact rfl
  case calls =>
    rw [hs1]
    simp only [smt.CHCSolverInterface.registerRelation, smt.CHCSolverInterface.addRule,
      List.append_assoc, List.singleton_append, List.cons_append, List.nil_append]
    first | done | exact rfl
  case tie =>
    rw [hs1]
    simp only [smt.CHCSolverInterface.registerRelation, smt.CHCSolverInterface.addRule,
      List.append_assoc, List.singleton_append, List.cons_append, List.nil_append]
    first | done | exact rfl

theorem CHC.visitIfStatement_steps (i : Nat) (cond : Expression)
    (trueStatement : Statement)
    (s : CHC) (f : FunctionDefinition) (fb : Statement) (c : ContractDefinition)
    (hcur : s.m_currentFunction = some f) (hfb : f.body = some fb)
    (hcon : s.m_currentContract = some c) :
    ∃ (header trueBlock after : smt.SymbolicFunctionVariable) (s2 : CHC)
      (vars vars2 : List smt.Expression),
      CHC.currentBlockVariables s = .ok vars s ∧
      s2.m_interface.calls = s.m_interface.calls ++
        [.registerRelation header.uniqueName header.index header.sort,
         .registerRelation trueBlock.uniqueName trueBlock.index trueBlock.sort,
         .registerRelation after.uniqueName after.index after.sort,
         CHC.edge s.m_currentBlock s.m_context.assertions (.boolLit true) (header.app vars)] ∧
      s2.m_currentBlock = header.app vars2 ∧ CHC.currentBlockVariables s2 = .ok vars2 s2 ∧
      s2.m_unknownFunctionCallSeen = false ∧
      CHC.setCurrentBlock header none
        { s with
          m_interface := ⟨s.m_interface.calls ++
            [.registerRelation header.uniqueName header.index header.sort,
             .registerRelation trueBlock.uniqueName trueBlock.index trueBlock.sort,
             .registerRelation after.uniqueName after.index after.sort,
             CHC.edge s.m_currentBlock s.m_context.assertions (.boolLit true)
               (header.app vars)], s.m_interface.answer⟩
          m_unknownFunctionCallSeen := false
          m_blockCounter := s.m_blockCounter + 3 } = .ok () s2 ∧
      ∀ s3, cond.accept s2 = .ok () s3 →
        ∃ (s4 : CHC) (vars3 vars4 : List smt.Expression),
          CHC.currentBlockVariables s3 = .ok vars3 s3 ∧
          s4.m_interface.calls = s3.m_interface.calls ++
            [CHC.edge s3.m_currentBlock s3.m_context.assertions
              (s3.m_context.expression cond.id).currentValue (trueBlock.app vars3),
             CHC.edge s3.m_currentBlock s3.m_context.assertions
              (s3.m_context.expression cond.id).currentValue.not (after.app vars3)] ∧
          s4.m_currentBlock = trueBlock.app vars4 ∧
          CHC.currentBlockVariables s4 = .ok vars4 s4 ∧
          s4.m_unknownFunctionCallSeen = s3.m_unknownFunctionCallSeen ∧
          CHC.setCurrentBlock trueBlock none
            { s3 with
              m_interface := ⟨s3.m_interface.calls ++
                [CHC.edge s3.m_currentBlock s3.m_context.assertions
                   (s3.m_context.expression cond.id).currentValue (trueBlock.app vars3),
                 CHC.edge s3.m_currentBlock s3.m_context.assertions
                   (s3.m_context.expression cond.id).currentValue.not (after.app vars3)], s3.m_interface.answer⟩ } = .ok () s4 ∧
          ∀ s5, trueStatement.accept s4 = .ok () s5 →
            ∃ (s6 : CHC) (vars5 vars6 : List smt.Expression),
              (Statement.IfStatement i cond trueStatement none).accept s =
                .ok () (CHC.leaveStatement s.m_unknownFunctionCallSeen s6) ∧
              CHC.currentBlockVariables s5 = .ok vars5 s5 ∧
              s6.m_interface.calls = s5.m_interface.calls ++
                [CHC.edge s5.m_currentBlock s5.m_context.assertions (.boolLit true)
                  (after.app vars5)] ∧
              s6.m_currentBlock = after.app vars6 ∧
              s6.m_unknownFunctionCallSeen = s5.m_unknownFunctionCallSeen ∧
              CHC.setCurrentBlock after none
                { s5 with
                  m_interface := ⟨s5.m_interface.calls ++
                    [CHC.edge s5.m_currentBlock s5.m_context.assertions (.boolLit true)
                       (after.app vars5)], s5.m_interface.answer⟩ } = .ok () s6 := by
  obtain ⟨a1, a2, a3, a4, a5, a6, a7, a8, a9, a10, a11, a12, a13, a14, a15, a16, a17, a18, a19,
    a20, a21, a22, a23⟩ := s
  simp only at hcur hcon
  subst hcur hcon
  have hrun : (Statement.IfStatement i cond trueStatement none).accept
        ⟨a1, a2, a3, some c, a5, a6, a7, a8, a9, a10, a11, a12, a13,
          a14, a15, a16, a17, a18, some f, a20, a21, a22, a23⟩ =
      (Statement.IfStatement i cond trueStatement none).accept
        ⟨a1, a2, a3, some c, a5, a6, a7, a8, a9, a10, a11, a12, a13,
          a14, a15, a16, a17, a18, some f, a20, a21, a22, a23⟩ := rfl
  conv at hrun =>
    rhs
    rw [Statement.accept]
    unfold CHC.visitIfStatement
    unfold CHC.connectBlocks CHC.addRule
      CHC.setCurrentBlock CHC.createBlock CHC.sortNode CHC.sort CHC.predicateName
      CHC.createSymbolicBlock CHC.predicate CHC.currentBlockVariables
      CHC.currentFunctionVariables CHC.initialStateVariables CHC.stateVariablesAtIndex
      CHC.currentStateVariables CHC.clearIndices SMTEncoder.clearIndices SMTEncoder.expr
    simp only [Visitor.bind_assoc_run, Visitor.read_bind_run, Visitor.update_bind_run,
      Visitor.pure_bind_run, CHC.uniquePrefix_bind_run, Option.isSome_some,
      Visitor.solAssert_bind_run, Visitor.deref_bind_run, ↓reduceIte, Visitor.pure_run,
      Visitor.update_run, hfb, Bool.false_eq_true]
  obtain ⟨s2, hs2, hnext⟩ := Visitor.bind_run_split hrun
  clear hrun
  refine ⟨⟨?n0, ?s0, ?i0⟩, ⟨?n1, ?s1, ?i1⟩, ⟨?n2, ?s2, ?i2⟩, s2, ?vars, ?vars2, ?v0, ?calls,
    ?cur, ?v2, ?fl, ?tie, ?rest⟩
  case fl => rw [hs2]
  case cur => rw [hs2]; exact rfl
  case v2 => rw [hs2]; exact rfl
  case v0 => exact rfl
  case rest =>
    intro s3 hc
    have hb := (Expression.acceptExpression_frame cond).run_ok hc
    have hrun3 := hnext () s3 hc
    have h3f : s3.m_currentFunction = some f := by rw [hb.currentFunction, hs2]
    have h3c : s3.m_currentContract = some c := by rw [hb.currentContract, hs2]
    obtain ⟨b1, b2, b3, b4, b5, b6, b7, b8, b9, b10, b11, b12,
      b13, b14, b15, b16, b17, b18, b19, b20, b21, b22, b23⟩ := s3
    simp only at h3f h3c
    subst h3f h3c
    simp only [Visitor.bind_assoc_run, Visitor.read_bind_run, Visitor.update_bind_run,
      Visitor.pure_bind_run, CHC.uniquePrefix_bind_run, Option.isSome_some,
      Visitor.solAssert_bind_run, Visitor.deref_bind_run, ↓reduceIte, Visitor.pure_run,
      Visitor.update_run, hfb, Bool.false_eq_true] at hrun3
    obtain ⟨s4, hs4, hnext4⟩ := Visitor.bind_run_split hrun3
    refine ⟨s4, ?vars3, ?vars4, ?v3, ?calls4, ?cur4, ?v4, ?fl4, ?tie4, ?rest4⟩
    case fl4 => rw [hs4]
    case cur4 => rw [hs4]; exact rfl
    case v4 => rw [hs4]; exact rfl
    case v3 => exact rfl
    case rest4 =>
      intro s5 hc5
      have hb5 := (Statement.acceptStatement_frame trueStatement).run_ok hc5
      have hrun5 := hnext4 () s5 hc5
      have h5f : s5.m_currentFunction = some f := by rw [hb5.currentFunction, hs4]
      have h5c : s5.m_currentContract = some c := by rw [hb5.currentContract, hs4]
      obtain ⟨d1, d2, d3, d4, d5, d6, d7, d8, d9, d10, d11, d12,
        d13, d14, d15, d16, d17, d18, d19, d20, d21, d22, d23⟩ := s5
      simp only at h5f h5c
      subst h5f h5c
      simp only [Visitor.bind_assoc_run, Visitor.read_bind_run, Visitor.update_bind_run,
      Visitor.pure_bind_run, CHC.uniquePrefix_bind_run, Option.isSome_some,
      Visitor.solAssert_bind_run, Visitor.deref_bind_run, ↓reduceIte, Visitor.pure_run,
      Visitor.update_run, hfb, Bool.false_eq_true] at hrun5
      obtain ⟨sZ, hsZ, hnextZ⟩ := Visitor.bind_run_split hrun5
      refine ⟨sZ, ?varsy, ?varsz, ?run, ?vy, ?callsz, ?curz, ?flz, ?tiez⟩
      case run =>
        have hfZ : sZ.m_unknownFunctionCallSeen = d22 := by rw [hsZ]
        have hstep := CHC.leaveStatement_step sZ
        rw [hfZ] at hstep
        rw [hnextZ () _ hstep]
        unfold CHC.leaveStatement
        rw [hfZ]
        rfl
      case flz => rw [hsZ]
      case curz => rw [hsZ]; exact rfl
      case vy => exact rfl
      case callsz =>
        rw [hsZ]
        unfold CHC.edge
        simp only [smt.CHCSolverInterface.registerRelation, smt.CHCSolverInterface.addRule,
          List.append_assoc, List.singleton_append, List.cons_append, List.nil_append]
        first | done | exact rfl
      case tiez =>
        rw [hsZ]
        unfold CHC.setCurrentBlock CHC.predicate CHC.currentBlockVariables
          CHC.currentFunctionVariables CHC.initialStateVariables CHC.stateVariablesAtIndex
          CHC.currentStateVariables CHC.clearIndices SMTEncoder.clearIndices CHC.edge
        simp only [Visitor.bind_assoc_run, Visitor.read_bind_run, Visitor.update_bind_run,
          Visitor.pure_bind_run, Option.isSome_some,
          Visitor.solAssert_bind_run, Visitor.deref_bind_run, ↓reduceIte, Visitor.pure_run,
          Visitor.update_run, smt.CHCSolverInterface.registerRelation,
          smt.CHCSolverInterface.addRule, List.append_assoc, List.singleton_append, List.cons_append,
          List.nil_append]
        first | done | exact rfl
    case calls4 =>
      rw [hs4]
      unfold CHC.edge
      simp only [smt.CHCSolverInterface.registerRelation, smt.CHCSolverInterface.addRule,
        List.append_assoc, List.singleton_append, List.cons_append, List.nil_append]
      first | done | exact rfl
    case tie4 =>
      rw [hs4]
      unfold CHC.setCurrentBlock CHC.predicate CHC.currentBlockVariables
        CHC.currentFunctionVariables CHC.initialStateVariables CHC.stateVariablesAtIndex
        CHC.currentStateVariables CHC.clearIndices SMTEncoder.clearIndices CHC.edge
      simp only [Visitor.bind_assoc_run, Visitor.read_bind_run, Visitor.update_bind_run,
        Visitor.pure_bind_run, Option.isSome_some,
        Visitor.solAssert_bind_run, Visitor.deref_bind_run, ↓reduceIte, Visitor.pure_run,
        Visitor.update_run, smt.CHCSolverInterface.registerRelation,
        smt.CHCSolverInterface.addRule, List.append_assoc, List.singleton_append, List.cons_append,
        List.nil_append]
      first | done | exact rfl
  case calls =>
    rw [hs2]
    unfold CHC.edge
    simp only [smt.CHCSolverInterface.registerRelation, smt.CHCSolverInterface.addRule,
      List.append_assoc, List.singleton_append, List.cons_append, List.nil_append]
    first | done | exact rfl
  case tie =>
    rw [hs2]
    unfold CHC.setCurrentBlock CHC.predicate CHC.currentBlockVariables
      CHC.currentFunctionVariables CHC.initialStateVariables CHC.stateVariablesAtIndex
      CHC.currentStateVariables CHC.clearIndices SMTEncoder.clearIndices CHC.edge
    simp only [Visitor.bind_assoc_run, Visitor.read_bind_run, Visitor.update_bind_run,
      Visitor.pure_bind_run, Option.isSome_some,
      Visitor.solAssert_bind_run, Visitor.deref_bind_run, ↓reduceIte, Visitor.pure_run,
      Visitor.update_run, smt.CHCSolverInterface.registerRelation,
      smt.CHCSolverInterface.addRule, List.append_assoc, List.singleton_append, List.cons_append,
      List.nil_append]
    first | done | exact rfl

theorem CHC.visitIfStatement_steps_else (i : Nat) (cond : Expression)
    (trueStatement falseStatement : Statement)
    (s : CHC) (f : FunctionDefinition) (fb : Statement) (c : ContractDefinition)
    (hcur : s.m_currentFunction = some f) (hfb : f.body = some fb)
    (hcon : s.m_currentContract = some c) :
    ∃ (header trueBlock falseBlock after : smt.SymbolicFunctionVariable) (s2 : CHC)
      (vars vars2 : List smt.Expression),
      CHC.currentBlockVariables s = .ok vars s ∧
      s2.m_interface.calls = s.m_interface.calls ++
        [.registerRelation header.uniqueName header.index header.sort,
         .registerRelation trueBlock.uniqueName trueBlock.index trueBlock.sort,
         .registerRelation falseBlock.uniqueName falseBlock.index falseBlock.sort,
         .registerRelation after.uniqueName after.index after.sort,
         CHC.edge s.m_currentBlock s.m_context.assertions (.boolLit true) (header.app vars)] ∧
      s2.m_currentBlock = header.app vars2 ∧ CHC.currentBlockVariables s2 = .ok vars2 s2 ∧
      s2.m_unknownFunctionCallSeen = false ∧
      CHC.setCurrentBlock header none
        { s with
          m_interface := ⟨s.m_interface.calls ++
            [.registerRelation header.uniqueName header.index header.sort,
             .registerRelation trueBlock.uniqueName trueBlock.index trueBlock.sort,
             .registerRelation falseBlock.uniqueName falseBlock.index falseBlock.sort,
             .registerRelation after.uniqueName after.index after.sort,
             CHC.edge s.m_currentBlock s.m_context.assertions (.boolLit true)
               (header.app vars)], s.m_interface.answer⟩
          m_unknownFunctionCallSeen := false
          m_blockCounter := s.m_blockCounter + 4 } = .ok () s2 ∧
      ∀ s3, cond.accept s2 = .ok () s3 →
        ∃ (s4 : CHC) (vars3 vars4 : List smt.Expression),
          CHC.currentBlockVariables s3 = .ok vars3 s3 ∧
          s4.m_interface.calls = s3.m_interface.calls ++
            [CHC.edge s3.m_currentBlock s3.m_context.assertions
              (s3.m_context.expression cond.id).currentValue (trueBlock.app vars3),
             CHC.edge s3.m_currentBlock s3.m_context.assertions
              (s3.m_context.expression cond.id).currentValue.not (falseBlock.app vars3)] ∧
          s4.m_currentBlock = trueBlock.app vars4 ∧
          CHC.currentBlockVariables s4 = .ok vars4 s4 ∧
          s4.m_unknownFunctionCallSeen = s3.m_unknownFunctionCallSeen ∧
          CHC.setCurrentBlock trueBlock none
            { s3 with
              m_interface := ⟨s3.m_interface.calls ++
                [CHC.edge s3.m_currentBlock s3.m_context.assertions
                   (s3.m_context.expression cond.id).currentValue (trueBlock.app vars3),
                 CHC.edge s3.m_currentBlock s3.m_context.assertions
                   (s3.m_context.expression cond.id).currentValue.not (falseBlock.app vars3)], s3.m_interface.answer⟩ } = .ok () s4 ∧
          ∀ s5, trueStatement.accept s4 = .ok () s5 →
            ∃ (s6 : CHC) (vars5 vars6 : List smt.Expression),
              CHC.currentBlockVariables s5 = .ok vars5 s5 ∧
              s6.m_interface.calls = s5.m_interface.calls ++
                [CHC.edge s5.m_currentBlock s5.m_context.assertions (.boolLit true)
                  (after.app vars5)] ∧
              s6.m_currentBlock = falseBlock.app vars6 ∧
              CHC.currentBlockVariables s6 = .ok vars6 s6 ∧
              s6.m_unknownFunctionCallSeen = s5.m_unknownFunctionCallSeen ∧
              CHC.setCurrentBlock falseBlock none
                { s5 with
                  m_interface := ⟨s5.m_interface.calls ++
                    [CHC.edge s5.m_currentBlock s5.m_context.assertions (.boolLit true)
                       (after.app vars5)], s5.m_interface.answer⟩ } = .ok () s6 ∧
              ∀ s7, falseStatement.accept s6 = .ok () s7 →
                ∃ (s8 : CHC) (vars7 vars8 : List smt.Expression),
                  (Statement.IfStatement i cond trueStatement (some falseStatement)).accept s =
                    .ok () (CHC.leaveStatement s.m_unknownFunctionCallSeen s8) ∧
                  CHC.currentBlockVariables s7 = .ok vars7 s7 ∧
                  s8.m_interface.calls = s7.m_interface.calls ++
                    [CHC.edge s7.m_currentBlock s7.m_context.assertions (.boolLit true)
                      (after.app vars7)] ∧
                  s8.m_currentBlock = after.app vars8 ∧
                  s8.m_unknownFunctionCallSeen = s7.m_unknownFunctionCallSeen ∧
                  CHC.setCurrentBlock after none
                    { s7 with
                      m_interface := ⟨s7.m_interface.calls ++
                        [CHC.edge s7.m_currentBlock s7.m_context.assertions (.boolLit true)
                           (after.app vars7)], s7.m_interface.answer⟩ } = .ok () s8 := by
  obtain ⟨a1, a2, a3, a4, a5, a6, a7, a8, a9, a10, a11, a12, a13, a14, a15, a16, a17, a18, a19,
    a20, a21, a22, a23⟩ := s
  simp only at hcur hcon
  subst hcur hcon
  have hrun : (Statement.IfStatement i cond trueStatement (some falseStatement)).accept
        ⟨a1, a2, a3, some c, a5, a6, a7, a8, a9, a10, a11, a12, a13,
          a14, a15, a16, a17, a18, some f, a20, a21, a22, a23⟩ =
      (Statement.IfStatement i cond trueStatement (some falseStatement)).accept
        ⟨a1, a2, a3, some c, a5, a6, a7, a8, a9, a10, a11, a12, a13,
          a14, a15, a16, a17, a18, some f, a20, a21, a22, a23⟩ := rfl
  conv at hrun =>
    rhs
    rw [Statement.accept]
    unfold CHC.visitIfStatement
    unfold CHC.connectBlocks CHC.addRule
      CHC.setCurrentBlock CHC.createBlock CHC.sortNode CHC.sort CHC.predicateName
      CHC.createSymbolicBlock CHC.predicate CHC.currentBlockVariables
      CHC.currentFunctionVariables CHC.initialStateVariables CHC.stateVariablesAtIndex
      CHC.currentStateVariables CHC.clearIndices SMTEncoder.clearIndices SMTEncoder.expr
    simp only [Visitor.bind_assoc_run, Visitor.read_bind_run, Visitor.update_bind_run,
      Visitor.pure_bind_run, CHC.uniquePrefix_bind_run, Option.isSome_some,
      Visitor.solAssert_bind_run, Visitor.deref_bind_run, ↓reduceIte, Visitor.pure_run,
      Visitor.update_run, hfb, Bool.false_eq_true]
  obtain ⟨s2, hs2, hnext⟩ := Visitor.bind_run_split hrun
  clear hrun
  refine ⟨⟨?n0, ?s0, ?i0⟩, ⟨?n1, ?s1, ?i1⟩, ⟨?n2, ?s2, ?i2⟩, ⟨?n3, ?s3, ?i3⟩, s2, ?vars, ?vars2, ?v0, ?calls,
    ?cur, ?v2, ?fl, ?tie, ?rest⟩
  case fl => rw [hs2]
  case cur => rw [hs2]; exact rfl
  case v2 => rw [hs2]; exact rfl
  case v0 => exact rfl
  case rest =>
    intro s3 hc
    have hb := (Expression.acceptExpression_frame cond).run_ok hc
    have hrun3 := hnext () s3 hc
    have h3f : s3.m_currentFunction = some f := by rw [hb.currentFunction, hs2]
    have h3c : s3.m_currentContract = some c := by rw [hb.currentContract, hs2]
    obtain ⟨b1, b2, b3, b4, b5, b6, b7, b8, b9, b10, b11, b12,
      b13, b14, b15, b16, b17, b18, b19, b20, b21, b22, b23⟩ := s3
    simp only at h3f h3c
    subst h3f h3c
    simp only [Visitor.bind_assoc_run, Visitor.read_bind_run, Visitor.update_bind_run,
      Visitor.pure_bind_run, CHC.uniquePrefix_bind_run, Option.isSome_some,
      Visitor.solAssert_bind_run, Visitor.deref_bind_run, ↓reduceIte, Visitor.pure_run,
      Visitor.update_run, hfb, Bool.false_eq_true] at hrun3
    obtain ⟨s4, hs4, hnext4⟩ := Visitor.bind_run_split hrun3
    refine ⟨s4, ?vars3, ?vars4, ?v3, ?calls4, ?cur4, ?v4, ?fl4, ?tie4, ?rest4⟩
    case fl4 => rw [hs4]
    case cur4 => rw [hs4]; exact rfl
    case v4 => rw [hs4]; exact rfl
    case v3 => exact rfl
    case rest4 =>
      intro s5 hc5
      have hb5 := (Statement.acceptStatement_frame trueStatement).run_ok hc5
      have hrun5 := hnext4 () s5 hc5
      have h5f : s5.m_currentFunction = some f := by rw [hb5.currentFunction, hs4]
      have h5c : s5.m_currentContract = some c := by rw [hb5.currentContract, hs4]
      obtain ⟨d1, d2, d3, d4, d5, d6, d7, d8, d9, d10, d11, d12,
        d13, d14, d15, d16, d17, d18, d19, d20, d21, d22, d23⟩ := s5
      simp only at h5f h5c
      subst h5f h5c
      simp only [Visitor.bind_assoc_run, Visitor.read_bind_run, Visitor.update_bind_run,
      Visitor.pure_bind_run, CHC.uniquePrefix_bind_run, Option.isSome_some,
      Visitor.solAssert_bind_run, Visitor.deref_bind_run, ↓reduceIte, Visitor.pure_run,
      Visitor.update_run, hfb, Bool.false_eq_true] at hrun5
      obtain ⟨s6, hs6, hnext6⟩ := Visitor.bind_run_split hrun5
      refine ⟨s6, ?vars5, ?vars6, ?v5, ?calls6, ?cur6, ?v6, ?fl6, ?tie6, ?rest6⟩
      case fl6 => rw [hs6]
      case cur6 => rw [hs6]; exact rfl
      case v6 => rw [hs6]; exact rfl
      case v5 => exact rfl
      case rest6 =>
        intro s7 hc7
        have hb7 := (Statement.acceptStatement_frame falseStatement).run_ok hc7
        have hrun7 := hnext6 () s7 hc7
        have h7f : s7.m_currentFunction = some f := by rw [hb7.currentFunction, hs6]
        have h7c : s7.m_currentContract = some c := by rw [hb7.currentContract, hs6]
        obtain ⟨e1, e2, e3, e4, e5, e6, e7, e8, e9, e10, e11, e12,
          e13, e14, e15, e16, e17, e18, e19, e20, e21, e22, e23⟩ := s7
        simp only at h7f h7c
        subst h7f h7c
        simp only [Visitor.bind_assoc_run, Visitor.read_bind_run, Visitor.update_bind_run,
      Visitor.pure_bind_run, CHC.uniquePrefix_bind_run, Option.isSome_some,
      Visitor.solAssert_bind_run, Visitor.deref_bind_run, ↓reduceIte, Visitor.pure_run,
      Visitor.update_run, hfb, Bool.false_eq_true] at hrun7
        obtain ⟨sZ, hsZ, hnextZ⟩ := Visitor.bind_run_split hrun7
        refine ⟨sZ, ?varsy, ?varsz, ?run, ?vy, ?callsz, ?curz, ?flz, ?tiez⟩
        case run =>
          have hfZ : sZ.m_unknownFunctionCallSeen = e22 := by rw [hsZ]
          have hstep := CHC.leaveStatement_step sZ
          rw [hfZ] at hstep
          rw [hnextZ () _ hstep]
          unfold CHC.leaveStatement
          rw [hfZ]
          rfl
        case flz => rw [hsZ]
        case curz => rw [hsZ]; exact rfl
        case vy => exact rfl
        case callsz =>
          rw [hsZ]
          unfold CHC.edge
          simp only [smt.CHCSolverInterface.registerRelation, smt.CHCSolverInterface.addRule,
            List.append_assoc, List.singleton_append, List.cons_append, List.nil_append]
          first | done | exact rfl
        case tiez =>
          rw [hsZ]
          unfold CHC.setCurrentBlock CHC.predicate CHC.currentBlockVariables
            CHC.currentFunctionVariables CHC.initialStateVariables CHC.stateVariablesAtIndex
            CHC.currentStateVariables CHC.clearIndices SMTEncoder.clearIndices CHC.edge
          simp only [Visitor.bind_assoc_run, Visitor.read_bind_run, Visitor.update_bind_run,
            Visitor.pure_bind_run, Option.isSome_some,
            Visitor.solAssert_bind_run, Visitor.deref_bind_run, ↓reduceIte, Visitor.pure_run,
            Visitor.update_run, smt.CHCSolverInterface.registerRelation,
            smt.CHCSolverInterface.addRule, List.append_assoc, List.singleton_append, List.cons_append,
            List.nil_append]
          first | done | exact rfl
      case calls6 =>
        rw [hs6]
        unfold CHC.edge
        simp only [smt.CHCSolverInterface.registerRelation, smt.CHCSolverInterface.addRule,
          List.append_assoc, List.singleton_append, List.cons_append, List.nil_append]
        first | done | exact rfl
      case tie6 =>
        rw [hs6]
        unfold CHC.setCurrentBlock CHC.predicate CHC.currentBlockVariables
          CHC.currentFunctionVariables CHC.initialStateVariables CHC.stateVariablesAtIndex
          CHC.currentStateVariables CHC.clearIndices SMTEncoder.clearIndices CHC.edge
        simp only [Visitor.bind_assoc_run, Visitor.read_bind_run, Visitor.update_bind_run,
          Visitor.pure_bind_run, Option.isSome_some,
          Visitor.solAssert_bind_run, Visitor.deref_bind_run, ↓reduceIte, Visitor.pure_run,
          Visitor.update_run, smt.CHCSolverInterface.registerRelation,
          smt.CHCSolverInterface.addRule, List.append_assoc, List.singleton_append, List.cons_append,
          List.nil_append]
        first | done | exact rfl
    case calls4 =>
      rw [hs4]
      unfold CHC.edge
      simp only [smt.CHCSolverInterface.registerRelation, smt.CHCSolverInterface.addRule,
        List.append_assoc, List.singleton_append, List.cons_append, List.nil_append]
      first | done | exact rfl
    case tie4 =>
      rw [hs4]
      unfold CHC.setCurrentBlock CHC.predicate CHC.currentBlockVariables
        CHC.currentFunctionVariables CHC.initialStateVariables CHC.stateVariablesAtIndex
        CHC.currentStateVariables CHC.clearIndices SMTEncoder.clearIndices CHC.edge
      simp only [Visitor.bind_assoc_run, Visitor.read_bind_run, Visitor.update_bind_run,
        Visitor.pure_bind_run, Option.isSome_some,
        Visitor.solAssert_bind_run, Visitor.deref_bind_run, ↓reduceIte, Visitor.pure_run,
        Visitor.update_run, smt.CHCSolverInterface.registerRelation,
        smt.CHCSolverInterface.addRule, List.append_assoc, List.singleton_append, List.cons_append,
        List.nil_append]
      first | done | exact rfl
  case calls =>
    rw [hs2]
    unfold CHC.edge
    simp only [smt.CHCSolverInterface.registerRelation, smt.CHCSolverInterface.addRule,
      List.append_assoc, List.singleton_append, List.cons_append, List.nil_append]
    first | done | exact rfl
  case tie =>
    rw [hs2]
    unfold CHC.setCurrentBlock CHC.predicate CHC.currentBlockVariables
      CHC.currentFunctionVariables CHC.initialStateVariables CHC.stateVariablesAtIndex
      CHC.currentStateVariables CHC.clearIndices SMTEncoder.clearIndices CHC.edge
    simp only [Visitor.bind_assoc_run, Visitor.read_bind_run, Visitor.update_bind_run,
      Visitor.pure_bind_run, Option.isSome_some,
      Visitor.solAssert_bind_run, Visitor.deref_bind_run, ↓reduceIte, Visitor.pure_run,
      Visitor.update_run, smt.CHCSolverInterface.registerRelation,
      smt.CHCSolverInterface.addRule, List.append_assoc, List.singleton_append, List.cons_append,
      List.nil_append]
    first | done | exact rfl

set_option maxHeartbeats 1000000 in
theorem CHC.visitForStatement_steps (i : Nat) (init : Option Statement) (cond : Option Expression)
    (body : Statement)
    (s : CHC) (f : FunctionDefinition) (fb : Statement) (c : ContractDefinition)
    (hcur : s.m_currentFunction = some f) (hfb : f.body = some fb)
    (hcon : s.m_currentContract = some c) :
    ∃ (header bodyBlock after : smt.SymbolicFunctionVariable) (s1 : CHC),
      s1.m_interface.calls = s.m_interface.calls ++
        [.registerRelation header.uniqueName header.index header.sort,
         .registerRelation bodyBlock.uniqueName bodyBlock.index bodyBlock.sort,
         .registerRelation after.uniqueName after.index after.sort] ∧
      s1.m_currentBlock = s.m_currentBlock ∧
      s1.m_breakDest = some after ∧ s1.m_continueDest = some header ∧
      s1.m_unknownFunctionCallSeen = false ∧
      s1 =
        { s with
          m_interface := ⟨s.m_interface.calls ++
            [.registerRelation header.uniqueName header.index header.sort,
             .registerRelation bodyBlock.uniqueName bodyBlock.index bodyBlock.sort,
             .registerRelation after.uniqueName after.index after.sort], s.m_interface.answer⟩
          m_breakDest := some after
          m_continueDest := some header
          m_unknownFunctionCallSeen := false
          m_blockCounter := s.m_blockCounter + 3 } ∧
      ∀ s2, (init = none ∧ s2 = s1) ∨ (∃ st, init = some st ∧ st.accept s1 = .ok () s2) →
        ∃ (s3 : CHC) (vars2 vars3 : List smt.Expression),
          CHC.currentBlockVariables s2 = .ok vars2 s2 ∧
          s3.m_interface.calls = s2.m_interface.calls ++
            [CHC.edge s2.m_currentBlock s2.m_context.assertions (.boolLit true)
              (header.app vars2)] ∧
          s3.m_currentBlock = header.app vars3 ∧
          CHC.currentBlockVariables s3 = .ok vars3 s3 ∧
          s3.m_breakDest = some after ∧ s3.m_continueDest = some header ∧
          s3.m_unknownFunctionCallSeen = s2.m_unknownFunctionCallSeen ∧
          CHC.setCurrentBlock header none
            { s2 with
              m_interface := ⟨s2.m_interface.calls ++
                [CHC.edge s2.m_currentBlock s2.m_context.assertions (.boolLit true)
                   (header.app vars2)], s2.m_interface.answer⟩ } = .ok () s3 ∧
          ∀ condition s4,
            (cond = none ∧ condition = .boolLit true ∧ s4 = s3) ∨
              (∃ e, cond = some e ∧ e.accept s3 = .ok () s4 ∧
                condition = (s4.m_context.expression e.id).currentValue) →
            ∃ (s5 : CHC) (vars4 vars5 : List smt.Expression),
              CHC.currentBlockVariables s4 = .ok vars4 s4 ∧
              s5.m_interface.calls = s4.m_interface.calls ++
                [CHC.edge s4.m_currentBlock s4.m_context.assertions condition
                  (bodyBlock.app vars4),
                 CHC.edge s4.m_currentBlock s4.m_context.assertions condition.not
                  (after.app vars4)] ∧
              s5.m_currentBlock = bodyBlock.app vars5 ∧
              CHC.currentBlockVariables s5 = .ok vars5 s5 ∧
              s5.m_breakDest = some after ∧ s5.m_continueDest = some header ∧
              s5.m_unknownFunctionCallSeen = s4.m_unknownFunctionCallSeen ∧
              CHC.setCurrentBlock bodyBlock none
                { s4 with
                  m_interface := ⟨s4.m_interface.calls ++
                    [CHC.edge s4.m_currentBlock s4.m_context.assertions condition
                       (bodyBlock.app vars4),
                     CHC.edge s4.m_currentBlock s4.m_context.assertions condition.not
                       (after.app vars4)], s4.m_interface.answer⟩ } = .ok () s5 ∧
              ∀ s6, body.accept s5 = .ok () s6 →
                ∃ (s9 : CHC) (vars8 vars9 : List smt.Expression),
                  (Statement.ForStatement i init cond none body).accept s =
                    .ok () (CHC.leaveStatement s.m_unknownFunctionCallSeen s9) ∧
                  CHC.currentBlockVariables s6 = .ok vars8 s6 ∧
                  s9.m_interface.calls = s6.m_interface.calls ++
                    [CHC.edge s6.m_currentBlock s6.m_context.assertions (.boolLit true)
                      (header.app vars8)] ∧
                  s9.m_currentBlock = after.app vars9 ∧
                  s9.m_breakDest = s.m_breakDest ∧ s9.m_continueDest = s.m_continueDest ∧
                  s9.m_unknownFunctionCallSeen = s6.m_unknownFunctionCallSeen ∧
                  CHC.setCurrentBlock after none
                    { s6 with
                      m_interface := ⟨s6.m_interface.calls ++
                        [CHC.edge s6.m_currentBlock s6.m_context.assertions (.boolLit true)
                          (header.app vars8)], s6.m_interface.answer⟩
                      m_breakDest := s.m_breakDest
                      m_continueDest := s.m_continueDest } = .ok () s9 := by
  obtain ⟨a1, a2, a3, a4, a5, a6, a7, a8, a9, a10, a11, a12, a13, a14, a15, a16, a17, a18, a19,
    a20, a21, a22, a23⟩ := s
  simp only at hcur hcon
  subst hcur hcon
  cases init with
  | none =>
    have hrun : (Statement.ForStatement i none cond none body).accept
          ⟨a1, a2, a3, some c, a5, a6, a7, a8, a9, a10, a11, a12, a13,
            a14, a15, a16, a17, a18, some f, a20, a21, a22, a23⟩ =
        (Statement.ForStatement i none cond none body).accept
          ⟨a1, a2, a3, some c, a5, a6, a7, a8, a9, a10, a11, a12, a13,
            a14, a15, a16, a17, a18, some f, a20, a21, a22, a23⟩ := rfl
    conv at hrun =>
      rhs
      rw [Statement.accept]
      unfold CHC.visitForStatement
      unfold CHC.connectBlocks CHC.addRule
        CHC.setCurrentBlock CHC.createBlock CHC.sortNode CHC.sort CHC.predicateName
        CHC.createSymbolicBlock CHC.predicate CHC.currentBlockVariables
        CHC.currentFunctionVariables CHC.initialStateVariables CHC.stateVariablesAtIndex
        CHC.currentStateVariables CHC.clearIndices SMTEncoder.clearIndices SMTEncoder.expr
    generalize hm : (pure () : Visitor Unit) = m at hrun
    simp only [Visitor.bind_assoc_run, Visitor.read_bind_run, Visitor.update_bind_run,
        Visitor.pure_bind_run, CHC.uniquePrefix_bind_run, Option.isSome_some,
        Visitor.solAssert_bind_run, Visitor.deref_bind_run, ↓reduceIte, Visitor.pure_run,
        Visitor.update_run, hfb, Bool.false_eq_true] at hrun
    obtain ⟨s1, hs1, hnext⟩ := Visitor.bind_run_split hrun
    clear hrun
    subst hm
    refine ⟨⟨?n0, ?s0, ?i0⟩, ⟨?n1, ?s1, ?i1⟩, ⟨?n2, ?s2, ?i2⟩, s1, ?calls, ?cur, ?bd, ?cd, ?fl, ?tie, ?rest⟩
    case fl => rw [hs1]
    case bd => rw [hs1]; first | done | exact rfl
    case cd => rw [hs1]; first | done | exact rfl
    case cur => rw [hs1]
    case rest =>
      intro s2 hinit
      have hrun2 := hnext () s2 (by
        rcases hinit with ⟨h, h2⟩ | ⟨st1, h, h2⟩
        · rw [h2]
          rfl
        · cases h)
      have hb : BodyFrame s1 s2 := by
        rcases hinit with ⟨h, h2⟩ | ⟨st1, h, h2⟩
        · rw [h2]
          exact BodyFrame.bodyOrder.refl _
        · exact (Statement.acceptStatement_frame st1).run_ok h2
      have he : CHC.DestinationsAre s1.m_breakDest s1.m_continueDest s2 := by
        rcases hinit with ⟨h, h2⟩ | ⟨st1, h, h2⟩
        · rw [h2]
          exact ⟨rfl, rfl⟩
        · exact (Statement.acceptStatement_dests st1 _ _).run s1 () s2 ⟨rfl, rfl⟩ h2
      have h2f : s2.m_currentFunction = some f := by rw [hb.currentFunction, hs1]
      have h2c : s2.m_currentContract = some c := by rw [hb.currentContract, hs1]
      have h2bd := he.1
      have h2cd := he.2
      rw [hs1] at h2bd h2cd
      clear hb he hinit
      obtain ⟨b1, b2, b3, b4, b5, b6, b7, b8, b9, b10, b11, b12,
        b13, b14, b15, b16, b17, b18, b19, b20, b21, b22, b23⟩ := s2
      simp only at h2f h2c h2bd h2cd
      subst h2f h2c h2bd h2cd
      simp only [Visitor.bind_assoc_run, Visitor.read_bind_run, Visitor.update_bind_run,
        Visitor.pure_bind_run, CHC.uniquePrefix_bind_run, Option.isSome_some,
        Visitor.solAssert_bind_run, Visitor.deref_bind_run, ↓reduceIte, Visitor.pure_run,
        Visitor.update_run, hfb, Bool.false_eq_true] at hrun2
      obtain ⟨s3, hs3, hnext3⟩ := Visitor.bind_run_split hrun2
      refine ⟨s3, ?vars2, ?vars3, ?v2, ?calls3, ?cur3, ?v3, ?bd3, ?cd3, ?fl3, ?tie3, ?rest3⟩
      case fl3 => rw [hs3]
      case bd3 => rw [hs3]
      case cd3 => rw [hs3]
      case cur3 => rw [hs3]; exact rfl
      case v3 => rw [hs3]; exact rfl
      case v2 => exact rfl
      case rest3 =>
        intro condition s4 hcond
        have hrun4 := hnext3 condition s4 (by
          rcases hcond with ⟨h, h2, h3⟩ | ⟨e, h, h2, h3⟩
          · subst h h2 h3
            rfl
          · subst h h3
            simp only [Visitor.bind_run_ok _ _ _ _ _ h2, Visitor.read_run])
        have hb4 : BodyFrame s3 s4 := by
          rcases hcond with ⟨h, h2, h3⟩ | ⟨e, h, h2, h3⟩
          · rw [h3]
            exact BodyFrame.bodyOrder.refl _
          · exact (Expression.acceptExpression_frame e).run_ok h2
        have he4 : ExpressionFrame s3 s4 := by
          rcases hcond with ⟨h, h2, h3⟩ | ⟨e, h, h2, h3⟩
          · rw [h3]
            exact ExpressionFrame.walkOrder.refl _
          · exact (Expression.acceptExpression_walk e).run_ok h2
        have h4f : s4.m_currentFunction = some f := by rw [hb4.currentFunction, hs3]
        have h4c : s4.m_currentContract = some c := by rw [hb4.currentContract, hs3]
        have h4bd := he4.breakDest
        have h4cd := he4.continueDest
        rw [hs3] at h4bd h4cd
        clear hb4 he4 hcond
        obtain ⟨d1, d2, d3, d4, d5, d6, d7, d8, d9, d10, d11, d12,
          d13, d14, d15, d16, d17, d18, d19, d20, d21, d22, d23⟩ := s4
        simp only at h4f h4c h4bd h4cd
        subst h4f h4c h4bd h4cd
        simp only [Visitor.bind_assoc_run, Visitor.read_bind_run, Visitor.update_bind_run,
        Visitor.pure_bind_run, CHC.uniquePrefix_bind_run, Option.isSome_some,
        Visitor.solAssert_bind_run, Visitor.deref_bind_run, ↓reduceIte, Visitor.pure_run,
        Visitor.update_run, hfb, Bool.false_eq_true] at hrun4
        obtain ⟨s5, hs5, hnext5⟩ := Visitor.bind_run_split hrun4
        refine ⟨s5, ?vars4, ?vars5, ?v4, ?calls5, ?cur5, ?v5, ?bd5, ?cd5, ?fl5, ?tie5, ?rest5⟩
        case fl5 => rw [hs5]
        case bd5 => rw [hs5]
        case cd5 => rw [hs5]
        case cur5 => rw [hs5]; exact rfl
        case v5 => rw [hs5]; exact rfl
        case v4 => exact rfl
        case rest5 =>
          intro s6 hc6
          have hb6 := (Statement.acceptStatement_frame body).run_ok hc6
          have hrun6 := hnext5 () s6 hc6
          have hd6 := (Statement.acceptStatement_dests body _ _).run s5 () s6 ⟨rfl, rfl⟩ hc6
          have h6f : s6.m_currentFunction = some f := by rw [hb6.currentFunction, hs5]
          have h6c : s6.m_currentContract = some c := by rw [hb6.currentContract, hs5]
          have h6bd := hd6.1
          have h6cd := hd6.2
          rw [hs5] at h6bd h6cd
          clear hb6 hd6
          obtain ⟨e1, e2, e3, e4, e5, e6, e7, e8, e9, e10, e11, e12,
            e13, e14, e15, e16, e17, e18, e19, e20, e21, e22, e23⟩ := s6
          simp only at h6f h6c h6bd h6cd
          subst h6f h6c h6bd h6cd
          simp only [Visitor.bind_assoc_run, Visitor.read_bind_run, Visitor.update_bind_run,
        Visitor.pure_bind_run, CHC.uniquePrefix_bind_run, Option.isSome_some,
        Visitor.solAssert_bind_run, Visitor.deref_bind_run, ↓reduceIte, Visitor.pure_run,
        Visitor.update_run, hfb, Bool.false_eq_true] at hrun6
          obtain ⟨sZ, hsZ, hnextZ⟩ := Visitor.bind_run_split hrun6
          refine ⟨sZ, ?varsy, ?varsz, ?run, ?vy, ?callsz, ?curz, ?bdz, ?cdz, ?flz, ?tiez⟩
          case run =>
            have hfZ : sZ.m_unknownFunctionCallSeen = e22 := by rw [hsZ]
            have hstep := CHC.leaveStatement_step sZ
            rw [hfZ] at hstep
            rw [hnextZ () _ hstep]
            unfold CHC.leaveStatement
            rw [hfZ]
            rfl
          case flz => rw [hsZ]
          case bdz => rw [hsZ]
          case cdz => rw [hsZ]
          case curz => rw [hsZ]; exact rfl
          case vy => exact rfl
          case callsz =>
            rw [hsZ]
            unfold CHC.edge
            simp only [smt.CHCSolverInterface.registerRelation, smt.CHCSolverInterface.addRule,
              List.append_assoc, List.singleton_append, List.cons_append, List.nil_append]
            first | done | exact rfl
          case tiez =>
            rw [hsZ]
            unfold CHC.setCurrentBlock CHC.predicate CHC.currentBlockVariables
              CHC.currentFunctionVariables CHC.initialStateVariables CHC.stateVariablesAtIndex
              CHC.currentStateVariables CHC.clearIndices SMTEncoder.clearIndices CHC.edge
            simp only [Visitor.bind_assoc_run, Visitor.read_bind_run, Visitor.update_bind_run,
              Visitor.pure_bind_run, Option.isSome_some,
              Visitor.solAssert_bind_run, Visitor.deref_bind_run, ↓reduceIte, Visitor.pure_run,
              Visitor.update_run, smt.CHCSolverInterface.registerRelation,
              smt.CHCSolverInterface.addRule, List.append_assoc, List.singleton_append, List.cons_append,
              List.nil_append]
            first | done | exact rfl
        case calls5 =>
          rw [hs5]
          unfold CHC.edge
          simp only [smt.CHCSolverInterface.registerRelation, smt.CHCSolverInterface.addRule,
            List.append_assoc, List.singleton_append, List.cons_append, List.nil_append]
          first | done | exact rfl
        case tie5 =>
          rw [hs5]
          unfold CHC.setCurrentBlock CHC.predicate CHC.currentBlockVariables
            CHC.currentFunctionVariables CHC.initialStateVariables CHC.stateVariablesAtIndex
            CHC.currentStateVariables CHC.clearIndices SMTEncoder.clearIndices CHC.edge
          simp only [Visitor.bind_assoc_run, Visitor.read_bind_run, Visitor.update_bind_run,
            Visitor.pure_bind_run, Option.isSome_some,
            Visitor.solAssert_bind_run, Visitor.deref_bind_run, ↓reduceIte, Visitor.pure_run,
            Visitor.update_run, smt.CHCSolverInterface.registerRelation,
            smt.CHCSolverInterface.addRule, List.append_assoc, List.singleton_append, List.cons_append,
            List.nil_append]
          first | done | exact rfl
      case calls3 =>
        rw [hs3]
        unfold CHC.edge
        simp only [smt.CHCSolverInterface.registerRelation, smt.CHCSolverInterface.addRule,
          List.append_assoc, List.singleton_append, List.cons_append, List.nil_append]
        first | done | exact rfl
      case tie3 =>
        rw [hs3]
        unfold CHC.setCurrentBlock CHC.predicate CHC.currentBlockVariables
          CHC.currentFunctionVariables CHC.initialStateVariables CHC.stateVariablesAtIndex
          CHC.currentStateVariables CHC.clearIndices SMTEncoder.clearIndices CHC.edge
        simp only [Visitor.bind_assoc_run, Visitor.read_bind_run, Visitor.update_bind_run,
          Visitor.pure_bind_run, Option.isSome_some,
          Visitor.solAssert_bind_run, Visitor.deref_bind_run, ↓reduceIte, Visitor.pure_run,
          Visitor.update_run, smt.CHCSolverInterface.registerRelation,
          smt.CHCSolverInterface.addRule, List.append_assoc, List.singleton_append, List.cons_append,
          List.nil_append]
        first | done | exact rfl
    case calls =>
      rw [hs1]
      simp only [smt.CHCSolverInterface.registerRelation, smt.CHCSolverInterface.addRule,
        List.append_assoc, List.singleton_append, List.cons_append, List.nil_append]
      first | done | exact rfl
    case tie =>
      rw [hs1]
      simp only [smt.CHCSolverInterface.registerRelation, smt.CHCSolverInterface.addRule,
        List.append_assoc, List.singleton_append, List.cons_append, List.nil_append]
      first | done | exact rfl
  | some st =>
    have hrun : (Statement.ForStatement i (some st) cond none body).accept
          ⟨a1, a2, a3, some c, a5, a6, a7, a8, a9, a10, a11, a12, a13,
            a14, a15, a16, a17, a18, some f, a20, a21, a22, a23⟩ =
        (Statement.ForStatement i (some st) cond none body).accept
          ⟨a1, a2, a3, some c, a5, a6, a7, a8, a9, a10, a11, a12, a13,
            a14, a15, a16, a17, a18, some f, a20, a21, a22, a23⟩ := rfl
    conv at hrun =>
      rhs
      rw [Statement.accept]
      unfold CHC.visitForStatement
      unfold CHC.connectBlocks CHC.addRule
        CHC.setCurrentBlock CHC.createBlock CHC.sortNode CHC.sort CHC.predicateName
        CHC.createSymbolicBlock CHC.predicate CHC.currentBlockVariables
        CHC.currentFunctionVariables CHC.initialStateVariables CHC.stateVariablesAtIndex
        CHC.currentStateVariables CHC.clearIndices SMTEncoder.clearIndices SMTEncoder.expr
    generalize hm : Statement.accept st = m at hrun
    simp only [Visitor.bind_assoc_run, Visitor.read_bind_run, Visitor.update_bind_run,
        Visitor.pure_bind_run, CHC.uniquePrefix_bind_run, Option.isSome_some,
        Visitor.solAssert_bind_run, Visitor.deref_bind_run, ↓reduceIte, Visitor.pure_run,
        Visitor.update_run, hfb, Bool.false_eq_true] at hrun
    obtain ⟨s1, hs1, hnext⟩ := Visitor.bind_run_split hrun
    clear hrun
    subst hm
    refine ⟨⟨?n0x, ?s0x, ?i0x⟩, ⟨?n1x, ?s1x, ?i1x⟩, ⟨?n2x, ?s2x, ?i2x⟩, s1, ?callsx, ?curx, ?bdx, ?cdx, ?flx, ?tiex, ?restx⟩
    case flx => rw [hs1]
    case bdx => rw [hs1]; first | done | exact rfl
    case cdx => rw [hs1]; first | done | exact rfl
    case curx => rw [hs1]
    case restx =>
      intro s2 hinit
      have hrun2 := hnext () s2 (by
        rcases hinit with ⟨h, h2⟩ | ⟨st1, h, h2⟩
        · cases h
        · cases h
          exact h2)
      have hb : BodyFrame s1 s2 := by
        rcases hinit with ⟨h, h2⟩ | ⟨st1, h, h2⟩
        · rw [h2]
          exact BodyFrame.bodyOrder.refl _
        · exact (Statement.acceptStatement_frame st1).run_ok h2
      have he : CHC.DestinationsAre s1.m_breakDest s1.m_continueDest s2 := by
        rcases hinit with ⟨h, h2⟩ | ⟨st1, h, h2⟩
        · rw [h2]
          exact ⟨rfl, rfl⟩
        · exact (Statement.acceptStatement_dests st1 _ _).run s1 () s2 ⟨rfl, rfl⟩ h2
      have h2f : s2.m_currentFunction = some f := by rw [hb.currentFunction, hs1]
      have h2c : s2.m_currentContract = some c := by rw [hb.currentContract, hs1]
      have h2bd := he.1
      have h2cd := he.2
      rw [hs1] at h2bd h2cd
      clear hb he hinit
      obtain ⟨b1, b2, b3, b4, b5, b6, b7, b8, b9, b10, b11, b12,
        b13, b14, b15, b16, b17, b18, b19, b20, b21, b22, b23⟩ := s2
      simp only at h2f h2c h2bd h2cd
      subst h2f h2c h2bd h2cd
      simp only [Visitor.bind_assoc_run, Visitor.read_bind_run, Visitor.update_bind_run,
        Visitor.pure_bind_run, CHC.uniquePrefix_bind_run, Option.isSome_some,
        Visitor.solAssert_bind_run, Visitor.deref_bind_run, ↓reduceIte, Visitor.pure_run,
        Visitor.update_run, hfb, Bool.false_eq_true] at hrun2
      obtain ⟨s3, hs3, hnext3⟩ := Visitor.bind_run_split hrun2
      refine ⟨s3, ?vars2x, ?vars3x, ?v2x, ?calls3x, ?cur3x, ?v3x, ?bd3x, ?cd3x, ?fl3x, ?tie3x, ?rest3x⟩
      case fl3x => rw [hs3]
      case bd3x => rw [hs3]
      case cd3x => rw [hs3]
      case cur3x => rw [hs3]; exact rfl
      case v3x => rw [hs3]; exact rfl
      case v2x => exact rfl
      case rest3x =>
        intro condition s4 hcond
        have hrun4 := hnext3 condition s4 (by
          rcases hcond with ⟨h, h2, h3⟩ | ⟨e, h, h2, h3⟩
          · subst h h2 h3
            rfl
          · subst h h3
            simp only [Visitor.bind_run_ok _ _ _ _ _ h2, Visitor.read_run])
        have hb4 : BodyFrame s3 s4 := by
          rcases hcond with ⟨h, h2, h3⟩ | ⟨e, h, h2, h3⟩
          · rw [h3]
            exact BodyFrame.bodyOrder.refl _
          · exact (Expression.acceptExpression_frame e).run_ok h2
        have he4 : ExpressionFrame s3 s4 := by
          rcases hcond with ⟨h, h2, h3⟩ | ⟨e, h, h2, h3⟩
          · rw [h3]
            exact ExpressionFrame.walkOrder.refl _
          · exact (Expression.acceptExpression_walk e).run_ok h2
        have h4f : s4.m_currentFunction = some f := by rw [hb4.currentFunction, hs3]
        have h4c : s4.m_currentContract = some c := by rw [hb4.currentContract, hs3]
        have h4bd := he4.breakDest
        have h4cd := he4.continueDest
        rw [hs3] at h4bd h4cd
        clear hb4 he4 hcond
        obtain ⟨d1, d2, d3, d4, d5, d6, d7, d8, d9, d10, d11, d12,
          d13, d14, d15, d16, d17, d18, d19, d20, d21, d22, d23⟩ := s4
        simp only at h4f h4c h4bd h4cd
        subst h4f h4c h4bd h4cd
        simp only [Visitor.bind_assoc_run, Visitor.read_bind_run, Visitor.update_bind_run,
        Visitor.pure_bind_run, CHC.uniquePrefix_bind_run, Option.isSome_some,
        Visitor.solAssert_bind_run, Visitor.deref_bind_run, ↓reduceIte, Visitor.pure_run,
        Visitor.update_run, hfb, Bool.false_eq_true] at hrun4
        obtain ⟨s5, hs5, hnext5⟩ := Visitor.bind_run_split hrun4
        refine ⟨s5, ?vars4x, ?vars5x, ?v4x, ?calls5x, ?cur5x, ?v5x, ?bd5x, ?cd5x, ?fl5x, ?tie5x, ?rest5x⟩
        case fl5x => rw [hs5]
        case bd5x => rw [hs5]
        case cd5x => rw [hs5]
        case cur5x => rw [hs5]; exact rfl
        case v5x => rw [hs5]; exact rfl
        case v4x => exact rfl
        case rest5x =>
          intro s6 hc6
          have hb6 := (Statement.acceptStatement_frame body).run_ok hc6
          have hrun6 := hnext5 () s6 hc6
          have hd6 := (Statement.acceptStatement_dests body _ _).run s5 () s6 ⟨rfl, rfl⟩ hc6
          have h6f : s6.m_currentFunction = some f := by rw [hb6.currentFunction, hs5]
          have h6c : s6.m_currentContract = some c := by rw [hb6.currentContract, hs5]
          have h6bd := hd6.1
          have h6cd := hd6.2
          rw [hs5] at h6bd h6cd
          clear hb6 hd6
          obtain ⟨e1, e2, e3, e4, e5, e6, e7, e8, e9, e10, e11, e12,
            e13, e14, e15, e16, e17, e18, e19, e20, e21, e22, e23⟩ := s6
          simp only at h6f h6c h6bd h6cd
          subst h6f h6c h6bd h6cd
          simp only [Visitor.bind_assoc_run, Visitor.read_bind_run, Visitor.update_bind_run,
        Visitor.pure_bind_run, CHC.uniquePrefix_bind_run, Option.isSome_some,
        Visitor.solAssert_bind_run, Visitor.deref_bind_run, ↓reduceIte, Visitor.pure_run,
        Visitor.update_run, hfb, Bool.false_eq_true] at hrun6
          obtain ⟨sZ, hsZ, hnextZ⟩ := Visitor.bind_run_split hrun6
          refine ⟨sZ, ?varsyx, ?varszx, ?runx, ?vyx, ?callszx, ?curzx, ?bdzx, ?cdzx, ?flzx, ?tiezx⟩
          case runx =>
            have hfZ : sZ.m_unknownFunctionCallSeen = e22 := by rw [hsZ]
            have hstep := CHC.leaveStatement_step sZ
            rw [hfZ] at hstep
            rw [hnextZ () _ hstep]
            unfold CHC.leaveStatement
            rw [hfZ]
            rfl
          case flzx => rw [hsZ]
          case bdzx => rw [hsZ]
          case cdzx => rw [hsZ]
          case curzx => rw [hsZ]; exact rfl
          case vyx => exact rfl
          case callszx =>
            rw [hsZ]
            unfold CHC.edge
            simp only [smt.CHCSolverInterface.registerRelation, smt.CHCSolverInterface.addRule,
              List.append_assoc, List.singleton_append, List.cons_append, List.nil_append]
            first | done | exact rfl
          case tiezx =>
            rw [hsZ]
            unfold CHC.setCurrentBlock CHC.predicate CHC.currentBlockVariables
              CHC.currentFunctionVariables CHC.initialStateVariables CHC.stateVariablesAtIndex
              CHC.currentStateVariables CHC.clearIndices SMTEncoder.clearIndices CHC.edge
            simp only [Visitor.bind_assoc_run, Visitor.read_bind_run, Visitor.update_bind_run,
              Visitor.pure_bind_run, Option.isSome_some,
              Visitor.solAssert_bind_run, Visitor.deref_bind_run, ↓reduceIte, Visitor.pure_run,
              Visitor.update_run, smt.CHCSolverInterface.registerRelation,
              smt.CHCSolverInterface.addRule, List.append_assoc, List.singleton_append, List.cons_append,
              List.nil_append]
            first | done | exact rfl
        case calls5x =>
          rw [hs5]
          unfold CHC.edge
          simp only [smt.CHCSolverInterface.registerRelation, smt.CHCSolverInterface.addRule,
            List.append_assoc, List.singleton_append, List.cons_append, List.nil_append]
          first | done | exact rfl
        case tie5x =>
          rw [hs5]
          unfold CHC.setCurrentBlock CHC.predicate CHC.currentBlockVariables
            CHC.currentFunctionVariables CHC.initialStateVariables CHC.stateVariablesAtIndex
            CHC.currentStateVariables CHC.clearIndices SMTEncoder.clearIndices CHC.edge
          simp only [Visitor.bind_assoc_run, Visitor.read_bind_run, Visitor.update_bind_run,
            Visitor.pure_bind_run, Option.isSome_some,
            Visitor.solAssert_bind_run, Visitor.deref_bind_run, ↓reduceIte, Visitor.pure_run,
            Visitor.update_run, smt.CHCSolverInterface.registerRelation,
            smt.CHCSolverInterface.addRule, List.append_assoc, List.singleton_append, List.cons_append,
            List.nil_append]
          first | done | exact rfl
      case calls3x =>
        rw [hs3]
        unfold CHC.edge
        simp only [smt.CHCSolverInterface.registerRelation, smt.CHCSolverInterface.addRule,
          List.append_assoc, List.singleton_append, List.cons_append, List.nil_append]
        first | done | exact rfl
      case tie3x =>
        rw [hs3]
        unfold CHC.setCurrentBlock CHC.predicate CHC.currentBlockVariables
          CHC.currentFunctionVariables CHC.initialStateVariables CHC.stateVariablesAtIndex
          CHC.currentStateVariables CHC.clearIndices SMTEncoder.clearIndices CHC.edge
        simp only [Visitor.bind_assoc_run, Visitor.read_bind_run, Visitor.update_bind_run,
          Visitor.pure_bind_run, Option.isSome_some,
          Visitor.solAssert_bind_run, Visitor.deref_bind_run, ↓reduceIte, Visitor.pure_run,
          Visitor.update_run, smt.CHCSolverInterface.registerRelation,
          smt.CHCSolverInterface.addRule, List.append_assoc, List.singleton_append, List.cons_append,
          List.nil_append]
        first | done | exact rfl
    case callsx =>
      rw [hs1]
      simp only [smt.CHCSolverInterface.registerRelation, smt.CHCSolverInterface.addRule,
        List.append_assoc, List.singleton_append, List.cons_append, List.nil_append]
      first | done | exact rfl
    case tiex =>
      rw [hs1]
      simp only [smt.CHCSolverInterface.registerRelation, smt.CHCSolverInterface.addRule,
        List.append_assoc, List.singleton_append, List.cons_append, List.nil_append]
      first | done | exact rfl

set_option maxHeartbeats 1000000 in
theorem CHC.visitForStatement_steps_post (i : Nat) (init : Option Statement) (cond : Option Expression)
    (postLoop body : Statement)
    (s : CHC) (f : FunctionDefinition) (fb : Statement) (c : ContractDefinition)
    (hcur : s.m_currentFunction = some f) (hfb : f.body = some fb)
    (hcon : s.m_currentContract = some c) :
    ∃ (header bodyBlock after postBlock : smt.SymbolicFunctionVariable) (s1 : CHC),
      s1.m_interface.calls = s.m_interface.calls ++
        [.registerRelation header.uniqueName header.index header.sort,
         .registerRelation bodyBlock.uniqueName bodyBlock.index bodyBlock.sort,
         .registerRelation after.uniqueName after.index after.sort,
         .registerRelation postBlock.uniqueName postBlock.index postBlock.sort] ∧
      s1.m_currentBlock = s.m_currentBlock ∧
      s1.m_breakDest = some after ∧ s1.m_continueDest = some postBlock ∧
      s1.m_unknownFunctionCallSeen = false ∧
      s1 =
        { s with
          m_interface := ⟨s.m_interface.calls ++
            [.registerRelation header.uniqueName header.index header.sort,
             .registerRelation bodyBlock.uniqueName bodyBlock.index bodyBlock.sort,
             .registerRelation after.uniqueName after.index after.sort,
             .registerRelation postBlock.uniqueName postBlock.index postBlock.sort], s.m_interface.answer⟩
          m_breakDest := some after
          m_continueDest := some postBlock
          m_unknownFunctionCallSeen := false
          m_blockCounter := s.m_blockCounter + 4 } ∧
      ∀ s2, (init = none ∧ s2 = s1) ∨ (∃ st, init = some st ∧ st.accept s1 = .ok () s2) →
        ∃ (s3 : CHC) (vars2 vars3 : List smt.Expression),
          CHC.currentBlockVariables s2 = .ok vars2 s2 ∧
          s3.m_interface.calls = s2.m_interface.calls ++
            [CHC.edge s2.m_currentBlock s2.m_context.assertions (.boolLit true)
              (header.app vars2)] ∧
          s3.m_currentBlock = header.app vars3 ∧
          CHC.currentBlockVariables s3 = .ok vars3 s3 ∧
          s3.m_breakDest = some after ∧ s3.m_continueDest = some postBlock ∧
          s3.m_unknownFunctionCallSeen = s2.m_unknownFunctionCallSeen ∧
          CHC.setCurrentBlock header none
            { s2 with
              m_interface := ⟨s2.m_interface.calls ++
                [CHC.edge s2.m_currentBlock s2.m_context.assertions (.boolLit true)
                   (header.app vars2)], s2.m_interface.answer⟩ } = .ok () s3 ∧
          ∀ condition s4,
            (cond = none ∧ condition = .boolLit true ∧ s4 = s3) ∨
              (∃ e, cond = some e ∧ e.accept s3 = .ok () s4 ∧
                condition = (s4.m_context.expression e.id).currentValue) →
            ∃ (s5 : CHC) (vars4 vars5 : List smt.Expression),
              CHC.currentBlockVariables s4 = .ok vars4 s4 ∧
              s5.m_interface.calls = s4.m_interface.calls ++
                [CHC.edge s4.m_currentBlock s4.m_context.assertions condition
                  (bodyBlock.app vars4),
                 CHC.edge s4.m_currentBlock s4.m_context.assertions condition.not
                  (after.app vars4)] ∧
              s5.m_currentBlock = bodyBlock.app vars5 ∧
              CHC.currentBlockVariables s5 = .ok vars5 s5 ∧
              s5.m_breakDest = some after ∧ s5.m_continueDest = some postBlock ∧
              s5.m_unknownFunctionCallSeen = s4.m_unknownFunctionCallSeen ∧
              CHC.setCurrentBlock bodyBlock none
                { s4 with
                  m_interface := ⟨s4.m_interface.calls ++
                    [CHC.edge s4.m_currentBlock s4.m_context.assertions condition
                       (bodyBlock.app vars4),
                     CHC.edge s4.m_currentBlock s4.m_context.assertions condition.not
                       (after.app vars4)], s4.m_interface.answer⟩ } = .ok () s5 ∧
              ∀ s6, body.accept s5 = .ok () s6 →
                ∃ (s7 : CHC) (vars6 vars7 : List smt.Expression),
                  CHC.currentBlockVariables s6 = .ok vars6 s6 ∧
                  s7.m_interface.calls = s6.m_interface.calls ++
                    [CHC.edge s6.m_currentBlock s6.m_context.assertions (.boolLit true)
                      (postBlock.app vars6)] ∧
                  s7.m_currentBlock = postBlock.app vars7 ∧
                  CHC.currentBlockVariables s7 = .ok vars7 s7 ∧
                  s7.m_breakDest = some after ∧ s7.m_continueDest = some postBlock ∧
                  s7.m_unknownFunctionCallSeen = s6.m_unknownFunctionCallSeen ∧
                  CHC.setCurrentBlock postBlock none
                    { s6 with
                      m_interface := ⟨s6.m_interface.calls ++
                        [CHC.edge s6.m_currentBlock s6.m_context.assertions (.boolLit true)
                           (postBlock.app vars6)], s6.m_interface.answer⟩ } = .ok () s7 ∧
                  ∀ s8, postLoop.accept s7 = .ok () s8 →
                    ∃ (s9 : CHC) (vars8 vars9 : List smt.Expression),
                      (Statement.ForStatement i init cond (some postLoop) body).accept s =
                        .ok () (CHC.leaveStatement s.m_unknownFunctionCallSeen s9) ∧
                      CHC.currentBlockVariables s8 = .ok vars8 s8 ∧
                      s9.m_interface.calls = s8.m_interface.calls ++
                        [CHC.edge s8.m_currentBlock s8.m_context.assertions (.boolLit true)
                          (header.app vars8)] ∧
                      s9.m_currentBlock = after.app vars9 ∧
                      s9.m_breakDest = s.m_breakDest ∧ s9.m_continueDest = s.m_continueDest ∧
                      s9.m_unknownFunctionCallSeen = s8.m_unknownFunctionCallSeen ∧
                      CHC.setCurrentBlock after none
                        { s8 with
                          m_interface := ⟨s8.m_interface.calls ++
                            [CHC.edge s8.m_currentBlock s8.m_context.assertions (.boolLit true)
                              (header.app vars8)], s8.m_interface.answer⟩
                          m_breakDest := s.m_breakDest
                          m_continueDest := s.m_continueDest } = .ok () s9 := by
  obtain ⟨a1, a2, a3, a4, a5, a6, a7, a8, a9, a10, a11, a12, a13, a14, a15, a16, a17, a18, a19,
    a20, a21, a22, a23⟩ := s
  simp only at hcur hcon
  subst hcur hcon
  cases init with
  | none =>
    have hrun : (Statement.ForStatement i none cond (some postLoop) body).accept
          ⟨a1, a2, a3, some c, a5, a6, a7, a8, a9, a10, a11, a12, a13,
            a14, a15, a16, a17, a18, some f, a20, a21, a22, a23⟩ =
        (Statement.ForStatement i none cond (some postLoop) body).accept
          ⟨a1, a2, a3, some c, a5, a6, a7, a8, a9, a10, a11, a12, a13,
            a14, a15, a16, a17, a18, some f, a20, a21, a22, a23⟩ := rfl
    conv at hrun =>
      rhs
      rw [Statement.accept]
      unfold CHC.visitForStatement
      unfold CHC.connectBlocks CHC.addRule
        CHC.setCurrentBlock CHC.createBlock CHC.sortNode CHC.sort CHC.predicateName
        CHC.createSymbolicBlock CHC.predicate CHC.currentBlockVariables
        CHC.currentFunctionVariables CHC.initialStateVariables CHC.stateVariablesAtIndex
        CHC.currentStateVariables CHC.clearIndices SMTEncoder.clearIndices SMTEncoder.expr
    generalize hm : (pure () : Visitor Unit) = m at hrun
    simp only [Visitor.bind_assoc_run, Visitor.read_bind_run, Visitor.update_bind_run,
        Visitor.pure_bind_run, CHC.uniquePrefix_bind_run, Option.isSome_some,
        Visitor.solAssert_bind_run, Visitor.deref_bind_run, ↓reduceIte, Visitor.pure_run,
        Visitor.update_run, hfb, Bool.false_eq_true] at hrun
    obtain ⟨s1, hs1, hnext⟩ := Visitor.bind_run_split hrun
    clear hrun
    subst hm
    refine ⟨⟨?n0, ?s0, ?i0⟩, ⟨?n1, ?s1, ?i1⟩, ⟨?n2, ?s2, ?i2⟩, ⟨?n3, ?s3, ?i3⟩, s1, ?calls, ?cur, ?bd, ?cd, ?fl, ?tie, ?rest⟩
    case fl => rw [hs1]
    case bd => rw [hs1]; first | done | exact rfl
    case cd => rw [hs1]; first | done | exact rfl
    case cur => rw [hs1]
    case rest =>
      intro s2 hinit
      have hrun2 := hnext () s2 (by
        rcases hinit with ⟨h, h2⟩ | ⟨st1, h, h2⟩
        · rw [h2]
          rfl
        · cases h)
      have hb : BodyFrame s1 s2 := by
        rcases hinit with ⟨h, h2⟩ | ⟨st1, h, h2⟩
        · rw [h2]
          exact BodyFrame.bodyOrder.refl _
        · exact (Statement.acceptStatement_frame st1).run_ok h2
      have he : CHC.DestinationsAre s1.m_breakDest s1.m_continueDest s2 := by
        rcases hinit with ⟨h, h2⟩ | ⟨st1, h, h2⟩
        · rw [h2]
          exact ⟨rfl, rfl⟩
        · exact (Statement.acceptStatement_dests st1 _ _).run s1 () s2 ⟨rfl, rfl⟩ h2
      have h2f : s2.m_currentFunction = some f := by rw [hb.currentFunction, hs1]
      have h2c : s2.m_currentContract = some c := by rw [hb.currentContract, hs1]
      have h2bd := he.1
      have h2cd := he.2
      rw [hs1] at h2bd h2cd
      clear hb he hinit
      obtain ⟨b1, b2, b3, b4, b5, b6, b7, b8, b9, b10, b11, b12,
        b13, b14, b15, b16, b17, b18, b19, b20, b21, b22, b23⟩ := s2
      simp only at h2f h2c h2bd h2cd
      subst h2f h2c h2bd h2cd
      simp only [Visitor.bind_assoc_run, Visitor.read_bind_run, Visitor.update_bind_run,
        Visitor.pure_bind_run, CHC.uniquePrefix_bind_run, Option.isSome_some,
        Visitor.solAssert_bind_run, Visitor.deref_bind_run, ↓reduceIte, Visitor.pure_run,
        Visitor.update_run, hfb, Bool.false_eq_true] at hrun2
      obtain ⟨s3, hs3, hnext3⟩ := Visitor.bind_run_split hrun2
      refine ⟨s3, ?vars2, ?vars3, ?v2, ?calls3, ?cur3, ?v3, ?bd3, ?cd3, ?fl3, ?tie3, ?rest3⟩
      case fl3 => rw [hs3]
      case bd3 => rw [hs3]
      case cd3 => rw [hs3]
      case cur3 => rw [hs3]; exact rfl
      case v3 => rw [hs3]; exact rfl
      case v2 => exact rfl
      case rest3 =>
        intro condition s4 hcond
        have hrun4 := hnext3 condition s4 (by
          rcases hcond with ⟨h, h2, h3⟩ | ⟨e, h, h2, h3⟩
          · subst h h2 h3
            rfl
          · subst h h3
            simp only [Visitor.bind_run_ok _ _ _ _ _ h2, Visitor.read_run])
        have hb4 : BodyFrame s3 s4 := by
          rcases hcond with ⟨h, h2, h3⟩ | ⟨e, h, h2, h3⟩
          · rw [h3]
            exact BodyFrame.bodyOrder.refl _
          · exact (Expression.acceptExpression_frame e).run_ok h2
        have he4 : ExpressionFrame s3 s4 := by
          rcases hcond with ⟨h, h2, h3⟩ | ⟨e, h, h2, h3⟩
          · rw [h3]
            exact ExpressionFrame.walkOrder.refl _
          · exact (Expression.acceptExpression_walk e).run_ok h2
        have h4f : s4.m_currentFunction = some f := by rw [hb4.currentFunction, hs3]
        have h4c : s4.m_currentContract = some c := by rw [hb4.currentContract, hs3]
        have h4bd := he4.breakDest
        have h4cd := he4.continueDest
        rw [hs3] at h4bd h4cd
        clear hb4 he4 hcond
        obtain ⟨d1, d2, d3, d4, d5, d6, d7, d8, d9, d10, d11, d12,
          d13, d14, d15, d16, d17, d18, d19, d20, d21, d22, d23⟩ := s4
        simp only at h4f h4c h4bd h4cd
        subst h4f h4c h4bd h4cd
        simp only [Visitor.bind_assoc_run, Visitor.read_bind_run, Visitor.update_bind_run,
        Visitor.pure_bind_run, CHC.uniquePrefix_bind_run, Option.isSome_some,
        Visitor.solAssert_bind_run, Visitor.deref_bind_run, ↓reduceIte, Visitor.pure_run,
        Visitor.update_run, hfb, Bool.false_eq_true] at hrun4
        obtain ⟨s5, hs5, hnext5⟩ := Visitor.bind_run_split hrun4
        refine ⟨s5, ?vars4, ?vars5, ?v4, ?calls5, ?cur5, ?v5, ?bd5, ?cd5, ?fl5, ?tie5, ?rest5⟩
        case fl5 => rw [hs5]
        case bd5 => rw [hs5]
        case cd5 => rw [hs5]
        case cur5 => rw [hs5]; exact rfl
        case v5 => rw [hs5]; exact rfl
        case v4 => exact rfl
        case rest5 =>
          intro s6 hc6
          have hb6 := (Statement.acceptStatement_frame body).run_ok hc6
          have hrun6 := hnext5 () s6 hc6
          have hd6 := (Statement.acceptStatement_dests body _ _).run s5 () s6 ⟨rfl, rfl⟩ hc6
          have h6f : s6.m_currentFunction = some f := by rw [hb6.currentFunction, hs5]
          have h6c : s6.m_currentContract = some c := by rw [hb6.currentContract, hs5]
          have h6bd := hd6.1
          have h6cd := hd6.2
          rw [hs5] at h6bd h6cd
          clear hb6 hd6
          obtain ⟨e1, e2, e3, e4, e5, e6, e7, e8, e9, e10, e11, e12,
            e13, e14, e15, e16, e17, e18, e19, e20, e21, e22, e23⟩ := s6
          simp only at h6f h6c h6bd h6cd
          subst h6f h6c h6bd h6cd
          simp only [Visitor.bind_assoc_run, Visitor.read_bind_run, Visitor.update_bind_run,
        Visitor.pure_bind_run, CHC.uniquePrefix_bind_run, Option.isSome_some,
        Visitor.solAssert_bind_run, Visitor.deref_bind_run, ↓reduceIte, Visitor.pure_run,
        Visitor.update_run, hfb, Bool.false_eq_true] at hrun6
          obtain ⟨s7, hs7, hnext7⟩ := Visitor.bind_run_split hrun6
          refine ⟨s7, ?vars6, ?vars7, ?v6, ?calls7, ?cur7, ?v7, ?bd7, ?cd7, ?fl7, ?tie7, ?rest7⟩
          case fl7 => rw [hs7]
          case bd7 => rw [hs7]
          case cd7 => rw [hs7]
          case cur7 => rw [hs7]; exact rfl
          case v7 => rw [hs7]; exact rfl
          case v6 => exact rfl
          case rest7 =>
            intro s8 hc8
            have hb8 := (Statement.acceptStatement_frame postLoop).run_ok hc8
            have hrun8 := hnext7 () s8 hc8
            have h8f : s8.m_currentFunction = some f := by rw [hb8.currentFunction, hs7]
            have h8c : s8.m_currentContract = some c := by rw [hb8.currentContract, hs7]
            obtain ⟨g1, g2, g3, g4, g5, g6, g7, g8, g9, g10, g11, g12,
              g13, g14, g15, g16, g17, g18, g19, g20, g21, g22, g23⟩ := s8
            simp only at h8f h8c
            subst h8f h8c
            simp only [Visitor.bind_assoc_run, Visitor.read_bind_run, Visitor.update_bind_run,
        Visitor.pure_bind_run, CHC.uniquePrefix_bind_run, Option.isSome_some,
        Visitor.solAssert_bind_run, Visitor.deref_bind_run, ↓reduceIte, Visitor.pure_run,
        Visitor.update_run, hfb, Bool.false_eq_true] at hrun8
            obtain ⟨sZ, hsZ, hnextZ⟩ := Visitor.bind_run_split hrun8
            refine ⟨sZ, ?varsy, ?varsz, ?run, ?vy, ?callsz, ?curz, ?bdz, ?cdz, ?flz, ?tiez⟩
            case run =>
              have hfZ : sZ.m_unknownFunctionCallSeen = g22 := by rw [hsZ]
              have hstep := CHC.leaveStatement_step sZ
              rw [hfZ] at hstep
              rw [hnextZ () _ hstep]
              unfold CHC.leaveStatement
              rw [hfZ]
              rfl
            case flz => rw [hsZ]
            case bdz => rw [hsZ]
            case cdz => rw [hsZ]
            case curz => rw [hsZ]; exact rfl
            case vy => exact rfl
            case callsz =>
              rw [hsZ]
              unfold CHC.edge
              simp only [smt.CHCSolverInterface.registerRelation, smt.CHCSolverInterface.addRule,
                List.append_assoc, List.singleton_append, List.cons_append, List.nil_append]
              first | done | exact rfl
            case tiez =>
              rw [hsZ]
              unfold CHC.setCurrentBlock CHC.predicate CHC.currentBlockVariables
                CHC.currentFunctionVariables CHC.initialStateVariables CHC.stateVariablesAtIndex
                CHC.currentStateVariables CHC.clearIndices SMTEncoder.clearIndices CHC.edge
              simp only [Visitor.bind_assoc_run, Visitor.read_bind_run, Visitor.update_bind_run,
                Visitor.pure_bind_run, Option.isSome_some,
                Visitor.solAssert_bind_run, Visitor.deref_bind_run, ↓reduceIte, Visitor.pure_run,
                Visitor.update_run, smt.CHCSolverInterface.registerRelation,
                smt.CHCSolverInterface.addRule, List.append_assoc, List.singleton_append, List.cons_append,
                List.nil_append]
              first | done | exact rfl
          case calls7 =>
            rw [hs7]
            unfold CHC.edge
            simp only [smt.CHCSolverInterface.registerRelation, smt.CHCSolverInterface.addRule,
              List.append_assoc, List.singleton_append, List.cons_append, List.nil_append]
            first | done | exact rfl
          case tie7 =>
            rw [hs7]
            unfold CHC.setCurrentBlock CHC.predicate CHC.currentBlockVariables
              CHC.currentFunctionVariables CHC.initialStateVariables CHC.stateVariablesAtIndex
              CHC.currentStateVariables CHC.clearIndices SMTEncoder.clearIndices CHC.edge
            simp only [Visitor.bind_assoc_run, Visitor.read_bind_run, Visitor.update_bind_run,
              Visitor.pure_bind_run, Option.isSome_some,
              Visitor.solAssert_bind_run, Visitor.deref_bind_run, ↓reduceIte, Visitor.pure_run,
              Visitor.update_run, smt.CHCSolverInterface.registerRelation,
              smt.CHCSolverInterface.addRule, List.append_assoc, List.singleton_append, List.cons_append,
              List.nil_append]
            first | done | exact rfl
        case calls5 =>
          rw [hs5]
          unfold CHC.edge
          simp only [smt.CHCSolverInterface.registerRelation, smt.CHCSolverInterface.addRule,
            List.append_assoc, List.singleton_append, List.cons_append, List.nil_append]
          first | done | exact rfl
        case tie5 =>
          rw [hs5]
          unfold CHC.setCurrentBlock CHC.predicate CHC.currentBlockVariables
            CHC.currentFunctionVariables CHC.initialStateVariables CHC.stateVariablesAtIndex
            CHC.currentStateVariables CHC.clearIndices SMTEncoder.clearIndices CHC.edge
          simp only [Visitor.bind_assoc_run, Visitor.read_bind_run, Visitor.update_bind_run,
            Visitor.pure_bind_run, Option.isSome_some,
            Visitor.solAssert_bind_run, Visitor.deref_bind_run, ↓reduceIte, Visitor.pure_run,
            Visitor.update_run, smt.CHCSolverInterface.registerRelation,
            smt.CHCSolverInterface.addRule, List.append_assoc, List.singleton_append, List.cons_append,
            List.nil_append]
          first | done | exact rfl
      case calls3 =>
        rw [hs3]
        unfold CHC.edge
        simp only [smt.CHCSolverInterface.registerRelation, smt.CHCSolverInterface.addRule,
          List.append_assoc, List.singleton_append, List.cons_append, List.nil_append]
        first | done | exact rfl
      case tie3 =>
        rw [hs3]
        unfold CHC.setCurrentBlock CHC.predicate CHC.currentBlockVariables
          CHC.currentFunctionVariables CHC.initialStateVariables CHC.stateVariablesAtIndex
          CHC.currentStateVariables CHC.clearIndices SMTEncoder.clearIndices CHC.edge
        simp only [Visitor.bind_assoc_run, Visitor.read_bind_run, Visitor.update_bind_run,
          Visitor.pure_bind_run, Option.isSome_some,
          Visitor.solAssert_bind_run, Visitor.deref_bind_run, ↓reduceIte, Visitor.pure_run,
          Visitor.update_run, smt.CHCSolverInterface.registerRelation,
          smt.CHCSolverInterface.addRule, List.append_assoc, List.singleton_append, List.cons_append,
          List.nil_append]
        first | done | exact rfl
    case calls =>
      rw [hs1]
      simp only [smt.CHCSolverInterface.registerRelation, smt.CHCSolverInterface.addRule,
        List.append_assoc, List.singleton_append, List.cons_append, List.nil_append]
      first | done | exact rfl
    case tie =>
      rw [hs1]
      simp only [smt.CHCSolverInterface.registerRelation, smt.CHCSolverInterface.addRule,
        List.append_assoc, List.singleton_append, List.cons_append, List.nil_append]
      first | done | exact rfl
  | some st =>
    have hrun : (Statement.ForStatement i (some st) cond (some postLoop) body).accept
          ⟨a1, a2, a3, some c, a5, a6, a7, a8, a9, a10, a11, a12, a13,
            a14, a15, a16, a17, a18, some f, a20, a21, a22, a23⟩ =
        (Statement.ForStatement i (some st) cond (some postLoop) body).accept
          ⟨a1, a2, a3, some c, a5, a6, a7, a8, a9, a10, a11, a12, a13,
            a14, a15, a16, a17, a18, some f, a20, a21, a22, a23⟩ := rfl
    conv at hrun =>
      rhs
      rw [Statement.accept]
      unfold CHC.visitForStatement
      unfold CHC.connectBlocks CHC.addRule
        CHC.setCurrentBlock CHC.createBlock CHC.sortNode CHC.sort CHC.predicateName
        CHC.createSymbolicBlock CHC.predicate CHC.currentBlockVariables
        CHC.currentFunctionVariables CHC.initialStateVariables CHC.stateVariablesAtIndex
        CHC.currentStateVariables CHC.clearIndices SMTEncoder.clearIndices SMTEncoder.expr
    generalize hm : Statement.accept st = m at hrun
    simp only [Visitor.bind_assoc_run, Visitor.read_bind_run, Visitor.update_bind_run,
        Visitor.pure_bind_run, CHC.uniquePrefix_bind_run, Option.isSome_some,
        Visitor.solAssert_bind_run, Visitor.deref_bind_run, ↓reduceIte, Visitor.pure_run,
        Visitor.update_run, hfb, Bool.false_eq_true] at hrun
    obtain ⟨s1, hs1, hnext⟩ := Visitor.bind_run_split hrun
    clear hrun
    subst hm
    refine ⟨⟨?n0x, ?s0x, ?i0x⟩, ⟨?n1x, ?s1x, ?i1x⟩, ⟨?n2x, ?s2x, ?i2x⟩, ⟨?n3x, ?s3x, ?i3x⟩, s1, ?callsx, ?curx, ?bdx, ?cdx, ?flx, ?tiex, ?restx⟩
    case flx => rw [hs1]
    case bdx => rw [hs1]; first | done | exact rfl
    case cdx => rw [hs1]; first | done | exact rfl
    case curx => rw [hs1]
    case restx =>
      intro s2 hinit
      have hrun2 := hnext () s2 (by
        rcases hinit with ⟨h, h2⟩ | ⟨st1, h, h2⟩
        · cases h
        · cases h
          exact h2)
      have hb : BodyFrame s1 s2 := by
        rcases hinit with ⟨h, h2⟩ | ⟨st1, h, h2⟩
        · rw [h2]
          exact BodyFrame.bodyOrder.refl _
        · exact (Statement.acceptStatement_frame st1).run_ok h2
      have he : CHC.DestinationsAre s1.m_breakDest s1.m_continueDest s2 := by
        rcases hinit with ⟨h, h2⟩ | ⟨st1, h, h2⟩
        · rw [h2]
          exact ⟨rfl, rfl⟩
        · exact (Statement.acceptStatement_dests st1 _ _).run s1 () s2 ⟨rfl, rfl⟩ h2
      have h2f : s2.m_currentFunction = some f := by rw [hb.currentFunction, hs1]
      have h2c : s2.m_currentContract = some c := by rw [hb.currentContract, hs1]
      have h2bd := he.1
      have h2cd := he.2
      rw [hs1] at h2bd h2cd
      clear hb he hinit
      obtain ⟨b1, b2, b3, b4, b5, b6, b7, b8, b9, b10, b11, b12,
        b13, b14, b15, b16, b17, b18, b19, b20, b21, b22, b23⟩ := s2
      simp only at h2f h2c h2bd h2cd
      subst h2f h2c h2bd h2cd
      simp only [Visitor.bind_assoc_run, Visitor.read_bind_run, Visitor.update_bind_run,
        Visitor.pure_bind_run, CHC.uniquePrefix_bind_run, Option.isSome_some,
        Visitor.solAssert_bind_run, Visitor.deref_bind_run, ↓reduceIte, Visitor.pure_run,
        Visitor.update_run, hfb, Bool.false_eq_true] at hrun2
      obtain ⟨s3, hs3, hnext3⟩ := Visitor.bind_run_split hrun2
      refine ⟨s3, ?vars2x, ?vars3x, ?v2x, ?calls3x, ?cur3x, ?v3x, ?bd3x, ?cd3x, ?fl3x, ?tie3x, ?rest3x⟩
      case fl3x => rw [hs3]
      case bd3x => rw [hs3]
      case cd3x => rw [hs3]
      case cur3x => rw [hs3]; exact rfl
      case v3x => rw [hs3]; exact rfl
      case v2x => exact rfl
      case rest3x =>
        intro condition s4 hcond
        have hrun4 := hnext3 condition s4 (by
          rcases hcond with ⟨h, h2, h3⟩ | ⟨e, h, h2, h3⟩
          · subst h h2 h3
            rfl
          · subst h h3
            simp only [Visitor.bind_run_ok _ _ _ _ _ h2, Visitor.read_run])
        have hb4 : BodyFrame s3 s4 := by
          rcases hcond with ⟨h, h2, h3⟩ | ⟨e, h, h2, h3⟩
          · rw [h3]
            exact BodyFrame.bodyOrder.refl _
          · exact (Expression.acceptExpression_frame e).run_ok h2
        have he4 : ExpressionFrame s3 s4 := by
          rcases hcond with ⟨h, h2, h3⟩ | ⟨e, h, h2, h3⟩
          · rw [h3]
            exact ExpressionFrame.walkOrder.refl _
          · exact (Expression.acceptExpression_walk e).run_ok h2
        have h4f : s4.m_currentFunction = some f := by rw [hb4.currentFunction, hs3]
        have h4c : s4.m_currentContract = some c := by rw [hb4.currentContract, hs3]
        have h4bd := he4.breakDest
        have h4cd := he4.continueDest
        rw [hs3] at h4bd h4cd
        clear hb4 he4 hcond
        obtain ⟨d1, d2, d3, d4, d5, d6, d7, d8, d9, d10, d11, d12,
          d13, d14, d15, d16, d17, d18, d19, d20, d21, d22, d23⟩ := s4
        simp only at h4f h4c h4bd h4cd
        subst h4f h4c h4bd h4cd
        simp only [Visitor.bind_assoc_run, Visitor.read_bind_run, Visitor.update_bind_run,
        Visitor.pure_bind_run, CHC.uniquePrefix_bind_run, Option.isSome_some,
        Visitor.solAssert_bind_run, Visitor.deref_bind_run, ↓reduceIte, Visitor.pure_run,
        Visitor.update_run, hfb, Bool.false_eq_true] at hrun4
        obtain ⟨s5, hs5, hnext5⟩ := Visitor.bind_run_split hrun4
        refine ⟨s5, ?vars4x, ?vars5x, ?v4x, ?calls5x, ?cur5x, ?v5x, ?bd5x, ?cd5x, ?fl5x, ?tie5x, ?rest5x⟩
        case fl5x => rw [hs5]
        case bd5x => rw [hs5]
        case cd5x => rw [hs5]
        case cur5x => rw [hs5]; exact rfl
        case v5x => rw [hs5]; exact rfl
        case v4x => exact rfl
        case rest5x =>
          intro s6 hc6
          have hb6 := (Statement.acceptStatement_frame body).run_ok hc6
          have hrun6 := hnext5 () s6 hc6
          have hd6 := (Statement.acceptStatement_dests body _ _).run s5 () s6 ⟨rfl, rfl⟩ hc6
          have h6f : s6.m_currentFunction = some f := by rw [hb6.currentFunction, hs5]
          have h6c : s6.m_currentContract = some c := by rw [hb6.currentContract, hs5]
          have h6bd := hd6.1
          have h6cd := hd6.2
          rw [hs5] at h6bd h6cd
          clear hb6 hd6
          obtain ⟨e1, e2, e3, e4, e5, e6, e7, e8, e9, e10, e11, e12,
            e13, e14, e15, e16, e17, e18, e19, e20, e21, e22, e23⟩ := s6
          simp only at h6f h6c h6bd h6cd
          subst h6f h6c h6bd h6cd
          simp only [Visitor.bind_assoc_run, Visitor.read_bind_run, Visitor.update_bind_run,
        Visitor.pure_bind_run, CHC.uniquePrefix_bind_run, Option.isSome_some,
        Visitor.solAssert_bind_run, Visitor.deref_bind_run, ↓reduceIte, Visitor.pure_run,
        Visitor.update_run, hfb, Bool.false_eq_true] at hrun6
          obtain ⟨s7, hs7, hnext7⟩ := Visitor.bind_run_split hrun6
          refine ⟨s7, ?vars6x, ?vars7x, ?v6x, ?calls7x, ?cur7x, ?v7x, ?bd7x, ?cd7x, ?fl7x, ?tie7x, ?rest7x⟩
          case fl7x => rw [hs7]
          case bd7x => rw [hs7]
          case cd7x => rw [hs7]
          case cur7x => rw [hs7]; exact rfl
          case v7x => rw [hs7]; exact rfl
          case v6x => exact rfl
          case rest7x =>
            intro s8 hc8
            have hb8 := (Statement.acceptStatement_frame postLoop).run_ok hc8
            have hrun8 := hnext7 () s8 hc8
            have h8f : s8.m_currentFunction = some f := by rw [hb8.currentFunction, hs7]
            have h8c : s8.m_currentContract = some c := by rw [hb8.currentContract, hs7]
            obtain ⟨g1, g2, g3, g4, g5, g6, g7, g8, g9, g10, g11, g12,
              g13, g14, g15, g16, g17, g18, g19, g20, g21, g22, g23⟩ := s8
            simp only at h8f h8c
            subst h8f h8c
            simp only [Visitor.bind_assoc_run, Visitor.read_bind_run, Visitor.update_bind_run,
        Visitor.pure_bind_run, CHC.uniquePrefix_bind_run, Option.isSome_some,
        Visitor.solAssert_bind_run, Visitor.deref_bind_run, ↓reduceIte, Visitor.pure_run,
        Visitor.update_run, hfb, Bool.false_eq_true] at hrun8
            obtain ⟨sZ, hsZ, hnextZ⟩ := Visitor.bind_run_split hrun8
            refine ⟨sZ, ?varsyx, ?varszx, ?runx, ?vyx, ?callszx, ?curzx, ?bdzx, ?cdzx, ?flzx, ?tiezx⟩
            case runx =>
              have hfZ : sZ.m_unknownFunctionCallSeen = g22 := by rw [hsZ]
              have hstep := CHC.leaveStatement_step sZ
              rw [hfZ] at hstep
              rw [hnextZ () _ hstep]
              unfold CHC.leaveStatement
              rw [hfZ]
              rfl
            case flzx => rw [hsZ]
            case bdzx => rw [hsZ]
            case cdzx => rw [hsZ]
            case curzx => rw [hsZ]; exact rfl
            case vyx => exact rfl
            case callszx =>
              rw [hsZ]
              unfold CHC.edge
              simp only [smt.CHCSolverInterface.registerRelation, smt.CHCSolverInterface.addRule,
                List.append_assoc, List.singleton_append, List.cons_append, List.nil_append]
              first | done | exact rfl
            case tiezx =>
              rw [hsZ]
              unfold CHC.setCurrentBlock CHC.predicate CHC.currentBlockVariables
                CHC.currentFunctionVariables CHC.initialStateVariables CHC.stateVariablesAtIndex
                CHC.currentStateVariables CHC.clearIndices SMTEncoder.clearIndices CHC.edge
              simp only [Visitor.bind_assoc_run, Visitor.read_bind_run, Visitor.update_bind_run,
                Visitor.pure_bind_run, Option.isSome_some,
                Visitor.solAssert_bind_run, Visitor.deref_bind_run, ↓reduceIte, Visitor.pure_run,
                Visitor.update_run, smt.CHCSolverInterface.registerRelation,
                smt.CHCSolverInterface.addRule, List.append_assoc, List.singleton_append, List.cons_append,
                List.nil_append]
              first | done | exact rfl
          case calls7x =>
            rw [hs7]
            unfold CHC.edge
            simp only [smt.CHCSolverInterface.registerRelation, smt.CHCSolverInterface.addRule,
              List.append_assoc, List.singleton_append, List.cons_append, List.nil_append]
            first | done | exact rfl
          case tie7x =>
            rw [hs7]
            unfold CHC.setCurrentBlock CHC.predicate CHC.currentBlockVariables
              CHC.currentFunctionVariables CHC.initialStateVariables CHC.stateVariablesAtIndex
              CHC.currentStateVariables CHC.clearIndices SMTEncoder.clearIndices CHC.edge
            simp only [Visitor.bind_assoc_run, Visitor.read_bind_run, Visitor.update_bind_run,
              Visitor.pure_bind_run, Option.isSome_some,
              Visitor.solAssert_bind_run, Visitor.deref_bind_run, ↓reduceIte, Visitor.pure_run,
              Visitor.update_run, smt.CHCSolverInterface.registerRelation,
              smt.CHCSolverInterface.addRule, List.append_assoc, List.singleton_append, List.cons_append,
              List.nil_append]
            first | done | exact rfl
        case calls5x =>
          rw [hs5]
          unfold CHC.edge
          simp only [smt.CHCSolverInterface.registerRelation, smt.CHCSolverInterface.addRule,
            List.append_assoc, List.singleton_append, List.cons_append, List.nil_append]
          first | done | exact rfl
        case tie5x =>
          rw [hs5]
          unfold CHC.setCurrentBlock CHC.predicate CHC.currentBlockVariables
            CHC.currentFunctionVariables CHC.initialStateVariables CHC.stateVariablesAtIndex
            CHC.currentStateVariables CHC.clearIndices SMTEncoder.clearIndices CHC.edge
          simp only [Visitor.bind_assoc_run, Visitor.read_bind_run, Visitor.update_bind_run,
            Visitor.pure_bind_run, Option.isSome_some,
            Visitor.solAssert_bind_run, Visitor.deref_bind_run, ↓reduceIte, Visitor.pure_run,
            Visitor.update_run, smt.CHCSolverInterface.registerRelation,
            smt.CHCSolverInterface.addRule, List.append_assoc, List.singleton_append, List.cons_append,
            List.nil_append]
          first | done | exact rfl
      case calls3x =>
        rw [hs3]
        unfold CHC.edge
        simp only [smt.CHCSolverInterface.registerRelation, smt.CHCSolverInterface.addRule,
          List.append_assoc, List.singleton_append, List.cons_append, List.nil_append]
        first | done | exact rfl
      case tie3x =>
        rw [hs3]
        unfold CHC.setCurrentBlock CHC.predicate CHC.currentBlockVariables
          CHC.currentFunctionVariables CHC.initialStateVariables CHC.stateVariablesAtIndex
          CHC.currentStateVariables CHC.clearIndices SMTEncoder.clearIndices CHC.edge
        simp only [Visitor.bind_assoc_run, Visitor.read_bind_run, Visitor.update_bind_run,
          Visitor.pure_bind_run, Option.isSome_some,
          Visitor.solAssert_bind_run, Visitor.deref_bind_run, ↓reduceIte, Visitor.pure_run,
          Visitor.update_run, smt.CHCSolverInterface.registerRelation,
          smt.CHCSolverInterface.addRule, List.append_assoc, List.singleton_append, List.cons_append,
          List.nil_append]
        first | done | exact rfl
    case callsx =>
      rw [hs1]
      simp only [smt.CHCSolverInterface.registerRelation, smt.CHCSolverInterface.addRule,
        List.append_assoc, List.singleton_append, List.cons_append, List.nil_append]
      first | done | exact rfl
    case tiex =>
      rw [hs1]
      simp only [smt.CHCSolverInterface.registerRelation, smt.CHCSolverInterface.addRule,
        List.append_assoc, List.singleton_append, List.cons_append, List.nil_append]
      first | done | exact rfl

/-! ## The rules of an if statement and of a for loop, without the flag -/

theorem FlagKept.flagOrder : StateOrder FlagKept where
  refl _ := rfl
  trans _ _ _ h12 h23 := h23.trans h12

theorem FlagKept.same {s s1 : CHC} (h : s1.m_unknownFunctionCallSeen = s.m_unknownFunctionCallSeen) :
    FlagKept s s1 := h

theorem CHC.uniquePrefix_flag : Visitor.Respects FlagKept CHC.uniquePrefix :=
  Visitor.Respects.of_run fun _ => rfl

/-! ## The methods that leave the unknown-call flag alone -/

theorem SMTEncoder.baseEndVisitFunctionCall_flag (c : Expression) :
    Visitor.Respects FlagKept (SMTEncoder.endVisitFunctionCall c) := by
  unfold SMTEncoder.endVisitFunctionCall
  repeat' (first
    | assumption
    | apply Visitor.Respects.bind FlagKept.flagOrder
    | apply Visitor.Respects.pure FlagKept.flagOrder
    | apply Visitor.Respects.read FlagKept.flagOrder
    | apply Visitor.Respects.deref FlagKept.flagOrder
    | apply Visitor.Respects.solAssert FlagKept.flagOrder
    | apply Visitor.Respects.forEach FlagKept.flagOrder
    | exact Visitor.Respects.update _ (fun _ => FlagKept.same rfl)
    | with_reducible exact CHC.uniquePrefix_flag
    | intro _
    | split
    | contradiction
    | dsimp only)

theorem SMTEncoder.createReturnedExpressions_flag (c : Expression) :
    Visitor.Respects FlagKept (SMTEncoder.createReturnedExpressions c) := by
  unfold SMTEncoder.createReturnedExpressions
  repeat' (first
    | assumption
    | apply Visitor.Respects.bind FlagKept.flagOrder
    | apply Visitor.Respects.pure FlagKept.flagOrder
    | apply Visitor.Respects.read FlagKept.flagOrder
    | apply Visitor.Respects.deref FlagKept.flagOrder
    | apply Visitor.Respects.solAssert FlagKept.flagOrder
    | apply Visitor.Respects.forEach FlagKept.flagOrder
    | exact Visitor.Respects.update _ (fun _ => FlagKept.same rfl)
    | with_reducible exact CHC.uniquePrefix_flag
    | intro _
    | split
    | contradiction
    | dsimp only)

theorem CHC.sortNode_flag (n : ASTNode) :
    Visitor.Respects FlagKept (CHC.sortNode n) := by
  unfold CHC.sortNode
  repeat' (first
    | assumption
    | apply Visitor.Respects.bind FlagKept.flagOrder
    | apply Visitor.Respects.pure FlagKept.flagOrder
    | apply Visitor.Respects.read FlagKept.flagOrder
    | apply Visitor.Respects.deref FlagKept.flagOrder
    | apply Visitor.Respects.solAssert FlagKept.flagOrder
    | apply Visitor.Respects.forEach FlagKept.flagOrder
    | exact Visitor.Respects.update _ (fun _ => FlagKept.same rfl)
    | with_reducible exact CHC.uniquePrefix_flag
    | intro _
    | split
    | contradiction
    | dsimp only)

theorem CHC.createSymbolicBlock_flag (a : smt.FunctionSort) (n : String) :
    Visitor.Respects FlagKept (CHC.createSymbolicBlock a n) := by
  unfold CHC.createSymbolicBlock
  repeat' (first
    | assumption
    | apply Visitor.Respects.bind FlagKept.flagOrder
    | apply Visitor.Respects.pure FlagKept.flagOrder
    | apply Visitor.Respects.read FlagKept.flagOrder
    | apply Visitor.Respects.deref FlagKept.flagOrder
    | apply Visitor.Respects.solAssert FlagKept.flagOrder
    | apply Visitor.Respects.forEach FlagKept.flagOrder
    | exact Visitor.Respects.update _ (fun _ => FlagKept.same rfl)
    | with_reducible exact CHC.uniquePrefix_flag
    | intro _
    | split
    | contradiction
    | dsimp only)

theorem CHC.createBlock_flag (n : ASTNode) (p : String) :
    Visitor.Respects FlagKept (CHC.createBlock n p) := by
  unfold CHC.createBlock
  repeat' (first
    | assumption
    | with_reducible exact CHC.sortNode_flag _
    | with_reducible exact CHC.createSymbolicBlock_flag _ _
    | apply Visitor.Respects.bind FlagKept.flagOrder
    | apply Visitor.Respects.pure FlagKept.flagOrder
    | apply Visitor.Respects.read FlagKept.flagOrder
    | apply Visitor.Respects.deref FlagKept.flagOrder
    | apply Visitor.Respects.solAssert FlagKept.flagOrder
    | apply Visitor.Respects.forEach FlagKept.flagOrder
    | exact Visitor.Respects.update _ (fun _ => FlagKept.same rfl)
    | with_reducible exact CHC.uniquePrefix_flag
    | intro _
    | split
    | contradiction
    | dsimp only)

theorem CHC.clearIndices_flag (c : Option ContractDefinition) (f : Option FunctionDefinition) :
    Visitor.Respects FlagKept (CHC.clearIndices c f) := by
  unfold CHC.clearIndices SMTEncoder.clearIndices
  repeat' (first
    | assumption
    | apply Visitor.Respects.bind FlagKept.flagOrder
    | apply Visitor.Respects.pure FlagKept.flagOrder
    | apply Visitor.Respects.read FlagKept.flagOrder
    | apply Visitor.Respects.deref FlagKept.flagOrder
    | apply Visitor.Respects.solAssert FlagKept.flagOrder
    | apply Visitor.Respects.forEach FlagKept.flagOrder
    | exact Visitor.Respects.update _ (fun _ => FlagKept.same rfl)
    | with_reducible exact CHC.uniquePrefix_flag
    | intro _
    | split
    | contradiction
    | dsimp only)

theorem CHC.currentStateVariables_flag :
    Visitor.Respects FlagKept CHC.currentStateVariables := by
  unfold CHC.currentStateVariables
  repeat' (first
    | assumption
    | apply Visitor.Respects.bind FlagKept.flagOrder
    | apply Visitor.Respects.pure FlagKept.flagOrder
    | apply Visitor.Respects.read FlagKept.flagOrder
    | apply Visitor.Respects.deref FlagKept.flagOrder
    | apply Visitor.Respects.solAssert FlagKept.flagOrder
    | apply Visitor.Respects.forEach FlagKept.flagOrder
    | exact Visitor.Respects.update _ (fun _ => FlagKept.same rfl)
    | with_reducible exact CHC.uniquePrefix_flag
    | intro _
    | split
    | contradiction
    | dsimp only)

theorem CHC.initialStateVariables_flag :
    Visitor.Respects FlagKept CHC.initialStateVariables := by
  unfold CHC.initialStateVariables CHC.stateVariablesAtIndex
  repeat' (first
    | assumption
    | apply Visitor.Respects.bind FlagKept.flagOrder
    | apply Visitor.Respects.pure FlagKept.flagOrder
    | apply Visitor.Respects.read FlagKept.flagOrder
    | apply Visitor.Respects.deref FlagKept.flagOrder
    | apply Visitor.Respects.solAssert FlagKept.flagOrder
    | apply Visitor.Respects.forEach FlagKept.flagOrder
    | exact Visitor.Respects.update _ (fun _ => FlagKept.same rfl)
    | with_reducible exact CHC.uniquePrefix_flag
    | intro _
    | split
    | contradiction
    | dsimp only)

theorem CHC.currentFunctionVariables_flag :
    Visitor.Respects FlagKept CHC.currentFunctionVariables := by
  unfold CHC.currentFunctionVariables
  repeat' (first
    | assumption
    | with_reducible exact CHC.currentStateVariables_flag
    | with_reducible exact CHC.initialStateVariables_flag
    | apply Visitor.Respects.bind FlagKept.flagOrder
    | apply Visitor.Respects.pure FlagKept.flagOrder
    | apply Visitor.Respects.read FlagKept.flagOrder
    | apply Visitor.Respects.deref FlagKept.flagOrder
    | apply Visitor.Respects.solAssert FlagKept.flagOrder
    | apply Visitor.Respects.forEach FlagKept.flagOrder
    | exact Visitor.Respects.update _ (fun _ => FlagKept.same rfl)
    | with_reducible exact CHC.uniquePrefix_flag
    | intro _
    | split
    | contradiction
    | dsimp only)

theorem CHC.currentBlockVariables_flag :
    Visitor.Respects FlagKept CHC.currentBlockVariables := by
  unfold CHC.currentBlockVariables
  repeat' (first
    | assumption
    | with_reducible exact CHC.currentFunctionVariables_flag
    | apply Visitor.Respects.bind FlagKept.flagOrder
    | apply Visitor.Respects.pure FlagKept.flagOrder
    | apply Visitor.Respects.read FlagKept.flagOrder
    | apply Visitor.Respects.deref FlagKept.flagOrder
    | apply Visitor.Respects.solAssert FlagKept.flagOrder
    | apply Visitor.Respects.forEach FlagKept.flagOrder
    | exact Visitor.Respects.update _ (fun _ => FlagKept.same rfl)
    | with_reducible exact CHC.uniquePrefix_flag
    | intro _
    | split
    | contradiction
    | dsimp only)

theorem CHC.predicate_flag (b : smt.SymbolicFunctionVariable) :
    Visitor.Respects FlagKept (CHC.predicate b) := by
  unfold CHC.predicate
  repeat' (first
    | assumption
    | with_reducible exact CHC.currentBlockVariables_flag
    | apply Visitor.Respects.bind FlagKept.flagOrder
    | apply Visitor.Respects.pure FlagKept.flagOrder
    | apply Visitor.Respects.read FlagKept.flagOrder
    | apply Visitor.Respects.deref FlagKept.flagOrder
    | apply Visitor.Respects.solAssert FlagKept.flagOrder
    | apply Visitor.Respects.forEach FlagKept.flagOrder
    | exact Visitor.Respects.update _ (fun _ => FlagKept.same rfl)
    | with_reducible exact CHC.uniquePrefix_flag
    | intro _
    | split
    | contradiction
    | dsimp only)

theorem CHC.setCurrentBlock_flag (b : smt.SymbolicFunctionVariable) (a : Option (List smt.Expression)) :
    Visitor.Respects FlagKept (CHC.setCurrentBlock b a) := by
  unfold CHC.setCurrentBlock
  repeat' (first
    | assumption
    | with_reducible exact CHC.clearIndices_flag _ _
    | with_reducible exact CHC.predicate_flag _
    | apply Visitor.Respects.bind FlagKept.flagOrder
    | apply Visitor.Respects.pure FlagKept.flagOrder
    | apply Visitor.Respects.read FlagKept.flagOrder
    | apply Visitor.Respects.deref FlagKept.flagOrder
    | apply Visitor.Respects.solAssert FlagKept.flagOrder
    | apply Visitor.Respects.forEach FlagKept.flagOrder
    | exact Visitor.Respects.update _ (fun _ => FlagKept.same rfl)
    | with_reducible exact CHC.uniquePrefix_flag
    | intro _
    | split
    | contradiction
    | dsimp only)

theorem CHC.summary_flag (f : FunctionDefinition) :
    Visitor.Respects FlagKept (CHC.summary f) := by
  unfold CHC.summary
  repeat' (first
    | assumption
    | with_reducible exact CHC.currentStateVariables_flag
    | with_reducible exact CHC.initialStateVariables_flag
    | apply Visitor.Respects.bind FlagKept.flagOrder
    | apply Visitor.Respects.pure FlagKept.flagOrder
    | apply Visitor.Respects.read FlagKept.flagOrder
    | apply Visitor.Respects.deref FlagKept.flagOrder
    | apply Visitor.Respects.solAssert FlagKept.flagOrder
    | apply Visitor.Respects.forEach FlagKept.flagOrder
    | exact Visitor.Respects.update _ (fun _ => FlagKept.same rfl)
    | with_reducible exact CHC.uniquePrefix_flag
    | intro _
    | split
    | contradiction
    | dsimp only)

theorem CHC.predicateCall_flag (c : Expression) :
    Visitor.Respects FlagKept (CHC.predicateCall c) := by
  unfold CHC.predicateCall
  repeat' (first
    | assumption
    | with_reducible exact CHC.currentStateVariables_flag
    | apply Visitor.Respects.bind FlagKept.flagOrder
    | apply Visitor.Respects.pure FlagKept.flagOrder
    | apply Visitor.Respects.read FlagKept.flagOrder
    | apply Visitor.Respects.deref FlagKept.flagOrder
    | apply Visitor.Respects.solAssert FlagKept.flagOrder
    | apply Visitor.Respects.forEach FlagKept.flagOrder
    | exact Visitor.Respects.update _ (fun _ => FlagKept.same rfl)
    | with_reducible exact CHC.uniquePrefix_flag
    | intro _
    | split
    | contradiction
    | dsimp only)

theorem CHC.connectBlocks_flag (a b c : smt.Expression) :
    Visitor.Respects FlagKept (CHC.connectBlocks a b c) := by
  unfold CHC.connectBlocks CHC.addRule
  repeat' (first
    | assumption
    | apply Visitor.Respects.bind FlagKept.flagOrder
    | apply Visitor.Respects.pure FlagKept.flagOrder
    | apply Visitor.Respects.read FlagKept.flagOrder
    | apply Visitor.Respects.deref FlagKept.flagOrder
    | apply Visitor.Respects.solAssert FlagKept.flagOrder
    | apply Visitor.Respects.forEach FlagKept.flagOrder
    | exact Visitor.Respects.update _ (fun _ => FlagKept.same rfl)
    | with_reducible exact CHC.uniquePrefix_flag
    | intro _
    | split
    | contradiction
    | dsimp only)

theorem CHC.eraseKnowledge_flag :
    Visitor.Respects FlagKept CHC.eraseKnowledge := by
  unfold CHC.eraseKnowledge SMTEncoder.resetStateVariables
  repeat' (first
    | assumption
    | apply Visitor.Respects.bind FlagKept.flagOrder
    | apply Visitor.Respects.pure FlagKept.flagOrder
    | apply Visitor.Respects.read FlagKept.flagOrder
    | apply Visitor.Respects.deref FlagKept.flagOrder
    | apply Visitor.Respects.solAssert FlagKept.flagOrder
    | apply Visitor.Respects.forEach FlagKept.flagOrder
    | exact Visitor.Respects.update _ (fun _ => FlagKept.same rfl)
    | with_reducible exact CHC.uniquePrefix_flag
    | intro _
    | split
    | contradiction
    | dsimp only)

theorem CHC.visitAssert_flag (c : Expression) :
    Visitor.Respects FlagKept (CHC.visitAssert c) := by
  unfold CHC.visitAssert
  repeat' (first
    | assumption
    | with_reducible exact CHC.createBlock_flag _ _
    | with_reducible exact CHC.setCurrentBlock_flag _ _
    | with_reducible exact CHC.predicate_flag _
    | with_reducible exact CHC.summary_flag _
    | with_reducible exact CHC.connectBlocks_flag _ _ _
    | apply Visitor.Respects.bind FlagKept.flagOrder
    | apply Visitor.Respects.pure FlagKept.flagOrder
    | apply Visitor.Respects.read FlagKept.flagOrder
    | apply Visitor.Respects.deref FlagKept.flagOrder
    | apply Visitor.Respects.solAssert FlagKept.flagOrder
    | apply Visitor.Respects.forEach FlagKept.flagOrder
    | exact Visitor.Respects.update _ (fun _ => FlagKept.same rfl)
    | with_reducible exact CHC.uniquePrefix_flag
    | intro _
    | split
    | contradiction
    | dsimp only)

theorem CHC.internalFunctionCall_flag (c : Expression) :
    Visitor.Respects FlagKept (CHC.internalFunctionCall c) := by
  unfold CHC.internalFunctionCall
  repeat' (first
    | assumption
    | with_reducible exact CHC.predicateCall_flag _
    | with_reducible exact CHC.createBlock_flag _ _
    | with_reducible exact CHC.setCurrentBlock_flag _ _
    | with_reducible exact CHC.predicate_flag _
    | with_reducible exact CHC.summary_flag _
    | with_reducible exact CHC.connectBlocks_flag _ _ _
    | apply Visitor.Respects.bind FlagKept.flagOrder
    | apply Visitor.Respects.pure FlagKept.flagOrder
    | apply Visitor.Respects.read FlagKept.flagOrder
    | apply Visitor.Respects.deref FlagKept.flagOrder
    | apply Visitor.Respects.solAssert FlagKept.flagOrder
    | apply Visitor.Respects.forEach FlagKept.flagOrder
    | exact Visitor.Respects.update _ (fun _ => FlagKept.same rfl)
    | with_reducible exact CHC.uniquePrefix_flag
    | intro _
    | split
    | contradiction
    | dsimp only)

theorem CHC.endVisitBreak_flag (i : Nat) :
    Visitor.Respects FlagKept (CHC.endVisitBreak i) := by
  unfold CHC.endVisitBreak
  repeat' (first
    | assumption
    | with_reducible exact CHC.createBlock_flag _ _
    | with_reducible exact CHC.setCurrentBlock_flag _ _
    | with_reducible exact CHC.predicate_flag _
    | with_reducible exact CHC.summary_flag _
    | with_reducible exact CHC.connectBlocks_flag _ _ _
    | apply Visitor.Respects.bind FlagKept.flagOrder
    | apply Visitor.Respects.pure FlagKept.flagOrder
    | apply Visitor.Respects.read FlagKept.flagOrder
    | apply Visitor.Respects.deref FlagKept.flagOrder
    | apply Visitor.Respects.solAssert FlagKept.flagOrder
    | apply Visitor.Respects.forEach FlagKept.flagOrder
    | exact Visitor.Respects.update _ (fun _ => FlagKept.same rfl)
    | with_reducible exact CHC.uniquePrefix_flag
    | intro _
    | split
    | contradiction
    | dsimp only)

theorem CHC.endVisitContinue_flag (i : Nat) :
    Visitor.Respects FlagKept (CHC.endVisitContinue i) := by
  unfold CHC.endVisitContinue
  repeat' (first
    | assumption
    | with_reducible exact CHC.createBlock_flag _ _
    | with_reducible exact CHC.setCurrentBlock_flag _ _
    | with_reducible exact CHC.predicate_flag _
    | with_reducible exact CHC.summary_flag _
    | with_reducible exact CHC.connectBlocks_flag _ _ _
    | apply Visitor.Respects.bind FlagKept.flagOrder
    | apply Visitor.Respects.pure FlagKept.flagOrder
    | apply Visitor.Respects.read FlagKept.flagOrder
    | apply Visitor.Respects.deref FlagKept.flagOrder
    | apply Visitor.Respects.solAssert FlagKept.flagOrder
    | apply Visitor.Respects.forEach FlagKept.flagOrder
    | exact Visitor.Respects.update _ (fun _ => FlagKept.same rfl)
    | with_reducible exact CHC.uniquePrefix_flag
    | intro _
    | split
    | contradiction
    | dsimp only)

/-! ## The exit of a call -/

/-- A call of one of the kinds that are not handled: the base class gives the
call its value, knowledge is erased, the flag is set, and the returned
expressions are created. -/
theorem CHC.endVisitFunctionCall_unknown (call : Expression) (s : CHC)
    (hkind : call.kind = .FunctionCall)
    (hfun : call.functionKind ∈ [FunctionTypeKind.External, .DelegateCall, .BareCall,
      .BareCallCode, .BareDelegateCall, .BareStaticCall, .Creation, .KECCAK256, .ECRecover,
      .SHA256, .RIPEMD160, .BlockHash, .AddMod, .MulMod]) :
    CHC.endVisitFunctionCall call s =
        SMTEncoder.createReturnedExpressions call
          { (CHC.eraseKnowledge (SMTEncoder.endVisitFunctionCall call s).state).state with
            m_unknownFunctionCallSeen := true } ∧
      (CHC.endVisitFunctionCall call s).state.m_unknownFunctionCallSeen = true := by
  have hrun : CHC.endVisitFunctionCall call s =
      SMTEncoder.createReturnedExpressions call
        { (CHC.eraseKnowledge (SMTEncoder.endVisitFunctionCall call s).state).state with
          m_unknownFunctionCallSeen := true } := by
    unfold CHC.endVisitFunctionCall CHC.unknownFunctionCall
    simp only [hkind]
    simp only [List.mem_cons, List.mem_singleton, List.not_mem_nil, or_false] at hfun
    rcases hfun with h | h | h | h | h | h | h | h | h | h | h | h | h | h <;> rw [h] <;> rfl
  refine ⟨hrun, ?_⟩
  rw [hrun]
  exact (SMTEncoder.createReturnedExpressions_flag call).run _

/-- A call of any other kind leaves the flag as it was. -/
theorem CHC.endVisitFunctionCall_known (call : Expression) (s : CHC)
    (h : call.kind ≠ .FunctionCall ∨
      call.functionKind ∉ [FunctionTypeKind.External, .DelegateCall, .BareCall,
        .BareCallCode, .BareDelegateCall, .BareStaticCall, .Creation, .KECCAK256, .ECRecover,
        .SHA256, .RIPEMD160, .BlockHash, .AddMod, .MulMod]) :
    (CHC.endVisitFunctionCall call s).state.m_unknownFunctionCallSeen =
      s.m_unknownFunctionCallSeen := by
  have hgoal : Visitor.Respects FlagKept (CHC.endVisitFunctionCall call) := by
    unfold CHC.endVisitFunctionCall
    apply Visitor.Respects.bind FlagKept.flagOrder (Visitor.Respects.solAssert FlagKept.flagOrder _ _)
    intro _
    by_cases hk : call.kind = .FunctionCall
    · have hf : call.functionKind ∉ [FunctionTypeKind.External, .DelegateCall, .BareCall,
          .BareCallCode, .BareDelegateCall, .BareStaticCall, .Creation, .KECCAK256, .ECRecover,
          .SHA256, .RIPEMD160, .BlockHash, .AddMod, .MulMod] := by
        rcases h with h | h
        · exact absurd hk h
        · exact h
      simp only [hk, bne_self_eq_false, Bool.false_eq_true, ↓reduceIte]
      apply Visitor.Respects.bind FlagKept.flagOrder _
        (fun _ => SMTEncoder.createReturnedExpressions_flag call)
      simp only [List.mem_cons, List.mem_singleton, List.not_mem_nil, or_false, not_or] at hf
      cases hfk : call.functionKind <;> simp only [hfk, not_true_eq_false, false_and, and_false,
        reduceCtorEq, not_false_eq_true, and_self] at hf <;> simp only <;>
        first
        | exact SMTEncoder.baseEndVisitFunctionCall_flag call
        | exact CHC.internalFunctionCall_flag call
        | exact Visitor.Respects.bind FlagKept.flagOrder (CHC.visitAssert_flag call)
            (fun _ => SMTEncoder.baseEndVisitFunctionCall_flag call)
    · have hk2 : (call.kind != FunctionCallKind.FunctionCall) = true := by
        rw [bne_iff_ne]
        exact hk
      simp only [hk2, ↓reduceIte]
      exact SMTEncoder.baseEndVisitFunctionCall_flag call
  exact hgoal.run s

/-! ## Visiting a function while another one is active -/

/-- Visiting an implemented function while a function is active fails, in the
state in which the visit started, unless both are constructors and the visited
one is declared in another contract. -/
theorem CHC.visitFunctionDefinition_active_abort (inlineBases : Visitor Unit)
    (f g : FunctionDefinition) (s : CHC)
    (himpl : f.isImplemented = true) (hactive : s.m_currentFunction = some g)
    (hnot : ¬ (g.isConstructor = true ∧ f.isConstructor = true ∧
      s.m_currentContract.map (·.id) ≠ some f.scope)) :
    CHC.visitFunctionDefinition inlineBases f s = .abort "" s := by
  unfold CHC.visitFunctionDefinition CHC.shouldVisitFunction
  simp only [himpl, Bool.not_true, Bool.false_eq_true, ↓reduceIte, Visitor.read_bind_run, hactive,
    Visitor.solAssert_bind_run, Visitor.bind_assoc_run]
  by_cases hg : g.isConstructor = true
  · by_cases hf : f.isConstructor = true
    · have hscope : (s.m_currentContract.map (·.id) != some f.scope) = false := by
        rw [bne_eq_false_iff_eq]
        by_contra hne
        exact hnot ⟨hg, hf, hne⟩
      simp only [hg, hf, hscope, ↓reduceIte, Bool.false_eq_true]
    · simp only [hg, hf, ↓reduceIte, Bool.false_eq_true]
  · simp only [hg, ↓reduceIte, Bool.false_eq_true]

/-- A constructor of another contract, visited while a constructor is active,
is handed to the walk of the base class. -/
theorem CHC.visitFunctionDefinition_active_base (inlineBases : Visitor Unit)
    (f g : FunctionDefinition) (s : CHC)
    (himpl : f.isImplemented = true) (hactive : s.m_currentFunction = some g)
    (hg : g.isConstructor = true) (hf : f.isConstructor = true)
    (hscope : s.m_currentContract.map (·.id) ≠ some f.scope) :
    CHC.visitFunctionDefinition inlineBases f s =
      (SMTEncoder.visitFunctionDefinition inlineBases f >>= fun _ => pure false) s := by
  unfold CHC.visitFunctionDefinition CHC.shouldVisitFunction
  have hscope2 : (s.m_currentContract.map (·.id) != some f.scope) = true := by
    rw [bne_iff_ne]
    exact hscope
  simp only [himpl, Bool.not_true, Bool.false_eq_true, ↓reduceIte, Visitor.read_bind_run, hactive,
    Visitor.solAssert_bind_run, Visitor.bind_assoc_run, hg, hf, hscope2]

/-- The exit of a constructor of another contract, while a constructor is
active, leaves the state as it is. -/
theorem CHC.endVisitFunctionDefinition_active_base (f g : FunctionDefinition) (s : CHC)
    (himpl : f.isImplemented = true) (hactive : s.m_currentFunction = some g)
    (hg : g.isConstructor = true) (hf : f.isConstructor = true)
    (hscope : s.m_currentContract.map (·.id) ≠ some f.scope) (hid : g.id ≠ f.id) :
    CHC.endVisitFunctionDefinition f s = .ok () s := by
  unfold CHC.endVisitFunctionDefinition CHC.shouldVisitFunction
    SMTEncoder.endVisitFunctionDefinition
  have hscope2 : (s.m_currentContract.map (·.id) != some f.scope) = true := by
    rw [bne_iff_ne]
    exact hscope
  have hin : (Option.map (·.id) (some g) != some f.id) = true := by
    rw [bne_iff_ne]
    simpa using hid
  simp only [himpl, Bool.not_true, Bool.false_eq_true, ↓reduceIte, Visitor.read_bind_run, hactive,
    Visitor.solAssert_bind_run, Visitor.bind_assoc_run, hg, hf, hscope2, hin]
  rfl

/-- A property of the state that both steps keep, whether they return or abort,
is kept by their sequence. -/
theorem Visitor.bind_state_keeps {α β : Type} (P : CHC → Prop) (m : Visitor α)
    (f : α → Visitor β) (hm : ∀ s, P s → P (m s).state) (hf : ∀ a s, P s → P (f a s).state)
    (s : CHC) (hs : P s) : P ((m >>= f) s).state := by
  have h := hm s hs
  rw [Visitor.bind_run]
  cases hr : m s with
  | abort msg t => rw [hr] at h; exact h
  | ok a t => rw [hr] at h; exact hf a t h

/-- The visit of a function, started while a function `g` with another identity
is active, ends with `g` still the current function, whether it returns or
aborts, when the inlined bases do the same. -/
theorem FunctionDefinition.accept_active (inlineBases : Visitor Unit)
    (f g : FunctionDefinition)
    (hinl : ∀ t, t.m_currentFunction = some g → (inlineBases t).state.m_currentFunction = some g)
    (hid : g.id ≠ f.id) (s : CHC) (hactive : s.m_currentFunction = some g) :
    (FunctionDefinition.accept inlineBases f s).state.m_currentFunction = some g := by
  have hin : (Option.map (·.id) (some g) != some f.id) = true := by
    rw [bne_iff_ne]
    simpa using hid
  have hbody : ∀ t, t.m_currentFunction = some g →
      ((match f.body with
        | some body => body.accept
        | none => pure ()) t).state.m_currentFunction = some g := by
    intro t ht
    cases f.body with
    | none => exact ht
    | some body =>
      simp only
      rw [← ht]
      exact ((Statement.acceptStatement_frame body).run t).currentFunction
  have hbase : ∀ t, t.m_currentFunction = some g →
      (SMTEncoder.visitFunctionDefinition inlineBases f t).state.m_currentFunction = some g := by
    intro t ht
    unfold SMTEncoder.visitFunctionDefinition
    refine Visitor.bind_state_keeps (fun u => u.m_currentFunction = some g) _ _ ?_ ?_ t ht
    · intro u hu
      by_cases hc : f.isConstructor = true
      · simp only [hc, ↓reduceIte]
        exact hinl u hu
      · simp only [hc, Bool.false_eq_true, ↓reduceIte]
        exact hu
    · intro _ u hu
      refine Visitor.bind_state_keeps (fun u => u.m_currentFunction = some g) _ _ hbody ?_ u hu
      intro _ v hv
      exact hv
  unfold FunctionDefinition.accept
  refine Visitor.bind_state_keeps (fun u => u.m_currentFunction = some g) _ _ ?_ ?_ s hactive
  · intro t ht
    unfold CHC.visitFunctionDefinition
    by_cases hsv : CHC.shouldVisitFunction f = true
    · simp only [hsv, Bool.not_true, Bool.false_eq_true, ↓reduceIte, Visitor.read_bind_run,
        ht, Visitor.solAssert_bind_run, Visitor.bind_assoc_run]
      split
      · split
        · split
          · refine Visitor.bind_state_keeps (fun u => u.m_currentFunction = some g) _ _ hbase
              ?_ t ht
            intro _ v hv
            exact hv
          · exact ht
        · exact ht
      · exact ht
    · simp only [hsv, Bool.not_false, ↓reduceIte, Visitor.pure_run]
      exact ht
  · intro _ t ht
    unfold CHC.endVisitFunctionDefinition SMTEncoder.endVisitFunctionDefinition
    by_cases hsv : CHC.shouldVisitFunction f = true
    · simp only [hsv, Bool.not_true, Bool.false_eq_true, ↓reduceIte, Visitor.read_bind_run,
        ht, Visitor.solAssert_bind_run, Visitor.bind_assoc_run, hin]
      split
      · split
        · split
          · exact ht
          · exact ht
        · exact ht
      · exact ht
    · simp only [hsv, Bool.not_false, ↓reduceIte, Visitor.pure_run]
      exact ht

/-- The constructors of the bases, inlined while a function `g` is active, leave
`g` the current function, whether the walk returns or aborts. -/
theorem SMTEncoder.inlineConstructorHierarchy_active (g : FunctionDefinition) :
    ∀ (bases : List BaseContract),
      (∀ base ∈ bases, ∀ f, base.constructor = some f → g.id ≠ f.id) →
      ∀ s : CHC, s.m_currentFunction = some g →
        (SMTEncoder.inlineConstructorHierarchy bases s).state.m_currentFunction = some g
  | [], _, s, hs => hs
  | base :: rest, hids, s, hs => by
    have ih := SMTEncoder.inlineConstructorHierarchy_active g rest
      (fun b hb => hids b (List.mem_cons_of_mem _ hb))
    rw [SMTEncoder.inlineConstructorHierarchy]
    cases hc : base.constructor with
    | none => exact ih s hs
    | some f =>
      simp only
      by_cases hi : f.isImplemented = true
      · simp only [hi, ↓reduceIte]
        exact FunctionDefinition.accept_active _ f g ih (hids base (List.mem_cons_self _ _) f hc) s hs
      · simp only [hi, Bool.false_eq_true, ↓reduceIte]
        exact ih s hs

/-! ## The sorts of the predicates and the arguments they are applied to -/

/-- Creating the summary predicate of a function registers a predicate of the
summary sort: the error index, the state variables, the parameters, the state
variables again and the return parameters. -/
theorem CHC.createSummaryBlock_run (f : FunctionDefinition) (s : CHC) :
    ∃ (block : smt.SymbolicFunctionVariable) (s1 : CHC),
      CHC.createSummaryBlock f s = .ok block s1 ∧
      CHC.summarySort f s = .ok block.sort s ∧
      block.sort = ⟨[smt.SortPointer.Int] ++ s.m_stateSorts ++ f.parameters.map (·.sort) ++
        s.m_stateSorts ++ f.returnParameters.map (·.sort), .Bool⟩ ∧
      s1.m_interface.calls = s.m_interface.calls ++
        [.registerRelation block.uniqueName block.index block.sort] :=
  ⟨_, _, rfl, rfl, rfl, rfl⟩

/-- Creating the block of a function definition, its entry block, registers a
predicate whose sort has no place for the local variables. -/
theorem CHC.createBlock_function_run (f : FunctionDefinition) (pfx : String) (s : CHC) :
    ∃ (block : smt.SymbolicFunctionVariable) (s1 : CHC),
      CHC.createBlock (.function f) pfx s = .ok block s1 ∧
      block.sort = ⟨[smt.SortPointer.Int] ++ s.m_stateSorts ++ f.parameters.map (·.sort) ++
        s.m_stateSorts ++ f.parameters.map (·.sort) ++ f.returnParameters.map (·.sort),
        .Bool⟩ ∧
      s1.m_interface.calls = s.m_interface.calls ++
        [.registerRelation block.uniqueName block.index block.sort] :=
  ⟨_, _, rfl, rfl, rfl⟩

/-- Creating the block of a node other than a function definition, while a
function is current, registers a predicate whose sort is that of the current
function followed by the sorts of its local variables. -/
theorem CHC.createBlock_node_run (i : Nat) (pfx : String) (s : CHC) (f : FunctionDefinition)
    (hcur : s.m_currentFunction = some f) :
    ∃ (block : smt.SymbolicFunctionVariable) (s1 : CHC),
      CHC.createBlock (.node i) pfx s = .ok block s1 ∧
      block.sort = ⟨[smt.SortPointer.Int] ++ s.m_stateSorts ++ f.parameters.map (·.sort) ++
        s.m_stateSorts ++ f.parameters.map (·.sort) ++ f.returnParameters.map (·.sort) ++
        f.localVariables.map (·.sort), .Bool⟩ ∧
      s1.m_interface.calls = s.m_interface.calls ++
        [.registerRelation block.uniqueName block.index block.sort] := by
  obtain ⟨a1, a2, a3, a4, a5, a6, a7, a8, a9, a10, a11, a12, a13, a14, a15, a16, a17, a18, a19,
    a20, a21, a22, a23⟩ := s
  simp only at hcur
  subst hcur
  exact ⟨_, _, rfl, rfl, rfl⟩

/-- The current function variables, in a current contract: the error index, the
state variables and the parameters at index 0, the state variables and the
parameters at their current index, and the return parameters. -/
theorem CHC.currentFunctionVariables_run (s : CHC) (f : FunctionDefinition)
    (c : ContractDefinition) (hcur : s.m_currentFunction = some f)
    (hcon : s.m_currentContract = some c) :
    CHC.currentFunctionVariables s =
      .ok ([s.m_error.currentValue] ++
        (s.m_stateVariables.map fun v => (s.m_context.variableOf v).valueAtIndex 0) ++
        (f.parameters.map fun v => (s.m_context.variableOf v).valueAtIndex 0) ++
        (s.m_stateVariables.map fun v => (s.m_context.variableOf v).currentValue) ++
        (f.parameters.map fun v => (s.m_context.variableOf v).currentValue) ++
        (f.returnParameters.map fun v => (s.m_context.variableOf v).currentValue)) s := by
  unfold CHC.currentFunctionVariables CHC.initialStateVariables CHC.stateVariablesAtIndex
    CHC.currentStateVariables
  simp only [Visitor.bind_assoc_run, Visitor.read_bind_run, Visitor.update_bind_run,
    Visitor.pure_bind_run, Option.isSome_some, hcon, hcur,
    Visitor.solAssert_bind_run, Visitor.deref_bind_run, ↓reduceIte, Visitor.pure_run]

/-- The application of a block to the current block variables, in a current
contract: the current function variables followed by the local variables. -/
theorem CHC.predicate_run (block : smt.SymbolicFunctionVariable) (s : CHC)
    (f : FunctionDefinition) (c : ContractDefinition) (hcur : s.m_currentFunction = some f)
    (hcon : s.m_currentContract = some c) :
    CHC.predicate block s =
      .ok (block.app ([s.m_error.currentValue] ++
        (s.m_stateVariables.map fun v => (s.m_context.variableOf v).valueAtIndex 0) ++
        (f.parameters.map fun v => (s.m_context.variableOf v).valueAtIndex 0) ++
        (s.m_stateVariables.map fun v => (s.m_context.variableOf v).currentValue) ++
        (f.parameters.map fun v => (s.m_context.variableOf v).currentValue) ++
        (f.returnParameters.map fun v => (s.m_context.variableOf v).currentValue) ++
        (f.localVariables.map fun v => (s.m_context.variableOf v).currentValue))) s := by
  unfold CHC.predicate CHC.currentBlockVariables
  simp only [Visitor.bind_assoc_run, Visitor.read_bind_run, Visitor.pure_bind_run, hcur,
    Visitor.bind_run_ok _ _ _ _ _ (CHC.currentFunctionVariables_run s f c hcur hcon),
    Visitor.pure_run]

/-! ## Break and continue -/

/-- A `break` with a destination, in a function of a current contract: the
method returns; it adds the rule from the current block into the destination,
registers a ghost block named after the block counter, and makes the ghost
block the current block; nothing else changes. -/
theorem CHC.endVisitBreak_run (i : Nat) (s : CHC) (f : FunctionDefinition)
    (c : ContractDefinition) (dest : smt.SymbolicFunctionVariable)
    (hcur : s.m_currentFunction = some f) (hcon : s.m_currentContract = some c)
    (hdest : s.m_breakDest = some dest) :
    ∃ (ghost : smt.SymbolicFunctionVariable) (vars : List smt.Expression),
      CHC.currentBlockVariables s = .ok vars s ∧
      ghost.uniqueName = "block_" ++ toString s.m_blockCounter ++ "_" ++ "break_ghost_" ++
        (if f.name.isEmpty then toString i else f.name ++ "_" ++ toString i) ∧
      CHC.endVisitBreak i s = .ok ()
        { s with
          m_interface := ⟨s.m_interface.calls ++
            [CHC.edge s.m_currentBlock s.m_context.assertions (.boolLit true) (dest.app vars),
             .registerRelation ghost.uniqueName ghost.index ghost.sort], s.m_interface.answer⟩
          m_currentBlock := ghost.app vars
          m_blockCounter := s.m_blockCounter + 1 } := by
  obtain ⟨a1, a2, a3, a4, a5, a6, a7, a8, a9, a10, a11, a12, a13, a14, a15, a16, a17, a18, a19,
    a20, a21, a22, a23⟩ := s
  simp only at hcur hcon hdest
  subst hcur hcon hdest
  have hrun : CHC.endVisitBreak i ⟨a1, a2, a3, some c, a5, a6, a7, a8, a9, a10, a11, a12, a13,
        a14, a15, a16, a17, a18, some f, some dest, a21, a22, a23⟩ =
      CHC.endVisitBreak i ⟨a1, a2, a3, some c, a5, a6, a7, a8, a9, a10, a11, a12, a13,
        a14, a15, a16, a17, a18, some f, some dest, a21, a22, a23⟩ := rfl
  conv at hrun =>
    rhs
    unfold CHC.endVisitBreak
    unfold CHC.connectBlocks CHC.addRule
      CHC.createBlock CHC.sortNode CHC.sort CHC.predicateName
      CHC.createSymbolicBlock CHC.predicate CHC.currentBlockVariables
      CHC.currentFunctionVariables CHC.initialStateVariables CHC.stateVariablesAtIndex
      CHC.currentStateVariables
    simp only [Visitor.bind_assoc_run, Visitor.read_bind_run, Visitor.update_bind_run,
      Visitor.pure_bind_run, CHC.uniquePrefix_bind_run, Option.isSome_some,
      Visitor.solAssert_bind_run, Visitor.deref_bind_run, ↓reduceIte, Visitor.pure_run,
      Visitor.update_run]
  refine ⟨⟨?gn, ?gs, ?gi⟩, ?v, ?vars, ?name, ?run⟩
  case vars => exact rfl
  case run =>
    rw [hrun]
    unfold CHC.edge
    simp only [smt.CHCSolverInterface.registerRelation, smt.CHCSolverInterface.addRule,
      List.append_assoc, List.singleton_append, List.cons_append, List.nil_append]
    exact rfl
  case name => exact rfl

/-- A `continue` with a destination, in a function of a current contract: as
for a `break`, with the destination of `continue`. -/
theorem CHC.endVisitContinue_run (i : Nat) (s : CHC) (f : FunctionDefinition)
    (c : ContractDefinition) (dest : smt.SymbolicFunctionVariable)
    (hcur : s.m_currentFunction = some f) (hcon : s.m_currentContract = some c)
    (hdest : s.m_continueDest = some dest) :
    ∃ (ghost : smt.SymbolicFunctionVariable) (vars : List smt.Expression),
      CHC.currentBlockVariables s = .ok vars s ∧
      ghost.uniqueName = "block_" ++ toString s.m_blockCounter ++ "_" ++ "continue_ghost_" ++
        (if f.name.isEmpty then toString i else f.name ++ "_" ++ toString i) ∧
      CHC.endVisitContinue i s = .ok ()
        { s with
          m_interface := ⟨s.m_interface.calls ++
            [CHC.edge s.m_currentBlock s.m_context.assertions (.boolLit true) (dest.app vars),
             .registerRelation ghost.uniqueName ghost.index ghost.sort], s.m_interface.answer⟩
          m_currentBlock := ghost.app vars
          m_blockCounter := s.m_blockCounter + 1 } := by
  obtain ⟨a1, a2, a3, a4, a5, a6, a7, a8, a9, a10, a11, a12, a13, a14, a15, a16, a17, a18, a19,
    a20, a21, a22, a23⟩ := s
  simp only at hcur hcon hdest
  subst hcur hcon hdest
  have hrun : CHC.endVisitContinue i ⟨a1, a2, a3, some c, a5, a6, a7, a8, a9, a10, a11, a12, a13,
        a14, a15, a16, a17, a18, some f, a20, some dest, a22, a23⟩ =
      CHC.endVisitContinue i ⟨a1, a2, a3, some c, a5, a6, a7, a8, a9, a10, a11, a12, a13,
        a14, a15, a16, a17, a18, some f, a20, some dest, a22, a23⟩ := rfl
  conv at hrun =>
    rhs
    unfold CHC.endVisitContinue
    unfold CHC.connectBlocks CHC.addRule
      CHC.createBlock CHC.sortNode CHC.sort CHC.predicateName
      CHC.createSymbolicBlock CHC.predicate CHC.currentBlockVariables
      CHC.currentFunctionVariables CHC.initialStateVariables CHC.stateVariablesAtIndex
      CHC.currentStateVariables
    simp only [Visitor.bind_assoc_run, Visitor.read_bind_run, Visitor.update_bind_run,
      Visitor.pure_bind_run, CHC.uniquePrefix_bind_run, Option.isSome_some,
      Visitor.solAssert_bind_run, Visitor.deref_bind_run, ↓reduceIte, Visitor.pure_run,
      Visitor.update_run]
  refine ⟨⟨?gn, ?gs, ?gi⟩, ?v, ?vars, ?name, ?run⟩
  case vars => exact rfl
  case run =>
    rw [hrun]
    unfold CHC.edge
    simp only [smt.CHCSolverInterface.registerRelation, smt.CHCSolverInterface.addRule,
      List.append_assoc, List.singleton_append, List.cons_append, List.nil_append]
    exact rfl
  case name => exact rfl

/-! ## Nested statements -/

theorem Example.atLoopBody_frame : BodyFrame (atStatement nestedLoops) atLoopBody :=
  (CHC.visitWhileStatement_frame 75 false large (74, fun s => .abort "" s)
    (Visitor.Respects.of_run fun s => BodyFrame.bodyOrder.refl s)).run (atStatement nestedLoops)

theorem Statement.acceptIf_flagback (i : Nat) (condition : Expression)
    (trueStatement : Statement) (falseStatement : Option Statement) (w : Bool) :
    Visitor.Ensures (CHC.FlagIs w)
      (Statement.IfStatement i condition trueStatement falseStatement).accept (CHC.FlagIs w) := by
  cases falseStatement <;> rw [Statement.accept] <;>
    exact Visitor.Ensures.bind_same (CHC.visitIfStatement_flagback _ _ _ _ w)
      (fun _ => Visitor.Ensures.pure_kept _)

theorem Statement.acceptWhile_flagback (i : Nat) (condition : Expression) (body : Statement)
    (isDoWhile : Bool) (w : Bool) :
    Visitor.Ensures (CHC.FlagIs w)
      (Statement.WhileStatement i condition body isDoWhile).accept (CHC.FlagIs w) := by
  rw [Statement.accept]
  exact Visitor.Ensures.bind_same (CHC.visitWhileStatement_flagback _ _ _ _ w)
    (fun _ => Visitor.Ensures.pure_kept _)

theorem Statement.acceptFor_flagback (i : Nat) (init : Option Statement)
    (condition : Option Expression) (postLoop : Option Statement) (body : Statement) (w : Bool) :
    Visitor.Ensures (CHC.FlagIs w)
      (Statement.ForStatement i init condition postLoop body).accept (CHC.FlagIs w) := by
  cases init <;> cases postLoop <;> rw [Statement.accept] <;>
    exact Visitor.Ensures.bind_same (CHC.visitForStatement_flagback _ _ _ _ _ w)
      (fun _ => Visitor.Ensures.pure_kept _)

theorem Statement.acceptAll_flagback : ∀ statements : List Statement,
    (∀ st ∈ statements,
      (∃ i condition trueStatement falseStatement,
        st = .IfStatement i condition trueStatement falseStatement) ∨
      (∃ i condition body isDoWhile, st = .WhileStatement i condition body isDoWhile) ∨
      (∃ i init condition postLoop body, st = .ForStatement i init condition postLoop body)) →
    ∀ w, Visitor.Ensures (CHC.FlagIs w) (Statement.acceptAll statements) (CHC.FlagIs w)
  | [], _, w => by
    rw [Statement.acceptAll]
    exact Visitor.Ensures.pure_kept _
  | st :: rest, h, w => by
    rw [Statement.acceptAll]
    refine Visitor.Ensures.bind_same ?_ (fun _ => Statement.acceptAll_flagback rest
      (fun st1 h1 => h st1 (List.mem_cons_of_mem _ h1)) w)
    rcases h st (List.mem_cons_self _ _) with ⟨i, c, t, e, rfl⟩ | ⟨i, c, b, d, rfl⟩ |
      ⟨i, a, c, p, b, rfl⟩
    · exact Statement.acceptIf_flagback _ _ _ _ w
    · exact Statement.acceptWhile_flagback _ _ _ _ w
    · exact Statement.acceptFor_flagback _ _ _ _ _ w

/-- Leaving a statement with the flag set: knowledge is erased, then the flag is
put back. -/
theorem CHC.leaveStatement_seen (wasSeen : Bool) (s : CHC)
    (h : s.m_unknownFunctionCallSeen = true) :
    CHC.leaveStatement wasSeen s =
      { (CHC.eraseKnowledge s).state with m_unknownFunctionCallSeen := wasSeen } := by
  unfold CHC.leaveStatement
  rw [h]
  rfl

/-- Leaving a statement with the flag not set: only the flag is put back. -/
theorem CHC.leaveStatement_unseen (wasSeen : Bool) (s : CHC)
    (h : s.m_unknownFunctionCallSeen = false) :
    CHC.leaveStatement wasSeen s = { s with m_unknownFunctionCallSeen := wasSeen } := by
  unfold CHC.leaveStatement
  rw [h]
  rfl

/-! ## Decimal numerals -/

theorem Nat.digitChar_isDigit (n : Nat) (h : n < 10) : (Nat.digitChar n).isDigit = true := by
  interval_cases n <;> rfl

theorem Nat.toDigitsCore_isDigit : ∀ (fuel n : Nat) (ds : List Char),
    (∀ c ∈ ds, c.isDigit = true) → ∀ c ∈ Nat.toDigitsCore 10 fuel n ds, c.isDigit = true
  | 0, n, ds, h => by
    simpa [Nat.toDigitsCore] using h
  | fuel + 1, n, ds, h => by
    have hd : ∀ c ∈ Nat.digitChar (n % 10) :: ds, c.isDigit = true := by
      intro c hc
      rcases List.mem_cons.mp hc with rfl | hc
      · exact Nat.digitChar_isDigit _ (Nat.mod_lt _ (by decide))
      · exact h c hc
    rw [Nat.toDigitsCore]
    split
    · exact hd
    · exact Nat.toDigitsCore_isDigit fuel (n / 10) _ hd

theorem Nat.toString_isDigit (n : Nat) : ∀ c ∈ (toString n).data, c.isDigit = true :=
  Nat.toDigitsCore_isDigit _ _ _ (by simp)

theorem List.dropWhile_digits (d t : List Char) (h : ∀ c ∈ d, c.isDigit = true) :
    (d ++ '_' :: t).dropWhile Char.isDigit = '_' :: t := by
  induction d with
  | nil => rfl
  | cons c d ih =>
    rw [List.cons_append, List.dropWhile_cons, if_pos (h c (List.mem_cons_self _ _))]
    exact ih fun x hx => h x (List.mem_cons_of_mem _ hx)

theorem Nat.digitChar_value (n : Nat) (h : n < 10) :
    (Nat.digitChar n).toNat - '0'.toNat = n := by
  interval_cases n <;> rfl

theorem smt.decimalValue_append (a b : List Char) :
    smt.decimalValue (a ++ b) =
      b.foldl (fun value c => 10 * value + (c.toNat - '0'.toNat)) (smt.decimalValue a) := by
  unfold smt.decimalValue
  rw [List.foldl_append]

theorem Nat.toDigitsCore_value : ∀ (fuel n : Nat) (ds : List Char), n < fuel →
    ∃ D, Nat.toDigitsCore 10 fuel n ds = D ++ ds ∧ smt.decimalValue D = n
  | 0, n, ds, h => by omega
  | fuel + 1, n, ds, h => by
    rw [Nat.toDigitsCore]
    split
    · rename_i h0
      refine ⟨[Nat.digitChar (n % 10)], rfl, ?_⟩
      show 10 * 0 + ((Nat.digitChar (n % 10)).toNat - '0'.toNat) = n
      rw [Nat.digitChar_value _ (Nat.mod_lt _ (by decide))]
      omega
    · rename_i h0
      obtain ⟨D, hD, hv⟩ := Nat.toDigitsCore_value fuel (n / 10) (Nat.digitChar (n % 10) :: ds)
        (by omega)
      refine ⟨D ++ [Nat.digitChar (n % 10)], ?_, ?_⟩
      · rw [hD, List.append_assoc]
        rfl
      · rw [smt.decimalValue_append, hv]
        show 10 * (n / 10) + ((Nat.digitChar (n % 10)).toNat - '0'.toNat) = n
        rw [Nat.digitChar_value _ (Nat.mod_lt _ (by decide))]
        omega

theorem Nat.toString_value (n : Nat) : smt.decimalValue (toString n).data = n := by
  obtain ⟨D, hD, hv⟩ := Nat.toDigitsCore_value (n + 1) n [] (Nat.lt_succ_self n)
  have h : (toString n).data = D := by
    rw [List.append_nil] at hD
    exact hD
  rw [h]
  exact hv

/-- Different numbers have different decimal numerals. -/
theorem Nat.toString_inj {n m : Nat} (h : (toString n).data = (toString m).data) : n = m := by
  rw [← Nat.toString_value n, ← Nat.toString_value m, h]

theorem List.takeWhile_digits (d t : List Char) (h : ∀ c ∈ d, c.isDigit = true) :
    (d ++ '_' :: t).takeWhile Char.isDigit = d := by
  induction d with
  | nil => rfl
  | cons c d ih =>
    rw [List.cons_append, List.takeWhile_cons, if_pos (h c (List.mem_cons_self _ _)),
      ih fun x hx => h x (List.mem_cons_of_mem _ hx)]

/-! ## Tidiness: no ghost block is the head of a rule -/

theorem smt.isGhostName_block (n : Nat) (x : String) :
    smt.isGhostName ("block_" ++ toString n ++ "_" ++ x) = smt.ghostTail x.data := by
  have h : ("block_" ++ toString n ++ "_" ++ x).data =
      "block_".data ++ ((toString n).data ++ '_' :: x.data) := by
    simp only [String.data_append, List.append_assoc]
    rfl
  unfold smt.isGhostName
  rw [h]
  have h2 : ("block_".data ++ ((toString n).data ++ '_' :: x.data)).drop 6 =
      (toString n).data ++ '_' :: x.data := List.drop_left' rfl
  have h3 : "block_".data.isPrefixOf
      ("block_".data ++ ((toString n).data ++ '_' :: x.data)) = true :=
    List.isPrefixOf_iff_prefix.mpr (List.prefix_append _ _)
  rw [h2, List.dropWhile_digits _ _ (Nat.toString_isDigit n), h3]
  rfl

theorem smt.isGhostName_other (name : String) (h : "block_".data.isPrefixOf name.data = false) :
    smt.isGhostName name = false := by
  unfold smt.isGhostName
  rw [h]
  rfl

theorem List.isPrefixOf_mismatch (a b : Char) (p l : List Char) (h : (a == b) = false) :
    (a :: p).isPrefixOf (b :: l) = false := by
  rw [List.isPrefixOf, h]
  rfl

theorem Char.ne_of_isDigit (a c : Char) (ha : a.isDigit = false) (hc : c.isDigit = true) :
    (a == c) = false := by
  cases h : a == c
  · rfl
  · rw [beq_iff_eq.mp h, hc] at ha
    cases ha

theorem List.isPrefixOf_digits (a : Char) (p d : List Char) (ha : a.isDigit = false)
    (hd : ∀ c ∈ d, c.isDigit = true) : (a :: p).isPrefixOf d = false := by
  cases d with
  | nil => rfl
  | cons c d =>
    exact List.isPrefixOf_mismatch _ _ _ _
      (Char.ne_of_isDigit a c ha (hd c (List.mem_cons_self _ _)))

theorem smt.ghostTail_digits (d : List Char) (h : ∀ c ∈ d, c.isDigit = true) :
    smt.ghostTail d = false := by
  show (('b' :: "reak_ghost_".data).isPrefixOf d ||
    ('c' :: "ontinue_ghost_".data).isPrefixOf d) = false
  rw [List.isPrefixOf_digits _ _ _ (by decide) h, List.isPrefixOf_digits _ _ _ (by decide) h]
  rfl

theorem smt.isGhostOf_shape {B : List Nat} (name : String) (h : smt.isGhostName name = false) :
    smt.isGhostOf B name = false := by
  unfold smt.isGhostOf
  rw [h]
  rfl

/-- The node that a name ends with, for a name that ends with an underscore and
the numeral of `j`. -/
theorem smt.nodeOf_data (name : String) (X : List Char) (j : Nat)
    (h : name.data = X ++ '_' :: (toString j).data) : smt.nodeOf name = j := by
  unfold smt.nodeOf
  rw [h, List.reverse_append, List.reverse_cons, List.append_assoc, List.singleton_append,
    List.takeWhile_digits _ _ (fun c hc => Nat.toString_isDigit j c (List.mem_reverse.mp hc)),
    List.reverse_reverse, Nat.toString_value]

/-- A name that ends with the id of a node that is no `break` or `continue`
statement is not the name of a ghost block. -/
theorem smt.isGhostOf_node {B : List Nat} (name : String) (X : List Char) (j : Nat)
    (h : name.data = X ++ '_' :: (toString j).data) (hj : j ∉ B) :
    smt.isGhostOf B name = false := by
  unfold smt.isGhostOf
  rw [smt.nodeOf_data name X j h]
  have hc : B.contains j = false := by
    cases hb : B.contains j
    · rfl
    · exact absurd (List.elem_iff.mp hb) hj
  rw [hc, Bool.and_false]

theorem smt.HeadsClean.heads_append {B : List Nat}
    {calls : List smt.SolverCall} (h : smt.HeadsClean B calls)
    (c : smt.SolverCall) (hc : c.headIsGhostOf B = false) : smt.HeadsClean B (calls ++ [c]) := by
  intro x hx
  rcases List.mem_append.mp hx with h1 | h1
  · exact h x h1
  · rw [List.mem_singleton.mp h1]
    exact hc

theorem smt.HeadsClean.heads_nil {B : List Nat} : smt.HeadsClean B [] :=
  fun _ h => by cases h

theorem smt.ghostTail_plainPrefix (pfx : String) (h : smt.plainPrefix pfx = true)
    (y : List Char) : smt.ghostTail (pfx.data ++ y) = false := by
  unfold smt.plainPrefix at h
  cases hp : pfx.data with
  | nil =>
    rw [hp] at h
    cases h
  | cons c l =>
    rw [hp] at h
    simp only [Bool.and_eq_true, bne_iff_ne, ne_eq] at h
    show (('b' :: "reak_ghost_".data).isPrefixOf (c :: (l ++ y)) ||
      ('c' :: "ontinue_ghost_".data).isPrefixOf (c :: (l ++ y))) = false
    rw [List.isPrefixOf_mismatch _ _ _ _ (by simpa using fun e => h.1 e.symm),
      List.isPrefixOf_mismatch _ _ _ _ (by simpa using fun e => h.2 e.symm)]
    rfl

namespace CHC.Tidy

/-- A state that differs in nothing that tidiness reads is tidy. -/
theorem tidy_frame {B : List Nat} {s s1 : CHC} (h : CHC.Tidy B s)
    (hcalls : s1.m_interface.calls = s.m_interface.calls)
    (hbrk : s1.m_breakDest = s.m_breakDest)
    (hcont : s1.m_continueDest = s.m_continueDest)
    (hsum : s1.m_summaries = s.m_summaries)
    (hgen : s1.m_genesisPredicate = s.m_genesisPredicate)
    (hifc : s1.m_interfacePredicate = s.m_interfacePredicate)
    (herr : s1.m_errorPredicate = s.m_errorPredicate)
    (hctor : s1.m_constructorPredicate = s.m_constructorPredicate)
    (hfun : s1.m_currentFunction = s.m_currentFunction) : CHC.Tidy B s1 := by
  refine ⟨?_, ?_, ?_, ?_, ?_, ?_, ?_, ?_, ?_⟩
  · rw [hcalls]; exact h.heads
  · rw [hbrk]; exact h.breakDest
  · rw [hcont]; exact h.continueDest
  · rw [hsum]; exact h.summaries
  · rw [hgen]; exact h.genesis
  · rw [hifc]; exact h.interface
  · rw [herr]; exact h.error
  · rw [hctor]; exact h.constructor
  · rw [hfun]; exact h.function

/-- One more call that is no rule with a ghost block as its head keeps the
state tidy. -/
theorem tidy_call {B : List Nat}
    {s : CHC} (h : CHC.Tidy B s) (c : smt.SolverCall) (hc : c.headIsGhostOf B = false)
    (answer : List smt.SolverCall → smt.Expression → smt.CheckResult) :
    CHC.Tidy B { s with m_interface := ⟨s.m_interface.calls ++ [c], answer⟩ } :=
  ⟨h.heads.heads_append c hc, h.breakDest, h.continueDest, h.summaries, h.genesis, h.interface,
    h.error, h.constructor, h.function⟩

end CHC.Tidy

namespace Visitor.Tidies

theorem tidy_bind {B : List Nat} {α β : Type} {m : Visitor α} {f : α → Visitor β} {Q : α → Prop}
    {Q1 : β → Prop} (hm : Tidies B m Q) (hf : ∀ a, Q a → Tidies B (f a) Q1) :
    Tidies B (m >>= f) Q1 := by
  refine ⟨fun s hI => ?_⟩
  rw [Visitor.bind_run]
  have h1 := hm.outcome s hI
  cases hms : m s with
  | ok a s1 =>
    rw [hms] at h1
    exact (hf a h1.2).outcome s1 h1.1
  | abort msg s1 =>
    rw [hms] at h1
    exact h1

theorem tidy_weaken {B : List Nat} {α : Type} {m : Visitor α} {Q Q1 : α → Prop} (hm : Tidies B m Q)
    (hQ : ∀ a, Q a → Q1 a) : Tidies B m Q1 := by
  refine ⟨fun s hI => ?_⟩
  have h1 := hm.outcome s hI
  cases hms : m s with
  | ok a s1 =>
    rw [hms] at h1
    exact ⟨h1.1, hQ a h1.2⟩
  | abort msg s1 =>
    rw [hms] at h1
    exact h1

theorem tidy_forget {B : List Nat} {α : Type} {m : Visitor α} {Q : α → Prop} (hm : Tidies B m Q) :
    Tidies B m (fun _ => True) :=
  tidy_weaken hm fun _ _ => trivial

/-- A step of whose value nothing is kept, followed by further steps. -/
theorem tidy_then {B : List Nat} {α β : Type} {m : Visitor α} {f : α → Visitor β} {Q1 : β → Prop}
    (hm : Tidies B m (fun _ => True)) (hf : ∀ a, Tidies B (f a) Q1) : Tidies B (m >>= f) Q1 :=
  tidy_bind hm fun a _ => hf a

theorem tidy_pure {B : List Nat} {α : Type} {Q : α → Prop} (a : α) (h : Q a) :
    Tidies B (Pure.pure a : Visitor α) Q :=
  ⟨fun _ hI => ⟨hI, h⟩⟩

theorem tidy_pure_any {B : List Nat}
    {α : Type} (a : α) : Tidies B (Pure.pure a : Visitor α) (fun _ => True) :=
  ⟨fun _ hI => ⟨hI, trivial⟩⟩

theorem tidy_read {B : List Nat}
    {α : Type} {Q : α → Prop} (f : CHC → α) (h : ∀ s, CHC.Tidy B s → Q (f s)) :
    Tidies B (Visitor.read f) Q :=
  ⟨fun s hI => ⟨hI, h s hI⟩⟩

theorem tidy_read_any {B : List Nat}
    {α : Type} (f : CHC → α) : Tidies B (Visitor.read f) (fun _ => True) :=
  ⟨fun _ hI => ⟨hI, trivial⟩⟩

theorem tidy_read_breakDest {B : List Nat}
    : Tidies B (Visitor.read fun s => s.m_breakDest) (smt.PlainOption B) :=
  tidy_read _ fun _ hI => hI.breakDest

theorem tidy_read_continueDest {B : List Nat} :
    Tidies B (Visitor.read fun s => s.m_continueDest) (smt.PlainOption B) :=
  tidy_read _ fun _ hI => hI.continueDest

theorem tidy_deref {B : List Nat} {α : Type} {Q : α → Prop} (f : CHC → Option α) (what : String)
    (h : ∀ s a, CHC.Tidy B s → f s = some a → Q a) : Tidies B (Visitor.deref f what) Q := by
  refine ⟨fun s hI => ?_⟩
  unfold Visitor.deref
  cases hf : f s with
  | none => exact hI.heads
  | some a => exact ⟨hI, h s a hI hf⟩

theorem tidy_deref_any {B : List Nat} {α : Type} (f : CHC → Option α) (what : String) :
    Tidies B (Visitor.deref f what) (fun _ => True) :=
  tidy_deref f what fun _ _ _ _ => trivial

theorem tidy_deref_genesis {B : List Nat} (what : String) :
    Tidies B (Visitor.deref (fun s => s.m_genesisPredicate) what)
      (smt.SymbolicFunctionVariable.Plain B) :=
  tidy_deref _ what fun _ a hI h => hI.genesis a h

theorem tidy_deref_interface {B : List Nat} (what : String) :
    Tidies B (Visitor.deref (fun s => s.m_interfacePredicate) what)
      (smt.SymbolicFunctionVariable.Plain B) :=
  tidy_deref _ what fun _ a hI h => hI.interface a h

theorem tidy_deref_error {B : List Nat} (what : String) :
    Tidies B (Visitor.deref (fun s => s.m_errorPredicate) what)
      (smt.SymbolicFunctionVariable.Plain B) :=
  tidy_deref _ what fun _ a hI h => hI.error a h

theorem tidy_deref_constructor {B : List Nat} (what : String) :
    Tidies B (Visitor.deref (fun s => s.m_constructorPredicate) what)
      (smt.SymbolicFunctionVariable.Plain B) :=
  tidy_deref _ what fun _ a hI h => hI.constructor a h

theorem tidy_deref_breakDest {B : List Nat} (what : String) :
    Tidies B (Visitor.deref (fun s => s.m_breakDest) what) (smt.SymbolicFunctionVariable.Plain B) :=
  tidy_deref _ what fun _ a hI h => hI.breakDest a h

theorem tidy_deref_continueDest {B : List Nat} (what : String) :
    Tidies B (Visitor.deref (fun s => s.m_continueDest) what)
      (smt.SymbolicFunctionVariable.Plain B) :=
  tidy_deref _ what fun _ a hI h => hI.continueDest a h

theorem tidy_deref_summary {B : List Nat} (i : Nat) (what : String) :
    Tidies B (Visitor.deref (fun s => (s.m_summaries.find? fun p => p.1 == i).map (·.2)) what)
      (smt.SymbolicFunctionVariable.Plain B) :=
  tidy_deref _ what fun s a hI h => by
    obtain ⟨p, hp, rfl⟩ := Option.map_eq_some'.mp h
    exact hI.summaries p (List.mem_of_find?_eq_some hp)

theorem tidy_solAssert {B : List Nat} (c : Bool) (message : String) :
    Tidies B (solAssert c message) (fun _ => True) := by
  refine ⟨fun s hI => ?_⟩
  cases c
  · exact hI.heads
  · exact ⟨hI, trivial⟩

theorem tidy_update {B : List Nat} (f : CHC → CHC) (h : ∀ s, CHC.Tidy B s → CHC.Tidy B (f s)) :
    Tidies B (Visitor.update f) (fun _ => True) :=
  ⟨fun s hI => ⟨h s hI, trivial⟩⟩

theorem tidy_update_frame {B : List Nat} (f : CHC → CHC)
    (h : ∀ s, (f s).m_interface.calls = s.m_interface.calls ∧
      (f s).m_breakDest = s.m_breakDest ∧
      (f s).m_continueDest = s.m_continueDest ∧
      (f s).m_summaries = s.m_summaries ∧
      (f s).m_genesisPredicate = s.m_genesisPredicate ∧
      (f s).m_interfacePredicate = s.m_interfacePredicate ∧
      (f s).m_errorPredicate = s.m_errorPredicate ∧
      (f s).m_constructorPredicate = s.m_constructorPredicate ∧
      (f s).m_currentFunction = s.m_currentFunction) :
    Tidies B (Visitor.update f) (fun _ => True) :=
  tidy_update f fun s hI => by
    obtain ⟨h1, h2, h3, h4, h5, h6, h7, h8, h9⟩ := h s
    exact hI.tidy_frame h1 h2 h3 h4 h5 h6 h7 h8 h9

theorem tidy_forEach {B : List Nat} {α : Type} {f : α → Visitor Unit}
    (hf : ∀ a : α, Tidies B (f a) (fun _ => True)) :
    ∀ l : List α, Tidies B (Visitor.forEach f l) (fun _ => True)
  | [] => ⟨fun _ hI => ⟨hI, trivial⟩⟩
  | a :: rest => by
    rw [Visitor.forEach, Visitor.andThen_eq]
    exact tidy_then (hf a) (fun _ => tidy_forEach hf rest)

theorem tidy_heads {B : List Nat}
    {α : Type} {m : Visitor α} {Q : α → Prop} (h : Tidies B m Q) (s : CHC)
    (hI : CHC.Tidy B s) : smt.HeadsClean B (m s).state.m_interface.calls := by
  have h1 := h.outcome s hI
  cases hms : m s with
  | ok a s1 =>
    rw [hms] at h1
    exact h1.1.heads
  | abort msg s1 =>
    rw [hms] at h1
    exact h1

/-! ### The updates of the state -/

theorem tidy_update_breakDest {B : List Nat}
    (o : Option smt.SymbolicFunctionVariable) (ho : smt.PlainOption B o) :
    Tidies B (Visitor.update fun s => { s with m_breakDest := o }) (fun _ => True) :=
  tidy_update _ fun _ hI =>
    ⟨hI.heads, ho, hI.continueDest, hI.summaries, hI.genesis, hI.interface, hI.error,
      hI.constructor, hI.function⟩

theorem tidy_update_continueDest {B : List Nat} (o : Option smt.SymbolicFunctionVariable)
    (ho : smt.PlainOption B o) :
    Tidies B (Visitor.update fun s => { s with m_continueDest := o }) (fun _ => True) :=
  tidy_update _ fun _ hI =>
    ⟨hI.heads, hI.breakDest, ho, hI.summaries, hI.genesis, hI.interface, hI.error,
      hI.constructor, hI.function⟩

theorem tidy_update_breakDest_some {B : List Nat}
    (x : smt.SymbolicFunctionVariable) (hx : x.Plain B) :
    Tidies B (Visitor.update fun s => { s with m_breakDest := some x }) (fun _ => True) :=
  tidy_update_breakDest _ fun y hy => by cases hy; exact hx

theorem tidy_update_continueDest_some {B : List Nat}
    (x : smt.SymbolicFunctionVariable) (hx : x.Plain B) :
    Tidies B (Visitor.update fun s => { s with m_continueDest := some x }) (fun _ => True) :=
  tidy_update_continueDest _ fun y hy => by cases hy; exact hx

theorem tidy_update_continueDest_post {B : List Nat} (o : Option smt.SymbolicFunctionVariable)
    (x : smt.SymbolicFunctionVariable) (ho : smt.PlainOption B o) (hx : x.Plain B) :
    Tidies B
      (Visitor.update fun s =>
        { s with m_continueDest := match o with
          | some block => some block
          | none => some x })
      (fun _ => True) :=
  tidy_update_continueDest _ fun y hy => by
    cases o with
    | none =>
      cases hy
      exact hx
    | some z =>
      cases hy
      exact ho _ rfl

theorem tidy_update_genesisPredicate {B : List Nat}
    (x : smt.SymbolicFunctionVariable) (hx : x.Plain B) :
    Tidies B (Visitor.update fun s => { s with m_genesisPredicate := some x }) (fun _ => True) :=
  tidy_update _ fun _ hI =>
    ⟨hI.heads, hI.breakDest, hI.continueDest, hI.summaries, (fun y hy => by cases hy; exact hx),
      hI.interface, hI.error, hI.constructor, hI.function⟩

theorem tidy_update_interfacePredicate {B : List Nat}
    (x : smt.SymbolicFunctionVariable) (hx : x.Plain B) :
    Tidies B (Visitor.update fun s => { s with m_interfacePredicate := some x })
      (fun _ => True) :=
  tidy_update _ fun _ hI =>
    ⟨hI.heads, hI.breakDest, hI.continueDest, hI.summaries, hI.genesis,
      (fun y hy => by cases hy; exact hx), hI.error, hI.constructor, hI.function⟩

theorem tidy_update_errorPredicate {B : List Nat}
    (x : smt.SymbolicFunctionVariable) (hx : x.Plain B) :
    Tidies B (Visitor.update fun s => { s with m_errorPredicate := some x }) (fun _ => True) :=
  tidy_update _ fun _ hI =>
    ⟨hI.heads, hI.breakDest, hI.continueDest, hI.summaries, hI.genesis, hI.interface,
      (fun y hy => by cases hy; exact hx), hI.constructor, hI.function⟩

theorem tidy_update_constructorPredicate {B : List Nat}
    (x : smt.SymbolicFunctionVariable) (hx : x.Plain B) :
    Tidies B (Visitor.update fun s => { s with m_constructorPredicate := some x })
      (fun _ => True) :=
  tidy_update _ fun _ hI =>
    ⟨hI.heads, hI.breakDest, hI.continueDest, hI.summaries, hI.genesis, hI.interface,
      hI.error, (fun y hy => by cases hy; exact hx), hI.function⟩

theorem tidy_update_summaries {B : List Nat} (function : FunctionDefinition)
    (x : smt.SymbolicFunctionVariable) (hx : x.Plain B) :
    Tidies B
      (Visitor.update fun s => { s with m_summaries := emplaceSummary s.m_summaries function x })
      (fun _ => True) :=
  tidy_update _ fun s hI =>
    ⟨hI.heads, hI.breakDest, hI.continueDest,
      (fun p hp => by
        have hp1 : p ∈ emplaceSummary s.m_summaries function x := hp
        unfold emplaceSummary at hp1
        split at hp1
        · exact hI.summaries p hp1
        · rcases List.mem_append.mp hp1 with h1 | h1
          · exact hI.summaries p h1
          · rw [List.mem_singleton.mp h1]
            exact hx),
      hI.genesis, hI.interface, hI.error, hI.constructor, hI.function⟩

theorem tidy_update_function {B : List Nat} (f : FunctionDefinition)
    (hf : ∀ body, f.body = some body → body.id ∉ B) :
    Tidies B (Visitor.update fun s => { s with m_currentFunction := some f }) (fun _ => True) :=
  tidy_update _ fun _ hI =>
    ⟨hI.heads, hI.breakDest, hI.continueDest, hI.summaries, hI.genesis, hI.interface,
      hI.error, hI.constructor, fun g hg => by cases hg; exact hf⟩

theorem tidy_deref_function {B : List Nat} (what : String) :
    Tidies B (Visitor.deref (fun s => s.m_currentFunction) what)
      (fun f => ∀ body, f.body = some body → body.id ∉ B) :=
  tidy_deref _ what fun _ a hI h => hI.function a h

theorem tidy_deref_body {B : List Nat} (f : FunctionDefinition) (what : String)
    (hf : ∀ body, f.body = some body → body.id ∉ B) :
    Tidies B (Visitor.deref (fun _ => f.body) what) (fun body => body.id ∉ B) :=
  tidy_deref _ what fun _ a _ h => hf a h

theorem tidy_update_noFunction {B : List Nat} :
    Tidies B (Visitor.update fun s => { s with m_currentFunction := none }) (fun _ => True) :=
  tidy_update _ fun _ hI =>
    ⟨hI.heads, hI.breakDest, hI.continueDest, hI.summaries, hI.genesis, hI.interface,
      hI.error, hI.constructor, fun g hg => by cases hg⟩

end Visitor.Tidies

/-! ### The methods that talk to the solver adapter and create blocks -/

theorem CHC.reset_tidy {B : List Nat} : Visitor.Tidies B CHC.reset (fun _ => True) :=
  Visitor.Tidies.tidy_update _ fun _ hI =>
    ⟨hI.heads, (fun _ hy => by cases hy), (fun _ hy => by cases hy), (fun _ hp => by cases hp),
      hI.genesis, hI.interface, hI.error, hI.constructor, hI.function⟩

theorem CHC.uniquePrefix_tidy {B : List Nat} :
    Visitor.Tidies B CHC.uniquePrefix (fun counter => ∃ n : Nat, counter = toString n) :=
  ⟨fun s hI => ⟨hI.tidy_frame rfl rfl rfl rfl rfl rfl rfl rfl rfl, s.m_blockCounter, rfl⟩⟩

theorem CHC.createSymbolicBlock_tidy_any {B : List Nat} (sort : smt.FunctionSort) (name : String) :
    Visitor.Tidies B (CHC.createSymbolicBlock sort name) (fun _ => True) :=
  ⟨fun _ hI => ⟨hI.tidy_call (.registerRelation name 0 sort) rfl _, trivial⟩⟩

theorem CHC.createSymbolicBlock_tidy {B : List Nat} (sort : smt.FunctionSort) (name : String)
    (h : smt.isGhostOf B name = false) :
    Visitor.Tidies B (CHC.createSymbolicBlock sort name) (smt.SymbolicFunctionVariable.Plain B) :=
  ⟨fun _ hI => ⟨hI.tidy_call (.registerRelation name 0 sort) rfl _, h⟩⟩

theorem CHC.connectBlocks_tidy {B : List Nat} (source target constraints : smt.Expression)
    (ht : target.Plain B) :
    Visitor.Tidies B (CHC.connectBlocks source target constraints) (fun _ => True) := by
  refine ⟨fun s hI => ?_⟩
  rw [CHC.connectBlocks_run]
  have hc : (smt.SolverCall.addRule
      (.implies ((source.and s.m_context.assertions).and constraints) target)
      (source.name ++ "_to_" ++ target.name)).headIsGhostOf B = false := ht
  exact ⟨hI.tidy_call _ hc _, trivial⟩

theorem CHC.query_tidy {B : List Nat} (goal : smt.Expression) (location : SourceLocation) :
    Visitor.Tidies B (CHC.query goal location) (fun _ => True) := by
  refine ⟨fun s hI => ?_⟩
  unfold CHC.query
  cases h : s.m_interface.answer s.m_interface.calls goal <;>
    simp only [smt.CHCSolverInterface.query, h] <;>
    exact ⟨⟨hI.heads.heads_append (.query goal) rfl, hI.breakDest, hI.continueDest,
      hI.summaries, hI.genesis, hI.interface, hI.error, hI.constructor, hI.function⟩, trivial⟩

theorem CHC.sortNode_tidy {B : List Nat}
    (n : ASTNode) : Visitor.Tidies B (CHC.sortNode n) (fun _ => True) := by
  unfold CHC.sortNode CHC.sort
  cases n with
  | function f => exact Visitor.Tidies.tidy_read_any _
  | node i =>
    exact Visitor.Tidies.tidy_then (Visitor.Tidies.tidy_deref_any _ _)
      (fun _ => Visitor.Tidies.tidy_then (Visitor.Tidies.tidy_read_any _)
        (fun _ => Visitor.Tidies.tidy_pure_any _))

theorem CHC.predicateName_tidy_any {B : List Nat} (n : ASTNode) :
    Visitor.Tidies B (CHC.predicateName n) (fun _ => True) := by
  unfold CHC.predicateName
  exact Visitor.Tidies.tidy_read_any _

theorem CHC.createBlock_tidy_any {B : List Nat} (n : ASTNode) (pfx : String) :
    Visitor.Tidies B (CHC.createBlock n pfx) (fun _ => True) := by
  unfold CHC.createBlock
  exact Visitor.Tidies.tidy_then (CHC.sortNode_tidy n)
    (fun _ => Visitor.Tidies.tidy_then CHC.uniquePrefix_tidy.tidy_forget
      (fun _ => Visitor.Tidies.tidy_then (CHC.predicateName_tidy_any n)
        (fun _ => CHC.createSymbolicBlock_tidy_any _ _)))

/-- The name that a function gives to its block does not begin like the name
part of a ghost block. -/
theorem CHC.predicateName_tidy_function {B : List Nat} (f : FunctionDefinition) :
    Visitor.Tidies B (CHC.predicateName (.function f))
      (fun name => smt.ghostTail name.data = false) := by
  unfold CHC.predicateName
  refine Visitor.Tidies.tidy_read _ fun s hI => ?_
  cases hk : f.kind <;>
    simp [hk, TokenTraits.toString, smt.ghostTail, List.isPrefixOf]

/-- The name that a node gives to its block ends with the id of the node, which
an underscore precedes when something precedes it. -/
theorem CHC.predicateName_tidy_node {B : List Nat} (j : Nat) :
    Visitor.Tidies B (CHC.predicateName (.node j))
      (fun name => ∃ X : List Char, '_' :: name.data = X ++ '_' :: (toString j).data) := by
  unfold CHC.predicateName
  refine Visitor.Tidies.tidy_read _ fun s hI => ?_
  dsimp only
  cases hf : s.m_currentFunction with
  | none => exact ⟨[], rfl⟩
  | some f =>
    dsimp only
    split
    · exact ⟨[], rfl⟩
    · refine ⟨'_' :: f.name.data, ?_⟩
      simp only [String.data_append, List.append_assoc, List.cons_append]
      rfl

/-- A block created with a prefix other than those of the ghost blocks is no
ghost block. -/
theorem CHC.createBlock_tidy {B : List Nat} (n : ASTNode) (pfx : String)
    (h : smt.plainPrefix pfx = true) :
    Visitor.Tidies B (CHC.createBlock n pfx) (smt.SymbolicFunctionVariable.Plain B) := by
  unfold CHC.createBlock
  refine Visitor.Tidies.tidy_then (CHC.sortNode_tidy n) (fun blockSort => ?_)
  refine Visitor.Tidies.tidy_bind CHC.uniquePrefix_tidy (fun counter hc => ?_)
  refine Visitor.Tidies.tidy_then (CHC.predicateName_tidy_any n) (fun name => ?_)
  refine CHC.createSymbolicBlock_tidy _ _ (smt.isGhostOf_shape _ ?_)
  obtain ⟨k, rfl⟩ := hc
  have ha : "block_" ++ toString k ++ "_" ++ pfx ++ name =
      "block_" ++ toString k ++ "_" ++ (pfx ++ name) := String.append_assoc _ _ _
  rw [ha, smt.isGhostName_block, String.data_append]
  exact smt.ghostTail_plainPrefix pfx h _

/-- The block that is created for a function, without a prefix, is no ghost
block. -/
theorem CHC.createBlock_tidy_function {B : List Nat} (f : FunctionDefinition) :
    Visitor.Tidies B (CHC.createBlock (.function f) "")
      (smt.SymbolicFunctionVariable.Plain B) := by
  unfold CHC.createBlock
  refine Visitor.Tidies.tidy_then (CHC.sortNode_tidy _) (fun blockSort => ?_)
  refine Visitor.Tidies.tidy_bind CHC.uniquePrefix_tidy (fun counter hc => ?_)
  refine Visitor.Tidies.tidy_bind (CHC.predicateName_tidy_function f) (fun name hn => ?_)
  refine CHC.createSymbolicBlock_tidy _ _ (smt.isGhostOf_shape _ ?_)
  obtain ⟨k, rfl⟩ := hc
  have ha : "block_" ++ toString k ++ "_" ++ "" ++ name =
      "block_" ++ toString k ++ "_" ++ ("" ++ name) := String.append_assoc _ _ _
  rw [ha, smt.isGhostName_block, String.data_append]
  exact hn

/-- The block that is created without a prefix for a node that is no `break` or
`continue` statement is no ghost block. -/
theorem CHC.createBlock_tidy_node {B : List Nat} (j : Nat) (hj : j ∉ B) :
    Visitor.Tidies B (CHC.createBlock (.node j) "")
      (smt.SymbolicFunctionVariable.Plain B) := by
  unfold CHC.createBlock
  refine Visitor.Tidies.tidy_then (CHC.sortNode_tidy _) (fun blockSort => ?_)
  refine Visitor.Tidies.tidy_then CHC.uniquePrefix_tidy.tidy_forget (fun counter => ?_)
  refine Visitor.Tidies.tidy_bind (CHC.predicateName_tidy_node j) (fun name hn => ?_)
  obtain ⟨X, hX⟩ := hn
  refine CHC.createSymbolicBlock_tidy _ _
    (smt.isGhostOf_node _ ("block_".data ++ counter.data ++ X) j ?_ hj)
  have hd : ("block_" ++ counter ++ "_" ++ "" ++ name).data =
      "block_".data ++ counter.data ++ ('_' :: name.data) := by
    simp only [String.data_append, List.append_assoc]
    rfl
  rw [hd, hX]
  simp only [List.append_assoc]

theorem CHC.createSummaryBlock_tidy {B : List Nat} (f : FunctionDefinition) :
    Visitor.Tidies B (CHC.createSummaryBlock f) (smt.SymbolicFunctionVariable.Plain B) := by
  unfold CHC.createSummaryBlock CHC.summarySort
  refine Visitor.Tidies.tidy_then (Visitor.Tidies.tidy_read_any _) (fun blockSort => ?_)
  refine Visitor.Tidies.tidy_then CHC.uniquePrefix_tidy.tidy_forget (fun counter => ?_)
  refine Visitor.Tidies.tidy_then (CHC.predicateName_tidy_any _) (fun name => ?_)
  refine CHC.createSymbolicBlock_tidy _ _ (smt.isGhostOf_shape _ (smt.isGhostName_other _ ?_))
  simp [List.isPrefixOf]

theorem CHC.createOptionalBlock_tidy {B : List Nat} (o : Option (Nat × Visitor Unit))
    (pfx : String) (h : smt.plainPrefix pfx = true) :
    Visitor.Tidies B
      (match o with
        | some statement => do
          let block ← CHC.createBlock (.node statement.1) pfx
          pure (some block)
        | none => pure none) (smt.PlainOption B) := by
  cases o with
  | none => exact Visitor.Tidies.tidy_pure _ (fun _ hb => by cases hb)
  | some st =>
    exact Visitor.Tidies.tidy_bind (CHC.createBlock_tidy _ _ h)
      (fun b hb => Visitor.Tidies.tidy_pure _ (fun y hy => by cases hy; exact hb))

theorem CHC.createErrorBlock_tidy {B : List Nat} :
    Visitor.Tidies B CHC.createErrorBlock (fun _ => True) := by
  unfold CHC.createErrorBlock
  refine Visitor.Tidies.tidy_bind (Visitor.Tidies.tidy_deref_error _) (fun ep hep => ?_)
  refine Visitor.Tidies.tidy_then
    (Visitor.Tidies.tidy_update_errorPredicate ep.increaseIndex hep) (fun _ => ?_)
  exact Visitor.Tidies.tidy_update _ fun _ hI =>
    hI.tidy_call (.registerRelation ep.increaseIndex.uniqueName ep.increaseIndex.index
      ep.increaseIndex.sort) rfl _

/-- A predicate symbol that is no ghost block, applied to arguments. -/
theorem smt.SymbolicFunctionVariable.Plain.plain_app {B : List Nat}
    {b : smt.SymbolicFunctionVariable}
    (h : b.Plain B) (arguments : List smt.Expression) : (b.app arguments).Plain B :=
  h

theorem CHC.addRule_tidy {B : List Nat}
    (rule : smt.Expression) (name : String) (h : rule.head.Plain B) :
    Visitor.Tidies B (CHC.addRule rule name) (fun _ => True) :=
  Visitor.Tidies.tidy_update _ fun _ hI => hI.tidy_call (.addRule rule name) h _

theorem SMTEncoder.defineExpr_tidy {B : List Nat} (e : Expression) (value : smt.Expression) :
    Visitor.Tidies B (SMTEncoder.defineExpr e value) (fun _ => True) :=
  Visitor.Tidies.tidy_update_frame _ (fun _ => ⟨rfl, rfl, rfl, rfl, rfl, rfl, rfl, rfl, rfl⟩)

theorem SMTEncoder.assignment_tidy {B : List Nat}
    (decl : VariableDeclaration) (value : smt.Expression) :
    Visitor.Tidies B (SMTEncoder.assignment decl value) (fun _ => True) :=
  Visitor.Tidies.tidy_update_frame _ (fun _ => ⟨rfl, rfl, rfl, rfl, rfl, rfl, rfl, rfl, rfl⟩)

/-- A walk over a list, when the walk over each of its members keeps the
analyzer tidy. -/
theorem Visitor.Tidies.tidy_forEach_mem {B : List Nat} {α : Type} {f : α → Visitor Unit} :
    ∀ l : List α, (∀ a ∈ l, Visitor.Tidies B (f a) (fun _ => True)) →
      Visitor.Tidies B (Visitor.forEach f l) (fun _ => True)
  | [], _ => ⟨fun _ hI => ⟨hI, trivial⟩⟩
  | a :: rest, h => by
    rw [Visitor.forEach, Visitor.andThen_eq]
    exact Visitor.Tidies.tidy_then (h a (List.mem_cons_self _ _))
      (fun _ => Visitor.Tidies.tidy_forEach_mem rest (fun b hb => h b (List.mem_cons_of_mem _ hb)))

theorem SMTEncoder.resolvedFunctions_mem (c : ContractDefinition) (f : FunctionDefinition)
    (h : f ∈ SMTEncoder.resolvedFunctions c) :
    f ∈ c.definedFunctions ∨ ∃ base ∈ c.baseContracts, f ∈ base.definedFunctions := by
  unfold SMTEncoder.resolvedFunctions at h
  have inner : ∀ (fs : List FunctionDefinition) (resolved : List FunctionDefinition),
      f ∈ fs.foldl (fun resolved f =>
        if f.isConstructor || resolved.any (fun g => g.name == f.name) then resolved
        else resolved ++ [f]) resolved → f ∈ resolved ∨ f ∈ fs := by
    intro fs
    induction fs with
    | nil => intro resolved hm; exact Or.inl hm
    | cons g fs ih =>
      intro resolved hm
      rw [List.foldl_cons] at hm
      rcases ih _ hm with h1 | h1
      · split at h1
        · exact Or.inl h1
        · rcases List.mem_append.mp h1 with h2 | h2
          · exact Or.inl h2
          · exact Or.inr (by rw [List.mem_singleton.mp h2]; exact List.mem_cons_self _ _)
      · exact Or.inr (List.mem_cons_of_mem _ h1)
  have outer : ∀ (bases : List BaseContract) (resolved : List FunctionDefinition),
      f ∈ bases.foldl (fun resolved base =>
        base.definedFunctions.foldl (fun resolved f =>
          if f.isConstructor || resolved.any (fun g => g.name == f.name) then resolved
          else resolved ++ [f]) resolved) resolved →
      f ∈ resolved ∨ ∃ base ∈ bases, f ∈ base.definedFunctions := by
    intro bases
    induction bases with
    | nil => intro resolved hm; exact Or.inl hm
    | cons b bases ih =>
      intro resolved hm
      rw [List.foldl_cons] at hm
      rcases ih _ hm with h1 | ⟨base, hb, hf⟩
      · rcases inner _ _ h1 with h2 | h2
        · exact Or.inl h2
        · exact Or.inr ⟨b, List.mem_cons_self _ _, h2⟩
      · exact Or.inr ⟨base, List.mem_cons_of_mem _ hb, hf⟩
  exact outer _ _ h

theorem ContractDefinition.mem_allFunctions (c : ContractDefinition) (f : FunctionDefinition)
    (h : f ∈ c.definedFunctions ∨ ∃ base ∈ c.baseContracts, f ∈ base.definedFunctions) :
    f ∈ c.allFunctions := by
  unfold ContractDefinition.allFunctions
  rcases h with h | ⟨base, hb, hf⟩
  · exact List.mem_append_left _ h
  · exact List.mem_append_right _
      (List.mem_flatten.mpr ⟨_, List.mem_map.mpr ⟨base, hb, rfl⟩, hf⟩)

theorem ContractDefinition.apart_bases {B : List Nat} (c : ContractDefinition)
    (hc : ∀ f ∈ c.allFunctions, f.ApartFrom B) :
    ∀ base ∈ c.baseContracts, ∀ f ∈ base.definedFunctions, f.ApartFrom B :=
  fun base hb f hf => hc f (c.mem_allFunctions f (Or.inr ⟨base, hb, hf⟩))

theorem ContractDefinition.apart_constructor {B : List Nat} (c : ContractDefinition)
    (hc : ∀ f ∈ c.allFunctions, f.ApartFrom B)
    (f : FunctionDefinition) (h : c.constructor = some f) : f.ApartFrom B :=
  hc f (c.mem_allFunctions f (Or.inl (List.mem_of_find?_eq_some h)))

theorem ContractDefinition.apart_resolved {B : List Nat} (c : ContractDefinition)
    (hc : ∀ f ∈ c.allFunctions, f.ApartFrom B)
    (f : FunctionDefinition) (h : f ∈ SMTEncoder.resolvedFunctions c) : f.ApartFrom B :=
  hc f (c.mem_allFunctions f (SMTEncoder.resolvedFunctions_mem c f h))

theorem FunctionDefinition.ApartFrom.apart_body {B : List Nat} {f : FunctionDefinition}
    (h : f.ApartFrom B) : ∀ body, f.body = some body → body.id ∉ B := by
  intro body hb
  refine h body.id ?_
  unfold FunctionDefinition.plainIds
  rw [hb]
  exact List.mem_cons_self _ _

theorem FunctionDefinition.ApartFrom.apart_calls {B : List Nat} {f : FunctionDefinition}
    (h : f.ApartFrom B) : ∀ body, f.body = some body → ∀ id ∈ body.callIds, id ∉ B := by
  intro body hb id hid
  refine h id ?_
  unfold FunctionDefinition.plainIds
  rw [hb]
  exact List.mem_cons_of_mem _ hid

/-- The functions of a source unit keep their bodies and calls apart from the
`break` and `continue` statements that the source unit owns. -/
theorem SourceUnit.apart_own (source : SourceUnit) :
    ∀ c ∈ source.contracts, ∀ f ∈ c.allFunctions, f.ApartFrom source.ownGhostIds := by
  intro c hc f hf id hid hown
  have h1 : id ∈ source.plainIds := by
    unfold SourceUnit.plainIds SourceUnit.allFunctions
    exact List.mem_flatten.mpr ⟨_, List.mem_map.mpr ⟨f,
      List.mem_flatten.mpr ⟨_, List.mem_map.mpr ⟨c, hc, rfl⟩, hf⟩, rfl⟩, hid⟩
  unfold SourceUnit.ownGhostIds at hown
  have h2 := (List.mem_filter.mp hown).2
  rw [Bool.not_eq_true'] at h2
  have h3 : source.plainIds.contains id = true := List.elem_iff.mpr h1
  rw [h2] at h3
  cases h3

theorem SourceUnit.ownGhostIds_apart (source : SourceUnit) (h : source.idsApart = true) :
    source.ownGhostIds = source.ghostIds := by
  unfold SourceUnit.ownGhostIds
  unfold SourceUnit.idsApart at h
  exact List.filter_eq_self.mpr (fun i hi => List.all_eq_true.mp h i hi)

/-- The term `genesis()` is a fact whose head is no ghost block. -/
theorem CHC.genesis_tidy_fact {B : List Nat} :
    Visitor.Tidies B CHC.genesis (fun e => e.head.Plain B) := by
  unfold CHC.genesis
  exact Visitor.Tidies.tidy_bind (Visitor.Tidies.tidy_deref_genesis _)
    (fun gp hgp => Visitor.Tidies.tidy_pure _ hgp)

theorem CHC.new_tidy {B : List Nat}
    (answer : List smt.SolverCall → smt.Expression → smt.CheckResult) :
    CHC.Tidy B (CHC.new answer) :=
  ⟨smt.HeadsClean.heads_nil, (fun _ h => by cases h), (fun _ h => by cases h),
    (fun _ h => by cases h), (fun _ h => by cases h), (fun _ h => by cases h),
    (fun _ h => by cases h), (fun _ h => by cases h), (fun _ h => by cases h)⟩

/-! ## Every method keeps the analyzer tidy -/

theorem SMTEncoder.expr_tidy {B : List Nat} (e : Expression) :
    Visitor.Tidies B (SMTEncoder.expr e) (fun _ => True) := by
  unfold SMTEncoder.expr
  repeat' (first
    | with_reducible exact CHC.createErrorBlock_tidy
    | with_reducible exact CHC.query_tidy _ _
    | with_reducible exact CHC.reset_tidy
    | with_reducible exact SMTEncoder.defineExpr_tidy _ _
    | with_reducible exact SMTEncoder.assignment_tidy _ _
    | (refine CHC.connectBlocks_tidy _ _ _ ?_; assumption)
    | with_reducible apply Visitor.Tidies.tidy_bind
    | with_reducible exact Visitor.Tidies.tidy_solAssert _ _
    | with_reducible exact Visitor.Tidies.tidy_pure_any _
    | (refine Visitor.Tidies.tidy_pure _ (smt.SymbolicFunctionVariable.Plain.plain_app ?_ _); assumption)
    | with_reducible exact Visitor.Tidies.tidy_read_breakDest
    | with_reducible exact Visitor.Tidies.tidy_read_continueDest
    | with_reducible exact Visitor.Tidies.tidy_read_any _
    | with_reducible exact Visitor.Tidies.tidy_deref_genesis _
    | with_reducible exact Visitor.Tidies.tidy_deref_interface _
    | with_reducible exact Visitor.Tidies.tidy_deref_error _
    | with_reducible exact Visitor.Tidies.tidy_deref_constructor _
    | with_reducible exact Visitor.Tidies.tidy_deref_breakDest _
    | with_reducible exact Visitor.Tidies.tidy_deref_continueDest _
    | with_reducible exact Visitor.Tidies.tidy_deref_summary _ _
    | with_reducible exact Visitor.Tidies.tidy_deref_function _
    | (refine Visitor.Tidies.tidy_deref_body _ _ ?_; assumption)
    | with_reducible exact Visitor.Tidies.tidy_deref_any _ _
    | with_reducible exact Visitor.Tidies.tidy_update_frame _ (fun _ => ⟨rfl, rfl, rfl, rfl, rfl, rfl, rfl, rfl, rfl⟩)
    | (refine Visitor.Tidies.tidy_update_breakDest_some _ ?_; assumption)
    | (refine Visitor.Tidies.tidy_update_continueDest_some _ ?_; assumption)
    | (refine Visitor.Tidies.tidy_update_breakDest _ ?_; assumption)
    | (refine Visitor.Tidies.tidy_update_continueDest _ ?_; assumption)
    | (refine Visitor.Tidies.tidy_update_continueDest_post _ _ ?_ ?_ <;> assumption)
    | (refine Visitor.Tidies.tidy_update_genesisPredicate _ ?_; assumption)
    | (refine Visitor.Tidies.tidy_update_interfacePredicate _ ?_; assumption)
    | (refine Visitor.Tidies.tidy_update_errorPredicate _ ?_; assumption)
    | (refine Visitor.Tidies.tidy_update_constructorPredicate _ ?_; assumption)
    | (refine Visitor.Tidies.tidy_update_summaries _ _ ?_; assumption)
    | (refine Visitor.Tidies.tidy_update_function _ ?_; assumption)
    | with_reducible exact Visitor.Tidies.tidy_update_noFunction
    | with_reducible apply Visitor.Tidies.tidy_forEach
    | intro _
    | split
    | (show Visitor.Tidies _ _ (fun _ => True); split)
    | dsimp only)

theorem SMTEncoder.currentValue_tidy {B : List Nat} (decl : VariableDeclaration) :
    Visitor.Tidies B (SMTEncoder.currentValue decl) (fun _ => True) := by
  unfold SMTEncoder.currentValue
  repeat' (first
    | with_reducible exact CHC.createErrorBlock_tidy
    | with_reducible exact CHC.query_tidy _ _
    | with_reducible exact CHC.reset_tidy
    | with_reducible exact SMTEncoder.defineExpr_tidy _ _
    | with_reducible exact SMTEncoder.assignment_tidy _ _
    | (refine CHC.connectBlocks_tidy _ _ _ ?_; assumption)
    | with_reducible apply Visitor.Tidies.tidy_bind
    | with_reducible exact Visitor.Tidies.tidy_solAssert _ _
    | with_reducible exact Visitor.Tidies.tidy_pure_any _
    | (refine Visitor.Tidies.tidy_pure _ (smt.SymbolicFunctionVariable.Plain.plain_app ?_ _); assumption)
    | with_reducible exact Visitor.Tidies.tidy_read_breakDest
    | with_reducible exact Visitor.Tidies.tidy_read_continueDest
    | with_reducible exact Visitor.Tidies.tidy_read_any _
    | with_reducible exact Visitor.Tidies.tidy_deref_genesis _
    | with_reducible exact Visitor.Tidies.tidy_deref_interface _
    | with_reducible exact Visitor.Tidies.tidy_deref_error _
    | with_reducible exact Visitor.Tidies.tidy_deref_constructor _
    | with_reducible exact Visitor.Tidies.tidy_deref_breakDest _
    | with_reducible exact Visitor.Tidies.tidy_deref_continueDest _
    | with_reducible exact Visitor.Tidies.tidy_deref_summary _ _
    | with_reducible exact Visitor.Tidies.tidy_deref_function _
    | (refine Visitor.Tidies.tidy_deref_body _ _ ?_; assumption)
    | with_reducible exact Visitor.Tidies.tidy_deref_any _ _
    | with_reducible exact Visitor.Tidies.tidy_update_frame _ (fun _ => ⟨rfl, rfl, rfl, rfl, rfl, rfl, rfl, rfl, rfl⟩)
    | (refine Visitor.Tidies.tidy_update_breakDest_some _ ?_; assumption)
    | (refine Visitor.Tidies.tidy_update_continueDest_some _ ?_; assumption)
    | (refine Visitor.Tidies.tidy_update_breakDest _ ?_; assumption)
    | (refine Visitor.Tidies.tidy_update_continueDest _ ?_; assumption)
    | (refine Visitor.Tidies.tidy_update_continueDest_post _ _ ?_ ?_ <;> assumption)
    | (refine Visitor.Tidies.tidy_update_genesisPredicate _ ?_; assumption)
    | (refine Visitor.Tidies.tidy_update_interfacePredicate _ ?_; assumption)
    | (refine Visitor.Tidies.tidy_update_errorPredicate _ ?_; assumption)
    | (refine Visitor.Tidies.tidy_update_constructorPredicate _ ?_; assumption)
    | (refine Visitor.Tidies.tidy_update_summaries _ _ ?_; assumption)
    | (refine Visitor.Tidies.tidy_update_function _ ?_; assumption)
    | with_reducible exact Visitor.Tidies.tidy_update_noFunction
    | with_reducible apply Visitor.Tidies.tidy_forEach
    | intro _
    | split
    | (show Visitor.Tidies _ _ (fun _ => True); split)
    | dsimp only)

theorem SMTEncoder.currentPathConditions_tidy {B : List Nat} :
    Visitor.Tidies B SMTEncoder.currentPathConditions (fun _ => True) := by
  unfold SMTEncoder.currentPathConditions
  repeat' (first
    | with_reducible exact CHC.createErrorBlock_tidy
    | with_reducible exact CHC.query_tidy _ _
    | with_reducible exact CHC.reset_tidy
    | with_reducible exact SMTEncoder.defineExpr_tidy _ _
    | with_reducible exact SMTEncoder.assignment_tidy _ _
    | (refine CHC.connectBlocks_tidy _ _ _ ?_; assumption)
    | with_reducible apply Visitor.Tidies.tidy_bind
    | with_reducible exact Visitor.Tidies.tidy_solAssert _ _
    | with_reducible exact Visitor.Tidies.tidy_pure_any _
    | (refine Visitor.Tidies.tidy_pure _ (smt.SymbolicFunctionVariable.Plain.plain_app ?_ _); assumption)
    | with_reducible exact Visitor.Tidies.tidy_read_breakDest
    | with_reducible exact Visitor.Tidies.tidy_read_continueDest
    | with_reducible exact Visitor.Tidies.tidy_read_any _
    | with_reducible exact Visitor.Tidies.tidy_deref_genesis _
    | with_reducible exact Visitor.Tidies.tidy_deref_interface _
    | with_reducible exact Visitor.Tidies.tidy_deref_error _
    | with_reducible exact Visitor.Tidies.tidy_deref_constructor _
    | with_reducible exact Visitor.Tidies.tidy_deref_breakDest _
    | with_reducible exact Visitor.Tidies.tidy_deref_continueDest _
    | with_reducible exact Visitor.Tidies.tidy_deref_summary _ _
    | with_reducible exact Visitor.Tidies.tidy_deref_function _
    | (refine Visitor.Tidies.tidy_deref_body _ _ ?_; assumption)
    | with_reducible exact Visitor.Tidies.tidy_deref_any _ _
    | with_reducible exact Visitor.Tidies.tidy_update_frame _ (fun _ => ⟨rfl, rfl, rfl, rfl, rfl, rfl, rfl, rfl, rfl⟩)
    | (refine Visitor.Tidies.tidy_update_breakDest_some _ ?_; assumption)
    | (refine Visitor.Tidies.tidy_update_continueDest_some _ ?_; assumption)
    | (refine Visitor.Tidies.tidy_update_breakDest _ ?_; assumption)
    | (refine Visitor.Tidies.tidy_update_continueDest _ ?_; assumption)
    | (refine Visitor.Tidies.tidy_update_continueDest_post _ _ ?_ ?_ <;> assumption)
    | (refine Visitor.Tidies.tidy_update_genesisPredicate _ ?_; assumption)
    | (refine Visitor.Tidies.tidy_update_interfacePredicate _ ?_; assumption)
    | (refine Visitor.Tidies.tidy_update_errorPredicate _ ?_; assumption)
    | (refine Visitor.Tidies.tidy_update_constructorPredicate _ ?_; assumption)
    | (refine Visitor.Tidies.tidy_update_summaries _ _ ?_; assumption)
    | (refine Visitor.Tidies.tidy_update_function _ ?_; assumption)
    | with_reducible exact Visitor.Tidies.tidy_update_noFunction
    | with_reducible apply Visitor.Tidies.tidy_forEach
    | intro _
    | split
    | (show Visitor.Tidies _ _ (fun _ => True); split)
    | dsimp only)

theorem SMTEncoder.createVariable_tidy {B : List Nat} (decl : VariableDeclaration) :
    Visitor.Tidies B (SMTEncoder.createVariable decl) (fun _ => True) := by
  unfold SMTEncoder.createVariable
  repeat' (first
    | with_reducible exact CHC.createErrorBlock_tidy
    | with_reducible exact CHC.query_tidy _ _
    | with_reducible exact CHC.reset_tidy
    | with_reducible exact SMTEncoder.defineExpr_tidy _ _
    | with_reducible exact SMTEncoder.assignment_tidy _ _
    | (refine CHC.connectBlocks_tidy _ _ _ ?_; assumption)
    | with_reducible apply Visitor.Tidies.tidy_bind
    | with_reducible exact Visitor.Tidies.tidy_solAssert _ _
    | with_reducible exact Visitor.Tidies.tidy_pure_any _
    | (refine Visitor.Tidies.tidy_pure _ (smt.SymbolicFunctionVariable.Plain.plain_app ?_ _); assumption)
    | with_reducible exact Visitor.Tidies.tidy_read_breakDest
    | with_reducible exact Visitor.Tidies.tidy_read_continueDest
    | with_reducible exact Visitor.Tidies.tidy_read_any _
    | with_reducible exact Visitor.Tidies.tidy_deref_genesis _
    | with_reducible exact Visitor.Tidies.tidy_deref_interface _
    | with_reducible exact Visitor.Tidies.tidy_deref_error _
    | with_reducible exact Visitor.Tidies.tidy_deref_constructor _
    | with_reducible exact Visitor.Tidies.tidy_deref_breakDest _
    | with_reducible exact Visitor.Tidies.tidy_deref_continueDest _
    | with_reducible exact Visitor.Tidies.tidy_deref_summary _ _
    | with_reducible exact Visitor.Tidies.tidy_deref_function _
    | (refine Visitor.Tidies.tidy_deref_body _ _ ?_; assumption)
    | with_reducible exact Visitor.Tidies.tidy_deref_any _ _
    | with_reducible exact Visitor.Tidies.tidy_update_frame _ (fun _ => ⟨rfl, rfl, rfl, rfl, rfl, rfl, rfl, rfl, rfl⟩)
    | (refine Visitor.Tidies.tidy_update_breakDest_some _ ?_; assumption)
    | (refine Visitor.Tidies.tidy_update_continueDest_some _ ?_; assumption)
    | (refine Visitor.Tidies.tidy_update_breakDest _ ?_; assumption)
    | (refine Visitor.Tidies.tidy_update_continueDest _ ?_; assumption)
    | (refine Visitor.Tidies.tidy_update_continueDest_post _ _ ?_ ?_ <;> assumption)
    | (refine Visitor.Tidies.tidy_update_genesisPredicate _ ?_; assumption)
    | (refine Visitor.Tidies.tidy_update_interfacePredicate _ ?_; assumption)
    | (refine Visitor.Tidies.tidy_update_errorPredicate _ ?_; assumption)
    | (refine Visitor.Tidies.tidy_update_constructorPredicate _ ?_; assumption)
    | (refine Visitor.Tidies.tidy_update_summaries _ _ ?_; assumption)
    | (refine Visitor.Tidies.tidy_update_function _ ?_; assumption)
    | with_reducible exact Visitor.Tidies.tidy_update_noFunction
    | with_reducible apply Visitor.Tidies.tidy_forEach
    | intro _
    | split
    | (show Visitor.Tidies _ _ (fun _ => True); split)
    | dsimp only)

theorem SMTEncoder.baseClearIndices_tidy {B : List Nat} (c : Option ContractDefinition) (f : Option FunctionDefinition) :
    Visitor.Tidies B (SMTEncoder.clearIndices c f) (fun _ => True) := by
  unfold SMTEncoder.clearIndices
  repeat' (first
    | with_reducible exact CHC.createErrorBlock_tidy
    | with_reducible exact CHC.query_tidy _ _
    | with_reducible exact CHC.reset_tidy
    | with_reducible exact SMTEncoder.defineExpr_tidy _ _
    | with_reducible exact SMTEncoder.assignment_tidy _ _
    | (refine CHC.connectBlocks_tidy _ _ _ ?_; assumption)
    | with_reducible apply Visitor.Tidies.tidy_bind
    | with_reducible exact Visitor.Tidies.tidy_solAssert _ _
    | with_reducible exact Visitor.Tidies.tidy_pure_any _
    | (refine Visitor.Tidies.tidy_pure _ (smt.SymbolicFunctionVariable.Plain.plain_app ?_ _); assumption)
    | with_reducible exact Visitor.Tidies.tidy_read_breakDest
    | with_reducible exact Visitor.Tidies.tidy_read_continueDest
    | with_reducible exact Visitor.Tidies.tidy_read_any _
    | with_reducible exact Visitor.Tidies.tidy_deref_genesis _
    | with_reducible exact Visitor.Tidies.tidy_deref_interface _
    | with_reducible exact Visitor.Tidies.tidy_deref_error _
    | with_reducible exact Visitor.Tidies.tidy_deref_constructor _
    | with_reducible exact Visitor.Tidies.tidy_deref_breakDest _
    | with_reducible exact Visitor.Tidies.tidy_deref_continueDest _
    | with_reducible exact Visitor.Tidies.tidy_deref_summary _ _
    | with_reducible exact Visitor.Tidies.tidy_deref_function _
    | (refine Visitor.Tidies.tidy_deref_body _ _ ?_; assumption)
    | with_reducible exact Visitor.Tidies.tidy_deref_any _ _
    | with_reducible exact Visitor.Tidies.tidy_update_frame _ (fun _ => ⟨rfl, rfl, rfl, rfl, rfl, rfl, rfl, rfl, rfl⟩)
    | (refine Visitor.Tidies.tidy_update_breakDest_some _ ?_; assumption)
    | (refine Visitor.Tidies.tidy_update_continueDest_some _ ?_; assumption)
    | (refine Visitor.Tidies.tidy_update_breakDest _ ?_; assumption)
    | (refine Visitor.Tidies.tidy_update_continueDest _ ?_; assumption)
    | (refine Visitor.Tidies.tidy_update_continueDest_post _ _ ?_ ?_ <;> assumption)
    | (refine Visitor.Tidies.tidy_update_genesisPredicate _ ?_; assumption)
    | (refine Visitor.Tidies.tidy_update_interfacePredicate _ ?_; assumption)
    | (refine Visitor.Tidies.tidy_update_errorPredicate _ ?_; assumption)
    | (refine Visitor.Tidies.tidy_update_constructorPredicate _ ?_; assumption)
    | (refine Visitor.Tidies.tidy_update_summaries _ _ ?_; assumption)
    | (refine Visitor.Tidies.tidy_update_function _ ?_; assumption)
    | with_reducible exact Visitor.Tidies.tidy_update_noFunction
    | with_reducible apply Visitor.Tidies.tidy_forEach
    | intro _
    | split
    | (show Visitor.Tidies _ _ (fun _ => True); split)
    | dsimp only)

theorem SMTEncoder.resetStateVariables_tidy {B : List Nat} :
    Visitor.Tidies B SMTEncoder.resetStateVariables (fun _ => True) := by
  unfold SMTEncoder.resetStateVariables
  repeat' (first
    | with_reducible exact CHC.createErrorBlock_tidy
    | with_reducible exact CHC.query_tidy _ _
    | with_reducible exact CHC.reset_tidy
    | with_reducible exact SMTEncoder.defineExpr_tidy _ _
    | with_reducible exact SMTEncoder.assignment_tidy _ _
    | (refine CHC.connectBlocks_tidy _ _ _ ?_; assumption)
    | with_reducible apply Visitor.Tidies.tidy_bind
    | with_reducible exact Visitor.Tidies.tidy_solAssert _ _
    | with_reducible exact Visitor.Tidies.tidy_pure_any _
    | (refine Visitor.Tidies.tidy_pure _ (smt.SymbolicFunctionVariable.Plain.plain_app ?_ _); assumption)
    | with_reducible exact Visitor.Tidies.tidy_read_breakDest
    | with_reducible exact Visitor.Tidies.tidy_read_continueDest
    | with_reducible exact Visitor.Tidies.tidy_read_any _
    | with_reducible exact Visitor.Tidies.tidy_deref_genesis _
    | with_reducible exact Visitor.Tidies.tidy_deref_interface _
    | with_reducible exact Visitor.Tidies.tidy_deref_error _
    | with_reducible exact Visitor.Tidies.tidy_deref_constructor _
    | with_reducible exact Visitor.Tidies.tidy_deref_breakDest _
    | with_reducible exact Visitor.Tidies.tidy_deref_continueDest _
    | with_reducible exact Visitor.Tidies.tidy_deref_summary _ _
    | with_reducible exact Visitor.Tidies.tidy_deref_function _
    | (refine Visitor.Tidies.tidy_deref_body _ _ ?_; assumption)
    | with_reducible exact Visitor.Tidies.tidy_deref_any _ _
    | with_reducible exact Visitor.Tidies.tidy_update_frame _ (fun _ => ⟨rfl, rfl, rfl, rfl, rfl, rfl, rfl, rfl, rfl⟩)
    | (refine Visitor.Tidies.tidy_update_breakDest_some _ ?_; assumption)
    | (refine Visitor.Tidies.tidy_update_continueDest_some _ ?_; assumption)
    | (refine Visitor.Tidies.tidy_update_breakDest _ ?_; assumption)
    | (refine Visitor.Tidies.tidy_update_continueDest _ ?_; assumption)
    | (refine Visitor.Tidies.tidy_update_continueDest_post _ _ ?_ ?_ <;> assumption)
    | (refine Visitor.Tidies.tidy_update_genesisPredicate _ ?_; assumption)
    | (refine Visitor.Tidies.tidy_update_interfacePredicate _ ?_; assumption)
    | (refine Visitor.Tidies.tidy_update_errorPredicate _ ?_; assumption)
    | (refine Visitor.Tidies.tidy_update_constructorPredicate _ ?_; assumption)
    | (refine Visitor.Tidies.tidy_update_summaries _ _ ?_; assumption)
    | (refine Visitor.Tidies.tidy_update_function _ ?_; assumption)
    | with_reducible exact Visitor.Tidies.tidy_update_noFunction
    | with_reducible apply Visitor.Tidies.tidy_forEach
    | intro _
    | split
    | (show Visitor.Tidies _ _ (fun _ => True); split)
    | dsimp only)

theorem SMTEncoder.baseEndVisitFunctionCall_tidy {B : List Nat} (c : Expression) :
    Visitor.Tidies B (SMTEncoder.endVisitFunctionCall c) (fun _ => True) := by
  unfold SMTEncoder.endVisitFunctionCall
  repeat' (first
    | with_reducible exact CHC.createErrorBlock_tidy
    | with_reducible exact CHC.query_tidy _ _
    | with_reducible exact CHC.reset_tidy
    | with_reducible exact SMTEncoder.defineExpr_tidy _ _
    | with_reducible exact SMTEncoder.assignment_tidy _ _
    | (refine CHC.connectBlocks_tidy _ _ _ ?_; assumption)
    | with_reducible apply Visitor.Tidies.tidy_bind
    | with_reducible exact Visitor.Tidies.tidy_solAssert _ _
    | with_reducible exact Visitor.Tidies.tidy_pure_any _
    | (refine Visitor.Tidies.tidy_pure _ (smt.SymbolicFunctionVariable.Plain.plain_app ?_ _); assumption)
    | with_reducible exact Visitor.Tidies.tidy_read_breakDest
    | with_reducible exact Visitor.Tidies.tidy_read_continueDest
    | with_reducible exact Visitor.Tidies.tidy_read_any _
    | with_reducible exact Visitor.Tidies.tidy_deref_genesis _
    | with_reducible exact Visitor.Tidies.tidy_deref_interface _
    | with_reducible exact Visitor.Tidies.tidy_deref_error _
    | with_reducible exact Visitor.Tidies.tidy_deref_constructor _
    | with_reducible exact Visitor.Tidies.tidy_deref_breakDest _
    | with_reducible exact Visitor.Tidies.tidy_deref_continueDest _
    | with_reducible exact Visitor.Tidies.tidy_deref_summary _ _
    | with_reducible exact Visitor.Tidies.tidy_deref_function _
    | (refine Visitor.Tidies.tidy_deref_body _ _ ?_; assumption)
    | with_reducible exact Visitor.Tidies.tidy_deref_any _ _
    | with_reducible exact Visitor.Tidies.tidy_update_frame _ (fun _ => ⟨rfl, rfl, rfl, rfl, rfl, rfl, rfl, rfl, rfl⟩)
    | (refine Visitor.Tidies.tidy_update_breakDest_some _ ?_; assumption)
    | (refine Visitor.Tidies.tidy_update_continueDest_some _ ?_; assumption)
    | (refine Visitor.Tidies.tidy_update_breakDest _ ?_; assumption)
    | (refine Visitor.Tidies.tidy_update_continueDest _ ?_; assumption)
    | (refine Visitor.Tidies.tidy_update_continueDest_post _ _ ?_ ?_ <;> assumption)
    | (refine Visitor.Tidies.tidy_update_genesisPredicate _ ?_; assumption)
    | (refine Visitor.Tidies.tidy_update_interfacePredicate _ ?_; assumption)
    | (refine Visitor.Tidies.tidy_update_errorPredicate _ ?_; assumption)
    | (refine Visitor.Tidies.tidy_update_constructorPredicate _ ?_; assumption)
    | (refine Visitor.Tidies.tidy_update_summaries _ _ ?_; assumption)
    | (refine Visitor.Tidies.tidy_update_function _ ?_; assumption)
    | with_reducible exact Visitor.Tidies.tidy_update_noFunction
    | with_reducible apply Visitor.Tidies.tidy_forEach
    | intro _
    | split
    | (show Visitor.Tidies _ _ (fun _ => True); split)
    | dsimp only)

theorem SMTEncoder.createReturnedExpressions_tidy {B : List Nat} (c : Expression) :
    Visitor.Tidies B (SMTEncoder.createReturnedExpressions c) (fun _ => True) := by
  unfold SMTEncoder.createReturnedExpressions
  repeat' (first
    | with_reducible exact SMTEncoder.createVariable_tidy _
    | with_reducible exact SMTEncoder.currentValue_tidy _
    | with_reducible exact CHC.createErrorBlock_tidy
    | with_reducible exact CHC.query_tidy _ _
    | with_reducible exact CHC.reset_tidy
    | with_reducible exact SMTEncoder.defineExpr_tidy _ _
    | with_reducible exact SMTEncoder.assignment_tidy _ _
    | (refine CHC.connectBlocks_tidy _ _ _ ?_; assumption)
    | with_reducible apply Visitor.Tidies.tidy_bind
    | with_reducible exact Visitor.Tidies.tidy_solAssert _ _
    | with_reducible exact Visitor.Tidies.tidy_pure_any _
    | (refine Visitor.Tidies.tidy_pure _ (smt.SymbolicFunctionVariable.Plain.plain_app ?_ _); assumption)
    | with_reducible exact Visitor.Tidies.tidy_read_breakDest
    | with_reducible exact Visitor.Tidies.tidy_read_continueDest
    | with_reducible exact Visitor.Tidies.tidy_read_any _
    | with_reducible exact Visitor.Tidies.tidy_deref_genesis _
    | with_reducible exact Visitor.Tidies.tidy_deref_interface _
    | with_reducible exact Visitor.Tidies.tidy_deref_error _
    | with_reducible exact Visitor.Tidies.tidy_deref_constructor _
    | with_reducible exact Visitor.Tidies.tidy_deref_breakDest _
    | with_reducible exact Visitor.Tidies.tidy_deref_continueDest _
    | with_reducible exact Visitor.Tidies.tidy_deref_summary _ _
    | with_reducible exact Visitor.Tidies.tidy_deref_function _
    | (refine Visitor.Tidies.tidy_deref_body _ _ ?_; assumption)
    | with_reducible exact Visitor.Tidies.tidy_deref_any _ _
    | with_reducible exact Visitor.Tidies.tidy_update_frame _ (fun _ => ⟨rfl, rfl, rfl, rfl, rfl, rfl, rfl, rfl, rfl⟩)
    | (refine Visitor.Tidies.tidy_update_breakDest_some _ ?_; assumption)
    | (refine Visitor.Tidies.tidy_update_continueDest_some _ ?_; assumption)
    | (refine Visitor.Tidies.tidy_update_breakDest _ ?_; assumption)
    | (refine Visitor.Tidies.tidy_update_continueDest _ ?_; assumption)
    | (refine Visitor.Tidies.tidy_update_continueDest_post _ _ ?_ ?_ <;> assumption)
    | (refine Visitor.Tidies.tidy_update_genesisPredicate _ ?_; assumption)
    | (refine Visitor.Tidies.tidy_update_interfacePredicate _ ?_; assumption)
    | (refine Visitor.Tidies.tidy_update_errorPredicate _ ?_; assumption)
    | (refine Visitor.Tidies.tidy_update_constructorPredicate _ ?_; assumption)
    | (refine Visitor.Tidies.tidy_update_summaries _ _ ?_; assumption)
    | (refine Visitor.Tidies.tidy_update_function _ ?_; assumption)
    | with_reducible exact Visitor.Tidies.tidy_update_noFunction
    | with_reducible apply Visitor.Tidies.tidy_forEach
    | intro _
    | split
    | (show Visitor.Tidies _ _ (fun _ => True); split)
    | dsimp only)

theorem CHC.stateVariablesAtIndex_tidy {B : List Nat} (i : Nat) :
    Visitor.Tidies B (CHC.stateVariablesAtIndex i) (fun _ => True) := by
  unfold CHC.stateVariablesAtIndex
  repeat' (first
    | with_reducible exact CHC.createErrorBlock_tidy
    | with_reducible exact CHC.query_tidy _ _
    | with_reducible exact CHC.reset_tidy
    | with_reducible exact SMTEncoder.defineExpr_tidy _ _
    | with_reducible exact SMTEncoder.assignment_tidy _ _
    | (refine CHC.connectBlocks_tidy _ _ _ ?_; assumption)
    | with_reducible apply Visitor.Tidies.tidy_bind
    | with_reducible exact Visitor.Tidies.tidy_solAssert _ _
    | with_reducible exact Visitor.Tidies.tidy_pure_any _
    | (refine Visitor.Tidies.tidy_pure _ (smt.SymbolicFunctionVariable.Plain.plain_app ?_ _); assumption)
    | with_reducible exact Visitor.Tidies.tidy_read_breakDest
    | with_reducible exact Visitor.Tidies.tidy_read_continueDest
    | with_reducible exact Visitor.Tidies.tidy_read_any _
    | with_reducible exact Visitor.Tidies.tidy_deref_genesis _
    | with_reducible exact Visitor.Tidies.tidy_deref_interface _
    | with_reducible exact Visitor.Tidies.tidy_deref_error _
    | with_reducible exact Visitor.Tidies.tidy_deref_constructor _
    | with_reducible exact Visitor.Tidies.tidy_deref_breakDest _
    | with_reducible exact Visitor.Tidies.tidy_deref_continueDest _
    | with_reducible exact Visitor.Tidies.tidy_deref_summary _ _
    | with_reducible exact Visitor.Tidies.tidy_deref_function _
    | (refine Visitor.Tidies.tidy_deref_body _ _ ?_; assumption)
    | with_reducible exact Visitor.Tidies.tidy_deref_any _ _
    | with_reducible exact Visitor.Tidies.tidy_update_frame _ (fun _ => ⟨rfl, rfl, rfl, rfl, rfl, rfl, rfl, rfl, rfl⟩)
    | (refine Visitor.Tidies.tidy_update_breakDest_some _ ?_; assumption)
    | (refine Visitor.Tidies.tidy_update_continueDest_some _ ?_; assumption)
    | (refine Visitor.Tidies.tidy_update_breakDest _ ?_; assumption)
    | (refine Visitor.Tidies.tidy_update_continueDest _ ?_; assumption)
    | (refine Visitor.Tidies.tidy_update_continueDest_post _ _ ?_ ?_ <;> assumption)
    | (refine Visitor.Tidies.tidy_update_genesisPredicate _ ?_; assumption)
    | (refine Visitor.Tidies.tidy_update_interfacePredicate _ ?_; assumption)
    | (refine Visitor.Tidies.tidy_update_errorPredicate _ ?_; assumption)
    | (refine Visitor.Tidies.tidy_update_constructorPredicate _ ?_; assumption)
    | (refine Visitor.Tidies.tidy_update_summaries _ _ ?_; assumption)
    | (refine Visitor.Tidies.tidy_update_function _ ?_; assumption)
    | with_reducible exact Visitor.Tidies.tidy_update_noFunction
    | with_reducible apply Visitor.Tidies.tidy_forEach
    | intro _
    | split
    | (show Visitor.Tidies _ _ (fun _ => True); split)
    | dsimp only)

theorem CHC.initialStateVariables_tidy {B : List Nat} :
    Visitor.Tidies B CHC.initialStateVariables (fun _ => True) := by
  unfold CHC.initialStateVariables
  repeat' (first
    | with_reducible exact CHC.stateVariablesAtIndex_tidy _
    | with_reducible exact CHC.createErrorBlock_tidy
    | with_reducible exact CHC.query_tidy _ _
    | with_reducible exact CHC.reset_tidy
    | with_reducible exact SMTEncoder.defineExpr_tidy _ _
    | with_reducible exact SMTEncoder.assignment_tidy _ _
    | (refine CHC.connectBlocks_tidy _ _ _ ?_; assumption)
    | with_reducible apply Visitor.Tidies.tidy_bind
    | with_reducible exact Visitor.Tidies.tidy_solAssert _ _
    | with_reducible exact Visitor.Tidies.tidy_pure_any _
    | (refine Visitor.Tidies.tidy_pure _ (smt.SymbolicFunctionVariable.Plain.plain_app ?_ _); assumption)
    | with_reducible exact Visitor.Tidies.tidy_read_breakDest
    | with_reducible exact Visitor.Tidies.tidy_read_continueDest
    | with_reducible exact Visitor.Tidies.tidy_read_any _
    | with_reducible exact Visitor.Tidies.tidy_deref_genesis _
    | with_reducible exact Visitor.Tidies.tidy_deref_interface _
    | with_reducible exact Visitor.Tidies.tidy_deref_error _
    | with_reducible exact Visitor.Tidies.tidy_deref_constructor _
    | with_reducible exact Visitor.Tidies.tidy_deref_breakDest _
    | with_reducible exact Visitor.Tidies.tidy_deref_continueDest _
    | with_reducible exact Visitor.Tidies.tidy_deref_summary _ _
    | with_reducible exact Visitor.Tidies.tidy_deref_function _
    | (refine Visitor.Tidies.tidy_deref_body _ _ ?_; assumption)
    | with_reducible exact Visitor.Tidies.tidy_deref_any _ _
    | with_reducible exact Visitor.Tidies.tidy_update_frame _ (fun _ => ⟨rfl, rfl, rfl, rfl, rfl, rfl, rfl, rfl, rfl⟩)
    | (refine Visitor.Tidies.tidy_update_breakDest_some _ ?_; assumption)
    | (refine Visitor.Tidies.tidy_update_continueDest_some _ ?_; assumption)
    | (refine Visitor.Tidies.tidy_update_breakDest _ ?_; assumption)
    | (refine Visitor.Tidies.tidy_update_continueDest _ ?_; assumption)
    | (refine Visitor.Tidies.tidy_update_continueDest_post _ _ ?_ ?_ <;> assumption)
    | (refine Visitor.Tidies.tidy_update_genesisPredicate _ ?_; assumption)
    | (refine Visitor.Tidies.tidy_update_interfacePredicate _ ?_; assumption)
    | (refine Visitor.Tidies.tidy_update_errorPredicate _ ?_; assumption)
    | (refine Visitor.Tidies.tidy_update_constructorPredicate _ ?_; assumption)
    | (refine Visitor.Tidies.tidy_update_summaries _ _ ?_; assumption)
    | (refine Visitor.Tidies.tidy_update_function _ ?_; assumption)
    | with_reducible exact Visitor.Tidies.tidy_update_noFunction
    | with_reducible apply Visitor.Tidies.tidy_forEach
    | intro _
    | split
    | (show Visitor.Tidies _ _ (fun _ => True); split)
    | dsimp only)

theorem CHC.currentStateVariables_tidy {B : List Nat} :
    Visitor.Tidies B CHC.currentStateVariables (fun _ => True) := by
  unfold CHC.currentStateVariables
  repeat' (first
    | with_reducible exact CHC.createErrorBlock_tidy
    | with_reducible exact CHC.query_tidy _ _
    | with_reducible exact CHC.reset_tidy
    | with_reducible exact SMTEncoder.defineExpr_tidy _ _
    | with_reducible exact SMTEncoder.assignment_tidy _ _
    | (refine CHC.connectBlocks_tidy _ _ _ ?_; assumption)
    | with_reducible apply Visitor.Tidies.tidy_bind
    | with_reducible exact Visitor.Tidies.tidy_solAssert _ _
    | with_reducible exact Visitor.Tidies.tidy_pure_any _
    | (refine Visitor.Tidies.tidy_pure _ (smt.SymbolicFunctionVariable.Plain.plain_app ?_ _); assumption)
    | with_reducible exact Visitor.Tidies.tidy_read_breakDest
    | with_reducible exact Visitor.Tidies.tidy_read_continueDest
    | with_reducible exact Visitor.Tidies.tidy_read_any _
    | with_reducible exact Visitor.Tidies.tidy_deref_genesis _
    | with_reducible exact Visitor.Tidies.tidy_deref_interface _
    | with_reducible exact Visitor.Tidies.tidy_deref_error _
    | with_reducible exact Visitor.Tidies.tidy_deref_constructor _
    | with_reducible exact Visitor.Tidies.tidy_deref_breakDest _
    | with_reducible exact Visitor.Tidies.tidy_deref_continueDest _
    | with_reducible exact Visitor.Tidies.tidy_deref_summary _ _
    | with_reducible exact Visitor.Tidies.tidy_deref_function _
    | (refine Visitor.Tidies.tidy_deref_body _ _ ?_; assumption)
    | with_reducible exact Visitor.Tidies.tidy_deref_any _ _
    | with_reducible exact Visitor.Tidies.tidy_update_frame _ (fun _ => ⟨rfl, rfl, rfl, rfl, rfl, rfl, rfl, rfl, rfl⟩)
    | (refine Visitor.Tidies.tidy_update_breakDest_some _ ?_; assumption)
    | (refine Visitor.Tidies.tidy_update_continueDest_some _ ?_; assumption)
    | (refine Visitor.Tidies.tidy_update_breakDest _ ?_; assumption)
    | (refine Visitor.Tidies.tidy_update_continueDest _ ?_; assumption)
    | (refine Visitor.Tidies.tidy_update_continueDest_post _ _ ?_ ?_ <;> assumption)
    | (refine Visitor.Tidies.tidy_update_genesisPredicate _ ?_; assumption)
    | (refine Visitor.Tidies.tidy_update_interfacePredicate _ ?_; assumption)
    | (refine Visitor.Tidies.tidy_update_errorPredicate _ ?_; assumption)
    | (refine Visitor.Tidies.tidy_update_constructorPredicate _ ?_; assumption)
    | (refine Visitor.Tidies.tidy_update_summaries _ _ ?_; assumption)
    | (refine Visitor.Tidies.tidy_update_function _ ?_; assumption)
    | with_reducible exact Visitor.Tidies.tidy_update_noFunction
    | with_reducible apply Visitor.Tidies.tidy_forEach
    | intro _
    | split
    | (show Visitor.Tidies _ _ (fun _ => True); split)
    | dsimp only)

theorem CHC.currentFunctionVariables_tidy {B : List Nat} :
    Visitor.Tidies B CHC.currentFunctionVariables (fun _ => True) := by
  unfold CHC.currentFunctionVariables
  repeat' (first
    | with_reducible exact CHC.initialStateVariables_tidy
    | with_reducible exact CHC.currentStateVariables_tidy
    | with_reducible exact CHC.createErrorBlock_tidy
    | with_reducible exact CHC.query_tidy _ _
    | with_reducible exact CHC.reset_tidy
    | with_reducible exact SMTEncoder.defineExpr_tidy _ _
    | with_reducible exact SMTEncoder.assignment_tidy _ _
    | (refine CHC.connectBlocks_tidy _ _ _ ?_; assumption)
    | with_reducible apply Visitor.Tidies.tidy_bind
    | with_reducible exact Visitor.Tidies.tidy_solAssert _ _
    | with_reducible exact Visitor.Tidies.tidy_pure_any _
    | (refine Visitor.Tidies.tidy_pure _ (smt.SymbolicFunctionVariable.Plain.plain_app ?_ _); assumption)
    | with_reducible exact Visitor.Tidies.tidy_read_breakDest
    | with_reducible exact Visitor.Tidies.tidy_read_continueDest
    | with_reducible exact Visitor.Tidies.tidy_read_any _
    | with_reducible exact Visitor.Tidies.tidy_deref_genesis _
    | with_reducible exact Visitor.Tidies.tidy_deref_interface _
    | with_reducible exact Visitor.Tidies.tidy_deref_error _
    | with_reducible exact Visitor.Tidies.tidy_deref_constructor _
    | with_reducible exact Visitor.Tidies.tidy_deref_breakDest _
    | with_reducible exact Visitor.Tidies.tidy_deref_continueDest _
    | with_reducible exact Visitor.Tidies.tidy_deref_summary _ _
    | with_reducible exact Visitor.Tidies.tidy_deref_function _
    | (refine Visitor.Tidies.tidy_deref_body _ _ ?_; assumption)
    | with_reducible exact Visitor.Tidies.tidy_deref_any _ _
    | with_reducible exact Visitor.Tidies.tidy_update_frame _ (fun _ => ⟨rfl, rfl, rfl, rfl, rfl, rfl, rfl, rfl, rfl⟩)
    | (refine Visitor.Tidies.tidy_update_breakDest_some _ ?_; assumption)
    | (refine Visitor.Tidies.tidy_update_continueDest_some _ ?_; assumption)
    | (refine Visitor.Tidies.tidy_update_breakDest _ ?_; assumption)
    | (refine Visitor.Tidies.tidy_update_continueDest _ ?_; assumption)
    | (refine Visitor.Tidies.tidy_update_continueDest_post _ _ ?_ ?_ <;> assumption)
    | (refine Visitor.Tidies.tidy_update_genesisPredicate _ ?_; assumption)
    | (refine Visitor.Tidies.tidy_update_interfacePredicate _ ?_; assumption)
    | (refine Visitor.Tidies.tidy_update_errorPredicate _ ?_; assumption)
    | (refine Visitor.Tidies.tidy_update_constructorPredicate _ ?_; assumption)
    | (refine Visitor.Tidies.tidy_update_summaries _ _ ?_; assumption)
    | (refine Visitor.Tidies.tidy_update_function _ ?_; assumption)
    | with_reducible exact Visitor.Tidies.tidy_update_noFunction
    | with_reducible apply Visitor.Tidies.tidy_forEach
    | intro _
    | split
    | (show Visitor.Tidies _ _ (fun _ => True); split)
    | dsimp only)

theorem CHC.currentBlockVariables_tidy {B : List Nat} :
    Visitor.Tidies B CHC.currentBlockVariables (fun _ => True) := by
  unfold CHC.currentBlockVariables
  repeat' (first
    | with_reducible exact CHC.currentFunctionVariables_tidy
    | with_reducible exact CHC.createErrorBlock_tidy
    | with_reducible exact CHC.query_tidy _ _
    | with_reducible exact CHC.reset_tidy
    | with_reducible exact SMTEncoder.defineExpr_tidy _ _
    | with_reducible exact SMTEncoder.assignment_tidy _ _
    | (refine CHC.connectBlocks_tidy _ _ _ ?_; assumption)
    | with_reducible apply Visitor.Tidies.tidy_bind
    | with_reducible exact Visitor.Tidies.tidy_solAssert _ _
    | with_reducible exact Visitor.Tidies.tidy_pure_any _
    | (refine Visitor.Tidies.tidy_pure _ (smt.SymbolicFunctionVariable.Plain.plain_app ?_ _); assumption)
    | with_reducible exact Visitor.Tidies.tidy_read_breakDest
    | with_reducible exact Visitor.Tidies.tidy_read_continueDest
    | with_reducible exact Visitor.Tidies.tidy_read_any _
    | with_reducible exact Visitor.Tidies.tidy_deref_genesis _
    | with_reducible exact Visitor.Tidies.tidy_deref_interface _
    | with_reducible exact Visitor.Tidies.tidy_deref_error _
    | with_reducible exact Visitor.Tidies.tidy_deref_constructor _
    | with_reducible exact Visitor.Tidies.tidy_deref_breakDest _
    | with_reducible exact Visitor.Tidies.tidy_deref_continueDest _
    | with_reducible exact Visitor.Tidies.tidy_deref_summary _ _
    | with_reducible exact Visitor.Tidies.tidy_deref_function _
    | (refine Visitor.Tidies.tidy_deref_body _ _ ?_; assumption)
    | with_reducible exact Visitor.Tidies.tidy_deref_any _ _
    | with_reducible exact Visitor.Tidies.tidy_update_frame _ (fun _ => ⟨rfl, rfl, rfl, rfl, rfl, rfl, rfl, rfl, rfl⟩)
    | (refine Visitor.Tidies.tidy_update_breakDest_some _ ?_; assumption)
    | (refine Visitor.Tidies.tidy_update_continueDest_some _ ?_; assumption)
    | (refine Visitor.Tidies.tidy_update_breakDest _ ?_; assumption)
    | (refine Visitor.Tidies.tidy_update_continueDest _ ?_; assumption)
    | (refine Visitor.Tidies.tidy_update_continueDest_post _ _ ?_ ?_ <;> assumption)
    | (refine Visitor.Tidies.tidy_update_genesisPredicate _ ?_; assumption)
    | (refine Visitor.Tidies.tidy_update_interfacePredicate _ ?_; assumption)
    | (refine Visitor.Tidies.tidy_update_errorPredicate _ ?_; assumption)
    | (refine Visitor.Tidies.tidy_update_constructorPredicate _ ?_; assumption)
    | (refine Visitor.Tidies.tidy_update_summaries _ _ ?_; assumption)
    | (refine Visitor.Tidies.tidy_update_function _ ?_; assumption)
    | with_reducible exact Visitor.Tidies.tidy_update_noFunction
    | with_reducible apply Visitor.Tidies.tidy_forEach
    | intro _
    | split
    | (show Visitor.Tidies _ _ (fun _ => True); split)
    | dsimp only)

theorem CHC.predicate_tidy {B : List Nat} (block : smt.SymbolicFunctionVariable) (h : block.Plain B) :
    Visitor.Tidies B (CHC.predicate block) (smt.Expression.Plain B) := by
  unfold CHC.predicate
  repeat' (first
    | with_reducible exact CHC.currentBlockVariables_tidy
    | with_reducible exact CHC.createErrorBlock_tidy
    | with_reducible exact CHC.query_tidy _ _
    | with_reducible exact CHC.reset_tidy
    | with_reducible exact SMTEncoder.defineExpr_tidy _ _
    | with_reducible exact SMTEncoder.assignment_tidy _ _
    | (refine CHC.connectBlocks_tidy _ _ _ ?_; assumption)
    | with_reducible apply Visitor.Tidies.tidy_bind
    | with_reducible exact Visitor.Tidies.tidy_solAssert _ _
    | with_reducible exact Visitor.Tidies.tidy_pure_any _
    | (refine Visitor.Tidies.tidy_pure _ (smt.SymbolicFunctionVariable.Plain.plain_app ?_ _); assumption)
    | with_reducible exact Visitor.Tidies.tidy_read_breakDest
    | with_reducible exact Visitor.Tidies.tidy_read_continueDest
    | with_reducible exact Visitor.Tidies.tidy_read_any _
    | with_reducible exact Visitor.Tidies.tidy_deref_genesis _
    | with_reducible exact Visitor.Tidies.tidy_deref_interface _
    | with_reducible exact Visitor.Tidies.tidy_deref_error _
    | with_reducible exact Visitor.Tidies.tidy_deref_constructor _
    | with_reducible exact Visitor.Tidies.tidy_deref_breakDest _
    | with_reducible exact Visitor.Tidies.tidy_deref_continueDest _
    | with_reducible exact Visitor.Tidies.tidy_deref_summary _ _
    | with_reducible exact Visitor.Tidies.tidy_deref_function _
    | (refine Visitor.Tidies.tidy_deref_body _ _ ?_; assumption)
    | with_reducible exact Visitor.Tidies.tidy_deref_any _ _
    | with_reducible exact Visitor.Tidies.tidy_update_frame _ (fun _ => ⟨rfl, rfl, rfl, rfl, rfl, rfl, rfl, rfl, rfl⟩)
    | (refine Visitor.Tidies.tidy_update_breakDest_some _ ?_; assumption)
    | (refine Visitor.Tidies.tidy_update_continueDest_some _ ?_; assumption)
    | (refine Visitor.Tidies.tidy_update_breakDest _ ?_; assumption)
    | (refine Visitor.Tidies.tidy_update_continueDest _ ?_; assumption)
    | (refine Visitor.Tidies.tidy_update_continueDest_post _ _ ?_ ?_ <;> assumption)
    | (refine Visitor.Tidies.tidy_update_genesisPredicate _ ?_; assumption)
    | (refine Visitor.Tidies.tidy_update_interfacePredicate _ ?_; assumption)
    | (refine Visitor.Tidies.tidy_update_errorPredicate _ ?_; assumption)
    | (refine Visitor.Tidies.tidy_update_constructorPredicate _ ?_; assumption)
    | (refine Visitor.Tidies.tidy_update_summaries _ _ ?_; assumption)
    | (refine Visitor.Tidies.tidy_update_function _ ?_; assumption)
    | with_reducible exact Visitor.Tidies.tidy_update_noFunction
    | with_reducible apply Visitor.Tidies.tidy_forEach
    | intro _
    | split
    | (show Visitor.Tidies _ _ (fun _ => True); split)
    | dsimp only)

theorem CHC.predicate_tidy_any {B : List Nat} (block : smt.SymbolicFunctionVariable) :
    Visitor.Tidies B (CHC.predicate block) (fun _ => True) := by
  unfold CHC.predicate
  repeat' (first
    | with_reducible exact CHC.currentBlockVariables_tidy
    | with_reducible exact CHC.createErrorBlock_tidy
    | with_reducible exact CHC.query_tidy _ _
    | with_reducible exact CHC.reset_tidy
    | with_reducible exact SMTEncoder.defineExpr_tidy _ _
    | with_reducible exact SMTEncoder.assignment_tidy _ _
    | (refine CHC.connectBlocks_tidy _ _ _ ?_; assumption)
    | with_reducible apply Visitor.Tidies.tidy_bind
    | with_reducible exact Visitor.Tidies.tidy_solAssert _ _
    | with_reducible exact Visitor.Tidies.tidy_pure_any _
    | (refine Visitor.Tidies.tidy_pure _ (smt.SymbolicFunctionVariable.Plain.plain_app ?_ _); assumption)
    | with_reducible exact Visitor.Tidies.tidy_read_breakDest
    | with_reducible exact Visitor.Tidies.tidy_read_continueDest
    | with_reducible exact Visitor.Tidies.tidy_read_any _
    | with_reducible exact Visitor.Tidies.tidy_deref_genesis _
    | with_reducible exact Visitor.Tidies.tidy_deref_interface _
    | with_reducible exact Visitor.Tidies.tidy_deref_error _
    | with_reducible exact Visitor.Tidies.tidy_deref_constructor _
    | with_reducible exact Visitor.Tidies.tidy_deref_breakDest _
    | with_reducible exact Visitor.Tidies.tidy_deref_continueDest _
    | with_reducible exact Visitor.Tidies.tidy_deref_summary _ _
    | with_reducible exact Visitor.Tidies.tidy_deref_function _
    | (refine Visitor.Tidies.tidy_deref_body _ _ ?_; assumption)
    | with_reducible exact Visitor.Tidies.tidy_deref_any _ _
    | with_reducible exact Visitor.Tidies.tidy_update_frame _ (fun _ => ⟨rfl, rfl, rfl, rfl, rfl, rfl, rfl, rfl, rfl⟩)
    | (refine Visitor.Tidies.tidy_update_breakDest_some _ ?_; assumption)
    | (refine Visitor.Tidies.tidy_update_continueDest_some _ ?_; assumption)
    | (refine Visitor.Tidies.tidy_update_breakDest _ ?_; assumption)
    | (refine Visitor.Tidies.tidy_update_continueDest _ ?_; assumption)
    | (refine Visitor.Tidies.tidy_update_continueDest_post _ _ ?_ ?_ <;> assumption)
    | (refine Visitor.Tidies.tidy_update_genesisPredicate _ ?_; assumption)
    | (refine Visitor.Tidies.tidy_update_interfacePredicate _ ?_; assumption)
    | (refine Visitor.Tidies.tidy_update_errorPredicate _ ?_; assumption)
    | (refine Visitor.Tidies.tidy_update_constructorPredicate _ ?_; assumption)
    | (refine Visitor.Tidies.tidy_update_summaries _ _ ?_; assumption)
    | (refine Visitor.Tidies.tidy_update_function _ ?_; assumption)
    | with_reducible exact Visitor.Tidies.tidy_update_noFunction
    | with_reducible apply Visitor.Tidies.tidy_forEach
    | intro _
    | split
    | (show Visitor.Tidies _ _ (fun _ => True); split)
    | dsimp only)

theorem CHC.predicateWith_tidy {B : List Nat} (block : smt.SymbolicFunctionVariable)
    (arguments : List smt.Expression) (h : block.Plain B) :
    Visitor.Tidies B (CHC.predicateWith block arguments) (smt.Expression.Plain B) := by
  unfold CHC.predicateWith
  repeat' (first
    | with_reducible exact CHC.createErrorBlock_tidy
    | with_reducible exact CHC.query_tidy _ _
    | with_reducible exact CHC.reset_tidy
    | with_reducible exact SMTEncoder.defineExpr_tidy _ _
    | with_reducible exact SMTEncoder.assignment_tidy _ _
    | (refine CHC.connectBlocks_tidy _ _ _ ?_; assumption)
    | with_reducible apply Visitor.Tidies.tidy_bind
    | with_reducible exact Visitor.Tidies.tidy_solAssert _ _
    | with_reducible exact Visitor.Tidies.tidy_pure_any _
    | (refine Visitor.Tidies.tidy_pure _ (smt.SymbolicFunctionVariable.Plain.plain_app ?_ _); assumption)
    | with_reducible exact Visitor.Tidies.tidy_read_breakDest
    | with_reducible exact Visitor.Tidies.tidy_read_continueDest
    | with_reducible exact Visitor.Tidies.tidy_read_any _
    | with_reducible exact Visitor.Tidies.tidy_deref_genesis _
    | with_reducible exact Visitor.Tidies.tidy_deref_interface _
    | with_reducible exact Visitor.Tidies.tidy_deref_error _
    | with_reducible exact Visitor.Tidies.tidy_deref_constructor _
    | with_reducible exact Visitor.Tidies.tidy_deref_breakDest _
    | with_reducible exact Visitor.Tidies.tidy_deref_continueDest _
    | with_reducible exact Visitor.Tidies.tidy_deref_summary _ _
    | with_reducible exact Visitor.Tidies.tidy_deref_function _
    | (refine Visitor.Tidies.tidy_deref_body _ _ ?_; assumption)
    | with_reducible exact Visitor.Tidies.tidy_deref_any _ _
    | with_reducible exact Visitor.Tidies.tidy_update_frame _ (fun _ => ⟨rfl, rfl, rfl, rfl, rfl, rfl, rfl, rfl, rfl⟩)
    | (refine Visitor.Tidies.tidy_update_breakDest_some _ ?_; assumption)
    | (refine Visitor.Tidies.tidy_update_continueDest_some _ ?_; assumption)
    | (refine Visitor.Tidies.tidy_update_breakDest _ ?_; assumption)
    | (refine Visitor.Tidies.tidy_update_continueDest _ ?_; assumption)
    | (refine Visitor.Tidies.tidy_update_continueDest_post _ _ ?_ ?_ <;> assumption)
    | (refine Visitor.Tidies.tidy_update_genesisPredicate _ ?_; assumption)
    | (refine Visitor.Tidies.tidy_update_interfacePredicate _ ?_; assumption)
    | (refine Visitor.Tidies.tidy_update_errorPredicate _ ?_; assumption)
    | (refine Visitor.Tidies.tidy_update_constructorPredicate _ ?_; assumption)
    | (refine Visitor.Tidies.tidy_update_summaries _ _ ?_; assumption)
    | (refine Visitor.Tidies.tidy_update_function _ ?_; assumption)
    | with_reducible exact Visitor.Tidies.tidy_update_noFunction
    | with_reducible apply Visitor.Tidies.tidy_forEach
    | intro _
    | split
    | (show Visitor.Tidies _ _ (fun _ => True); split)
    | dsimp only)

theorem CHC.predicateWith_tidy_any {B : List Nat} (block : smt.SymbolicFunctionVariable)
    (arguments : List smt.Expression) :
    Visitor.Tidies B (CHC.predicateWith block arguments) (fun _ => True) := by
  unfold CHC.predicateWith
  repeat' (first
    | with_reducible exact CHC.createErrorBlock_tidy
    | with_reducible exact CHC.query_tidy _ _
    | with_reducible exact CHC.reset_tidy
    | with_reducible exact SMTEncoder.defineExpr_tidy _ _
    | with_reducible exact SMTEncoder.assignment_tidy _ _
    | (refine CHC.connectBlocks_tidy _ _ _ ?_; assumption)
    | with_reducible apply Visitor.Tidies.tidy_bind
    | with_reducible exact Visitor.Tidies.tidy_solAssert _ _
    | with_reducible exact Visitor.Tidies.tidy_pure_any _
    | (refine Visitor.Tidies.tidy_pure _ (smt.SymbolicFunctionVariable.Plain.plain_app ?_ _); assumption)
    | with_reducible exact Visitor.Tidies.tidy_read_breakDest
    | with_reducible exact Visitor.Tidies.tidy_read_continueDest
    | with_reducible exact Visitor.Tidies.tidy_read_any _
    | with_reducible exact Visitor.Tidies.tidy_deref_genesis _
    | with_reducible exact Visitor.Tidies.tidy_deref_interface _
    | with_reducible exact Visitor.Tidies.tidy_deref_error _
    | with_reducible exact Visitor.Tidies.tidy_deref_constructor _
    | with_reducible exact Visitor.Tidies.tidy_deref_breakDest _
    | with_reducible exact Visitor.Tidies.tidy_deref_continueDest _
    | with_reducible exact Visitor.Tidies.tidy_deref_summary _ _
    | with_reducible exact Visitor.Tidies.tidy_deref_function _
    | (refine Visitor.Tidies.tidy_deref_body _ _ ?_; assumption)
    | with_reducible exact Visitor.Tidies.tidy_deref_any _ _
    | with_reducible exact Visitor.Tidies.tidy_update_frame _ (fun _ => ⟨rfl, rfl, rfl, rfl, rfl, rfl, rfl, rfl, rfl⟩)
    | (refine Visitor.Tidies.tidy_update_breakDest_some _ ?_; assumption)
    | (refine Visitor.Tidies.tidy_update_continueDest_some _ ?_; assumption)
    | (refine Visitor.Tidies.tidy_update_breakDest _ ?_; assumption)
    | (refine Visitor.Tidies.tidy_update_continueDest _ ?_; assumption)
    | (refine Visitor.Tidies.tidy_update_continueDest_post _ _ ?_ ?_ <;> assumption)
    | (refine Visitor.Tidies.tidy_update_genesisPredicate _ ?_; assumption)
    | (refine Visitor.Tidies.tidy_update_interfacePredicate _ ?_; assumption)
    | (refine Visitor.Tidies.tidy_update_errorPredicate _ ?_; assumption)
    | (refine Visitor.Tidies.tidy_update_constructorPredicate _ ?_; assumption)
    | (refine Visitor.Tidies.tidy_update_summaries _ _ ?_; assumption)
    | (refine Visitor.Tidies.tidy_update_function _ ?_; assumption)
    | with_reducible exact Visitor.Tidies.tidy_update_noFunction
    | with_reducible apply Visitor.Tidies.tidy_forEach
    | intro _
    | split
    | (show Visitor.Tidies _ _ (fun _ => True); split)
    | dsimp only)

theorem CHC.genesis_tidy {B : List Nat} :
    Visitor.Tidies B CHC.genesis (smt.Expression.Plain B) := by
  unfold CHC.genesis
  repeat' (first
    | with_reducible exact CHC.createErrorBlock_tidy
    | with_reducible exact CHC.query_tidy _ _
    | with_reducible exact CHC.reset_tidy
    | with_reducible exact SMTEncoder.defineExpr_tidy _ _
    | with_reducible exact SMTEncoder.assignment_tidy _ _
    | (refine CHC.connectBlocks_tidy _ _ _ ?_; assumption)
    | with_reducible apply Visitor.Tidies.tidy_bind
    | with_reducible exact Visitor.Tidies.tidy_solAssert _ _
    | with_reducible exact Visitor.Tidies.tidy_pure_any _
    | (refine Visitor.Tidies.tidy_pure _ (smt.SymbolicFunctionVariable.Plain.plain_app ?_ _); assumption)
    | with_reducible exact Visitor.Tidies.tidy_read_breakDest
    | with_reducible exact Visitor.Tidies.tidy_read_continueDest
    | with_reducible exact Visitor.Tidies.tidy_read_any _
    | with_reducible exact Visitor.Tidies.tidy_deref_genesis _
    | with_reducible exact Visitor.Tidies.tidy_deref_interface _
    | with_reducible exact Visitor.Tidies.tidy_deref_error _
    | with_reducible exact Visitor.Tidies.tidy_deref_constructor _
    | with_reducible exact Visitor.Tidies.tidy_deref_breakDest _
    | with_reducible exact Visitor.Tidies.tidy_deref_continueDest _
    | with_reducible exact Visitor.Tidies.tidy_deref_summary _ _
    | with_reducible exact Visitor.Tidies.tidy_deref_function _
    | (refine Visitor.Tidies.tidy_deref_body _ _ ?_; assumption)
    | with_reducible exact Visitor.Tidies.tidy_deref_any _ _
    | with_reducible exact Visitor.Tidies.tidy_update_frame _ (fun _ => ⟨rfl, rfl, rfl, rfl, rfl, rfl, rfl, rfl, rfl⟩)
    | (refine Visitor.Tidies.tidy_update_breakDest_some _ ?_; assumption)
    | (refine Visitor.Tidies.tidy_update_continueDest_some _ ?_; assumption)
    | (refine Visitor.Tidies.tidy_update_breakDest _ ?_; assumption)
    | (refine Visitor.Tidies.tidy_update_continueDest _ ?_; assumption)
    | (refine Visitor.Tidies.tidy_update_continueDest_post _ _ ?_ ?_ <;> assumption)
    | (refine Visitor.Tidies.tidy_update_genesisPredicate _ ?_; assumption)
    | (refine Visitor.Tidies.tidy_update_interfacePredicate _ ?_; assumption)
    | (refine Visitor.Tidies.tidy_update_errorPredicate _ ?_; assumption)
    | (refine Visitor.Tidies.tidy_update_constructorPredicate _ ?_; assumption)
    | (refine Visitor.Tidies.tidy_update_summaries _ _ ?_; assumption)
    | (refine Visitor.Tidies.tidy_update_function _ ?_; assumption)
    | with_reducible exact Visitor.Tidies.tidy_update_noFunction
    | with_reducible apply Visitor.Tidies.tidy_forEach
    | intro _
    | split
    | (show Visitor.Tidies _ _ (fun _ => True); split)
    | dsimp only)

theorem CHC.interface_tidy {B : List Nat} :
    Visitor.Tidies B CHC.interface (smt.Expression.Plain B) := by
  unfold CHC.interface
  repeat' (first
    | with_reducible exact CHC.createErrorBlock_tidy
    | with_reducible exact CHC.query_tidy _ _
    | with_reducible exact CHC.reset_tidy
    | with_reducible exact SMTEncoder.defineExpr_tidy _ _
    | with_reducible exact SMTEncoder.assignment_tidy _ _
    | (refine CHC.connectBlocks_tidy _ _ _ ?_; assumption)
    | with_reducible apply Visitor.Tidies.tidy_bind
    | with_reducible exact Visitor.Tidies.tidy_solAssert _ _
    | with_reducible exact Visitor.Tidies.tidy_pure_any _
    | (refine Visitor.Tidies.tidy_pure _ (smt.SymbolicFunctionVariable.Plain.plain_app ?_ _); assumption)
    | with_reducible exact Visitor.Tidies.tidy_read_breakDest
    | with_reducible exact Visitor.Tidies.tidy_read_continueDest
    | with_reducible exact Visitor.Tidies.tidy_read_any _
    | with_reducible exact Visitor.Tidies.tidy_deref_genesis _
    | with_reducible exact Visitor.Tidies.tidy_deref_interface _
    | with_reducible exact Visitor.Tidies.tidy_deref_error _
    | with_reducible exact Visitor.Tidies.tidy_deref_constructor _
    | with_reducible exact Visitor.Tidies.tidy_deref_breakDest _
    | with_reducible exact Visitor.Tidies.tidy_deref_continueDest _
    | with_reducible exact Visitor.Tidies.tidy_deref_summary _ _
    | with_reducible exact Visitor.Tidies.tidy_deref_function _
    | (refine Visitor.Tidies.tidy_deref_body _ _ ?_; assumption)
    | with_reducible exact Visitor.Tidies.tidy_deref_any _ _
    | with_reducible exact Visitor.Tidies.tidy_update_frame _ (fun _ => ⟨rfl, rfl, rfl, rfl, rfl, rfl, rfl, rfl, rfl⟩)
    | (refine Visitor.Tidies.tidy_update_breakDest_some _ ?_; assumption)
    | (refine Visitor.Tidies.tidy_update_continueDest_some _ ?_; assumption)
    | (refine Visitor.Tidies.tidy_update_breakDest _ ?_; assumption)
    | (refine Visitor.Tidies.tidy_update_continueDest _ ?_; assumption)
    | (refine Visitor.Tidies.tidy_update_continueDest_post _ _ ?_ ?_ <;> assumption)
    | (refine Visitor.Tidies.tidy_update_genesisPredicate _ ?_; assumption)
    | (refine Visitor.Tidies.tidy_update_interfacePredicate _ ?_; assumption)
    | (refine Visitor.Tidies.tidy_update_errorPredicate _ ?_; assumption)
    | (refine Visitor.Tidies.tidy_update_constructorPredicate _ ?_; assumption)
    | (refine Visitor.Tidies.tidy_update_summaries _ _ ?_; assumption)
    | (refine Visitor.Tidies.tidy_update_function _ ?_; assumption)
    | with_reducible exact Visitor.Tidies.tidy_update_noFunction
    | with_reducible apply Visitor.Tidies.tidy_forEach
    | intro _
    | split
    | (show Visitor.Tidies _ _ (fun _ => True); split)
    | dsimp only)

theorem CHC.error_tidy {B : List Nat} :
    Visitor.Tidies B CHC.error (smt.Expression.Plain B) := by
  unfold CHC.error
  repeat' (first
    | with_reducible exact CHC.createErrorBlock_tidy
    | with_reducible exact CHC.query_tidy _ _
    | with_reducible exact CHC.reset_tidy
    | with_reducible exact SMTEncoder.defineExpr_tidy _ _
    | with_reducible exact SMTEncoder.assignment_tidy _ _
    | (refine CHC.connectBlocks_tidy _ _ _ ?_; assumption)
    | with_reducible apply Visitor.Tidies.tidy_bind
    | with_reducible exact Visitor.Tidies.tidy_solAssert _ _
    | with_reducible exact Visitor.Tidies.tidy_pure_any _
    | (refine Visitor.Tidies.tidy_pure _ (smt.SymbolicFunctionVariable.Plain.plain_app ?_ _); assumption)
    | with_reducible exact Visitor.Tidies.tidy_read_breakDest
    | with_reducible exact Visitor.Tidies.tidy_read_continueDest
    | with_reducible exact Visitor.Tidies.tidy_read_any _
    | with_reducible exact Visitor.Tidies.tidy_deref_genesis _
    | with_reducible exact Visitor.Tidies.tidy_deref_interface _
    | with_reducible exact Visitor.Tidies.tidy_deref_error _
    | with_reducible exact Visitor.Tidies.tidy_deref_constructor _
    | with_reducible exact Visitor.Tidies.tidy_deref_breakDest _
    | with_reducible exact Visitor.Tidies.tidy_deref_continueDest _
    | with_reducible exact Visitor.Tidies.tidy_deref_summary _ _
    | with_reducible exact Visitor.Tidies.tidy_deref_function _
    | (refine Visitor.Tidies.tidy_deref_body _ _ ?_; assumption)
    | with_reducible exact Visitor.Tidies.tidy_deref_any _ _
    | with_reducible exact Visitor.Tidies.tidy_update_frame _ (fun _ => ⟨rfl, rfl, rfl, rfl, rfl, rfl, rfl, rfl, rfl⟩)
    | (refine Visitor.Tidies.tidy_update_breakDest_some _ ?_; assumption)
    | (refine Visitor.Tidies.tidy_update_continueDest_some _ ?_; assumption)
    | (refine Visitor.Tidies.tidy_update_breakDest _ ?_; assumption)
    | (refine Visitor.Tidies.tidy_update_continueDest _ ?_; assumption)
    | (refine Visitor.Tidies.tidy_update_continueDest_post _ _ ?_ ?_ <;> assumption)
    | (refine Visitor.Tidies.tidy_update_genesisPredicate _ ?_; assumption)
    | (refine Visitor.Tidies.tidy_update_interfacePredicate _ ?_; assumption)
    | (refine Visitor.Tidies.tidy_update_errorPredicate _ ?_; assumption)
    | (refine Visitor.Tidies.tidy_update_constructorPredicate _ ?_; assumption)
    | (refine Visitor.Tidies.tidy_update_summaries _ _ ?_; assumption)
    | (refine Visitor.Tidies.tidy_update_function _ ?_; assumption)
    | with_reducible exact Visitor.Tidies.tidy_update_noFunction
    | with_reducible apply Visitor.Tidies.tidy_forEach
    | intro _
    | split
    | (show Visitor.Tidies _ _ (fun _ => True); split)
    | dsimp only)

theorem CHC.summary_tidy {B : List Nat} (f : FunctionDefinition) :
    Visitor.Tidies B (CHC.summary f) (smt.Expression.Plain B) := by
  unfold CHC.summary
  repeat' (first
    | with_reducible exact CHC.initialStateVariables_tidy
    | with_reducible exact CHC.currentStateVariables_tidy
    | with_reducible exact CHC.createErrorBlock_tidy
    | with_reducible exact CHC.query_tidy _ _
    | with_reducible exact CHC.reset_tidy
    | with_reducible exact SMTEncoder.defineExpr_tidy _ _
    | with_reducible exact SMTEncoder.assignment_tidy _ _
    | (refine CHC.connectBlocks_tidy _ _ _ ?_; assumption)
    | with_reducible apply Visitor.Tidies.tidy_bind
    | with_reducible exact Visitor.Tidies.tidy_solAssert _ _
    | with_reducible exact Visitor.Tidies.tidy_pure_any _
    | (refine Visitor.Tidies.tidy_pure _ (smt.SymbolicFunctionVariable.Plain.plain_app ?_ _); assumption)
    | with_reducible exact Visitor.Tidies.tidy_read_breakDest
    | with_reducible exact Visitor.Tidies.tidy_read_continueDest
    | with_reducible exact Visitor.Tidies.tidy_read_any _
    | with_reducible exact Visitor.Tidies.tidy_deref_genesis _
    | with_reducible exact Visitor.Tidies.tidy_deref_interface _
    | with_reducible exact Visitor.Tidies.tidy_deref_error _
    | with_reducible exact Visitor.Tidies.tidy_deref_constructor _
    | with_reducible exact Visitor.Tidies.tidy_deref_breakDest _
    | with_reducible exact Visitor.Tidies.tidy_deref_continueDest _
    | with_reducible exact Visitor.Tidies.tidy_deref_summary _ _
    | with_reducible exact Visitor.Tidies.tidy_deref_function _
    | (refine Visitor.Tidies.tidy_deref_body _ _ ?_; assumption)
    | with_reducible exact Visitor.Tidies.tidy_deref_any _ _
    | with_reducible exact Visitor.Tidies.tidy_update_frame _ (fun _ => ⟨rfl, rfl, rfl, rfl, rfl, rfl, rfl, rfl, rfl⟩)
    | (refine Visitor.Tidies.tidy_update_breakDest_some _ ?_; assumption)
    | (refine Visitor.Tidies.tidy_update_continueDest_some _ ?_; assumption)
    | (refine Visitor.Tidies.tidy_update_breakDest _ ?_; assumption)
    | (refine Visitor.Tidies.tidy_update_continueDest _ ?_; assumption)
    | (refine Visitor.Tidies.tidy_update_continueDest_post _ _ ?_ ?_ <;> assumption)
    | (refine Visitor.Tidies.tidy_update_genesisPredicate _ ?_; assumption)
    | (refine Visitor.Tidies.tidy_update_interfacePredicate _ ?_; assumption)
    | (refine Visitor.Tidies.tidy_update_errorPredicate _ ?_; assumption)
    | (refine Visitor.Tidies.tidy_update_constructorPredicate _ ?_; assumption)
    | (refine Visitor.Tidies.tidy_update_summaries _ _ ?_; assumption)
    | (refine Visitor.Tidies.tidy_update_function _ ?_; assumption)
    | with_reducible exact Visitor.Tidies.tidy_update_noFunction
    | with_reducible apply Visitor.Tidies.tidy_forEach
    | intro _
    | split
    | (show Visitor.Tidies _ _ (fun _ => True); split)
    | dsimp only)

theorem CHC.interfaceSort_tidy {B : List Nat} :
    Visitor.Tidies B CHC.interfaceSort (fun _ => True) := by
  unfold CHC.interfaceSort
  repeat' (first
    | with_reducible exact CHC.createErrorBlock_tidy
    | with_reducible exact CHC.query_tidy _ _
    | with_reducible exact CHC.reset_tidy
    | with_reducible exact SMTEncoder.defineExpr_tidy _ _
    | with_reducible exact SMTEncoder.assignment_tidy _ _
    | (refine CHC.connectBlocks_tidy _ _ _ ?_; assumption)
    | with_reducible apply Visitor.Tidies.tidy_bind
    | with_reducible exact Visitor.Tidies.tidy_solAssert _ _
    | with_reducible exact Visitor.Tidies.tidy_pure_any _
    | (refine Visitor.Tidies.tidy_pure _ (smt.SymbolicFunctionVariable.Plain.plain_app ?_ _); assumption)
    | with_reducible exact Visitor.Tidies.tidy_read_breakDest
    | with_reducible exact Visitor.Tidies.tidy_read_continueDest
    | with_reducible exact Visitor.Tidies.tidy_read_any _
    | with_reducible exact Visitor.Tidies.tidy_deref_genesis _
    | with_reducible exact Visitor.Tidies.tidy_deref_interface _
    | with_reducible exact Visitor.Tidies.tidy_deref_error _
    | with_reducible exact Visitor.Tidies.tidy_deref_constructor _
    | with_reducible exact Visitor.Tidies.tidy_deref_breakDest _
    | with_reducible exact Visitor.Tidies.tidy_deref_continueDest _
    | with_reducible exact Visitor.Tidies.tidy_deref_summary _ _
    | with_reducible exact Visitor.Tidies.tidy_deref_function _
    | (refine Visitor.Tidies.tidy_deref_body _ _ ?_; assumption)
    | with_reducible exact Visitor.Tidies.tidy_deref_any _ _
    | with_reducible exact Visitor.Tidies.tidy_update_frame _ (fun _ => ⟨rfl, rfl, rfl, rfl, rfl, rfl, rfl, rfl, rfl⟩)
    | (refine Visitor.Tidies.tidy_update_breakDest_some _ ?_; assumption)
    | (refine Visitor.Tidies.tidy_update_continueDest_some _ ?_; assumption)
    | (refine Visitor.Tidies.tidy_update_breakDest _ ?_; assumption)
    | (refine Visitor.Tidies.tidy_update_continueDest _ ?_; assumption)
    | (refine Visitor.Tidies.tidy_update_continueDest_post _ _ ?_ ?_ <;> assumption)
    | (refine Visitor.Tidies.tidy_update_genesisPredicate _ ?_; assumption)
    | (refine Visitor.Tidies.tidy_update_interfacePredicate _ ?_; assumption)
    | (refine Visitor.Tidies.tidy_update_errorPredicate _ ?_; assumption)
    | (refine Visitor.Tidies.tidy_update_constructorPredicate _ ?_; assumption)
    | (refine Visitor.Tidies.tidy_update_summaries _ _ ?_; assumption)
    | (refine Visitor.Tidies.tidy_update_function _ ?_; assumption)
    | with_reducible exact Visitor.Tidies.tidy_update_noFunction
    | with_reducible apply Visitor.Tidies.tidy_forEach
    | intro _
    | split
    | (show Visitor.Tidies _ _ (fun _ => True); split)
    | dsimp only)

theorem CHC.constructorSort_tidy {B : List Nat} :
    Visitor.Tidies B CHC.constructorSort (fun _ => True) := by
  unfold CHC.constructorSort
  repeat' (first
    | with_reducible exact CHC.interfaceSort_tidy
    | with_reducible exact CHC.createErrorBlock_tidy
    | with_reducible exact CHC.query_tidy _ _
    | with_reducible exact CHC.reset_tidy
    | with_reducible exact SMTEncoder.defineExpr_tidy _ _
    | with_reducible exact SMTEncoder.assignment_tidy _ _
    | (refine CHC.connectBlocks_tidy _ _ _ ?_; assumption)
    | with_reducible apply Visitor.Tidies.tidy_bind
    | with_reducible exact Visitor.Tidies.tidy_solAssert _ _
    | with_reducible exact Visitor.Tidies.tidy_pure_any _
    | (refine Visitor.Tidies.tidy_pure _ (smt.SymbolicFunctionVariable.Plain.plain_app ?_ _); assumption)
    | with_reducible exact Visitor.Tidies.tidy_read_breakDest
    | with_reducible exact Visitor.Tidies.tidy_read_continueDest
    | with_reducible exact Visitor.Tidies.tidy_read_any _
    | with_reducible exact Visitor.Tidies.tidy_deref_genesis _
    | with_reducible exact Visitor.Tidies.tidy_deref_interface _
    | with_reducible exact Visitor.Tidies.tidy_deref_error _
    | with_reducible exact Visitor.Tidies.tidy_deref_constructor _
    | with_reducible exact Visitor.Tidies.tidy_deref_breakDest _
    | with_reducible exact Visitor.Tidies.tidy_deref_continueDest _
    | with_reducible exact Visitor.Tidies.tidy_deref_summary _ _
    | with_reducible exact Visitor.Tidies.tidy_deref_function _
    | (refine Visitor.Tidies.tidy_deref_body _ _ ?_; assumption)
    | with_reducible exact Visitor.Tidies.tidy_deref_any _ _
    | with_reducible exact Visitor.Tidies.tidy_update_frame _ (fun _ => ⟨rfl, rfl, rfl, rfl, rfl, rfl, rfl, rfl, rfl⟩)
    | (refine Visitor.Tidies.tidy_update_breakDest_some _ ?_; assumption)
    | (refine Visitor.Tidies.tidy_update_continueDest_some _ ?_; assumption)
    | (refine Visitor.Tidies.tidy_update_breakDest _ ?_; assumption)
    | (refine Visitor.Tidies.tidy_update_continueDest _ ?_; assumption)
    | (refine Visitor.Tidies.tidy_update_continueDest_post _ _ ?_ ?_ <;> assumption)
    | (refine Visitor.Tidies.tidy_update_genesisPredicate _ ?_; assumption)
    | (refine Visitor.Tidies.tidy_update_interfacePredicate _ ?_; assumption)
    | (refine Visitor.Tidies.tidy_update_errorPredicate _ ?_; assumption)
    | (refine Visitor.Tidies.tidy_update_constructorPredicate _ ?_; assumption)
    | (refine Visitor.Tidies.tidy_update_summaries _ _ ?_; assumption)
    | (refine Visitor.Tidies.tidy_update_function _ ?_; assumption)
    | with_reducible exact Visitor.Tidies.tidy_update_noFunction
    | with_reducible apply Visitor.Tidies.tidy_forEach
    | intro _
    | split
    | (show Visitor.Tidies _ _ (fun _ => True); split)
    | dsimp only)

theorem CHC.clearIndices_tidy {B : List Nat} (c : Option ContractDefinition) (f : Option FunctionDefinition) :
    Visitor.Tidies B (CHC.clearIndices c f) (fun _ => True) := by
  unfold CHC.clearIndices
  repeat' (first
    | with_reducible exact SMTEncoder.baseClearIndices_tidy _ _
    | with_reducible exact CHC.createErrorBlock_tidy
    | with_reducible exact CHC.query_tidy _ _
    | with_reducible exact CHC.reset_tidy
    | with_reducible exact SMTEncoder.defineExpr_tidy _ _
    | with_reducible exact SMTEncoder.assignment_tidy _ _
    | (refine CHC.connectBlocks_tidy _ _ _ ?_; assumption)
    | with_reducible apply Visitor.Tidies.tidy_bind
    | with_reducible exact Visitor.Tidies.tidy_solAssert _ _
    | with_reducible exact Visitor.Tidies.tidy_pure_any _
    | (refine Visitor.Tidies.tidy_pure _ (smt.SymbolicFunctionVariable.Plain.plain_app ?_ _); assumption)
    | with_reducible exact Visitor.Tidies.tidy_read_breakDest
    | with_reducible exact Visitor.Tidies.tidy_read_continueDest
    | with_reducible exact Visitor.Tidies.tidy_read_any _
    | with_reducible exact Visitor.Tidies.tidy_deref_genesis _
    | with_reducible exact Visitor.Tidies.tidy_deref_interface _
    | with_reducible exact Visitor.Tidies.tidy_deref_error _
    | with_reducible exact Visitor.Tidies.tidy_deref_constructor _
    | with_reducible exact Visitor.Tidies.tidy_deref_breakDest _
    | with_reducible exact Visitor.Tidies.tidy_deref_continueDest _
    | with_reducible exact Visitor.Tidies.tidy_deref_summary _ _
    | with_reducible exact Visitor.Tidies.tidy_deref_function _
    | (refine Visitor.Tidies.tidy_deref_body _ _ ?_; assumption)
    | with_reducible exact Visitor.Tidies.tidy_deref_any _ _
    | with_reducible exact Visitor.Tidies.tidy_update_frame _ (fun _ => ⟨rfl, rfl, rfl, rfl, rfl, rfl, rfl, rfl, rfl⟩)
    | (refine Visitor.Tidies.tidy_update_breakDest_some _ ?_; assumption)
    | (refine Visitor.Tidies.tidy_update_continueDest_some _ ?_; assumption)
    | (refine Visitor.Tidies.tidy_update_breakDest _ ?_; assumption)
    | (refine Visitor.Tidies.tidy_update_continueDest _ ?_; assumption)
    | (refine Visitor.Tidies.tidy_update_continueDest_post _ _ ?_ ?_ <;> assumption)
    | (refine Visitor.Tidies.tidy_update_genesisPredicate _ ?_; assumption)
    | (refine Visitor.Tidies.tidy_update_interfacePredicate _ ?_; assumption)
    | (refine Visitor.Tidies.tidy_update_errorPredicate _ ?_; assumption)
    | (refine Visitor.Tidies.tidy_update_constructorPredicate _ ?_; assumption)
    | (refine Visitor.Tidies.tidy_update_summaries _ _ ?_; assumption)
    | (refine Visitor.Tidies.tidy_update_function _ ?_; assumption)
    | with_reducible exact Visitor.Tidies.tidy_update_noFunction
    | with_reducible apply Visitor.Tidies.tidy_forEach
    | intro _
    | split
    | (show Visitor.Tidies _ _ (fun _ => True); split)
    | dsimp only)

theorem CHC.setCurrentBlock_tidy {B : List Nat} (block : smt.SymbolicFunctionVariable)
    (arguments : Option (List smt.Expression)) :
    Visitor.Tidies B (CHC.setCurrentBlock block arguments) (fun _ => True) := by
  unfold CHC.setCurrentBlock
  repeat' (first
    | with_reducible exact CHC.clearIndices_tidy _ _
    | with_reducible exact CHC.predicate_tidy_any _
    | with_reducible exact CHC.predicateWith_tidy_any _ _
    | with_reducible exact CHC.createErrorBlock_tidy
    | with_reducible exact CHC.query_tidy _ _
    | with_reducible exact CHC.reset_tidy
    | with_reducible exact SMTEncoder.defineExpr_tidy _ _
    | with_reducible exact SMTEncoder.assignment_tidy _ _
    | (refine CHC.connectBlocks_tidy _ _ _ ?_; assumption)
    | with_reducible apply Visitor.Tidies.tidy_bind
    | with_reducible exact Visitor.Tidies.tidy_solAssert _ _
    | with_reducible exact Visitor.Tidies.tidy_pure_any _
    | (refine Visitor.Tidies.tidy_pure _ (smt.SymbolicFunctionVariable.Plain.plain_app ?_ _); assumption)
    | with_reducible exact Visitor.Tidies.tidy_read_breakDest
    | with_reducible exact Visitor.Tidies.tidy_read_continueDest
    | with_reducible exact Visitor.Tidies.tidy_read_any _
    | with_reducible exact Visitor.Tidies.tidy_deref_genesis _
    | with_reducible exact Visitor.Tidies.tidy_deref_interface _
    | with_reducible exact Visitor.Tidies.tidy_deref_error _
    | with_reducible exact Visitor.Tidies.tidy_deref_constructor _
    | with_reducible exact Visitor.Tidies.tidy_deref_breakDest _
    | with_reducible exact Visitor.Tidies.tidy_deref_continueDest _
    | with_reducible exact Visitor.Tidies.tidy_deref_summary _ _
    | with_reducible exact Visitor.Tidies.tidy_deref_function _
    | (refine Visitor.Tidies.tidy_deref_body _ _ ?_; assumption)
    | with_reducible exact Visitor.Tidies.tidy_deref_any _ _
    | with_reducible exact Visitor.Tidies.tidy_update_frame _ (fun _ => ⟨rfl, rfl, rfl, rfl, rfl, rfl, rfl, rfl, rfl⟩)
    | (refine Visitor.Tidies.tidy_update_breakDest_some _ ?_; assumption)
    | (refine Visitor.Tidies.tidy_update_continueDest_some _ ?_; assumption)
    | (refine Visitor.Tidies.tidy_update_breakDest _ ?_; assumption)
    | (refine Visitor.Tidies.tidy_update_continueDest _ ?_; assumption)
    | (refine Visitor.Tidies.tidy_update_continueDest_post _ _ ?_ ?_ <;> assumption)
    | (refine Visitor.Tidies.tidy_update_genesisPredicate _ ?_; assumption)
    | (refine Visitor.Tidies.tidy_update_interfacePredicate _ ?_; assumption)
    | (refine Visitor.Tidies.tidy_update_errorPredicate _ ?_; assumption)
    | (refine Visitor.Tidies.tidy_update_constructorPredicate _ ?_; assumption)
    | (refine Visitor.Tidies.tidy_update_summaries _ _ ?_; assumption)
    | (refine Visitor.Tidies.tidy_update_function _ ?_; assumption)
    | with_reducible exact Visitor.Tidies.tidy_update_noFunction
    | with_reducible apply Visitor.Tidies.tidy_forEach
    | intro _
    | split
    | (show Visitor.Tidies _ _ (fun _ => True); split)
    | dsimp only)

theorem CHC.eraseKnowledge_tidy {B : List Nat} :
    Visitor.Tidies B CHC.eraseKnowledge (fun _ => True) := by
  unfold CHC.eraseKnowledge
  repeat' (first
    | with_reducible exact SMTEncoder.resetStateVariables_tidy
    | with_reducible exact CHC.createErrorBlock_tidy
    | with_reducible exact CHC.query_tidy _ _
    | with_reducible exact CHC.reset_tidy
    | with_reducible exact SMTEncoder.defineExpr_tidy _ _
    | with_reducible exact SMTEncoder.assignment_tidy _ _
    | (refine CHC.connectBlocks_tidy _ _ _ ?_; assumption)
    | with_reducible apply Visitor.Tidies.tidy_bind
    | with_reducible exact Visitor.Tidies.tidy_solAssert _ _
    | with_reducible exact Visitor.Tidies.tidy_pure_any _
    | (refine Visitor.Tidies.tidy_pure _ (smt.SymbolicFunctionVariable.Plain.plain_app ?_ _); assumption)
    | with_reducible exact Visitor.Tidies.tidy_read_breakDest
    | with_reducible exact Visitor.Tidies.tidy_read_continueDest
    | with_reducible exact Visitor.Tidies.tidy_read_any _
    | with_reducible exact Visitor.Tidies.tidy_deref_genesis _
    | with_reducible exact Visitor.Tidies.tidy_deref_interface _
    | with_reducible exact Visitor.Tidies.tidy_deref_error _
    | with_reducible exact Visitor.Tidies.tidy_deref_constructor _
    | with_reducible exact Visitor.Tidies.tidy_deref_breakDest _
    | with_reducible exact Visitor.Tidies.tidy_deref_continueDest _
    | with_reducible exact Visitor.Tidies.tidy_deref_summary _ _
    | with_reducible exact Visitor.Tidies.tidy_deref_function _
    | (refine Visitor.Tidies.tidy_deref_body _ _ ?_; assumption)
    | with_reducible exact Visitor.Tidies.tidy_deref_any _ _
    | with_reducible exact Visitor.Tidies.tidy_update_frame _ (fun _ => ⟨rfl, rfl, rfl, rfl, rfl, rfl, rfl, rfl, rfl⟩)
    | (refine Visitor.Tidies.tidy_update_breakDest_some _ ?_; assumption)
    | (refine Visitor.Tidies.tidy_update_continueDest_some _ ?_; assumption)
    | (refine Visitor.Tidies.tidy_update_breakDest _ ?_; assumption)
    | (refine Visitor.Tidies.tidy_update_continueDest _ ?_; assumption)
    | (refine Visitor.Tidies.tidy_update_continueDest_post _ _ ?_ ?_ <;> assumption)
    | (refine Visitor.Tidies.tidy_update_genesisPredicate _ ?_; assumption)
    | (refine Visitor.Tidies.tidy_update_interfacePredicate _ ?_; assumption)
    | (refine Visitor.Tidies.tidy_update_errorPredicate _ ?_; assumption)
    | (refine Visitor.Tidies.tidy_update_constructorPredicate _ ?_; assumption)
    | (refine Visitor.Tidies.tidy_update_summaries _ _ ?_; assumption)
    | (refine Visitor.Tidies.tidy_update_function _ ?_; assumption)
    | with_reducible exact Visitor.Tidies.tidy_update_noFunction
    | with_reducible apply Visitor.Tidies.tidy_forEach
    | intro _
    | split
    | (show Visitor.Tidies _ _ (fun _ => True); split)
    | dsimp only)

theorem SMTEncoder.initContract_tidy {B : List Nat} (c : ContractDefinition) :
    Visitor.Tidies B (SMTEncoder.initContract c) (fun _ => True) := by
  unfold SMTEncoder.initContract
  repeat' (first
    | with_reducible exact SMTEncoder.createVariable_tidy _
    | with_reducible exact CHC.clearIndices_tidy _ _
    | with_reducible exact CHC.createErrorBlock_tidy
    | with_reducible exact CHC.query_tidy _ _
    | with_reducible exact CHC.reset_tidy
    | with_reducible exact SMTEncoder.defineExpr_tidy _ _
    | with_reducible exact SMTEncoder.assignment_tidy _ _
    | (refine CHC.connectBlocks_tidy _ _ _ ?_; assumption)
    | with_reducible apply Visitor.Tidies.tidy_bind
    | with_reducible exact Visitor.Tidies.tidy_solAssert _ _
    | with_reducible exact Visitor.Tidies.tidy_pure_any _
    | (refine Visitor.Tidies.tidy_pure _ (smt.SymbolicFunctionVariable.Plain.plain_app ?_ _); assumption)
    | with_reducible exact Visitor.Tidies.tidy_read_breakDest
    | with_reducible exact Visitor.Tidies.tidy_read_continueDest
    | with_reducible exact Visitor.Tidies.tidy_read_any _
    | with_reducible exact Visitor.Tidies.tidy_deref_genesis _
    | with_reducible exact Visitor.Tidies.tidy_deref_interface _
    | with_reducible exact Visitor.Tidies.tidy_deref_error _
    | with_reducible exact Visitor.Tidies.tidy_deref_constructor _
    | with_reducible exact Visitor.Tidies.tidy_deref_breakDest _
    | with_reducible exact Visitor.Tidies.tidy_deref_continueDest _
    | with_reducible exact Visitor.Tidies.tidy_deref_summary _ _
    | with_reducible exact Visitor.Tidies.tidy_deref_function _
    | (refine Visitor.Tidies.tidy_deref_body _ _ ?_; assumption)
    | with_reducible exact Visitor.Tidies.tidy_deref_any _ _
    | with_reducible exact Visitor.Tidies.tidy_update_frame _ (fun _ => ⟨rfl, rfl, rfl, rfl, rfl, rfl, rfl, rfl, rfl⟩)
    | (refine Visitor.Tidies.tidy_update_breakDest_some _ ?_; assumption)
    | (refine Visitor.Tidies.tidy_update_continueDest_some _ ?_; assumption)
    | (refine Visitor.Tidies.tidy_update_breakDest _ ?_; assumption)
    | (refine Visitor.Tidies.tidy_update_continueDest _ ?_; assumption)
    | (refine Visitor.Tidies.tidy_update_continueDest_post _ _ ?_ ?_ <;> assumption)
    | (refine Visitor.Tidies.tidy_update_genesisPredicate _ ?_; assumption)
    | (refine Visitor.Tidies.tidy_update_interfacePredicate _ ?_; assumption)
    | (refine Visitor.Tidies.tidy_update_errorPredicate _ ?_; assumption)
    | (refine Visitor.Tidies.tidy_update_constructorPredicate _ ?_; assumption)
    | (refine Visitor.Tidies.tidy_update_summaries _ _ ?_; assumption)
    | (refine Visitor.Tidies.tidy_update_function _ ?_; assumption)
    | with_reducible exact Visitor.Tidies.tidy_update_noFunction
    | with_reducible apply Visitor.Tidies.tidy_forEach
    | intro _
    | split
    | (show Visitor.Tidies _ _ (fun _ => True); split)
    | dsimp only)

theorem SMTEncoder.initFunction_tidy {B : List Nat} (f : FunctionDefinition) :
    Visitor.Tidies B (SMTEncoder.initFunction f) (fun _ => True) := by
  unfold SMTEncoder.initFunction
  repeat' (first
    | with_reducible exact SMTEncoder.createVariable_tidy _
    | with_reducible exact CHC.clearIndices_tidy _ _
    | with_reducible exact CHC.createErrorBlock_tidy
    | with_reducible exact CHC.query_tidy _ _
    | with_reducible exact CHC.reset_tidy
    | with_reducible exact SMTEncoder.defineExpr_tidy _ _
    | with_reducible exact SMTEncoder.assignment_tidy _ _
    | (refine CHC.connectBlocks_tidy _ _ _ ?_; assumption)
    | with_reducible apply Visitor.Tidies.tidy_bind
    | with_reducible exact Visitor.Tidies.tidy_solAssert _ _
    | with_reducible exact Visitor.Tidies.tidy_pure_any _
    | (refine Visitor.Tidies.tidy_pure _ (smt.SymbolicFunctionVariable.Plain.plain_app ?_ _); assumption)
    | with_reducible exact Visitor.Tidies.tidy_read_breakDest
    | with_reducible exact Visitor.Tidies.tidy_read_continueDest
    | with_reducible exact Visitor.Tidies.tidy_read_any _
    | with_reducible exact Visitor.Tidies.tidy_deref_genesis _
    | with_reducible exact Visitor.Tidies.tidy_deref_interface _
    | with_reducible exact Visitor.Tidies.tidy_deref_error _
    | with_reducible exact Visitor.Tidies.tidy_deref_constructor _
    | with_reducible exact Visitor.Tidies.tidy_deref_breakDest _
    | with_reducible exact Visitor.Tidies.tidy_deref_continueDest _
    | with_reducible exact Visitor.Tidies.tidy_deref_summary _ _
    | with_reducible exact Visitor.Tidies.tidy_deref_function _
    | (refine Visitor.Tidies.tidy_deref_body _ _ ?_; assumption)
    | with_reducible exact Visitor.Tidies.tidy_deref_any _ _
    | with_reducible exact Visitor.Tidies.tidy_update_frame _ (fun _ => ⟨rfl, rfl, rfl, rfl, rfl, rfl, rfl, rfl, rfl⟩)
    | (refine Visitor.Tidies.tidy_update_breakDest_some _ ?_; assumption)
    | (refine Visitor.Tidies.tidy_update_continueDest_some _ ?_; assumption)
    | (refine Visitor.Tidies.tidy_update_breakDest _ ?_; assumption)
    | (refine Visitor.Tidies.tidy_update_continueDest _ ?_; assumption)
    | (refine Visitor.Tidies.tidy_update_continueDest_post _ _ ?_ ?_ <;> assumption)
    | (refine Visitor.Tidies.tidy_update_genesisPredicate _ ?_; assumption)
    | (refine Visitor.Tidies.tidy_update_interfacePredicate _ ?_; assumption)
    | (refine Visitor.Tidies.tidy_update_errorPredicate _ ?_; assumption)
    | (refine Visitor.Tidies.tidy_update_constructorPredicate _ ?_; assumption)
    | (refine Visitor.Tidies.tidy_update_summaries _ _ ?_; assumption)
    | (refine Visitor.Tidies.tidy_update_function _ ?_; assumption)
    | with_reducible exact Visitor.Tidies.tidy_update_noFunction
    | with_reducible apply Visitor.Tidies.tidy_forEach
    | intro _
    | split
    | (show Visitor.Tidies _ _ (fun _ => True); split)
    | dsimp only)

theorem CHC.predicateCall_tidy {B : List Nat} (c : Expression) :
    Visitor.Tidies B (CHC.predicateCall c) (fun _ => True) := by
  unfold CHC.predicateCall
  repeat' (first
    | with_reducible exact SMTEncoder.createVariable_tidy _
    | with_reducible exact CHC.initialStateVariables_tidy
    | with_reducible exact CHC.currentStateVariables_tidy
    | with_reducible exact CHC.createErrorBlock_tidy
    | with_reducible exact CHC.query_tidy _ _
    | with_reducible exact CHC.reset_tidy
    | with_reducible exact SMTEncoder.defineExpr_tidy _ _
    | with_reducible exact SMTEncoder.assignment_tidy _ _
    | (refine CHC.connectBlocks_tidy _ _ _ ?_; assumption)
    | with_reducible apply Visitor.Tidies.tidy_bind
    | with_reducible exact Visitor.Tidies.tidy_solAssert _ _
    | with_reducible exact Visitor.Tidies.tidy_pure_any _
    | (refine Visitor.Tidies.tidy_pure _ (smt.SymbolicFunctionVariable.Plain.plain_app ?_ _); assumption)
    | with_reducible exact Visitor.Tidies.tidy_read_breakDest
    | with_reducible exact Visitor.Tidies.tidy_read_continueDest
    | with_reducible exact Visitor.Tidies.tidy_read_any _
    | with_reducible exact Visitor.Tidies.tidy_deref_genesis _
    | with_reducible exact Visitor.Tidies.tidy_deref_interface _
    | with_reducible exact Visitor.Tidies.tidy_deref_error _
    | with_reducible exact Visitor.Tidies.tidy_deref_constructor _
    | with_reducible exact Visitor.Tidies.tidy_deref_breakDest _
    | with_reducible exact Visitor.Tidies.tidy_deref_continueDest _
    | with_reducible exact Visitor.Tidies.tidy_deref_summary _ _
    | with_reducible exact Visitor.Tidies.tidy_deref_function _
    | (refine Visitor.Tidies.tidy_deref_body _ _ ?_; assumption)
    | with_reducible exact Visitor.Tidies.tidy_deref_any _ _
    | with_reducible exact Visitor.Tidies.tidy_update_frame _ (fun _ => ⟨rfl, rfl, rfl, rfl, rfl, rfl, rfl, rfl, rfl⟩)
    | (refine Visitor.Tidies.tidy_update_breakDest_some _ ?_; assumption)
    | (refine Visitor.Tidies.tidy_update_continueDest_some _ ?_; assumption)
    | (refine Visitor.Tidies.tidy_update_breakDest _ ?_; assumption)
    | (refine Visitor.Tidies.tidy_update_continueDest _ ?_; assumption)
    | (refine Visitor.Tidies.tidy_update_continueDest_post _ _ ?_ ?_ <;> assumption)
    | (refine Visitor.Tidies.tidy_update_genesisPredicate _ ?_; assumption)
    | (refine Visitor.Tidies.tidy_update_interfacePredicate _ ?_; assumption)
    | (refine Visitor.Tidies.tidy_update_errorPredicate _ ?_; assumption)
    | (refine Visitor.Tidies.tidy_update_constructorPredicate _ ?_; assumption)
    | (refine Visitor.Tidies.tidy_update_summaries _ _ ?_; assumption)
    | (refine Visitor.Tidies.tidy_update_function _ ?_; assumption)
    | with_reducible exact Visitor.Tidies.tidy_update_noFunction
    | with_reducible apply Visitor.Tidies.tidy_forEach
    | intro _
    | split
    | (show Visitor.Tidies _ _ (fun _ => True); split)
    | dsimp only)

theorem CHC.visitAssert_tidy {B : List Nat} (c : Expression) (hc : c.id ∉ B) :
    Visitor.Tidies B (CHC.visitAssert c) (fun _ => True) := by
  unfold CHC.visitAssert
  repeat' (first
    | (refine CHC.createBlock_tidy _ _ ?_; exact rfl)
    | (refine CHC.createBlock_tidy_node _ ?_; assumption)
    | with_reducible exact CHC.createBlock_tidy_function _
    | with_reducible exact CHC.createBlock_tidy_any _ _
    | with_reducible exact CHC.setCurrentBlock_tidy _ _
    | (refine CHC.predicate_tidy _ ?_; first | assumption | exact ‹smt.PlainOption _ (some _)› _ rfl)
    | with_reducible exact CHC.predicate_tidy_any _
    | with_reducible exact CHC.summary_tidy _
    | with_reducible exact CHC.eraseKnowledge_tidy
    | with_reducible exact SMTEncoder.currentPathConditions_tidy
    | with_reducible exact SMTEncoder.expr_tidy _
    | with_reducible exact CHC.createErrorBlock_tidy
    | with_reducible exact CHC.query_tidy _ _
    | with_reducible exact CHC.reset_tidy
    | with_reducible exact SMTEncoder.defineExpr_tidy _ _
    | with_reducible exact SMTEncoder.assignment_tidy _ _
    | (refine CHC.connectBlocks_tidy _ _ _ ?_; assumption)
    | with_reducible apply Visitor.Tidies.tidy_bind
    | with_reducible exact Visitor.Tidies.tidy_solAssert _ _
    | with_reducible exact Visitor.Tidies.tidy_pure_any _
    | (refine Visitor.Tidies.tidy_pure _ (smt.SymbolicFunctionVariable.Plain.plain_app ?_ _); assumption)
    | with_reducible exact Visitor.Tidies.tidy_read_breakDest
    | with_reducible exact Visitor.Tidies.tidy_read_continueDest
    | with_reducible exact Visitor.Tidies.tidy_read_any _
    | with_reducible exact Visitor.Tidies.tidy_deref_genesis _
    | with_reducible exact Visitor.Tidies.tidy_deref_interface _
    | with_reducible exact Visitor.Tidies.tidy_deref_error _
    | with_reducible exact Visitor.Tidies.tidy_deref_constructor _
    | with_reducible exact Visitor.Tidies.tidy_deref_breakDest _
    | with_reducible exact Visitor.Tidies.tidy_deref_continueDest _
    | with_reducible exact Visitor.Tidies.tidy_deref_summary _ _
    | with_reducible exact Visitor.Tidies.tidy_deref_function _
    | (refine Visitor.Tidies.tidy_deref_body _ _ ?_; assumption)
    | with_reducible exact Visitor.Tidies.tidy_deref_any _ _
    | with_reducible exact Visitor.Tidies.tidy_update_frame _ (fun _ => ⟨rfl, rfl, rfl, rfl, rfl, rfl, rfl, rfl, rfl⟩)
    | (refine Visitor.Tidies.tidy_update_breakDest_some _ ?_; assumption)
    | (refine Visitor.Tidies.tidy_update_continueDest_some _ ?_; assumption)
    | (refine Visitor.Tidies.tidy_update_breakDest _ ?_; assumption)
    | (refine Visitor.Tidies.tidy_update_continueDest _ ?_; assumption)
    | (refine Visitor.Tidies.tidy_update_continueDest_post _ _ ?_ ?_ <;> assumption)
    | (refine Visitor.Tidies.tidy_update_genesisPredicate _ ?_; assumption)
    | (refine Visitor.Tidies.tidy_update_interfacePredicate _ ?_; assumption)
    | (refine Visitor.Tidies.tidy_update_errorPredicate _ ?_; assumption)
    | (refine Visitor.Tidies.tidy_update_constructorPredicate _ ?_; assumption)
    | (refine Visitor.Tidies.tidy_update_summaries _ _ ?_; assumption)
    | (refine Visitor.Tidies.tidy_update_function _ ?_; assumption)
    | with_reducible exact Visitor.Tidies.tidy_update_noFunction
    | with_reducible apply Visitor.Tidies.tidy_forEach
    | intro _
    | split
    | (show Visitor.Tidies _ _ (fun _ => True); split)
    | dsimp only)

theorem CHC.internalFunctionCall_tidy {B : List Nat} (c : Expression) (hc : c.id ∉ B) :
    Visitor.Tidies B (CHC.internalFunctionCall c) (fun _ => True) := by
  unfold CHC.internalFunctionCall
  repeat' (first
    | with_reducible exact CHC.predicateCall_tidy _
    | (refine CHC.createBlock_tidy _ _ ?_; exact rfl)
    | (refine CHC.createBlock_tidy_node _ ?_; assumption)
    | with_reducible exact CHC.createBlock_tidy_function _
    | with_reducible exact CHC.createBlock_tidy_any _ _
    | with_reducible exact CHC.setCurrentBlock_tidy _ _
    | (refine CHC.predicate_tidy _ ?_; first | assumption | exact ‹smt.PlainOption _ (some _)› _ rfl)
    | with_reducible exact CHC.predicate_tidy_any _
    | with_reducible exact CHC.summary_tidy _
    | with_reducible exact CHC.eraseKnowledge_tidy
    | with_reducible exact SMTEncoder.currentPathConditions_tidy
    | with_reducible exact SMTEncoder.expr_tidy _
    | with_reducible exact CHC.createErrorBlock_tidy
    | with_reducible exact CHC.query_tidy _ _
    | with_reducible exact CHC.reset_tidy
    | with_reducible exact SMTEncoder.defineExpr_tidy _ _
    | with_reducible exact SMTEncoder.assignment_tidy _ _
    | (refine CHC.connectBlocks_tidy _ _ _ ?_; assumption)
    | with_reducible apply Visitor.Tidies.tidy_bind
    | with_reducible exact Visitor.Tidies.tidy_solAssert _ _
    | with_reducible exact Visitor.Tidies.tidy_pure_any _
    | (refine Visitor.Tidies.tidy_pure _ (smt.SymbolicFunctionVariable.Plain.plain_app ?_ _); assumption)
    | with_reducible exact Visitor.Tidies.tidy_read_breakDest
    | with_reducible exact Visitor.Tidies.tidy_read_continueDest
    | with_reducible exact Visitor.Tidies.tidy_read_any _
    | with_reducible exact Visitor.Tidies.tidy_deref_genesis _
    | with_reducible exact Visitor.Tidies.tidy_deref_interface _
    | with_reducible exact Visitor.Tidies.tidy_deref_error _
    | with_reducible exact Visitor.Tidies.tidy_deref_constructor _
    | with_reducible exact Visitor.Tidies.tidy_deref_breakDest _
    | with_reducible exact Visitor.Tidies.tidy_deref_continueDest _
    | with_reducible exact Visitor.Tidies.tidy_deref_summary _ _
    | with_reducible exact Visitor.Tidies.tidy_deref_function _
    | (refine Visitor.Tidies.tidy_deref_body _ _ ?_; assumption)
    | with_reducible exact Visitor.Tidies.tidy_deref_any _ _
    | with_reducible exact Visitor.Tidies.tidy_update_frame _ (fun _ => ⟨rfl, rfl, rfl, rfl, rfl, rfl, rfl, rfl, rfl⟩)
    | (refine Visitor.Tidies.tidy_update_breakDest_some _ ?_; assumption)
    | (refine Visitor.Tidies.tidy_update_continueDest_some _ ?_; assumption)
    | (refine Visitor.Tidies.tidy_update_breakDest _ ?_; assumption)
    | (refine Visitor.Tidies.tidy_update_continueDest _ ?_; assumption)
    | (refine Visitor.Tidies.tidy_update_continueDest_post _ _ ?_ ?_ <;> assumption)
    | (refine Visitor.Tidies.tidy_update_genesisPredicate _ ?_; assumption)
    | (refine Visitor.Tidies.tidy_update_interfacePredicate _ ?_; assumption)
    | (refine Visitor.Tidies.tidy_update_errorPredicate _ ?_; assumption)
    | (refine Visitor.Tidies.tidy_update_constructorPredicate _ ?_; assumption)
    | (refine Visitor.Tidies.tidy_update_summaries _ _ ?_; assumption)
    | (refine Visitor.Tidies.tidy_update_function _ ?_; assumption)
    | with_reducible exact Visitor.Tidies.tidy_update_noFunction
    | with_reducible apply Visitor.Tidies.tidy_forEach
    | intro _
    | split
    | (show Visitor.Tidies _ _ (fun _ => True); split)
    | dsimp only)

theorem CHC.unknownFunctionCall_tidy {B : List Nat} (c : Expression) :
    Visitor.Tidies B (CHC.unknownFunctionCall c) (fun _ => True) := by
  unfold CHC.unknownFunctionCall
  repeat' (first
    | (refine CHC.createBlock_tidy _ _ ?_; exact rfl)
    | (refine CHC.createBlock_tidy_node _ ?_; assumption)
    | with_reducible exact CHC.createBlock_tidy_function _
    | with_reducible exact CHC.createBlock_tidy_any _ _
    | with_reducible exact CHC.setCurrentBlock_tidy _ _
    | (refine CHC.predicate_tidy _ ?_; first | assumption | exact ‹smt.PlainOption _ (some _)› _ rfl)
    | with_reducible exact CHC.predicate_tidy_any _
    | with_reducible exact CHC.summary_tidy _
    | with_reducible exact CHC.eraseKnowledge_tidy
    | with_reducible exact SMTEncoder.currentPathConditions_tidy
    | with_reducible exact SMTEncoder.expr_tidy _
    | with_reducible exact CHC.createErrorBlock_tidy
    | with_reducible exact CHC.query_tidy _ _
    | with_reducible exact CHC.reset_tidy
    | with_reducible exact SMTEncoder.defineExpr_tidy _ _
    | with_reducible exact SMTEncoder.assignment_tidy _ _
    | (refine CHC.connectBlocks_tidy _ _ _ ?_; assumption)
    | with_reducible apply Visitor.Tidies.tidy_bind
    | with_reducible exact Visitor.Tidies.tidy_solAssert _ _
    | with_reducible exact Visitor.Tidies.tidy_pure_any _
    | (refine Visitor.Tidies.tidy_pure _ (smt.SymbolicFunctionVariable.Plain.plain_app ?_ _); assumption)
    | with_reducible exact Visitor.Tidies.tidy_read_breakDest
    | with_reducible exact Visitor.Tidies.tidy_read_continueDest
    | with_reducible exact Visitor.Tidies.tidy_read_any _
    | with_reducible exact Visitor.Tidies.tidy_deref_genesis _
    | with_reducible exact Visitor.Tidies.tidy_deref_interface _
    | with_reducible exact Visitor.Tidies.tidy_deref_error _
    | with_reducible exact Visitor.Tidies.tidy_deref_constructor _
    | with_reducible exact Visitor.Tidies.tidy_deref_breakDest _
    | with_reducible exact Visitor.Tidies.tidy_deref_continueDest _
    | with_reducible exact Visitor.Tidies.tidy_deref_summary _ _
    | with_reducible exact Visitor.Tidies.tidy_deref_function _
    | (refine Visitor.Tidies.tidy_deref_body _ _ ?_; assumption)
    | with_reducible exact Visitor.Tidies.tidy_deref_any _ _
    | with_reducible exact Visitor.Tidies.tidy_update_frame _ (fun _ => ⟨rfl, rfl, rfl, rfl, rfl, rfl, rfl, rfl, rfl⟩)
    | (refine Visitor.Tidies.tidy_update_breakDest_some _ ?_; assumption)
    | (refine Visitor.Tidies.tidy_update_continueDest_some _ ?_; assumption)
    | (refine Visitor.Tidies.tidy_update_breakDest _ ?_; assumption)
    | (refine Visitor.Tidies.tidy_update_continueDest _ ?_; assumption)
    | (refine Visitor.Tidies.tidy_update_continueDest_post _ _ ?_ ?_ <;> assumption)
    | (refine Visitor.Tidies.tidy_update_genesisPredicate _ ?_; assumption)
    | (refine Visitor.Tidies.tidy_update_interfacePredicate _ ?_; assumption)
    | (refine Visitor.Tidies.tidy_update_errorPredicate _ ?_; assumption)
    | (refine Visitor.Tidies.tidy_update_constructorPredicate _ ?_; assumption)
    | (refine Visitor.Tidies.tidy_update_summaries _ _ ?_; assumption)
    | (refine Visitor.Tidies.tidy_update_function _ ?_; assumption)
    | with_reducible exact Visitor.Tidies.tidy_update_noFunction
    | with_reducible apply Visitor.Tidies.tidy_forEach
    | intro _
    | split
    | (show Visitor.Tidies _ _ (fun _ => True); split)
    | dsimp only)

set_option maxHeartbeats 4000000 in
theorem CHC.endVisitFunctionCall_tidy {B : List Nat} (c : Expression) (hc : c.id ∉ B) :
    Visitor.Tidies B (CHC.endVisitFunctionCall c) (fun _ => True) := by
  unfold CHC.endVisitFunctionCall
  generalize c.functionKind = fk
  cases fk <;>
  repeat' (first
    | with_reducible exact CHC.visitAssert_tidy _ hc
    | with_reducible exact CHC.internalFunctionCall_tidy _ hc
    | with_reducible exact CHC.unknownFunctionCall_tidy _
    | with_reducible exact SMTEncoder.baseEndVisitFunctionCall_tidy _
    | with_reducible exact SMTEncoder.createReturnedExpressions_tidy _
    | with_reducible exact CHC.createErrorBlock_tidy
    | with_reducible exact CHC.query_tidy _ _
    | with_reducible exact CHC.reset_tidy
    | with_reducible exact SMTEncoder.defineExpr_tidy _ _
    | with_reducible exact SMTEncoder.assignment_tidy _ _
    | (refine CHC.connectBlocks_tidy _ _ _ ?_; assumption)
    | with_reducible apply Visitor.Tidies.tidy_bind
    | with_reducible exact Visitor.Tidies.tidy_solAssert _ _
    | with_reducible exact Visitor.Tidies.tidy_pure_any _
    | (refine Visitor.Tidies.tidy_pure _ (smt.SymbolicFunctionVariable.Plain.plain_app ?_ _); assumption)
    | with_reducible exact Visitor.Tidies.tidy_read_breakDest
    | with_reducible exact Visitor.Tidies.tidy_read_continueDest
    | with_reducible exact Visitor.Tidies.tidy_read_any _
    | with_reducible exact Visitor.Tidies.tidy_deref_genesis _
    | with_reducible exact Visitor.Tidies.tidy_deref_interface _
    | with_reducible exact Visitor.Tidies.tidy_deref_error _
    | with_reducible exact Visitor.Tidies.tidy_deref_constructor _
    | with_reducible exact Visitor.Tidies.tidy_deref_breakDest _
    | with_reducible exact Visitor.Tidies.tidy_deref_continueDest _
    | with_reducible exact Visitor.Tidies.tidy_deref_summary _ _
    | with_reducible exact Visitor.Tidies.tidy_deref_function _
    | (refine Visitor.Tidies.tidy_deref_body _ _ ?_; assumption)
    | with_reducible exact Visitor.Tidies.tidy_deref_any _ _
    | with_reducible exact Visitor.Tidies.tidy_update_frame _ (fun _ => ⟨rfl, rfl, rfl, rfl, rfl, rfl, rfl, rfl, rfl⟩)
    | (refine Visitor.Tidies.tidy_update_breakDest_some _ ?_; assumption)
    | (refine Visitor.Tidies.tidy_update_continueDest_some _ ?_; assumption)
    | (refine Visitor.Tidies.tidy_update_breakDest _ ?_; assumption)
    | (refine Visitor.Tidies.tidy_update_continueDest _ ?_; assumption)
    | (refine Visitor.Tidies.tidy_update_continueDest_post _ _ ?_ ?_ <;> assumption)
    | (refine Visitor.Tidies.tidy_update_genesisPredicate _ ?_; assumption)
    | (refine Visitor.Tidies.tidy_update_interfacePredicate _ ?_; assumption)
    | (refine Visitor.Tidies.tidy_update_errorPredicate _ ?_; assumption)
    | (refine Visitor.Tidies.tidy_update_constructorPredicate _ ?_; assumption)
    | (refine Visitor.Tidies.tidy_update_summaries _ _ ?_; assumption)
    | (refine Visitor.Tidies.tidy_update_function _ ?_; assumption)
    | with_reducible exact Visitor.Tidies.tidy_update_noFunction
    | with_reducible apply Visitor.Tidies.tidy_forEach
    | intro _
    | split
    | (show Visitor.Tidies _ _ (fun _ => True); split)
    | dsimp only)

theorem CHC.endVisitBreak_tidy {B : List Nat} (i : Nat) :
    Visitor.Tidies B (CHC.endVisitBreak i) (fun _ => True) := by
  unfold CHC.endVisitBreak
  repeat' (first
    | with_reducible exact CHC.createBlock_tidy_any _ _
    | with_reducible exact CHC.setCurrentBlock_tidy _ _
    | (refine CHC.predicate_tidy _ ?_; first | assumption | exact ‹smt.PlainOption _ (some _)› _ rfl)
    | with_reducible exact CHC.predicate_tidy_any _
    | with_reducible exact CHC.summary_tidy _
    | with_reducible exact CHC.eraseKnowledge_tidy
    | with_reducible exact SMTEncoder.currentPathConditions_tidy
    | with_reducible exact SMTEncoder.expr_tidy _
    | with_reducible exact CHC.createErrorBlock_tidy
    | with_reducible exact CHC.query_tidy _ _
    | with_reducible exact CHC.reset_tidy
    | with_reducible exact SMTEncoder.defineExpr_tidy _ _
    | with_reducible exact SMTEncoder.assignment_tidy _ _
    | (refine CHC.connectBlocks_tidy _ _ _ ?_; assumption)
    | with_reducible apply Visitor.Tidies.tidy_bind
    | with_reducible exact Visitor.Tidies.tidy_solAssert _ _
    | with_reducible exact Visitor.Tidies.tidy_pure_any _
    | (refine Visitor.Tidies.tidy_pure _ (smt.SymbolicFunctionVariable.Plain.plain_app ?_ _); assumption)
    | with_reducible exact Visitor.Tidies.tidy_read_breakDest
    | with_reducible exact Visitor.Tidies.tidy_read_continueDest
    | with_reducible exact Visitor.Tidies.tidy_read_any _
    | with_reducible exact Visitor.Tidies.tidy_deref_genesis _
    | with_reducible exact Visitor.Tidies.tidy_deref_interface _
    | with_reducible exact Visitor.Tidies.tidy_deref_error _
    | with_reducible exact Visitor.Tidies.tidy_deref_constructor _
    | with_reducible exact Visitor.Tidies.tidy_deref_breakDest _
    | with_reducible exact Visitor.Tidies.tidy_deref_continueDest _
    | with_reducible exact Visitor.Tidies.tidy_deref_summary _ _
    | with_reducible exact Visitor.Tidies.tidy_deref_function _
    | (refine Visitor.Tidies.tidy_deref_body _ _ ?_; assumption)
    | with_reducible exact Visitor.Tidies.tidy_deref_any _ _
    | with_reducible exact Visitor.Tidies.tidy_update_frame _ (fun _ => ⟨rfl, rfl, rfl, rfl, rfl, rfl, rfl, rfl, rfl⟩)
    | (refine Visitor.Tidies.tidy_update_breakDest_some _ ?_; assumption)
    | (refine Visitor.Tidies.tidy_update_continueDest_some _ ?_; assumption)
    | (refine Visitor.Tidies.tidy_update_breakDest _ ?_; assumption)
    | (refine Visitor.Tidies.tidy_update_continueDest _ ?_; assumption)
    | (refine Visitor.Tidies.tidy_update_continueDest_post _ _ ?_ ?_ <;> assumption)
    | (refine Visitor.Tidies.tidy_update_genesisPredicate _ ?_; assumption)
    | (refine Visitor.Tidies.tidy_update_interfacePredicate _ ?_; assumption)
    | (refine Visitor.Tidies.tidy_update_errorPredicate _ ?_; assumption)
    | (refine Visitor.Tidies.tidy_update_constructorPredicate _ ?_; assumption)
    | (refine Visitor.Tidies.tidy_update_summaries _ _ ?_; assumption)
    | (refine Visitor.Tidies.tidy_update_function _ ?_; assumption)
    | with_reducible exact Visitor.Tidies.tidy_update_noFunction
    | with_reducible apply Visitor.Tidies.tidy_forEach
    | intro _
    | split
    | (show Visitor.Tidies _ _ (fun _ => True); split)
    | dsimp only)

theorem CHC.endVisitContinue_tidy {B : List Nat} (i : Nat) :
    Visitor.Tidies B (CHC.endVisitContinue i) (fun _ => True) := by
  unfold CHC.endVisitContinue
  repeat' (first
    | with_reducible exact CHC.createBlock_tidy_any _ _
    | with_reducible exact CHC.setCurrentBlock_tidy _ _
    | (refine CHC.predicate_tidy _ ?_; first | assumption | exact ‹smt.PlainOption _ (some _)› _ rfl)
    | with_reducible exact CHC.predicate_tidy_any _
    | with_reducible exact CHC.summary_tidy _
    | with_reducible exact CHC.eraseKnowledge_tidy
    | with_reducible exact SMTEncoder.currentPathConditions_tidy
    | with_reducible exact SMTEncoder.expr_tidy _
    | with_reducible exact CHC.createErrorBlock_tidy
    | with_reducible exact CHC.query_tidy _ _
    | with_reducible exact CHC.reset_tidy
    | with_reducible exact SMTEncoder.defineExpr_tidy _ _
    | with_reducible exact SMTEncoder.assignment_tidy _ _
    | (refine CHC.connectBlocks_tidy _ _ _ ?_; assumption)
    | with_reducible apply Visitor.Tidies.tidy_bind
    | with_reducible exact Visitor.Tidies.tidy_solAssert _ _
    | with_reducible exact Visitor.Tidies.tidy_pure_any _
    | (refine Visitor.Tidies.tidy_pure _ (smt.SymbolicFunctionVariable.Plain.plain_app ?_ _); assumption)
    | with_reducible exact Visitor.Tidies.tidy_read_breakDest
    | with_reducible exact Visitor.Tidies.tidy_read_continueDest
    | with_reducible exact Visitor.Tidies.tidy_read_any _
    | with_reducible exact Visitor.Tidies.tidy_deref_genesis _
    | with_reducible exact Visitor.Tidies.tidy_deref_interface _
    | with_reducible exact Visitor.Tidies.tidy_deref_error _
    | with_reducible exact Visitor.Tidies.tidy_deref_constructor _
    | with_reducible exact Visitor.Tidies.tidy_deref_breakDest _
    | with_reducible exact Visitor.Tidies.tidy_deref_continueDest _
    | with_reducible exact Visitor.Tidies.tidy_deref_summary _ _
    | with_reducible exact Visitor.Tidies.tidy_deref_function _
    | (refine Visitor.Tidies.tidy_deref_body _ _ ?_; assumption)
    | with_reducible exact Visitor.Tidies.tidy_deref_any _ _
    | with_reducible exact Visitor.Tidies.tidy_update_frame _ (fun _ => ⟨rfl, rfl, rfl, rfl, rfl, rfl, rfl, rfl, rfl⟩)
    | (refine Visitor.Tidies.tidy_update_breakDest_some _ ?_; assumption)
    | (refine Visitor.Tidies.tidy_update_continueDest_some _ ?_; assumption)
    | (refine Visitor.Tidies.tidy_update_breakDest _ ?_; assumption)
    | (refine Visitor.Tidies.tidy_update_continueDest _ ?_; assumption)
    | (refine Visitor.Tidies.tidy_update_continueDest_post _ _ ?_ ?_ <;> assumption)
    | (refine Visitor.Tidies.tidy_update_genesisPredicate _ ?_; assumption)
    | (refine Visitor.Tidies.tidy_update_interfacePredicate _ ?_; assumption)
    | (refine Visitor.Tidies.tidy_update_errorPredicate _ ?_; assumption)
    | (refine Visitor.Tidies.tidy_update_constructorPredicate _ ?_; assumption)
    | (refine Visitor.Tidies.tidy_update_summaries _ _ ?_; assumption)
    | (refine Visitor.Tidies.tidy_update_function _ ?_; assumption)
    | with_reducible exact Visitor.Tidies.tidy_update_noFunction
    | with_reducible apply Visitor.Tidies.tidy_forEach
    | intro _
    | split
    | (show Visitor.Tidies _ _ (fun _ => True); split)
    | dsimp only)

mutual
theorem Expression.acceptExpression_tidy {B : List Nat} :
    ∀ e : Expression, (∀ id ∈ e.callIds, id ∉ B) → Visitor.Tidies B (e.accept) (fun _ => True)
  | .Literal i category value, h => by
    rw [Expression.accept]
    repeat' (first
      | with_reducible exact SMTEncoder.expr_tidy _
      | with_reducible exact SMTEncoder.currentValue_tidy _
      | with_reducible exact CHC.createErrorBlock_tidy
      | with_reducible exact CHC.query_tidy _ _
      | with_reducible exact CHC.reset_tidy
      | with_reducible exact SMTEncoder.defineExpr_tidy _ _
      | with_reducible exact SMTEncoder.assignment_tidy _ _
      | (refine CHC.connectBlocks_tidy _ _ _ ?_; assumption)
      | with_reducible apply Visitor.Tidies.tidy_bind
      | with_reducible exact Visitor.Tidies.tidy_solAssert _ _
      | with_reducible exact Visitor.Tidies.tidy_pure_any _
      | (refine Visitor.Tidies.tidy_pure _ (smt.SymbolicFunctionVariable.Plain.plain_app ?_ _); assumption)
      | with_reducible exact Visitor.Tidies.tidy_read_breakDest
      | with_reducible exact Visitor.Tidies.tidy_read_continueDest
      | with_reducible exact Visitor.Tidies.tidy_read_any _
      | with_reducible exact Visitor.Tidies.tidy_deref_genesis _
      | with_reducible exact Visitor.Tidies.tidy_deref_interface _
      | with_reducible exact Visitor.Tidies.tidy_deref_error _
      | with_reducible exact Visitor.Tidies.tidy_deref_constructor _
      | with_reducible exact Visitor.Tidies.tidy_deref_breakDest _
      | with_reducible exact Visitor.Tidies.tidy_deref_continueDest _
      | with_reducible exact Visitor.Tidies.tidy_deref_summary _ _
      | with_reducible exact Visitor.Tidies.tidy_deref_function _
      | (refine Visitor.Tidies.tidy_deref_body _ _ ?_; assumption)
      | with_reducible exact Visitor.Tidies.tidy_deref_any _ _
      | with_reducible exact Visitor.Tidies.tidy_update_frame _ (fun _ => ⟨rfl, rfl, rfl, rfl, rfl, rfl, rfl, rfl, rfl⟩)
      | (refine Visitor.Tidies.tidy_update_breakDest_some _ ?_; assumption)
      | (refine Visitor.Tidies.tidy_update_continueDest_some _ ?_; assumption)
      | (refine Visitor.Tidies.tidy_update_breakDest _ ?_; assumption)
      | (refine Visitor.Tidies.tidy_update_continueDest _ ?_; assumption)
      | (refine Visitor.Tidies.tidy_update_continueDest_post _ _ ?_ ?_ <;> assumption)
      | (refine Visitor.Tidies.tidy_update_genesisPredicate _ ?_; assumption)
      | (refine Visitor.Tidies.tidy_update_interfacePredicate _ ?_; assumption)
      | (refine Visitor.Tidies.tidy_update_errorPredicate _ ?_; assumption)
      | (refine Visitor.Tidies.tidy_update_constructorPredicate _ ?_; assumption)
      | (refine Visitor.Tidies.tidy_update_summaries _ _ ?_; assumption)
      | (refine Visitor.Tidies.tidy_update_function _ ?_; assumption)
      | with_reducible exact Visitor.Tidies.tidy_update_noFunction
      | with_reducible apply Visitor.Tidies.tidy_forEach
      | intro _
      | split
      | (show Visitor.Tidies _ _ (fun _ => True); split)
      | dsimp only)
  | .Identifier i category decl, h => by
    rw [Expression.accept]
    repeat' (first
      | with_reducible exact SMTEncoder.expr_tidy _
      | with_reducible exact SMTEncoder.currentValue_tidy _
      | with_reducible exact CHC.createErrorBlock_tidy
      | with_reducible exact CHC.query_tidy _ _
      | with_reducible exact CHC.reset_tidy
      | with_reducible exact SMTEncoder.defineExpr_tidy _ _
      | with_reducible exact SMTEncoder.assignment_tidy _ _
      | (refine CHC.connectBlocks_tidy _ _ _ ?_; assumption)
      | with_reducible apply Visitor.Tidies.tidy_bind
      | with_reducible exact Visitor.Tidies.tidy_solAssert _ _
      | with_reducible exact Visitor.Tidies.tidy_pure_any _
      | (refine Visitor.Tidies.tidy_pure _ (smt.SymbolicFunctionVariable.Plain.plain_app ?_ _); assumption)
      | with_reducible exact Visitor.Tidies.tidy_read_breakDest
      | with_reducible exact Visitor.Tidies.tidy_read_continueDest
      | with_reducible exact Visitor.Tidies.tidy_read_any _
      | with_reducible exact Visitor.Tidies.tidy_deref_genesis _
      | with_reducible exact Visitor.Tidies.tidy_deref_interface _
      | with_reducible exact Visitor.Tidies.tidy_deref_error _
      | with_reducible exact Visitor.Tidies.tidy_deref_constructor _
      | with_reducible exact Visitor.Tidies.tidy_deref_breakDest _
      | with_reducible exact Visitor.Tidies.tidy_deref_continueDest _
      | with_reducible exact Visitor.Tidies.tidy_deref_summary _ _
      | with_reducible exact Visitor.Tidies.tidy_deref_function _
      | (refine Visitor.Tidies.tidy_deref_body _ _ ?_; assumption)
      | with_reducible exact Visitor.Tidies.tidy_deref_any _ _
      | with_reducible exact Visitor.Tidies.tidy_update_frame _ (fun _ => ⟨rfl, rfl, rfl, rfl, rfl, rfl, rfl, rfl, rfl⟩)
      | (refine Visitor.Tidies.tidy_update_breakDest_some _ ?_; assumption)
      | (refine Visitor.Tidies.tidy_update_continueDest_some _ ?_; assumption)
      | (refine Visitor.Tidies.tidy_update_breakDest _ ?_; assumption)
      | (refine Visitor.Tidies.tidy_update_continueDest _ ?_; assumption)
      | (refine Visitor.Tidies.tidy_update_continueDest_post _ _ ?_ ?_ <;> assumption)
      | (refine Visitor.Tidies.tidy_update_genesisPredicate _ ?_; assumption)
      | (refine Visitor.Tidies.tidy_update_interfacePredicate _ ?_; assumption)
      | (refine Visitor.Tidies.tidy_update_errorPredicate _ ?_; assumption)
      | (refine Visitor.Tidies.tidy_update_constructorPredicate _ ?_; assumption)
      | (refine Visitor.Tidies.tidy_update_summaries _ _ ?_; assumption)
      | (refine Visitor.Tidies.tidy_update_function _ ?_; assumption)
      | with_reducible exact Visitor.Tidies.tidy_update_noFunction
      | with_reducible apply Visitor.Tidies.tidy_forEach
      | intro _
      | split
      | (show Visitor.Tidies _ _ (fun _ => True); split)
      | dsimp only)
  | .Assignment i category lhs rhs, h => by
    rw [Expression.accept]
    rw [Expression.callIds] at h
    repeat' (first
      | with_reducible exact Expression.acceptExpression_tidy rhs h
      | with_reducible exact SMTEncoder.expr_tidy _
      | with_reducible exact SMTEncoder.currentValue_tidy _
      | with_reducible exact CHC.createErrorBlock_tidy
      | with_reducible exact CHC.query_tidy _ _
      | with_reducible exact CHC.reset_tidy
      | with_reducible exact SMTEncoder.defineExpr_tidy _ _
      | with_reducible exact SMTEncoder.assignment_tidy _ _
      | (refine CHC.connectBlocks_tidy _ _ _ ?_; assumption)
      | with_reducible apply Visitor.Tidies.tidy_bind
      | with_reducible exact Visitor.Tidies.tidy_solAssert _ _
      | with_reducible exact Visitor.Tidies.tidy_pure_any _
      | (refine Visitor.Tidies.tidy_pure _ (smt.SymbolicFunctionVariable.Plain.plain_app ?_ _); assumption)
      | with_reducible exact Visitor.Tidies.tidy_read_breakDest
      | with_reducible exact Visitor.Tidies.tidy_read_continueDest
      | with_reducible exact Visitor.Tidies.tidy_read_any _
      | with_reducible exact Visitor.Tidies.tidy_deref_genesis _
      | with_reducible exact Visitor.Tidies.tidy_deref_interface _
      | with_reducible exact Visitor.Tidies.tidy_deref_error _
      | with_reducible exact Visitor.Tidies.tidy_deref_constructor _
      | with_reducible exact Visitor.Tidies.tidy_deref_breakDest _
      | with_reducible exact Visitor.Tidies.tidy_deref_continueDest _
      | with_reducible exact Visitor.Tidies.tidy_deref_summary _ _
      | with_reducible exact Visitor.Tidies.tidy_deref_function _
      | (refine Visitor.Tidies.tidy_deref_body _ _ ?_; assumption)
      | with_reducible exact Visitor.Tidies.tidy_deref_any _ _
      | with_reducible exact Visitor.Tidies.tidy_update_frame _ (fun _ => ⟨rfl, rfl, rfl, rfl, rfl, rfl, rfl, rfl, rfl⟩)
      | (refine Visitor.Tidies.tidy_update_breakDest_some _ ?_; assumption)
      | (refine Visitor.Tidies.tidy_update_continueDest_some _ ?_; assumption)
      | (refine Visitor.Tidies.tidy_update_breakDest _ ?_; assumption)
      | (refine Visitor.Tidies.tidy_update_continueDest _ ?_; assumption)
      | (refine Visitor.Tidies.tidy_update_continueDest_post _ _ ?_ ?_ <;> assumption)
      | (refine Visitor.Tidies.tidy_update_genesisPredicate _ ?_; assumption)
      | (refine Visitor.Tidies.tidy_update_interfacePredicate _ ?_; assumption)
      | (refine Visitor.Tidies.tidy_update_errorPredicate _ ?_; assumption)
      | (refine Visitor.Tidies.tidy_update_constructorPredicate _ ?_; assumption)
      | (refine Visitor.Tidies.tidy_update_summaries _ _ ?_; assumption)
      | (refine Visitor.Tidies.tidy_update_function _ ?_; assumption)
      | with_reducible exact Visitor.Tidies.tidy_update_noFunction
      | with_reducible apply Visitor.Tidies.tidy_forEach
      | intro _
      | split
      | (show Visitor.Tidies _ _ (fun _ => True); split)
      | dsimp only)
  | .UnaryOperation i category operator sub, h => by
    rw [Expression.accept]
    rw [Expression.callIds] at h
    repeat' (first
      | with_reducible exact Expression.acceptExpression_tidy sub h
      | with_reducible exact SMTEncoder.expr_tidy _
      | with_reducible exact SMTEncoder.currentValue_tidy _
      | with_reducible exact CHC.createErrorBlock_tidy
      | with_reducible exact CHC.query_tidy _ _
      | with_reducible exact CHC.reset_tidy
      | with_reducible exact SMTEncoder.defineExpr_tidy _ _
      | with_reducible exact SMTEncoder.assignment_tidy _ _
      | (refine CHC.connectBlocks_tidy _ _ _ ?_; assumption)
      | with_reducible apply Visitor.Tidies.tidy_bind
      | with_reducible exact Visitor.Tidies.tidy_solAssert _ _
      | with_reducible exact Visitor.Tidies.tidy_pure_any _
      | (refine Visitor.Tidies.tidy_pure _ (smt.SymbolicFunctionVariable.Plain.plain_app ?_ _); assumption)
      | with_reducible exact Visitor.Tidies.tidy_read_breakDest
      | with_reducible exact Visitor.Tidies.tidy_read_continueDest
      | with_reducible exact Visitor.Tidies.tidy_read_any _
      | with_reducible exact Visitor.Tidies.tidy_deref_genesis _
      | with_reducible exact Visitor.Tidies.tidy_deref_interface _
      | with_reducible exact Visitor.Tidies.tidy_deref_error _
      | with_reducible exact Visitor.Tidies.tidy_deref_constructor _
      | with_reducible exact Visitor.Tidies.tidy_deref_breakDest _
      | with_reducible exact Visitor.Tidies.tidy_deref_continueDest _
      | with_reducible exact Visitor.Tidies.tidy_deref_summary _ _
      | with_reducible exact Visitor.Tidies.tidy_deref_function _
      | (refine Visitor.Tidies.tidy_deref_body _ _ ?_; assumption)
      | with_reducible exact Visitor.Tidies.tidy_deref_any _ _
      | with_reducible exact Visitor.Tidies.tidy_update_frame _ (fun _ => ⟨rfl, rfl, rfl, rfl, rfl, rfl, rfl, rfl, rfl⟩)
      | (refine Visitor.Tidies.tidy_update_breakDest_some _ ?_; assumption)
      | (refine Visitor.Tidies.tidy_update_continueDest_some _ ?_; assumption)
      | (refine Visitor.Tidies.tidy_update_breakDest _ ?_; assumption)
      | (refine Visitor.Tidies.tidy_update_continueDest _ ?_; assumption)
      | (refine Visitor.Tidies.tidy_update_continueDest_post _ _ ?_ ?_ <;> assumption)
      | (refine Visitor.Tidies.tidy_update_genesisPredicate _ ?_; assumption)
      | (refine Visitor.Tidies.tidy_update_interfacePredicate _ ?_; assumption)
      | (refine Visitor.Tidies.tidy_update_errorPredicate _ ?_; assumption)
      | (refine Visitor.Tidies.tidy_update_constructorPredicate _ ?_; assumption)
      | (refine Visitor.Tidies.tidy_update_summaries _ _ ?_; assumption)
      | (refine Visitor.Tidies.tidy_update_function _ ?_; assumption)
      | with_reducible exact Visitor.Tidies.tidy_update_noFunction
      | with_reducible apply Visitor.Tidies.tidy_forEach
      | intro _
      | split
      | (show Visitor.Tidies _ _ (fun _ => True); split)
      | dsimp only)
  | .BinaryOperation i category operator left right, h => by
    rw [Expression.accept]
    rw [Expression.callIds, List.forall_mem_append] at h
    repeat' (first
      | with_reducible exact Expression.acceptExpression_tidy left h.1
      | with_reducible exact Expression.acceptExpression_tidy right h.2
      | with_reducible exact SMTEncoder.expr_tidy _
      | with_reducible exact SMTEncoder.currentValue_tidy _
      | with_reducible exact CHC.createErrorBlock_tidy
      | with_reducible exact CHC.query_tidy _ _
      | with_reducible exact CHC.reset_tidy
      | with_reducible exact SMTEncoder.defineExpr_tidy _ _
      | with_reducible exact SMTEncoder.assignment_tidy _ _
      | (refine CHC.connectBlocks_tidy _ _ _ ?_; assumption)
      | with_reducible apply Visitor.Tidies.tidy_bind
      | with_reducible exact Visitor.Tidies.tidy_solAssert _ _
      | with_reducible exact Visitor.Tidies.tidy_pure_any _
      | (refine Visitor.Tidies.tidy_pure _ (smt.SymbolicFunctionVariable.Plain.plain_app ?_ _); assumption)
      | with_reducible exact Visitor.Tidies.tidy_read_breakDest
      | with_reducible exact Visitor.Tidies.tidy_read_continueDest
      | with_reducible exact Visitor.Tidies.tidy_read_any _
      | with_reducible exact Visitor.Tidies.tidy_deref_genesis _
      | with_reducible exact Visitor.Tidies.tidy_deref_interface _
      | with_reducible exact Visitor.Tidies.tidy_deref_error _
      | with_reducible exact Visitor.Tidies.tidy_deref_constructor _
      | with_reducible exact Visitor.Tidies.tidy_deref_breakDest _
      | with_reducible exact Visitor.Tidies.tidy_deref_continueDest _
      | with_reducible exact Visitor.Tidies.tidy_deref_summary _ _
      | with_reducible exact Visitor.Tidies.tidy_deref_function _
      | (refine Visitor.Tidies.tidy_deref_body _ _ ?_; assumption)
      | with_reducible exact Visitor.Tidies.tidy_deref_any _ _
      | with_reducible exact Visitor.Tidies.tidy_update_frame _ (fun _ => ⟨rfl, rfl, rfl, rfl, rfl, rfl, rfl, rfl, rfl⟩)
      | (refine Visitor.Tidies.tidy_update_breakDest_some _ ?_; assumption)
      | (refine Visitor.Tidies.tidy_update_continueDest_some _ ?_; assumption)
      | (refine Visitor.Tidies.tidy_update_breakDest _ ?_; assumption)
      | (refine Visitor.Tidies.tidy_update_continueDest _ ?_; assumption)
      | (refine Visitor.Tidies.tidy_update_continueDest_post _ _ ?_ ?_ <;> assumption)
      | (refine Visitor.Tidies.tidy_update_genesisPredicate _ ?_; assumption)
      | (refine Visitor.Tidies.tidy_update_interfacePredicate _ ?_; assumption)
      | (refine Visitor.Tidies.tidy_update_errorPredicate _ ?_; assumption)
      | (refine Visitor.Tidies.tidy_update_constructorPredicate _ ?_; assumption)
      | (refine Visitor.Tidies.tidy_update_summaries _ _ ?_; assumption)
      | (refine Visitor.Tidies.tidy_update_function _ ?_; assumption)
      | with_reducible exact Visitor.Tidies.tidy_update_noFunction
      | with_reducible apply Visitor.Tidies.tidy_forEach
      | intro _
      | split
      | (show Visitor.Tidies _ _ (fun _ => True); split)
      | dsimp only)
  | .FunctionCall i category location kind functionKind callee arguments, h => by
    rw [Expression.accept]
    rw [Expression.callIds, List.forall_mem_cons] at h
    have hc : (Expression.FunctionCall i category location kind functionKind callee
      arguments).id ∉ B := h.1
    repeat' (first
      | with_reducible exact Expression.acceptExpressions_tidy arguments h.2
      | with_reducible exact CHC.endVisitFunctionCall_tidy _ hc
      | with_reducible exact SMTEncoder.expr_tidy _
      | with_reducible exact SMTEncoder.currentValue_tidy _
      | with_reducible exact CHC.createErrorBlock_tidy
      | with_reducible exact CHC.query_tidy _ _
      | with_reducible exact CHC.reset_tidy
      | with_reducible exact SMTEncoder.defineExpr_tidy _ _
      | with_reducible exact SMTEncoder.assignment_tidy _ _
      | (refine CHC.connectBlocks_tidy _ _ _ ?_; assumption)
      | with_reducible apply Visitor.Tidies.tidy_bind
      | with_reducible exact Visitor.Tidies.tidy_solAssert _ _
      | with_reducible exact Visitor.Tidies.tidy_pure_any _
      | (refine Visitor.Tidies.tidy_pure _ (smt.SymbolicFunctionVariable.Plain.plain_app ?_ _); assumption)
      | with_reducible exact Visitor.Tidies.tidy_read_breakDest
      | with_reducible exact Visitor.Tidies.tidy_read_continueDest
      | with_reducible exact Visitor.Tidies.tidy_read_any _
      | with_reducible exact Visitor.Tidies.tidy_deref_genesis _
      | with_reducible exact Visitor.Tidies.tidy_deref_interface _
      | with_reducible exact Visitor.Tidies.tidy_deref_error _
      | with_reducible exact Visitor.Tidies.tidy_deref_constructor _
      | with_reducible exact Visitor.Tidies.tidy_deref_breakDest _
      | with_reducible exact Visitor.Tidies.tidy_deref_continueDest _
      | with_reducible exact Visitor.Tidies.tidy_deref_summary _ _
      | with_reducible exact Visitor.Tidies.tidy_deref_function _
      | (refine Visitor.Tidies.tidy_deref_body _ _ ?_; assumption)
      | with_reducible exact Visitor.Tidies.tidy_deref_any _ _
      | with_reducible exact Visitor.Tidies.tidy_update_frame _ (fun _ => ⟨rfl, rfl, rfl, rfl, rfl, rfl, rfl, rfl, rfl⟩)
      | (refine Visitor.Tidies.tidy_update_breakDest_some _ ?_; assumption)
      | (refine Visitor.Tidies.tidy_update_continueDest_some _ ?_; assumption)
      | (refine Visitor.Tidies.tidy_update_breakDest _ ?_; assumption)
      | (refine Visitor.Tidies.tidy_update_continueDest _ ?_; assumption)
      | (refine Visitor.Tidies.tidy_update_continueDest_post _ _ ?_ ?_ <;> assumption)
      | (refine Visitor.Tidies.tidy_update_genesisPredicate _ ?_; assumption)
      | (refine Visitor.Tidies.tidy_update_interfacePredicate _ ?_; assumption)
      | (refine Visitor.Tidies.tidy_update_errorPredicate _ ?_; assumption)
      | (refine Visitor.Tidies.tidy_update_constructorPredicate _ ?_; assumption)
      | (refine Visitor.Tidies.tidy_update_summaries _ _ ?_; assumption)
      | (refine Visitor.Tidies.tidy_update_function _ ?_; assumption)
      | with_reducible exact Visitor.Tidies.tidy_update_noFunction
      | with_reducible apply Visitor.Tidies.tidy_forEach
      | intro _
      | split
      | (show Visitor.Tidies _ _ (fun _ => True); split)
      | dsimp only)
theorem Expression.acceptExpressions_tidy {B : List Nat} :
    ∀ l : List Expression, (∀ id ∈ Expression.callIdsAll l, id ∉ B) → Visitor.Tidies B (Expression.acceptAll l) (fun _ => True)
  | [], _ => by
    rw [Expression.acceptAll]
    exact Visitor.Tidies.tidy_pure_any _
  | e :: rest, h => by
    rw [Expression.acceptAll]
    rw [Expression.callIdsAll, List.forall_mem_append] at h
    exact Visitor.Tidies.tidy_then (Expression.acceptExpression_tidy e h.1)
      (fun _ => Expression.acceptExpressions_tidy rest h.2)
end

theorem CHC.forCondition_tidy {B : List Nat} (condition : Option Expression)
    (hCond : ∀ id ∈ (match condition with
      | some forCondition => forCondition.callIds
      | none => []), id ∉ B) :
    Visitor.Tidies B
      (match condition with
        | some forCondition => do
          forCondition.accept
          SMTEncoder.expr forCondition
        | none => pure (smt.Expression.boolLit true)) (fun _ => True) := by
  cases condition with
  | none => exact Visitor.Tidies.tidy_pure_any _
  | some c =>
    exact Visitor.Tidies.tidy_then (Expression.acceptExpression_tidy _ hCond)
      (fun _ => SMTEncoder.expr_tidy _)

set_option maxHeartbeats 4000000 in
theorem CHC.visitIfStatement_tidy {B : List Nat} (i : Nat) (condition : Expression)
    (trueStatement : Nat × Visitor Unit) (falseStatement : Option (Nat × Visitor Unit))
    (hCond : ∀ id ∈ condition.callIds, id ∉ B)
    (hTrue : Visitor.Tidies B trueStatement.2 (fun _ => True))
    (h : ∀ st, falseStatement = some st → Visitor.Tidies B st.2 (fun _ => True)) :
    Visitor.Tidies B (CHC.visitIfStatement i condition trueStatement falseStatement) (fun _ => True) := by
  unfold CHC.visitIfStatement
  repeat' (first
    | (refine CHC.createBlock_tidy _ _ ?_; exact rfl)
    | (refine CHC.createBlock_tidy_node _ ?_; assumption)
    | with_reducible exact CHC.createBlock_tidy_function _
    | with_reducible exact CHC.createBlock_tidy_any _ _
    | with_reducible exact CHC.setCurrentBlock_tidy _ _
    | (refine CHC.predicate_tidy _ ?_; first | assumption | exact ‹smt.PlainOption _ (some _)› _ rfl)
    | with_reducible exact CHC.predicate_tidy_any _
    | with_reducible exact CHC.summary_tidy _
    | with_reducible exact CHC.eraseKnowledge_tidy
    | with_reducible exact SMTEncoder.currentPathConditions_tidy
    | with_reducible exact SMTEncoder.expr_tidy _
    | (refine CHC.createOptionalBlock_tidy _ _ ?_; exact rfl)
    | with_reducible exact CHC.forCondition_tidy _ hCond
    | with_reducible exact Expression.acceptExpression_tidy _ hCond
    | with_reducible exact hTrue
    | with_reducible exact hBody
    | with_reducible exact h _ rfl
    | with_reducible exact h _ ‹_›
    | with_reducible exact hInit _ rfl
    | with_reducible exact hInit _ ‹_›
    | with_reducible exact CHC.createErrorBlock_tidy
    | with_reducible exact CHC.query_tidy _ _
    | with_reducible exact CHC.reset_tidy
    | with_reducible exact SMTEncoder.defineExpr_tidy _ _
    | with_reducible exact SMTEncoder.assignment_tidy _ _
    | (refine CHC.connectBlocks_tidy _ _ _ ?_; assumption)
    | with_reducible apply Visitor.Tidies.tidy_bind
    | with_reducible exact Visitor.Tidies.tidy_solAssert _ _
    | with_reducible exact Visitor.Tidies.tidy_pure_any _
    | (refine Visitor.Tidies.tidy_pure _ (smt.SymbolicFunctionVariable.Plain.plain_app ?_ _); assumption)
    | with_reducible exact Visitor.Tidies.tidy_read_breakDest
    | with_reducible exact Visitor.Tidies.tidy_read_continueDest
    | with_reducible exact Visitor.Tidies.tidy_read_any _
    | with_reducible exact Visitor.Tidies.tidy_deref_genesis _
    | with_reducible exact Visitor.Tidies.tidy_deref_interface _
    | with_reducible exact Visitor.Tidies.tidy_deref_error _
    | with_reducible exact Visitor.Tidies.tidy_deref_constructor _
    | with_reducible exact Visitor.Tidies.tidy_deref_breakDest _
    | with_reducible exact Visitor.Tidies.tidy_deref_continueDest _
    | with_reducible exact Visitor.Tidies.tidy_deref_summary _ _
    | with_reducible exact Visitor.Tidies.tidy_deref_function _
    | (refine Visitor.Tidies.tidy_deref_body _ _ ?_; assumption)
    | with_reducible exact Visitor.Tidies.tidy_deref_any _ _
    | with_reducible exact Visitor.Tidies.tidy_update_frame _ (fun _ => ⟨rfl, rfl, rfl, rfl, rfl, rfl, rfl, rfl, rfl⟩)
    | (refine Visitor.Tidies.tidy_update_breakDest_some _ ?_; assumption)
    | (refine Visitor.Tidies.tidy_update_continueDest_some _ ?_; assumption)
    | (refine Visitor.Tidies.tidy_update_breakDest _ ?_; assumption)
    | (refine Visitor.Tidies.tidy_update_continueDest _ ?_; assumption)
    | (refine Visitor.Tidies.tidy_update_continueDest_post _ _ ?_ ?_ <;> assumption)
    | (refine Visitor.Tidies.tidy_update_genesisPredicate _ ?_; assumption)
    | (refine Visitor.Tidies.tidy_update_interfacePredicate _ ?_; assumption)
    | (refine Visitor.Tidies.tidy_update_errorPredicate _ ?_; assumption)
    | (refine Visitor.Tidies.tidy_update_constructorPredicate _ ?_; assumption)
    | (refine Visitor.Tidies.tidy_update_summaries _ _ ?_; assumption)
    | (refine Visitor.Tidies.tidy_update_function _ ?_; assumption)
    | with_reducible exact Visitor.Tidies.tidy_update_noFunction
    | with_reducible apply Visitor.Tidies.tidy_forEach
    | intro _
    | split
    | (show Visitor.Tidies _ _ (fun _ => True); split)
    | dsimp only)

set_option maxHeartbeats 4000000 in
theorem CHC.visitWhileStatement_tidy {B : List Nat} (i : Nat) (isDoWhile : Bool) (condition : Expression)
    (body : Nat × Visitor Unit) (hCond : ∀ id ∈ condition.callIds, id ∉ B)
    (hBody : Visitor.Tidies B body.2 (fun _ => True)) :
    Visitor.Tidies B (CHC.visitWhileStatement i isDoWhile condition body) (fun _ => True) := by
  unfold CHC.visitWhileStatement
  cases isDoWhile <;>
  repeat' (first
    | (refine CHC.createBlock_tidy _ _ ?_; exact rfl)
    | (refine CHC.createBlock_tidy_node _ ?_; assumption)
    | with_reducible exact CHC.createBlock_tidy_function _
    | with_reducible exact CHC.createBlock_tidy_any _ _
    | with_reducible exact CHC.setCurrentBlock_tidy _ _
    | (refine CHC.predicate_tidy _ ?_; first | assumption | exact ‹smt.PlainOption _ (some _)› _ rfl)
    | with_reducible exact CHC.predicate_tidy_any _
    | with_reducible exact CHC.summary_tidy _
    | with_reducible exact CHC.eraseKnowledge_tidy
    | with_reducible exact SMTEncoder.currentPathConditions_tidy
    | with_reducible exact SMTEncoder.expr_tidy _
    | (refine CHC.createOptionalBlock_tidy _ _ ?_; exact rfl)
    | with_reducible exact CHC.forCondition_tidy _ hCond
    | with_reducible exact Expression.acceptExpression_tidy _ hCond
    | with_reducible exact hTrue
    | with_reducible exact hBody
    | with_reducible exact h _ rfl
    | with_reducible exact h _ ‹_›
    | with_reducible exact hInit _ rfl
    | with_reducible exact hInit _ ‹_›
    | with_reducible exact CHC.createErrorBlock_tidy
    | with_reducible exact CHC.query_tidy _ _
    | with_reducible exact CHC.reset_tidy
    | with_reducible exact SMTEncoder.defineExpr_tidy _ _
    | with_reducible exact SMTEncoder.assignment_tidy _ _
    | (refine CHC.connectBlocks_tidy _ _ _ ?_; assumption)
    | with_reducible apply Visitor.Tidies.tidy_bind
    | with_reducible exact Visitor.Tidies.tidy_solAssert _ _
    | with_reducible exact Visitor.Tidies.tidy_pure_any _
    | (refine Visitor.Tidies.tidy_pure _ (smt.SymbolicFunctionVariable.Plain.plain_app ?_ _); assumption)
    | with_reducible exact Visitor.Tidies.tidy_read_breakDest
    | with_reducible exact Visitor.Tidies.tidy_read_continueDest
    | with_reducible exact Visitor.Tidies.tidy_read_any _
    | with_reducible exact Visitor.Tidies.tidy_deref_genesis _
    | with_reducible exact Visitor.Tidies.tidy_deref_interface _
    | with_reducible exact Visitor.Tidies.tidy_deref_error _
    | with_reducible exact Visitor.Tidies.tidy_deref_constructor _
    | with_reducible exact Visitor.Tidies.tidy_deref_breakDest _
    | with_reducible exact Visitor.Tidies.tidy_deref_continueDest _
    | with_reducible exact Visitor.Tidies.tidy_deref_summary _ _
    | with_reducible exact Visitor.Tidies.tidy_deref_function _
    | (refine Visitor.Tidies.tidy_deref_body _ _ ?_; assumption)
    | with_reducible exact Visitor.Tidies.tidy_deref_any _ _
    | with_reducible exact Visitor.Tidies.tidy_update_frame _ (fun _ => ⟨rfl, rfl, rfl, rfl, rfl, rfl, rfl, rfl, rfl⟩)
    | (refine Visitor.Tidies.tidy_update_breakDest_some _ ?_; assumption)
    | (refine Visitor.Tidies.tidy_update_continueDest_some _ ?_; assumption)
    | (refine Visitor.Tidies.tidy_update_breakDest _ ?_; assumption)
    | (refine Visitor.Tidies.tidy_update_continueDest _ ?_; assumption)
    | (refine Visitor.Tidies.tidy_update_continueDest_post _ _ ?_ ?_ <;> assumption)
    | (refine Visitor.Tidies.tidy_update_genesisPredicate _ ?_; assumption)
    | (refine Visitor.Tidies.tidy_update_interfacePredicate _ ?_; assumption)
    | (refine Visitor.Tidies.tidy_update_errorPredicate _ ?_; assumption)
    | (refine Visitor.Tidies.tidy_update_constructorPredicate _ ?_; assumption)
    | (refine Visitor.Tidies.tidy_update_summaries _ _ ?_; assumption)
    | (refine Visitor.Tidies.tidy_update_function _ ?_; assumption)
    | with_reducible exact Visitor.Tidies.tidy_update_noFunction
    | with_reducible apply Visitor.Tidies.tidy_forEach
    | intro _
    | split
    | (show Visitor.Tidies _ _ (fun _ => True); split)
    | dsimp only)

set_option maxHeartbeats 4000000 in
theorem CHC.visitForStatement_tidy {B : List Nat} (i : Nat) (init : Option (Visitor Unit))
    (condition : Option Expression) (loopExpression : Option (Nat × Visitor Unit))
    (body : Nat × Visitor Unit)
    (hCond : ∀ id ∈ (match condition with
      | some forCondition => forCondition.callIds
      | none => []), id ∉ B)
    (hInit : ∀ m, init = some m → Visitor.Tidies B m (fun _ => True))
    (h : ∀ st, loopExpression = some st → Visitor.Tidies B st.2 (fun _ => True))
    (hBody : Visitor.Tidies B body.2 (fun _ => True)) :
    Visitor.Tidies B (CHC.visitForStatement i init condition loopExpression body) (fun _ => True) := by
  unfold CHC.visitForStatement
  repeat' (first
    | (refine CHC.createBlock_tidy _ _ ?_; exact rfl)
    | (refine CHC.createBlock_tidy_node _ ?_; assumption)
    | with_reducible exact CHC.createBlock_tidy_function _
    | with_reducible exact CHC.createBlock_tidy_any _ _
    | with_reducible exact CHC.setCurrentBlock_tidy _ _
    | (refine CHC.predicate_tidy _ ?_; first | assumption | exact ‹smt.PlainOption _ (some _)› _ rfl)
    | with_reducible exact CHC.predicate_tidy_any _
    | with_reducible exact CHC.summary_tidy _
    | with_reducible exact CHC.eraseKnowledge_tidy
    | with_reducible exact SMTEncoder.currentPathConditions_tidy
    | with_reducible exact SMTEncoder.expr_tidy _
    | (refine CHC.createOptionalBlock_tidy _ _ ?_; exact rfl)
    | with_reducible exact CHC.forCondition_tidy _ hCond
    | with_reducible exact Expression.acceptExpression_tidy _ hCond
    | with_reducible exact hTrue
    | with_reducible exact hBody
    | with_reducible exact h _ rfl
    | with_reducible exact h _ ‹_›
    | with_reducible exact hInit _ rfl
    | with_reducible exact hInit _ ‹_›
    | with_reducible exact CHC.createErrorBlock_tidy
    | with_reducible exact CHC.query_tidy _ _
    | with_reducible exact CHC.reset_tidy
    | with_reducible exact SMTEncoder.defineExpr_tidy _ _
    | with_reducible exact SMTEncoder.assignment_tidy _ _
    | (refine CHC.connectBlocks_tidy _ _ _ ?_; assumption)
    | with_reducible apply Visitor.Tidies.tidy_bind
    | with_reducible exact Visitor.Tidies.tidy_solAssert _ _
    | with_reducible exact Visitor.Tidies.tidy_pure_any _
    | (refine Visitor.Tidies.tidy_pure _ (smt.SymbolicFunctionVariable.Plain.plain_app ?_ _); assumption)
    | with_reducible exact Visitor.Tidies.tidy_read_breakDest
    | with_reducible exact Visitor.Tidies.tidy_read_continueDest
    | with_reducible exact Visitor.Tidies.tidy_read_any _
    | with_reducible exact Visitor.Tidies.tidy_deref_genesis _
    | with_reducible exact Visitor.Tidies.tidy_deref_interface _
    | with_reducible exact Visitor.Tidies.tidy_deref_error _
    | with_reducible exact Visitor.Tidies.tidy_deref_constructor _
    | with_reducible exact Visitor.Tidies.tidy_deref_breakDest _
    | with_reducible exact Visitor.Tidies.tidy_deref_continueDest _
    | with_reducible exact Visitor.Tidies.tidy_deref_summary _ _
    | with_reducible exact Visitor.Tidies.tidy_deref_function _
    | (refine Visitor.Tidies.tidy_deref_body _ _ ?_; assumption)
    | with_reducible exact Visitor.Tidies.tidy_deref_any _ _
    | with_reducible exact Visitor.Tidies.tidy_update_frame _ (fun _ => ⟨rfl, rfl, rfl, rfl, rfl, rfl, rfl, rfl, rfl⟩)
    | (refine Visitor.Tidies.tidy_update_breakDest_some _ ?_; assumption)
    | (refine Visitor.Tidies.tidy_update_continueDest_some _ ?_; assumption)
    | (refine Visitor.Tidies.tidy_update_breakDest _ ?_; assumption)
    | (refine Visitor.Tidies.tidy_update_continueDest _ ?_; assumption)
    | (refine Visitor.Tidies.tidy_update_continueDest_post _ _ ?_ ?_ <;> assumption)
    | (refine Visitor.Tidies.tidy_update_genesisPredicate _ ?_; assumption)
    | (refine Visitor.Tidies.tidy_update_interfacePredicate _ ?_; assumption)
    | (refine Visitor.Tidies.tidy_update_errorPredicate _ ?_; assumption)
    | (refine Visitor.Tidies.tidy_update_constructorPredicate _ ?_; assumption)
    | (refine Visitor.Tidies.tidy_update_summaries _ _ ?_; assumption)
    | (refine Visitor.Tidies.tidy_update_function _ ?_; assumption)
    | with_reducible exact Visitor.Tidies.tidy_update_noFunction
    | with_reducible apply Visitor.Tidies.tidy_forEach
    | intro _
    | split
    | (show Visitor.Tidies _ _ (fun _ => True); split)
    | dsimp only)

mutual
theorem Statement.acceptStatement_tidy {B : List Nat} :
    ∀ st : Statement, (∀ id ∈ st.callIds, id ∉ B) → Visitor.Tidies B (st.accept) (fun _ => True)
  | .Block i statements, h => by
    rw [Statement.accept]
    simp only [Statement.callIds] at h
    repeat' (first
      | exact Statement.acceptStatements_tidy statements h
      | apply Visitor.Tidies.tidy_bind
      | exact Visitor.Tidies.tidy_pure_any _
      | exact SMTEncoder.assignment_tidy _ _
      | intro _
      | dsimp only)
  | .IfStatement i condition trueStatement none, h => by
    rw [Statement.accept]
    simp only [Statement.callIds] at h
    simp only [List.forall_mem_append] at h
    repeat' (first
      | exact CHC.visitIfStatement_tidy _ _ _ _ h.1 (Statement.acceptStatement_tidy trueStatement h.2) (by intro st h; cases h)
      | apply Visitor.Tidies.tidy_bind
      | exact Visitor.Tidies.tidy_pure_any _
      | exact SMTEncoder.assignment_tidy _ _
      | intro _
      | dsimp only)
  | .IfStatement i condition trueStatement (some falseStatement), h => by
    rw [Statement.accept]
    simp only [Statement.callIds] at h
    simp only [List.forall_mem_append] at h
    repeat' (first
      | exact CHC.visitIfStatement_tidy _ _ _ _ h.1.1 (Statement.acceptStatement_tidy trueStatement h.1.2) (by intro st h1; cases h1; exact Statement.acceptStatement_tidy falseStatement h.2)
      | apply Visitor.Tidies.tidy_bind
      | exact Visitor.Tidies.tidy_pure_any _
      | exact SMTEncoder.assignment_tidy _ _
      | intro _
      | dsimp only)
  | .WhileStatement i condition body isDoWhile, h => by
    rw [Statement.accept]
    simp only [Statement.callIds] at h
    simp only [List.forall_mem_append] at h
    repeat' (first
      | exact CHC.visitWhileStatement_tidy _ _ _ _ h.1 (Statement.acceptStatement_tidy body h.2)
      | apply Visitor.Tidies.tidy_bind
      | exact Visitor.Tidies.tidy_pure_any _
      | exact SMTEncoder.assignment_tidy _ _
      | intro _
      | dsimp only)
  | .ForStatement i none condition none body, h => by
    rw [Statement.accept]
    simp only [Statement.callIds] at h
    simp only [List.forall_mem_append] at h
    repeat' (first
      | exact CHC.visitForStatement_tidy _ _ _ _ _ h.1 (by intro m h; cases h) (by intro m h; cases h) (Statement.acceptStatement_tidy body h.2)
      | apply Visitor.Tidies.tidy_bind
      | exact Visitor.Tidies.tidy_pure_any _
      | exact SMTEncoder.assignment_tidy _ _
      | intro _
      | dsimp only)
  | .ForStatement i none condition (some postLoop) body, h => by
    rw [Statement.accept]
    simp only [Statement.callIds] at h
    simp only [List.forall_mem_append] at h
    repeat' (first
      | exact CHC.visitForStatement_tidy _ _ _ _ _ h.1.1 (by intro m h; cases h) (by intro m h1; cases h1; exact Statement.acceptStatement_tidy postLoop h.1.2) (Statement.acceptStatement_tidy body h.2)
      | apply Visitor.Tidies.tidy_bind
      | exact Visitor.Tidies.tidy_pure_any _
      | exact SMTEncoder.assignment_tidy _ _
      | intro _
      | dsimp only)
  | .ForStatement i (some init) condition none body, h => by
    rw [Statement.accept]
    simp only [Statement.callIds] at h
    simp only [List.forall_mem_append] at h
    repeat' (first
      | exact CHC.visitForStatement_tidy _ _ _ _ _ h.1.2 (by intro m h1; cases h1; exact Statement.acceptStatement_tidy init h.1.1) (by intro m h; cases h) (Statement.acceptStatement_tidy body h.2)
      | apply Visitor.Tidies.tidy_bind
      | exact Visitor.Tidies.tidy_pure_any _
      | exact SMTEncoder.assignment_tidy _ _
      | intro _
      | dsimp only)
  | .ForStatement i (some init) condition (some postLoop) body, h => by
    rw [Statement.accept]
    simp only [Statement.callIds] at h
    simp only [List.forall_mem_append] at h
    repeat' (first
      | exact CHC.visitForStatement_tidy _ _ _ _ _ h.1.1.2 (by intro m h1; cases h1; exact Statement.acceptStatement_tidy init h.1.1.1) (by intro m h1; cases h1; exact Statement.acceptStatement_tidy postLoop h.1.2) (Statement.acceptStatement_tidy body h.2)
      | apply Visitor.Tidies.tidy_bind
      | exact Visitor.Tidies.tidy_pure_any _
      | exact SMTEncoder.assignment_tidy _ _
      | intro _
      | dsimp only)
  | .Break i, h => by
    rw [Statement.accept]
    repeat' (first
      | exact CHC.endVisitBreak_tidy _
      | apply Visitor.Tidies.tidy_bind
      | exact Visitor.Tidies.tidy_pure_any _
      | exact SMTEncoder.assignment_tidy _ _
      | intro _
      | dsimp only)
  | .Continue i, h => by
    rw [Statement.accept]
    repeat' (first
      | exact CHC.endVisitContinue_tidy _
      | apply Visitor.Tidies.tidy_bind
      | exact Visitor.Tidies.tidy_pure_any _
      | exact SMTEncoder.assignment_tidy _ _
      | intro _
      | dsimp only)
  | .ExpressionStatement i expression, h => by
    rw [Statement.accept]
    simp only [Statement.callIds] at h
    repeat' (first
      | exact Expression.acceptExpression_tidy _ h
      | apply Visitor.Tidies.tidy_bind
      | exact Visitor.Tidies.tidy_pure_any _
      | exact SMTEncoder.assignment_tidy _ _
      | intro _
      | dsimp only)
  | .VariableDeclarationStatement i declaration none, h => by
    rw [Statement.accept]
    repeat' (first
      | apply Visitor.Tidies.tidy_bind
      | exact Visitor.Tidies.tidy_pure_any _
      | exact SMTEncoder.assignment_tidy _ _
      | intro _
      | dsimp only)
  | .VariableDeclarationStatement i declaration (some value), h => by
    rw [Statement.accept]
    simp only [Statement.callIds] at h
    repeat' (first
      | exact Expression.acceptExpression_tidy _ h
      | exact SMTEncoder.expr_tidy _
      | apply Visitor.Tidies.tidy_bind
      | exact Visitor.Tidies.tidy_pure_any _
      | exact SMTEncoder.assignment_tidy _ _
      | intro _
      | dsimp only)
theorem Statement.acceptStatements_tidy {B : List Nat} :
    ∀ l : List Statement, (∀ id ∈ Statement.callIdsAll l, id ∉ B) → Visitor.Tidies B (Statement.acceptAll l) (fun _ => True)
  | [], _ => by
    rw [Statement.acceptAll]
    exact Visitor.Tidies.tidy_pure_any _
  | st :: rest, h => by
    rw [Statement.acceptAll]
    rw [Statement.callIdsAll, List.forall_mem_append] at h
    exact Visitor.Tidies.tidy_then (Statement.acceptStatement_tidy st h.1)
      (fun _ => Statement.acceptStatements_tidy rest h.2)
end

theorem SMTEncoder.baseVisitFunctionDefinition_tidy {B : List Nat} (inlineBases : Visitor Unit)
    (_function : FunctionDefinition) (hBases : Visitor.Tidies B inlineBases (fun _ => True))
    (hf : _function.ApartFrom B) :
    Visitor.Tidies B (SMTEncoder.visitFunctionDefinition inlineBases _function) (fun _ => True) := by
  unfold SMTEncoder.visitFunctionDefinition
  repeat' (first
    | (refine Statement.acceptStatement_tidy _ (hf.apart_calls _ ?_); assumption)
    | with_reducible exact hBases
    | with_reducible exact SMTEncoder.initFunction_tidy _
    | (refine CHC.createBlock_tidy _ _ ?_; exact rfl)
    | (refine CHC.createBlock_tidy_node _ ?_; assumption)
    | with_reducible exact CHC.createBlock_tidy_function _
    | with_reducible exact CHC.setCurrentBlock_tidy _ _
    | (refine CHC.predicate_tidy _ ?_; first | assumption | exact ‹smt.PlainOption _ (some _)› _ rfl)
    | (refine CHC.predicateWith_tidy _ _ ?_; assumption)
    | with_reducible exact CHC.currentFunctionVariables_tidy
    | with_reducible exact CHC.currentStateVariables_tidy
    | with_reducible exact CHC.initialStateVariables_tidy
    | with_reducible exact CHC.genesis_tidy
    | with_reducible exact CHC.interface_tidy
    | with_reducible exact CHC.error_tidy
    | with_reducible exact CHC.summary_tidy _
    | with_reducible exact CHC.clearIndices_tidy _ _
    | with_reducible exact CHC.interfaceSort_tidy
    | (refine CHC.createSymbolicBlock_tidy _ _ (smt.isGhostOf_shape _ (smt.isGhostName_other _ ?_)); simp [List.isPrefixOf]; done)
    | with_reducible exact CHC.createErrorBlock_tidy
    | with_reducible exact CHC.query_tidy _ _
    | with_reducible exact CHC.reset_tidy
    | with_reducible exact SMTEncoder.defineExpr_tidy _ _
    | with_reducible exact SMTEncoder.assignment_tidy _ _
    | (refine CHC.connectBlocks_tidy _ _ _ ?_; assumption)
    | with_reducible apply Visitor.Tidies.tidy_bind
    | with_reducible exact Visitor.Tidies.tidy_solAssert _ _
    | with_reducible exact Visitor.Tidies.tidy_pure_any _
    | (refine Visitor.Tidies.tidy_pure _ (smt.SymbolicFunctionVariable.Plain.plain_app ?_ _); assumption)
    | with_reducible exact Visitor.Tidies.tidy_read_breakDest
    | with_reducible exact Visitor.Tidies.tidy_read_continueDest
    | with_reducible exact Visitor.Tidies.tidy_read_any _
    | with_reducible exact Visitor.Tidies.tidy_deref_genesis _
    | with_reducible exact Visitor.Tidies.tidy_deref_interface _
    | with_reducible exact Visitor.Tidies.tidy_deref_error _
    | with_reducible exact Visitor.Tidies.tidy_deref_constructor _
    | with_reducible exact Visitor.Tidies.tidy_deref_breakDest _
    | with_reducible exact Visitor.Tidies.tidy_deref_continueDest _
    | with_reducible exact Visitor.Tidies.tidy_deref_summary _ _
    | with_reducible exact Visitor.Tidies.tidy_deref_function _
    | (refine Visitor.Tidies.tidy_deref_body _ _ ?_; assumption)
    | with_reducible exact Visitor.Tidies.tidy_deref_any _ _
    | with_reducible exact Visitor.Tidies.tidy_update_frame _ (fun _ => ⟨rfl, rfl, rfl, rfl, rfl, rfl, rfl, rfl, rfl⟩)
    | (refine Visitor.Tidies.tidy_update_breakDest_some _ ?_; assumption)
    | (refine Visitor.Tidies.tidy_update_continueDest_some _ ?_; assumption)
    | (refine Visitor.Tidies.tidy_update_breakDest _ ?_; assumption)
    | (refine Visitor.Tidies.tidy_update_continueDest _ ?_; assumption)
    | (refine Visitor.Tidies.tidy_update_continueDest_post _ _ ?_ ?_ <;> assumption)
    | (refine Visitor.Tidies.tidy_update_genesisPredicate _ ?_; assumption)
    | (refine Visitor.Tidies.tidy_update_interfacePredicate _ ?_; assumption)
    | (refine Visitor.Tidies.tidy_update_errorPredicate _ ?_; assumption)
    | (refine Visitor.Tidies.tidy_update_constructorPredicate _ ?_; assumption)
    | (refine Visitor.Tidies.tidy_update_summaries _ _ ?_; assumption)
    | (refine Visitor.Tidies.tidy_update_function _ ?_; assumption)
    | with_reducible exact Visitor.Tidies.tidy_update_noFunction
    | with_reducible apply Visitor.Tidies.tidy_forEach
    | intro _
    | split
    | (show Visitor.Tidies _ _ (fun _ => True); split)
    | dsimp only)

set_option maxHeartbeats 4000000 in
theorem CHC.visitFunctionDefinition_tidy {B : List Nat} (inlineBases : Visitor Unit)
    (_function : FunctionDefinition) (hBases : Visitor.Tidies B inlineBases (fun _ => True))
    (hf : _function.ApartFrom B) :
    Visitor.Tidies B (CHC.visitFunctionDefinition inlineBases _function) (fun _ => True) := by
  unfold CHC.visitFunctionDefinition
  have hbody := hf.apart_body
  repeat' (first
    | with_reducible exact SMTEncoder.baseVisitFunctionDefinition_tidy _ _ hBases hf
    | with_reducible exact hBases
    | with_reducible exact SMTEncoder.initFunction_tidy _
    | (refine CHC.createBlock_tidy _ _ ?_; exact rfl)
    | (refine CHC.createBlock_tidy_node _ ?_; assumption)
    | with_reducible exact CHC.createBlock_tidy_function _
    | with_reducible exact CHC.setCurrentBlock_tidy _ _
    | (refine CHC.predicate_tidy _ ?_; first | assumption | exact ‹smt.PlainOption _ (some _)› _ rfl)
    | (refine CHC.predicateWith_tidy _ _ ?_; assumption)
    | with_reducible exact CHC.currentFunctionVariables_tidy
    | with_reducible exact CHC.currentStateVariables_tidy
    | with_reducible exact CHC.initialStateVariables_tidy
    | with_reducible exact CHC.genesis_tidy
    | with_reducible exact CHC.interface_tidy
    | with_reducible exact CHC.error_tidy
    | with_reducible exact CHC.summary_tidy _
    | with_reducible exact CHC.clearIndices_tidy _ _
    | with_reducible exact CHC.interfaceSort_tidy
    | (refine CHC.createSymbolicBlock_tidy _ _ (smt.isGhostOf_shape _ (smt.isGhostName_other _ ?_)); simp [List.isPrefixOf]; done)
    | with_reducible exact CHC.createErrorBlock_tidy
    | with_reducible exact CHC.query_tidy _ _
    | with_reducible exact CHC.reset_tidy
    | with_reducible exact SMTEncoder.defineExpr_tidy _ _
    | with_reducible exact SMTEncoder.assignment_tidy _ _
    | (refine CHC.connectBlocks_tidy _ _ _ ?_; assumption)
    | with_reducible apply Visitor.Tidies.tidy_bind
    | with_reducible exact Visitor.Tidies.tidy_solAssert _ _
    | with_reducible exact Visitor.Tidies.tidy_pure_any _
    | (refine Visitor.Tidies.tidy_pure _ (smt.SymbolicFunctionVariable.Plain.plain_app ?_ _); assumption)
    | with_reducible exact Visitor.Tidies.tidy_read_breakDest
    | with_reducible exact Visitor.Tidies.tidy_read_continueDest
    | with_reducible exact Visitor.Tidies.tidy_read_any _
    | with_reducible exact Visitor.Tidies.tidy_deref_genesis _
    | with_reducible exact Visitor.Tidies.tidy_deref_interface _
    | with_reducible exact Visitor.Tidies.tidy_deref_error _
    | with_reducible exact Visitor.Tidies.tidy_deref_constructor _
    | with_reducible exact Visitor.Tidies.tidy_deref_breakDest _
    | with_reducible exact Visitor.Tidies.tidy_deref_continueDest _
    | with_reducible exact Visitor.Tidies.tidy_deref_summary _ _
    | with_reducible exact Visitor.Tidies.tidy_deref_function _
    | (refine Visitor.Tidies.tidy_deref_body _ _ ?_; assumption)
    | with_reducible exact Visitor.Tidies.tidy_deref_any _ _
    | with_reducible exact Visitor.Tidies.tidy_update_frame _ (fun _ => ⟨rfl, rfl, rfl, rfl, rfl, rfl, rfl, rfl, rfl⟩)
    | (refine Visitor.Tidies.tidy_update_breakDest_some _ ?_; assumption)
    | (refine Visitor.Tidies.tidy_update_continueDest_some _ ?_; assumption)
    | (refine Visitor.Tidies.tidy_update_breakDest _ ?_; assumption)
    | (refine Visitor.Tidies.tidy_update_continueDest _ ?_; assumption)
    | (refine Visitor.Tidies.tidy_update_continueDest_post _ _ ?_ ?_ <;> assumption)
    | (refine Visitor.Tidies.tidy_update_genesisPredicate _ ?_; assumption)
    | (refine Visitor.Tidies.tidy_update_interfacePredicate _ ?_; assumption)
    | (refine Visitor.Tidies.tidy_update_errorPredicate _ ?_; assumption)
    | (refine Visitor.Tidies.tidy_update_constructorPredicate _ ?_; assumption)
    | (refine Visitor.Tidies.tidy_update_summaries _ _ ?_; assumption)
    | (refine Visitor.Tidies.tidy_update_function _ ?_; assumption)
    | with_reducible exact Visitor.Tidies.tidy_update_noFunction
    | with_reducible apply Visitor.Tidies.tidy_forEach
    | intro _
    | split
    | (show Visitor.Tidies _ _ (fun _ => True); split)
    | dsimp only)

set_option maxHeartbeats 4000000 in
theorem CHC.endVisitFunctionDefinition_tidy {B : List Nat} (_function : FunctionDefinition) :
    Visitor.Tidies B (CHC.endVisitFunctionDefinition _function) (fun _ => True) := by
  unfold CHC.endVisitFunctionDefinition SMTEncoder.endVisitFunctionDefinition
  repeat' (first
    | with_reducible exact hBases
    | with_reducible exact SMTEncoder.initFunction_tidy _
    | (refine CHC.createBlock_tidy _ _ ?_; exact rfl)
    | (refine CHC.createBlock_tidy_node _ ?_; assumption)
    | with_reducible exact CHC.createBlock_tidy_function _
    | with_reducible exact CHC.setCurrentBlock_tidy _ _
    | (refine CHC.predicate_tidy _ ?_; first | assumption | exact ‹smt.PlainOption _ (some _)› _ rfl)
    | (refine CHC.predicateWith_tidy _ _ ?_; assumption)
    | with_reducible exact CHC.currentFunctionVariables_tidy
    | with_reducible exact CHC.currentStateVariables_tidy
    | with_reducible exact CHC.initialStateVariables_tidy
    | with_reducible exact CHC.genesis_tidy
    | with_reducible exact CHC.interface_tidy
    | with_reducible exact CHC.error_tidy
    | with_reducible exact CHC.summary_tidy _
    | with_reducible exact CHC.clearIndices_tidy _ _
    | with_reducible exact CHC.interfaceSort_tidy
    | (refine CHC.createSymbolicBlock_tidy _ _ (smt.isGhostOf_shape _ (smt.isGhostName_other _ ?_)); simp [List.isPrefixOf]; done)
    | with_reducible exact CHC.createErrorBlock_tidy
    | with_reducible exact CHC.query_tidy _ _
    | with_reducible exact CHC.reset_tidy
    | with_reducible exact SMTEncoder.defineExpr_tidy _ _
    | with_reducible exact SMTEncoder.assignment_tidy _ _
    | (refine CHC.connectBlocks_tidy _ _ _ ?_; assumption)
    | with_reducible apply Visitor.Tidies.tidy_bind
    | with_reducible exact Visitor.Tidies.tidy_solAssert _ _
    | with_reducible exact Visitor.Tidies.tidy_pure_any _
    | (refine Visitor.Tidies.tidy_pure _ (smt.SymbolicFunctionVariable.Plain.plain_app ?_ _); assumption)
    | with_reducible exact Visitor.Tidies.tidy_read_breakDest
    | with_reducible exact Visitor.Tidies.tidy_read_continueDest
    | with_reducible exact Visitor.Tidies.tidy_read_any _
    | with_reducible exact Visitor.Tidies.tidy_deref_genesis _
    | with_reducible exact Visitor.Tidies.tidy_deref_interface _
    | with_reducible exact Visitor.Tidies.tidy_deref_error _
    | with_reducible exact Visitor.Tidies.tidy_deref_constructor _
    | with_reducible exact Visitor.Tidies.tidy_deref_breakDest _
    | with_reducible exact Visitor.Tidies.tidy_deref_continueDest _
    | with_reducible exact Visitor.Tidies.tidy_deref_summary _ _
    | with_reducible exact Visitor.Tidies.tidy_deref_function _
    | (refine Visitor.Tidies.tidy_deref_body _ _ ?_; assumption)
    | with_reducible exact Visitor.Tidies.tidy_deref_any _ _
    | with_reducible exact Visitor.Tidies.tidy_update_frame _ (fun _ => ⟨rfl, rfl, rfl, rfl, rfl, rfl, rfl, rfl, rfl⟩)
    | (refine Visitor.Tidies.tidy_update_breakDest_some _ ?_; assumption)
    | (refine Visitor.Tidies.tidy_update_continueDest_some _ ?_; assumption)
    | (refine Visitor.Tidies.tidy_update_breakDest _ ?_; assumption)
    | (refine Visitor.Tidies.tidy_update_continueDest _ ?_; assumption)
    | (refine Visitor.Tidies.tidy_update_continueDest_post _ _ ?_ ?_ <;> assumption)
    | (refine Visitor.Tidies.tidy_update_genesisPredicate _ ?_; assumption)
    | (refine Visitor.Tidies.tidy_update_interfacePredicate _ ?_; assumption)
    | (refine Visitor.Tidies.tidy_update_errorPredicate _ ?_; assumption)
    | (refine Visitor.Tidies.tidy_update_constructorPredicate _ ?_; assumption)
    | (refine Visitor.Tidies.tidy_update_summaries _ _ ?_; assumption)
    | (refine Visitor.Tidies.tidy_update_function _ ?_; assumption)
    | with_reducible exact Visitor.Tidies.tidy_update_noFunction
    | with_reducible apply Visitor.Tidies.tidy_forEach
    | intro _
    | split
    | (show Visitor.Tidies _ _ (fun _ => True); split)
    | dsimp only)

/-! ## Contracts and source units keep the analyzer tidy -/

theorem FunctionDefinition.acceptFunction_tidy {B : List Nat} (inlineBases : Visitor Unit)
    (_function : FunctionDefinition) (hBases : Visitor.Tidies B inlineBases (fun _ => True))
    (hf : _function.ApartFrom B) :
    Visitor.Tidies B (FunctionDefinition.accept inlineBases _function) (fun _ => True) := by
  unfold FunctionDefinition.accept
  exact Visitor.Tidies.tidy_then (CHC.visitFunctionDefinition_tidy _ _ hBases hf)
    (fun _ => CHC.endVisitFunctionDefinition_tidy _)

theorem SMTEncoder.inlineConstructorHierarchy_tidy {B : List Nat} :
    ∀ bases : List BaseContract,
      (∀ base ∈ bases, ∀ f ∈ base.definedFunctions, f.ApartFrom B) →
      Visitor.Tidies B (SMTEncoder.inlineConstructorHierarchy bases) (fun _ => True)
  | [], _ => by
    rw [SMTEncoder.inlineConstructorHierarchy]
    exact Visitor.Tidies.tidy_pure_any _
  | base :: rest, h => by
    rw [SMTEncoder.inlineConstructorHierarchy]
    have ih := SMTEncoder.inlineConstructorHierarchy_tidy rest
      (fun b hb => h b (List.mem_cons_of_mem _ hb))
    split
    · rename_i baseConstructor hc
      split
      · exact FunctionDefinition.acceptFunction_tidy _ _ ih
          (h base (List.mem_cons_self _ _) baseConstructor (List.mem_of_find?_eq_some hc))
      · exact ih
    · exact ih

theorem SMTEncoder.baseVisitContractDefinition_tidy {B : List Nat} (c : ContractDefinition)
    (hc : ∀ f ∈ c.allFunctions, f.ApartFrom B) :
    Visitor.Tidies B (SMTEncoder.visitContractDefinition c) (fun _ => True) := by
  unfold SMTEncoder.visitContractDefinition
  refine Visitor.Tidies.tidy_then (Visitor.Tidies.tidy_forEach_mem _ fun f hf => ?_)
    (fun _ => Visitor.Tidies.tidy_pure_any _)
  split
  · exact Visitor.Tidies.tidy_pure_any _
  · exact FunctionDefinition.acceptFunction_tidy _ _ (Visitor.Tidies.tidy_pure_any _)
      (c.apart_resolved hc f hf)

set_option maxHeartbeats 4000000 in
theorem CHC.visitContractDefinition_tidy {B : List Nat} (c : ContractDefinition)
    (hv : CHC.shouldVisitContract c = true)
    (hc : ∀ f ∈ c.allFunctions, f.ApartFrom B) :
    Visitor.Tidies B (CHC.visitContractDefinition c) (fun _ => True) := by
  unfold CHC.visitContractDefinition
  simp only [hv, Bool.not_true, Bool.false_eq_true, ↓reduceIte]
  repeat' (first
    | with_reducible exact SMTEncoder.baseVisitContractDefinition_tidy _ hc
    | with_reducible exact SMTEncoder.initContract_tidy _
    | with_reducible exact CHC.createSummaryBlock_tidy _
    | with_reducible exact FunctionDefinition.acceptFunction_tidy _ _ (SMTEncoder.inlineConstructorHierarchy_tidy _ (ContractDefinition.apart_bases _ hc)) (ContractDefinition.apart_constructor _ hc _ ‹_›)
    | with_reducible exact SMTEncoder.inlineConstructorHierarchy_tidy _ (ContractDefinition.apart_bases _ hc)
    | with_reducible exact CHC.constructorSort_tidy
    | (refine CHC.connectBlocks_tidy _ _ _ (smt.SymbolicFunctionVariable.Plain.plain_app ?_ _); assumption)
    | with_reducible exact SMTEncoder.initFunction_tidy _
    | (refine CHC.createBlock_tidy _ _ ?_; exact rfl)
    | (refine CHC.createBlock_tidy_node _ ?_; assumption)
    | with_reducible exact CHC.createBlock_tidy_function _
    | with_reducible exact CHC.setCurrentBlock_tidy _ _
    | (refine CHC.predicate_tidy _ ?_; first | assumption | exact ‹smt.PlainOption _ (some _)› _ rfl)
    | (refine CHC.predicateWith_tidy _ _ ?_; assumption)
    | with_reducible exact CHC.currentFunctionVariables_tidy
    | with_reducible exact CHC.currentStateVariables_tidy
    | with_reducible exact CHC.initialStateVariables_tidy
    | with_reducible exact CHC.genesis_tidy
    | with_reducible exact CHC.interface_tidy
    | with_reducible exact CHC.error_tidy
    | with_reducible exact CHC.summary_tidy _
    | with_reducible exact CHC.clearIndices_tidy _ _
    | with_reducible exact CHC.interfaceSort_tidy
    | (refine CHC.createSymbolicBlock_tidy _ _ (smt.isGhostOf_shape _ (smt.isGhostName_other _ ?_)); simp [List.isPrefixOf]; done)
    | with_reducible exact CHC.createErrorBlock_tidy
    | with_reducible exact CHC.query_tidy _ _
    | with_reducible exact CHC.reset_tidy
    | with_reducible exact SMTEncoder.defineExpr_tidy _ _
    | with_reducible exact SMTEncoder.assignment_tidy _ _
    | (refine CHC.connectBlocks_tidy _ _ _ ?_; assumption)
    | with_reducible apply Visitor.Tidies.tidy_bind
    | with_reducible exact Visitor.Tidies.tidy_solAssert _ _
    | with_reducible exact Visitor.Tidies.tidy_pure_any _
    | (refine Visitor.Tidies.tidy_pure _ (smt.SymbolicFunctionVariable.Plain.plain_app ?_ _); assumption)
    | with_reducible exact Visitor.Tidies.tidy_read_breakDest
    | with_reducible exact Visitor.Tidies.tidy_read_continueDest
    | with_reducible exact Visitor.Tidies.tidy_read_any _
    | with_reducible exact Visitor.Tidies.tidy_deref_genesis _
    | with_reducible exact Visitor.Tidies.tidy_deref_interface _
    | with_reducible exact Visitor.Tidies.tidy_deref_error _
    | with_reducible exact Visitor.Tidies.tidy_deref_constructor _
    | with_reducible exact Visitor.Tidies.tidy_deref_breakDest _
    | with_reducible exact Visitor.Tidies.tidy_deref_continueDest _
    | with_reducible exact Visitor.Tidies.tidy_deref_summary _ _
    | with_reducible exact Visitor.Tidies.tidy_deref_function _
    | (refine Visitor.Tidies.tidy_deref_body _ _ ?_; assumption)
    | with_reducible exact Visitor.Tidies.tidy_deref_any _ _
    | with_reducible exact Visitor.Tidies.tidy_update_frame _ (fun _ => ⟨rfl, rfl, rfl, rfl, rfl, rfl, rfl, rfl, rfl⟩)
    | (refine Visitor.Tidies.tidy_update_breakDest_some _ ?_; assumption)
    | (refine Visitor.Tidies.tidy_update_continueDest_some _ ?_; assumption)
    | (refine Visitor.Tidies.tidy_update_breakDest _ ?_; assumption)
    | (refine Visitor.Tidies.tidy_update_continueDest _ ?_; assumption)
    | (refine Visitor.Tidies.tidy_update_continueDest_post _ _ ?_ ?_ <;> assumption)
    | (refine Visitor.Tidies.tidy_update_genesisPredicate _ ?_; assumption)
    | (refine Visitor.Tidies.tidy_update_interfacePredicate _ ?_; assumption)
    | (refine Visitor.Tidies.tidy_update_errorPredicate _ ?_; assumption)
    | (refine Visitor.Tidies.tidy_update_constructorPredicate _ ?_; assumption)
    | (refine Visitor.Tidies.tidy_update_summaries _ _ ?_; assumption)
    | (refine Visitor.Tidies.tidy_update_function _ ?_; assumption)
    | with_reducible exact Visitor.Tidies.tidy_update_noFunction
    | with_reducible apply Visitor.Tidies.tidy_forEach
    | intro _
    | split
    | (show Visitor.Tidies _ _ (fun _ => True); split)
    | dsimp only)

set_option maxHeartbeats 4000000 in
theorem CHC.endVisitContractDefinition_tidy {B : List Nat} (c : ContractDefinition)
    (hv : CHC.shouldVisitContract c = true)
    (hc : ∀ f ∈ c.allFunctions, f.ApartFrom B) :
    Visitor.Tidies B (CHC.endVisitContractDefinition c) (fun _ => True) := by
  unfold CHC.endVisitContractDefinition SMTEncoder.endVisitContractDefinition
  simp only [hv, Bool.not_true, Bool.false_eq_true, ↓reduceIte]
  repeat' (first
    | with_reducible exact SMTEncoder.baseVisitContractDefinition_tidy _ hc
    | with_reducible exact SMTEncoder.initContract_tidy _
    | with_reducible exact CHC.createSummaryBlock_tidy _
    | with_reducible exact FunctionDefinition.acceptFunction_tidy _ _ (SMTEncoder.inlineConstructorHierarchy_tidy _ (ContractDefinition.apart_bases _ hc)) (ContractDefinition.apart_constructor _ hc _ ‹_›)
    | with_reducible exact SMTEncoder.inlineConstructorHierarchy_tidy _ (ContractDefinition.apart_bases _ hc)
    | with_reducible exact CHC.constructorSort_tidy
    | (refine CHC.connectBlocks_tidy _ _ _ (smt.SymbolicFunctionVariable.Plain.plain_app ?_ _); assumption)
    | with_reducible exact SMTEncoder.initFunction_tidy _
    | (refine CHC.createBlock_tidy _ _ ?_; exact rfl)
    | (refine CHC.createBlock_tidy_node _ ?_; assumption)
    | with_reducible exact CHC.createBlock_tidy_function _
    | with_reducible exact CHC.setCurrentBlock_tidy _ _
    | (refine CHC.predicate_tidy _ ?_; first | assumption | exact ‹smt.PlainOption _ (some _)› _ rfl)
    | (refine CHC.predicateWith_tidy _ _ ?_; assumption)
    | with_reducible exact CHC.currentFunctionVariables_tidy
    | with_reducible exact CHC.currentStateVariables_tidy
    | with_reducible exact CHC.initialStateVariables_tidy
    | with_reducible exact CHC.genesis_tidy
    | with_reducible exact CHC.interface_tidy
    | with_reducible exact CHC.error_tidy
    | with_reducible exact CHC.summary_tidy _
    | with_reducible exact CHC.clearIndices_tidy _ _
    | with_reducible exact CHC.interfaceSort_tidy
    | (refine CHC.createSymbolicBlock_tidy _ _ (smt.isGhostOf_shape _ (smt.isGhostName_other _ ?_)); simp [List.isPrefixOf]; done)
    | with_reducible exact CHC.createErrorBlock_tidy
    | with_reducible exact CHC.query_tidy _ _
    | with_reducible exact CHC.reset_tidy
    | with_reducible exact SMTEncoder.defineExpr_tidy _ _
    | with_reducible exact SMTEncoder.assignment_tidy _ _
    | (refine CHC.connectBlocks_tidy _ _ _ ?_; assumption)
    | with_reducible apply Visitor.Tidies.tidy_bind
    | with_reducible exact Visitor.Tidies.tidy_solAssert _ _
    | with_reducible exact Visitor.Tidies.tidy_pure_any _
    | (refine Visitor.Tidies.tidy_pure _ (smt.SymbolicFunctionVariable.Plain.plain_app ?_ _); assumption)
    | with_reducible exact Visitor.Tidies.tidy_read_breakDest
    | with_reducible exact Visitor.Tidies.tidy_read_continueDest
    | with_reducible exact Visitor.Tidies.tidy_read_any _
    | with_reducible exact Visitor.Tidies.tidy_deref_genesis _
    | with_reducible exact Visitor.Tidies.tidy_deref_interface _
    | with_reducible exact Visitor.Tidies.tidy_deref_error _
    | with_reducible exact Visitor.Tidies.tidy_deref_constructor _
    | with_reducible exact Visitor.Tidies.tidy_deref_breakDest _
    | with_reducible exact Visitor.Tidies.tidy_deref_continueDest _
    | with_reducible exact Visitor.Tidies.tidy_deref_summary _ _
    | with_reducible exact Visitor.Tidies.tidy_deref_function _
    | (refine Visitor.Tidies.tidy_deref_body _ _ ?_; assumption)
    | with_reducible exact Visitor.Tidies.tidy_deref_any _ _
    | with_reducible exact Visitor.Tidies.tidy_update_frame _ (fun _ => ⟨rfl, rfl, rfl, rfl, rfl, rfl, rfl, rfl, rfl⟩)
    | (refine Visitor.Tidies.tidy_update_breakDest_some _ ?_; assumption)
    | (refine Visitor.Tidies.tidy_update_continueDest_some _ ?_; assumption)
    | (refine Visitor.Tidies.tidy_update_breakDest _ ?_; assumption)
    | (refine Visitor.Tidies.tidy_update_continueDest _ ?_; assumption)
    | (refine Visitor.Tidies.tidy_update_continueDest_post _ _ ?_ ?_ <;> assumption)
    | (refine Visitor.Tidies.tidy_update_genesisPredicate _ ?_; assumption)
    | (refine Visitor.Tidies.tidy_update_interfacePredicate _ ?_; assumption)
    | (refine Visitor.Tidies.tidy_update_errorPredicate _ ?_; assumption)
    | (refine Visitor.Tidies.tidy_update_constructorPredicate _ ?_; assumption)
    | (refine Visitor.Tidies.tidy_update_summaries _ _ ?_; assumption)
    | (refine Visitor.Tidies.tidy_update_function _ ?_; assumption)
    | with_reducible exact Visitor.Tidies.tidy_update_noFunction
    | with_reducible apply Visitor.Tidies.tidy_forEach
    | intro _
    | split
    | (show Visitor.Tidies _ _ (fun _ => True); split)
    | dsimp only)

theorem ContractDefinition.acceptContract_tidy {B : List Nat} (c : ContractDefinition)
    (hc : ∀ f ∈ c.allFunctions, f.ApartFrom B) :
    Visitor.Tidies B (ContractDefinition.accept c) (fun _ => True) := by
  unfold ContractDefinition.accept
  by_cases hv : CHC.shouldVisitContract c = true
  · exact Visitor.Tidies.tidy_then (CHC.visitContractDefinition_tidy _ hv hc)
      (fun _ => CHC.endVisitContractDefinition_tidy _ hv hc)
  · have hv2 : CHC.shouldVisitContract c = false := by simpa using hv
    unfold CHC.visitContractDefinition CHC.endVisitContractDefinition
    simp only [hv2, Bool.not_false, ↓reduceIte]
    exact Visitor.Tidies.tidy_then (Visitor.Tidies.tidy_pure_any _)
      (fun _ => Visitor.Tidies.tidy_pure_any _)

theorem SourceUnit.acceptSource_tidy {B : List Nat} (source : SourceUnit)
    (h : ∀ c ∈ source.contracts, ∀ f ∈ c.allFunctions, f.ApartFrom B) :
    Visitor.Tidies B (SourceUnit.accept source) (fun _ => True) := by
  unfold SourceUnit.accept
  exact Visitor.Tidies.tidy_forEach_mem _ fun c hc =>
    ContractDefinition.acceptContract_tidy c (h c hc)

theorem CHC.analyze_tidy {B : List Nat} (source : SourceUnit)
    (h : ∀ c ∈ source.contracts, ∀ f ∈ c.allFunctions, f.ApartFrom B) :
    Visitor.Tidies B (CHC.analyze source) (fun _ => True) := by
  unfold CHC.analyze
  repeat' (first
    | with_reducible exact SourceUnit.acceptSource_tidy _ h
    | with_reducible exact CHC.genesis_tidy_fact
    | (refine CHC.addRule_tidy _ _ ?_; assumption)
    | (refine CHC.createSymbolicBlock_tidy _ _ (smt.isGhostOf_shape _ (smt.isGhostName_other _ ?_)); simp [List.isPrefixOf]; done)
    | with_reducible exact CHC.createErrorBlock_tidy
    | with_reducible exact CHC.query_tidy _ _
    | with_reducible exact CHC.reset_tidy
    | with_reducible exact SMTEncoder.defineExpr_tidy _ _
    | with_reducible exact SMTEncoder.assignment_tidy _ _
    | (refine CHC.connectBlocks_tidy _ _ _ ?_; assumption)
    | with_reducible apply Visitor.Tidies.tidy_bind
    | with_reducible exact Visitor.Tidies.tidy_solAssert _ _
    | with_reducible exact Visitor.Tidies.tidy_pure_any _
    | (refine Visitor.Tidies.tidy_pure _ (smt.SymbolicFunctionVariable.Plain.plain_app ?_ _); assumption)
    | with_reducible exact Visitor.Tidies.tidy_read_breakDest
    | with_reducible exact Visitor.Tidies.tidy_read_continueDest
    | with_reducible exact Visitor.Tidies.tidy_read_any _
    | with_reducible exact Visitor.Tidies.tidy_deref_genesis _
    | with_reducible exact Visitor.Tidies.tidy_deref_interface _
    | with_reducible exact Visitor.Tidies.tidy_deref_error _
    | with_reducible exact Visitor.Tidies.tidy_deref_constructor _
    | with_reducible exact Visitor.Tidies.tidy_deref_breakDest _
    | with_reducible exact Visitor.Tidies.tidy_deref_continueDest _
    | with_reducible exact Visitor.Tidies.tidy_deref_summary _ _
    | with_reducible exact Visitor.Tidies.tidy_deref_function _
    | (refine Visitor.Tidies.tidy_deref_body _ _ ?_; assumption)
    | with_reducible exact Visitor.Tidies.tidy_deref_any _ _
    | with_reducible exact Visitor.Tidies.tidy_update_frame _ (fun _ => ⟨rfl, rfl, rfl, rfl, rfl, rfl, rfl, rfl, rfl⟩)
    | (refine Visitor.Tidies.tidy_update_breakDest_some _ ?_; assumption)
    | (refine Visitor.Tidies.tidy_update_continueDest_some _ ?_; assumption)
    | (refine Visitor.Tidies.tidy_update_breakDest _ ?_; assumption)
    | (refine Visitor.Tidies.tidy_update_continueDest _ ?_; assumption)
    | (refine Visitor.Tidies.tidy_update_continueDest_post _ _ ?_ ?_ <;> assumption)
    | (refine Visitor.Tidies.tidy_update_genesisPredicate _ ?_; assumption)
    | (refine Visitor.Tidies.tidy_update_interfacePredicate _ ?_; assumption)
    | (refine Visitor.Tidies.tidy_update_errorPredicate _ ?_; assumption)
    | (refine Visitor.Tidies.tidy_update_constructorPredicate _ ?_; assumption)
    | (refine Visitor.Tidies.tidy_update_summaries _ _ ?_; assumption)
    | (refine Visitor.Tidies.tidy_update_function _ ?_; assumption)
    | with_reducible exact Visitor.Tidies.tidy_update_noFunction
    | with_reducible apply Visitor.Tidies.tidy_forEach
    | intro _
    | split
    | (show Visitor.Tidies _ _ (fun _ => True); split)
    | dsimp only)

/-! ## Ghost blocks are unreachable -/

/-- The step of a rule leads into the block at the head of the rule. -/
theorem smt.SolverCall.step_head {B : List Nat} (c : smt.SolverCall)
    (source target name : String)
    (h : c.step = some (source, target, name)) (hc : c.headIsGhostOf B = false) :
    smt.isGhostOf B target = false := by
  unfold smt.SolverCall.step at h
  split at h
  · rename_i s1 x1 x2 x3 x4 t1 x5 x6 n1
    cases h
    exact hc
  · cases h

/-- No chain of rules leads into a block that is the head of no rule. -/
theorem smt.chains_unreachable (steps : List (String × String × String)) (target : String)
    (h : ∀ e ∈ steps, e.2.1 ≠ target) :
    ∀ (fuel : Nat) (visited : List String) (source : String), source ≠ target →
      smt.chains steps fuel visited source target = []
  | 0, _, _, _ => rfl
  | fuel + 1, visited, source, hs => by
    rw [smt.chains, if_neg hs]
    rw [List.flatten_eq_nil_iff]
    intro l hl
    obtain ⟨e, he, rfl⟩ := List.mem_map.mp hl
    rw [smt.chains_unreachable steps target h fuel _ e.2.1
      (h e (List.mem_of_mem_filter he))]
    rfl

/-- The name that the visit of a `break` or `continue` gives to its ghost block
is the name of a ghost block. -/
theorem smt.isGhostName_ghost (n : Nat) (tail : String) :
    smt.isGhostName ("block_" ++ toString n ++ "_" ++ "break_ghost_" ++ tail) = true ∧
    smt.isGhostName ("block_" ++ toString n ++ "_" ++ "continue_ghost_" ++ tail) = true := by
  have h1 : "block_" ++ toString n ++ "_" ++ "break_ghost_" ++ tail =
      "block_" ++ toString n ++ "_" ++ ("break_ghost_" ++ tail) := String.append_assoc _ _ _
  have h2 : "block_" ++ toString n ++ "_" ++ "continue_ghost_" ++ tail =
      "block_" ++ toString n ++ "_" ++ ("continue_ghost_" ++ tail) := String.append_assoc _ _ _
  rw [h1, h2, smt.isGhostName_block, smt.isGhostName_block]
  unfold smt.ghostTail
  rw [String.data_append, String.data_append]
  constructor
  · rw [List.isPrefixOf_iff_prefix.mpr (List.prefix_append _ _)]
    rfl
  · rw [List.isPrefixOf_iff_prefix.mpr (List.prefix_append "continue_ghost_".data _),
      Bool.or_true]

/-- The name that the visit of a `break` or `continue` of node `i` gives to its
ghost block ends with `i`. -/
theorem smt.nodeOf_ghost (n i : Nat) (fname : String) :
    smt.nodeOf ("block_" ++ toString n ++ "_" ++ "break_ghost_" ++
      (if fname.isEmpty then toString i else fname ++ "_" ++ toString i)) = i ∧
    smt.nodeOf ("block_" ++ toString n ++ "_" ++ "continue_ghost_" ++
      (if fname.isEmpty then toString i else fname ++ "_" ++ toString i)) = i := by
  constructor <;> split
  · refine smt.nodeOf_data _ ("block_".data ++ (toString n).data ++ "_break_ghost".data) i ?_
    simp only [String.data_append, List.append_assoc]
    rfl
  · refine smt.nodeOf_data _
      ("block_".data ++ (toString n).data ++ "_break_ghost_".data ++ fname.data) i ?_
    simp only [String.data_append, List.append_assoc]
    rfl
  · refine smt.nodeOf_data _ ("block_".data ++ (toString n).data ++ "_continue_ghost".data) i ?_
    simp only [String.data_append, List.append_assoc]
    rfl
  · refine smt.nodeOf_data _
      ("block_".data ++ (toString n).data ++ "_continue_ghost_".data ++ fname.data) i ?_
    simp only [String.data_append, List.append_assoc]
    rfl

/-! ## The block counter keeps the names of the created predicates apart -/

/-- Two numerals, each followed by an underscore, that begin the same list of
characters are numerals of the same number. -/
theorem Nat.toString_cancel {n m : Nat} {x y : List Char}
    (h : (toString n).data ++ '_' :: x = (toString m).data ++ '_' :: y) : n = m := by
  have h1 := congrArg (List.takeWhile Char.isDigit) h
  rw [List.takeWhile_digits _ _ (Nat.toString_isDigit n),
    List.takeWhile_digits _ _ (Nat.toString_isDigit m)] at h1
  exact Nat.toString_inj h1

theorem smt.block_data (k : Nat) (rest : String) :
    ("block_" ++ toString k ++ "_" ++ rest).data =
      "block_".data ++ ((toString k).data ++ '_' :: rest.data) := by
  simp only [String.data_append, List.append_assoc]
  rfl

theorem smt.summary_data (k : Nat) (rest : String) :
    ("summary_" ++ toString k ++ "_" ++ rest).data =
      "summary_".data ++ ((toString k).data ++ '_' :: rest.data) := by
  simp only [String.data_append, List.append_assoc]
  rfl

/-- Names built by `createBlock` or `createSummaryBlock` from different counter
values differ, whatever follows the counter. -/
theorem smt.HasCounter.counter_unique {name : String} {k m : Nat} (h1 : smt.HasCounter name k)
    (h2 : smt.HasCounter name m) : k = m := by
  obtain ⟨r1, h1⟩ := h1
  obtain ⟨r2, h2⟩ := h2
  rcases h1 with h1 | h1 <;> rcases h2 with h2 | h2
  · have h := congrArg String.data (h1.symm.trans h2)
    rw [smt.block_data, smt.block_data] at h
    exact Nat.toString_cancel (List.append_cancel_left h)
  · have h := congrArg String.data (h1.symm.trans h2)
    rw [smt.block_data, smt.summary_data] at h
    have h0 : some 'b' = some 's' := congrArg List.head? h
    exact absurd h0 (by decide)
  · have h := congrArg String.data (h1.symm.trans h2)
    rw [smt.summary_data, smt.block_data] at h
    have h0 : some 's' = some 'b' := congrArg List.head? h
    exact absurd h0 (by decide)
  · have h := congrArg String.data (h1.symm.trans h2)
    rw [smt.summary_data, smt.summary_data] at h
    exact Nat.toString_cancel (List.append_cancel_left h)

theorem smt.HasCounter.has_tag {name : String} {k : Nat} (h : smt.HasCounter name k) :
    smt.isCounted name = true := by
  obtain ⟨rest, h | h⟩ := h
  · unfold smt.isCounted
    rw [h, smt.block_data, List.isPrefixOf_iff_prefix.mpr (List.prefix_append _ _)]
    rfl
  · unfold smt.isCounted
    rw [h, smt.summary_data, List.isPrefixOf_iff_prefix.mpr (List.prefix_append _ _),
      Bool.or_true]

theorem smt.isCounted_other (name : String) (h1 : "block_".data.isPrefixOf name.data = false)
    (h2 : "summary_".data.isPrefixOf name.data = false) : smt.isCounted name = false := by
  unfold smt.isCounted
  rw [h1, h2]
  rfl

theorem smt.SolverCall.created_register (name : String) (index : Nat) (sort : smt.FunctionSort) :
    (smt.SolverCall.registerRelation name index sort).created =
      if smt.isCounted name then some name else none :=
  rfl

theorem smt.SolverCall.created_plain (name : String) (index : Nat) (sort : smt.FunctionSort)
    (h : smt.isCounted name = false) :
    (smt.SolverCall.registerRelation name index sort).created = none := by
  rw [smt.SolverCall.created_register, h]
  rfl

theorem smt.createdNames_other (calls : List smt.SolverCall) (c : smt.SolverCall)
    (hc : c.created = none) : smt.createdNames (calls ++ [c]) = smt.createdNames calls := by
  unfold smt.createdNames
  rw [List.filterMap_append]
  simp [hc]

theorem smt.createdNames_created (calls : List smt.SolverCall) (c : smt.SolverCall)
    (name : String) (hc : c.created = some name) :
    smt.createdNames (calls ++ [c]) = smt.createdNames calls ++ [name] := by
  unfold smt.createdNames
  rw [List.filterMap_append]
  simp [hc]

namespace CHC.Counted

/-- A state that differs in nothing that the numbering reads is numbered. -/
theorem counted_frame {s s1 : CHC} (h : CHC.Counted s)
    (hcalls : s1.m_interface.calls = s.m_interface.calls)
    (hcounter : s1.m_blockCounter = s.m_blockCounter)
    (herr : s1.m_errorPredicate = s.m_errorPredicate) : CHC.Counted s1 := by
  refine ⟨?_, ?_, ?_⟩
  · rw [hcalls, hcounter]; exact h.below
  · rw [hcalls]; exact h.distinct
  · rw [herr]; exact h.error

/-- One more call that registers no name under a kind tag. -/
theorem counted_call {s s1 : CHC} (h : CHC.Counted s) (c : smt.SolverCall)
    (hc : c.created = none)
    (hcalls : s1.m_interface.calls = s.m_interface.calls ++ [c])
    (hcounter : s1.m_blockCounter = s.m_blockCounter)
    (herr : s1.m_errorPredicate = s.m_errorPredicate) : CHC.Counted s1 := by
  refine ⟨?_, ?_, ?_⟩
  · rw [hcalls, hcounter, smt.createdNames_other _ _ hc]; exact h.below
  · rw [hcalls, smt.createdNames_other _ _ hc]; exact h.distinct
  · rw [herr]; exact h.error

/-- The registration of a name that carries the current value of the counter,
with the counter incremented. -/
theorem counted_create {s s1 : CHC} (h : CHC.Counted s) (name : String) (index : Nat)
    (sort : smt.FunctionSort) (hname : smt.HasCounter name s.m_blockCounter)
    (hcalls : s1.m_interface.calls =
      s.m_interface.calls ++ [.registerRelation name index sort])
    (hcounter : s1.m_blockCounter = s.m_blockCounter + 1)
    (herr : s1.m_errorPredicate = s.m_errorPredicate) : CHC.Counted s1 := by
  have hc : (smt.SolverCall.registerRelation name index sort).created = some name := by
    rw [smt.SolverCall.created_register, hname.has_tag]
    rfl
  refine ⟨?_, ?_, ?_⟩
  · rw [hcalls, hcounter, smt.createdNames_created _ _ _ hc]
    intro x hx
    rcases List.mem_append.mp hx with h1 | h1
    · obtain ⟨k, hk, hx⟩ := h.below x h1
      exact ⟨k, Nat.lt_succ_of_lt hk, hx⟩
    · rw [List.mem_singleton.mp h1]
      exact ⟨_, Nat.lt_succ_self _, hname⟩
  · rw [hcalls, smt.createdNames_created _ _ _ hc]
    refine List.Nodup.append h.distinct (List.nodup_singleton _) ?_
    intro x hx hx1
    rw [List.mem_singleton.mp hx1] at hx
    obtain ⟨k, hk, hxk⟩ := h.below name hx
    have := hxk.counter_unique hname
    omega
  · rw [herr]; exact h.error

end CHC.Counted

namespace Visitor.Counts

theorem counts_bind {α β : Type} {m : Visitor α} {f : α → Visitor β} {Q : α → Prop}
    {Q1 : β → Prop} (hm : Counts m Q) (hf : ∀ a, Q a → Counts (f a) Q1) :
    Counts (m >>= f) Q1 := by
  refine ⟨fun s hI => ?_⟩
  rw [Visitor.bind_run]
  have h1 := hm.outcome s hI
  cases hms : m s with
  | ok a s1 =>
    rw [hms] at h1
    exact (hf a h1.2).outcome s1 h1.1
  | abort msg s1 =>
    rw [hms] at h1
    exact h1

theorem counts_forget {α : Type} {m : Visitor α} {Q : α → Prop} (hm : Counts m Q) :
    Counts m (fun _ => True) := by
  refine ⟨fun s hI => ?_⟩
  have h1 := hm.outcome s hI
  cases hms : m s with
  | ok a s1 =>
    rw [hms] at h1
    exact ⟨h1.1, trivial⟩
  | abort msg s1 =>
    rw [hms] at h1
    exact h1

theorem counts_then {α β : Type} {m : Visitor α} {f : α → Visitor β} {Q1 : β → Prop}
    (hm : Counts m (fun _ => True)) (hf : ∀ a, Counts (f a) Q1) : Counts (m >>= f) Q1 :=
  counts_bind hm fun a _ => hf a

theorem counts_pure_any {α : Type} (a : α) : Counts (Pure.pure a : Visitor α) (fun _ => True) :=
  ⟨fun _ hI => ⟨hI, trivial⟩⟩

theorem counts_read_any {α : Type} (f : CHC → α) : Counts (Visitor.read f) (fun _ => True) :=
  ⟨fun _ hI => ⟨hI, trivial⟩⟩

theorem counts_deref {α : Type} {Q : α → Prop} (f : CHC → Option α) (what : String)
    (h : ∀ s a, CHC.Counted s → f s = some a → Q a) : Counts (Visitor.deref f what) Q := by
  refine ⟨fun s hI => ?_⟩
  unfold Visitor.deref
  cases hf : f s with
  | none => exact hI
  | some a => exact ⟨hI, h s a hI hf⟩

theorem counts_deref_any {α : Type} (f : CHC → Option α) (what : String) :
    Counts (Visitor.deref f what) (fun _ => True) :=
  counts_deref f what fun _ _ _ _ => trivial

theorem counts_solAssert (c : Bool) (message : String) :
    Counts (solAssert c message) (fun _ => True) := by
  refine ⟨fun s hI => ?_⟩
  cases c
  · exact hI
  · exact ⟨hI, trivial⟩

theorem counts_update (f : CHC → CHC) (h : ∀ s, CHC.Counted s → CHC.Counted (f s)) :
    Counts (Visitor.update f) (fun _ => True) :=
  ⟨fun s hI => ⟨h s hI, trivial⟩⟩

theorem counts_update_frame (f : CHC → CHC)
    (h : ∀ s, (f s).m_interface.calls = s.m_interface.calls ∧
      (f s).m_blockCounter = s.m_blockCounter ∧
      (f s).m_errorPredicate = s.m_errorPredicate) :
    Counts (Visitor.update f) (fun _ => True) :=
  counts_update f fun s hI => hI.counted_frame (h s).1 (h s).2.1 (h s).2.2

theorem counts_update_errorPredicate (x : smt.SymbolicFunctionVariable)
    (hx : smt.isCounted x.uniqueName = false) :
    Counts (Visitor.update fun s => { s with m_errorPredicate := some x }) (fun _ => True) :=
  counts_update _ fun _ hI => ⟨hI.below, hI.distinct, fun y hy => by cases hy; exact hx⟩

theorem counts_forEach {α : Type} {f : α → Visitor Unit}
    (hf : ∀ a : α, Counts (f a) (fun _ => True)) :
    ∀ l : List α, Counts (Visitor.forEach f l) (fun _ => True)
  | [] => ⟨fun _ hI => ⟨hI, trivial⟩⟩
  | a :: rest => by
    rw [Visitor.forEach, Visitor.andThen_eq]
    exact counts_then (hf a) (fun _ => counts_forEach hf rest)

/-- Whatever the outcome of the method, the names stay apart. -/
theorem counts_state {α : Type} {m : Visitor α} {Q : α → Prop} (h : Counts m Q) (s : CHC)
    (hI : CHC.Counted s) : CHC.Counted (m s).state := by
  have h1 := h.outcome s hI
  cases hms : m s with
  | ok a s1 =>
    rw [hms] at h1
    exact h1.1
  | abort msg s1 =>
    rw [hms] at h1
    exact h1

end Visitor.Counts

/-! ### The methods that talk to the solver adapter and create blocks -/

theorem CHC.reset_counts : Visitor.Counts CHC.reset (fun _ => True) :=
  Visitor.Counts.counts_update_frame _ fun _ => ⟨rfl, rfl, rfl⟩

/-- A predicate symbol registered under a name without kind tag. -/
theorem CHC.createSymbolicBlock_counts (sort : smt.FunctionSort) (name : String)
    (h : smt.isCounted name = false) :
    Visitor.Counts (CHC.createSymbolicBlock sort name)
      (fun b => smt.isCounted b.uniqueName = false) :=
  ⟨fun _ hI => ⟨hI.counted_call (.registerRelation name 0 sort)
    (smt.SolverCall.created_plain _ _ _ h) rfl rfl rfl, h⟩⟩

theorem CHC.connectBlocks_counts (source target constraints : smt.Expression) :
    Visitor.Counts (CHC.connectBlocks source target constraints) (fun _ => True) := by
  refine ⟨fun s hI => ?_⟩
  rw [CHC.connectBlocks_run]
  exact ⟨hI.counted_call
    (.addRule (.implies ((source.and s.m_context.assertions).and constraints) target)
      (source.name ++ "_to_" ++ target.name)) rfl rfl rfl rfl, trivial⟩

theorem CHC.addRule_counts (rule : smt.Expression) (name : String) :
    Visitor.Counts (CHC.addRule rule name) (fun _ => True) :=
  Visitor.Counts.counts_update _ fun _ hI => hI.counted_call (.addRule rule name) rfl rfl rfl rfl

theorem CHC.query_counts (goal : smt.Expression) (location : SourceLocation) :
    Visitor.Counts (CHC.query goal location) (fun _ => True) := by
  refine ⟨fun s hI => ?_⟩
  unfold CHC.query
  cases h : s.m_interface.answer s.m_interface.calls goal <;>
    simp only [smt.CHCSolverInterface.query, h] <;>
    exact ⟨hI.counted_call (.query goal) rfl rfl rfl rfl, trivial⟩

/-- What `createBlock` does to the counter: it returns a predicate symbol whose
name is `block_`, the decimal value of the counter, an underscore, the prefix and
the name of the node, registers it and increments the counter; or it aborts,
for want of a current function, and leaves the state as it is. -/
theorem CHC.createBlock_counter (n : ASTNode) (pfx : String) (s : CHC) :
    (∃ (block : smt.SymbolicFunctionVariable) (s1 : CHC) (nodeName : String),
      CHC.createBlock n pfx s = .ok block s1 ∧
      block.uniqueName = "block_" ++ toString s.m_blockCounter ++ "_" ++ pfx ++ nodeName ∧
      s1.m_blockCounter = s.m_blockCounter + 1 ∧
      s1.m_interface.calls = s.m_interface.calls ++
        [.registerRelation block.uniqueName block.index block.sort] ∧
      s1.m_errorPredicate = s.m_errorPredicate) ∨
    ((∃ i, n = .node i) ∧ s.m_currentFunction = none ∧
      ∃ msg, CHC.createBlock n pfx s = .abort msg s) := by
  cases n with
  | function f => exact Or.inl ⟨_, _, _, rfl, rfl, rfl, rfl, rfl⟩
  | node i =>
    obtain ⟨a1, a2, a3, a4, a5, a6, a7, a8, a9, a10, a11, a12, a13, a14, a15, a16, a17, a18,
      a19, a20, a21, a22, a23⟩ := s
    cases a19 with
    | none => exact Or.inr ⟨⟨i, rfl⟩, rfl, _, rfl⟩
    | some f => exact Or.inl ⟨_, _, _, rfl, rfl, rfl, rfl, rfl⟩

/-- What `createSummaryBlock` does to the counter: it returns a predicate symbol
whose name is `summary_`, the decimal value of the counter, an underscore and the
name of the function, registers it and increments the counter. -/
theorem CHC.createSummaryBlock_counter (f : FunctionDefinition) (s : CHC) :
    ∃ (block : smt.SymbolicFunctionVariable) (s1 : CHC) (nodeName : String),
      CHC.createSummaryBlock f s = .ok block s1 ∧
      block.uniqueName = "summary_" ++ toString s.m_blockCounter ++ "_" ++ nodeName ∧
      s1.m_blockCounter = s.m_blockCounter + 1 ∧
      s1.m_interface.calls = s.m_interface.calls ++
        [.registerRelation block.uniqueName block.index block.sort] ∧
      s1.m_errorPredicate = s.m_errorPredicate :=
  ⟨_, _, _, rfl, rfl, rfl, rfl, rfl⟩

theorem CHC.createBlock_counts (n : ASTNode) (pfx : String) :
    Visitor.Counts (CHC.createBlock n pfx) (fun _ => True) := by
  refine ⟨fun s hI => ?_⟩
  rcases CHC.createBlock_counter n pfx s with
    ⟨block, s1, nodeName, hrun, hname, hcounter, hcalls, herr⟩ | ⟨_, _, msg, hrun⟩
  · rw [hrun]
    refine ⟨hI.counted_create block.uniqueName block.index block.sort
      ⟨pfx ++ nodeName, Or.inl ?_⟩ hcalls hcounter herr, trivial⟩
    rw [hname, String.append_assoc]
  · rw [hrun]
    exact hI

theorem CHC.createSummaryBlock_counts (f : FunctionDefinition) :
    Visitor.Counts (CHC.createSummaryBlock f) (fun _ => True) := by
  refine ⟨fun s hI => ?_⟩
  obtain ⟨block, s1, nodeName, hrun, hname, hcounter, hcalls, herr⟩ :=
    CHC.createSummaryBlock_counter f s
  rw [hrun]
  exact ⟨hI.counted_create block.uniqueName block.index block.sort
    ⟨nodeName, Or.inr hname⟩ hcalls hcounter herr, trivial⟩

theorem CHC.createErrorBlock_counts : Visitor.Counts CHC.createErrorBlock (fun _ => True) := by
  unfold CHC.createErrorBlock
  refine Visitor.Counts.counts_bind
    (Visitor.Counts.counts_deref (Q := fun b => smt.isCounted b.uniqueName = false) _ _
      fun _ a hI h => hI.error a h) (fun ep hep => ?_)
  refine Visitor.Counts.counts_then
    (Visitor.Counts.counts_update_errorPredicate ep.increaseIndex hep) (fun _ => ?_)
  exact Visitor.Counts.counts_update _ fun _ hI =>
    hI.counted_call (.registerRelation ep.increaseIndex.uniqueName ep.increaseIndex.index
      ep.increaseIndex.sort) (smt.SolverCall.created_plain _ _ _ hep) rfl rfl rfl

theorem SMTEncoder.defineExpr_counts (e : Expression) (value : smt.Expression) :
    Visitor.Counts (SMTEncoder.defineExpr e value) (fun _ => True) :=
  Visitor.Counts.counts_update_frame _ (fun _ => ⟨rfl, rfl, rfl⟩)

theorem SMTEncoder.assignment_counts (decl : VariableDeclaration) (value : smt.Expression) :
    Visitor.Counts (SMTEncoder.assignment decl value) (fun _ => True) :=
  Visitor.Counts.counts_update_frame _ (fun _ => ⟨rfl, rfl, rfl⟩)

theorem CHC.createOptionalBlock_counts (o : Option (Nat × Visitor Unit)) (pfx : String) :
    Visitor.Counts
      (match o with
        | some statement => do
          let block ← CHC.createBlock (.node statement.1) pfx
          pure (some block)
        | none => pure none) (fun _ => True) := by
  cases o with
  | none => exact Visitor.Counts.counts_pure_any _
  | some st =>
    exact Visitor.Counts.counts_then (CHC.createBlock_counts _ _)
      (fun _ => Visitor.Counts.counts_pure_any _)

theorem CHC.new_counted (answer : List smt.SolverCall → smt.Expression → smt.CheckResult) :
    CHC.Counted (CHC.new answer) :=
  ⟨(fun _ h => by cases h), List.nodup_nil, (fun _ h => by cases h)⟩

/-! ## Every method keeps the names of the created predicates apart -/

theorem SMTEncoder.expr_counts (e : Expression) :
    Visitor.Counts (SMTEncoder.expr e) (fun _ => True) := by
  unfold SMTEncoder.expr
  repeat' (first
    | with_reducible exact CHC.createErrorBlock_counts
    | with_reducible exact CHC.query_counts _ _
    | with_reducible exact CHC.reset_counts
    | with_reducible exact SMTEncoder.defineExpr_counts _ _
    | with_reducible exact SMTEncoder.assignment_counts _ _
    | with_reducible exact CHC.connectBlocks_counts _ _ _
    | with_reducible apply Visitor.Counts.counts_bind
    | with_reducible exact Visitor.Counts.counts_solAssert _ _
    | with_reducible exact Visitor.Counts.counts_pure_any _
    | with_reducible exact Visitor.Counts.counts_read_any _
    | with_reducible exact Visitor.Counts.counts_deref_any _ _
    | with_reducible exact Visitor.Counts.counts_update_frame _ (fun _ => ⟨rfl, rfl, rfl⟩)
    | (refine Visitor.Counts.counts_update_errorPredicate _ ?_; assumption)
    | with_reducible apply Visitor.Counts.counts_forEach
    | intro _
    | split
    | (show Visitor.Counts _ (fun _ => True); split)
    | dsimp only)

theorem SMTEncoder.currentValue_counts (decl : VariableDeclaration) :
    Visitor.Counts (SMTEncoder.currentValue decl) (fun _ => True) := by
  unfold SMTEncoder.currentValue
  repeat' (first
    | with_reducible exact CHC.createErrorBlock_counts
    | with_reducible exact CHC.query_counts _ _
    | with_reducible exact CHC.reset_counts
    | with_reducible exact SMTEncoder.defineExpr_counts _ _
    | with_reducible exact SMTEncoder.assignment_counts _ _
    | with_reducible exact CHC.connectBlocks_counts _ _ _
    | with_reducible apply Visitor.Counts.counts_bind
    | with_reducible exact Visitor.Counts.counts_solAssert _ _
    | with_reducible exact Visitor.Counts.counts_pure_any _
    | with_reducible exact Visitor.Counts.counts_read_any _
    | with_reducible exact Visitor.Counts.counts_deref_any _ _
    | with_reducible exact Visitor.Counts.counts_update_frame _ (fun _ => ⟨rfl, rfl, rfl⟩)
    | (refine Visitor.Counts.counts_update_errorPredicate _ ?_; assumption)
    | with_reducible apply Visitor.Counts.counts_forEach
    | intro _
    | split
    | (show Visitor.Counts _ (fun _ => True); split)
    | dsimp only)

theorem SMTEncoder.currentPathConditions_counts :
    Visitor.Counts SMTEncoder.currentPathConditions (fun _ => True) := by
  unfold SMTEncoder.currentPathConditions
  repeat' (first
    | with_reducible exact CHC.createErrorBlock_counts
    | with_reducible exact CHC.query_counts _ _
    | with_reducible exact CHC.reset_counts
    | with_reducible exact SMTEncoder.defineExpr_counts _ _
    | with_reducible exact SMTEncoder.assignment_counts _ _
    | with_reducible exact CHC.connectBlocks_counts _ _ _
    | with_reducible apply Visitor.Counts.counts_bind
    | with_reducible exact Visitor.Counts.counts_solAssert _ _
    | with_reducible exact Visitor.Counts.counts_pure_any _
    | with_reducible exact Visitor.Counts.counts_read_any _
    | with_reducible exact Visitor.Counts.counts_deref_any _ _
    | with_reducible exact Visitor.Counts.counts_update_frame _ (fun _ => ⟨rfl, rfl, rfl⟩)
    | (refine Visitor.Counts.counts_update_errorPredicate _ ?_; assumption)
    | with_reducible apply Visitor.Counts.counts_forEach
    | intro _
    | split
    | (show Visitor.Counts _ (fun _ => True); split)
    | dsimp only)

theorem SMTEncoder.createVariable_counts (decl : VariableDeclaration) :
    Visitor.Counts (SMTEncoder.createVariable decl) (fun _ => True) := by
  unfold SMTEncoder.createVariable
  repeat' (first
    | with_reducible exact CHC.createErrorBlock_counts
    | with_reducible exact CHC.query_counts _ _
    | with_reducible exact CHC.reset_counts
    | with_reducible exact SMTEncoder.defineExpr_counts _ _
    | with_reducible exact SMTEncoder.assignment_counts _ _
    | with_reducible exact CHC.connectBlocks_counts _ _ _
    | with_reducible apply Visitor.Counts.counts_bind
    | with_reducible exact Visitor.Counts.counts_solAssert _ _
    | with_reducible exact Visitor.Counts.counts_pure_any _
    | with_reducible exact Visitor.Counts.counts_read_any _
    | with_reducible exact Visitor.Counts.counts_deref_any _ _
    | with_reducible exact Visitor.Counts.counts_update_frame _ (fun _ => ⟨rfl, rfl, rfl⟩)
    | (refine Visitor.Counts.counts_update_errorPredicate _ ?_; assumption)
    | with_reducible apply Visitor.Counts.counts_forEach
    | intro _
    | split
    | (show Visitor.Counts _ (fun _ => True); split)
    | dsimp only)

theorem SMTEncoder.baseClearIndices_counts (c : Option ContractDefinition) (f : Option FunctionDefinition) :
    Visitor.Counts (SMTEncoder.clearIndices c f) (fun _ => True) := by
  unfold SMTEncoder.clearIndices
  repeat' (first
    | with_reducible exact CHC.createErrorBlock_counts
    | with_reducible exact CHC.query_counts _ _
    | with_reducible exact CHC.reset_counts
    | with_reducible exact SMTEncoder.defineExpr_counts _ _
    | with_reducible exact SMTEncoder.assignment_counts _ _
    | with_reducible exact CHC.connectBlocks_counts _ _ _
    | with_reducible apply Visitor.Counts.counts_bind
    | with_reducible exact Visitor.Counts.counts_solAssert _ _
    | with_reducible exact Visitor.Counts.counts_pure_any _
    | with_reducible exact Visitor.Counts.counts_read_any _
    | with_reducible exact Visitor.Counts.counts_deref_any _ _
    | with_reducible exact Visitor.Counts.counts_update_frame _ (fun _ => ⟨rfl, rfl, rfl⟩)
    | (refine Visitor.Counts.counts_update_errorPredicate _ ?_; assumption)
    | with_reducible apply Visitor.Counts.counts_forEach
    | intro _
    | split
    | (show Visitor.Counts _ (fun _ => True); split)
    | dsimp only)

theorem SMTEncoder.resetStateVariables_counts :
    Visitor.Counts SMTEncoder.resetStateVariables (fun _ => True) := by
  unfold SMTEncoder.resetStateVariables
  repeat' (first
    | with_reducible exact CHC.createErrorBlock_counts
    | with_reducible exact CHC.query_counts _ _
    | with_reducible exact CHC.reset_counts
    | with_reducible exact SMTEncoder.defineExpr_counts _ _
    | with_reducible exact SMTEncoder.assignment_counts _ _
    | with_reducible exact CHC.connectBlocks_counts _ _ _
    | with_reducible apply Visitor.Counts.counts_bind
    | with_reducible exact Visitor.Counts.counts_solAssert _ _
    | with_reducible exact Visitor.Counts.counts_pure_any _
    | with_reducible exact Visitor.Counts.counts_read_any _
    | with_reducible exact Visitor.Counts.counts_deref_any _ _
    | with_reducible exact Visitor.Counts.counts_update_frame _ (fun _ => ⟨rfl, rfl, rfl⟩)
    | (refine Visitor.Counts.counts_update_errorPredicate _ ?_; assumption)
    | with_reducible apply Visitor.Counts.counts_forEach
    | intro _
    | split
    | (show Visitor.Counts _ (fun _ => True); split)
    | dsimp only)

theorem SMTEncoder.baseEndVisitFunctionCall_counts (c : Expression) :
    Visitor.Counts (SMTEncoder.endVisitFunctionCall c) (fun _ => True) := by
  unfold SMTEncoder.endVisitFunctionCall
  repeat' (first
    | with_reducible exact CHC.createErrorBlock_counts
    | with_reducible exact CHC.query_counts _ _
    | with_reducible exact CHC.reset_counts
    | with_reducible exact SMTEncoder.defineExpr_counts _ _
    | with_reducible exact SMTEncoder.assignment_counts _ _
    | with_reducible exact CHC.connectBlocks_counts _ _ _
    | with_reducible apply Visitor.Counts.counts_bind
    | with_reducible exact Visitor.Counts.counts_solAssert _ _
    | with_reducible exact Visitor.Counts.counts_pure_any _
    | with_reducible exact Visitor.Counts.counts_read_any _
    | with_reducible exact Visitor.Counts.counts_deref_any _ _
    | with_reducible exact Visitor.Counts.counts_update_frame _ (fun _ => ⟨rfl, rfl, rfl⟩)
    | (refine Visitor.Counts.counts_update_errorPredicate _ ?_; assumption)
    | with_reducible apply Visitor.Counts.counts_forEach
    | intro _
    | split
    | (show Visitor.Counts _ (fun _ => True); split)
    | dsimp only)

theorem SMTEncoder.createReturnedExpressions_counts (c : Expression) :
    Visitor.Counts (SMTEncoder.createReturnedExpressions c) (fun _ => True) := by
  unfold SMTEncoder.createReturnedExpressions
  repeat' (first
    | with_reducible exact SMTEncoder.createVariable_counts _
    | with_reducible exact SMTEncoder.currentValue_counts _
    | with_reducible exact CHC.createErrorBlock_counts
    | with_reducible exact CHC.query_counts _ _
    | with_reducible exact CHC.reset_counts
    | with_reducible exact SMTEncoder.defineExpr_counts _ _
    | with_reducible exact SMTEncoder.assignment_counts _ _
    | with_reducible exact CHC.connectBlocks_counts _ _ _
    | with_reducible apply Visitor.Counts.counts_bind
    | with_reducible exact Visitor.Counts.counts_solAssert _ _
    | with_reducible exact Visitor.Counts.counts_pure_any _
    | with_reducible exact Visitor.Counts.counts_read_any _
    | with_reducible exact Visitor.Counts.counts_deref_any _ _
    | with_reducible exact Visitor.Counts.counts_update_frame _ (fun _ => ⟨rfl, rfl, rfl⟩)
    | (refine Visitor.Counts.counts_update_errorPredicate _ ?_; assumption)
    | with_reducible apply Visitor.Counts.counts_forEach
    | intro _
    | split
    | (show Visitor.Counts _ (fun _ => True); split)
    | dsimp only)

theorem CHC.stateVariablesAtIndex_counts (i : Nat) :
    Visitor.Counts (CHC.stateVariablesAtIndex i) (fun _ => True) := by
  unfold CHC.stateVariablesAtIndex
  repeat' (first
    | with_reducible exact CHC.createErrorBlock_counts
    | with_reducible exact CHC.query_counts _ _
    | with_reducible exact CHC.reset_counts
    | with_reducible exact SMTEncoder.defineExpr_counts _ _
    | with_reducible exact SMTEncoder.assignment_counts _ _
    | with_reducible exact CHC.connectBlocks_counts _ _ _
    | with_reducible apply Visitor.Counts.counts_bind
    | with_reducible exact Visitor.Counts.counts_solAssert _ _
    | with_reducible exact Visitor.Counts.counts_pure_any _
    | with_reducible exact Visitor.Counts.counts_read_any _
    | with_reducible exact Visitor.Counts.counts_deref_any _ _
    | with_reducible exact Visitor.Counts.counts_update_frame _ (fun _ => ⟨rfl, rfl, rfl⟩)
    | (refine Visitor.Counts.counts_update_errorPredicate _ ?_; assumption)
    | with_reducible apply Visitor.Counts.counts_forEach
    | intro _
    | split
    | (show Visitor.Counts _ (fun _ => True); split)
    | dsimp only)

theorem CHC.initialStateVariables_counts :
    Visitor.Counts CHC.initialStateVariables (fun _ => True) := by
  unfold CHC.initialStateVariables
  repeat' (first
    | with_reducible exact CHC.stateVariablesAtIndex_counts _
    | with_reducible exact CHC.createErrorBlock_counts
    | with_reducible exact CHC.query_counts _ _
    | with_reducible exact CHC.reset_counts
    | with_reducible exact SMTEncoder.defineExpr_counts _ _
    | with_reducible exact SMTEncoder.assignment_counts _ _
    | with_reducible exact CHC.connectBlocks_counts _ _ _
    | with_reducible apply Visitor.Counts.counts_bind
    | with_reducible exact Visitor.Counts.counts_solAssert _ _
    | with_reducible exact Visitor.Counts.counts_pure_any _
    | with_reducible exact Visitor.Counts.counts_read_any _
    | with_reducible exact Visitor.Counts.counts_deref_any _ _
    | with_reducible exact Visitor.Counts.counts_update_frame _ (fun _ => ⟨rfl, rfl, rfl⟩)
    | (refine Visitor.Counts.counts_update_errorPredicate _ ?_; assumption)
    | with_reducible apply Visitor.Counts.counts_forEach
    | intro _
    | split
    | (show Visitor.Counts _ (fun _ => True); split)
    | dsimp only)

theorem CHC.currentStateVariables_counts :
    Visitor.Counts CHC.currentStateVariables (fun _ => True) := by
  unfold CHC.currentStateVariables
  repeat' (first
    | with_reducible exact CHC.createErrorBlock_counts
    | with_reducible exact CHC.query_counts _ _
    | with_reducible exact CHC.reset_counts
    | with_reducible exact SMTEncoder.defineExpr_counts _ _
    | with_reducible exact SMTEncoder.assignment_counts _ _
    | with_reducible exact CHC.connectBlocks_counts _ _ _
    | with_reducible apply Visitor.Counts.counts_bind
    | with_reducible exact Visitor.Counts.counts_solAssert _ _
    | with_reducible exact Visitor.Counts.counts_pure_any _
    | with_reducible exact Visitor.Counts.counts_read_any _
    | with_reducible exact Visitor.Counts.counts_deref_any _ _
    | with_reducible exact Visitor.Counts.counts_update_frame _ (fun _ => ⟨rfl, rfl, rfl⟩)
    | (refine Visitor.Counts.counts_update_errorPredicate _ ?_; assumption)
    | with_reducible apply Visitor.Counts.counts_forEach
    | intro _
    | split
    | (show Visitor.Counts _ (fun _ => True); split)
    | dsimp only)

theorem CHC.currentFunctionVariables_counts :
    Visitor.Counts CHC.currentFunctionVariables (fun _ => True) := by
  unfold CHC.currentFunctionVariables
  repeat' (first
    | with_reducible exact CHC.initialStateVariables_counts
    | with_reducible exact CHC.currentStateVariables_counts
    | with_reducible exact CHC.createErrorBlock_counts
    | with_reducible exact CHC.query_counts _ _
    | with_reducible exact CHC.reset_counts
    | with_reducible exact SMTEncoder.defineExpr_counts _ _
    | with_reducible exact SMTEncoder.assignment_counts _ _
    | with_reducible exact CHC.connectBlocks_counts _ _ _
    | with_reducible apply Visitor.Counts.counts_bind
    | with_reducible exact Visitor.Counts.counts_solAssert _ _
    | with_reducible exact Visitor.Counts.counts_pure_any _
    | with_reducible exact Visitor.Counts.counts_read_any _
    | with_reducible exact Visitor.Counts.counts_deref_any _ _
    | with_reducible exact Visitor.Counts.counts_update_frame _ (fun _ => ⟨rfl, rfl, rfl⟩)
    | (refine Visitor.Counts.counts_update_errorPredicate _ ?_; assumption)
    | with_reducible apply Visitor.Counts.counts_forEach
    | intro _
    | split
    | (show Visitor.Counts _ (fun _ => True); split)
    | dsimp only)

theorem CHC.currentBlockVariables_counts :
    Visitor.Counts CHC.currentBlockVariables (fun _ => True) := by
  unfold CHC.currentBlockVariables
  repeat' (first
    | with_reducible exact CHC.currentFunctionVariables_counts
    | with_reducible exact CHC.createErrorBlock_counts
    | with_reducible exact CHC.query_counts _ _
    | with_reducible exact CHC.reset_counts
    | with_reducible exact SMTEncoder.defineExpr_counts _ _
    | with_reducible exact SMTEncoder.assignment_counts _ _
    | with_reducible exact CHC.connectBlocks_counts _ _ _
    | with_reducible apply Visitor.Counts.counts_bind
    | with_reducible exact Visitor.Counts.counts_solAssert _ _
    | with_reducible exact Visitor.Counts.counts_pure_any _
    | with_reducible exact Visitor.Counts.counts_read_any _
    | with_reducible exact Visitor.Counts.counts_deref_any _ _
    | with_reducible exact Visitor.Counts.counts_update_frame _ (fun _ => ⟨rfl, rfl, rfl⟩)
    | (refine Visitor.Counts.counts_update_errorPredicate _ ?_; assumption)
    | with_reducible apply Visitor.Counts.counts_forEach
    | intro _
    | split
    | (show Visitor.Counts _ (fun _ => True); split)
    | dsimp only)

theorem CHC.predicate_counts (block : smt.SymbolicFunctionVariable) :
    Visitor.Counts (CHC.predicate block) (fun _ => True) := by
  unfold CHC.predicate
  repeat' (first
    | with_reducible exact CHC.currentBlockVariables_counts
    | with_reducible exact CHC.createErrorBlock_counts
    | with_reducible exact CHC.query_counts _ _
    | with_reducible exact CHC.reset_counts
    | with_reducible exact SMTEncoder.defineExpr_counts _ _
    | with_reducible exact SMTEncoder.assignment_counts _ _
    | with_reducible exact CHC.connectBlocks_counts _ _ _
    | with_reducible apply Visitor.Counts.counts_bind
    | with_reducible exact Visitor.Counts.counts_solAssert _ _
    | with_reducible exact Visitor.Counts.counts_pure_any _
    | with_reducible exact Visitor.Counts.counts_read_any _
    | with_reducible exact Visitor.Counts.counts_deref_any _ _
    | with_reducible exact Visitor.Counts.counts_update_frame _ (fun _ => ⟨rfl, rfl, rfl⟩)
    | (refine Visitor.Counts.counts_update_errorPredicate _ ?_; assumption)
    | with_reducible apply Visitor.Counts.counts_forEach
    | intro _
    | split
    | (show Visitor.Counts _ (fun _ => True); split)
    | dsimp only)

theorem CHC.predicateWith_counts (block : smt.SymbolicFunctionVariable)
    (arguments : List smt.Expression) :
    Visitor.Counts (CHC.predicateWith block arguments) (fun _ => True) := by
  unfold CHC.predicateWith
  repeat' (first
    | with_reducible exact CHC.createErrorBlock_counts
    | with_reducible exact CHC.query_counts _ _
    | with_reducible exact CHC.reset_counts
    | with_reducible exact SMTEncoder.defineExpr_counts _ _
    | with_reducible exact SMTEncoder.assignment_counts _ _
    | with_reducible exact CHC.connectBlocks_counts _ _ _
    | with_reducible apply Visitor.Counts.counts_bind
    | with_reducible exact Visitor.Counts.counts_solAssert _ _
    | with_reducible exact Visitor.Counts.counts_pure_any _
    | with_reducible exact Visitor.Counts.counts_read_any _
    | with_reducible exact Visitor.Counts.counts_deref_any _ _
    | with_reducible exact Visitor.Counts.counts_update_frame _ (fun _ => ⟨rfl, rfl, rfl⟩)
    | (refine Visitor.Counts.counts_update_errorPredicate _ ?_; assumption)
    | with_reducible apply Visitor.Counts.counts_forEach
    | intro _
    | split
    | (show Visitor.Counts _ (fun _ => True); split)
    | dsimp only)

theorem CHC.genesis_counts :
    Visitor.Counts CHC.genesis (fun _ => True) := by
  unfold CHC.genesis
  repeat' (first
    | with_reducible exact CHC.createErrorBlock_counts
    | with_reducible exact CHC.query_counts _ _
    | with_reducible exact CHC.reset_counts
    | with_reducible exact SMTEncoder.defineExpr_counts _ _
    | with_reducible exact SMTEncoder.assignment_counts _ _
    | with_reducible exact CHC.connectBlocks_counts _ _ _
    | with_reducible apply Visitor.Counts.counts_bind
    | with_reducible exact Visitor.Counts.counts_solAssert _ _
    | with_reducible exact Visitor.Counts.counts_pure_any _
    | with_reducible exact Visitor.Counts.counts_read_any _
    | with_reducible exact Visitor.Counts.counts_deref_any _ _
    | with_reducible exact Visitor.Counts.counts_update_frame _ (fun _ => ⟨rfl, rfl, rfl⟩)
    | (refine Visitor.Counts.counts_update_errorPredicate _ ?_; assumption)
    | with_reducible apply Visitor.Counts.counts_forEach
    | intro _
    | split
    | (show Visitor.Counts _ (fun _ => True); split)
    | dsimp only)

theorem CHC.interface_counts :
    Visitor.Counts CHC.interface (fun _ => True) := by
  unfold CHC.interface
  repeat' (first
    | with_reducible exact CHC.createErrorBlock_counts
    | with_reducible exact CHC.query_counts _ _
    | with_reducible exact CHC.reset_counts
    | with_reducible exact SMTEncoder.defineExpr_counts _ _
    | with_reducible exact SMTEncoder.assignment_counts _ _
    | with_reducible exact CHC.connectBlocks_counts _ _ _
    | with_reducible apply Visitor.Counts.counts_bind
    | with_reducible exact Visitor.Counts.counts_solAssert _ _
    | with_reducible exact Visitor.Counts.counts_pure_any _
    | with_reducible exact Visitor.Counts.counts_read_any _
    | with_reducible exact Visitor.Counts.counts_deref_any _ _
    | with_reducible exact Visitor.Counts.counts_update_frame _ (fun _ => ⟨rfl, rfl, rfl⟩)
    | (refine Visitor.Counts.counts_update_errorPredicate _ ?_; assumption)
    | with_reducible apply Visitor.Counts.counts_forEach
    | intro _
    | split
    | (show Visitor.Counts _ (fun _ => True); split)
    | dsimp only)

theorem CHC.error_counts :
    Visitor.Counts CHC.error (fun _ => True) := by
  unfold CHC.error
  repeat' (first
    | with_reducible exact CHC.createErrorBlock_counts
    | with_reducible exact CHC.query_counts _ _
    | with_reducible exact CHC.reset_counts
    | with_reducible exact SMTEncoder.defineExpr_counts _ _
    | with_reducible exact SMTEncoder.assignment_counts _ _
    | with_reducible exact CHC.connectBlocks_counts _ _ _
    | with_reducible apply Visitor.Counts.counts_bind
    | with_reducible exact Visitor.Counts.counts_solAssert _ _
    | with_reducible exact Visitor.Counts.counts_pure_any _
    | with_reducible exact Visitor.Counts.counts_read_any _
    | with_reducible exact Visitor.Counts.counts_deref_any _ _
    | with_reducible exact Visitor.Counts.counts_update_frame _ (fun _ => ⟨rfl, rfl, rfl⟩)
    | (refine Visitor.Counts.counts_update_errorPredicate _ ?_; assumption)
    | with_reducible apply Visitor.Counts.counts_forEach
    | intro _
    | split
    | (show Visitor.Counts _ (fun _ => True); split)
    | dsimp only)

theorem CHC.summary_counts (f : FunctionDefinition) :
    Visitor.Counts (CHC.summary f) (fun _ => True) := by
  unfold CHC.summary
  repeat' (first
    | with_reducible exact CHC.initialStateVariables_counts
    | with_reducible exact CHC.currentStateVariables_counts
    | with_reducible exact CHC.createErrorBlock_counts
    | with_reducible exact CHC.query_counts _ _
    | with_reducible exact CHC.reset_counts
    | with_reducible exact SMTEncoder.defineExpr_counts _ _
    | with_reducible exact SMTEncoder.assignment_counts _ _
    | with_reducible exact CHC.connectBlocks_counts _ _ _
    | with_reducible apply Visitor.Counts.counts_bind
    | with_reducible exact Visitor.Counts.counts_solAssert _ _
    | with_reducible exact Visitor.Counts.counts_pure_any _
    | with_reducible exact Visitor.Counts.counts_read_any _
    | with_reducible exact Visitor.Counts.counts_deref_any _ _
    | with_reducible exact Visitor.Counts.counts_update_frame _ (fun _ => ⟨rfl, rfl, rfl⟩)
    | (refine Visitor.Counts.counts_update_errorPredicate _ ?_; assumption)
    | with_reducible apply Visitor.Counts.counts_forEach
    | intro _
    | split
    | (show Visitor.Counts _ (fun _ => True); split)
    | dsimp only)

theorem CHC.interfaceSort_counts :
    Visitor.Counts CHC.interfaceSort (fun _ => True) := by
  unfold CHC.interfaceSort
  repeat' (first
    | with_reducible exact CHC.createErrorBlock_counts
    | with_reducible exact CHC.query_counts _ _
    | with_reducible exact CHC.reset_counts
    | with_reducible exact SMTEncoder.defineExpr_counts _ _
    | with_reducible exact SMTEncoder.assignment_counts _ _
    | with_reducible exact CHC.connectBlocks_counts _ _ _
    | with_reducible apply Visitor.Counts.counts_bind
    | with_reducible exact Visitor.Counts.counts_solAssert _ _
    | with_reducible exact Visitor.Counts.counts_pure_any _
    | with_reducible exact Visitor.Counts.counts_read_any _
    | with_reducible exact Visitor.Counts.counts_deref_any _ _
    | with_reducible exact Visitor.Counts.counts_update_frame _ (fun _ => ⟨rfl, rfl, rfl⟩)
    | (refine Visitor.Counts.counts_update_errorPredicate _ ?_; assumption)
    | with_reducible apply Visitor.Counts.counts_forEach
    | intro _
    | split
    | (show Visitor.Counts _ (fun _ => True); split)
    | dsimp only)

theorem CHC.constructorSort_counts :
    Visitor.Counts CHC.constructorSort (fun _ => True) := by
  unfold CHC.constructorSort
  repeat' (first
    | with_reducible exact CHC.interfaceSort_counts
    | with_reducible exact CHC.createErrorBlock_counts
    | with_reducible exact CHC.query_counts _ _
    | with_reducible exact CHC.reset_counts
    | with_reducible exact SMTEncoder.defineExpr_counts _ _
    | with_reducible exact SMTEncoder.assignment_counts _ _
    | with_reducible exact CHC.connectBlocks_counts _ _ _
    | with_reducible apply Visitor.Counts.counts_bind
    | with_reducible exact Visitor.Counts.counts_solAssert _ _
    | with_reducible exact Visitor.Counts.counts_pure_any _
    | with_reducible exact Visitor.Counts.counts_read_any _
    | with_reducible exact Visitor.Counts.counts_deref_any _ _
    | with_reducible exact Visitor.Counts.counts_update_frame _ (fun _ => ⟨rfl, rfl, rfl⟩)
    | (refine Visitor.Counts.counts_update_errorPredicate _ ?_; assumption)
    | with_reducible apply Visitor.Counts.counts_forEach
    | intro _
    | split
    | (show Visitor.Counts _ (fun _ => True); split)
    | dsimp only)

theorem CHC.clearIndices_counts (c : Option ContractDefinition) (f : Option FunctionDefinition) :
    Visitor.Counts (CHC.clearIndices c f) (fun _ => True) := by
  unfold CHC.clearIndices
  repeat' (first
    | with_reducible exact SMTEncoder.baseClearIndices_counts _ _
    | with_reducible exact CHC.createErrorBlock_counts
    | with_reducible exact CHC.query_counts _ _
    | with_reducible exact CHC.reset_counts
    | with_reducible exact SMTEncoder.defineExpr_counts _ _
    | with_reducible exact SMTEncoder.assignment_counts _ _
    | with_reducible exact CHC.connectBlocks_counts _ _ _
    | with_reducible apply Visitor.Counts.counts_bind
    | with_reducible exact Visitor.Counts.counts_solAssert _ _
    | with_reducible exact Visitor.Counts.counts_pure_any _
    | with_reducible exact Visitor.Counts.counts_read_any _
    | with_reducible exact Visitor.Counts.counts_deref_any _ _
    | with_reducible exact Visitor.Counts.counts_update_frame _ (fun _ => ⟨rfl, rfl, rfl⟩)
    | (refine Visitor.Counts.counts_update_errorPredicate _ ?_; assumption)
    | with_reducible apply Visitor.Counts.counts_forEach
    | intro _
    | split
    | (show Visitor.Counts _ (fun _ => True); split)
    | dsimp only)

theorem CHC.setCurrentBlock_counts (block : smt.SymbolicFunctionVariable)
    (arguments : Option (List smt.Expression)) :
    Visitor.Counts (CHC.setCurrentBlock block arguments) (fun _ => True) := by
  unfold CHC.setCurrentBlock
  repeat' (first
    | with_reducible exact CHC.clearIndices_counts _ _
    | with_reducible exact CHC.predicate_counts _
    | with_reducible exact CHC.predicateWith_counts _ _
    | with_reducible exact CHC.createErrorBlock_counts
    | with_reducible exact CHC.query_counts _ _
    | with_reducible exact CHC.reset_counts
    | with_reducible exact SMTEncoder.defineExpr_counts _ _
    | with_reducible exact SMTEncoder.assignment_counts _ _
    | with_reducible exact CHC.connectBlocks_counts _ _ _
    | with_reducible apply Visitor.Counts.counts_bind
    | with_reducible exact Visitor.Counts.counts_solAssert _ _
    | with_reducible exact Visitor.Counts.counts_pure_any _
    | with_reducible exact Visitor.Counts.counts_read_any _
    | with_reducible exact Visitor.Counts.counts_deref_any _ _
    | with_reducible exact Visitor.Counts.counts_update_frame _ (fun _ => ⟨rfl, rfl, rfl⟩)
    | (refine Visitor.Counts.counts_update_errorPredicate _ ?_; assumption)
    | with_reducible apply Visitor.Counts.counts_forEach
    | intro _
    | split
    | (show Visitor.Counts _ (fun _ => True); split)
    | dsimp only)

theorem CHC.eraseKnowledge_counts :
    Visitor.Counts CHC.eraseKnowledge (fun _ => True) := by
  unfold CHC.eraseKnowledge
  repeat' (first
    | with_reducible exact SMTEncoder.resetStateVariables_counts
    | with_reducible exact CHC.createErrorBlock_counts
    | with_reducible exact CHC.query_counts _ _
    | with_reducible exact CHC.reset_counts
    | with_reducible exact SMTEncoder.defineExpr_counts _ _
    | with_reducible exact SMTEncoder.assignment_counts _ _
    | with_reducible exact CHC.connectBlocks_counts _ _ _
    | with_reducible apply Visitor.Counts.counts_bind
    | with_reducible exact Visitor.Counts.counts_solAssert _ _
    | with_reducible exact Visitor.Counts.counts_pure_any _
    | with_reducible exact Visitor.Counts.counts_read_any _
    | with_reducible exact Visitor.Counts.counts_deref_any _ _
    | with_reducible exact Visitor.Counts.counts_update_frame _ (fun _ => ⟨rfl, rfl, rfl⟩)
    | (refine Visitor.Counts.counts_update_errorPredicate _ ?_; assumption)
    | with_reducible apply Visitor.Counts.counts_forEach
    | intro _
    | split
    | (show Visitor.Counts _ (fun _ => True); split)
    | dsimp only)

theorem SMTEncoder.initContract_counts (c : ContractDefinition) :
    Visitor.Counts (SMTEncoder.initContract c) (fun _ => True) := by
  unfold SMTEncoder.initContract
  repeat' (first
    | with_reducible exact SMTEncoder.createVariable_counts _
    | with_reducible exact CHC.clearIndices_counts _ _
    | with_reducible exact CHC.createErrorBlock_counts
    | with_reducible exact CHC.query_counts _ _
    | with_reducible exact CHC.reset_counts
    | with_reducible exact SMTEncoder.defineExpr_counts _ _
    | with_reducible exact SMTEncoder.assignment_counts _ _
    | with_reducible exact CHC.connectBlocks_counts _ _ _
    | with_reducible apply Visitor.Counts.counts_bind
    | with_reducible exact Visitor.Counts.counts_solAssert _ _
    | with_reducible exact Visitor.Counts.counts_pure_any _
    | with_reducible exact Visitor.Counts.counts_read_any _
    | with_reducible exact Visitor.Counts.counts_deref_any _ _
    | with_reducible exact Visitor.Counts.counts_update_frame _ (fun _ => ⟨rfl, rfl, rfl⟩)
    | (refine Visitor.Counts.counts_update_errorPredicate _ ?_; assumption)
    | with_reducible apply Visitor.Counts.counts_forEach
    | intro _
    | split
    | (show Visitor.Counts _ (fun _ => True); split)
    | dsimp only)

theorem SMTEncoder.initFunction_counts (f : FunctionDefinition) :
    Visitor.Counts (SMTEncoder.initFunction f) (fun _ => True) := by
  unfold SMTEncoder.initFunction
  repeat' (first
    | with_reducible exact SMTEncoder.createVariable_counts _
    | with_reducible exact CHC.clearIndices_counts _ _
    | with_reducible exact CHC.createErrorBlock_counts
    | with_reducible exact CHC.query_counts _ _
    | with_reducible exact CHC.reset_counts
    | with_reducible exact SMTEncoder.defineExpr_counts _ _
    | with_reducible exact SMTEncoder.assignment_counts _ _
    | with_reducible exact CHC.connectBlocks_counts _ _ _
    | with_reducible apply Visitor.Counts.counts_bind
    | with_reducible exact Visitor.Counts.counts_solAssert _ _
    | with_reducible exact Visitor.Counts.counts_pure_any _
    | with_reducible exact Visitor.Counts.counts_read_any _
    | with_reducible exact Visitor.Counts.counts_deref_any _ _
    | with_reducible exact Visitor.Counts.counts_update_frame _ (fun _ => ⟨rfl, rfl, rfl⟩)
    | (refine Visitor.Counts.counts_update_errorPredicate _ ?_; assumption)
    | with_reducible apply Visitor.Counts.counts_forEach
    | intro _
    | split
    | (show Visitor.Counts _ (fun _ => True); split)
    | dsimp only)

theorem CHC.predicateCall_counts (c : Expression) :
    Visitor.Counts (CHC.predicateCall c) (fun _ => True) := by
  unfold CHC.predicateCall
  repeat' (first
    | with_reducible exact SMTEncoder.createVariable_counts _
    | with_reducible exact CHC.initialStateVariables_counts
    | with_reducible exact CHC.currentStateVariables_counts
    | with_reducible exact CHC.createErrorBlock_counts
    | with_reducible exact CHC.query_counts _ _
    | with_reducible exact CHC.reset_counts
    | with_reducible exact SMTEncoder.defineExpr_counts _ _
    | with_reducible exact SMTEncoder.assignment_counts _ _
    | with_reducible exact CHC.connectBlocks_counts _ _ _
    | with_reducible apply Visitor.Counts.counts_bind
    | with_reducible exact Visitor.Counts.counts_solAssert _ _
    | with_reducible exact Visitor.Counts.counts_pure_any _
    | with_reducible exact Visitor.Counts.counts_read_any _
    | with_reducible exact Visitor.Counts.counts_deref_any _ _
    | with_reducible exact Visitor.Counts.counts_update_frame _ (fun _ => ⟨rfl, rfl, rfl⟩)
    | (refine Visitor.Counts.counts_update_errorPredicate _ ?_; assumption)
    | with_reducible apply Visitor.Counts.counts_forEach
    | intro _
    | split
    | (show Visitor.Counts _ (fun _ => True); split)
    | dsimp only)

theorem CHC.visitAssert_counts (c : Expression) :
    Visitor.Counts (CHC.visitAssert c) (fun _ => True) := by
  unfold CHC.visitAssert
  repeat' (first
    | with_reducible exact CHC.createBlock_counts _ _
    | with_reducible exact CHC.setCurrentBlock_counts _ _
    | with_reducible exact CHC.predicate_counts _
    | with_reducible exact CHC.summary_counts _
    | with_reducible exact CHC.eraseKnowledge_counts
    | with_reducible exact SMTEncoder.currentPathConditions_counts
    | with_reducible exact SMTEncoder.expr_counts _
    | with_reducible exact CHC.createErrorBlock_counts
    | with_reducible exact CHC.query_counts _ _
    | with_reducible exact CHC.reset_counts
    | with_reducible exact SMTEncoder.defineExpr_counts _ _
    | with_reducible exact SMTEncoder.assignment_counts _ _
    | with_reducible exact CHC.connectBlocks_counts _ _ _
    | with_reducible apply Visitor.Counts.counts_bind
    | with_reducible exact Visitor.Counts.counts_solAssert _ _
    | with_reducible exact Visitor.Counts.counts_pure_any _
    | with_reducible exact Visitor.Counts.counts_read_any _
    | with_reducible exact Visitor.Counts.counts_deref_any _ _
    | with_reducible exact Visitor.Counts.counts_update_frame _ (fun _ => ⟨rfl, rfl, rfl⟩)
    | (refine Visitor.Counts.counts_update_errorPredicate _ ?_; assumption)
    | with_reducible apply Visitor.Counts.counts_forEach
    | intro _
    | split
    | (show Visitor.Counts _ (fun _ => True); split)
    | dsimp only)

theorem CHC.internalFunctionCall_counts (c : Expression) :
    Visitor.Counts (CHC.internalFunctionCall c) (fun _ => True) := by
  unfold CHC.internalFunctionCall
  repeat' (first
    | with_reducible exact CHC.predicateCall_counts _
    | with_reducible exact CHC.createBlock_counts _ _
    | with_reducible exact CHC.setCurrentBlock_counts _ _
    | with_reducible exact CHC.predicate_counts _
    | with_reducible exact CHC.summary_counts _
    | with_reducible exact CHC.eraseKnowledge_counts
    | with_reducible exact SMTEncoder.currentPathConditions_counts
    | with_reducible exact SMTEncoder.expr_counts _
    | with_reducible exact CHC.createErrorBlock_counts
    | with_reducible exact CHC.query_counts _ _
    | with_reducible exact CHC.reset_counts
    | with_reducible exact SMTEncoder.defineExpr_counts _ _
    | with_reducible exact SMTEncoder.assignment_counts _ _
    | with_reducible exact CHC.connectBlocks_counts _ _ _
    | with_reducible apply Visitor.Counts.counts_bind
    | with_reducible exact Visitor.Counts.counts_solAssert _ _
    | with_reducible exact Visitor.Counts.counts_pure_any _
    | with_reducible exact Visitor.Counts.counts_read_any _
    | with_reducible exact Visitor.Counts.counts_deref_any _ _
    | with_reducible exact Visitor.Counts.counts_update_frame _ (fun _ => ⟨rfl, rfl, rfl⟩)
    | (refine Visitor.Counts.counts_update_errorPredicate _ ?_; assumption)
    | with_reducible apply Visitor.Counts.counts_forEach
    | intro _
    | split
    | (show Visitor.Counts _ (fun _ => True); split)
    | dsimp only)

theorem CHC.unknownFunctionCall_counts (c : Expression) :
    Visitor.Counts (CHC.unknownFunctionCall c) (fun _ => True) := by
  unfold CHC.unknownFunctionCall
  repeat' (first
    | with_reducible exact CHC.createBlock_counts _ _
    | with_reducible exact CHC.setCurrentBlock_counts _ _
    | with_reducible exact CHC.predicate_counts _
    | with_reducible exact CHC.summary_counts _
    | with_reducible exact CHC.eraseKnowledge_counts
    | with_reducible exact SMTEncoder.currentPathConditions_counts
    | with_reducible exact SMTEncoder.expr_counts _
    | with_reducible exact CHC.createErrorBlock_counts
    | with_reducible exact CHC.query_counts _ _
    | with_reducible exact CHC.reset_counts
    | with_reducible exact SMTEncoder.defineExpr_counts _ _
    | with_reducible exact SMTEncoder.assignment_counts _ _
    | with_reducible exact CHC.connectBlocks_counts _ _ _
    | with_reducible apply Visitor.Counts.counts_bind
    | with_reducible exact Visitor.Counts.counts_solAssert _ _
    | with_reducible exact Visitor.Counts.counts_pure_any _
    | with_reducible exact Visitor.Counts.counts_read_any _
    | with_reducible exact Visitor.Counts.counts_deref_any _ _
    | with_reducible exact Visitor.Counts.counts_update_frame _ (fun _ => ⟨rfl, rfl, rfl⟩)
    | (refine Visitor.Counts.counts_update_errorPredicate _ ?_; assumption)
    | with_reducible apply Visitor.Counts.counts_forEach
    | intro _
    | split
    | (show Visitor.Counts _ (fun _ => True); split)
    | dsimp only)

set_option maxHeartbeats 4000000 in
theorem CHC.endVisitFunctionCall_counts (c : Expression) :
    Visitor.Counts (CHC.endVisitFunctionCall c) (fun _ => True) := by
  unfold CHC.endVisitFunctionCall
  generalize c.functionKind = fk
  cases fk <;>
  repeat' (first
    | with_reducible exact CHC.visitAssert_counts _
    | with_reducible exact CHC.internalFunctionCall_counts _
    | with_reducible exact CHC.unknownFunctionCall_counts _
    | with_reducible exact SMTEncoder.baseEndVisitFunctionCall_counts _
    | with_reducible exact SMTEncoder.createReturnedExpressions_counts _
    | with_reducible exact CHC.createErrorBlock_counts
    | with_reducible exact CHC.query_counts _ _
    | with_reducible exact CHC.reset_counts
    | with_reducible exact SMTEncoder.defineExpr_counts _ _
    | with_reducible exact SMTEncoder.assignment_counts _ _
    | with_reducible exact CHC.connectBlocks_counts _ _ _
    | with_reducible apply Visitor.Counts.counts_bind
    | with_reducible exact Visitor.Counts.counts_solAssert _ _
    | with_reducible exact Visitor.Counts.counts_pure_any _
    | with_reducible exact Visitor.Counts.counts_read_any _
    | with_reducible exact Visitor.Counts.counts_deref_any _ _
    | with_reducible exact Visitor.Counts.counts_update_frame _ (fun _ => ⟨rfl, rfl, rfl⟩)
    | (refine Visitor.Counts.counts_update_errorPredicate _ ?_; assumption)
    | with_reducible apply Visitor.Counts.counts_forEach
    | intro _
    | split
    | (show Visitor.Counts _ (fun _ => True); split)
    | dsimp only)

theorem CHC.endVisitBreak_counts (i : Nat) :
    Visitor.Counts (CHC.endVisitBreak i) (fun _ => True) := by
  unfold CHC.endVisitBreak
  repeat' (first
    | with_reducible exact CHC.createBlock_counts _ _
    | with_reducible exact CHC.setCurrentBlock_counts _ _
    | with_reducible exact CHC.predicate_counts _
    | with_reducible exact CHC.summary_counts _
    | with_reducible exact CHC.eraseKnowledge_counts
    | with_reducible exact SMTEncoder.currentPathConditions_counts
    | with_reducible exact SMTEncoder.expr_counts _
    | with_reducible exact CHC.createErrorBlock_counts
    | with_reducible exact CHC.query_counts _ _
    | with_reducible exact CHC.reset_counts
    | with_reducible exact SMTEncoder.defineExpr_counts _ _
    | with_reducible exact SMTEncoder.assignment_counts _ _
    | with_reducible exact CHC.connectBlocks_counts _ _ _
    | with_reducible apply Visitor.Counts.counts_bind
    | with_reducible exact Visitor.Counts.counts_solAssert _ _
    | with_reducible exact Visitor.Counts.counts_pure_any _
    | with_reducible exact Visitor.Counts.counts_read_any _
    | with_reducible exact Visitor.Counts.counts_deref_any _ _
    | with_reducible exact Visitor.Counts.counts_update_frame _ (fun _ => ⟨rfl, rfl, rfl⟩)
    | (refine Visitor.Counts.counts_update_errorPredicate _ ?_; assumption)
    | with_reducible apply Visitor.Counts.counts_forEach
    | intro _
    | split
    | (show Visitor.Counts _ (fun _ => True); split)
    | dsimp only)

theorem CHC.endVisitContinue_counts (i : Nat) :
    Visitor.Counts (CHC.endVisitContinue i) (fun _ => True) := by
  unfold CHC.endVisitContinue
  repeat' (first
    | with_reducible exact CHC.createBlock_counts _ _
    | with_reducible exact CHC.setCurrentBlock_counts _ _
    | with_reducible exact CHC.predicate_counts _
    | with_reducible exact CHC.summary_counts _
    | with_reducible exact CHC.eraseKnowledge_counts
    | with_reducible exact SMTEncoder.currentPathConditions_counts
    | with_reducible exact SMTEncoder.expr_counts _
    | with_reducible exact CHC.createErrorBlock_counts
    | with_reducible exact CHC.query_counts _ _
    | with_reducible exact CHC.reset_counts
    | with_reducible exact SMTEncoder.defineExpr_counts _ _
    | with_reducible exact SMTEncoder.assignment_counts _ _
    | with_reducible exact CHC.connectBlocks_counts _ _ _
    | with_reducible apply Visitor.Counts.counts_bind
    | with_reducible exact Visitor.Counts.counts_solAssert _ _
    | with_reducible exact Visitor.Counts.counts_pure_any _
    | with_reducible exact Visitor.Counts.counts_read_any _
    | with_reducible exact Visitor.Counts.counts_deref_any _ _
    | with_reducible exact Visitor.Counts.counts_update_frame _ (fun _ => ⟨rfl, rfl, rfl⟩)
    | (refine Visitor.Counts.counts_update_errorPredicate _ ?_; assumption)
    | with_reducible apply Visitor.Counts.counts_forEach
    | intro _
    | split
    | (show Visitor.Counts _ (fun _ => True); split)
    | dsimp only)

mutual
theorem Expression.acceptExpression_counts :
    ∀ e : Expression, Visitor.Counts (e.accept) (fun _ => True)
  | .Literal i category value => by
    rw [Expression.accept]
    repeat' (first
      | with_reducible exact CHC.endVisitFunctionCall_counts _
      | with_reducible exact SMTEncoder.expr_counts _
      | with_reducible exact SMTEncoder.currentValue_counts _
      | with_reducible exact CHC.createErrorBlock_counts
      | with_reducible exact CHC.query_counts _ _
      | with_reducible exact CHC.reset_counts
      | with_reducible exact SMTEncoder.defineExpr_counts _ _
      | with_reducible exact SMTEncoder.assignment_counts _ _
      | with_reducible exact CHC.connectBlocks_counts _ _ _
      | with_reducible apply Visitor.Counts.counts_bind
      | with_reducible exact Visitor.Counts.counts_solAssert _ _
      | with_reducible exact Visitor.Counts.counts_pure_any _
      | with_reducible exact Visitor.Counts.counts_read_any _
      | with_reducible exact Visitor.Counts.counts_deref_any _ _
      | with_reducible exact Visitor.Counts.counts_update_frame _ (fun _ => ⟨rfl, rfl, rfl⟩)
      | (refine Visitor.Counts.counts_update_errorPredicate _ ?_; assumption)
      | with_reducible apply Visitor.Counts.counts_forEach
      | intro _
      | split
      | (show Visitor.Counts _ (fun _ => True); split)
      | dsimp only)
  | .Identifier i category decl => by
    rw [Expression.accept]
    repeat' (first
      | with_reducible exact CHC.endVisitFunctionCall_counts _
      | with_reducible exact SMTEncoder.expr_counts _
      | with_reducible exact SMTEncoder.currentValue_counts _
      | with_reducible exact CHC.createErrorBlock_counts
      | with_reducible exact CHC.query_counts _ _
      | with_reducible exact CHC.reset_counts
      | with_reducible exact SMTEncoder.defineExpr_counts _ _
      | with_reducible exact SMTEncoder.assignment_counts _ _
      | with_reducible exact CHC.connectBlocks_counts _ _ _
      | with_reducible apply Visitor.Counts.counts_bind
      | with_reducible exact Visitor.Counts.counts_solAssert _ _
      | with_reducible exact Visitor.Counts.counts_pure_any _
      | with_reducible exact Visitor.Counts.counts_read_any _
      | with_reducible exact Visitor.Counts.counts_deref_any _ _
      | with_reducible exact Visitor.Counts.counts_update_frame _ (fun _ => ⟨rfl, rfl, rfl⟩)
      | (refine Visitor.Counts.counts_update_errorPredicate _ ?_; assumption)
      | with_reducible apply Visitor.Counts.counts_forEach
      | intro _
      | split
      | (show Visitor.Counts _ (fun _ => True); split)
      | dsimp only)
  | .Assignment i category lhs rhs => by
    rw [Expression.accept]
    repeat' (first
      | with_reducible exact Expression.acceptExpression_counts rhs
      | with_reducible exact CHC.endVisitFunctionCall_counts _
      | with_reducible exact SMTEncoder.expr_counts _
      | with_reducible exact SMTEncoder.currentValue_counts _
      | with_reducible exact CHC.createErrorBlock_counts
      | with_reducible exact CHC.query_counts _ _
      | with_reducible exact CHC.reset_counts
      | with_reducible exact SMTEncoder.defineExpr_counts _ _
      | with_reducible exact SMTEncoder.assignment_counts _ _
      | with_reducible exact CHC.connectBlocks_counts _ _ _
      | with_reducible apply Visitor.Counts.counts_bind
      | with_reducible exact Visitor.Counts.counts_solAssert _ _
      | with_reducible exact Visitor.Counts.counts_pure_any _
      | with_reducible exact Visitor.Counts.counts_read_any _
      | with_reducible exact Visitor.Counts.counts_deref_any _ _
      | with_reducible exact Visitor.Counts.counts_update_frame _ (fun _ => ⟨rfl, rfl, rfl⟩)
      | (refine Visitor.Counts.counts_update_errorPredicate _ ?_; assumption)
      | with_reducible apply Visitor.Counts.counts_forEach
      | intro _
      | split
      | (show Visitor.Counts _ (fun _ => True); split)
      | dsimp only)
  | .UnaryOperation i category operator sub => by
    rw [Expression.accept]
    repeat' (first
      | with_reducible exact Expression.acceptExpression_counts sub
      | with_reducible exact CHC.endVisitFunctionCall_counts _
      | with_reducible exact SMTEncoder.expr_counts _
      | with_reducible exact SMTEncoder.currentValue_counts _
      | with_reducible exact CHC.createErrorBlock_counts
      | with_reducible exact CHC.query_counts _ _
      | with_reducible exact CHC.reset_counts
      | with_reducible exact SMTEncoder.defineExpr_counts _ _
      | with_reducible exact SMTEncoder.assignment_counts _ _
      | with_reducible exact CHC.connectBlocks_counts _ _ _
      | with_reducible apply Visitor.Counts.counts_bind
      | with_reducible exact Visitor.Counts.counts_solAssert _ _
      | with_reducible exact Visitor.Counts.counts_pure_any _
      | with_reducible exact Visitor.Counts.counts_read_any _
      | with_reducible exact Visitor.Counts.counts_deref_any _ _
      | with_reducible exact Visitor.Counts.counts_update_frame _ (fun _ => ⟨rfl, rfl, rfl⟩)
      | (refine Visitor.Counts.counts_update_errorPredicate _ ?_; assumption)
      | with_reducible apply Visitor.Counts.counts_forEach
      | intro _
      | split
      | (show Visitor.Counts _ (fun _ => True); split)
      | dsimp only)
  | .BinaryOperation i category operator left right => by
    rw [Expression.accept]
    repeat' (first
      | with_reducible exact Expression.acceptExpression_counts left
      | with_reducible exact Expression.acceptExpression_counts right
      | with_reducible exact CHC.endVisitFunctionCall_counts _
      | with_reducible exact SMTEncoder.expr_counts _
      | with_reducible exact SMTEncoder.currentValue_counts _
      | with_reducible exact CHC.createErrorBlock_counts
      | with_reducible exact CHC.query_counts _ _
      | with_reducible exact CHC.reset_counts
      | with_reducible exact SMTEncoder.defineExpr_counts _ _
      | with_reducible exact SMTEncoder.assignment_counts _ _
      | with_reducible exact CHC.connectBlocks_counts _ _ _
      | with_reducible apply Visitor.Counts.counts_bind
      | with_reducible exact Visitor.Counts.counts_solAssert _ _
      | with_reducible exact Visitor.Counts.counts_pure_any _
      | with_reducible exact Visitor.Counts.counts_read_any _
      | with_reducible exact Visitor.Counts.counts_deref_any _ _
      | with_reducible exact Visitor.Counts.counts_update_frame _ (fun _ => ⟨rfl, rfl, rfl⟩)
      | (refine Visitor.Counts.counts_update_errorPredicate _ ?_; assumption)
      | with_reducible apply Visitor.Counts.counts_forEach
      | intro _
      | split
      | (show Visitor.Counts _ (fun _ => True); split)
      | dsimp only)
  | .FunctionCall i category location kind functionKind callee arguments => by
    rw [Expression.accept]
    repeat' (first
      | with_reducible exact Expression.acceptExpressions_counts arguments
      | with_reducible exact CHC.endVisitFunctionCall_counts _
      | with_reducible exact SMTEncoder.expr_counts _
      | with_reducible exact SMTEncoder.currentValue_counts _
      | with_reducible exact CHC.createErrorBlock_counts
      | with_reducible exact CHC.query_counts _ _
      | with_reducible exact CHC.reset_counts
      | with_reducible exact SMTEncoder.defineExpr_counts _ _
      | with_reducible exact SMTEncoder.assignment_counts _ _
      | with_reducible exact CHC.connectBlocks_counts _ _ _
      | with_reducible apply Visitor.Counts.counts_bind
      | with_reducible exact Visitor.Counts.counts_solAssert _ _
      | with_reducible exact Visitor.Counts.counts_pure_any _
      | with_reducible exact Visitor.Counts.counts_read_any _
      | with_reducible exact Visitor.Counts.counts_deref_any _ _
      | with_reducible exact Visitor.Counts.counts_update_frame _ (fun _ => ⟨rfl, rfl, rfl⟩)
      | (refine Visitor.Counts.counts_update_errorPredicate _ ?_; assumption)
      | with_reducible apply Visitor.Counts.counts_forEach
      | intro _
      | split
      | (show Visitor.Counts _ (fun _ => True); split)
      | dsimp only)
theorem Expression.acceptExpressions_counts :
    ∀ l : List Expression, Visitor.Counts (Expression.acceptAll l) (fun _ => True)
  | [] => by
    rw [Expression.acceptAll]
    exact Visitor.Counts.counts_pure_any _
  | e :: rest => by
    rw [Expression.acceptAll]
    exact Visitor.Counts.counts_then (Expression.acceptExpression_counts e)
      (fun _ => Expression.acceptExpressions_counts rest)
end

theorem CHC.forCondition_counts (condition : Option Expression) :
    Visitor.Counts
      (match condition with
        | some forCondition => do
          forCondition.accept
          SMTEncoder.expr forCondition
        | none => pure (smt.Expression.boolLit true)) (fun _ => True) := by
  cases condition with
  | none => exact Visitor.Counts.counts_pure_any _
  | some c =>
    exact Visitor.Counts.counts_then (Expression.acceptExpression_counts _)
      (fun _ => SMTEncoder.expr_counts _)

set_option maxHeartbeats 4000000 in
theorem CHC.visitIfStatement_counts (i : Nat) (condition : Expression)
    (trueStatement : Nat × Visitor Unit) (falseStatement : Option (Nat × Visitor Unit))
    (hTrue : Visitor.Counts trueStatement.2 (fun _ => True))
    (h : ∀ st, falseStatement = some st → Visitor.Counts st.2 (fun _ => True)) :
    Visitor.Counts (CHC.visitIfStatement i condition trueStatement falseStatement) (fun _ => True) := by
  unfold CHC.visitIfStatement
  repeat' (first
    | with_reducible exact CHC.createBlock_counts _ _
    | with_reducible exact CHC.setCurrentBlock_counts _ _
    | with_reducible exact CHC.predicate_counts _
    | with_reducible exact CHC.summary_counts _
    | with_reducible exact CHC.eraseKnowledge_counts
    | with_reducible exact SMTEncoder.currentPathConditions_counts
    | with_reducible exact SMTEncoder.expr_counts _
    | with_reducible exact CHC.createOptionalBlock_counts _ _
    | with_reducible exact CHC.forCondition_counts _
    | with_reducible exact Expression.acceptExpression_counts _
    | with_reducible exact hTrue
    | with_reducible exact hBody
    | with_reducible exact h _ rfl
    | with_reducible exact h _ ‹_›
    | with_reducible exact hInit _ rfl
    | with_reducible exact hInit _ ‹_›
    | with_reducible exact CHC.createErrorBlock_counts
    | with_reducible exact CHC.query_counts _ _
    | with_reducible exact CHC.reset_counts
    | with_reducible exact SMTEncoder.defineExpr_counts _ _
    | with_reducible exact SMTEncoder.assignment_counts _ _
    | with_reducible exact CHC.connectBlocks_counts _ _ _
    | with_reducible apply Visitor.Counts.counts_bind
    | with_reducible exact Visitor.Counts.counts_solAssert _ _
    | with_reducible exact Visitor.Counts.counts_pure_any _
    | with_reducible exact Visitor.Counts.counts_read_any _
    | with_reducible exact Visitor.Counts.counts_deref_any _ _
    | with_reducible exact Visitor.Counts.counts_update_frame _ (fun _ => ⟨rfl, rfl, rfl⟩)
    | (refine Visitor.Counts.counts_update_errorPredicate _ ?_; assumption)
    | with_reducible apply Visitor.Counts.counts_forEach
    | intro _
    | split
    | (show Visitor.Counts _ (fun _ => True); split)
    | dsimp only)

set_option maxHeartbeats 4000000 in
theorem CHC.visitWhileStatement_counts (i : Nat) (isDoWhile : Bool) (condition : Expression)
    (body : Nat × Visitor Unit) (hBody : Visitor.Counts body.2 (fun _ => True)) :
    Visitor.Counts (CHC.visitWhileStatement i isDoWhile condition body) (fun _ => True) := by
  unfold CHC.visitWhileStatement
  cases isDoWhile <;>
  repeat' (first
    | with_reducible exact CHC.createBlock_counts _ _
    | with_reducible exact CHC.setCurrentBlock_counts _ _
    | with_reducible exact CHC.predicate_counts _
    | with_reducible exact CHC.summary_counts _
    | with_reducible exact CHC.eraseKnowledge_counts
    | with_reducible exact SMTEncoder.currentPathConditions_counts
    | with_reducible exact SMTEncoder.expr_counts _
    | with_reducible exact CHC.createOptionalBlock_counts _ _
    | with_reducible exact CHC.forCondition_counts _
    | with_reducible exact Expression.acceptExpression_counts _
    | with_reducible exact hTrue
    | with_reducible exact hBody
    | with_reducible exact h _ rfl
    | with_reducible exact h _ ‹_›
    | with_reducible exact hInit _ rfl
    | with_reducible exact hInit _ ‹_›
    | with_reducible exact CHC.createErrorBlock_counts
    | with_reducible exact CHC.query_counts _ _
    | with_reducible exact CHC.reset_counts
    | with_reducible exact SMTEncoder.defineExpr_counts _ _
    | with_reducible exact SMTEncoder.assignment_counts _ _
    | with_reducible exact CHC.connectBlocks_counts _ _ _
    | with_reducible apply Visitor.Counts.counts_bind
    | with_reducible exact Visitor.Counts.counts_solAssert _ _
    | with_reducible exact Visitor.Counts.counts_pure_any _
    | with_reducible exact Visitor.Counts.counts_read_any _
    | with_reducible exact Visitor.Counts.counts_deref_any _ _
    | with_reducible exact Visitor.Counts.counts_update_frame _ (fun _ => ⟨rfl, rfl, rfl⟩)
    | (refine Visitor.Counts.counts_update_errorPredicate _ ?_; assumption)
    | with_reducible apply Visitor.Counts.counts_forEach
    | intro _
    | split
    | (show Visitor.Counts _ (fun _ => True); split)
    | dsimp only)

set_option maxHeartbeats 4000000 in
theorem CHC.visitForStatement_counts (i : Nat) (init : Option (Visitor Unit))
    (condition : Option Expression) (loopExpression : Option (Nat × Visitor Unit))
    (body : Nat × Visitor Unit)
    (hInit : ∀ m, init = some m → Visitor.Counts m (fun _ => True))
    (h : ∀ st, loopExpression = some st → Visitor.Counts st.2 (fun _ => True))
    (hBody : Visitor.Counts body.2 (fun _ => True)) :
    Visitor.Counts (CHC.visitForStatement i init condition loopExpression body) (fun _ => True) := by
  unfold CHC.visitForStatement
  repeat' (first
    | with_reducible exact CHC.createBlock_counts _ _
    | with_reducible exact CHC.setCurrentBlock_counts _ _
    | with_reducible exact CHC.predicate_counts _
    | with_reducible exact CHC.summary_counts _
    | with_reducible exact CHC.eraseKnowledge_counts
    | with_reducible exact SMTEncoder.currentPathConditions_counts
    | with_reducible exact SMTEncoder.expr_counts _
    | with_reducible exact CHC.createOptionalBlock_counts _ _
    | with_reducible exact CHC.forCondition_counts _
    | with_reducible exact Expression.acceptExpression_counts _
    | with_reducible exact hTrue
    | with_reducible exact hBody
    | with_reducible exact h _ rfl
    | with_reducible exact h _ ‹_›
    | with_reducible exact hInit _ rfl
    | with_reducible exact hInit _ ‹_›
    | with_reducible exact CHC.createErrorBlock_counts
    | with_reducible exact CHC.query_counts _ _
    | with_reducible exact CHC.reset_counts
    | with_reducible exact SMTEncoder.defineExpr_counts _ _
    | with_reducible exact SMTEncoder.assignment_counts _ _
    | with_reducible exact CHC.connectBlocks_counts _ _ _
    | with_reducible apply Visitor.Counts.counts_bind
    | with_reducible exact Visitor.Counts.counts_solAssert _ _
    | with_reducible exact Visitor.Counts.counts_pure_any _
    | with_reducible exact Visitor.Counts.counts_read_any _
    | with_reducible exact Visitor.Counts.counts_deref_any _ _
    | with_reducible exact Visitor.Counts.counts_update_frame _ (fun _ => ⟨rfl, rfl, rfl⟩)
    | (refine Visitor.Counts.counts_update_errorPredicate _ ?_; assumption)
    | with_reducible apply Visitor.Counts.counts_forEach
    | intro _
    | split
    | (show Visitor.Counts _ (fun _ => True); split)
    | dsimp only)

mutual
theorem Statement.acceptStatement_counts :
    ∀ st : Statement, Visitor.Counts (st.accept) (fun _ => True)
  | .Block i statements => by
    rw [Statement.accept]
    repeat' (first
      | exact Statement.acceptStatements_counts statements
      | apply Visitor.Counts.counts_bind
      | exact Visitor.Counts.counts_pure_any _
      | exact SMTEncoder.assignment_counts _ _
      | intro _
      | dsimp only)
  | .IfStatement i condition trueStatement none => by
    rw [Statement.accept]
    repeat' (first
      | exact CHC.visitIfStatement_counts _ _ _ _ (Statement.acceptStatement_counts trueStatement) (by intro st h; cases h)
      | apply Visitor.Counts.counts_bind
      | exact Visitor.Counts.counts_pure_any _
      | exact SMTEncoder.assignment_counts _ _
      | intro _
      | dsimp only)
  | .IfStatement i condition trueStatement (some falseStatement) => by
    rw [Statement.accept]
    repeat' (first
      | exact CHC.visitIfStatement_counts _ _ _ _ (Statement.acceptStatement_counts trueStatement) (by intro st h; cases h; exact Statement.acceptStatement_counts falseStatement)
      | apply Visitor.Counts.counts_bind
      | exact Visitor.Counts.counts_pure_any _
      | exact SMTEncoder.assignment_counts _ _
      | intro _
      | dsimp only)
  | .WhileStatement i condition body isDoWhile => by
    rw [Statement.accept]
    repeat' (first
      | exact CHC.visitWhileStatement_counts _ _ _ _ (Statement.acceptStatement_counts body)
      | apply Visitor.Counts.counts_bind
      | exact Visitor.Counts.counts_pure_any _
      | exact SMTEncoder.assignment_counts _ _
      | intro _
      | dsimp only)
  | .ForStatement i none condition none body => by
    rw [Statement.accept]
    repeat' (first
      | exact CHC.visitForStatement_counts _ _ _ _ _ (by intro m h; cases h) (by intro m h; cases h) (Statement.acceptStatement_counts body)
      | apply Visitor.Counts.counts_bind
      | exact Visitor.Counts.counts_pure_any _
      | exact SMTEncoder.assignment_counts _ _
      | intro _
      | dsimp only)
  | .ForStatement i none condition (some postLoop) body => by
    rw [Statement.accept]
    repeat' (first
      | exact CHC.visitForStatement_counts _ _ _ _ _ (by intro m h; cases h) (by intro m h; cases h; exact Statement.acceptStatement_counts postLoop) (Statement.acceptStatement_counts body)
      | apply Visitor.Counts.counts_bind
      | exact Visitor.Counts.counts_pure_any _
      | exact SMTEncoder.assignment_counts _ _
      | intro _
      | dsimp only)
  | .ForStatement i (some init) condition none body => by
    rw [Statement.accept]
    repeat' (first
      | exact CHC.visitForStatement_counts _ _ _ _ _ (by intro m h; cases h; exact Statement.acceptStatement_counts init) (by intro m h; cases h) (Statement.acceptStatement_counts body)
      | apply Visitor.Counts.counts_bind
      | exact Visitor.Counts.counts_pure_any _
      | exact SMTEncoder.assignment_counts _ _
      | intro _
      | dsimp only)
  | .ForStatement i (some init) condition (some postLoop) body => by
    rw [Statement.accept]
    repeat' (first
      | exact CHC.visitForStatement_counts _ _ _ _ _ (by intro m h; cases h; exact Statement.acceptStatement_counts init) (by intro m h; cases h; exact Statement.acceptStatement_counts postLoop) (Statement.acceptStatement_counts body)
      | apply Visitor.Counts.counts_bind
      | exact Visitor.Counts.counts_pure_any _
      | exact SMTEncoder.assignment_counts _ _
      | intro _
      | dsimp only)
  | .Break i => by
    rw [Statement.accept]
    repeat' (first
      | exact CHC.endVisitBreak_counts _
      | apply Visitor.Counts.counts_bind
      | exact Visitor.Counts.counts_pure_any _
      | exact SMTEncoder.assignment_counts _ _
      | intro _
      | dsimp only)
  | .Continue i => by
    rw [Statement.accept]
    repeat' (first
      | exact CHC.endVisitContinue_counts _
      | apply Visitor.Counts.counts_bind
      | exact Visitor.Counts.counts_pure_any _
      | exact SMTEncoder.assignment_counts _ _
      | intro _
      | dsimp only)
  | .ExpressionStatement i expression => by
    rw [Statement.accept]
    repeat' (first
      | exact Expression.acceptExpression_counts _
      | apply Visitor.Counts.counts_bind
      | exact Visitor.Counts.counts_pure_any _
      | exact SMTEncoder.assignment_counts _ _
      | intro _
      | dsimp only)
  | .VariableDeclarationStatement i declaration none => by
    rw [Statement.accept]
    repeat' (first
      | apply Visitor.Counts.counts_bind
      | exact Visitor.Counts.counts_pure_any _
      | exact SMTEncoder.assignment_counts _ _
      | intro _
      | dsimp only)
  | .VariableDeclarationStatement i declaration (some value) => by
    rw [Statement.accept]
    repeat' (first
      | exact Expression.acceptExpression_counts _
      | exact SMTEncoder.expr_counts _
      | apply Visitor.Counts.counts_bind
      | exact Visitor.Counts.counts_pure_any _
      | exact SMTEncoder.assignment_counts _ _
      | intro _
      | dsimp only)
theorem Statement.acceptStatements_counts :
    ∀ l : List Statement, Visitor.Counts (Statement.acceptAll l) (fun _ => True)
  | [] => by
    rw [Statement.acceptAll]
    exact Visitor.Counts.counts_pure_any _
  | st :: rest => by
    rw [Statement.acceptAll]
    exact Visitor.Counts.counts_then (Statement.acceptStatement_counts st)
      (fun _ => Statement.acceptStatements_counts rest)
end

theorem SMTEncoder.baseVisitFunctionDefinition_counts (inlineBases : Visitor Unit)
    (_function : FunctionDefinition) (hBases : Visitor.Counts inlineBases (fun _ => True)) :
    Visitor.Counts (SMTEncoder.visitFunctionDefinition inlineBases _function) (fun _ => True) := by
  unfold SMTEncoder.visitFunctionDefinition
  repeat' (first
    | with_reducible exact Statement.acceptStatement_counts _
    | with_reducible exact hBases
    | with_reducible exact SMTEncoder.initFunction_counts _
    | with_reducible exact CHC.createBlock_counts _ _
    | with_reducible exact CHC.setCurrentBlock_counts _ _
    | with_reducible exact CHC.predicate_counts _
    | with_reducible exact CHC.predicateWith_counts _ _
    | with_reducible exact CHC.currentFunctionVariables_counts
    | with_reducible exact CHC.currentStateVariables_counts
    | with_reducible exact CHC.initialStateVariables_counts
    | with_reducible exact CHC.genesis_counts
    | with_reducible exact CHC.interface_counts
    | with_reducible exact CHC.error_counts
    | with_reducible exact CHC.summary_counts _
    | with_reducible exact CHC.clearIndices_counts _ _
    | with_reducible exact CHC.interfaceSort_counts
    | (refine CHC.createSymbolicBlock_counts _ _ (smt.isCounted_other _ ?_ ?_) <;> simp [List.isPrefixOf] <;> done)
    | with_reducible exact CHC.createErrorBlock_counts
    | with_reducible exact CHC.query_counts _ _
    | with_reducible exact CHC.reset_counts
    | with_reducible exact SMTEncoder.defineExpr_counts _ _
    | with_reducible exact SMTEncoder.assignment_counts _ _
    | with_reducible exact CHC.connectBlocks_counts _ _ _
    | with_reducible apply Visitor.Counts.counts_bind
    | with_reducible exact Visitor.Counts.counts_solAssert _ _
    | with_reducible exact Visitor.Counts.counts_pure_any _
    | with_reducible exact Visitor.Counts.counts_read_any _
    | with_reducible exact Visitor.Counts.counts_deref_any _ _
    | with_reducible exact Visitor.Counts.counts_update_frame _ (fun _ => ⟨rfl, rfl, rfl⟩)
    | (refine Visitor.Counts.counts_update_errorPredicate _ ?_; assumption)
    | with_reducible apply Visitor.Counts.counts_forEach
    | intro _
    | split
    | (show Visitor.Counts _ (fun _ => True); split)
    | dsimp only)

set_option maxHeartbeats 4000000 in
theorem CHC.visitFunctionDefinition_counts (inlineBases : Visitor Unit)
    (_function : FunctionDefinition) (hBases : Visitor.Counts inlineBases (fun _ => True)) :
    Visitor.Counts (CHC.visitFunctionDefinition inlineBases _function) (fun _ => True) := by
  unfold CHC.visitFunctionDefinition
  repeat' (first
    | with_reducible exact SMTEncoder.baseVisitFunctionDefinition_counts _ _ hBases
    | with_reducible exact Statement.acceptStatement_counts _
    | with_reducible exact hBases
    | with_reducible exact SMTEncoder.initFunction_counts _
    | with_reducible exact CHC.createBlock_counts _ _
    | with_reducible exact CHC.setCurrentBlock_counts _ _
    | with_reducible exact CHC.predicate_counts _
    | with_reducible exact CHC.predicateWith_counts _ _
    | with_reducible exact CHC.currentFunctionVariables_counts
    | with_reducible exact CHC.currentStateVariables_counts
    | with_reducible exact CHC.initialStateVariables_counts
    | with_reducible exact CHC.genesis_counts
    | with_reducible exact CHC.interface_counts
    | with_reducible exact CHC.error_counts
    | with_reducible exact CHC.summary_counts _
    | with_reducible exact CHC.clearIndices_counts _ _
    | with_reducible exact CHC.interfaceSort_counts
    | (refine CHC.createSymbolicBlock_counts _ _ (smt.isCounted_other _ ?_ ?_) <;> simp [List.isPrefixOf] <;> done)
    | with_reducible exact CHC.createErrorBlock_counts
    | with_reducible exact CHC.query_counts _ _
    | with_reducible exact CHC.reset_counts
    | with_reducible exact SMTEncoder.defineExpr_counts _ _
    | with_reducible exact SMTEncoder.assignment_counts _ _
    | with_reducible exact CHC.connectBlocks_counts _ _ _
    | with_reducible apply Visitor.Counts.counts_bind
    | with_reducible exact Visitor.Counts.counts_solAssert _ _
    | with_reducible exact Visitor.Counts.counts_pure_any _
    | with_reducible exact Visitor.Counts.counts_read_any _
    | with_reducible exact Visitor.Counts.counts_deref_any _ _
    | with_reducible exact Visitor.Counts.counts_update_frame _ (fun _ => ⟨rfl, rfl, rfl⟩)
    | (refine Visitor.Counts.counts_update_errorPredicate _ ?_; assumption)
    | with_reducible apply Visitor.Counts.counts_forEach
    | intro _
    | split
    | (show Visitor.Counts _ (fun _ => True); split)
    | dsimp only)

set_option maxHeartbeats 4000000 in
theorem CHC.endVisitFunctionDefinition_counts (_function : FunctionDefinition) :
    Visitor.Counts (CHC.endVisitFunctionDefinition _function) (fun _ => True) := by
  unfold CHC.endVisitFunctionDefinition SMTEncoder.endVisitFunctionDefinition
  repeat' (first
    | with_reducible exact Statement.acceptStatement_counts _
    | with_reducible exact hBases
    | with_reducible exact SMTEncoder.initFunction_counts _
    | with_reducible exact CHC.createBlock_counts _ _
    | with_reducible exact CHC.setCurrentBlock_counts _ _
    | with_reducible exact CHC.predicate_counts _
    | with_reducible exact CHC.predicateWith_counts _ _
    | with_reducible exact CHC.currentFunctionVariables_counts
    | with_reducible exact CHC.currentStateVariables_counts
    | with_reducible exact CHC.initialStateVariables_counts
    | with_reducible exact CHC.genesis_counts
    | with_reducible exact CHC.interface_counts
    | with_reducible exact CHC.error_counts
    | with_reducible exact CHC.summary_counts _
    | with_reducible exact CHC.clearIndices_counts _ _
    | with_reducible exact CHC.interfaceSort_counts
    | (refine CHC.createSymbolicBlock_counts _ _ (smt.isCounted_other _ ?_ ?_) <;> simp [List.isPrefixOf] <;> done)
    | with_reducible exact CHC.createErrorBlock_counts
    | with_reducible exact CHC.query_counts _ _
    | with_reducible exact CHC.reset_counts
    | with_reducible exact SMTEncoder.defineExpr_counts _ _
    | with_reducible exact SMTEncoder.assignment_counts _ _
    | with_reducible exact CHC.connectBlocks_counts _ _ _
    | with_reducible apply Visitor.Counts.counts_bind
    | with_reducible exact Visitor.Counts.counts_solAssert _ _
    | with_reducible exact Visitor.Counts.counts_pure_any _
    | with_reducible exact Visitor.Counts.counts_read_any _
    | with_reducible exact Visitor.Counts.counts_deref_any _ _
    | with_reducible exact Visitor.Counts.counts_update_frame _ (fun _ => ⟨rfl, rfl, rfl⟩)
    | (refine Visitor.Counts.counts_update_errorPredicate _ ?_; assumption)
    | with_reducible apply Visitor.Counts.counts_forEach
    | intro _
    | split
    | (show Visitor.Counts _ (fun _ => True); split)
    | dsimp only)

/-! ## Contracts and source units keep the names of the created predicates apart -/

theorem FunctionDefinition.acceptFunction_counts (inlineBases : Visitor Unit)
    (_function : FunctionDefinition) (hBases : Visitor.Counts inlineBases (fun _ => True)) :
    Visitor.Counts (FunctionDefinition.accept inlineBases _function) (fun _ => True) := by
  unfold FunctionDefinition.accept
  exact Visitor.Counts.counts_then (CHC.visitFunctionDefinition_counts _ _ hBases)
    (fun _ => CHC.endVisitFunctionDefinition_counts _)

theorem SMTEncoder.inlineConstructorHierarchy_counts :
    ∀ bases : List BaseContract,
      Visitor.Counts (SMTEncoder.inlineConstructorHierarchy bases) (fun _ => True)
  | [] => by
    rw [SMTEncoder.inlineConstructorHierarchy]
    exact Visitor.Counts.counts_pure_any _
  | base :: rest => by
    rw [SMTEncoder.inlineConstructorHierarchy]
    have ih := SMTEncoder.inlineConstructorHierarchy_counts rest
    split
    · split
      · exact FunctionDefinition.acceptFunction_counts _ _ ih
      · exact ih
    · exact ih

theorem SMTEncoder.baseVisitContractDefinition_counts (c : ContractDefinition) :
    Visitor.Counts (SMTEncoder.visitContractDefinition c) (fun _ => True) := by
  unfold SMTEncoder.visitContractDefinition
  refine Visitor.Counts.counts_then (Visitor.Counts.counts_forEach (fun f => ?_) _)
    (fun _ => Visitor.Counts.counts_pure_any _)
  split
  · exact Visitor.Counts.counts_pure_any _
  · exact FunctionDefinition.acceptFunction_counts _ _ (Visitor.Counts.counts_pure_any _)

set_option maxHeartbeats 4000000 in
theorem CHC.visitContractDefinition_counts (c : ContractDefinition)
    (hv : CHC.shouldVisitContract c = true) :
    Visitor.Counts (CHC.visitContractDefinition c) (fun _ => True) := by
  unfold CHC.visitContractDefinition
  simp only [hv, Bool.not_true, Bool.false_eq_true, ↓reduceIte]
  repeat' (first
    | with_reducible exact SMTEncoder.baseVisitContractDefinition_counts _
    | with_reducible exact SMTEncoder.initContract_counts _
    | with_reducible exact CHC.createSummaryBlock_counts _
    | with_reducible exact FunctionDefinition.acceptFunction_counts _ _ (SMTEncoder.inlineConstructorHierarchy_counts _)
    | with_reducible exact SMTEncoder.inlineConstructorHierarchy_counts _
    | with_reducible exact CHC.constructorSort_counts
    | with_reducible exact SMTEncoder.initFunction_counts _
    | with_reducible exact CHC.createBlock_counts _ _
    | with_reducible exact CHC.setCurrentBlock_counts _ _
    | with_reducible exact CHC.predicate_counts _
    | with_reducible exact CHC.predicateWith_counts _ _
    | with_reducible exact CHC.currentFunctionVariables_counts
    | with_reducible exact CHC.currentStateVariables_counts
    | with_reducible exact CHC.initialStateVariables_counts
    | with_reducible exact CHC.genesis_counts
    | with_reducible exact CHC.interface_counts
    | with_reducible exact CHC.error_counts
    | with_reducible exact CHC.summary_counts _
    | with_reducible exact CHC.clearIndices_counts _ _
    | with_reducible exact CHC.interfaceSort_counts
    | (refine CHC.createSymbolicBlock_counts _ _ (smt.isCounted_other _ ?_ ?_) <;> simp [List.isPrefixOf] <;> done)
    | with_reducible exact CHC.createErrorBlock_counts
    | with_reducible exact CHC.query_counts _ _
    | with_reducible exact CHC.reset_counts
    | with_reducible exact SMTEncoder.defineExpr_counts _ _
    | with_reducible exact SMTEncoder.assignment_counts _ _
    | with_reducible exact CHC.connectBlocks_counts _ _ _
    | with_reducible apply Visitor.Counts.counts_bind
    | with_reducible exact Visitor.Counts.counts_solAssert _ _
    | with_reducible exact Visitor.Counts.counts_pure_any _
    | with_reducible exact Visitor.Counts.counts_read_any _
    | with_reducible exact Visitor.Counts.counts_deref_any _ _
    | with_reducible exact Visitor.Counts.counts_update_frame _ (fun _ => ⟨rfl, rfl, rfl⟩)
    | (refine Visitor.Counts.counts_update_errorPredicate _ ?_; assumption)
    | with_reducible apply Visitor.Counts.counts_forEach
    | intro _
    | split
    | (show Visitor.Counts _ (fun _ => True); split)
    | dsimp only)

set_option maxHeartbeats 4000000 in
theorem CHC.endVisitContractDefinition_counts (c : ContractDefinition)
    (hv : CHC.shouldVisitContract c = true) :
    Visitor.Counts (CHC.endVisitContractDefinition c) (fun _ => True) := by
  unfold CHC.endVisitContractDefinition SMTEncoder.endVisitContractDefinition
  simp only [hv, Bool.not_true, Bool.false_eq_true, ↓reduceIte]
  repeat' (first
    | with_reducible exact SMTEncoder.baseVisitContractDefinition_counts _
    | with_reducible exact SMTEncoder.initContract_counts _
    | with_reducible exact CHC.createSummaryBlock_counts _
    | with_reducible exact FunctionDefinition.acceptFunction_counts _ _ (SMTEncoder.inlineConstructorHierarchy_counts _)
    | with_reducible exact SMTEncoder.inlineConstructorHierarchy_counts _
    | with_reducible exact CHC.constructorSort_counts
    | with_reducible exact SMTEncoder.initFunction_counts _
    | with_reducible exact CHC.createBlock_counts _ _
    | with_reducible exact CHC.setCurrentBlock_counts _ _
    | with_reducible exact CHC.predicate_counts _
    | with_reducible exact CHC.predicateWith_counts _ _
    | with_reducible exact CHC.currentFunctionVariables_counts
    | with_reducible exact CHC.currentStateVariables_counts
    | with_reducible exact CHC.initialStateVariables_counts
    | with_reducible exact CHC.genesis_counts
    | with_reducible exact CHC.interface_counts
    | with_reducible exact CHC.error_counts
    | with_reducible exact CHC.summary_counts _
    | with_reducible exact CHC.clearIndices_counts _ _
    | with_reducible exact CHC.interfaceSort_counts
    | (refine CHC.createSymbolicBlock_counts _ _ (smt.isCounted_other _ ?_ ?_) <;> simp [List.isPrefixOf] <;> done)
    | with_reducible exact CHC.createErrorBlock_counts
    | with_reducible exact CHC.query_counts _ _
    | with_reducible exact CHC.reset_counts
    | with_reducible exact SMTEncoder.defineExpr_counts _ _
    | with_reducible exact SMTEncoder.assignment_counts _ _
    | with_reducible exact CHC.connectBlocks_counts _ _ _
    | with_reducible apply Visitor.Counts.counts_bind
    | with_reducible exact Visitor.Counts.counts_solAssert _ _
    | with_reducible exact Visitor.Counts.counts_pure_any _
    | with_reducible exact Visitor.Counts.counts_read_any _
    | with_reducible exact Visitor.Counts.counts_deref_any _ _
    | with_reducible exact Visitor.Counts.counts_update_frame _ (fun _ => ⟨rfl, rfl, rfl⟩)
    | (refine Visitor.Counts.counts_update_errorPredicate _ ?_; assumption)
    | with_reducible apply Visitor.Counts.counts_forEach
    | intro _
    | split
    | (show Visitor.Counts _ (fun _ => True); split)
    | dsimp only)

theorem ContractDefinition.acceptContract_counts (c : ContractDefinition) :
    Visitor.Counts (ContractDefinition.accept c) (fun _ => True) := by
  unfold ContractDefinition.accept
  by_cases hv : CHC.shouldVisitContract c = true
  · exact Visitor.Counts.counts_then (CHC.visitContractDefinition_counts _ hv)
      (fun _ => CHC.endVisitContractDefinition_counts _ hv)
  · have hv2 : CHC.shouldVisitContract c = false := by simpa using hv
    unfold CHC.visitContractDefinition CHC.endVisitContractDefinition
    simp only [hv2, Bool.not_false, ↓reduceIte]
    exact Visitor.Counts.counts_then (Visitor.Counts.counts_pure_any _)
      (fun _ => Visitor.Counts.counts_pure_any _)

theorem SourceUnit.acceptSource_counts (source : SourceUnit) :
    Visitor.Counts (SourceUnit.accept source) (fun _ => True) := by
  unfold SourceUnit.accept
  exact Visitor.Counts.counts_forEach (fun c => ContractDefinition.acceptContract_counts c) _

theorem CHC.analyze_counts (source : SourceUnit) :
    Visitor.Counts (CHC.analyze source) (fun _ => True) := by
  unfold CHC.analyze
  repeat' (first
    | with_reducible exact SourceUnit.acceptSource_counts _
    | with_reducible exact CHC.genesis_counts
    | with_reducible exact CHC.addRule_counts _ _
    | (refine CHC.createSymbolicBlock_counts _ _ (smt.isCounted_other _ ?_ ?_) <;> simp [List.isPrefixOf] <;> done)
    | with_reducible exact CHC.createErrorBlock_counts
    | with_reducible exact CHC.query_counts _ _
    | with_reducible exact CHC.reset_counts
    | with_reducible exact SMTEncoder.defineExpr_counts _ _
    | with_reducible exact SMTEncoder.assignment_counts _ _
    | with_reducible exact CHC.connectBlocks_counts _ _ _
    | with_reducible apply Visitor.Counts.counts_bind
    | with_reducible exact Visitor.Counts.counts_solAssert _ _
    | with_reducible exact Visitor.Counts.counts_pure_any _
    | with_reducible exact Visitor.Counts.counts_read_any _
    | with_reducible exact Visitor.Counts.counts_deref_any _ _
    | with_reducible exact Visitor.Counts.counts_update_frame _ (fun _ => ⟨rfl, rfl, rfl⟩)
    | (refine Visitor.Counts.counts_update_errorPredicate _ ?_; assumption)
    | with_reducible apply Visitor.Counts.counts_forEach
    | intro _
    | split
    | (show Visitor.Counts _ (fun _ => True); split)
    | dsimp only)

/-! ## The names stay apart over the lifetime of the analyzer -/

/-- The analyses of several source units, one after the other by the same
analyzer, keep the names of the created predicates apart. -/
theorem CHC.analyzeAll_counted : ∀ (sources : List SourceUnit) (s : CHC), CHC.Counted s →
    CHC.Counted (sources.foldl (fun s source => (CHC.analyze source s).state) s)
  | [], _, h => h
  | source :: rest, s, h => by
    rw [List.foldl_cons]
    exact CHC.analyzeAll_counted rest _ ((CHC.analyze_counts source).counts_state s h)

/-- Names with the numerals of different counter values differ, whatever the
kind tags and whatever follows the numerals. -/
theorem smt.names_differ (k m : Nat) (r1 r2 : String) (h : k ≠ m) :
    "block_" ++ toString k ++ "_" ++ r1 ≠ "block_" ++ toString m ++ "_" ++ r2 ∧
    "summary_" ++ toString k ++ "_" ++ r1 ≠ "summary_" ++ toString m ++ "_" ++ r2 ∧
    "block_" ++ toString k ++ "_" ++ r1 ≠ "summary_" ++ toString m ++ "_" ++ r2 ∧
    "summary_" ++ toString k ++ "_" ++ r1 ≠ "block_" ++ toString m ++ "_" ++ r2 := by
  refine ⟨fun e => h ?_, fun e => h ?_, fun e => h ?_, fun e => h ?_⟩
  · exact smt.HasCounter.counter_unique ⟨r1, Or.inl rfl⟩ ⟨r2, Or.inl e⟩
  · exact smt.HasCounter.counter_unique ⟨r1, Or.inr rfl⟩ ⟨r2, Or.inr e⟩
  · exact smt.HasCounter.counter_unique ⟨r1, Or.inl rfl⟩ ⟨r2, Or.inr e⟩
  · exact smt.HasCounter.counter_unique ⟨r1, Or.inr rfl⟩ ⟨r2, Or.inl e⟩

/-! ## The LEB128 encoder and the binary transform -/

namespace yul.wasm

theorem LEBEncoder.encodeLoop_append (n : Nat) : ∀ encoded : List Nat,
    LEBEncoder.encodeLoop n encoded = encoded ++ LEBEncoder.encodeLoop n [] := by
  induction n using Nat.strong_induction_on with
  | _ n ih =>
    intro encoded
    rw [LEBEncoder.encodeLoop, LEBEncoder.encodeLoop.eq_1 n []]
    split
    · rename_i h
      have hlt : n >>> 7 < n := by
        rw [Nat.shiftRight_eq_div_pow]
        exact Nat.div_lt_self (by omega) (by decide)
      rw [ih _ hlt, ih _ hlt ([] ++ _), List.nil_append, List.append_assoc]
    · rfl

theorem LEBEncoder.low_bits (n : Nat) : (0x80 ||| (n &&& 0x7f)) % 256 = 128 + n % 128 := by
  have h1 : n &&& 0x7f = n % 128 := Nat.and_pow_two_sub_one_eq_mod n 7
  rw [h1]
  have h2 : n % 128 < 128 := Nat.mod_lt _ (by decide)
  have h3 : 128 ||| n % 128 = 128 + n % 128 := by
    generalize n % 128 = d at h2
    interval_cases d <;> rfl
  show (128 ||| n % 128) % 256 = 128 + n % 128
  rw [h3]
  omega

/-- The bytes of a number above `0x7f`: the low seven bits with the top bit set,
then the bytes of the rest. -/
theorem LEBEncoder.encodeLoop_big (n : Nat) (h : 0x7f < n) :
    LEBEncoder.encodeLoop n [] = (128 + n % 128) :: LEBEncoder.encodeLoop (n / 128) [] := by
  rw [LEBEncoder.encodeLoop, if_pos h, LEBEncoder.encodeLoop_append, LEBEncoder.low_bits,
    Nat.shiftRight_eq_div_pow]
  rfl

theorem LEBEncoder.encodeLoop_small (n : Nat) (h : ¬ 0x7f < n) :
    LEBEncoder.encodeLoop n [] = [n] := by
  rw [LEBEncoder.encodeLoop, if_neg h]
  have : n % 256 = n := Nat.mod_eq_of_lt (by omega)
  rw [this]
  rfl

theorem leb128Value_cons (b : Nat) (rest : List Nat) :
    leb128Value (b :: rest) = b % 128 + 128 * leb128Value rest := by
  unfold leb128Value
  rw [List.length_cons, List.range_succ_eq_map, List.map_cons, List.sum_cons, List.map_map]
  simp only [List.getD_cons_zero, pow_zero, mul_one]
  congr 1
  rw [← List.sum_map_mul_left]
  congr 1
  apply List.map_congr_left
  intro i _
  simp only [Function.comp, List.getD_cons_succ, pow_succ]
  ring

theorem LEBEncoder.value_encodeLoop (n : Nat) : leb128Value (LEBEncoder.encodeLoop n []) = n := by
  induction n using Nat.strong_induction_on with
  | _ n ih =>
    by_cases h : 0x7f < n
    · rw [LEBEncoder.encodeLoop_big n h, leb128Value_cons,
        ih _ (Nat.div_lt_self (by omega) (by decide))]
      omega
    · rw [LEBEncoder.encodeLoop_small n h, leb128Value_cons]
      simp only [leb128Value, List.length_nil, List.range_zero, List.map_nil, List.sum_nil]
      omega

theorem LEBEncoder.length_encodeLoop : ∀ (k n : Nat), n < 128 ^ (k + 1) →
    (LEBEncoder.encodeLoop n []).length ≤ k + 1
  | 0, n, h => by
    rw [LEBEncoder.encodeLoop_small n (by omega)]
    rfl
  | k + 1, n, h => by
    by_cases hn : 0x7f < n
    · rw [LEBEncoder.encodeLoop_big n hn, List.length_cons]
      have : n / 128 < 128 ^ (k + 1) := by
        rw [Nat.div_lt_iff_lt_mul (by decide)]
        rw [pow_succ] at h
        exact h
      have := LEBEncoder.length_encodeLoop k (n / 128) this
      omega
    · rw [LEBEncoder.encodeLoop_small n hn]
      simp

theorem LEBEncoder.encodeLoop_ne_nil (n : Nat) : LEBEncoder.encodeLoop n [] ≠ [] := by
  by_cases h : 0x7f < n
  · rw [LEBEncoder.encodeLoop_big n h]
    exact List.cons_ne_nil _ _
  · rw [LEBEncoder.encodeLoop_small n h]
    exact List.cons_ne_nil _ _

theorem LEBEncoder.dropLast_encodeLoop (n : Nat) :
    ∀ b ∈ (LEBEncoder.encodeLoop n []).dropLast, 128 ≤ b ∧ b < 256 := by
  induction n using Nat.strong_induction_on with
  | _ n ih =>
    by_cases h : 0x7f < n
    · rw [LEBEncoder.encodeLoop_big n h,
        List.dropLast_cons_of_ne_nil (LEBEncoder.encodeLoop_ne_nil _)]
      intro b hb
      rcases List.mem_cons.mp hb with rfl | hb
      · omega
      · exact ih _ (Nat.div_lt_self (by omega) (by decide)) b hb
    · rw [LEBEncoder.encodeLoop_small n h]
      intro b hb
      cases hb

theorem LEBEncoder.getLast_encodeLoop (n : Nat) :
    ∃ last, (LEBEncoder.encodeLoop n []).getLast? = some last ∧ last < 128 ∧
      (last = 0 → n = 0) := by
  induction n using Nat.strong_induction_on with
  | _ n ih =>
    by_cases h : 0x7f < n
    · obtain ⟨last, h1, h2, h3⟩ := ih _ (Nat.div_lt_self (by omega : 0 < n) (by decide : 1 < 128))
      refine ⟨last, ?_, h2, fun h0 => ?_⟩
      · rw [LEBEncoder.encodeLoop_big n h]
        cases hE : LEBEncoder.encodeLoop (n / 128) [] with
        | nil => exact absurd hE (LEBEncoder.encodeLoop_ne_nil _)
        | cons a l =>
          rw [hE] at h1
          rw [List.getLast?_cons_cons]
          exact h1
      · have := h3 h0
        omega
    · refine ⟨n, ?_, by omega, fun h0 => h0⟩
      rw [LEBEncoder.encodeLoop_small n h]
      rfl

theorem lebEncodeLoop_eq (n : Nat) : ∀ encoded : List Nat,
    lebEncodeLoop n encoded = LEBEncoder.encodeLoop n encoded := by
  induction n using Nat.strong_induction_on with
  | _ n ih =>
    intro encoded
    rw [lebEncodeLoop, LEBEncoder.encodeLoop]
    split
    · rename_i h
      exact ih _ (by
        rw [Nat.shiftRight_eq_div_pow]
        exact Nat.div_lt_self (by omega) (by decide)) _
    · rfl

theorem lebEncode_eq (n : Nat) : lebEncode n = LEBEncoder.encode n :=
  lebEncodeLoop_eq _ _

/-- The visit of an expression changes nothing but the stack of labels. -/
def BinaryTransform.SameMaps (t t1 : BinaryTransform) : Prop :=
  t1.m_locals = t.m_locals ∧ t1.m_globals = t.m_globals ∧ t1.m_functions = t.m_functions

theorem BinaryTransform.SameMaps.maps_refl (t : BinaryTransform) : t.SameMaps t := ⟨rfl, rfl, rfl⟩

theorem BinaryTransform.SameMaps.step {t t1 t2 : BinaryTransform} (h1 : t.SameMaps t1)
    (h2 : t1.SameMaps t2) : t.SameMaps t2 :=
  ⟨h2.1.trans h1.1, h2.2.1.trans h1.2.1, h2.2.2.trans h1.2.2⟩

theorem Except.bind_returns {ε α β : Type} {m : Except ε α} {f : α → Except ε β} {b : β}
    (h : (m >>= f) = .ok b) : ∃ a, m = .ok a ∧ f a = .ok b := by
  cases m with
  | error e => cases h
  | ok a => exact ⟨a, rfl, h⟩

namespace BinaryTransform

mutual

theorem applyVisitor_maps : ∀ (e : Expression) (t : BinaryTransform) (r : List Nat × BinaryTransform),
    applyVisitor e t = .ok r → t.SameMaps r.2
  | .Literal value, t, r, h => by
    rw [applyVisitor] at h
    cases h
    exact SameMaps.maps_refl t
  | .StringLiteral _, t, r, h => by
    rw [applyVisitor] at h
    cases h
  | .LocalVariable name, t, r, h => by
    rw [applyVisitor] at h
    obtain ⟨a, _, h2⟩ := Except.bind_returns h
    cases h2
    exact SameMaps.maps_refl t
  | .GlobalVariable name, t, r, h => by
    rw [applyVisitor] at h
    obtain ⟨a, _, h2⟩ := Except.bind_returns h
    cases h2
    exact SameMaps.maps_refl t
  | .BuiltinCall functionName arguments, t, r, h => by
    rw [applyVisitor] at h
    obtain ⟨a, h1, h2⟩ := Except.bind_returns h
    have ih := visit_maps arguments t a h1
    dsimp only at h2
    split at h2
    · obtain ⟨c, _, h3⟩ := Except.bind_returns h2
      cases h3
      exact ih
    · split at h2
      · cases h2
        exact ih
      · obtain ⟨c, _, h3⟩ := Except.bind_returns h2
        cases h3
        exact ih
  | .FunctionCall functionName arguments, t, r, h => by
    rw [applyVisitor] at h
    obtain ⟨a, h1, h2⟩ := Except.bind_returns h
    have ih := visit_maps arguments t a h1
    obtain ⟨c, _, h3⟩ := Except.bind_returns h2
    cases h3
    exact ih
  | .LocalAssignment variableName value, t, r, h => by
    rw [applyVisitor] at h
    obtain ⟨a, h1, h2⟩ := Except.bind_returns h
    have ih := applyVisitor_maps value t a h1
    obtain ⟨c, _, h3⟩ := Except.bind_returns h2
    cases h3
    exact ih
  | .GlobalAssignment variableName value, t, r, h => by
    rw [applyVisitor] at h
    obtain ⟨a, h1, h2⟩ := Except.bind_returns h
    have ih := applyVisitor_maps value t a h1
    obtain ⟨c, _, h3⟩ := Except.bind_returns h2
    cases h3
    exact ih
  | .If condition statements elseStatements, t, r, h => by
    rw [applyVisitor] at h
    obtain ⟨a, h1, h2⟩ := Except.bind_returns h
    have ih1 := applyVisitor_maps condition t a h1
    obtain ⟨b, h3, h4⟩ := Except.bind_returns h2
    have ih2 := visit_maps statements _ b h3
    obtain ⟨c, h5, h6⟩ := Except.bind_returns h4
    have ih3 := visitElse_maps elseStatements _ _ c h5
    cases h6
    exact ih1.step
      ((show a.2.SameMaps { a.2 with m_labels := "" :: a.2.m_labels } from
        ⟨rfl, rfl, rfl⟩).step (ih2.step (ih3.step ⟨rfl, rfl, rfl⟩)))
  | .Loop labelName statements, t, r, h => by
    rw [applyVisitor] at h
    obtain ⟨b, h3, h4⟩ := Except.bind_returns h
    have ih2 := visit_maps statements _ b h3
    cases h4
    exact (show t.SameMaps { t with m_labels := labelName :: t.m_labels } from
      ⟨rfl, rfl, rfl⟩).step (ih2.step ⟨rfl, rfl, rfl⟩)
  | .Break _, t, r, h => by
    rw [applyVisitor] at h
    cases h
    exact SameMaps.maps_refl t
  | .Continue _, t, r, h => by
    rw [applyVisitor] at h
    cases h
  | .Block _ statements, t, r, h => by
    rw [applyVisitor] at h
    obtain ⟨b, h3, h4⟩ := Except.bind_returns h
    have ih2 := visit_maps statements _ b h3
    cases h4
    exact ih2

theorem visitElse_maps : ∀ (o : Option (List Expression)) (result : List Nat)
    (t : BinaryTransform) (r : List Nat × BinaryTransform),
    visitElse o result t = .ok r → t.SameMaps r.2
  | some elseStatements, result, t, r, h => by
    rw [visitElse] at h
    obtain ⟨b, h3, h4⟩ := Except.bind_returns h
    have ih2 := visit_maps elseStatements _ b h3
    cases h4
    exact ih2
  | none, result, t, r, h => by
    rw [visitElse] at h
    cases h
    exact SameMaps.maps_refl t

theorem visit_maps : ∀ (l : List Expression) (t : BinaryTransform)
    (r : List Nat × BinaryTransform), visit l t = .ok r → t.SameMaps r.2
  | [], t, r, h => by
    rw [visit] at h
    cases h
    exact SameMaps.maps_refl t
  | expr :: rest, t, r, h => by
    rw [visit] at h
    obtain ⟨a, h1, h2⟩ := Except.bind_returns h
    have ih1 := applyVisitor_maps expr t a h1
    obtain ⟨b, h3, h4⟩ := Except.bind_returns h2
    have ih2 := visit_maps rest _ b h3
    cases h4
    exact ih1.step ih2

end

end BinaryTransform

/-- What the visits of a global variable, of an assignment to it and of a local
variable emit: the read of a global is the opcode `LocalGet`, `0x20`, followed by
the LEB128 of the index of the global, the same index that follows the opcode
`GlobalSet`, `0x24`, in an assignment to the global; the read of a local is the
same opcode `0x20` followed by the index of the local. -/
theorem BinaryTransform.global_read_emits (t : BinaryTransform) (g : String) (index : Nat)
    (value : Expression) (bytes : List Nat) (t1 : BinaryTransform)
    (hg : t.m_globals.at g = .ok index)
    (hv : BinaryTransform.applyVisitor value t = .ok (bytes, t1)) :
    BinaryTransform.applyVisitor (.GlobalVariable g) t = .ok (0x20 :: lebEncode index, t) ∧
    BinaryTransform.applyVisitor (.GlobalAssignment g value) t =
      .ok (bytes ++ 0x24 :: lebEncode index, t1) ∧
    ∀ (x : String) (i : Nat), t.m_locals.at x = .ok i →
      BinaryTransform.applyVisitor (.LocalVariable x) t = .ok (0x20 :: lebEncode i, t) := by
  refine ⟨?_, ?_, ?_⟩
  · rw [BinaryTransform.applyVisitor, hg]
    rfl
  · have hm := BinaryTransform.applyVisitor_maps value t _ hv
    have hg1 : t1.m_globals.at g = .ok index := by
      rw [show t1.m_globals = t.m_globals from hm.2.1]
      exact hg
    rw [BinaryTransform.applyVisitor, hv]
    show (do
      let index ← t1.m_globals.at g
      pure (bytes ++ opcode .GlobalSet ++ lebEncode index, t1)) = _
    rw [hg1]
    show Except.ok (bytes ++ opcode .GlobalSet ++ lebEncode index, t1) = _
    rw [List.append_assoc]
    rfl
  · intro x i hx
    rw [BinaryTransform.applyVisitor, hx]
    rfl

end yul.wasm

/-! ## Claims -/

open Example

/-- C1, as the code has it: `query` passes exactly one warning, located at
`_location`, to the reporter when the answer of the solver is conflicting or
error, and none when it is sat, unknown or unsat. -/
theorem query_warns_only_on_conflicting_or_error (s : CHC) (goal : smt.Expression)
    (location : SourceLocation) :
    (CHC.query goal location s).state.m_outerErrorReporter.warnings =
      s.m_outerErrorReporter.warnings ++
        (match s.m_interface.answer s.m_interface.calls goal with
          | .CONFLICTING => [(location,
              "At least two SMT solvers provided conflicting answers. Results might not be sound.")]
          | .ERROR => [(location, "Error trying to invoke SMT solver.")]
          | .SATISFIABLE => []
          | .UNKNOWN => []
          | .UNSATISFIABLE => []) := by
  unfold CHC.query
  cases h : s.m_interface.answer s.m_interface.calls goal <;>
    simp [smt.CHCSolverInterface.query, h, Result.state, ErrorReporter.warning]

/-- C1, counterexample: on the answer sat (and likewise unknown) `query` passes
no warning to the reporter. -/
theorem query_sat_passes_no_warning :
    (CHC.query (.apply "error_C_1" 1 []) ⟨3, 7⟩
        (CHC.new fun _ _ => .SATISFIABLE)).state.m_outerErrorReporter.warnings = []
    ∧ (CHC.query (.apply "error_C_1" 1 []) ⟨3, 7⟩
        (CHC.new fun _ _ => .UNKNOWN)).state.m_outerErrorReporter.warnings = [] := by
  decide

/-- C7: `connectBlocks` adds exactly one rule, the implication from
`_from ∧ assertions() ∧ _constraints` to `_to`, under the name
`_from.name + "_to_" + _to.name`, and changes nothing else of the state; with
the constraints omitted they are the constant true. -/
theorem connectBlocks_adds_one_rule (s : CHC) (_from _to _constraints : smt.Expression) :
    CHC.connectBlocks _from _to _constraints s =
      .ok () { s with m_interface := { s.m_interface with calls := s.m_interface.calls ++
        [.addRule (.implies ((_from.and s.m_context.assertions).and _constraints) _to)
          (_from.name ++ "_to_" ++ _to.name)] } }
    ∧ CHC.connectBlocks _from _to = CHC.connectBlocks _from _to (.boolLit true) := by
  constructor
  · simp [CHC.connectBlocks, CHC.addRule, Visitor.bind_run, smt.CHCSolverInterface.addRule]
  · rfl

/-- C3, as the code has it: in a visited contract whose functions have distinct
ids, once the walk over the contract has returned, `m_functionErrors` holds
pairs for public, implemented functions other than constructors only, and for
every such function that the contract visits it holds exactly one pair; the
error predicate of that pair was handed to the solver as a query exactly once
during the walk, among the queries at contract exit, which follow every rule and
every registration of the walk.  (A public function without a body, or a
constructor, gets no pair.) -/
theorem recorded_function_has_one_error_queried_once (c : ContractDefinition) (s s1 : CHC)
    (f : FunctionDefinition)
    (hv : CHC.shouldVisitContract c = true) (hn : s.m_currentFunction = none)
    (hnd : ((SMTEncoder.resolvedFunctions c).map (·.id)).Nodup)
    (h : c.accept s = .ok () s1) (hf : f ∈ recordedFunctions c) :
    (∀ p ∈ s1.m_functionErrors, recordedFunction p.1 = true) ∧
    ∃ e, s1.m_functionErrors.filter (fun p => p.1.id == f.id) = [(f, e)] ∧
      ∃ l qs, s1.m_interface.calls = s.m_interface.calls ++ l ++ qs ∧
        (∀ x ∈ l, ∀ g, x ≠ .query g) ∧ (∀ x ∈ qs, ∃ g, x = .query g) ∧
        qs.count (.query e) = 1 := by
  obtain ⟨herr, -, ⟨l, hl, hq⟩, -⟩ := ContractDefinition.acceptContract_ok c s s1 hv hn hnd h
  have hnd2 : ((recordedFunctions c).map (·.id)).Nodup :=
    List.Nodup.sublist (List.Sublist.map _ (List.filter_sublist _)) hnd
  obtain ⟨k, -, -, hk1, hk2⟩ := recordedErrors_unique (errorName c) f (recordedFunctions c) 1 hnd2 hf
  refine ⟨?_, .apply (errorName c) k [], ?_, l, _, hl, hq, ?_, ?_⟩
  · intro p hp
    rw [herr, recordedErrors] at hp
    obtain ⟨q, hq2, rfl⟩ := List.mem_map.mp hp
    exact (List.mem_filter.mp (List.snd_mem_of_mem_enumFrom hq2)).2
  · rw [herr]
    exact hk1
  · intro x hx
    obtain ⟨p, -, rfl⟩ := List.mem_map.mp hx
    exact ⟨p.2, rfl⟩
  · exact hk2

theorem recorded_function_has_one_error_queried_once_witness :
    (plainContract.accept (atWalk fun _ _ => .SATISFIABLE)).isOk = true ∧
    plainFunction ∈ recordedFunctions plainContract ∧
    ((∀ p ∈ (plainContract.accept (atWalk fun _ _ => .SATISFIABLE)).state.m_functionErrors,
        recordedFunction p.1 = true) ∧
    ∃ e, (plainContract.accept (atWalk fun _ _ => .SATISFIABLE)).state.m_functionErrors.filter
        (fun p => p.1.id == plainFunction.id) = [(plainFunction, e)] ∧
      ∃ l qs, (plainContract.accept (atWalk fun _ _ => .SATISFIABLE)).state.m_interface.calls =
          (atWalk fun _ _ => .SATISFIABLE).m_interface.calls ++ l ++ qs ∧
        (∀ x ∈ l, ∀ g, x ≠ .query g) ∧ (∀ x ∈ qs, ∃ g, x = .query g) ∧
        qs.count (.query e) = 1) :=
  ⟨by decide!, List.mem_singleton.mpr rfl,
    recorded_function_has_one_error_queried_once plainContract _ _ plainFunction
      (by decide) (Option.isNone_iff_eq_none.mp (by decide!)) (by decide) (Result.eq_ok_of_isOk _ (by decide!))
      (List.mem_singleton.mpr rfl)⟩

/-- C3, counterexample: the contract `contract C { function f() public; }` is
visited and its walk returns, but its public function `f`, which has no body,
has no pair in `m_functionErrors`, and no query is issued. -/
theorem unimplemented_public_function_has_no_error :
    CHC.shouldVisitContract abstractContract = true ∧
    declaredFunction ∈ abstractContract.definedFunctions ∧
    declaredFunction.isPublic = true ∧
    (abstractContract.accept (atWalk fun _ _ => .SATISFIABLE)).isOk = true ∧
    (abstractContract.accept (atWalk fun _ _ => .SATISFIABLE)).state.m_functionErrors.length = 0 ∧
    (abstractContract.accept (atWalk fun _ _ => .SATISFIABLE)).state.m_interface.calls.filter
      smt.SolverCall.isQuery = [] := by
  refine ⟨by decide, List.mem_singleton.mpr rfl, by decide, by decide!, by decide!, ?_⟩
  decide!

/-- C4, as the code has it: at the exit of a visited contract every query is
located, for diagnostics, at the source span of the function for which the
error predicate was recorded, not at an assert: every warning that the exit
passes to the reporter is located at the span of a function with a recorded
error, and a recorded error whose query the back end answers with an error
leaves the warning of an error at the span of its function. -/
theorem exit_queries_are_located_at_functions (c : ContractDefinition) (s s1 : CHC)
    (hv : CHC.shouldVisitContract c = true)
    (h : CHC.endVisitContractDefinition c s = .ok () s1) :
    ∃ ws, s1.m_outerErrorReporter.warnings = s.m_outerErrorReporter.warnings ++ ws ∧
      (∀ w ∈ ws, ∃ p ∈ s.m_functionErrors, w.1 = p.1.location) ∧
      ∀ p ∈ s.m_functionErrors, (∀ calls, s.m_interface.answer calls p.2 = .ERROR) →
        (p.1.location, "Error trying to invoke SMT solver.") ∈ ws := by
  obtain ⟨-, -, -, ws, hw, hloc⟩ := CHC.endVisitContractDefinition_ok c s s1 hv h
  refine ⟨ws, hw, hloc, ?_⟩
  intro p hp hans
  obtain ⟨s2, s3, fa, h13, -, -, e3⟩ := CHC.endVisitContractDefinition_split c s s1 hv h
  rw [← fa.functionErrors] at hp
  have hans2 : ∀ calls, s2.m_interface.answer calls p.2 = .ERROR := by
    intro calls
    rw [fa.answer]
    exact hans calls
  obtain ⟨before, after, hba⟩ := CHC.queryLoop_error p _ s2 s3 hans2 hp h13
  rw [e3, hba, fa.reporter, List.append_assoc, List.append_assoc] at hw
  have hws := List.append_cancel_left hw
  rw [← hws]
  simp

theorem exit_queries_are_located_at_functions_witness :
    CHC.shouldVisitContract assertingContract = true ∧
    (CHC.endVisitContractDefinition assertingContract
      (CHC.visitContractDefinition assertingContract (atWalk fun _ _ => .ERROR)).state).isOk = true ∧
    ∃ ws, (CHC.endVisitContractDefinition assertingContract
        (CHC.visitContractDefinition assertingContract (atWalk fun _ _ => .ERROR)).state
        ).state.m_outerErrorReporter.warnings =
        (CHC.visitContractDefinition assertingContract (atWalk fun _ _ => .ERROR)
          ).state.m_outerErrorReporter.warnings ++ ws ∧
      (∀ w ∈ ws, ∃ p ∈ (CHC.visitContractDefinition assertingContract (atWalk fun _ _ => .ERROR)
          ).state.m_functionErrors, w.1 = p.1.location) ∧
      ∀ p ∈ (CHC.visitContractDefinition assertingContract (atWalk fun _ _ => .ERROR)
          ).state.m_functionErrors,
        (∀ calls, (CHC.visitContractDefinition assertingContract (atWalk fun _ _ => .ERROR)
          ).state.m_interface.answer calls p.2 = .ERROR) →
        (p.1.location, "Error trying to invoke SMT solver.") ∈ ws :=
  ⟨by decide, by decide!,
    exit_queries_are_located_at_functions assertingContract _ _ (by decide)
      (Result.eq_ok_of_isOk _ (by decide!))⟩

/-- C4, counterexample: for `contract C { function f(uint x) public { assert(x > 0); } }`
and a back end that answers every query with an error, the only warning of the
walk is located at the span of the function `f`, 13 to 56, while the only
verification target, the assert, is at the span 40 to 53. -/
theorem query_is_located_at_function_not_at_assert :
    (assertingContract.accept (atWalk fun _ _ => .ERROR)).isOk = true ∧
    (assertingContract.accept (atWalk fun _ _ => .ERROR)).state.m_outerErrorReporter.warnings =
      [(⟨13, 56⟩, "Error trying to invoke SMT solver.")] ∧
    (assertingContract.accept (atWalk fun _ _ => .ERROR)).state.m_verificationTargets.map
      Expression.location = [⟨40, 53⟩] ∧
    assertingFunction.location = ⟨13, 56⟩ ∧
    assertCall.location = ⟨40, 53⟩ := by
  decide!

/-- C8: for a contract that is a library or an interface, `visit` and `endVisit`
of the contract return and leave the whole analyzer state as it was, so that no
rule is added, no relation registered, no query issued and nothing reset; every
other contract is visited: `shouldVisit` holds of it, and its visit, when it
returns, has registered the interface predicate of the contract. -/
theorem library_or_interface_is_skipped (c : ContractDefinition) (s : CHC) :
    ((c.isLibrary || c.isInterface) = true →
      CHC.visitContractDefinition c s = .ok false s ∧
      CHC.endVisitContractDefinition c s = .ok () s) ∧
    ((c.isLibrary || c.isInterface) = false →
      CHC.shouldVisitContract c = true ∧
      ∀ b s1, CHC.visitContractDefinition c s = .ok b s1 →
        ∃ before after sort, s1.m_interface.calls = s.m_interface.calls ++ before ++
          [.registerRelation ("interface_" ++ c.name ++ "_" ++ toString c.id) 0 sort] ++
          after) := by
  constructor
  · intro hc
    have hv : CHC.shouldVisitContract c = false := by
      simp only [CHC.shouldVisitContract, hc, ↓reduceIte]
    constructor
    · unfold CHC.visitContractDefinition
      simp only [hv, Bool.not_false, ↓reduceIte]
      rfl
    · unfold CHC.endVisitContractDefinition
      simp only [hv, Bool.not_false, ↓reduceIte]
      rfl
  · intro hc
    have hv : CHC.shouldVisitContract c = true := by
      simp only [CHC.shouldVisitContract, hc, Bool.false_eq_true, ↓reduceIte]
    exact ⟨hv, fun b s1 h => CHC.visitContractDefinition_registers c s s1 b hv h⟩

theorem library_or_interface_is_skipped_witness :
    (someLibrary.isLibrary || someLibrary.isInterface) = true ∧
    CHC.visitContractDefinition someLibrary (atWalk fun _ _ => .SATISFIABLE) =
      .ok false (atWalk fun _ _ => .SATISFIABLE) ∧
    CHC.endVisitContractDefinition someLibrary (atWalk fun _ _ => .SATISFIABLE) =
      .ok () (atWalk fun _ _ => .SATISFIABLE) ∧
    (plainContract.isLibrary || plainContract.isInterface) = false ∧
    CHC.shouldVisitContract plainContract = true :=
  ⟨by decide,
    ((library_or_interface_is_skipped someLibrary _).1 (by decide)).1,
    ((library_or_interface_is_skipped someLibrary _).1 (by decide)).2,
    by decide,
    ((library_or_interface_is_skipped plainContract (atWalk fun _ _ => .SATISFIABLE)).2
      (by decide)).1⟩

/-- C9: for a visited contract without state variables, functions and bases
(hence without constructor), once the genesis predicate is made, the walk over
the contract returns and hands to the solver exactly the registrations of the
interface, error and implicit constructor predicates and then two rules, in
this order: genesis implies the implicit constructor, and the implicit
constructor implies the interface; no query is issued. -/
theorem empty_contract_emits_two_rules (c : ContractDefinition) (s : CHC)
    (g : smt.SymbolicFunctionVariable)
    (hv : CHC.shouldVisitContract c = true)
    (hs : c.stateVariablesIncludingInherited = []) (hf : c.definedFunctions = [])
    (hb : c.baseContracts = [])
    (hg : s.m_genesisPredicate = some g) :
    ∃ s1, c.accept s = .ok () s1 ∧
      s1.m_interface.calls = s.m_interface.calls ++
        [.registerRelation ("interface_" ++ (c.name ++ "_" ++ toString c.id)) 0 ⟨[], .Bool⟩,
         .registerRelation ("error_" ++ (c.name ++ "_" ++ toString c.id)) 0 ⟨[], .Bool⟩,
         .registerRelation ("implicit_constructor_" ++ toString c.id) 0 ⟨[], .Bool⟩,
         .addRule
           (.implies (((g.app []).and (.boolLit true)).and (.boolLit true))
             (.apply ("implicit_constructor_" ++ toString c.id) 0 []))
           ((g.app []).name ++ "_to_" ++
             (smt.Expression.apply ("implicit_constructor_" ++ toString c.id) 0 []).name),
         .addRule
           (.implies
             (((smt.Expression.apply ("implicit_constructor_" ++ toString c.id) 0 []).and
               (.boolLit true)).and (.boolLit true))
             (.apply ("interface_" ++ (c.name ++ "_" ++ toString c.id)) 0 []))
           ((smt.Expression.apply ("implicit_constructor_" ++ toString c.id) 0 []).name ++ "_to_" ++
             (smt.Expression.apply ("interface_" ++ (c.name ++ "_" ++ toString c.id)) 0 []).name)] := by
  obtain ⟨a1, a2, a3, a4, a5, a6, a7, a8, a9, a10, a11, a12, a13, a14, a15, a16, a17, a18, a19,
    a20, a21, a22, a23⟩ := s
  simp only at hg
  subst hg
  obtain ⟨cid, cname, ckind, cvars, cfuns, cbases, cloc⟩ := c
  simp only at hs hf hb
  subst hs hf hb
  have hrun : ContractDefinition.accept ⟨cid, cname, ckind, [], [], [], cloc⟩
        ⟨a1, a2, a3, a4, a5, some g, a7, a8, a9, a10, a11, a12, a13, a14, a15, a16, a17, a18, a19,
          a20, a21, a22, a23⟩ =
      ContractDefinition.accept ⟨cid, cname, ckind, [], [], [], cloc⟩
        ⟨a1, a2, a3, a4, a5, some g, a7, a8, a9, a10, a11, a12, a13, a14, a15, a16, a17, a18, a19,
          a20, a21, a22, a23⟩ := rfl
  conv at hrun =>
    rhs
    unfold ContractDefinition.accept CHC.visitContractDefinition CHC.endVisitContractDefinition
      SMTEncoder.visitContractDefinition SMTEncoder.endVisitContractDefinition
      SMTEncoder.initContract CHC.constructorSort CHC.interfaceSort CHC.reset
      CHC.setCurrentBlock CHC.createSymbolicBlock CHC.interface
      CHC.predicateWith CHC.predicate CHC.currentBlockVariables CHC.currentFunctionVariables
      CHC.initialStateVariables CHC.stateVariablesAtIndex CHC.currentStateVariables CHC.genesis
      CHC.connectBlocks CHC.addRule CHC.clearIndices SMTEncoder.clearIndices
    simp only [hv, Bool.not_true, Bool.false_eq_true, ↓reduceIte,
      ContractDefinition.linearizedBaseContracts, ContractDefinition.toBase,
      ContractDefinition.constructor, SMTEncoder.resolvedFunctions,
      SMTEncoder.inlineConstructorHierarchy, List.find?_nil, List.foldl_nil,
      Visitor.forEach, Visitor.andThen_eq, Visitor.ret_eq,
      Visitor.bind_assoc_run, Visitor.read_bind_run, Visitor.update_bind_run,
      Visitor.pure_bind_run, CHC.uniquePrefix_bind_run,
      Option.isSome_some, Visitor.solAssert_bind_run, Visitor.deref_bind_run,
      List.map_nil, List.append_nil, Visitor.update_run]
    simp only [smt.EncodingContext.assertions, smt.EncodingContext.pushSolver,
      smt.EncodingContext.popSolver, smt.EncodingContext.reset,
      smt.EncodingContext.resetAllVariables, smt.EncodingContext.resetVariables,
      smt.EncodingContext.foldl_resetIndex_assertions,
      smt.EncodingContext.foldl_increaseIndex_assertions, List.tail_cons, ite_self]
  refine ⟨_, hrun, ?_⟩
  exact smt.CHCSolverInterface.calls_of_contract _ _ _ _ _ _ _ _

theorem empty_contract_emits_two_rules_witness :
    CHC.shouldVisitContract emptyContract = true ∧
    emptyContract.stateVariablesIncludingInherited = [] ∧
    (atWalk fun _ _ => .SATISFIABLE).m_genesisPredicate = some ⟨"genesis", ⟨[], .Bool⟩, 0⟩ ∧
    ∃ s1, emptyContract.accept (atWalk fun _ _ => .SATISFIABLE) = .ok () s1 ∧
      s1.m_interface.calls = (atWalk fun _ _ => .SATISFIABLE).m_interface.calls ++
        [.registerRelation "interface_C_1" 0 ⟨[], .Bool⟩,
         .registerRelation "error_C_1" 0 ⟨[], .Bool⟩,
         .registerRelation "implicit_constructor_1" 0 ⟨[], .Bool⟩,
         .addRule
           (.implies (((smt.Expression.apply "genesis" 0 []).and (.boolLit true)).and
             (.boolLit true)) (.apply "implicit_constructor_1" 0 []))
           "genesis_0_to_implicit_constructor_1_0",
         .addRule
           (.implies (((smt.Expression.apply "implicit_constructor_1" 0 []).and
             (.boolLit true)).and (.boolLit true)) (.apply "interface_C_1" 0 []))
           "implicit_constructor_1_0_to_interface_C_1_0"] := by
  refine ⟨by decide, rfl, by decide!, ?_⟩
  obtain ⟨s1, h1, h2⟩ := empty_contract_emits_two_rules emptyContract
    (atWalk fun _ _ => .SATISFIABLE) ⟨"genesis", ⟨[], .Bool⟩, 0⟩ (by decide) rfl rfl rfl
    (by decide!)
  refine ⟨s1, h1, ?_⟩
  rw [h2]
  decide

/-- C10, as the code has it: the visit of an implemented function when no
function is active (in a current contract, with the genesis predicate made)
emits, before the base-class visit walks the body, exactly two registrations
and two rules, in order: genesis implies the function entry predicate over the
current function variables, then that entry implies the body predicate, with on
its left-hand side the assumptions that the error index is 0 and that, for
every state variable, the value at SSA index 0 equals the current value; and
when the walk over the body starts, the current block is the body predicate
over the current block variables and the current function is the visited
function.  What the walk over the body emits comes after. -/
theorem visit_function_emits_two_entry_rules (inlineBases : Visitor Unit) (f : FunctionDefinition)
    (s : CHC) (g : smt.SymbolicFunctionVariable) (c : ContractDefinition)
    (hi : f.isImplemented = true) (hn : s.m_currentFunction = none)
    (hg : s.m_genesisPredicate = some g) (hc : s.m_currentContract = some c) :
    ∃ (s0 s1 : CHC) (entryName bodyName : String) (entrySort bodySort : smt.FunctionSort)
      (entryArgs bodyArgs blockArgs : List smt.Expression),
      SMTEncoder.initFunction f { s with m_currentFunction := some f } = .ok () s0 ∧
      CHC.visitFunctionDefinition inlineBases f s =
        (SMTEncoder.visitFunctionDefinition inlineBases f >>= fun _ => pure false) s1 ∧
      s1.m_interface.calls = s.m_interface.calls ++
        [.registerRelation entryName 0 entrySort,
         .registerRelation bodyName 0 bodySort,
         .addRule
           (.implies (((g.app []).and (.boolLit true)).and (.boolLit true))
             (.apply entryName 0 entryArgs))
           ((g.app []).name ++ "_to_" ++ (smt.Expression.apply entryName 0 entryArgs).name),
         .addRule
           (.implies
             (((smt.Expression.apply entryName 0 entryArgs).and
               (s0.m_stateVariables.foldl
                 (fun a v => (((s0.m_context.variableOf v).valueAtIndex 0).eq
                   (s0.m_context.variableOf v).currentValue).and a)
                 ((s0.m_error.currentValue.eq (.intLit 0)).and (.boolLit true)))).and
               (.boolLit true))
             (.apply bodyName 0 bodyArgs))
           ((smt.Expression.apply entryName 0 entryArgs).name ++ "_to_" ++
             (smt.Expression.apply bodyName 0 bodyArgs).name)] ∧
      CHC.currentFunctionVariables s0 = .ok entryArgs s0 ∧
      CHC.currentBlockVariables s0 = .ok bodyArgs s0 ∧
      s1.m_currentBlock = .apply bodyName 0 blockArgs ∧
      CHC.currentBlockVariables s1 = .ok blockArgs s1 ∧
      s1.m_currentFunction = some f := by
  obtain ⟨body, hb⟩ : ∃ body, f.body = some body := by
    unfold FunctionDefinition.isImplemented at hi
    exact Option.isSome_iff_exists.mp hi
  obtain ⟨a1, a2, a3, a4, a5, a6, a7, a8, a9, a10, a11, a12, a13, a14, a15, a16, a17, a18, a19,
    a20, a21, a22, a23⟩ := s
  simp only at hc hn hg
  subst hc hn hg
  obtain ⟨context, h0, hctx⟩ := SMTEncoder.initFunction_run f
    ⟨a1, a2, a3, some c, a5, some g, a7, a8, a9, a10, a11, a12,
        a13, a14, a15, a16, a17, a18, some f, a20, a21, a22, a23⟩ c rfl
  simp only [] at h0
  obtain ⟨v1, v2, v3, v4⟩ := context
  simp only at hctx
  subst hctx
  have hrun : CHC.visitFunctionDefinition inlineBases f ⟨a1, a2, a3, some c, a5, some g, a7, a8,
        a9, a10, a11, a12, a13, a14, a15, a16, a17, a18, none, a20, a21, a22, a23⟩ =
      CHC.visitFunctionDefinition inlineBases f ⟨a1, a2, a3, some c, a5, some g, a7, a8, a9, a10,
        a11, a12, a13, a14, a15, a16, a17, a18, none, a20, a21, a22, a23⟩ := rfl
  conv at hrun =>
    rhs
    unfold CHC.visitFunctionDefinition
    simp only [CHC.shouldVisitFunction, FunctionDefinition.isImplemented, hb, Option.isSome_some,
      Bool.not_true, Bool.false_eq_true, ↓reduceIte]
    rw [Visitor.read_bind_run]
    simp only []
    rw [Visitor.update_bind_run, Visitor.bind_run_ok _ _ _ _ _ h0]
    rw [Visitor.deref_bind_run]
    simp only []
    unfold CHC.setCurrentBlock CHC.createBlock CHC.sortNode CHC.sort CHC.predicateName
      CHC.createSymbolicBlock
      CHC.predicateWith CHC.predicate CHC.currentBlockVariables CHC.currentFunctionVariables
      CHC.initialStateVariables CHC.stateVariablesAtIndex CHC.currentStateVariables CHC.genesis
      CHC.connectBlocks CHC.addRule CHC.clearIndices SMTEncoder.clearIndices
    simp only [Visitor.bind_assoc_run, Visitor.read_bind_run, Visitor.update_bind_run,
      Visitor.pure_bind_run, CHC.uniquePrefix_bind_run,
      Option.isSome_some, Visitor.solAssert_bind_run, Visitor.deref_bind_run, ↓reduceIte]
    rw [Visitor.bind_run_ok _ _ _ _ _ (Visitor.forEach_updateContext
      (fun var c => c.addAssertion
        (((c.variableOf var).valueAtIndex 0).eq (c.variableOf var).currentValue)) _ _)]
    simp only [Visitor.bind_assoc_run, Visitor.read_bind_run, Visitor.update_bind_run,
      Visitor.pure_bind_run, CHC.uniquePrefix_bind_run,
      Option.isSome_some, Visitor.solAssert_bind_run, Visitor.deref_bind_run, ↓reduceIte]
    rw [smt.EncodingContext.foldl_addAssertion
      (fun c v => ((c.variableOf v).valueAtIndex 0).eq (c.variableOf v).currentValue)
      (fun _ _ _ => rfl) a12 _ _ _ rfl]
  refine ⟨_, _, ?n1, ?n2, ?s1, ?s2, ?r1, ?r2, ?r3, h0, hrun, ?c1, ?c2, ?c3, ?c4, ?c5, ?c6⟩
  case c1 => exact smt.CHCSolverInterface.calls_of_two_blocks _ _ _ _ _ _ _
  case c4 => exact rfl
  case c2 => exact rfl
  case c3 => exact rfl
  case c5 => exact rfl
  case c6 => exact rfl

theorem visit_function_emits_two_entry_rules_witness :
    plainFunction.isImplemented = true ∧
    (atFunctions plainContract fun _ _ => .SATISFIABLE).m_currentFunction.isNone = true ∧
    (atFunctions plainContract fun _ _ => .SATISFIABLE).m_genesisPredicate =
      some ⟨"genesis", ⟨[], .Bool⟩, 0⟩ ∧
    ∃ s1, CHC.visitFunctionDefinition (pure ()) plainFunction
        (atFunctions plainContract fun _ _ => .SATISFIABLE) =
        (SMTEncoder.visitFunctionDefinition (pure ()) plainFunction >>= fun _ => pure false) s1 ∧
      s1.m_currentFunction = some plainFunction ∧
      (s1.m_interface.calls.drop
        (atFunctions plainContract fun _ _ => .SATISFIABLE).m_interface.calls.length).length = 4 := by
  refine ⟨by decide, by decide!, by decide!, ?_⟩
  obtain ⟨s0, s1, n1, n2, t1, t2, r1, r2, r3, -, h1, h2, -, -, -, -, h3⟩ :=
    visit_function_emits_two_entry_rules (pure ()) plainFunction
      (atFunctions plainContract fun _ _ => .SATISFIABLE) ⟨"genesis", ⟨[], .Bool⟩, 0⟩
      plainContract (by decide) (Option.isNone_iff_eq_none.mp (by decide!)) (by decide!) rfl
  refine ⟨s1, h1, h3, ?_⟩
  rw [h2]
  simp

/-- C10, counterexample: the visit of the function `f` of
`contract C { function f(uint x) public { assert(x > 0); } }`, implemented and
visited when no function is active, emits four rules, two of them for the
assert, and afterwards the current block is the block made for the assert,
`block_3_f_7`, not the body predicate `block_2_f_9`. -/
theorem visit_of_asserting_function_emits_four_rules :
    assertingFunction.isImplemented = true ∧
    (atFunctions assertingContract fun _ _ => .SATISFIABLE).m_currentFunction.isNone = true ∧
    (CHC.visitFunctionDefinition (pure ()) assertingFunction
      (atFunctions assertingContract fun _ _ => .SATISFIABLE)).isOk = true ∧
    (((CHC.visitFunctionDefinition (pure ()) assertingFunction
        (atFunctions assertingContract fun _ _ => .SATISFIABLE)).state.m_interface.calls.drop
      (atFunctions assertingContract fun _ _ => .SATISFIABLE).m_interface.calls.length).filter
      smt.SolverCall.isRule).map
      (fun call => match call with
        | .addRule _ name => name
        | _ => "") =
      ["genesis_0_to_block_1_function_f_2_0", "block_1_function_f_2_0_to_block_2_f_9_0",
       "block_2_f_9_0_to_summary_0_function_f_2_0", "block_2_f_9_0_to_block_3_f_7_0"] ∧
    (CHC.visitFunctionDefinition (pure ()) assertingFunction
      (atFunctions assertingContract fun _ _ => .SATISFIABLE)).state.m_currentBlock =
      .apply "block_3_f_7" 0 [.symbol "error" 1, .symbol "x_3" 0, .symbol "x_3" 0] := by
  decide!

/-- C2, as the code has it: for every public, implemented function of a visited
contract other than a constructor, whether or not its body contains an assert
call, visiting the contract (its functions having distinct ids) emits the
summary rule of the function and its two public-entry rules, with the
registration of the refreshed error predicate between them, and at contract
exit issues a query for that error predicate, which is the one recorded for the
function. -/
theorem public_function_rules_and_query (c : ContractDefinition) (s s1 : CHC)
    (f : FunctionDefinition)
    (hv : CHC.shouldVisitContract c = true) (hn : s.m_currentFunction = none)
    (hnd : ((SMTEncoder.resolvedFunctions c).map (·.id)).Nodup)
    (h : c.accept s = .ok () s1) (hf : f ∈ recordedFunctions c) :
    ∃ (k : Nat) (before between after : List smt.SolverCall) (sx : CHC)
      (cur sum enter leave asr asr1 ev : smt.Expression),
      CHC.summary f sx = .ok sum sx ∧
      s1.m_interface.calls = s.m_interface.calls ++ before ++
        CHC.exitRules ⟨errorName c, ⟨[], .Bool⟩, k⟩ cur sum enter leave asr asr1 ev ++
        between ++ [.query (.apply (errorName c) (k + 1) [])] ++ after ∧
      (∀ e ∈ before, ∀ g, e ≠ .query g) ∧
      (f, smt.Expression.apply (errorName c) (k + 1) []) ∈ s1.m_functionErrors := by
  unfold ContractDefinition.accept at h
  obtain ⟨b, s2, h1, h2⟩ := Visitor.bind_ok h
  obtain ⟨s0, hnone, hep, herr, ⟨l0, hl0, hq0⟩, hloop⟩ :=
    CHC.visitContractDefinition_split c s s2 b hv hn h1
  obtain ⟨hf1, hf2⟩ := List.mem_filter.mp hf
  obtain ⟨k, before, after, sx, cur, sum, enter, leave, asr, asr1, ev, e1, e2, e3, e4, e5⟩ :=
    SMTEncoder.visitFunctions_rules f _ s0 s2 _ hnone hep hnd
      (by intro g _ p hp; rw [herr] at hp; cases hp) hloop hf1 hf2
  obtain ⟨he, -, ⟨l2, hl2, hq2⟩, -⟩ := CHC.endVisitContractDefinition_ok c s2 s1 hv h2
  obtain ⟨qa, qb, hsplit⟩ := List.append_of_mem e5
  refine ⟨k, l0 ++ before, after ++ l2 ++ qa.map (fun p => .query p.2),
    qb.map (fun p => .query p.2), sx, cur, sum, enter, leave, asr, asr1, ev, e1, ?_, ?_, ?_⟩
  · rw [hl2, e4, hl0, hsplit]
    simp only [List.map_append, List.map_cons, List.append_assoc, List.singleton_append,
      List.cons_append, List.nil_append]
  · intro e hmem
    rcases List.mem_append.mp hmem with h3 | h3
    · exact hq0 e h3
    · exact e2 e h3
  · rw [he]
    exact e5

theorem public_function_rules_and_query_witness :
    CHC.shouldVisitContract plainContract = true ∧
    (plainContract.accept (atWalk fun _ _ => .SATISFIABLE)).isOk = true ∧
    plainFunction ∈ recordedFunctions plainContract ∧
    ∃ (k : Nat) (before between after : List smt.SolverCall) (sx : CHC)
      (cur sum enter leave asr asr1 ev : smt.Expression),
      CHC.summary plainFunction sx = .ok sum sx ∧
      (plainContract.accept (atWalk fun _ _ => .SATISFIABLE)).state.m_interface.calls =
        (atWalk fun _ _ => .SATISFIABLE).m_interface.calls ++ before ++
        CHC.exitRules ⟨errorName plainContract, ⟨[], .Bool⟩, k⟩ cur sum enter leave asr asr1 ev ++
        between ++ [.query (.apply (errorName plainContract) (k + 1) [])] ++ after ∧
      (∀ e ∈ before, ∀ g, e ≠ .query g) ∧
      (plainFunction, smt.Expression.apply (errorName plainContract) (k + 1) []) ∈
        (plainContract.accept (atWalk fun _ _ => .SATISFIABLE)).state.m_functionErrors :=
  ⟨by decide, by decide!, List.mem_singleton.mpr rfl,
    public_function_rules_and_query plainContract _ _ plainFunction
      (by decide) (Option.isNone_iff_eq_none.mp (by decide!)) (by decide)
      (Result.eq_ok_of_isOk _ (by decide!)) (List.mem_singleton.mpr rfl)⟩

/-- C2, counterexample: the function `f` of `contract C { function f() public {} }`
is public and implemented and its body contains no assert, but the walk over
the contract records an error predicate for it and, at contract exit, issues
the query of that predicate. -/
theorem function_without_assert_is_queried :
    plainFunction.isPublic = true ∧ plainFunction.isImplemented = true ∧
    plainFunction.body = some (.Block 3 []) ∧
    (plainContract.accept (atWalk fun _ _ => .SATISFIABLE)).isOk = true ∧
    (plainContract.accept (atWalk fun _ _ => .SATISFIABLE)).state.m_functionErrors.map
      (fun p => (p.1.id, p.2)) = [(plainFunction.id, .apply "error_C_1" 1 [])] ∧
    (plainContract.accept (atWalk fun _ _ => .SATISFIABLE)).state.m_interface.calls.filter
      smt.SolverCall.isQuery = [.query (.apply "error_C_1" 1 [])] := by
  refine ⟨by decide, by decide, rfl, by decide!, by decide!, by decide!⟩

/-- C5, as the code has it: whatever the source unit and the answers of the back
end, every rule that the analysis hands to the solver adapter is the initial
fact `genesis`, added by `analyze`, or has the Horn shape
`(P(args1) ∧ assumptions) ∧ constraints ⟹ Q(args2)`, an implication from a
conjunction led by the application of a predicate symbol to the application of
a predicate symbol; the conjuncts after `P(args1)` are those that
`connectBlocks` takes from the Encoding Context and from its caller.  The
analysis may abort; the rules handed over until then are meant. -/
theorem every_rule_is_the_genesis_fact_or_horn (source : SourceUnit)
    (answer : List smt.SolverCall → smt.Expression → smt.CheckResult) :
    smt.RulesHorn (CHC.analyze source (CHC.new answer)).state.m_interface.calls :=
  (CHC.analyze_inOrder source answer).2

/-- C5, counterexample: the analysis of a source unit without contracts hands
one rule to the solver adapter, the fact `genesis`, which is the application of
a predicate symbol and not an implication. -/
theorem genesis_rule_is_a_fact_not_an_implication :
    (CHC.analyze ⟨[], true⟩ (CHC.new fun _ _ => .UNSATISFIABLE)).state.m_interface.calls =
      [.registerRelation "genesis" 0 ⟨[], .Bool⟩, .addRule (.apply "genesis" 0 []) "genesis"]
    ∧ (smt.Expression.apply "genesis" 0 []).isHorn = false :=
  ⟨rfl, rfl⟩

/-- C6: whatever the source unit and the answers of the back end, every predicate
symbol applied in a rule that the analysis hands to the solver adapter, at the
SSA index at which the rule applies it, was passed to `register_relation`
before the rule was added: it is registered among the calls that precede the
rule, and so before every query that follows the rule.  The analysis may
abort; the rules handed over until then are meant. -/
theorem every_rule_applies_registered_predicates (source : SourceUnit)
    (answer : List smt.SolverCall → smt.Expression → smt.CheckResult) :
    smt.RulesRegistered (CHC.analyze source (CHC.new answer)).state.m_interface.calls :=
  (CHC.analyze_inOrder source answer).1

/-- C11: leaving a function that is current, implemented and not a constructor
(in a current contract in which the function has a summary predicate and the
interface and error predicates are made) returns and emits first the rule from
the current block, under the active assumptions, into the summary of the
function applied to, in order: the current value of the error index, every
state variable at SSA index 0, every parameter of the function at SSA index 0,
every state variable at its current index and every return parameter at its
current index.  Every other rule it emits goes into the error predicate or
into the interface, so that this is the one rule into the summary. -/
theorem function_exit_emits_one_summary_rule (f : FunctionDefinition) (s : CHC)
    (c : ContractDefinition) (block ip ep : smt.SymbolicFunctionVariable)
    (hcur : s.m_currentFunction = some f) (hi : f.isImplemented = true)
    (hc : f.isConstructor = false) (hcon : s.m_currentContract = some c)
    (hsum : (s.m_summaries.find? fun p => p.1 == f.id).map (·.2) = some block)
    (hip : s.m_interfacePredicate = some ip) (hep : s.m_errorPredicate = some ep)
    (hacc : s.m_context.m_accumulateAssertions = false) :
    ∃ (s1 : CHC) (rest : List smt.SolverCall),
      CHC.endVisitFunctionDefinition f s = .ok () s1 ∧
      s1.m_interface.calls = s.m_interface.calls ++
        .addRule
          (.implies ((s.m_currentBlock.and s.m_context.assertions).and (.boolLit true))
            (block.app ([s.m_error.currentValue] ++
              (s.m_stateVariables.map fun v => (s.m_context.variableOf v).valueAtIndex 0) ++
              (f.parameters.map fun v => (s.m_context.variableOf v).valueAtIndex 0) ++
              (s.m_stateVariables.map fun v => (s.m_context.variableOf v).currentValue) ++
              (f.returnParameters.map fun v => (s.m_context.variableOf v).currentValue))))
          (s.m_currentBlock.name ++ "_to_" ++
            (block.app ([s.m_error.currentValue] ++
              (s.m_stateVariables.map fun v => (s.m_context.variableOf v).valueAtIndex 0) ++
              (f.parameters.map fun v => (s.m_context.variableOf v).valueAtIndex 0) ++
              (s.m_stateVariables.map fun v => (s.m_context.variableOf v).currentValue) ++
              (f.returnParameters.map fun v => (s.m_context.variableOf v).currentValue))).name)
          :: rest ∧
      ∀ rule name, smt.SolverCall.addRule rule name ∈ rest →
        ∃ body, rule = .implies body (.apply ep.uniqueName (ep.index + 1) []) ∨
          rule = .implies body
            (ip.app (s.m_stateVariables.map fun v => (s.m_context.variableOf v).currentValue)) := by
  obtain ⟨s1, h1, h2, -⟩ :=
    CHC.endVisitFunctionDefinition_run f s c block ip ep hcur hi hc hcon hsum hip hep hacc
  cases hp : f.isPublic
  · rw [hp] at h2
    exact ⟨s1, [], h1, h2, fun _ _ h => by cases h⟩
  · rw [hp] at h2
    refine ⟨s1, _, h1, h2, ?_⟩
    intro rule name hmem
    simp only [↓reduceIte, List.mem_cons, smt.SolverCall.addRule.injEq, List.mem_singleton,
      List.not_mem_nil, or_false, false_or] at hmem
    rcases hmem with h | h | h
    · cases h
    · exact ⟨_, Or.inl h.1⟩
    · exact ⟨_, Or.inr h.1⟩

theorem function_exit_emits_one_summary_rule_witness :
    assertingFunction.isImplemented = true ∧ assertingFunction.isConstructor = false ∧
    (∃ s1, CHC.endVisitFunctionDefinition assertingFunction
        (atExit assertingFunction assertingContract fun _ _ => .UNSATISFIABLE) = .ok () s1) ∧
    ((CHC.endVisitFunctionDefinition assertingFunction
        (atExit assertingFunction assertingContract fun _ _ => .UNSATISFIABLE)).state.m_interface.calls.drop
      (atExit assertingFunction assertingContract fun _ _ => .UNSATISFIABLE).m_interface.calls.length).head? =
      some (.addRule
        (.implies
          ((smt.Expression.and
            (.apply "block_3_f_7" 0 [.symbol "error" 1, .symbol "x_3" 0, .symbol "x_3" 0])
            (.boolLit true)).and (.boolLit true))
          (.apply "summary_0_function_f_2" 0 [.symbol "error" 1, .symbol "x_3" 0]))
        "block_3_f_7_0_to_summary_0_function_f_2_0") := by
  obtain ⟨s1, rest, h1, -, -⟩ := function_exit_emits_one_summary_rule assertingFunction
    (atExit assertingFunction assertingContract fun _ _ => .UNSATISFIABLE) assertingContract
    ⟨"summary_0_function_f_2", ⟨[.Int, .Int], .Bool⟩, 0⟩
    ⟨"interface_C_1", ⟨[], .Bool⟩, 0⟩ ⟨"error_C_1", ⟨[], .Bool⟩, 0⟩
    rfl (by decide) (by decide) rfl (by decide!) (by decide!) (by decide!) (by decide!)
  exact ⟨by decide, by decide, ⟨s1, h1⟩, by decide!⟩

/-- C12: leaving a function that is current, implemented and not a constructor
(in a current contract in which the function has a summary predicate and the
interface and error predicates are made, assertions not being accumulated)
returns.  If the function is public, then after the rule into the summary the
error predicate is refreshed to its next SSA index and registered, and exactly
two more rules are emitted, both from the interface over the state variables
at index 0 together with the summary of the function: one, when the error
index is positive, into the refreshed error predicate and one, when it is 0,
into the interface over the state values at the end of the body; and the
refreshed error predicate is recorded for the function, which had no error
recorded.  If the function is not public, the rule into the summary is the
only call, the error predicate stays and nothing is recorded. -/
theorem public_exit_emits_error_and_interface_rules (f : FunctionDefinition) (s : CHC)
    (c : ContractDefinition) (block ip ep : smt.SymbolicFunctionVariable)
    (hcur : s.m_currentFunction = some f) (hi : f.isImplemented = true)
    (hc : f.isConstructor = false) (hcon : s.m_currentContract = some c)
    (hsum : (s.m_summaries.find? fun p => p.1 == f.id).map (·.2) = some block)
    (hip : s.m_interfacePredicate = some ip) (hep : s.m_errorPredicate = some ep)
    (hacc : s.m_context.m_accumulateAssertions = false)
    (hnew : ∀ p ∈ s.m_functionErrors, p.1.id ≠ f.id) :
    ∃ (s1 : CHC) (sum : smt.Expression),
      CHC.endVisitFunctionDefinition f s = .ok () s1 ∧
      sum = block.app ([s.m_error.currentValue] ++
        (s.m_stateVariables.map fun v => (s.m_context.variableOf v).valueAtIndex 0) ++
        (f.parameters.map fun v => (s.m_context.variableOf v).valueAtIndex 0) ++
        (s.m_stateVariables.map fun v => (s.m_context.variableOf v).currentValue) ++
        (f.returnParameters.map fun v => (s.m_context.variableOf v).currentValue)) ∧
      (f.isPublic = true →
        s1.m_interface.calls = s.m_interface.calls ++
          CHC.exitRules ep s.m_currentBlock sum
            (ip.app (s.m_stateVariables.map fun v => (s.m_context.variableOf v).valueAtIndex 0))
            (ip.app (s.m_stateVariables.map fun v => (s.m_context.variableOf v).currentValue))
            s.m_context.assertions (.boolLit true) s.m_error.currentValue ∧
        s1.m_errorPredicate = some ⟨ep.uniqueName, ep.sort, ep.index + 1⟩ ∧
        s1.m_functionErrors =
          s.m_functionErrors ++ [(f, .apply ep.uniqueName (ep.index + 1) [])]) ∧
      (f.isPublic = false →
        s1.m_interface.calls = s.m_interface.calls ++
          [.addRule
            (.implies ((s.m_currentBlock.and s.m_context.assertions).and (.boolLit true)) sum)
            (s.m_currentBlock.name ++ "_to_" ++ sum.name)] ∧
        s1.m_errorPredicate = some ep ∧ s1.m_functionErrors = s.m_functionErrors) := by
  obtain ⟨s1, h1, h2, h3, h4, -⟩ :=
    CHC.endVisitFunctionDefinition_run f s c block ip ep hcur hi hc hcon hsum hip hep hacc
  refine ⟨s1, _, h1, rfl, ?_, ?_⟩
  · intro hp
    rw [hp] at h2 h3 h4
    refine ⟨h2, h4, ?_⟩
    rw [h3]
    unfold emplaceFunctionError
    have hany : (s.m_functionErrors.any fun p => p.1.id == f.id) = false := by
      rw [List.any_eq_false]
      intro p hp
      simpa using hnew p hp
    simp [hany]
  · intro hp
    rw [hp] at h2 h3 h4
    exact ⟨h2, h4, h3⟩

theorem public_exit_emits_error_and_interface_rules_witness :
    assertingFunction.isImplemented = true ∧ assertingFunction.isConstructor = false ∧
    assertingFunction.isPublic = true ∧
    (∃ s1, CHC.endVisitFunctionDefinition assertingFunction
        (atExit assertingFunction assertingContract fun _ _ => .UNSATISFIABLE) = .ok () s1 ∧
      s1.m_errorPredicate = some ⟨"error_C_1", ⟨[], .Bool⟩, 1⟩) ∧
    ((CHC.endVisitFunctionDefinition assertingFunction
        (atExit assertingFunction assertingContract fun _ _ => .UNSATISFIABLE)).state.m_interface.calls.drop
      (atExit assertingFunction assertingContract fun _ _ => .UNSATISFIABLE).m_interface.calls.length).tail =
      [.registerRelation "error_C_1" 1 ⟨[], .Bool⟩,
       .addRule
        (.implies
          ((smt.Expression.and (.apply "interface_C_1" 0 []) (.boolLit true)).and
            (smt.Expression.and
              (.apply "summary_0_function_f_2" 0 [.symbol "error" 1, .symbol "x_3" 0])
              (smt.Expression.gt (.symbol "error" 1) (.intLit 0))))
          (.apply "error_C_1" 1 []))
        "interface_C_1_0_to_error_C_1_1",
       .addRule
        (.implies
          ((smt.Expression.and (.apply "interface_C_1" 0 []) (.boolLit true)).and
            (smt.Expression.and
              (.apply "summary_0_function_f_2" 0 [.symbol "error" 1, .symbol "x_3" 0])
              (smt.Expression.eq (.symbol "error" 1) (.intLit 0))))
          (.apply "interface_C_1" 0 []))
        "interface_C_1_0_to_interface_C_1_0"] := by
  obtain ⟨s1, sum, h1, -, h2, -⟩ := public_exit_emits_error_and_interface_rules assertingFunction
    (atExit assertingFunction assertingContract fun _ _ => .UNSATISFIABLE) assertingContract
    ⟨"summary_0_function_f_2", ⟨[.Int, .Int], .Bool⟩, 0⟩
    ⟨"interface_C_1", ⟨[], .Bool⟩, 0⟩ ⟨"error_C_1", ⟨[], .Bool⟩, 0⟩
    rfl (by decide) (by decide) rfl (by decide!) (by decide!) (by decide!) (by decide!)
    (by decide!)
  exact ⟨by decide, by decide, by decide, ⟨s1, h1, (h2 (by decide)).2.1⟩, by decide!⟩

/-- C13: the visit of a call `assert(cond)`, whose argument the type checker
has given the type category `Bool` (the code asserts this before anything
else), in a function with a summary of a current contract returns.  It appends the call to the verification targets, at
the 1-based position `t` that is the new length of the list, and refreshes the
error index to its next SSA index; it emits the rule from the current block
into the summary of the function (taken with the refreshed error index) under
the constraints: path conditions, not `cond`, refreshed error index equal to
`t`; it then assumes `cond` and that the refreshed error index equals the value
the error index had before the assert, registers a fresh predicate for the
block after the assert, emits the rule from the current block into that
predicate under these assumptions, and makes that predicate, over the current
block variables, the current block. -/
theorem assert_visit_emits_failure_rule_and_continues (call cond : Expression) (s : CHC) (f : FunctionDefinition)
    (c : ContractDefinition) (block : smt.SymbolicFunctionVariable)
    (hargs : call.arguments = [cond]) (hbool : cond.category = .Bool)
    (hcur : s.m_currentFunction = some f) (hcon : s.m_currentContract = some c)
    (hsum : (s.m_summaries.find? fun p => p.1 == f.id).map (·.2) = some block) :
    ∃ (s1 : CHC) (entryName : String) (entrySort : smt.FunctionSort)
      (args1 rest : List smt.Expression),
      CHC.visitAssert call s = .ok () s1 ∧
      s1.m_verificationTargets = s.m_verificationTargets ++ [call] ∧
      s1.m_error = s.m_error.increaseIndex ∧
      s1.m_interface.calls = s.m_interface.calls ++
        [.addRule
          (.implies
            ((s.m_currentBlock.and s.m_context.assertions).and
              (((match s.m_pathConditions with
                  | [] => smt.Expression.boolLit true
                  | p :: _ => p).and (s.m_context.expression cond.id).currentValue.not).and
                (s.m_error.increaseIndex.currentValue.eq
                  (.intLit (s.m_verificationTargets.length + 1)))))
            (block.app ([s.m_error.increaseIndex.currentValue] ++
              (s.m_stateVariables.map fun v => (s.m_context.variableOf v).valueAtIndex 0) ++
              (f.parameters.map fun v => (s.m_context.variableOf v).valueAtIndex 0) ++
              (s.m_stateVariables.map fun v => (s.m_context.variableOf v).currentValue) ++
              (f.returnParameters.map fun v => (s.m_context.variableOf v).currentValue))))
          (s.m_currentBlock.name ++ "_to_" ++
            (block.app ([s.m_error.increaseIndex.currentValue] ++
              (s.m_stateVariables.map fun v => (s.m_context.variableOf v).valueAtIndex 0) ++
              (f.parameters.map fun v => (s.m_context.variableOf v).valueAtIndex 0) ++
              (s.m_stateVariables.map fun v => (s.m_context.variableOf v).currentValue) ++
              (f.returnParameters.map fun v => (s.m_context.variableOf v).currentValue))).name),
         .registerRelation entryName 0 entrySort,
         .addRule
          (.implies
            ((s.m_currentBlock.and
              ((s.m_context.addAssertion (s.m_context.expression cond.id).currentValue).addAssertion
                (s.m_error.increaseIndex.currentValue.eq s.m_error.currentValue)).assertions).and
              (.boolLit true))
            (smt.Expression.apply entryName 0 args1))
          (s.m_currentBlock.name ++ "_to_" ++ (smt.Expression.apply entryName 0 args1).name)] ∧
      s1.m_currentBlock = .apply entryName 0 rest ∧
      CHC.currentBlockVariables s1 = .ok rest s1 :=
  CHC.visitAssert_run call cond s f c block hargs hbool hcur hcon hsum

theorem assert_visit_emits_failure_rule_and_continues_witness :
    (∃ s1, CHC.visitAssert assertCall
        (atCall assertCall assertingFunction assertingContract fun _ _ => .UNSATISFIABLE) =
          .ok () s1 ∧
      s1.m_error = ⟨"error", .Int, 1⟩) ∧
    (CHC.visitAssert assertCall
        (atCall assertCall assertingFunction assertingContract
          fun _ _ => .UNSATISFIABLE)).state.m_interface.calls.drop
      (atCall assertCall assertingFunction assertingContract
        fun _ _ => .UNSATISFIABLE).m_interface.calls.length =
      [.addRule
        (.implies
          ((smt.Expression.and
            (.apply "block_2_f_9" 0 [.symbol "error" 0, .symbol "x_3" 0, .symbol "x_3" 0])
            (smt.Expression.and
              (smt.Expression.eq (.symbol "expr_6" 0)
                (.op ">" [.symbol "expr_4" 0, .symbol "expr_5" 0]))
              (smt.Expression.and (smt.Expression.eq (.symbol "expr_5" 0) (.intLit 0))
                (smt.Expression.and (smt.Expression.eq (.symbol "expr_4" 0) (.symbol "x_3" 0))
                  (.boolLit true))))).and
            ((smt.Expression.and (.boolLit true) (smt.Expression.not (.symbol "expr_6" 0))).and
              (smt.Expression.eq (.symbol "error" 1) (.intLit 1))))
          (.apply "summary_0_function_f_2" 0 [.symbol "error" 1, .symbol "x_3" 0]))
        "block_2_f_9_0_to_summary_0_function_f_2_0",
       .registerRelation "block_3_f_7" 0 ⟨[.Int, .Int, .Int], .Bool⟩,
       .addRule
        (.implies
          ((smt.Expression.and
            (.apply "block_2_f_9" 0 [.symbol "error" 0, .symbol "x_3" 0, .symbol "x_3" 0])
            (smt.Expression.and (smt.Expression.eq (.symbol "error" 1) (.symbol "error" 0))
              (smt.Expression.and (.symbol "expr_6" 0)
                (smt.Expression.and
                  (smt.Expression.eq (.symbol "expr_6" 0)
                    (.op ">" [.symbol "expr_4" 0, .symbol "expr_5" 0]))
                  (smt.Expression.and (smt.Expression.eq (.symbol "expr_5" 0) (.intLit 0))
                    (smt.Expression.and
                      (smt.Expression.eq (.symbol "expr_4" 0) (.symbol "x_3" 0))
                      (.boolLit true))))))).and (.boolLit true))
          (.apply "block_3_f_7" 0 [.symbol "error" 1, .symbol "x_3" 0, .symbol "x_3" 0]))
        "block_2_f_9_0_to_block_3_f_7_0"] := by
  obtain ⟨s1, -, -, -, -, h1, -, h2, -⟩ := assert_visit_emits_failure_rule_and_continues
    assertCall
    (.BinaryOperation 6 .Bool ">" (.Identifier 4 .Integer x) (.Literal 5 .RationalNumber (.number 0)))
    (atCall assertCall assertingFunction assertingContract fun _ _ => .UNSATISFIABLE)
    assertingFunction assertingContract ⟨"summary_0_function_f_2", ⟨[.Int, .Int], .Bool⟩, 0⟩
    rfl rfl rfl rfl (by decide!)
  exact ⟨⟨s1, h1, by rw [h2]; decide!⟩, by decide!⟩

/-- C15: the handling of an internal call to a callee with a summary, in a
function with a summary of a current contract, returns.  With `e0` the value of
the error index before the call and `e1` its value after the call predicate was
built (the value bound in the summary application of the callee): the summary
application is assumed; the rule from the current block into the summary of
the function is emitted under `e1 > 0`; then `e1 = 0` is assumed, the error
index is refreshed to its next SSA index `e2` and `e2 = e0` is assumed; a fresh
predicate for the block after the call is registered, the rule from the current
block into it is emitted under these assumptions, and it becomes, over the
current block variables, the current block. -/
theorem internal_call_propagates_failure_and_continues (call : Expression) (g : CalleeRef) (s : CHC)
    (f : FunctionDefinition) (c : ContractDefinition)
    (blockf blockg : smt.SymbolicFunctionVariable)
    (hcal : call.callee = some g) (hcur : s.m_currentFunction = some f)
    (hcon : s.m_currentContract = some c)
    (hsumf : (s.m_summaries.find? fun p => p.1 == f.id).map (·.2) = some blockf)
    (hsumg : (s.m_summaries.find? fun p => p.1 == g.id).map (·.2) = some blockg) :
    ∃ (sp s1 : CHC) (callPredicate sum : smt.Expression) (postName : String)
      (postSort : smt.FunctionSort) (args1 rest : List smt.Expression),
      CHC.predicateCall call s = .ok callPredicate sp ∧
      CHC.summary f sp = .ok sum sp ∧
      CHC.internalFunctionCall call s = .ok () s1 ∧
      s1.m_interface.calls = s.m_interface.calls ++
        [.addRule
          (.implies
            ((s.m_currentBlock.and (sp.m_context.addAssertion callPredicate).assertions).and
              (sp.m_error.currentValue.gt (.intLit 0)))
            sum)
          (s.m_currentBlock.name ++ "_to_" ++ sum.name),
         .registerRelation postName 0 postSort,
         .addRule
          (.implies
            ((s.m_currentBlock.and
              (((sp.m_context.addAssertion callPredicate).addAssertion
                  (sp.m_error.currentValue.eq (.intLit 0))).addAssertion
                (sp.m_error.increaseIndex.currentValue.eq s.m_error.currentValue)).assertions).and
              (.boolLit true))
            (.apply postName 0 args1))
          (s.m_currentBlock.name ++ "_to_" ++ (smt.Expression.apply postName 0 args1).name)] ∧
      sp.m_error = s.m_error.increaseIndex ∧
      s1.m_error = s.m_error.increaseIndex.increaseIndex ∧
      s1.m_currentBlock = .apply postName 0 rest ∧
      CHC.currentBlockVariables s1 = .ok rest s1 :=
  CHC.internalFunctionCall_run call g s f c blockf blockg hcal hcur hcon hsumf hsumg

theorem internal_call_propagates_failure_and_continues_witness :
    (∃ s1, CHC.internalFunctionCall internalCall
        (atCall internalCall callingFunction callingContract fun _ _ => .UNSATISFIABLE) =
          .ok () s1 ∧
      s1.m_error = ⟨"error", .Int, 2⟩) ∧
    ((CHC.internalFunctionCall internalCall
        (atCall internalCall callingFunction callingContract
          fun _ _ => .UNSATISFIABLE)).state.m_interface.calls.drop
      (atCall internalCall callingFunction callingContract
        fun _ _ => .UNSATISFIABLE).m_interface.calls.length).map
      (fun call => match call with
        | .addRule (.op "implies" [.op "and" [_, constraints], target]) _ =>
          some (constraints, target)
        | _ => none) =
      [some (smt.Expression.gt (.symbol "error" 1) (.intLit 0),
        .apply "summary_1_function_f_2" 0
          [.symbol "error" 1, .symbol "y_11" 0, .symbol "x_3" 0, .symbol "y_11" 2]),
       none,
       some (.boolLit true,
        .apply "block_4_f_17" 0
          [.symbol "error" 2, .symbol "y_11" 0, .symbol "x_3" 0, .symbol "y_11" 2,
            .symbol "x_3" 0])] := by
  obtain ⟨sp, s1, -, -, -, -, -, -, -, -, h1, -, h3, h2, -⟩ :=
    internal_call_propagates_failure_and_continues
    internalCall ⟨14, [r]⟩
    (atCall internalCall callingFunction callingContract fun _ _ => .UNSATISFIABLE)
    callingFunction callingContract
    ⟨"summary_1_function_f_2", ⟨[.Int, .Int, .Int, .Int], .Bool⟩, 0⟩
    ⟨"summary_0_function_g_14", ⟨[.Int, .Int, .Int, .Int, .Int], .Bool⟩, 0⟩
    rfl rfl rfl (by decide!) (by decide!)
  exact ⟨⟨s1, h1, by rw [h2]; decide!⟩, by decide!⟩

/-- C14, as the code has it: every visit of a call `assert(cond)` whose argument
the type checker has given the type category `Bool`, in a function with a
summary of a current contract, appends the call to the verification targets
exactly once, and the value that the failure rule of this visit gives to the
error index is the 1-based position of the entry it appended, which is the new
length of the list; the walk over any statement only extends the list, so an
entry keeps its position and two visits never share an error value; and the
visit of a call whose one argument is of another type category aborts on the
assertion of the code, with nothing appended and nothing emitted. -/
theorem assert_visit_appends_target_at_its_error_value (call cond : Expression) (s : CHC)
    (f : FunctionDefinition) (c : ContractDefinition) (block : smt.SymbolicFunctionVariable)
    (hargs : call.arguments = [cond]) (hbool : cond.category = .Bool)
    (hcur : s.m_currentFunction = some f) (hcon : s.m_currentContract = some c)
    (hsum : (s.m_summaries.find? fun p => p.1 == f.id).map (·.2) = some block) :
    (∃ s1, CHC.visitAssert call s = .ok () s1 ∧
      s1.m_verificationTargets = s.m_verificationTargets ++ [call] ∧
      (s1.m_interface.calls.drop s.m_interface.calls.length).map smt.SolverCall.failureValue =
        [some s1.m_verificationTargets.length, none, none] ∧
      s1.m_verificationTargets[s1.m_verificationTargets.length - 1]? = some call) ∧
    (∀ (st : Statement) (s0 : CHC),
      ∃ l, (st.accept s0).state.m_verificationTargets = s0.m_verificationTargets ++ l) ∧
    ∀ (other argument : Expression) (s0 : CHC), other.arguments = [argument] →
      argument.category ≠ .Bool → ∃ message, CHC.visitAssert other s0 = .abort message s0 := by
  refine ⟨?_, fun st s0 => (Statement.acceptStatement_targets st).run s0,
    fun other argument s0 h1 h2 => CHC.visitAssert_not_bool other argument s0 h1 h2⟩
  obtain ⟨s1, entryName, entrySort, args1, rest, hrun, htargets, -, hcalls, -, -⟩ :=
    CHC.visitAssert_run call cond s f c block hargs hbool hcur hcon hsum
  refine ⟨s1, hrun, htargets, ?_, ?_⟩
  · rw [hcalls, List.drop_left, htargets]
    simp [smt.SolverCall.failureValue, smt.Expression.implies, smt.Expression.and,
      smt.Expression.eq]
  · rw [htargets]
    simp

theorem assert_visit_appends_target_at_its_error_value_witness :
    ∃ s1, CHC.visitAssert assertCall
        (atCall assertCall assertingFunction assertingContract fun _ _ => .UNSATISFIABLE) =
          .ok () s1 ∧
      s1.m_verificationTargets.map (·.id) = [7] ∧
      (s1.m_interface.calls.drop
        (atCall assertCall assertingFunction assertingContract
          fun _ _ => .UNSATISFIABLE).m_interface.calls.length).map
          smt.SolverCall.failureValue = [some 1, none, none] := by
  obtain ⟨s1, h1, h2, h3, -⟩ := (assert_visit_appends_target_at_its_error_value
    assertCall
    (.BinaryOperation 6 .Bool ">" (.Identifier 4 .Integer x) (.Literal 5 .RationalNumber (.number 0)))
    (atCall assertCall assertingFunction assertingContract fun _ _ => .UNSATISFIABLE)
    assertingFunction assertingContract ⟨"summary_0_function_f_2", ⟨[.Int, .Int], .Bool⟩, 0⟩
    rfl rfl rfl rfl (by decide!)).1
  have h0 : (atCall assertCall assertingFunction assertingContract
      fun _ _ => .UNSATISFIABLE).m_verificationTargets.length = 0 := by decide!
  refine ⟨s1, h1, ?_, ?_⟩
  · rw [h2, List.length_eq_zero.mp h0]
    rfl
  · rw [h3, h2, List.length_eq_zero.mp h0]
    rfl

/-- C14, counterexample: in the body `do { assert(x > 0); } while (x > 0);` the
walk over the loop returns and visits the one assert call, of node 7, twice; the
call occurs twice among the verification targets, which were empty, and its two failure rules
give the error index the values 1 and 2. -/
theorem assert_in_do_while_occurs_twice :
    (assertingLoop.accept
      (atBody loopingFunction loopingContract fun _ _ => .UNSATISFIABLE)).isOk = true ∧
    (atBody loopingFunction loopingContract
      fun _ _ => .UNSATISFIABLE).m_verificationTargets.length = 0 ∧
    (assertingLoop.accept
      (atBody loopingFunction loopingContract
        fun _ _ => .UNSATISFIABLE)).state.m_verificationTargets.map (·.id) = [7, 7] ∧
    ((assertingLoop.accept
      (atBody loopingFunction loopingContract
        fun _ _ => .UNSATISFIABLE)).state.m_interface.calls.drop
      (atBody loopingFunction loopingContract
        fun _ _ => .UNSATISFIABLE).m_interface.calls.length).filterMap
        smt.SolverCall.failureValue = [1, 2] := by
  decide!

/-- C16: for a call resolved to a callee `g` with a summary, in a current
contract whose state variables are distinct declarations, the call predicate is
the summary of `g` applied to, in order: the error index at its next SSA index,
the current values of the state variables before the call, the values of the
argument expressions, the values of the state variables at the SSA index after
the one they had, and the current values of the return parameters of `g`; the
error index is refreshed.  When the call has as many arguments as `g` has
parameters and there is one state sort for each state variable, the number of
arguments of the predicate is the arity of the summary sort of `g`.  For a call
whose callee is not resolved the predicate is the constant true and the state
is left as it was. -/
theorem call_predicate_applies_callee_summary (call : Expression) (s : CHC) :
    (∀ (g : CalleeRef) (c : ContractDefinition) (block : smt.SymbolicFunctionVariable),
      call.callee = some g → s.m_currentContract = some c →
      (s.m_summaries.find? fun p => p.1 == g.id).map (·.2) = some block →
      (s.m_stateVariables.map (·.id)).Nodup →
      ∃ s1 args, CHC.predicateCall call s = .ok (block.app args) s1 ∧
        args = [s.m_error.increaseIndex.currentValue] ++
          (s.m_stateVariables.map fun v => (s.m_context.variableOf v).currentValue) ++
          (call.arguments.map fun arg => (s.m_context.expression arg.id).currentValue) ++
          (s.m_stateVariables.map fun v =>
            (s.m_context.variableOf v).increaseIndex.currentValue) ++
          (g.returnParameters.map fun v => (s1.m_context.variableOf v).currentValue) ∧
        s1.m_error = s.m_error.increaseIndex ∧
        ∀ gd : FunctionDefinition, gd.returnParameters = g.returnParameters →
          gd.parameters.length = call.arguments.length →
          s.m_stateSorts.length = s.m_stateVariables.length →
          ∃ sort, CHC.summarySort gd s1 = .ok sort s1 ∧ args.length = sort.domain.length) ∧
    (call.callee = none → CHC.predicateCall call s = .ok (.boolLit true) s) := by
  refine ⟨fun g c block hcal hcon hsum hnd => ?_, fun hcal => ?_⟩
  · refine ⟨_, _, CHC.predicateCall_run call g s c block hcal hcon hsum, ?_, rfl, ?_⟩
    · congr 2
      apply List.map_congr_left
      intro v hv
      unfold smt.EncodingContext.variableOf smt.SymbolicVariable.increaseIndex
      rw [smt.EncodingContext.index_foldl_increaseIndex _ _ _ hnd,
        if_pos (List.mem_map_of_mem _ hv)]
    · intro gd hret hpar hsorts
      refine ⟨_, rfl, ?_⟩
      simp only [List.length_append, List.length_map, List.length_cons, List.length_nil, hret,
        hpar, hsorts]
  · unfold CHC.predicateCall
    rw [hcal]
    rfl

theorem call_predicate_applies_callee_summary_witness :
    (∃ s1 args, CHC.predicateCall internalCall
        (atCall internalCall callingFunction callingContract fun _ _ => .UNSATISFIABLE) =
          .ok (smt.Expression.apply "summary_0_function_g_14" 0 args) s1 ∧
      ∃ sort, CHC.summarySort calledFunction s1 = .ok sort s1 ∧
        args.length = sort.domain.length) ∧
    (match CHC.predicateCall internalCall
        (atCall internalCall callingFunction callingContract fun _ _ => .UNSATISFIABLE) with
      | .ok e _ => some e
      | .abort _ _ => none) =
      some (.apply "summary_0_function_g_14" 0
        [.symbol "error" 1, .symbol "y_11" 1, .symbol "expr_16" 0, .symbol "y_11" 2,
          .symbol "r_13" 0]) := by
  obtain ⟨s1, args, h, -, -, hlen⟩ := (call_predicate_applies_callee_summary internalCall
    (atCall internalCall callingFunction callingContract fun _ _ => .UNSATISFIABLE)).1
    ⟨14, [r]⟩ callingContract
    ⟨"summary_0_function_g_14", ⟨[.Int, .Int, .Int, .Int, .Int], .Bool⟩, 0⟩
    rfl rfl (by decide!) (by decide!)
  exact ⟨⟨s1, args, h, hlen calledFunction rfl rfl (by decide!)⟩, by decide!⟩

/-- C19, as the code has it: for the body `do { if (c) break; } while (false);`
the walk over the loop returns, leads from the block `block_2_f_40` of the body
to the block `block_5_f_40` after the loop, and emits rules that contain exactly
three chains from the one to the other that enter no block twice: through the
break of the first visit of the body; through the loop header, the loop body
and the break of its second visit; and through the loop header alone.  The last
rule emitted is the back-edge, from the tail of the loop body to the loop
header, and none of the three chains contains it. -/
theorem do_while_break_has_three_chains_to_after_loop :
    (breakingLoop.accept
      (atBody breakingFunction breakingContract fun _ _ => .UNSATISFIABLE)).isOk = true ∧
    (atBody breakingFunction breakingContract
      fun _ _ => .UNSATISFIABLE).m_currentBlock.name = "block_2_f_40_0" ∧
    (breakingLoop.accept
      (atBody breakingFunction breakingContract
        fun _ _ => .UNSATISFIABLE)).state.m_currentBlock.name = "block_5_f_40_0" ∧
    smt.chainsOfCalls
      ((breakingLoop.accept
        (atBody breakingFunction breakingContract
          fun _ _ => .UNSATISFIABLE)).state.m_interface.calls.drop
        (atBody breakingFunction breakingContract
          fun _ _ => .UNSATISFIABLE).m_interface.calls.length)
      "block_2_f_40" "block_5_f_40" =
      [["block_2_f_40_0_to_block_6_if_header_f_36_0",
        "block_6_if_header_f_36_0_to_block_7_if_true_f_35_0",
        "block_7_if_true_f_35_0_to_block_5_f_40_0"],
       ["block_2_f_40_0_to_block_6_if_header_f_36_0",
        "block_6_if_header_f_36_0_to_block_8_f_40_0",
        "block_8_f_40_0_to_block_3_do_while_header_f_39_0",
        "block_3_do_while_header_f_39_0_to_block_4_do_while_body_f_37_0",
        "block_4_do_while_body_f_37_0_to_block_10_if_header_f_36_0",
        "block_10_if_header_f_36_0_to_block_11_if_true_f_35_0",
        "block_11_if_true_f_35_0_to_block_5_f_40_0"],
       ["block_2_f_40_0_to_block_6_if_header_f_36_0",
        "block_6_if_header_f_36_0_to_block_8_f_40_0",
        "block_8_f_40_0_to_block_3_do_while_header_f_39_0",
        "block_3_do_while_header_f_39_0_to_block_5_f_40_0"]] ∧
    ((breakingLoop.accept
        (atBody breakingFunction breakingContract
          fun _ _ => .UNSATISFIABLE)).state.m_interface.calls.reverse.filterMap
        smt.SolverCall.step).head? =
      some ("block_12_f_40", "block_3_do_while_header_f_39",
        "block_12_f_40_0_to_block_3_do_while_header_f_39_0") ∧
    ((smt.chainsOfCalls
      ((breakingLoop.accept
        (atBody breakingFunction breakingContract
          fun _ _ => .UNSATISFIABLE)).state.m_interface.calls.drop
        (atBody breakingFunction breakingContract
          fun _ _ => .UNSATISFIABLE).m_interface.calls.length)
      "block_2_f_40" "block_5_f_40").all fun chain =>
        !chain.contains "block_12_f_40_0_to_block_3_do_while_header_f_39_0") = true := by
  decide!

/-- C19, counterexample: for the body `do { if (c) break; } while (false);` the
rules emitted by the walk over the loop contain two different chains from the
block `block_2_f_40` preceding the loop to the block `block_5_f_40` after it:
one through the break of the first visit of the body, one through the loop
header. -/
theorem do_while_break_has_two_chains_to_after_loop :
    ["block_2_f_40_0_to_block_6_if_header_f_36_0",
      "block_6_if_header_f_36_0_to_block_7_if_true_f_35_0",
      "block_7_if_true_f_35_0_to_block_5_f_40_0"] ∈
      smt.chainsOfCalls
        ((breakingLoop.accept
          (atBody breakingFunction breakingContract
            fun _ _ => .UNSATISFIABLE)).state.m_interface.calls.drop
          (atBody breakingFunction breakingContract
            fun _ _ => .UNSATISFIABLE).m_interface.calls.length)
        "block_2_f_40" "block_5_f_40" ∧
    ["block_2_f_40_0_to_block_6_if_header_f_36_0",
      "block_6_if_header_f_36_0_to_block_8_f_40_0",
      "block_8_f_40_0_to_block_3_do_while_header_f_39_0",
      "block_3_do_while_header_f_39_0_to_block_5_f_40_0"] ∈
      smt.chainsOfCalls
        ((breakingLoop.accept
          (atBody breakingFunction breakingContract
            fun _ _ => .UNSATISFIABLE)).state.m_interface.calls.drop
          (atBody breakingFunction breakingContract
            fun _ _ => .UNSATISFIABLE).m_interface.calls.length)
        "block_2_f_40" "block_5_f_40" := by
  decide!

/-- C23: for a call expression of call-kind `FunctionCall`, `endVisit` erases
knowledge and sets `unknown_function_call_seen` when the function kind of the
callee is one of External, DelegateCall, BareCall, BareCallCode,
BareDelegateCall, BareStaticCall, Creation, KECCAK256, ECRecover, SHA256,
RIPEMD160, BlockHash, AddMod, MulMod: the base class gives the call its value,
then knowledge is erased and the flag is set, then the returned expressions are
created.  For every other function kind, and for a call that is not of call-kind
`FunctionCall`, the flag is left as it was, whether the visit returns or aborts;
the visit is then `visitAssert` followed by the base class (Assert),
`internalFunctionCall` (Internal) or the base class alone, each followed by the
creation of the returned expressions, and for a call of another call-kind the
base class alone. -/
theorem call_exit_flags_unknown_calls (call : Expression) (s : CHC) :
    (call.kind = .FunctionCall →
      call.functionKind ∈ [FunctionTypeKind.External, .DelegateCall, .BareCall,
        .BareCallCode, .BareDelegateCall, .BareStaticCall, .Creation, .KECCAK256, .ECRecover,
        .SHA256, .RIPEMD160, .BlockHash, .AddMod, .MulMod] →
      CHC.endVisitFunctionCall call s =
          SMTEncoder.createReturnedExpressions call
            { (CHC.eraseKnowledge (SMTEncoder.endVisitFunctionCall call s).state).state with
              m_unknownFunctionCallSeen := true } ∧
        (CHC.endVisitFunctionCall call s).state.m_unknownFunctionCallSeen = true) ∧
    (call.kind ≠ .FunctionCall ∨
        call.functionKind ∉ [FunctionTypeKind.External, .DelegateCall, .BareCall,
          .BareCallCode, .BareDelegateCall, .BareStaticCall, .Creation, .KECCAK256, .ECRecover,
          .SHA256, .RIPEMD160, .BlockHash, .AddMod, .MulMod] →
      (CHC.endVisitFunctionCall call s).state.m_unknownFunctionCallSeen =
        s.m_unknownFunctionCallSeen) ∧
    (call.kind = .FunctionCall → call.functionKind = .Assert →
      CHC.endVisitFunctionCall call s =
        ((CHC.visitAssert call >>= fun _ => SMTEncoder.endVisitFunctionCall call) >>= fun _ =>
          SMTEncoder.createReturnedExpressions call) s) ∧
    (call.kind = .FunctionCall → call.functionKind = .Internal →
      CHC.endVisitFunctionCall call s =
        (CHC.internalFunctionCall call >>= fun _ =>
          SMTEncoder.createReturnedExpressions call) s) ∧
    (call.kind = .FunctionCall →
      call.functionKind ∉ [FunctionTypeKind.Assert, .Internal, .External, .DelegateCall,
        .BareCall, .BareCallCode, .BareDelegateCall, .BareStaticCall, .Creation, .KECCAK256,
        .ECRecover, .SHA256, .RIPEMD160, .BlockHash, .AddMod, .MulMod] →
      CHC.endVisitFunctionCall call s =
        (SMTEncoder.endVisitFunctionCall call >>= fun _ =>
          SMTEncoder.createReturnedExpressions call) s) ∧
    (call.kind = .TypeConversion ∨ call.kind = .StructConstructorCall →
      CHC.endVisitFunctionCall call s = SMTEncoder.endVisitFunctionCall call s) := by
  refine ⟨CHC.endVisitFunctionCall_unknown call s, CHC.endVisitFunctionCall_known call s,
    ?_, ?_, ?_, ?_⟩
  · intro hk hf
    unfold CHC.endVisitFunctionCall
    simp only [hk, hf]
    rfl
  · intro hk hf
    unfold CHC.endVisitFunctionCall
    simp only [hk, hf]
    rfl
  · intro hk hf
    unfold CHC.endVisitFunctionCall
    simp only [hk]
    simp only [List.mem_cons, List.mem_singleton, List.not_mem_nil, or_false, not_or] at hf
    cases hfk : call.functionKind <;> simp only [hfk, not_true_eq_false, false_and, and_false,
      reduceCtorEq, not_false_eq_true, and_self] at hf <;> rfl
  · intro hk
    unfold CHC.endVisitFunctionCall
    rcases hk with hk | hk <;> simp only [hk] <;> rfl

theorem call_exit_flags_unknown_calls_witness :
    (externalCall.kind = .FunctionCall ∧
      externalCall.functionKind ∈ [FunctionTypeKind.External, .DelegateCall, .BareCall,
        .BareCallCode, .BareDelegateCall, .BareStaticCall, .Creation, .KECCAK256, .ECRecover,
        .SHA256, .RIPEMD160, .BlockHash, .AddMod, .MulMod]) ∧
    (atStatement ifExternal).m_unknownFunctionCallSeen = false ∧
    (CHC.endVisitFunctionCall externalCall
      (atStatement ifExternal)).state.m_unknownFunctionCallSeen = true :=
  ⟨⟨rfl, by decide⟩, by decide!,
    ((call_exit_flags_unknown_calls externalCall (atStatement ifExternal)).1 rfl
      (by decide)).2⟩

/-- C28: visiting an implemented function while another function is active
fails with an assertion error unless the active function is a constructor, the
visited function is a constructor and the scope of the visited constructor is
not the current contract.  In every other case the visit aborts in the state in
which it started, so before any predicate is created or any rule is emitted; in
the excepted case none of the three checks fails and the visit is the walk of
the base class. -/
theorem function_visit_while_active_is_fatal (inlineBases : Visitor Unit)
    (f g : FunctionDefinition) (s : CHC)
    (himpl : f.isImplemented = true) (hactive : s.m_currentFunction = some g) :
    (¬ (g.isConstructor = true ∧ f.isConstructor = true ∧
        s.m_currentContract.map (·.id) ≠ some f.scope) →
      CHC.visitFunctionDefinition inlineBases f s = .abort "" s) ∧
    (g.isConstructor = true → f.isConstructor = true →
      s.m_currentContract.map (·.id) ≠ some f.scope →
      CHC.visitFunctionDefinition inlineBases f s =
        (SMTEncoder.visitFunctionDefinition inlineBases f >>= fun _ => pure false) s) :=
  ⟨CHC.visitFunctionDefinition_active_abort inlineBases f g s himpl hactive,
    CHC.visitFunctionDefinition_active_base inlineBases f g s himpl hactive⟩

theorem function_visit_while_active_is_fatal_witness :
    (plainFunction.isImplemented = true ∧
      (atBody plainFunction plainContract fun _ _ => .UNSATISFIABLE).m_currentFunction =
        some plainFunction ∧
      ¬ (plainFunction.isConstructor = true ∧ plainFunction.isConstructor = true ∧
        (atBody plainFunction plainContract fun _ _ => .UNSATISFIABLE).m_currentContract.map
          (·.id) ≠ some plainFunction.scope)) ∧
    CHC.visitFunctionDefinition (pure ()) plainFunction
        (atBody plainFunction plainContract fun _ _ => .UNSATISFIABLE) =
      .abort "" (atBody plainFunction plainContract fun _ _ => .UNSATISFIABLE) :=
  ⟨⟨rfl, rfl, by decide⟩,
    (function_visit_while_active_is_fatal (pure ()) plainFunction plainFunction
      (atBody plainFunction plainContract fun _ _ => .UNSATISFIABLE) rfl rfl).1 (by decide)⟩

/-- C30: when the constructor `f` of a base contract is visited while the
constructor `g` of a derived contract is active (`f` is implemented, is declared
in another contract than the current one, and is another node than `g`), the
visit of `f` is the walk of the base class and nothing else, and the exit of
`f` leaves the state as it is: the two methods themselves create no predicate,
emit no rule and leave the current block and the current function alone.  The
current function is `g` when the walk of the base class ends, and when the
whole visit of `f` ends, whether they return or abort. -/
theorem base_constructor_visit_keeps_current_function (bases : List BaseContract)
    (f g : FunctionDefinition) (s : CHC)
    (himpl : f.isImplemented = true) (hactive : s.m_currentFunction = some g)
    (hg : g.isConstructor = true) (hf : f.isConstructor = true)
    (hscope : s.m_currentContract.map (·.id) ≠ some f.scope) (hid : g.id ≠ f.id)
    (hids : ∀ base ∈ bases, ∀ b, base.constructor = some b → g.id ≠ b.id) :
    CHC.visitFunctionDefinition (SMTEncoder.inlineConstructorHierarchy bases) f s =
        (SMTEncoder.visitFunctionDefinition (SMTEncoder.inlineConstructorHierarchy bases) f >>=
          fun _ => pure false) s ∧
      (∀ t : CHC, t.m_currentFunction = some g →
        t.m_currentContract.map (·.id) ≠ some f.scope →
        CHC.endVisitFunctionDefinition f t = .ok () t) ∧
      (CHC.visitFunctionDefinition (SMTEncoder.inlineConstructorHierarchy bases) f
        s).state.m_currentFunction = some g ∧
      (FunctionDefinition.accept (SMTEncoder.inlineConstructorHierarchy bases) f
        s).state.m_currentFunction = some g := by
  have hinl := SMTEncoder.inlineConstructorHierarchy_active g bases hids
  have hacc := FunctionDefinition.accept_active (SMTEncoder.inlineConstructorHierarchy bases)
    f g hinl hid s hactive
  refine ⟨CHC.visitFunctionDefinition_active_base _ f g s himpl hactive hg hf hscope,
    fun t ht htc => CHC.endVisitFunctionDefinition_active_base f g t himpl ht hg hf htc hid,
    ?_, hacc⟩
  unfold FunctionDefinition.accept at hacc
  rw [Visitor.bind_run] at hacc
  cases hr : CHC.visitFunctionDefinition (SMTEncoder.inlineConstructorHierarchy bases) f s with
  | abort msg t =>
    rw [hr] at hacc
    exact hacc
  | ok a t =>
    have hb := Visitor.bind_state_keeps (fun u => u.m_currentFunction = some g)
      (SMTEncoder.visitFunctionDefinition (SMTEncoder.inlineConstructorHierarchy bases) f)
      (fun _ => (pure false : Visitor Bool)) ?_ (fun _ _ h => h) s hactive
    · rw [← CHC.visitFunctionDefinition_active_base _ f g s himpl hactive hg hf hscope, hr] at hb
      exact hb
    · intro u hu
      unfold SMTEncoder.visitFunctionDefinition
      refine Visitor.bind_state_keeps (fun u => u.m_currentFunction = some g) _ _ ?_ ?_ u hu
      · intro v hv
        simp only [hf, ↓reduceIte]
        exact hinl v hv
      · intro _ v hv
        refine Visitor.bind_state_keeps (fun u => u.m_currentFunction = some g) _ _ ?_ ?_ v hv
        · intro w hw
          cases f.body with
          | none => exact hw
          | some body =>
            simp only
            rw [← hw]
            exact ((Statement.acceptStatement_frame body).run w).currentFunction
        · intro _ w hw
          exact hw

theorem base_constructor_visit_keeps_current_function_witness :
    (baseConstructor.isImplemented = true ∧
      (atBody emptyConstructor derivedContract fun _ _ => .UNSATISFIABLE).m_currentFunction =
        some emptyConstructor ∧
      emptyConstructor.isConstructor = true ∧ baseConstructor.isConstructor = true ∧
      (atBody emptyConstructor derivedContract fun _ _ => .UNSATISFIABLE).m_currentContract.map
        (·.id) ≠ some baseConstructor.scope ∧
      emptyConstructor.id ≠ baseConstructor.id) ∧
    (FunctionDefinition.accept (SMTEncoder.inlineConstructorHierarchy []) baseConstructor
      (atBody emptyConstructor derivedContract
        fun _ _ => .UNSATISFIABLE)).state.m_currentFunction = some emptyConstructor :=
  ⟨⟨rfl, rfl, rfl, rfl, by decide, by decide⟩,
    (base_constructor_visit_keeps_current_function [] baseConstructor emptyConstructor
      (atBody emptyConstructor derivedContract fun _ _ => .UNSATISFIABLE) rfl rfl rfl rfl
      (by decide) (by decide) (by intro base hb; cases hb)).2.2.2⟩

/-- C29, as the code has it: in a current contract whose state sorts are the
sorts of its `n` state variables, for every function `f` with `p` parameters,
`r` return parameters and `l` local variables: the summary predicate of `f` is
created with the domain (Int, state sorts, parameter sorts, state sorts, return
sorts), of length 1+2n+p+r, and `summary(f)` applies the summary predicate to
the error index, the state variables and the parameters at index 0, the state
variables and the return parameters at their current index, 1+2n+p+r arguments
in that order.  While `f` is the current function, the block of every node
other than a function definition is created with the domain (Int, state,
parameters, state, parameters, returns, locals), of length 1+2n+2p+r+l, and
`predicate(block)` applies a block to the current block variables, 1+2n+2p+r+l
arguments in that order.  The block of the function definition itself, the
function-entry block, is created with the domain (Int, state, parameters,
state, parameters, returns) without the locals, of length 1+2n+2p+r, which is
the number of the current function variables it is applied to. -/
theorem summary_and_block_sorts_match_their_arguments (f : FunctionDefinition) (s : CHC)
    (c : ContractDefinition) (hcon : s.m_currentContract = some c)
    (hsorts : s.m_stateSorts = s.m_stateVariables.map (·.sort)) :
    (∃ (block : smt.SymbolicFunctionVariable) (s1 : CHC),
      CHC.createSummaryBlock f s = .ok block s1 ∧
      block.sort.domain = [smt.SortPointer.Int] ++ s.m_stateVariables.map (·.sort) ++
        f.parameters.map (·.sort) ++ s.m_stateVariables.map (·.sort) ++
        f.returnParameters.map (·.sort) ∧
      block.sort.domain.length =
        1 + 2 * s.m_stateVariables.length + f.parameters.length + f.returnParameters.length) ∧
    (∀ block : smt.SymbolicFunctionVariable,
      (s.m_summaries.find? fun p => p.1 == f.id).map (·.2) = some block →
      ∃ arguments : List smt.Expression,
        CHC.summary f s = .ok (block.app arguments) s ∧
        arguments = [s.m_error.currentValue] ++
          (s.m_stateVariables.map fun v => (s.m_context.variableOf v).valueAtIndex 0) ++
          (f.parameters.map fun v => (s.m_context.variableOf v).valueAtIndex 0) ++
          (s.m_stateVariables.map fun v => (s.m_context.variableOf v).currentValue) ++
          (f.returnParameters.map fun v => (s.m_context.variableOf v).currentValue) ∧
        arguments.length =
          1 + 2 * s.m_stateVariables.length + f.parameters.length +
            f.returnParameters.length) ∧
    (s.m_currentFunction = some f → ∀ (i : Nat) (pfx : String),
      ∃ (block : smt.SymbolicFunctionVariable) (s1 : CHC),
        CHC.createBlock (.node i) pfx s = .ok block s1 ∧
        block.sort.domain = [smt.SortPointer.Int] ++ s.m_stateVariables.map (·.sort) ++
          f.parameters.map (·.sort) ++ s.m_stateVariables.map (·.sort) ++
          f.parameters.map (·.sort) ++ f.returnParameters.map (·.sort) ++
          f.localVariables.map (·.sort) ∧
        block.sort.domain.length =
          1 + 2 * s.m_stateVariables.length + 2 * f.parameters.length +
            f.returnParameters.length + f.localVariables.length) ∧
    (s.m_currentFunction = some f → ∀ block : smt.SymbolicFunctionVariable,
      ∃ arguments : List smt.Expression,
        CHC.predicate block s = .ok (block.app arguments) s ∧
        arguments = [s.m_error.currentValue] ++
          (s.m_stateVariables.map fun v => (s.m_context.variableOf v).valueAtIndex 0) ++
          (f.parameters.map fun v => (s.m_context.variableOf v).valueAtIndex 0) ++
          (s.m_stateVariables.map fun v => (s.m_context.variableOf v).currentValue) ++
          (f.parameters.map fun v => (s.m_context.variableOf v).currentValue) ++
          (f.returnParameters.map fun v => (s.m_context.variableOf v).currentValue) ++
          (f.localVariables.map fun v => (s.m_context.variableOf v).currentValue) ∧
        arguments.length =
          1 + 2 * s.m_stateVariables.length + 2 * f.parameters.length +
            f.returnParameters.length + f.localVariables.length) ∧
    (∀ pfx : String,
      ∃ (block : smt.SymbolicFunctionVariable) (s1 : CHC),
        CHC.createBlock (.function f) pfx s = .ok block s1 ∧
        block.sort.domain = [smt.SortPointer.Int] ++ s.m_stateVariables.map (·.sort) ++
          f.parameters.map (·.sort) ++ s.m_stateVariables.map (·.sort) ++
          f.parameters.map (·.sort) ++ f.returnParameters.map (·.sort) ∧
        block.sort.domain.length =
          1 + 2 * s.m_stateVariables.length + 2 * f.parameters.length +
            f.returnParameters.length) ∧
    (s.m_currentFunction = some f →
      ∃ arguments : List smt.Expression,
        CHC.currentFunctionVariables s = .ok arguments s ∧
        arguments.length =
          1 + 2 * s.m_stateVariables.length + 2 * f.parameters.length +
            f.returnParameters.length) := by
  refine ⟨?_, ?_, ?_, ?_, ?_, ?_⟩
  · obtain ⟨block, s1, h1, -, h3, -⟩ := CHC.createSummaryBlock_run f s
    refine ⟨block, s1, h1, ?_, ?_⟩
    · rw [h3, hsorts]
    · rw [h3, hsorts]
      simp only [List.length_append, List.length_map, List.length_singleton]
      omega
  · intro block hsum
    refine ⟨_, CHC.summary_run f s c block hcon hsum, rfl, ?_⟩
    simp only [List.length_append, List.length_map, List.length_singleton]
    omega
  · intro hcur i pfx
    obtain ⟨block, s1, h1, h2, -⟩ := CHC.createBlock_node_run i pfx s f hcur
    refine ⟨block, s1, h1, ?_, ?_⟩
    · rw [h2, hsorts]
    · rw [h2, hsorts]
      simp only [List.length_append, List.length_map, List.length_singleton]
      omega
  · intro hcur block
    refine ⟨_, CHC.predicate_run block s f c hcur hcon, rfl, ?_⟩
    simp only [List.length_append, List.length_map, List.length_singleton]
    omega
  · intro pfx
    obtain ⟨block, s1, h1, h2, -⟩ := CHC.createBlock_function_run f pfx s
    refine ⟨block, s1, h1, ?_, ?_⟩
    · rw [h2, hsorts]
    · rw [h2, hsorts]
      simp only [List.length_append, List.length_map, List.length_singleton]
      omega
  · intro hcur
    refine ⟨_, CHC.currentFunctionVariables_run s f c hcur hcon, ?_⟩
    simp only [List.length_append, List.length_map, List.length_singleton]
    omega

theorem summary_and_block_sorts_match_their_arguments_witness :
    ((atStatement ifExternal).m_currentContract =
        some (callingContractOf (callerOf ifExternal)) ∧
      (atStatement ifExternal).m_stateSorts =
        (atStatement ifExternal).m_stateVariables.map (·.sort) ∧
      (atStatement ifExternal).m_currentFunction = some (callerOf ifExternal)) ∧
    ∃ arguments : List smt.Expression,
      CHC.predicate ⟨"block", ⟨[], .Bool⟩, 0⟩ (atStatement ifExternal) =
        .ok (smt.Expression.apply "block" 0 arguments) (atStatement ifExternal) ∧
      arguments.length = 5 := by
  obtain ⟨arguments, h1, -, h3⟩ :=
    (summary_and_block_sorts_match_their_arguments (callerOf ifExternal)
      (atStatement ifExternal) (callingContractOf (callerOf ifExternal)) rfl
      (by decide!)).2.2.2.1 rfl ⟨"block", ⟨[], .Bool⟩, 0⟩
  exact ⟨⟨rfl, by decide!, rfl⟩, arguments, h1, by rw [h3]; decide!⟩

/-- C29, counterexample: the visit of `function f(uint x) public { uint z; }`,
with one parameter and one local variable in a contract without state
variables, registers the function-entry block with a domain of 3 sorts, without
the local variable, and the block of the body with a domain of 4 sorts. -/
theorem function_entry_block_sort_omits_locals :
    ((CHC.visitFunctionDefinition (pure ()) localFunction
        (atFunctions (contractOf localFunction)
          fun _ _ => .UNSATISFIABLE)).state.m_interface.calls.filterMap fun call =>
      match call with
      | .registerRelation name _ sort => some (name, sort.domain.length)
      | _ => none) =
      [("genesis", 0), ("summary_0_function_f_2", 2), ("interface_C_1", 0), ("error_C_1", 0),
       ("implicit_constructor_1", 0), ("block_1_function_f_2", 3), ("block_2_f_82", 4)] := by
  decide!

/-- C26, counterexample: the analysis of
`contract C { uint y; constructor() public {} }` returns, and the rules it
emits are the fact `genesis` and five rules between blocks; the entry block of
the constructor is implied by `genesis`, and no rule has `implicit_constructor`
on its left-hand side, so no chain of rules leads from `implicit_constructor`
to `interface`. -/
theorem explicit_constructor_is_entered_from_genesis :
    (CHC.analyze ⟨[constructorContract], true⟩
      (CHC.new fun _ _ => .UNSATISFIABLE)).isOk = true ∧
    (callsOf constructorContract).filter (fun name => !name.startsWith "register ") =
      ["genesis", "genesis_0_to_implicit_constructor_1_0",
       "genesis_0_to_block_1_constructor__2_0", "block_1_constructor__2_0_to_block_2_3_0",
       "block_2_3_0_to_constructor_exit_2_0", "constructor_exit_2_0_to_interface_C_1_0"] ∧
    rulesOf constructorContract =
      [("genesis", "implicit_constructor_1", "genesis_0_to_implicit_constructor_1_0"),
       ("genesis", "block_1_constructor__2", "genesis_0_to_block_1_constructor__2_0"),
       ("block_1_constructor__2", "block_2_3", "block_1_constructor__2_0_to_block_2_3_0"),
       ("block_2_3", "constructor_exit_2", "block_2_3_0_to_constructor_exit_2_0"),
       ("constructor_exit_2", "interface_C_1", "constructor_exit_2_0_to_interface_C_1_0")] ∧
    smt.chains (rulesOf constructorContract) 8 [] "implicit_constructor_1" "interface_C_1" =
      [] := by
  decide!

/-- C27, counterexample: the analysis of
`contract C { constructor(uint x) public { assert(x > 0); } }` returns, and
the visit of the assertion, while the constructor is the current function,
emits the rule `block_2_9 ⟹ summary_0_constructor__2`, whose head is the
summary predicate of the constructor. -/
theorem constructor_assertion_emits_summary_rule :
    (CHC.analyze ⟨[assertingConstructorContract], true⟩
      (CHC.new fun _ _ => .UNSATISFIABLE)).isOk = true ∧
    rulesOf assertingConstructorContract =
      [("genesis", "implicit_constructor_1", "genesis_0_to_implicit_constructor_1_0"),
       ("genesis", "block_1_constructor__2", "genesis_0_to_block_1_constructor__2_0"),
       ("block_1_constructor__2", "block_2_9", "block_1_constructor__2_0_to_block_2_9_0"),
       ("block_2_9", "summary_0_constructor__2", "block_2_9_0_to_summary_0_constructor__2_0"),
       ("block_2_9", "block_3_7", "block_2_9_0_to_block_3_7_0"),
       ("block_3_7", "constructor_exit_2", "block_3_7_0_to_constructor_exit_2_0"),
       ("constructor_exit_2", "interface_C_1", "constructor_exit_2_0_to_interface_C_1_0")] := by
  decide!

/-- C22: in a function with a body, of a current contract, whatever the state in
which a loop is visited, in particular inside the body of another loop whose
destinations are then in `break_dest` and `continue_dest`.  The visit of a while
loop, of a do-while loop and of a for loop registers its own blocks, among them
its own `after_loop`, and the states in which it walks its children are
determined step by step: each is what `setCurrentBlock` returns in the state
that the preceding walk returned, with the rules of the visit added (for the
first body walk of a do-while loop and for the initialization of a for loop, the
state of the visit with the registrations and the new destinations).  In each
of them `break_dest` is the loop's own `after_loop` predicate and
`continue_dest` its own header (its own post block for a for loop with a loop
expression); and when the walks over its children return, the visit returns
the state so determined, in which `break_dest` and `continue_dest` are the
values they had when the visit started.  A break visited with a break
destination emits the rule from the current block to that destination, and the
walk over any statement, or list of statements, that returns leaves both
destinations as they were: so a break directly in the inner body, after any
statements of that body, emits its rule to the inner `after_loop`, and a break
in the outer body after the inner loop emits its rule to the outer one. -/
theorem nested_loop_break_targets_inner_after_loop :
    (∀ (i : Nat) (cond : Expression) (body : Statement)
        (s : CHC) (f : FunctionDefinition) (fb : Statement) (c : ContractDefinition),
      s.m_currentFunction = some f → f.body = some fb → s.m_currentContract = some c →
      ∃ (header bodyBlock after : smt.SymbolicFunctionVariable) (s2 : CHC)
        (vars : List smt.Expression),
        CHC.currentBlockVariables s = .ok vars s ∧
        s2.m_interface.calls = s.m_interface.calls ++
          [.registerRelation header.uniqueName header.index header.sort,
           .registerRelation bodyBlock.uniqueName bodyBlock.index bodyBlock.sort,
           .registerRelation after.uniqueName after.index after.sort,
           CHC.edge s.m_currentBlock s.m_context.assertions (.boolLit true)
             (header.app vars)] ∧
        CHC.setCurrentBlock header none
          { s with
            m_interface := ⟨s.m_interface.calls ++
              [.registerRelation header.uniqueName header.index header.sort,
               .registerRelation bodyBlock.uniqueName bodyBlock.index bodyBlock.sort,
               .registerRelation after.uniqueName after.index after.sort,
               CHC.edge s.m_currentBlock s.m_context.assertions (.boolLit true)
                 (header.app vars)],
              s.m_interface.answer⟩
            m_breakDest := some after
            m_continueDest := some header
            m_unknownFunctionCallSeen := false
            m_blockCounter := s.m_blockCounter + 3 } = .ok () s2 ∧
        s2.m_breakDest = some after ∧ s2.m_continueDest = some header ∧
        ∀ s3, cond.accept s2 = .ok () s3 →
          ∃ (s4 : CHC) (vars3 : List smt.Expression),
            CHC.currentBlockVariables s3 = .ok vars3 s3 ∧
            s4.m_interface.calls = s3.m_interface.calls ++
              [CHC.edge s3.m_currentBlock s3.m_context.assertions
                 (s3.m_context.expression cond.id).currentValue (bodyBlock.app vars3),
               CHC.edge s3.m_currentBlock s3.m_context.assertions
                 (s3.m_context.expression cond.id).currentValue.not (after.app vars3)] ∧
            CHC.setCurrentBlock bodyBlock none
              { s3 with
                m_interface := ⟨s3.m_interface.calls ++
                  [CHC.edge s3.m_currentBlock s3.m_context.assertions
                     (s3.m_context.expression cond.id).currentValue (bodyBlock.app vars3),
                   CHC.edge s3.m_currentBlock s3.m_context.assertions
                     (s3.m_context.expression cond.id).currentValue.not (after.app vars3)],
                  s3.m_interface.answer⟩ } = .ok () s4 ∧
            s4.m_breakDest = some after ∧ s4.m_continueDest = some header ∧
            ∀ s5, body.accept s4 = .ok () s5 →
              ∃ (s6 : CHC) (vars5 : List smt.Expression),
                CHC.currentBlockVariables s5 = .ok vars5 s5 ∧
                s6.m_interface.calls = s5.m_interface.calls ++
                  [CHC.edge s5.m_currentBlock s5.m_context.assertions (.boolLit true)
                     (header.app vars5)] ∧
                CHC.setCurrentBlock after none
                  { s5 with
                    m_interface := ⟨s5.m_interface.calls ++
                      [CHC.edge s5.m_currentBlock s5.m_context.assertions (.boolLit true)
                         (header.app vars5)],
                      s5.m_interface.answer⟩
                    m_breakDest := s.m_breakDest
                    m_continueDest := s.m_continueDest } = .ok () s6 ∧
                (Statement.WhileStatement i cond body false).accept s =
                  .ok () (CHC.leaveStatement s.m_unknownFunctionCallSeen s6) ∧
                (CHC.leaveStatement s.m_unknownFunctionCallSeen s6).m_breakDest =
                  s.m_breakDest ∧
                (CHC.leaveStatement s.m_unknownFunctionCallSeen s6).m_continueDest =
                  s.m_continueDest) ∧
    (∀ (i : Nat) (cond : Expression) (body : Statement)
        (s : CHC) (f : FunctionDefinition) (fb : Statement) (c : ContractDefinition),
      s.m_currentFunction = some f → f.body = some fb → s.m_currentContract = some c →
      ∃ (header bodyBlock after : smt.SymbolicFunctionVariable) (s1 : CHC),
        s1 =
          { s with
            m_interface := ⟨s.m_interface.calls ++
              [.registerRelation header.uniqueName header.index header.sort,
               .registerRelation bodyBlock.uniqueName bodyBlock.index bodyBlock.sort,
               .registerRelation after.uniqueName after.index after.sort],
              s.m_interface.answer⟩
            m_breakDest := some after
            m_continueDest := some header
            m_unknownFunctionCallSeen := false
            m_blockCounter := s.m_blockCounter + 3 } ∧
        s1.m_breakDest = some after ∧ s1.m_continueDest = some header ∧
        ∀ s2, body.accept s1 = .ok () s2 →
          ∃ (s3 : CHC) (vars2 : List smt.Expression),
            CHC.currentBlockVariables s2 = .ok vars2 s2 ∧
            s3.m_interface.calls = s2.m_interface.calls ++
              [CHC.edge s2.m_currentBlock s2.m_context.assertions (.boolLit true)
                 (header.app vars2)] ∧
            CHC.setCurrentBlock header none
              { s2 with
                m_interface := ⟨s2.m_interface.calls ++
                  [CHC.edge s2.m_currentBlock s2.m_context.assertions (.boolLit true)
                     (header.app vars2)],
                  s2.m_interface.answer⟩ } = .ok () s3 ∧
            s3.m_breakDest = some after ∧ s3.m_continueDest = some header ∧
            ∀ s4, cond.accept s3 = .ok () s4 →
              ∃ (s5 : CHC) (vars4 : List smt.Expression),
                CHC.currentBlockVariables s4 = .ok vars4 s4 ∧
                s5.m_interface.calls = s4.m_interface.calls ++
                  [CHC.edge s4.m_currentBlock s4.m_context.assertions
                     (s4.m_context.expression cond.id).currentValue (bodyBlock.app vars4),
                   CHC.edge s4.m_currentBlock s4.m_context.assertions
                     (s4.m_context.expression cond.id).currentValue.not (after.app vars4)] ∧
                CHC.setCurrentBlock bodyBlock none
                  { s4 with
                    m_interface := ⟨s4.m_interface.calls ++
                      [CHC.edge s4.m_currentBlock s4.m_context.assertions
                         (s4.m_context.expression cond.id).currentValue (bodyBlock.app vars4),
                       CHC.edge s4.m_currentBlock s4.m_context.assertions
                         (s4.m_context.expression cond.id).currentValue.not (after.app vars4)],
                      s4.m_interface.answer⟩ } = .ok () s5 ∧
                s5.m_breakDest = some after ∧ s5.m_continueDest = some header ∧
                ∀ s6, body.accept s5 = .ok () s6 →
                  ∃ (s7 : CHC) (vars6 : List smt.Expression),
                    CHC.currentBlockVariables s6 = .ok vars6 s6 ∧
                    s7.m_interface.calls = s6.m_interface.calls ++
                      [CHC.edge s6.m_currentBlock s6.m_context.assertions (.boolLit true)
                         (header.app vars6)] ∧
                    CHC.setCurrentBlock after none
                      { s6 with
                        m_interface := ⟨s6.m_interface.calls ++
                          [CHC.edge s6.m_currentBlock s6.m_context.assertions (.boolLit true)
                             (header.app vars6)],
                          s6.m_interface.answer⟩
                        m_breakDest := s.m_breakDest
                        m_continueDest := s.m_continueDest } = .ok () s7 ∧
                    (Statement.WhileStatement i cond body true).accept s =
                      .ok () (CHC.leaveStatement s.m_unknownFunctionCallSeen s7) ∧
                    (CHC.leaveStatement s.m_unknownFunctionCallSeen s7).m_breakDest =
                      s.m_breakDest ∧
                    (CHC.leaveStatement s.m_unknownFunctionCallSeen s7).m_continueDest =
                      s.m_continueDest) ∧
    (∀ (i : Nat) (init : Option Statement) (cond : Option Expression)
        (body : Statement)
        (s : CHC) (f : FunctionDefinition) (fb : Statement) (c : ContractDefinition),
      s.m_currentFunction = some f → f.body = some fb → s.m_currentContract = some c →
      ∃ (header bodyBlock after : smt.SymbolicFunctionVariable) (s1 : CHC),
        s1 =
          { s with
            m_interface := ⟨s.m_interface.calls ++
              [.registerRelation header.uniqueName header.index header.sort,
               .registerRelation bodyBlock.uniqueName bodyBlock.index bodyBlock.sort,
               .registerRelation after.uniqueName after.index after.sort],
              s.m_interface.answer⟩
            m_breakDest := some after
            m_continueDest := some header
            m_unknownFunctionCallSeen := false
            m_blockCounter := s.m_blockCounter + 3 } ∧
        s1.m_breakDest = some after ∧ s1.m_continueDest = some header ∧
        ∀ s2,
          (init = none ∧ s2 = s1) ∨ (∃ st, init = some st ∧ st.accept s1 = .ok () s2) →
          ∃ (s3 : CHC) (vars2 : List smt.Expression),
            CHC.currentBlockVariables s2 = .ok vars2 s2 ∧
            s3.m_interface.calls = s2.m_interface.calls ++
              [CHC.edge s2.m_currentBlock s2.m_context.assertions (.boolLit true)
                 (header.app vars2)] ∧
            CHC.setCurrentBlock header none
              { s2 with
                m_interface := ⟨s2.m_interface.calls ++
                  [CHC.edge s2.m_currentBlock s2.m_context.assertions (.boolLit true)
                     (header.app vars2)],
                  s2.m_interface.answer⟩ } = .ok () s3 ∧
            s3.m_breakDest = some after ∧ s3.m_continueDest = some header ∧
            ∀ condition s4,
              (cond = none ∧ condition = .boolLit true ∧ s4 = s3) ∨
                (∃ e, cond = some e ∧ e.accept s3 = .ok () s4 ∧
                  condition = (s4.m_context.expression e.id).currentValue) →
              ∃ (s5 : CHC) (vars4 : List smt.Expression),
                CHC.currentBlockVariables s4 = .ok vars4 s4 ∧
                s5.m_interface.calls = s4.m_interface.calls ++
                  [CHC.edge s4.m_currentBlock s4.m_context.assertions condition
                     (bodyBlock.app vars4),
                   CHC.edge s4.m_currentBlock s4.m_context.assertions condition.not
                     (after.app vars4)] ∧
                CHC.setCurrentBlock bodyBlock none
                  { s4 with
                    m_interface := ⟨s4.m_interface.calls ++
                      [CHC.edge s4.m_currentBlock s4.m_context.assertions condition
                         (bodyBlock.app vars4),
                       CHC.edge s4.m_currentBlock s4.m_context.assertions condition.not
                         (after.app vars4)],
                      s4.m_interface.answer⟩ } = .ok () s5 ∧
                s5.m_breakDest = some after ∧ s5.m_continueDest = some header ∧
                ∀ s6, body.accept s5 = .ok () s6 →
                  ∃ (s9 : CHC) (vars8 : List smt.Expression),
                    CHC.currentBlockVariables s6 = .ok vars8 s6 ∧
                    s9.m_interface.calls = s6.m_interface.calls ++
                      [CHC.edge s6.m_currentBlock s6.m_context.assertions (.boolLit true)
                         (header.app vars8)] ∧
                    CHC.setCurrentBlock after none
                      { s6 with
                        m_interface := ⟨s6.m_interface.calls ++
                          [CHC.edge s6.m_currentBlock s6.m_context.assertions (.boolLit true)
                             (header.app vars8)],
                          s6.m_interface.answer⟩
                        m_breakDest := s.m_breakDest
                        m_continueDest := s.m_continueDest } = .ok () s9 ∧
                    (Statement.ForStatement i init cond none body).accept s =
                      .ok () (CHC.leaveStatement s.m_unknownFunctionCallSeen s9) ∧
                    (CHC.leaveStatement s.m_unknownFunctionCallSeen s9).m_breakDest =
                      s.m_breakDest ∧
                    (CHC.leaveStatement s.m_unknownFunctionCallSeen s9).m_continueDest =
                      s.m_continueDest) ∧
    (∀ (i : Nat) (init : Option Statement) (cond : Option Expression)
        (postLoop body : Statement)
        (s : CHC) (f : FunctionDefinition) (fb : Statement) (c : ContractDefinition),
      s.m_currentFunction = some f → f.body = some fb → s.m_currentContract = some c →
      ∃ (header bodyBlock after postBlock : smt.SymbolicFunctionVariable) (s1 : CHC),
        s1 =
          { s with
            m_interface := ⟨s.m_interface.calls ++
              [.registerRelation header.uniqueName header.index header.sort,
               .registerRelation bodyBlock.uniqueName bodyBlock.index bodyBlock.sort,
               .registerRelation after.uniqueName after.index after.sort,
               .registerRelation postBlock.uniqueName postBlock.index postBlock.sort],
              s.m_interface.answer⟩
            m_breakDest := some after
            m_continueDest := some postBlock
            m_unknownFunctionCallSeen := false
            m_blockCounter := s.m_blockCounter + 4 } ∧
        s1.m_breakDest = some after ∧ s1.m_continueDest = some postBlock ∧
        ∀ s2,
          (init = none ∧ s2 = s1) ∨ (∃ st, init = some st ∧ st.accept s1 = .ok () s2) →
          ∃ (s3 : CHC) (vars2 : List smt.Expression),
            CHC.currentBlockVariables s2 = .ok vars2 s2 ∧
            s3.m_interface.calls = s2.m_interface.calls ++
              [CHC.edge s2.m_currentBlock s2.m_context.assertions (.boolLit true)
                 (header.app vars2)] ∧
            CHC.setCurrentBlock header none
              { s2 with
                m_interface := ⟨s2.m_interface.calls ++
                  [CHC.edge s2.m_currentBlock s2.m_context.assertions (.boolLit true)
                     (header.app vars2)],
                  s2.m_interface.answer⟩ } = .ok () s3 ∧
            s3.m_breakDest = some after ∧ s3.m_continueDest = some postBlock ∧
            ∀ condition s4,
              (cond = none ∧ condition = .boolLit true ∧ s4 = s3) ∨
                (∃ e, cond = some e ∧ e.accept s3 = .ok () s4 ∧
                  condition = (s4.m_context.expression e.id).currentValue) →
              ∃ (s5 : CHC) (vars4 : List smt.Expression),
                CHC.currentBlockVariables s4 = .ok vars4 s4 ∧
                s5.m_interface.calls = s4.m_interface.calls ++
                  [CHC.edge s4.m_currentBlock s4.m_context.assertions condition
                     (bodyBlock.app vars4),
                   CHC.edge s4.m_currentBlock s4.m_context.assertions condition.not
                     (after.app vars4)] ∧
                CHC.setCurrentBlock bodyBlock none
                  { s4 with
                    m_interface := ⟨s4.m_interface.calls ++
                      [CHC.edge s4.m_currentBlock s4.m_context.assertions condition
                         (bodyBlock.app vars4),
                       CHC.edge s4.m_currentBlock s4.m_context.assertions condition.not
                         (after.app vars4)],
                      s4.m_interface.answer⟩ } = .ok () s5 ∧
                s5.m_breakDest = some after ∧ s5.m_continueDest = some postBlock ∧
                ∀ s6, body.accept s5 = .ok () s6 →
                  ∃ (s7 : CHC) (vars6 : List smt.Expression),
                    CHC.currentBlockVariables s6 = .ok vars6 s6 ∧
                    s7.m_interface.calls = s6.m_interface.calls ++
                      [CHC.edge s6.m_currentBlock s6.m_context.assertions (.boolLit true)
                         (postBlock.app vars6)] ∧
                    CHC.setCurrentBlock postBlock none
                      { s6 with
                        m_interface := ⟨s6.m_interface.calls ++
                          [CHC.edge s6.m_currentBlock s6.m_context.assertions (.boolLit true)
                             (postBlock.app vars6)],
                          s6.m_interface.answer⟩ } = .ok () s7 ∧
                    s7.m_breakDest = some after ∧ s7.m_continueDest = some postBlock ∧
                    ∀ s8, postLoop.accept s7 = .ok () s8 →
                      ∃ (s9 : CHC) (vars8 : List smt.Expression),
                        CHC.currentBlockVariables s8 = .ok vars8 s8 ∧
                        s9.m_interface.calls = s8.m_interface.calls ++
                          [CHC.edge s8.m_currentBlock s8.m_context.assertions (.boolLit true)
                             (header.app vars8)] ∧
                        CHC.setCurrentBlock after none
                          { s8 with
                            m_interface := ⟨s8.m_interface.calls ++
                              [CHC.edge s8.m_currentBlock s8.m_context.assertions (.boolLit true)
                                 (header.app vars8)],
                              s8.m_interface.answer⟩
                            m_breakDest := s.m_breakDest
                            m_continueDest := s.m_continueDest } = .ok () s9 ∧
                        (Statement.ForStatement i init cond (some postLoop) body).accept s =
                          .ok () (CHC.leaveStatement s.m_unknownFunctionCallSeen s9) ∧
                        (CHC.leaveStatement s.m_unknownFunctionCallSeen s9).m_breakDest =
                          s.m_breakDest ∧
                        (CHC.leaveStatement s.m_unknownFunctionCallSeen s9).m_continueDest =
                          s.m_continueDest) ∧
    (∀ (i : Nat) (s : CHC) (f : FunctionDefinition) (c : ContractDefinition)
      (dest : smt.SymbolicFunctionVariable),
      s.m_currentFunction = some f → s.m_currentContract = some c →
      s.m_breakDest = some dest →
      ∃ (ghost : smt.SymbolicFunctionVariable) (vars : List smt.Expression) (s1 : CHC),
        CHC.currentBlockVariables s = .ok vars s ∧
        (Statement.Break i).accept s = .ok () s1 ∧
        s1.m_interface.calls = s.m_interface.calls ++
          [CHC.edge s.m_currentBlock s.m_context.assertions (.boolLit true) (dest.app vars),
           .registerRelation ghost.uniqueName ghost.index ghost.sort] ∧
        s1.m_breakDest = s.m_breakDest ∧ s1.m_continueDest = s.m_continueDest) ∧
    (∀ (st : Statement) (s s1 : CHC), st.accept s = .ok () s1 →
      s1.m_breakDest = s.m_breakDest ∧ s1.m_continueDest = s.m_continueDest) ∧
    (∀ (statements : List Statement) (s s1 : CHC),
      Statement.acceptAll statements s = .ok () s1 →
      s1.m_breakDest = s.m_breakDest ∧ s1.m_continueDest = s.m_continueDest) := by
  refine ⟨?_, ?_, ?_, ?_, ?_, ?_, ?_⟩
  · intro i cond body s f fb c hcur hfb hcon
    obtain ⟨header, bodyBlock, after, s2, vars, vars2, v0, calls0, -, -, bd0, cd0, -, tie0, hnext0⟩ :=
      CHC.visitWhileStatement_steps i cond body s f fb c hcur hfb hcon
    refine ⟨header, bodyBlock, after, s2, vars, v0, calls0, tie0, bd0, cd0, ?_⟩
    intro s3 hw1
    obtain ⟨s4, vars3, w1, v1, calls1, -, -, bd1, cd1, -, tie1, hnext1⟩ :=
      hnext0 s3 hw1
    refine ⟨s4, vars3, v1, calls1, tie1, bd1, cd1, ?_⟩
    intro s5 hw2
    obtain ⟨s6, vars5, w2, run, v2, calls2, -, bd2, cd2, -, tie2⟩ :=
      hnext1 s5 hw2
    exact ⟨s6,
      vars5,
      v2,
      calls2,
      tie2,
      run,
      by rw [CHC.leaveStatement_breakDest]; exact bd2,
      by rw [CHC.leaveStatement_continueDest]; exact cd2⟩
  · intro i cond body s f fb c hcur hfb hcon
    obtain ⟨header, bodyBlock, after, s1, -, -, bd0, cd0, -, tie0, hnext0⟩ :=
      CHC.visitDoWhileStatement_steps i cond body s f fb c hcur hfb hcon
    refine ⟨header, bodyBlock, after, s1, tie0, bd0, cd0, ?_⟩
    intro s2 hw1
    obtain ⟨s3, vars2, w1, v1, calls1, -, -, bd1, cd1, -, tie1, hnext1⟩ :=
      hnext0 s2 hw1
    refine ⟨s3, vars2, v1, calls1, tie1, bd1, cd1, ?_⟩
    intro s4 hw2
    obtain ⟨s5, vars4, w2, v2, calls2, -, -, bd2, cd2, -, tie2, hnext2⟩ :=
      hnext1 s4 hw2
    refine ⟨s5, vars4, v2, calls2, tie2, bd2, cd2, ?_⟩
    intro s6 hw3
    obtain ⟨s7, vars6, w3, run, v3, calls3, -, bd3, cd3, -, tie3⟩ :=
      hnext2 s6 hw3
    exact ⟨s7,
      vars6,
      v3,
      calls3,
      tie3,
      run,
      by rw [CHC.leaveStatement_breakDest]; exact bd3,
      by rw [CHC.leaveStatement_continueDest]; exact cd3⟩
  · intro i init cond body s f fb c hcur hfb hcon
    obtain ⟨header, bodyBlock, after, s1, -, -, bd0, cd0, -, tie0, hnext0⟩ :=
      CHC.visitForStatement_steps i init cond body s f fb c hcur hfb hcon
    refine ⟨header, bodyBlock, after, s1, tie0, bd0, cd0, ?_⟩
    intro s2 hw1
    obtain ⟨s3, vars2, w1, v1, calls1, -, -, bd1, cd1, -, tie1, hnext1⟩ :=
      hnext0 s2 hw1
    refine ⟨s3, vars2, v1, calls1, tie1, bd1, cd1, ?_⟩
    intro condition s4 hw2
    obtain ⟨s5, vars4, w2, v2, calls2, -, -, bd2, cd2, -, tie2, hnext2⟩ :=
      hnext1 condition s4 hw2
    refine ⟨s5, vars4, v2, calls2, tie2, bd2, cd2, ?_⟩
    intro s6 hw3
    obtain ⟨s9, vars8, w3, run, v3, calls3, -, bd3, cd3, -, tie3⟩ :=
      hnext2 s6 hw3
    exact ⟨s9,
      vars8,
      v3,
      calls3,
      tie3,
      run,
      by rw [CHC.leaveStatement_breakDest]; exact bd3,
      by rw [CHC.leaveStatement_continueDest]; exact cd3⟩
  · intro i init cond postLoop body s f fb c hcur hfb hcon
    obtain ⟨header, bodyBlock, after, postBlock, s1, -, -, bd0, cd0, -, tie0, hnext0⟩ :=
      CHC.visitForStatement_steps_post i init cond postLoop body s f fb c hcur hfb hcon
    refine ⟨header, bodyBlock, after, postBlock, s1, tie0, bd0, cd0, ?_⟩
    intro s2 hw1
    obtain ⟨s3, vars2, w1, v1, calls1, -, -, bd1, cd1, -, tie1, hnext1⟩ :=
      hnext0 s2 hw1
    refine ⟨s3, vars2, v1, calls1, tie1, bd1, cd1, ?_⟩
    intro condition s4 hw2
    obtain ⟨s5, vars4, w2, v2, calls2, -, -, bd2, cd2, -, tie2, hnext2⟩ :=
      hnext1 condition s4 hw2
    refine ⟨s5, vars4, v2, calls2, tie2, bd2, cd2, ?_⟩
    intro s6 hw3
    obtain ⟨s7, vars6, w3, v3, calls3, -, -, bd3, cd3, -, tie3, hnext3⟩ :=
      hnext2 s6 hw3
    refine ⟨s7, vars6, v3, calls3, tie3, bd3, cd3, ?_⟩
    intro s8 hw4
    obtain ⟨s9, vars8, w4, run, v4, calls4, -, bd4, cd4, -, tie4⟩ :=
      hnext3 s8 hw4
    exact ⟨s9,
      vars8,
      v4,
      calls4,
      tie4,
      run,
      by rw [CHC.leaveStatement_breakDest]; exact bd4,
      by rw [CHC.leaveStatement_continueDest]; exact cd4⟩
  · intro i s f c dest hcur hcon hdest
    obtain ⟨ghost, vars, h1, -, h3⟩ := CHC.endVisitBreak_run i s f c dest hcur hcon hdest
    exact ⟨ghost, vars, _, h1, h3, rfl, rfl, rfl⟩
  · intro st s s1 h
    exact (Statement.acceptStatement_dests st s.m_breakDest s.m_continueDest).run s () s1
      ⟨rfl, rfl⟩ h
  · intro statements s s1 h
    exact (Statement.acceptStatements_dests statements s.m_breakDest s.m_continueDest).run
      s () s1 ⟨rfl, rfl⟩ h

theorem nested_loop_break_targets_inner_after_loop_witness :
    (atLoopBody.m_currentFunction = some (callerOf nestedLoops) ∧
      (callerOf nestedLoops).body = some (.Block 19 [nestedLoops]) ∧
      atLoopBody.m_currentContract = some (callingContractOf (callerOf nestedLoops))) ∧
    (∃ (after : smt.SymbolicFunctionVariable) (s2 : CHC),
      s2.m_interface.calls.length = atLoopBody.m_interface.calls.length + 4 ∧
      ∀ s3, positive.accept s2 = .ok () s3 →
        ∃ s4 : CHC, s4.m_breakDest = some after ∧
          ∀ s5, (Statement.Block 71 [.Break 70]).accept s4 = .ok () s5 →
            ∃ s9 : CHC, innerLoop.accept atLoopBody = .ok () s9 ∧
              s9.m_breakDest = atLoopBody.m_breakDest ∧
              s9.m_continueDest = atLoopBody.m_continueDest) ∧
    atLoopBody.m_breakDest.map (·.uniqueName) = some "block_6_f_19" ∧
    stepsOf nestedLoops (callerOf nestedLoops) (callingContractOf (callerOf nestedLoops)) =
      [("block_3_f_19", "block_4_while_header_f_75",
        "block_3_f_19_0_to_block_4_while_header_f_75_0"),
       ("block_4_while_header_f_75", "block_5_while_body_f_74",
        "block_4_while_header_f_75_0_to_block_5_while_body_f_74_0"),
       ("block_4_while_header_f_75", "block_6_f_19",
        "block_4_while_header_f_75_0_to_block_6_f_19_0"),
       ("block_5_while_body_f_74", "block_7_while_header_f_72",
        "block_5_while_body_f_74_0_to_block_7_while_header_f_72_0"),
       ("block_7_while_header_f_72", "block_8_while_body_f_71",
        "block_7_while_header_f_72_0_to_block_8_while_body_f_71_0"),
       ("block_7_while_header_f_72", "block_9_f_19",
        "block_7_while_header_f_72_0_to_block_9_f_19_0"),
       ("block_8_while_body_f_71", "block_9_f_19",
        "block_8_while_body_f_71_0_to_block_9_f_19_0"),
       ("block_10_break_ghost_f_70", "block_7_while_header_f_72",
        "block_10_break_ghost_f_70_0_to_block_7_while_header_f_72_0"),
       ("block_9_f_19", "block_6_f_19", "block_9_f_19_0_to_block_6_f_19_0"),
       ("block_11_break_ghost_f_73", "block_4_while_header_f_75",
        "block_11_break_ghost_f_73_0_to_block_4_while_header_f_75_0")] := by
  have hcur : atLoopBody.m_currentFunction = some (callerOf nestedLoops) :=
    Example.atLoopBody_frame.currentFunction
  have hcon : atLoopBody.m_currentContract = some (callingContractOf (callerOf nestedLoops)) :=
    Example.atLoopBody_frame.currentContract
  obtain ⟨header, bodyBlock, after, s2, vars, -, hcalls, -, -, -, hnext⟩ :=
    nested_loop_break_targets_inner_after_loop.1 72 positive (.Block 71 [.Break 70])
      atLoopBody (callerOf nestedLoops) (.Block 19 [nestedLoops])
      (callingContractOf (callerOf nestedLoops)) hcur rfl hcon
  refine ⟨⟨hcur, rfl, hcon⟩, ⟨after, s2, ?_, fun s3 h3 => ?_⟩, by decide!, by decide!⟩
  · rw [hcalls, List.length_append]
    rfl
  · obtain ⟨s4, vars3, -, -, -, hbd, -, hbody⟩ := hnext s3 h3
    refine ⟨s4, hbd, fun s5 h5 => ?_⟩
    obtain ⟨s6, vars5, -, -, -, hrun, hb, hc⟩ := hbody s5 h5
    exact ⟨_, hrun, hb, hc⟩

/-- C24, as the code has it: in a function with a body, of a current contract,
the visit of an if statement (with or without else), of a while loop, of a
do-while loop and of a for loop (with or without loop expression) sets
`unknown_function_call_seen` to false before its children are visited and does
not change it between their visits.  The states in which it walks its children
are determined step by step: each is what `setCurrentBlock` returns in the
state that the preceding walk returned, with the rules of the visit added.
When the visits of its children return, the visit returns: from the state that
the last child returned it has added its last rule and set `current_block` to
the statement's after-block; then, if `unknown_function_call_seen` is true as
the last child left it, the state it returns is the one that `erase_knowledge`
returns from there, invoked once, and if it is false it is that state itself,
`erase_knowledge` not invoked; in both cases with the flag put back to the
value it had when the visit started. -/
theorem composite_statement_erases_if_flag_is_set_at_its_end :
    (∀ (i : Nat) (cond : Expression) (trueStatement : Statement)
        (s : CHC) (f : FunctionDefinition) (fb : Statement) (c : ContractDefinition),
      s.m_currentFunction = some f → f.body = some fb → s.m_currentContract = some c →
      ∃ (header trueBlock after : smt.SymbolicFunctionVariable) (s2 : CHC)
        (vars : List smt.Expression),
        CHC.currentBlockVariables s = .ok vars s ∧
        s2.m_interface.calls = s.m_interface.calls ++
          [.registerRelation header.uniqueName header.index header.sort,
           .registerRelation trueBlock.uniqueName trueBlock.index trueBlock.sort,
           .registerRelation after.uniqueName after.index after.sort,
           CHC.edge s.m_currentBlock s.m_context.assertions (.boolLit true)
             (header.app vars)] ∧
        CHC.setCurrentBlock header none
          { s with
            m_interface := ⟨s.m_interface.calls ++
              [.registerRelation header.uniqueName header.index header.sort,
               .registerRelation trueBlock.uniqueName trueBlock.index trueBlock.sort,
               .registerRelation after.uniqueName after.index after.sort,
               CHC.edge s.m_currentBlock s.m_context.assertions (.boolLit true)
                 (header.app vars)],
              s.m_interface.answer⟩
            m_unknownFunctionCallSeen := false
            m_blockCounter := s.m_blockCounter + 3 } = .ok () s2 ∧
        s2.m_unknownFunctionCallSeen = false ∧
        ∀ s3, cond.accept s2 = .ok () s3 →
          ∃ (s4 : CHC) (vars3 : List smt.Expression),
            CHC.currentBlockVariables s3 = .ok vars3 s3 ∧
            s4.m_interface.calls = s3.m_interface.calls ++
              [CHC.edge s3.m_currentBlock s3.m_context.assertions
                 (s3.m_context.expression cond.id).currentValue (trueBlock.app vars3),
               CHC.edge s3.m_currentBlock s3.m_context.assertions
                 (s3.m_context.expression cond.id).currentValue.not (after.app vars3)] ∧
            CHC.setCurrentBlock trueBlock none
              { s3 with
                m_interface := ⟨s3.m_interface.calls ++
                  [CHC.edge s3.m_currentBlock s3.m_context.assertions
                     (s3.m_context.expression cond.id).currentValue (trueBlock.app vars3),
                   CHC.edge s3.m_currentBlock s3.m_context.assertions
                     (s3.m_context.expression cond.id).currentValue.not (after.app vars3)],
                  s3.m_interface.answer⟩ } = .ok () s4 ∧
            s4.m_unknownFunctionCallSeen = s3.m_unknownFunctionCallSeen ∧
            ∀ s5, trueStatement.accept s4 = .ok () s5 →
              ∃ (s6 : CHC) (vars5 arguments : List smt.Expression),
                CHC.currentBlockVariables s5 = .ok vars5 s5 ∧
                s6.m_interface.calls = s5.m_interface.calls ++
                  [CHC.edge s5.m_currentBlock s5.m_context.assertions (.boolLit true)
                     (after.app vars5)] ∧
                CHC.setCurrentBlock after none
                  { s5 with
                    m_interface := ⟨s5.m_interface.calls ++
                      [CHC.edge s5.m_currentBlock s5.m_context.assertions (.boolLit true)
                         (after.app vars5)],
                      s5.m_interface.answer⟩ } = .ok () s6 ∧
                (Statement.IfStatement i cond trueStatement none).accept s =
                  .ok () (CHC.leaveStatement s.m_unknownFunctionCallSeen s6) ∧
                s6.m_currentBlock = after.app arguments ∧
                s6.m_unknownFunctionCallSeen = s5.m_unknownFunctionCallSeen ∧
                (s5.m_unknownFunctionCallSeen = true →
                  CHC.leaveStatement s.m_unknownFunctionCallSeen s6 =
                    { (CHC.eraseKnowledge s6).state with
                      m_unknownFunctionCallSeen := s.m_unknownFunctionCallSeen }) ∧
                (s5.m_unknownFunctionCallSeen = false →
                  CHC.leaveStatement s.m_unknownFunctionCallSeen s6 =
                    { s6 with m_unknownFunctionCallSeen := s.m_unknownFunctionCallSeen })) ∧
    (∀ (i : Nat) (cond : Expression) (trueStatement falseStatement : Statement)
        (s : CHC) (f : FunctionDefinition) (fb : Statement) (c : ContractDefinition),
      s.m_currentFunction = some f → f.body = some fb → s.m_currentContract = some c →
      ∃ (header trueBlock falseBlock after : smt.SymbolicFunctionVariable) (s2 : CHC)
        (vars : List smt.Expression),
        CHC.currentBlockVariables s = .ok vars s ∧
        s2.m_interface.calls = s.m_interface.calls ++
          [.registerRelation header.uniqueName header.index header.sort,
           .registerRelation trueBlock.uniqueName trueBlock.index trueBlock.sort,
           .registerRelation falseBlock.uniqueName falseBlock.index falseBlock.sort,
           .registerRelation after.uniqueName after.index after.sort,
           CHC.edge s.m_currentBlock s.m_context.assertions (.boolLit true)
             (header.app vars)] ∧
        CHC.setCurrentBlock header none
          { s with
            m_interface := ⟨s.m_interface.calls ++
              [.registerRelation header.uniqueName header.index header.sort,
               .registerRelation trueBlock.uniqueName trueBlock.index trueBlock.sort,
               .registerRelation falseBlock.uniqueName falseBlock.index falseBlock.sort,
               .registerRelation after.uniqueName after.index after.sort,
               CHC.edge s.m_currentBlock s.m_context.assertions (.boolLit true)
                 (header.app vars)],
              s.m_interface.answer⟩
            m_unknownFunctionCallSeen := false
            m_blockCounter := s.m_blockCounter + 4 } = .ok () s2 ∧
        s2.m_unknownFunctionCallSeen = false ∧
        ∀ s3, cond.accept s2 = .ok () s3 →
          ∃ (s4 : CHC) (vars3 : List smt.Expression),
            CHC.currentBlockVariables s3 = .ok vars3 s3 ∧
            s4.m_interface.calls = s3.m_interface.calls ++
              [CHC.edge s3.m_currentBlock s3.m_context.assertions
                 (s3.m_context.expression cond.id).currentValue (trueBlock.app vars3),
               CHC.edge s3.m_currentBlock s3.m_context.assertions
                 (s3.m_context.expression cond.id).currentValue.not (falseBlock.app vars3)] ∧
            CHC.setCurrentBlock trueBlock none
              { s3 with
                m_interface := ⟨s3.m_interface.calls ++
                  [CHC.edge s3.m_currentBlock s3.m_context.assertions
                     (s3.m_context.expression cond.id).currentValue (trueBlock.app vars3),
                   CHC.edge s3.m_currentBlock s3.m_context.assertions
                     (s3.m_context.expression cond.id).currentValue.not (falseBlock.app vars3)],
                  s3.m_interface.answer⟩ } = .ok () s4 ∧
            s4.m_unknownFunctionCallSeen = s3.m_unknownFunctionCallSeen ∧
            ∀ s5, trueStatement.accept s4 = .ok () s5 →
              ∃ (s6 : CHC) (vars5 : List smt.Expression),
                CHC.currentBlockVariables s5 = .ok vars5 s5 ∧
                s6.m_interface.calls = s5.m_interface.calls ++
                  [CHC.edge s5.m_currentBlock s5.m_context.assertions (.boolLit true)
                     (after.app vars5)] ∧
                CHC.setCurrentBlock falseBlock none
                  { s5 with
                    m_interface := ⟨s5.m_interface.calls ++
                      [CHC.edge s5.m_currentBlock s5.m_context.assertions (.boolLit true)
                         (after.app vars5)],
                      s5.m_interface.answer⟩ } = .ok () s6 ∧
                s6.m_unknownFunctionCallSeen = s5.m_unknownFunctionCallSeen ∧
                ∀ s7, falseStatement.accept s6 = .ok () s7 →
                  ∃ (s8 : CHC) (vars7 arguments : List smt.Expression),
                    CHC.currentBlockVariables s7 = .ok vars7 s7 ∧
                    s8.m_interface.calls = s7.m_interface.calls ++
                      [CHC.edge s7.m_currentBlock s7.m_context.assertions (.boolLit true)
                         (after.app vars7)] ∧
                    CHC.setCurrentBlock after none
                      { s7 with
                        m_interface := ⟨s7.m_interface.calls ++
                          [CHC.edge s7.m_currentBlock s7.m_context.assertions (.boolLit true)
                             (after.app vars7)],
                          s7.m_interface.answer⟩ } = .ok () s8 ∧
                    (Statement.IfStatement i cond trueStatement (some falseStatement)).accept s =
                      .ok () (CHC.leaveStatement s.m_unknownFunctionCallSeen s8) ∧
                    s8.m_currentBlock = after.app arguments ∧
                    s8.m_unknownFunctionCallSeen = s7.m_unknownFunctionCallSeen ∧
                    (s7.m_unknownFunctionCallSeen = true →
                      CHC.leaveStatement s.m_unknownFunctionCallSeen s8 =
                        { (CHC.eraseKnowledge s8).state with
                          m_unknownFunctionCallSeen := s.m_unknownFunctionCallSeen }) ∧
                    (s7.m_unknownFunctionCallSeen = false →
                      CHC.leaveStatement s.m_unknownFunctionCallSeen s8 =
                        { s8 with m_unknownFunctionCallSeen := s.m_unknownFunctionCallSeen })) ∧
    (∀ (i : Nat) (cond : Expression) (body : Statement)
        (s : CHC) (f : FunctionDefinition) (fb : Statement) (c : ContractDefinition),
      s.m_currentFunction = some f → f.body = some fb → s.m_currentContract = some c →
      ∃ (header bodyBlock after : smt.SymbolicFunctionVariable) (s2 : CHC)
        (vars : List smt.Expression),
        CHC.currentBlockVariables s = .ok vars s ∧
        s2.m_interface.calls = s.m_interface.calls ++
          [.registerRelation header.uniqueName header.index header.sort,
           .registerRelation bodyBlock.uniqueName bodyBlock.index bodyBlock.sort,
           .registerRelation after.uniqueName after.index after.sort,
           CHC.edge s.m_currentBlock s.m_context.assertions (.boolLit true)
             (header.app vars)] ∧
        CHC.setCurrentBlock header none
          { s with
            m_interface := ⟨s.m_interface.calls ++
              [.registerRelation header.uniqueName header.index header.sort,
               .registerRelation bodyBlock.uniqueName bodyBlock.index bodyBlock.sort,
               .registerRelation after.uniqueName after.index after.sort,
               CHC.edge s.m_currentBlock s.m_context.assertions (.boolLit true)
                 (header.app vars)],
              s.m_interface.answer⟩
            m_breakDest := some after
            m_continueDest := some header
            m_unknownFunctionCallSeen := false
            m_blockCounter := s.m_blockCounter + 3 } = .ok () s2 ∧
        s2.m_unknownFunctionCallSeen = false ∧
        ∀ s3, cond.accept s2 = .ok () s3 →
          ∃ (s4 : CHC) (vars3 : List smt.Expression),
            CHC.currentBlockVariables s3 = .ok vars3 s3 ∧
            s4.m_interface.calls = s3.m_interface.calls ++
              [CHC.edge s3.m_currentBlock s3.m_context.assertions
                 (s3.m_context.expression cond.id).currentValue (bodyBlock.app vars3),
               CHC.edge s3.m_currentBlock s3.m_context.assertions
                 (s3.m_context.expression cond.id).currentValue.not (after.app vars3)] ∧
            CHC.setCurrentBlock bodyBlock none
              { s3 with
                m_interface := ⟨s3.m_interface.calls ++
                  [CHC.edge s3.m_currentBlock s3.m_context.assertions
                     (s3.m_context.expression cond.id).currentValue (bodyBlock.app vars3),
                   CHC.edge s3.m_currentBlock s3.m_context.assertions
                     (s3.m_context.expression cond.id).currentValue.not (after.app vars3)],
                  s3.m_interface.answer⟩ } = .ok () s4 ∧
            s4.m_unknownFunctionCallSeen = s3.m_unknownFunctionCallSeen ∧
            ∀ s5, body.accept s4 = .ok () s5 →
              ∃ (s6 : CHC) (vars5 arguments : List smt.Expression),
                CHC.currentBlockVariables s5 = .ok vars5 s5 ∧
                s6.m_interface.calls = s5.m_interface.calls ++
                  [CHC.edge s5.m_currentBlock s5.m_context.assertions (.boolLit true)
                     (header.app vars5)] ∧
                CHC.setCurrentBlock after none
                  { s5 with
                    m_interface := ⟨s5.m_interface.calls ++
                      [CHC.edge s5.m_currentBlock s5.m_context.assertions (.boolLit true)
                         (header.app vars5)],
                      s5.m_interface.answer⟩
                    m_breakDest := s.m_breakDest
                    m_continueDest := s.m_continueDest } = .ok () s6 ∧
                (Statement.WhileStatement i cond body false).accept s =
                  .ok () (CHC.leaveStatement s.m_unknownFunctionCallSeen s6) ∧
                s6.m_currentBlock = after.app arguments ∧
                s6.m_unknownFunctionCallSeen = s5.m_unknownFunctionCallSeen ∧
                (s5.m_unknownFunctionCallSeen = true →
                  CHC.leaveStatement s.m_unknownFunctionCallSeen s6 =
                    { (CHC.eraseKnowledge s6).state with
                      m_unknownFunctionCallSeen := s.m_unknownFunctionCallSeen }) ∧
                (s5.m_unknownFunctionCallSeen = false →
                  CHC.leaveStatement s.m_unknownFunctionCallSeen s6 =
                    { s6 with m_unknownFunctionCallSeen := s.m_unknownFunctionCallSeen })) ∧
    (∀ (i : Nat) (cond : Expression) (body : Statement)
        (s : CHC) (f : FunctionDefinition) (fb : Statement) (c : ContractDefinition),
      s.m_currentFunction = some f → f.body = some fb → s.m_currentContract = some c →
      ∃ (header bodyBlock after : smt.SymbolicFunctionVariable) (s1 : CHC),
        s1 =
          { s with
            m_interface := ⟨s.m_interface.calls ++
              [.registerRelation header.uniqueName header.index header.sort,
               .registerRelation bodyBlock.uniqueName bodyBlock.index bodyBlock.sort,
               .registerRelation after.uniqueName after.index after.sort],
              s.m_interface.answer⟩
            m_breakDest := some after
            m_continueDest := some header
            m_unknownFunctionCallSeen := false
            m_blockCounter := s.m_blockCounter + 3 } ∧
        s1.m_unknownFunctionCallSeen = false ∧
        ∀ s2, body.accept s1 = .ok () s2 →
          ∃ (s3 : CHC) (vars2 : List smt.Expression),
            CHC.currentBlockVariables s2 = .ok vars2 s2 ∧
            s3.m_interface.calls = s2.m_interface.calls ++
              [CHC.edge s2.m_currentBlock s2.m_context.assertions (.boolLit true)
                 (header.app vars2)] ∧
            CHC.setCurrentBlock header none
              { s2 with
                m_interface := ⟨s2.m_interface.calls ++
                  [CHC.edge s2.m_currentBlock s2.m_context.assertions (.boolLit true)
                     (header.app vars2)],
                  s2.m_interface.answer⟩ } = .ok () s3 ∧
            s3.m_unknownFunctionCallSeen = s2.m_unknownFunctionCallSeen ∧
            ∀ s4, cond.accept s3 = .ok () s4 →
              ∃ (s5 : CHC) (vars4 : List smt.Expression),
                CHC.currentBlockVariables s4 = .ok vars4 s4 ∧
                s5.m_interface.calls = s4.m_interface.calls ++
                  [CHC.edge s4.m_currentBlock s4.m_context.assertions
                     (s4.m_context.expression cond.id).currentValue (bodyBlock.app vars4),
                   CHC.edge s4.m_currentBlock s4.m_context.assertions
                     (s4.m_context.expression cond.id).currentValue.not (after.app vars4)] ∧
                CHC.setCurrentBlock bodyBlock none
                  { s4 with
                    m_interface := ⟨s4.m_interface.calls ++
                      [CHC.edge s4.m_currentBlock s4.m_context.assertions
                         (s4.m_context.expression cond.id).currentValue (bodyBlock.app vars4),
                       CHC.edge s4.m_currentBlock s4.m_context.assertions
                         (s4.m_context.expression cond.id).currentValue.not (after.app vars4)],
                      s4.m_interface.answer⟩ } = .ok () s5 ∧
                s5.m_unknownFunctionCallSeen = s4.m_unknownFunctionCallSeen ∧
                ∀ s6, body.accept s5 = .ok () s6 →
                  ∃ (s7 : CHC) (vars6 arguments : List smt.Expression),
                    CHC.currentBlockVariables s6 = .ok vars6 s6 ∧
                    s7.m_interface.calls = s6.m_interface.calls ++
                      [CHC.edge s6.m_currentBlock s6.m_context.assertions (.boolLit true)
                         (header.app vars6)] ∧
                    CHC.setCurrentBlock after none
                      { s6 with
                        m_interface := ⟨s6.m_interface.calls ++
                          [CHC.edge s6.m_currentBlock s6.m_context.assertions (.boolLit true)
                             (header.app vars6)],
                          s6.m_interface.answer⟩
                        m_breakDest := s.m_breakDest
                        m_continueDest := s.m_continueDest } = .ok () s7 ∧
                    (Statement.WhileStatement i cond body true).accept s =
                      .ok () (CHC.leaveStatement s.m_unknownFunctionCallSeen s7) ∧
                    s7.m_currentBlock = after.app arguments ∧
                    s7.m_unknownFunctionCallSeen = s6.m_unknownFunctionCallSeen ∧
                    (s6.m_unknownFunctionCallSeen = true →
                      CHC.leaveStatement s.m_unknownFunctionCallSeen s7 =
                        { (CHC.eraseKnowledge s7).state with
                          m_unknownFunctionCallSeen := s.m_unknownFunctionCallSeen }) ∧
                    (s6.m_unknownFunctionCallSeen = false →
                      CHC.leaveStatement s.m_unknownFunctionCallSeen s7 =
                        { s7 with m_unknownFunctionCallSeen := s.m_unknownFunctionCallSeen })) ∧
    (∀ (i : Nat) (init : Option Statement) (cond : Option Expression)
        (body : Statement)
        (s : CHC) (f : FunctionDefinition) (fb : Statement) (c : ContractDefinition),
      s.m_currentFunction = some f → f.body = some fb → s.m_currentContract = some c →
      ∃ (header bodyBlock after : smt.SymbolicFunctionVariable) (s1 : CHC),
        s1 =
          { s with
            m_interface := ⟨s.m_interface.calls ++
              [.registerRelation header.uniqueName header.index header.sort,
               .registerRelation bodyBlock.uniqueName bodyBlock.index bodyBlock.sort,
               .registerRelation after.uniqueName after.index after.sort],
              s.m_interface.answer⟩
            m_breakDest := some after
            m_continueDest := some header
            m_unknownFunctionCallSeen := false
            m_blockCounter := s.m_blockCounter + 3 } ∧
        s1.m_unknownFunctionCallSeen = false ∧
        ∀ s2,
          (init = none ∧ s2 = s1) ∨ (∃ st, init = some st ∧ st.accept s1 = .ok () s2) →
          ∃ (s3 : CHC) (vars2 : List smt.Expression),
            CHC.currentBlockVariables s2 = .ok vars2 s2 ∧
            s3.m_interface.calls = s2.m_interface.calls ++
              [CHC.edge s2.m_currentBlock s2.m_context.assertions (.boolLit true)
                 (header.app vars2)] ∧
            CHC.setCurrentBlock header none
              { s2 with
                m_interface := ⟨s2.m_interface.calls ++
                  [CHC.edge s2.m_currentBlock s2.m_context.assertions (.boolLit true)
                     (header.app vars2)],
                  s2.m_interface.answer⟩ } = .ok () s3 ∧
            s3.m_unknownFunctionCallSeen = s2.m_unknownFunctionCallSeen ∧
            ∀ condition s4,
              (cond = none ∧ condition = .boolLit true ∧ s4 = s3) ∨
                (∃ e, cond = some e ∧ e.accept s3 = .ok () s4 ∧
                  condition = (s4.m_context.expression e.id).currentValue) →
              ∃ (s5 : CHC) (vars4 : List smt.Expression),
                CHC.currentBlockVariables s4 = .ok vars4 s4 ∧
                s5.m_interface.calls = s4.m_interface.calls ++
                  [CHC.edge s4.m_currentBlock s4.m_context.assertions condition
                     (bodyBlock.app vars4),
                   CHC.edge s4.m_currentBlock s4.m_context.assertions condition.not
                     (after.app vars4)] ∧
                CHC.setCurrentBlock bodyBlock none
                  { s4 with
                    m_interface := ⟨s4.m_interface.calls ++
                      [CHC.edge s4.m_currentBlock s4.m_context.assertions condition
                         (bodyBlock.app vars4),
                       CHC.edge s4.m_currentBlock s4.m_context.assertions condition.not
                         (after.app vars4)],
                      s4.m_interface.answer⟩ } = .ok () s5 ∧
                s5.m_unknownFunctionCallSeen = s4.m_unknownFunctionCallSeen ∧
                ∀ s6, body.accept s5 = .ok () s6 →
                  ∃ (s9 : CHC) (vars8 arguments : List smt.Expression),
                    CHC.currentBlockVariables s6 = .ok vars8 s6 ∧
                    s9.m_interface.calls = s6.m_interface.calls ++
                      [CHC.edge s6.m_currentBlock s6.m_context.assertions (.boolLit true)
                         (header.app vars8)] ∧
                    CHC.setCurrentBlock after none
                      { s6 with
                        m_interface := ⟨s6.m_interface.calls ++
                          [CHC.edge s6.m_currentBlock s6.m_context.assertions (.boolLit true)
                             (header.app vars8)],
                          s6.m_interface.answer⟩
                        m_breakDest := s.m_breakDest
                        m_continueDest := s.m_continueDest } = .ok () s9 ∧
                    (Statement.ForStatement i init cond none body).accept s =
                      .ok () (CHC.leaveStatement s.m_unknownFunctionCallSeen s9) ∧
                    s9.m_currentBlock = after.app arguments ∧
                    s9.m_unknownFunctionCallSeen = s6.m_unknownFunctionCallSeen ∧
                    (s6.m_unknownFunctionCallSeen = true →
                      CHC.leaveStatement s.m_unknownFunctionCallSeen s9 =
                        { (CHC.eraseKnowledge s9).state with
                          m_unknownFunctionCallSeen := s.m_unknownFunctionCallSeen }) ∧
                    (s6.m_unknownFunctionCallSeen = false →
                      CHC.leaveStatement s.m_unknownFunctionCallSeen s9 =
                        { s9 with m_unknownFunctionCallSeen := s.m_unknownFunctionCallSeen })) ∧
    (∀ (i : Nat) (init : Option Statement) (cond : Option Expression)
        (postLoop body : Statement)
        (s : CHC) (f : FunctionDefinition) (fb : Statement) (c : ContractDefinition),
      s.m_currentFunction = some f → f.body = some fb → s.m_currentContract = some c →
      ∃ (header bodyBlock after postBlock : smt.SymbolicFunctionVariable) (s1 : CHC),
        s1 =
          { s with
            m_interface := ⟨s.m_interface.calls ++
              [.registerRelation header.uniqueName header.index header.sort,
               .registerRelation bodyBlock.uniqueName bodyBlock.index bodyBlock.sort,
               .registerRelation after.uniqueName after.index after.sort,
               .registerRelation postBlock.uniqueName postBlock.index postBlock.sort],
              s.m_interface.answer⟩
            m_breakDest := some after
            m_continueDest := some postBlock
            m_unknownFunctionCallSeen := false
            m_blockCounter := s.m_blockCounter + 4 } ∧
        s1.m_unknownFunctionCallSeen = false ∧
        ∀ s2,
          (init = none ∧ s2 = s1) ∨ (∃ st, init = some st ∧ st.accept s1 = .ok () s2) →
          ∃ (s3 : CHC) (vars2 : List smt.Expression),
            CHC.currentBlockVariables s2 = .ok vars2 s2 ∧
            s3.m_interface.calls = s2.m_interface.calls ++
              [CHC.edge s2.m_currentBlock s2.m_context.assertions (.boolLit true)
                 (header.app vars2)] ∧
            CHC.setCurrentBlock header none
              { s2 with
                m_interface := ⟨s2.m_interface.calls ++
                  [CHC.edge s2.m_currentBlock s2.m_context.assertions (.boolLit true)
                     (header.app vars2)],
                  s2.m_interface.answer⟩ } = .ok () s3 ∧
            s3.m_unknownFunctionCallSeen = s2.m_unknownFunctionCallSeen ∧
            ∀ condition s4,
              (cond = none ∧ condition = .boolLit true ∧ s4 = s3) ∨
                (∃ e, cond = some e ∧ e.accept s3 = .ok () s4 ∧
                  condition = (s4.m_context.expression e.id).currentValue) →
              ∃ (s5 : CHC) (vars4 : List smt.Expression),
                CHC.currentBlockVariables s4 = .ok vars4 s4 ∧
                s5.m_interface.calls = s4.m_interface.calls ++
                  [CHC.edge s4.m_currentBlock s4.m_context.assertions condition
                     (bodyBlock.app vars4),
                   CHC.edge s4.m_currentBlock s4.m_context.assertions condition.not
                     (after.app vars4)] ∧
                CHC.setCurrentBlock bodyBlock none
                  { s4 with
                    m_interface := ⟨s4.m_interface.calls ++
                      [CHC.edge s4.m_currentBlock s4.m_context.assertions condition
                         (bodyBlock.app vars4),
                       CHC.edge s4.m_currentBlock s4.m_context.assertions condition.not
                         (after.app vars4)],
                      s4.m_interface.answer⟩ } = .ok () s5 ∧
                s5.m_unknownFunctionCallSeen = s4.m_unknownFunctionCallSeen ∧
                ∀ s6, body.accept s5 = .ok () s6 →
                  ∃ (s7 : CHC) (vars6 : List smt.Expression),
                    CHC.currentBlockVariables s6 = .ok vars6 s6 ∧
                    s7.m_interface.calls = s6.m_interface.calls ++
                      [CHC.edge s6.m_currentBlock s6.m_context.assertions (.boolLit true)
                         (postBlock.app vars6)] ∧
                    CHC.setCurrentBlock postBlock none
                      { s6 with
                        m_interface := ⟨s6.m_interface.calls ++
                          [CHC.edge s6.m_currentBlock s6.m_context.assertions (.boolLit true)
                             (postBlock.app vars6)],
                          s6.m_interface.answer⟩ } = .ok () s7 ∧
                    s7.m_unknownFunctionCallSeen = s6.m_unknownFunctionCallSeen ∧
                    ∀ s8, postLoop.accept s7 = .ok () s8 →
                      ∃ (s9 : CHC) (vars8 arguments : List smt.Expression),
                        CHC.currentBlockVariables s8 = .ok vars8 s8 ∧
                        s9.m_interface.calls = s8.m_interface.calls ++
                          [CHC.edge s8.m_currentBlock s8.m_context.assertions (.boolLit true)
                             (header.app vars8)] ∧
                        CHC.setCurrentBlock after none
                          { s8 with
                            m_interface := ⟨s8.m_interface.calls ++
                              [CHC.edge s8.m_currentBlock s8.m_context.assertions (.boolLit true)
                                 (header.app vars8)],
                              s8.m_interface.answer⟩
                            m_breakDest := s.m_breakDest
                            m_continueDest := s.m_continueDest } = .ok () s9 ∧
                        (Statement.ForStatement i init cond (some postLoop) body).accept s =
                          .ok () (CHC.leaveStatement s.m_unknownFunctionCallSeen s9) ∧
                        s9.m_currentBlock = after.app arguments ∧
                        s9.m_unknownFunctionCallSeen = s8.m_unknownFunctionCallSeen ∧
                        (s8.m_unknownFunctionCallSeen = true →
                          CHC.leaveStatement s.m_unknownFunctionCallSeen s9 =
                            { (CHC.eraseKnowledge s9).state with
                              m_unknownFunctionCallSeen := s.m_unknownFunctionCallSeen }) ∧
                        (s8.m_unknownFunctionCallSeen = false →
                          CHC.leaveStatement s.m_unknownFunctionCallSeen s9 =
                            { s9 with m_unknownFunctionCallSeen := s.m_unknownFunctionCallSeen })) := by
  refine ⟨?_, ?_, ?_, ?_, ?_, ?_⟩
  · intro i cond trueStatement s f fb c hcur hfb hcon
    obtain ⟨header, trueBlock, after, s2, vars, vars2, v0, calls0, -, -, fl0, tie0, hnext0⟩ :=
      CHC.visitIfStatement_steps i cond trueStatement s f fb c hcur hfb hcon
    refine ⟨header, trueBlock, after, s2, vars, v0, calls0, tie0, fl0, ?_⟩
    intro s3 hw1
    obtain ⟨s4, vars3, w1, v1, calls1, -, -, fl1, tie1, hnext1⟩ :=
      hnext0 s3 hw1
    refine ⟨s4, vars3, v1, calls1, tie1, fl1, ?_⟩
    intro s5 hw2
    obtain ⟨s6, vars5, w2, run, v2, calls2, cur2, fl2, tie2⟩ :=
      hnext1 s5 hw2
    exact ⟨s6,
      vars5,
      w2,
      v2,
      calls2,
      tie2,
      run,
      cur2,
      fl2,
      fun h => CHC.leaveStatement_seen _ _ (fl2.trans h),
      fun h => CHC.leaveStatement_unseen _ _ (fl2.trans h)⟩
  · intro i cond trueStatement falseStatement s f fb c hcur hfb hcon
    obtain ⟨header, trueBlock, falseBlock, after, s2, vars, vars2, v0, calls0, -, -, fl0, tie0, hnext0⟩ :=
      CHC.visitIfStatement_steps_else i cond trueStatement falseStatement s f fb c hcur hfb hcon
    refine ⟨header, trueBlock, falseBlock, after, s2, vars, v0, calls0, tie0, fl0, ?_⟩
    intro s3 hw1
    obtain ⟨s4, vars3, w1, v1, calls1, -, -, fl1, tie1, hnext1⟩ :=
      hnext0 s3 hw1
    refine ⟨s4, vars3, v1, calls1, tie1, fl1, ?_⟩
    intro s5 hw2
    obtain ⟨s6, vars5, w2, v2, calls2, -, -, fl2, tie2, hnext2⟩ :=
      hnext1 s5 hw2
    refine ⟨s6, vars5, v2, calls2, tie2, fl2, ?_⟩
    intro s7 hw3
    obtain ⟨s8, vars7, w3, run, v3, calls3, cur3, fl3, tie3⟩ :=
      hnext2 s7 hw3
    exact ⟨s8,
      vars7,
      w3,
      v3,
      calls3,
      tie3,
      run,
      cur3,
      fl3,
      fun h => CHC.leaveStatement_seen _ _ (fl3.trans h),
      fun h => CHC.leaveStatement_unseen _ _ (fl3.trans h)⟩
  · intro i cond body s f fb c hcur hfb hcon
    obtain ⟨header, bodyBlock, after, s2, vars, vars2, v0, calls0, -, -, -, -, fl0, tie0, hnext0⟩ :=
      CHC.visitWhileStatement_steps i cond body s f fb c hcur hfb hcon
    refine ⟨header, bodyBlock, after, s2, vars, v0, calls0, tie0, fl0, ?_⟩
    intro s3 hw1
    obtain ⟨s4, vars3, w1, v1, calls1, -, -, -, -, fl1, tie1, hnext1⟩ :=
      hnext0 s3 hw1
    refine ⟨s4, vars3, v1, calls1, tie1, fl1, ?_⟩
    intro s5 hw2
    obtain ⟨s6, vars5, w2, run, v2, calls2, cur2, -, -, fl2, tie2⟩ :=
      hnext1 s5 hw2
    exact ⟨s6,
      vars5,
      w2,
      v2,
      calls2,
      tie2,
      run,
      cur2,
      fl2,
      fun h => CHC.leaveStatement_seen _ _ (fl2.trans h),
      fun h => CHC.leaveStatement_unseen _ _ (fl2.trans h)⟩
  · intro i cond body s f fb c hcur hfb hcon
    obtain ⟨header, bodyBlock, after, s1, -, -, -, -, fl0, tie0, hnext0⟩ :=
      CHC.visitDoWhileStatement_steps i cond body s f fb c hcur hfb hcon
    refine ⟨header, bodyBlock, after, s1, tie0, fl0, ?_⟩
    intro s2 hw1
    obtain ⟨s3, vars2, w1, v1, calls1, -, -, -, -, fl1, tie1, hnext1⟩ :=
      hnext0 s2 hw1
    refine ⟨s3, vars2, v1, calls1, tie1, fl1, ?_⟩
    intro s4 hw2
    obtain ⟨s5, vars4, w2, v2, calls2, -, -, -, -, fl2, tie2, hnext2⟩ :=
      hnext1 s4 hw2
    refine ⟨s5, vars4, v2, calls2, tie2, fl2, ?_⟩
    intro s6 hw3
    obtain ⟨s7, vars6, w3, run, v3, calls3, cur3, -, -, fl3, tie3⟩ :=
      hnext2 s6 hw3
    exact ⟨s7,
      vars6,
      w3,
      v3,
      calls3,
      tie3,
      run,
      cur3,
      fl3,
      fun h => CHC.leaveStatement_seen _ _ (fl3.trans h),
      fun h => CHC.leaveStatement_unseen _ _ (fl3.trans h)⟩
  · intro i init cond body s f fb c hcur hfb hcon
    obtain ⟨header, bodyBlock, after, s1, -, -, -, -, fl0, tie0, hnext0⟩ :=
      CHC.visitForStatement_steps i init cond body s f fb c hcur hfb hcon
    refine ⟨header, bodyBlock, after, s1, tie0, fl0, ?_⟩
    intro s2 hw1
    obtain ⟨s3, vars2, w1, v1, calls1, -, -, -, -, fl1, tie1, hnext1⟩ :=
      hnext0 s2 hw1
    refine ⟨s3, vars2, v1, calls1, tie1, fl1, ?_⟩
    intro condition s4 hw2
    obtain ⟨s5, vars4, w2, v2, calls2, -, -, -, -, fl2, tie2, hnext2⟩ :=
      hnext1 condition s4 hw2
    refine ⟨s5, vars4, v2, calls2, tie2, fl2, ?_⟩
    intro s6 hw3
    obtain ⟨s9, vars8, w3, run, v3, calls3, cur3, -, -, fl3, tie3⟩ :=
      hnext2 s6 hw3
    exact ⟨s9,
      vars8,
      w3,
      v3,
      calls3,
      tie3,
      run,
      cur3,
      fl3,
      fun h => CHC.leaveStatement_seen _ _ (fl3.trans h),
      fun h => CHC.leaveStatement_unseen _ _ (fl3.trans h)⟩
  · intro i init cond postLoop body s f fb c hcur hfb hcon
    obtain ⟨header, bodyBlock, after, postBlock, s1, -, -, -, -, fl0, tie0, hnext0⟩ :=
      CHC.visitForStatement_steps_post i init cond postLoop body s f fb c hcur hfb hcon
    refine ⟨header, bodyBlock, after, postBlock, s1, tie0, fl0, ?_⟩
    intro s2 hw1
    obtain ⟨s3, vars2, w1, v1, calls1, -, -, -, -, fl1, tie1, hnext1⟩ :=
      hnext0 s2 hw1
    refine ⟨s3, vars2, v1, calls1, tie1, fl1, ?_⟩
    intro condition s4 hw2
    obtain ⟨s5, vars4, w2, v2, calls2, -, -, -, -, fl2, tie2, hnext2⟩ :=
      hnext1 condition s4 hw2
    refine ⟨s5, vars4, v2, calls2, tie2, fl2, ?_⟩
    intro s6 hw3
    obtain ⟨s7, vars6, w3, v3, calls3, -, -, -, -, fl3, tie3, hnext3⟩ :=
      hnext2 s6 hw3
    refine ⟨s7, vars6, v3, calls3, tie3, fl3, ?_⟩
    intro s8 hw4
    obtain ⟨s9, vars8, w4, run, v4, calls4, cur4, -, -, fl4, tie4⟩ :=
      hnext3 s8 hw4
    exact ⟨s9,
      vars8,
      w4,
      v4,
      calls4,
      tie4,
      run,
      cur4,
      fl4,
      fun h => CHC.leaveStatement_seen _ _ (fl4.trans h),
      fun h => CHC.leaveStatement_unseen _ _ (fl4.trans h)⟩

theorem composite_statement_erases_if_flag_is_set_at_its_end_witness :
    ((atStatement ifExternal).m_currentFunction = some (callerOf ifExternal) ∧
      (callerOf ifExternal).body = some (.Block 19 [ifExternal]) ∧
      (atStatement ifExternal).m_currentContract =
        some (callingContractOf (callerOf ifExternal))) ∧
    (∃ (after : smt.SymbolicFunctionVariable) (s2 : CHC),
      s2.m_unknownFunctionCallSeen = false ∧
      ∀ s3, positive.accept s2 = .ok () s3 →
        ∃ s4 : CHC, s4.m_unknownFunctionCallSeen = s3.m_unknownFunctionCallSeen ∧
          ∀ s5, (Statement.Block 62 [.ExpressionStatement 61 externalCall]).accept s4 =
              .ok () s5 →
            ∃ (s6 : CHC) (arguments : List smt.Expression),
              s6.m_currentBlock = after.app arguments ∧
              s6.m_unknownFunctionCallSeen = s5.m_unknownFunctionCallSeen ∧
              ifExternal.accept (atStatement ifExternal) =
                .ok () (CHC.leaveStatement (atStatement ifExternal).m_unknownFunctionCallSeen
                  s6)) ∧
    (ifExternal.accept (atStatement ifExternal)).isOk = true ∧
    ((ifExternal.accept (atStatement ifExternal)).state.m_context.variableOf y).index = 2 := by
  obtain ⟨header, trueBlock, after, s2, vars, -, -, -, hflag, hnext⟩ :=
    composite_statement_erases_if_flag_is_set_at_its_end.1 63 positive
      (.Block 62 [.ExpressionStatement 61 externalCall]) (atStatement ifExternal)
      (callerOf ifExternal) (.Block 19 [ifExternal]) (callingContractOf (callerOf ifExternal))
      rfl rfl rfl
  refine ⟨⟨rfl, rfl, rfl⟩, ⟨after, s2, hflag, fun s3 h3 => ?_⟩, by decide!, by decide!⟩
  obtain ⟨s4, vars3, -, -, -, hflag4, hnext4⟩ := hnext s3 h3
  refine ⟨s4, hflag4, fun s5 h5 => ?_⟩
  obtain ⟨s6, vars5, arguments, -, -, -, hrun, hcur, hflag6, -⟩ := hnext4 s5 h5
  exact ⟨s6, arguments, hcur, hflag6, hrun⟩

/-- C24, counterexample: in the walk over
`while (x > 1) { if (x > 0) { this.h(); } }` the walk over the branch of the if
statement, in the body of the loop, returns with `unknown_function_call_seen`
true, so the flag became true while the body of the loop was visited; the walk
over the body of the loop returns with the flag false; and the walk over the
loop returns with the state variable `y` at index 1, the index it gets when the
after-block of the loop is entered: `erase_knowledge`, which takes it to the
next index, is not invoked after that. -/
theorem call_in_nested_statement_is_not_erased_after_loop :
    ((Statement.Block 62 [.ExpressionStatement 61 externalCall]).accept
      atBranchInLoop).isOk = true ∧
    ((Statement.Block 62 [.ExpressionStatement 61 externalCall]).accept
      atBranchInLoop).state.m_unknownFunctionCallSeen = true ∧
    ((Statement.Block 67 [ifExternal]).accept atNestingBody).isOk = true ∧
    ((Statement.Block 67 [ifExternal]).accept
      atNestingBody).state.m_unknownFunctionCallSeen = false ∧
    (whileNested.accept (atStatement whileNested)).isOk = true ∧
    ((whileNested.accept (atStatement whileNested)).state.m_context.variableOf y).index = 1 ∧
    ((CHC.eraseKnowledge (whileNested.accept
      (atStatement whileNested)).state).state.m_context.variableOf y).index = 2 := by
  decide!

/-- C25, as the code has it: every walk over an if statement, over a while or
do-while loop and over a for loop that returns leaves
`unknown_function_call_seen` at the value it had when the walk started, whatever
was visited inside; so does every walk that returns over a list of such
statements, as the body or branch of an enclosing statement. -/
theorem composite_statement_restores_unknown_call_flag :
    (∀ (i : Nat) (condition : Expression) (trueStatement : Statement)
      (falseStatement : Option Statement) (s s1 : CHC),
      (Statement.IfStatement i condition trueStatement falseStatement).accept s = .ok () s1 →
      s1.m_unknownFunctionCallSeen = s.m_unknownFunctionCallSeen) ∧
    (∀ (i : Nat) (condition : Expression) (body : Statement) (isDoWhile : Bool) (s s1 : CHC),
      (Statement.WhileStatement i condition body isDoWhile).accept s = .ok () s1 →
      s1.m_unknownFunctionCallSeen = s.m_unknownFunctionCallSeen) ∧
    (∀ (i : Nat) (init : Option Statement) (condition : Option Expression)
      (postLoop : Option Statement) (body : Statement) (s s1 : CHC),
      (Statement.ForStatement i init condition postLoop body).accept s = .ok () s1 →
      s1.m_unknownFunctionCallSeen = s.m_unknownFunctionCallSeen) ∧
    (∀ (j : Nat) (statements : List Statement) (s s1 : CHC),
      (∀ st ∈ statements,
        (∃ i condition trueStatement falseStatement,
          st = .IfStatement i condition trueStatement falseStatement) ∨
        (∃ i condition body isDoWhile, st = .WhileStatement i condition body isDoWhile) ∨
        (∃ i init condition postLoop body,
          st = .ForStatement i init condition postLoop body)) →
      (Statement.Block j statements).accept s = .ok () s1 →
      s1.m_unknownFunctionCallSeen = s.m_unknownFunctionCallSeen) := by
  refine ⟨?_, ?_, ?_, ?_⟩
  · intro i condition trueStatement falseStatement s s1 h
    exact (Statement.acceptIf_flagback i condition trueStatement falseStatement
      s.m_unknownFunctionCallSeen).run s () s1 rfl h
  · intro i condition body isDoWhile s s1 h
    exact (Statement.acceptWhile_flagback i condition body isDoWhile
      s.m_unknownFunctionCallSeen).run s () s1 rfl h
  · intro i init condition postLoop body s s1 h
    exact (Statement.acceptFor_flagback i init condition postLoop body
      s.m_unknownFunctionCallSeen).run s () s1 rfl h
  · intro j statements s s1 hall h
    rw [Statement.accept] at h
    exact (Statement.acceptAll_flagback statements hall s.m_unknownFunctionCallSeen).run
      s () s1 rfl h

theorem composite_statement_restores_unknown_call_flag_witness :
    (Statement.Block 67 [ifExternal]).accept atTrueBranch =
      .ok () ((Statement.Block 67 [ifExternal]).accept atTrueBranch).state ∧
    ((Statement.Block 67 [ifExternal]).accept atTrueBranch).state.m_unknownFunctionCallSeen =
      atTrueBranch.m_unknownFunctionCallSeen :=
  ⟨Result.eq_ok_of_isOk _ (by decide!),
    composite_statement_restores_unknown_call_flag.2.2.2 67 [ifExternal] atTrueBranch _
      (by
        intro st h
        rw [List.mem_singleton] at h
        exact Or.inl ⟨63, positive, .Block 62 [.ExpressionStatement 61 externalCall], none, h⟩)
      (Result.eq_ok_of_isOk _ (by decide!))⟩

/-- C25, counterexample: in the walk over
`if (x > 1) { if (x > 0) { this.h(); } }` the unknown call `this.h()` is visited
inside the inner if statement, and the walk over the branch of that statement
returns with `unknown_function_call_seen` true; the walk over the branch of the
enclosing if statement returns with the flag false; and the walk over the
enclosing statement returns with the state variable `y` at index 1, the index
it gets when the after-block is entered, so the enclosing statement does not
invoke `erase_knowledge`. -/
theorem nested_unknown_call_leaves_flag_false_in_enclosing_if :
    ((Statement.Block 62 [.ExpressionStatement 61 externalCall]).accept
      atInnerBranch).isOk = true ∧
    ((Statement.Block 62 [.ExpressionStatement 61 externalCall]).accept
      atInnerBranch).state.m_unknownFunctionCallSeen = true ∧
    ((Statement.Block 67 [ifExternal]).accept atTrueBranch).isOk = true ∧
    ((Statement.Block 67 [ifExternal]).accept atTrueBranch).state.m_unknownFunctionCallSeen =
      false ∧
    (nestedIf.accept (atStatement nestedIf)).isOk = true ∧
    ((nestedIf.accept (atStatement nestedIf)).state.m_context.variableOf y).index = 1 := by
  decide!

/-- C21: in a current function of a current contract, the visit of a `break`
(of a `continue`) of node `i` with a break (continue) destination returns: it
has emitted one rule, from the current block to the destination applied to the
current block variables, then created and registered its ghost block, whose
name `block_<counter>_break_ghost_..._<i>` (`block_<counter>_continue_ghost_..._<i>`)
has the shape of a ghost block, is made of the current value of the block
counter and ends with the id `i`, and made it the current block.  The ghost
blocks of a source unit are the predicates with a name of that shape that ends
with the id of one of its `break` and `continue` statements.  Whatever the
source unit and whatever the answers of the back end, among the calls that the
analysis leaves with the solver adapter, whether it returns or aborts, no rule
has as its head a ghost block of a `break` or `continue` statement whose id is
not also the id of a call or of a function body; so no chain of rules leads
from `genesis` to such a ghost block.  These are all the `break` and `continue`
statements of the source unit when none shares its id with a call or a function
body, as is the case in an AST, whose nodes have unique ids. -/
theorem break_enters_ghost_block_that_no_rule_implies :
    (∀ (i : Nat) (s : CHC) (f : FunctionDefinition) (c : ContractDefinition)
      (dest : smt.SymbolicFunctionVariable),
      s.m_currentFunction = some f → s.m_currentContract = some c →
      s.m_breakDest = some dest →
      ∃ (ghost : smt.SymbolicFunctionVariable) (vars : List smt.Expression),
        CHC.currentBlockVariables s = .ok vars s ∧
        smt.isGhostName ghost.uniqueName = true ∧
        smt.nodeOf ghost.uniqueName = i ∧
        (Statement.Break i).accept s = .ok ()
          { s with
            m_interface := ⟨s.m_interface.calls ++
              [CHC.edge s.m_currentBlock s.m_context.assertions (.boolLit true) (dest.app vars),
               .registerRelation ghost.uniqueName ghost.index ghost.sort],
              s.m_interface.answer⟩
            m_currentBlock := ghost.app vars
            m_blockCounter := s.m_blockCounter + 1 }) ∧
    (∀ (i : Nat) (s : CHC) (f : FunctionDefinition) (c : ContractDefinition)
      (dest : smt.SymbolicFunctionVariable),
      s.m_currentFunction = some f → s.m_currentContract = some c →
      s.m_continueDest = some dest →
      ∃ (ghost : smt.SymbolicFunctionVariable) (vars : List smt.Expression),
        CHC.currentBlockVariables s = .ok vars s ∧
        smt.isGhostName ghost.uniqueName = true ∧
        smt.nodeOf ghost.uniqueName = i ∧
        (Statement.Continue i).accept s = .ok ()
          { s with
            m_interface := ⟨s.m_interface.calls ++
              [CHC.edge s.m_currentBlock s.m_context.assertions (.boolLit true) (dest.app vars),
               .registerRelation ghost.uniqueName ghost.index ghost.sort],
              s.m_interface.answer⟩
            m_currentBlock := ghost.app vars
            m_blockCounter := s.m_blockCounter + 1 }) ∧
    (∀ (source : SourceUnit) (answer : List smt.SolverCall → smt.Expression → smt.CheckResult),
      ∀ call ∈ (CHC.analyze source (CHC.new answer)).state.m_interface.calls,
        call.headIsGhostOf source.ownGhostIds = false) ∧
    (∀ (source : SourceUnit) (answer : List smt.SolverCall → smt.Expression → smt.CheckResult)
      (name : String), smt.isGhostOf source.ownGhostIds name = true →
      smt.chainsOfCalls (CHC.analyze source (CHC.new answer)).state.m_interface.calls
        "genesis" name = []) ∧
    (∀ source : SourceUnit, source.idsApart = true → source.ownGhostIds = source.ghostIds) := by
  refine ⟨?_, ?_, ?_, ?_, SourceUnit.ownGhostIds_apart⟩
  · intro i s f c dest hcur hcon hdest
    obtain ⟨ghost, vars, h1, h2, h3⟩ := CHC.endVisitBreak_run i s f c dest hcur hcon hdest
    exact ⟨ghost, vars, h1, by rw [h2]; exact (smt.isGhostName_ghost _ _).1,
      by rw [h2]; exact (smt.nodeOf_ghost _ _ _).1, h3⟩
  · intro i s f c dest hcur hcon hdest
    obtain ⟨ghost, vars, h1, h2, h3⟩ := CHC.endVisitContinue_run i s f c dest hcur hcon hdest
    exact ⟨ghost, vars, h1, by rw [h2]; exact (smt.isGhostName_ghost _ _).2,
      by rw [h2]; exact (smt.nodeOf_ghost _ _ _).2, h3⟩
  · intro source answer
    exact (CHC.analyze_tidy source source.apart_own).tidy_heads _ (CHC.new_tidy answer)
  · intro source answer name hname
    have hheads := (CHC.analyze_tidy source source.apart_own).tidy_heads _ (CHC.new_tidy answer)
    unfold smt.chainsOfCalls
    refine smt.chains_unreachable _ name ?_ _ _ _ ?_
    · intro e he heq
      obtain ⟨call, hcall, hstep⟩ := List.mem_filterMap.mp he
      have := smt.SolverCall.step_head call e.1 e.2.1 e.2.2 hstep (hheads call hcall)
      rw [heq, hname] at this
      cases this
    · intro heq
      rw [← heq] at hname
      revert hname
      unfold smt.isGhostOf
      rw [show smt.isGhostName "genesis" = false by decide]
      intro h
      cases h

theorem break_enters_ghost_block_that_no_rule_implies_witness :
    (atLoopBody.m_currentFunction = some (callerOf nestedLoops) ∧
      atLoopBody.m_currentContract = some (callingContractOf (callerOf nestedLoops)) ∧
      atLoopBody.m_breakDest.map (·.uniqueName) = some "block_6_f_19") ∧
    (∃ (ghost : smt.SymbolicFunctionVariable) (s1 : CHC),
      smt.isGhostName ghost.uniqueName = true ∧ smt.nodeOf ghost.uniqueName = 73 ∧
      (Statement.Break 73).accept atLoopBody = .ok () s1 ∧
      s1.m_interface.calls.length = atLoopBody.m_interface.calls.length + 2) ∧
    (SourceUnit.idsApart ⟨[callingContractOf (callerOf nestedLoops)], true⟩ = true ∧
      SourceUnit.ghostIds ⟨[callingContractOf (callerOf nestedLoops)], true⟩ = [70, 73] ∧
      ∀ call ∈ (CHC.analyze ⟨[callingContractOf (callerOf nestedLoops)], true⟩
          (CHC.new fun _ _ => .UNSATISFIABLE)).state.m_interface.calls,
        call.headIsGhostOf [70, 73] = false) ∧
    ((CHC.analyze ⟨[callingContractOf (callerOf nestedLoops)], true⟩
        (CHC.new fun _ _ => .UNSATISFIABLE)).state.m_interface.calls.filterMap fun call =>
      match call with
      | .registerRelation name _ _ => if smt.isGhostOf [70, 73] name then some name else none
      | _ => none) = ["block_12_break_ghost_f_70", "block_13_break_ghost_f_73"] := by
  have hcur : atLoopBody.m_currentFunction = some (callerOf nestedLoops) :=
    Example.atLoopBody_frame.currentFunction
  have hcon : atLoopBody.m_currentContract = some (callingContractOf (callerOf nestedLoops)) :=
    Example.atLoopBody_frame.currentContract
  have hsome : atLoopBody.m_breakDest.isSome = true := by decide!
  have hown : SourceUnit.ownGhostIds ⟨[callingContractOf (callerOf nestedLoops)], true⟩ =
      [70, 73] :=
    (break_enters_ghost_block_that_no_rule_implies.2.2.2.2 _ (by decide!)).trans (by decide!)
  obtain ⟨ghost, vars, -, hghost, hnode, hrun⟩ :=
    break_enters_ghost_block_that_no_rule_implies.1 73 atLoopBody (callerOf nestedLoops)
      (callingContractOf (callerOf nestedLoops)) (atLoopBody.m_breakDest.get hsome) hcur hcon
      (Option.some_get hsome).symm
  refine ⟨⟨hcur, hcon, by decide!⟩, ⟨ghost, _, hghost, hnode, hrun, ?_⟩,
    ⟨by decide!, by decide!, ?_⟩, by decide!⟩
  · show (atLoopBody.m_interface.calls ++ [_, _]).length = _
    rw [List.length_append]
    rfl
  · rw [← hown]
    exact break_enters_ghost_block_that_no_rule_implies.2.2.1 _ _

/-- C31: `query` returns true if and only if the answer of the solver adapter is
unsat; for sat, unknown, conflicting and error it returns false; and whatever
the answer is, it returns: it never aborts. -/
theorem query_returns_true_exactly_on_unsat (s : CHC) (goal : smt.Expression)
    (location : SourceLocation) :
    ∃ s1, CHC.query goal location s =
      .ok (match s.m_interface.answer s.m_interface.calls goal with
        | .UNSATISFIABLE => true
        | .SATISFIABLE => false
        | .UNKNOWN => false
        | .CONFLICTING => false
        | .ERROR => false) s1 := by
  unfold CHC.query
  cases h : s.m_interface.answer s.m_interface.calls goal <;>
    simp only [smt.CHCSolverInterface.query, h] <;> exact ⟨_, rfl⟩

/-- C32: any two predicates created by `createBlock` or `createSummaryBlock`
during the lifetime of one analyzer have distinct names.  `createBlock`, which
returns when the node is a function definition or a function is current, and
`createSummaryBlock`, which always returns, register a predicate whose name is
the kind tag, the decimal value of the block counter and an underscore, followed
by the prefix and the name of the node, and increment the counter; `reset` leaves
the counter as it is; names with different counter values differ whatever
follows; and after the analyses of any source units, one after the other by one
analyzer, no name is registered twice under a kind tag, each carrying a counter
value below the block counter.  The counter is a natural number: it does not
overflow. -/
theorem created_predicates_have_distinct_names
    (answer : List smt.SolverCall → smt.Expression → smt.CheckResult)
    (sources : List SourceUnit) :
    (∀ (s : CHC) (n : ASTNode) (pfx : String),
      (∃ f, n = .function f) ∨ s.m_currentFunction ≠ none →
      ∃ (block : smt.SymbolicFunctionVariable) (s1 : CHC) (nodeName : String),
        CHC.createBlock n pfx s = .ok block s1 ∧
        block.uniqueName = "block_" ++ toString s.m_blockCounter ++ "_" ++ pfx ++ nodeName ∧
        s1.m_blockCounter = s.m_blockCounter + 1 ∧
        s1.m_interface.calls = s.m_interface.calls ++
          [.registerRelation block.uniqueName block.index block.sort]) ∧
    (∀ (s : CHC) (f : FunctionDefinition),
      ∃ (block : smt.SymbolicFunctionVariable) (s1 : CHC) (nodeName : String),
        CHC.createSummaryBlock f s = .ok block s1 ∧
        block.uniqueName = "summary_" ++ toString s.m_blockCounter ++ "_" ++ nodeName ∧
        s1.m_blockCounter = s.m_blockCounter + 1 ∧
        s1.m_interface.calls = s.m_interface.calls ++
          [.registerRelation block.uniqueName block.index block.sort]) ∧
    (∀ s : CHC, (CHC.reset s).state.m_blockCounter = s.m_blockCounter) ∧
    (∀ (k m : Nat) (r1 r2 : String), k ≠ m →
      "block_" ++ toString k ++ "_" ++ r1 ≠ "block_" ++ toString m ++ "_" ++ r2 ∧
      "summary_" ++ toString k ++ "_" ++ r1 ≠ "summary_" ++ toString m ++ "_" ++ r2 ∧
      "block_" ++ toString k ++ "_" ++ r1 ≠ "summary_" ++ toString m ++ "_" ++ r2 ∧
      "summary_" ++ toString k ++ "_" ++ r1 ≠ "block_" ++ toString m ++ "_" ++ r2) ∧
    (smt.createdNames
      (sources.foldl (fun s source => (CHC.analyze source s).state)
        (CHC.new answer)).m_interface.calls).Nodup ∧
    (∀ name ∈ smt.createdNames
        (sources.foldl (fun s source => (CHC.analyze source s).state)
          (CHC.new answer)).m_interface.calls,
      ∃ k, k < (sources.foldl (fun s source => (CHC.analyze source s).state)
          (CHC.new answer)).m_blockCounter ∧
        ∃ rest : String, name = "block_" ++ toString k ++ "_" ++ rest ∨
          name = "summary_" ++ toString k ++ "_" ++ rest) := by
  have hfinal := CHC.analyzeAll_counted sources _ (CHC.new_counted answer)
  refine ⟨?_, ?_, fun _ => rfl, smt.names_differ, hfinal.distinct, hfinal.below⟩
  · intro s n pfx h
    rcases CHC.createBlock_counter n pfx s with
      ⟨block, s1, nodeName, hrun, hname, hcounter, hcalls, _⟩ | ⟨⟨i, hi⟩, hnone, _⟩
    · exact ⟨block, s1, nodeName, hrun, hname, hcounter, hcalls⟩
    · rcases h with ⟨f, hf⟩ | h
      · rw [hf] at hi
        cases hi
      · exact absurd hnone h
  · intro s f
    obtain ⟨block, s1, nodeName, hrun, hname, hcounter, hcalls, _⟩ :=
      CHC.createSummaryBlock_counter f s
    exact ⟨block, s1, nodeName, hrun, hname, hcounter, hcalls⟩

/-- C32, on an analyzer that analyzes twice a source unit of two contracts whose
functions have the same name and the same node ids: the names registered under
a kind tag, such as `summary_0_function_f_2` and `summary_3_function_f_2`,
differ by their counter value only. -/
theorem created_predicates_have_distinct_names_witness :
    (∃ (block : smt.SymbolicFunctionVariable) (s1 : CHC) (nodeName : String),
      CHC.createBlock (.function plainFunction) "" (CHC.new fun _ _ => .UNSATISFIABLE) =
        .ok block s1 ∧
      block.uniqueName = "block_" ++ toString 0 ++ "_" ++ "" ++ nodeName ∧
      s1.m_blockCounter = 0 + 1 ∧
      s1.m_interface.calls = [] ++
        [.registerRelation block.uniqueName block.index block.sort]) ∧
    "summary_" ++ toString 0 ++ "_" ++ "function_f_2" ≠
      "summary_" ++ toString 3 ++ "_" ++ "function_f_2" ∧
    smt.createdNames
      ([twoContracts, twoContracts].foldl (fun s source => (CHC.analyze source s).state)
        (CHC.new fun _ _ => .UNSATISFIABLE)).m_interface.calls =
      ["summary_0_function_f_2", "block_1_function_f_2", "block_2_f_3",
        "summary_3_function_f_2", "block_4_function_f_2", "block_5_f_9", "block_6_f_7",
        "summary_7_function_f_2", "block_8_function_f_2", "block_9_f_3",
        "summary_10_function_f_2", "block_11_function_f_2", "block_12_f_9", "block_13_f_7"] ∧
    (smt.createdNames
      ([twoContracts, twoContracts].foldl (fun s source => (CHC.analyze source s).state)
        (CHC.new fun _ _ => .UNSATISFIABLE)).m_interface.calls).Nodup :=
  have h := created_predicates_have_distinct_names (fun _ _ => .UNSATISFIABLE)
    [twoContracts, twoContracts]
  ⟨h.1 (CHC.new fun _ _ => .UNSATISFIABLE) (.function plainFunction) "" (Or.inl ⟨_, rfl⟩),
    (h.2.2.2.1 0 3 "function_f_2" "function_f_2" (by decide)).2.1, by decide!, h.2.2.2.2.1⟩

/-- C33: for every 64-bit unsigned `n`, `LEBEncoder::encode(n)`, a total
function, is the canonical unsigned LEB128 encoding of `n`: it has between 1 and
10 bytes, every byte except the last has its top bit set, the last byte has it
clear and is non-zero unless `n = 0`, and the sum of `(byte_i mod 128) * 128 ^ i`
gives back `n`; hence `encode` is injective.  The function `lebEncode` of the
binary transform, which repeats its text, returns the same bytes. -/
theorem leb_encode_is_canonical_unsigned_leb128 (n : Nat) (hn : n < 2 ^ 64) :
    1 ≤ (yul.wasm.LEBEncoder.encode n).length ∧
    (yul.wasm.LEBEncoder.encode n).length ≤ 10 ∧
    (∀ b ∈ (yul.wasm.LEBEncoder.encode n).dropLast, 128 ≤ b ∧ b < 256) ∧
    (∃ last, (yul.wasm.LEBEncoder.encode n).getLast? = some last ∧ last < 128 ∧
      (last = 0 → n = 0)) ∧
    yul.wasm.leb128Value (yul.wasm.LEBEncoder.encode n) = n ∧
    (∀ m, m < 2 ^ 64 → yul.wasm.LEBEncoder.encode m = yul.wasm.LEBEncoder.encode n → m = n) ∧
    yul.wasm.lebEncode n = yul.wasm.LEBEncoder.encode n := by
  have he : ∀ k, k < 2 ^ 64 →
      yul.wasm.LEBEncoder.encode k = yul.wasm.LEBEncoder.encodeLoop k [] := by
    intro k hk
    unfold yul.wasm.LEBEncoder.encode
    rw [Nat.mod_eq_of_lt hk]
  rw [he n hn]
  refine ⟨?_, ?_, yul.wasm.LEBEncoder.dropLast_encodeLoop n,
    yul.wasm.LEBEncoder.getLast_encodeLoop n, yul.wasm.LEBEncoder.value_encodeLoop n, ?_, ?_⟩
  · exact List.length_pos.mpr (yul.wasm.LEBEncoder.encodeLoop_ne_nil n)
  · exact yul.wasm.LEBEncoder.length_encodeLoop 9 n (lt_of_lt_of_le hn (by decide))
  · intro m hm h
    rw [he m hm] at h
    rw [← yul.wasm.LEBEncoder.value_encodeLoop m, h, yul.wasm.LEBEncoder.value_encodeLoop n]
  · rw [yul.wasm.lebEncode_eq, he n hn]

/-- C33, on the number 300: its encoding is the two bytes `0xac 0x02`. -/
theorem leb_encode_is_canonical_unsigned_leb128_witness :
    yul.wasm.LEBEncoder.encode 300 = [0xac, 0x02] ∧
    yul.wasm.leb128Value (yul.wasm.LEBEncoder.encode 300) = 300 ∧
    (yul.wasm.LEBEncoder.encode 300).length ≤ 10 ∧
    (yul.wasm.LEBEncoder.encode 44 = yul.wasm.LEBEncoder.encode 300 → 44 = 300) :=
  have h := leb_encode_is_canonical_unsigned_leb128 300 (by decide)
  ⟨by simp [yul.wasm.LEBEncoder.encode, yul.wasm.LEBEncoder.encodeLoop]; decide, h.2.2.2.2.1, h.2.1,
    h.2.2.2.2.2.1 44 (by decide)⟩

/-- C34, counterexample: in the function `main(x)` with the local `y` of a
module with the globals `g0` and `g1`, the read of the global `g1` is encoded as
`0x20 0x01`, the opcode `local.get` and not `global.get` (`0x23`), which is
byte for byte the read of the local `y`; the body `y := g1` becomes
`local.get 1, local.set 1`.  The assignment `g1 := 7` does use `global.set`
(`0x24`) with the index 1. -/
theorem global_read_is_encoded_as_local_get :
    yul.wasm.BinaryTransform.applyVisitor (.GlobalVariable "g1") wasmInMain =
      .ok ([0x20, 0x01], wasmInMain) ∧
    yul.wasm.BinaryTransform.applyVisitor (.LocalVariable "y") wasmInMain =
      .ok ([0x20, 0x01], wasmInMain) ∧
    yul.wasm.BinaryTransform.applyVisitor (.GlobalAssignment "g1" (.Literal 7)) wasmInMain =
      .ok ([0x42, 0x07, 0x24, 0x01], wasmInMain) ∧
    yul.wasm.BinaryTransform.applyFunctionDefinition wasmFunction wasmTransform =
      .ok ([0x08, 0x01, 0x01, 0x7e, 0x20, 0x01, 0x21, 0x01, 0x0b], wasmInMain) := by
  refine ⟨?_, ?_, ?_, ?_⟩ <;>
    simp [yul.wasm.BinaryTransform.applyVisitor, yul.wasm.BinaryTransform.applyFunctionDefinition,
      yul.wasm.BinaryTransform.visit, yul.wasm.BinaryTransform.prefixSize,
      yul.wasm.BinaryTransform.numberGlobalsAndFunctions, wasmInMain, wasmTransform,
      wasmFunction, wasmGlobals, yul.wasm.IndexMap.at, yul.wasm.IndexMap.set, List.lookup,
      yul.wasm.opcode, yul.wasm.lebEncode, yul.wasm.lebEncodeLoop, yul.wasm.Opcode.toByte,
      yul.wasm.ValueType.toByte, bind, Except.bind, pure, Except.pure, List.range,
      List.range.loop]
